import Mathlib

/-!
# Identity-provider write models (internal/command/idp_model.go)

A shallow embedding of the write models of `internal/command/idp_model.go`:
the ten provider write models, `IDPRemoveWriteModel` and `IDPTypeWriteModel`,
their `Reduce` folds and their `NewChanges` diff operations.

Conventions of the embedding:

* a Go `string` is a `String`, a Go `bool` a `Bool`, a `time.Duration` an `Int`;
* a Go slice `[]string` is an `Option (List String)`: `none` is the nil slice,
  `some []` the empty non-nil slice, so that `reflect.DeepEqual` on two slices
  is equality and `s != nil` is `s ≠ none`;
* a Go pointer `*T` is an `Option T` (`none` is the nil pointer);
* a Go `(T, error)` result is an `Except Error T`;
* the dynamic type of an event, on which every `Reduce` switches, is the pair
  of the package that declares the event type and the kind of its payload.
-/

namespace Zitadel

/-! ## Collaborators that are not part of the sources at hand -/

/-- Modelled from the spec: a Go `error` value. The errors package is not part of the
sources at hand; an error built by `errors.ThrowInternal` or by
`errors.ThrowInvalidArgument` is identified by its id and its message, an error built by
`fmt.Errorf` with the verb `%w` by its format and the error it wraps, any other error by a
description. -/
inductive Error where
  | Internal (id message : String)
  | InvalidArgument (id message : String)
  | other (description : String)
  | Errorf (format : String) (wrapped : Error)
deriving DecidableEq, Repr

/-- Modelled from the spec: `errors.ThrowInternal(parent, id, message)`, which
`idp_model.go` calls with a nil parent only. -/
def ThrowInternal (id message : String) : Error :=
  .Internal id message

/-- Modelled from the spec: `errors.ThrowInvalidArgument(parent, id, message)`, which
`human_otp.go` calls with a nil parent. -/
def ThrowInvalidArgument (id message : String) : Error :=
  .InvalidArgument id message

/-- A Go `[]string`: `none` is the nil slice. -/
abbrev StringSlice := Option (List String)

/-- Modelled from the spec: `crypto.CryptoValue` is declared outside the sources at
hand; the spec describes the at-rest value as ciphertext, algorithm id and key id. -/
structure CryptoValue where
  Algorithm : String
  KeyID : String
  Crypted : List Nat
deriving DecidableEq, Repr

/-- Modelled from the spec: the `crypto.Crypto` capability handed to `NewChanges`,
as the function it computes on a plaintext; it yields a `*CryptoValue` or an error. -/
abbrev Crypto := String → Except Error (Option CryptoValue)

/-- Modelled from the spec: `crypto.Crypt(value, c)` runs the capability `c` on the
plaintext and returns what it returns. -/
def Crypt (value : String) (c : Crypto) : Except Error (Option CryptoValue) :=
  c value

/-- Modelled from the spec: `domain.IDPState` with the lifecycle states the spec names. -/
inductive IDPState where
  | IDPStateUnspecified
  | IDPStateActive
  | IDPStateRemoved
  | IDPStateMigrated
deriving DecidableEq, Repr

/-- Modelled from the spec: `domain.IDPType`, the closed set of ten kinds and the
unspecified kind; `IDPTypeOther` stands for every other value of the underlying integer
type, which no constant names. -/
inductive IDPType where
  | IDPTypeUnspecified
  | IDPTypeOIDC
  | IDPTypeJWT
  | IDPTypeOAuth
  | IDPTypeLDAP
  | IDPTypeAzureAD
  | IDPTypeGitHub
  | IDPTypeGitHubEnterprise
  | IDPTypeGitLab
  | IDPTypeGitLabSelfHosted
  | IDPTypeGoogle
  | IDPTypeOther (n : Nat)
deriving DecidableEq, Repr

/-- Modelled from the spec: `domain.IDPConfigType`, the legacy discriminator of an
`IDPConfigAddedEvent`; `Reduce` of `IDPTypeWriteModel` tests it against OIDC and JWT. -/
inductive IDPConfigType where
  | IDPConfigTypeOIDC
  | IDPConfigTypeJWT
  | IDPConfigTypeOther (n : Nat)
deriving DecidableEq, Repr

/-- Modelled from the spec: `idp.Options`, the bundle of the four capability flags. -/
structure Options where
  IsCreationAllowed : Bool
  IsLinkingAllowed : Bool
  IsAutoCreation : Bool
  IsAutoUpdate : Bool
deriving DecidableEq, Repr

/-- Modelled from the spec: `idp.OptionChanges`, the delta of an `Options` bundle;
a flag that is not carried is a nil pointer. -/
structure OptionChanges where
  IsCreationAllowed : Option Bool
  IsLinkingAllowed : Option Bool
  IsAutoCreation : Option Bool
  IsAutoUpdate : Option Bool
deriving DecidableEq, Repr

/-- Modelled from the spec: `Options.Changes` diffs the bundle flag by flag and
carries each flag that differs. -/
def Options.Changes (o options : Options) : OptionChanges :=
  { IsCreationAllowed :=
      if o.IsCreationAllowed ≠ options.IsCreationAllowed then some options.IsCreationAllowed else none
    IsLinkingAllowed :=
      if o.IsLinkingAllowed ≠ options.IsLinkingAllowed then some options.IsLinkingAllowed else none
    IsAutoCreation :=
      if o.IsAutoCreation ≠ options.IsAutoCreation then some options.IsAutoCreation else none
    IsAutoUpdate :=
      if o.IsAutoUpdate ≠ options.IsAutoUpdate then some options.IsAutoUpdate else none }

/-- Modelled from the spec: `OptionChanges.IsZero`, the explicit test whether the
delta is empty. -/
def OptionChanges.IsZero (c : OptionChanges) : Bool :=
  c.IsCreationAllowed.isNone && c.IsLinkingAllowed.isNone
    && c.IsAutoCreation.isNone && c.IsAutoUpdate.isNone

/-- Modelled from the spec: `Options.ReduceChanges` merges a delta into the bundle,
overwriting the flags the delta carries. -/
def Options.ReduceChanges (o : Options) (changes : OptionChanges) : Options :=
  { IsCreationAllowed := changes.IsCreationAllowed.getD o.IsCreationAllowed
    IsLinkingAllowed := changes.IsLinkingAllowed.getD o.IsLinkingAllowed
    IsAutoCreation := changes.IsAutoCreation.getD o.IsAutoCreation
    IsAutoUpdate := changes.IsAutoUpdate.getD o.IsAutoUpdate }

/-- Modelled from the spec: `idp.LDAPAttributes`, the attribute names `ToProvider`
of the LDAP write model reads. -/
structure LDAPAttributes where
  IDAttribute : String
  FirstNameAttribute : String
  LastNameAttribute : String
  DisplayNameAttribute : String
  NickNameAttribute : String
  PreferredUsernameAttribute : String
  EmailAttribute : String
  EmailVerifiedAttribute : String
  PhoneAttribute : String
  PhoneVerifiedAttribute : String
  PreferredLanguageAttribute : String
  AvatarURLAttribute : String
  ProfileAttribute : String
deriving DecidableEq, Repr

/-- Modelled from the spec: `idp.LDAPAttributeChanges`, the delta of an attribute
bundle; an attribute that is not carried is a nil pointer. -/
structure LDAPAttributeChanges where
  IDAttribute : Option String
  FirstNameAttribute : Option String
  LastNameAttribute : Option String
  DisplayNameAttribute : Option String
  NickNameAttribute : Option String
  PreferredUsernameAttribute : Option String
  EmailAttribute : Option String
  EmailVerifiedAttribute : Option String
  PhoneAttribute : Option String
  PhoneVerifiedAttribute : Option String
  PreferredLanguageAttribute : Option String
  AvatarURLAttribute : Option String
  ProfileAttribute : Option String
deriving DecidableEq, Repr

/-- The delta entry of one string attribute: carried when stored and desired differ. -/
def changedString (stored desired : String) : Option String :=
  if stored ≠ desired then some desired else none

/-- Modelled from the spec: `LDAPAttributes.Changes` diffs the bundle attribute by
attribute and carries each attribute that differs. -/
def LDAPAttributes.Changes (o attributes : LDAPAttributes) : LDAPAttributeChanges :=
  { IDAttribute := changedString o.IDAttribute attributes.IDAttribute
    FirstNameAttribute := changedString o.FirstNameAttribute attributes.FirstNameAttribute
    LastNameAttribute := changedString o.LastNameAttribute attributes.LastNameAttribute
    DisplayNameAttribute := changedString o.DisplayNameAttribute attributes.DisplayNameAttribute
    NickNameAttribute := changedString o.NickNameAttribute attributes.NickNameAttribute
    PreferredUsernameAttribute :=
      changedString o.PreferredUsernameAttribute attributes.PreferredUsernameAttribute
    EmailAttribute := changedString o.EmailAttribute attributes.EmailAttribute
    EmailVerifiedAttribute :=
      changedString o.EmailVerifiedAttribute attributes.EmailVerifiedAttribute
    PhoneAttribute := changedString o.PhoneAttribute attributes.PhoneAttribute
    PhoneVerifiedAttribute :=
      changedString o.PhoneVerifiedAttribute attributes.PhoneVerifiedAttribute
    PreferredLanguageAttribute :=
      changedString o.PreferredLanguageAttribute attributes.PreferredLanguageAttribute
    AvatarURLAttribute := changedString o.AvatarURLAttribute attributes.AvatarURLAttribute
    ProfileAttribute := changedString o.ProfileAttribute attributes.ProfileAttribute }

/-- Modelled from the spec: `LDAPAttributeChanges.IsZero`, the explicit test whether
the delta is empty. -/
def LDAPAttributeChanges.IsZero (c : LDAPAttributeChanges) : Bool :=
  c.IDAttribute.isNone && c.FirstNameAttribute.isNone && c.LastNameAttribute.isNone
    && c.DisplayNameAttribute.isNone && c.NickNameAttribute.isNone
    && c.PreferredUsernameAttribute.isNone && c.EmailAttribute.isNone
    && c.EmailVerifiedAttribute.isNone && c.PhoneAttribute.isNone
    && c.PhoneVerifiedAttribute.isNone && c.PreferredLanguageAttribute.isNone
    && c.AvatarURLAttribute.isNone && c.ProfileAttribute.isNone

/-- Modelled from the spec: `LDAPAttributes.ReduceChanges` merges a delta into the
bundle, overwriting the attributes the delta carries. -/
def LDAPAttributes.ReduceChanges (o : LDAPAttributes) (changes : LDAPAttributeChanges) :
    LDAPAttributes :=
  { IDAttribute := changes.IDAttribute.getD o.IDAttribute
    FirstNameAttribute := changes.FirstNameAttribute.getD o.FirstNameAttribute
    LastNameAttribute := changes.LastNameAttribute.getD o.LastNameAttribute
    DisplayNameAttribute := changes.DisplayNameAttribute.getD o.DisplayNameAttribute
    NickNameAttribute := changes.NickNameAttribute.getD o.NickNameAttribute
    PreferredUsernameAttribute :=
      changes.PreferredUsernameAttribute.getD o.PreferredUsernameAttribute
    EmailAttribute := changes.EmailAttribute.getD o.EmailAttribute
    EmailVerifiedAttribute := changes.EmailVerifiedAttribute.getD o.EmailVerifiedAttribute
    PhoneAttribute := changes.PhoneAttribute.getD o.PhoneAttribute
    PhoneVerifiedAttribute := changes.PhoneVerifiedAttribute.getD o.PhoneVerifiedAttribute
    PreferredLanguageAttribute :=
      changes.PreferredLanguageAttribute.getD o.PreferredLanguageAttribute
    AvatarURLAttribute := changes.AvatarURLAttribute.getD o.AvatarURLAttribute
    ProfileAttribute := changes.ProfileAttribute.getD o.ProfileAttribute }

/-! ## Event payloads

The event structs are declared in `internal/repository/idp` and
`internal/repository/idpconfig`, outside the sources at hand; each is declared here
with the fields the reducers of `idp_model.go` read. -/

/-- Payload of `idp.OAuthIDPAddedEvent`. -/
structure OAuthIDPAddedEvent where
  ID : String
  Name : String
  ClientID : String
  ClientSecret : Option CryptoValue
  AuthorizationEndpoint : String
  TokenEndpoint : String
  UserEndpoint : String
  Scopes : StringSlice
  IDAttribute : String
  Options : Options
deriving DecidableEq, Repr

/-- Payload of `idp.OAuthIDPChangedEvent`: a nil pointer or nil slice is a field the
event does not carry. -/
structure OAuthIDPChangedEvent where
  Name : Option String
  ClientID : Option String
  ClientSecret : Option CryptoValue
  AuthorizationEndpoint : Option String
  TokenEndpoint : Option String
  UserEndpoint : Option String
  Scopes : StringSlice
  IDAttribute : Option String
  OptionChanges : OptionChanges
deriving DecidableEq, Repr

/-- Payload of `idp.OIDCIDPAddedEvent`. -/
structure OIDCIDPAddedEvent where
  ID : String
  Name : String
  Issuer : String
  ClientID : String
  ClientSecret : Option CryptoValue
  Scopes : StringSlice
  IsIDTokenMapping : Bool
  Options : Options
deriving DecidableEq, Repr

/-- Payload of `idp.OIDCIDPChangedEvent`. -/
structure OIDCIDPChangedEvent where
  Name : Option String
  Issuer : Option String
  ClientID : Option String
  ClientSecret : Option CryptoValue
  Scopes : StringSlice
  IsIDTokenMapping : Option Bool
  OptionChanges : OptionChanges
deriving DecidableEq, Repr

/-- Payload of `idp.JWTIDPAddedEvent`. -/
structure JWTIDPAddedEvent where
  ID : String
  Name : String
  Issuer : String
  JWTEndpoint : String
  KeysEndpoint : String
  HeaderName : String
  Options : Options
deriving DecidableEq, Repr

/-- Payload of `idp.JWTIDPChangedEvent`. -/
structure JWTIDPChangedEvent where
  Name : Option String
  Issuer : Option String
  JWTEndpoint : Option String
  KeysEndpoint : Option String
  HeaderName : Option String
  OptionChanges : OptionChanges
deriving DecidableEq, Repr

/-- Payload of `idp.AzureADIDPAddedEvent`. -/
structure AzureADIDPAddedEvent where
  ID : String
  Name : String
  ClientID : String
  ClientSecret : Option CryptoValue
  Scopes : StringSlice
  Tenant : String
  IsEmailVerified : Bool
  Options : Options
deriving DecidableEq, Repr

/-- Payload of `idp.AzureADIDPChangedEvent`. -/
structure AzureADIDPChangedEvent where
  Name : Option String
  ClientID : Option String
  ClientSecret : Option CryptoValue
  Scopes : StringSlice
  Tenant : Option String
  IsEmailVerified : Option Bool
  OptionChanges : OptionChanges
deriving DecidableEq, Repr

/-- Payload of `idp.OIDCIDPMigratedAzureADEvent`, which embeds an Azure AD added event. -/
structure OIDCIDPMigratedAzureADEvent where
  AzureADIDPAddedEvent : AzureADIDPAddedEvent
deriving DecidableEq, Repr

/-- Payload of `idp.GitHubIDPAddedEvent`. -/
structure GitHubIDPAddedEvent where
  ID : String
  Name : String
  ClientID : String
  ClientSecret : Option CryptoValue
  Scopes : StringSlice
  Options : Options
deriving DecidableEq, Repr

/-- Payload of `idp.GitHubIDPChangedEvent`. -/
structure GitHubIDPChangedEvent where
  Name : Option String
  ClientID : Option String
  ClientSecret : Option CryptoValue
  Scopes : StringSlice
  OptionChanges : OptionChanges
deriving DecidableEq, Repr

/-- Payload of `idp.GitHubEnterpriseIDPAddedEvent`. -/
structure GitHubEnterpriseIDPAddedEvent where
  ID : String
  Name : String
  ClientID : String
  ClientSecret : Option CryptoValue
  AuthorizationEndpoint : String
  TokenEndpoint : String
  UserEndpoint : String
  Scopes : StringSlice
  Options : Options
deriving DecidableEq, Repr

/-- Payload of `idp.GitHubEnterpriseIDPChangedEvent`. -/
structure GitHubEnterpriseIDPChangedEvent where
  Name : Option String
  ClientID : Option String
  ClientSecret : Option CryptoValue
  AuthorizationEndpoint : Option String
  TokenEndpoint : Option String
  UserEndpoint : Option String
  Scopes : StringSlice
  OptionChanges : OptionChanges
deriving DecidableEq, Repr

/-- Payload of `idp.GitLabIDPAddedEvent`. -/
structure GitLabIDPAddedEvent where
  ID : String
  Name : String
  ClientID : String
  ClientSecret : Option CryptoValue
  Scopes : StringSlice
  Options : Options
deriving DecidableEq, Repr

/-- Payload of `idp.GitLabIDPChangedEvent`. -/
structure GitLabIDPChangedEvent where
  Name : Option String
  ClientID : Option String
  ClientSecret : Option CryptoValue
  Scopes : StringSlice
  OptionChanges : OptionChanges
deriving DecidableEq, Repr

/-- Payload of `idp.GitLabSelfHostedIDPAddedEvent`. -/
structure GitLabSelfHostedIDPAddedEvent where
  ID : String
  Name : String
  Issuer : String
  ClientID : String
  ClientSecret : Option CryptoValue
  Scopes : StringSlice
  Options : Options
deriving DecidableEq, Repr

/-- Payload of `idp.GitLabSelfHostedIDPChangedEvent`. -/
structure GitLabSelfHostedIDPChangedEvent where
  Name : Option String
  Issuer : Option String
  ClientID : Option String
  ClientSecret : Option CryptoValue
  Scopes : StringSlice
  OptionChanges : OptionChanges
deriving DecidableEq, Repr

/-- Payload of `idp.GoogleIDPAddedEvent`. -/
structure GoogleIDPAddedEvent where
  ID : String
  Name : String
  ClientID : String
  ClientSecret : Option CryptoValue
  Scopes : StringSlice
  Options : Options
deriving DecidableEq, Repr

/-- Payload of `idp.GoogleIDPChangedEvent`. -/
structure GoogleIDPChangedEvent where
  Name : Option String
  ClientID : Option String
  ClientSecret : Option CryptoValue
  Scopes : StringSlice
  OptionChanges : OptionChanges
deriving DecidableEq, Repr

/-- Payload of `idp.OIDCIDPMigratedGoogleEvent`, which embeds a Google added event. -/
structure OIDCIDPMigratedGoogleEvent where
  GoogleIDPAddedEvent : GoogleIDPAddedEvent
deriving DecidableEq, Repr

/-- Payload of `idp.LDAPIDPAddedEvent`. -/
structure LDAPIDPAddedEvent where
  ID : String
  Name : String
  Servers : StringSlice
  StartTLS : Bool
  BaseDN : String
  BindDN : String
  BindPassword : Option CryptoValue
  UserBase : String
  UserObjectClasses : StringSlice
  UserFilters : StringSlice
  Timeout : Int
  LDAPAttributes : LDAPAttributes
  Options : Options
deriving DecidableEq, Repr

/-- Payload of `idp.LDAPIDPChangedEvent`. -/
structure LDAPIDPChangedEvent where
  ID : String
  Name : Option String
  Servers : StringSlice
  StartTLS : Option Bool
  BaseDN : Option String
  BindDN : Option String
  BindPassword : Option CryptoValue
  UserBase : Option String
  UserObjectClasses : StringSlice
  UserFilters : StringSlice
  Timeout : Option Int
  LDAPAttributeChanges : LDAPAttributeChanges
  OptionChanges : OptionChanges
deriving DecidableEq, Repr

/-- Payload of `idp.RemovedEvent`. -/
structure RemovedEvent where
  ID : String
deriving DecidableEq, Repr

/-- Payload of the legacy `idpconfig.IDPConfigAddedEvent`. -/
structure IDPConfigAddedEvent where
  ConfigID : String
  Name : String
  Typ : IDPConfigType
  AutoRegister : Bool
deriving DecidableEq, Repr

/-- Payload of the legacy `idpconfig.IDPConfigChangedEvent`. -/
structure IDPConfigChangedEvent where
  Name : Option String
  AutoRegister : Option Bool
deriving DecidableEq, Repr

/-- Payload of the legacy `idpconfig.OIDCConfigAddedEvent`. -/
structure OIDCConfigAddedEvent where
  Issuer : String
  ClientID : String
  ClientSecret : Option CryptoValue
  Scopes : StringSlice
deriving DecidableEq, Repr

/-- Payload of the legacy `idpconfig.OIDCConfigChangedEvent`. -/
structure OIDCConfigChangedEvent where
  Issuer : Option String
  ClientID : Option String
  ClientSecret : Option CryptoValue
  Scopes : StringSlice
deriving DecidableEq, Repr

/-- Payload of the legacy `idpconfig.JWTConfigAddedEvent`. -/
structure JWTConfigAddedEvent where
  Issuer : String
  JWTEndpoint : String
  KeysEndpoint : String
  HeaderName : String
deriving DecidableEq, Repr

/-- Payload of the legacy `idpconfig.JWTConfigChangedEvent`. -/
structure JWTConfigChangedEvent where
  Issuer : Option String
  JWTEndpoint : Option String
  KeysEndpoint : Option String
  HeaderName : Option String
deriving DecidableEq, Repr

/-- Payload of the legacy `idpconfig.IDPConfigRemovedEvent`. -/
structure IDPConfigRemovedEvent where
  ConfigID : String
deriving DecidableEq, Repr

/-! ## Events and their dynamic type -/

/-- The package that declares the Go type of an event: the plain event types of
`repository/idp` and `repository/idpconfig`, or the wrappers of the same name in
`repository/instance` and `repository/org` that embed them. -/
inductive EventPackage where
  | plain
  | instancePkg
  | orgPkg
deriving DecidableEq, Repr

/-- The typed payload of an event; `Other` stands for every event type that no
reducer of `idp_model.go` names. -/
inductive EventPayload where
  | OAuthIDPAdded (e : OAuthIDPAddedEvent)
  | OAuthIDPChanged (e : OAuthIDPChangedEvent)
  | OIDCIDPAdded (e : OIDCIDPAddedEvent)
  | OIDCIDPChanged (e : OIDCIDPChangedEvent)
  | OIDCIDPMigratedAzureAD (e : OIDCIDPMigratedAzureADEvent)
  | OIDCIDPMigratedGoogle (e : OIDCIDPMigratedGoogleEvent)
  | JWTIDPAdded (e : JWTIDPAddedEvent)
  | JWTIDPChanged (e : JWTIDPChangedEvent)
  | AzureADIDPAdded (e : AzureADIDPAddedEvent)
  | AzureADIDPChanged (e : AzureADIDPChangedEvent)
  | GitHubIDPAdded (e : GitHubIDPAddedEvent)
  | GitHubIDPChanged (e : GitHubIDPChangedEvent)
  | GitHubEnterpriseIDPAdded (e : GitHubEnterpriseIDPAddedEvent)
  | GitHubEnterpriseIDPChanged (e : GitHubEnterpriseIDPChangedEvent)
  | GitLabIDPAdded (e : GitLabIDPAddedEvent)
  | GitLabIDPChanged (e : GitLabIDPChangedEvent)
  | GitLabSelfHostedIDPAdded (e : GitLabSelfHostedIDPAddedEvent)
  | GitLabSelfHostedIDPChanged (e : GitLabSelfHostedIDPChangedEvent)
  | GoogleIDPAdded (e : GoogleIDPAddedEvent)
  | GoogleIDPChanged (e : GoogleIDPChangedEvent)
  | LDAPIDPAdded (e : LDAPIDPAddedEvent)
  | LDAPIDPChanged (e : LDAPIDPChangedEvent)
  | Removed (e : RemovedEvent)
  | IDPConfigAdded (e : IDPConfigAddedEvent)
  | IDPConfigChanged (e : IDPConfigChangedEvent)
  | OIDCConfigAdded (e : OIDCConfigAddedEvent)
  | OIDCConfigChanged (e : OIDCConfigChangedEvent)
  | JWTConfigAdded (e : JWTConfigAddedEvent)
  | JWTConfigChanged (e : JWTConfigChangedEvent)
  | IDPConfigRemoved (e : IDPConfigRemovedEvent)
  | Other (typeName : String)
deriving Repr

/-- The kind of a payload: the name of the Go struct, without its package. -/
inductive EventKind where
  | OAuthIDPAddedEvent
  | OAuthIDPChangedEvent
  | OIDCIDPAddedEvent
  | OIDCIDPChangedEvent
  | OIDCIDPMigratedAzureADEvent
  | OIDCIDPMigratedGoogleEvent
  | JWTIDPAddedEvent
  | JWTIDPChangedEvent
  | AzureADIDPAddedEvent
  | AzureADIDPChangedEvent
  | GitHubIDPAddedEvent
  | GitHubIDPChangedEvent
  | GitHubEnterpriseIDPAddedEvent
  | GitHubEnterpriseIDPChangedEvent
  | GitLabIDPAddedEvent
  | GitLabIDPChangedEvent
  | GitLabSelfHostedIDPAddedEvent
  | GitLabSelfHostedIDPChangedEvent
  | GoogleIDPAddedEvent
  | GoogleIDPChangedEvent
  | LDAPIDPAddedEvent
  | LDAPIDPChangedEvent
  | RemovedEvent
  | IDPConfigAddedEvent
  | IDPConfigChangedEvent
  | OIDCConfigAddedEvent
  | OIDCConfigChangedEvent
  | JWTConfigAddedEvent
  | JWTConfigChangedEvent
  | IDPConfigRemovedEvent
  | Other
deriving DecidableEq, Repr

/-- The kind of a payload. -/
def EventPayload.kind : EventPayload → EventKind
  | .OAuthIDPAdded _ => .OAuthIDPAddedEvent
  | .OAuthIDPChanged _ => .OAuthIDPChangedEvent
  | .OIDCIDPAdded _ => .OIDCIDPAddedEvent
  | .OIDCIDPChanged _ => .OIDCIDPChangedEvent
  | .OIDCIDPMigratedAzureAD _ => .OIDCIDPMigratedAzureADEvent
  | .OIDCIDPMigratedGoogle _ => .OIDCIDPMigratedGoogleEvent
  | .JWTIDPAdded _ => .JWTIDPAddedEvent
  | .JWTIDPChanged _ => .JWTIDPChangedEvent
  | .AzureADIDPAdded _ => .AzureADIDPAddedEvent
  | .AzureADIDPChanged _ => .AzureADIDPChangedEvent
  | .GitHubIDPAdded _ => .GitHubIDPAddedEvent
  | .GitHubIDPChanged _ => .GitHubIDPChangedEvent
  | .GitHubEnterpriseIDPAdded _ => .GitHubEnterpriseIDPAddedEvent
  | .GitHubEnterpriseIDPChanged _ => .GitHubEnterpriseIDPChangedEvent
  | .GitLabIDPAdded _ => .GitLabIDPAddedEvent
  | .GitLabIDPChanged _ => .GitLabIDPChangedEvent
  | .GitLabSelfHostedIDPAdded _ => .GitLabSelfHostedIDPAddedEvent
  | .GitLabSelfHostedIDPChanged _ => .GitLabSelfHostedIDPChangedEvent
  | .GoogleIDPAdded _ => .GoogleIDPAddedEvent
  | .GoogleIDPChanged _ => .GoogleIDPChangedEvent
  | .LDAPIDPAdded _ => .LDAPIDPAddedEvent
  | .LDAPIDPChanged _ => .LDAPIDPChangedEvent
  | .Removed _ => .RemovedEvent
  | .IDPConfigAdded _ => .IDPConfigAddedEvent
  | .IDPConfigChanged _ => .IDPConfigChangedEvent
  | .OIDCConfigAdded _ => .OIDCConfigAddedEvent
  | .OIDCConfigChanged _ => .OIDCConfigChangedEvent
  | .JWTConfigAdded _ => .JWTConfigAddedEvent
  | .JWTConfigChanged _ => .JWTConfigChangedEvent
  | .IDPConfigRemoved _ => .IDPConfigRemovedEvent
  | .Other _ => .Other

/-- Modelled from the spec: `eventstore.Aggregate`, the aggregate an event belongs
to, with its owner scope. -/
structure Aggregate where
  ID : String
  ResourceOwner : String
  InstanceID : String
deriving DecidableEq, Repr

/-- An `eventstore.Event`: the envelope (sequence and aggregate) and the typed
payload, declared by `pkg`. -/
structure Event where
  pkg : EventPackage
  Sequence : Nat
  Aggregate : Aggregate
  payload : EventPayload
deriving Repr

/-- The dynamic Go type of an event, on which the type switches of `Reduce` decide. -/
def Event.goType (e : Event) : EventPackage × EventKind :=
  (e.pkg, e.payload.kind)

/-- Modelled from the spec: `eventstore.WriteModel`, the base every write model
embeds: the key (aggregate id, owner scope), the sequence of the last folded event
and the buffer of events still to fold. -/
structure WriteModel where
  AggregateID : String
  ProcessedSequence : Nat
  Events : List Event
  ResourceOwner : String
  InstanceID : String
deriving Repr

/-- Modelled from the spec: `eventstore.WriteModel.AppendEvents` buffers events for
folding. -/
def WriteModel.AppendEvents (wm : WriteModel) (events : List Event) : WriteModel :=
  { wm with Events := wm.Events ++ events }

/-- Modelled from the spec: `eventstore.WriteModel.Reduce`, which every `Reduce` of
`idp_model.go` calls last: `ProcessedSequence` advances to the sequence of the last
buffered event, and no error is raised. The spec does not say what becomes of the
buffer; it is left as it is. -/
def WriteModel.Reduce (wm : WriteModel) : Except Error WriteModel :=
  match wm.Events.getLast? with
  | none => .ok wm
  | some e => .ok { wm with ProcessedSequence := e.Sequence }

/-! ## Go idioms shared by the reducers -/

/-- The reducer idiom `if p != nil { stored = *p }` on a pointer `p`. -/
def assignIfSet {α : Type} (p : Option α) (stored : α) : α :=
  match p with
  | some v => v
  | none => stored

/-- The reducer idiom `if p != nil { stored = p }`, where the stored field is itself
a pointer or a slice. -/
def assignIfNonNil {α : Type} (p : Option α) (stored : Option α) : Option α :=
  match p with
  | some v => some v
  | none => stored

/-! ## OAuthIDPWriteModel -/

/-- The write model of a generic OAuth provider. -/
structure OAuthIDPWriteModel extends WriteModel where
  Name : String
  ID : String
  ClientID : String
  ClientSecret : Option CryptoValue
  AuthorizationEndpoint : String
  TokenEndpoint : String
  UserEndpoint : String
  Scopes : StringSlice
  IDAttribute : String
  Options : Zitadel.Options
  State : IDPState
deriving Repr

/-- An added event overwrites every configuration field and activates the model. -/
def OAuthIDPWriteModel.reduceAddedEvent (wm : OAuthIDPWriteModel)
    (e : OAuthIDPAddedEvent) : OAuthIDPWriteModel :=
  { wm with
    Name := e.Name
    ClientID := e.ClientID
    ClientSecret := e.ClientSecret
    AuthorizationEndpoint := e.AuthorizationEndpoint
    TokenEndpoint := e.TokenEndpoint
    UserEndpoint := e.UserEndpoint
    Scopes := e.Scopes
    IDAttribute := e.IDAttribute
    Options := e.Options
    State := .IDPStateActive }

/-- A changed event overwrites the fields it carries. -/
def OAuthIDPWriteModel.reduceChangedEvent (wm : OAuthIDPWriteModel)
    (e : OAuthIDPChangedEvent) : OAuthIDPWriteModel :=
  { wm with
    ClientID := assignIfSet e.ClientID wm.ClientID
    ClientSecret := assignIfNonNil e.ClientSecret wm.ClientSecret
    Name := assignIfSet e.Name wm.Name
    AuthorizationEndpoint := assignIfSet e.AuthorizationEndpoint wm.AuthorizationEndpoint
    TokenEndpoint := assignIfSet e.TokenEndpoint wm.TokenEndpoint
    UserEndpoint := assignIfSet e.UserEndpoint wm.UserEndpoint
    Scopes := assignIfNonNil e.Scopes wm.Scopes
    IDAttribute := assignIfSet e.IDAttribute wm.IDAttribute
    Options := wm.Options.ReduceChanges e.OptionChanges }

/-- The body of the loop of `Reduce`: the type switch on one event. -/
def OAuthIDPWriteModel.reduceEvent (wm : OAuthIDPWriteModel) (event : Event) :
    OAuthIDPWriteModel :=
  match event.pkg, event.payload with
  | .plain, .OAuthIDPAdded e => wm.reduceAddedEvent e
  | .plain, .OAuthIDPChanged e => wm.reduceChangedEvent e
  | .plain, .Removed _ => { wm with State := .IDPStateRemoved }
  | _, _ => wm

/-- The event types named in the switch of `OAuthIDPWriteModel.Reduce`. -/
def OAuthIDPWriteModel.switchTypes : List (EventPackage × EventKind) :=
  [(.plain, .OAuthIDPAddedEvent), (.plain, .OAuthIDPChangedEvent), (.plain, .RemovedEvent)]

/-- Folds the buffered events in order, then hands over to the embedded base. -/
def OAuthIDPWriteModel.Reduce (wm : OAuthIDPWriteModel) :
    Except Error OAuthIDPWriteModel :=
  let folded := wm.Events.foldl OAuthIDPWriteModel.reduceEvent wm
  match folded.toWriteModel.Reduce with
  | .error err => .error err
  | .ok base => .ok { folded with toWriteModel := base }

/-- The entries of a change set of this variant (`idp.OAuthIDPChanges`): each `Change…`
function of `repository/idp`, with the value it was called with. -/
inductive OAuthIDPChanges where
  | ChangeOAuthClientSecret (clientSecret : Option CryptoValue)
  | ChangeOAuthClientID (clientID : String)
  | ChangeOAuthName (name : String)
  | ChangeOAuthAuthorizationEndpoint (authorizationEndpoint : String)
  | ChangeOAuthTokenEndpoint (tokenEndpoint : String)
  | ChangeOAuthUserEndpoint (userEndpoint : String)
  | ChangeOAuthScopes (scopes : StringSlice)
  | ChangeOAuthIDAttribute (idAttribute : String)
  | ChangeOAuthOptions (options : OptionChanges)
deriving DecidableEq, Repr

/-- Diffs the stored configuration against the desired one. -/
def OAuthIDPWriteModel.NewChanges (wm : OAuthIDPWriteModel)
    (name clientID clientSecretString : String) (secretCrypto : Crypto)
    (authorizationEndpoint tokenEndpoint userEndpoint idAttribute : String) (scopes : StringSlice)
    (options : Zitadel.Options) :
    Except Error (List OAuthIDPChanges) := do
  let changes : List OAuthIDPChanges := []
  let changes ←
    if clientSecretString ≠ "" then
      match Crypt clientSecretString secretCrypto with
      | .error err => Except.error err
      | .ok clientSecret =>
        Except.ok (changes ++ [.ChangeOAuthClientSecret clientSecret])
    else Except.ok changes
  let changes :=
    if wm.ClientID ≠ clientID then changes ++ [.ChangeOAuthClientID clientID]
    else changes
  let changes := if wm.Name ≠ name then changes ++ [.ChangeOAuthName name] else changes
  let changes :=
    if wm.AuthorizationEndpoint ≠ authorizationEndpoint then
      changes ++ [.ChangeOAuthAuthorizationEndpoint authorizationEndpoint]
    else changes
  let changes :=
    if wm.TokenEndpoint ≠ tokenEndpoint then changes ++ [.ChangeOAuthTokenEndpoint tokenEndpoint]
    else changes
  let changes :=
    if wm.UserEndpoint ≠ userEndpoint then changes ++ [.ChangeOAuthUserEndpoint userEndpoint]
    else changes
  let changes := if wm.Scopes ≠ scopes then changes ++ [.ChangeOAuthScopes scopes] else changes
  let changes :=
    if wm.IDAttribute ≠ idAttribute then changes ++ [.ChangeOAuthIDAttribute idAttribute]
    else changes
  let opts := wm.Options.Changes options
  let changes := if !opts.IsZero then changes ++ [.ChangeOAuthOptions opts] else changes
  return changes

/-! ## OIDCIDPWriteModel -/

/-- The write model of a generic OIDC provider. -/
structure OIDCIDPWriteModel extends WriteModel where
  Name : String
  ID : String
  Issuer : String
  ClientID : String
  ClientSecret : Option CryptoValue
  Scopes : StringSlice
  IsIDTokenMapping : Bool
  Options : Zitadel.Options
  State : IDPState
deriving Repr

/-- An added event overwrites every configuration field and activates the model. -/
def OIDCIDPWriteModel.reduceAddedEvent (wm : OIDCIDPWriteModel)
    (e : OIDCIDPAddedEvent) : OIDCIDPWriteModel :=
  { wm with
    Name := e.Name
    Issuer := e.Issuer
    ClientID := e.ClientID
    ClientSecret := e.ClientSecret
    Scopes := e.Scopes
    IsIDTokenMapping := e.IsIDTokenMapping
    Options := e.Options
    State := .IDPStateActive }

/-- A changed event overwrites the fields it carries. -/
def OIDCIDPWriteModel.reduceChangedEvent (wm : OIDCIDPWriteModel)
    (e : OIDCIDPChangedEvent) : OIDCIDPWriteModel :=
  { wm with
    ClientID := assignIfSet e.ClientID wm.ClientID
    ClientSecret := assignIfNonNil e.ClientSecret wm.ClientSecret
    Name := assignIfSet e.Name wm.Name
    Issuer := assignIfSet e.Issuer wm.Issuer
    Scopes := assignIfNonNil e.Scopes wm.Scopes
    IsIDTokenMapping := assignIfSet e.IsIDTokenMapping wm.IsIDTokenMapping
    Options := wm.Options.ReduceChanges e.OptionChanges }

/-- Handles old idpConfig events. -/
def OIDCIDPWriteModel.reduceIDPConfigAddedEvent (wm : OIDCIDPWriteModel)
    (e : IDPConfigAddedEvent) : OIDCIDPWriteModel :=
  { wm with
    Name := e.Name
    Options := { wm.Options with IsAutoCreation := e.AutoRegister }
    State := .IDPStateActive }

/-- Handles old idpConfig changes. -/
def OIDCIDPWriteModel.reduceIDPConfigChangedEvent (wm : OIDCIDPWriteModel)
    (e : IDPConfigChangedEvent) : OIDCIDPWriteModel :=
  { wm with
    Name := assignIfSet e.Name wm.Name
    Options :=
      { wm.Options with IsAutoCreation := assignIfSet e.AutoRegister wm.Options.IsAutoCreation } }

/-- Handles old OIDC idpConfig events. -/
def OIDCIDPWriteModel.reduceOIDCConfigAddedEvent (wm : OIDCIDPWriteModel)
    (e : OIDCConfigAddedEvent) : OIDCIDPWriteModel :=
  { wm with
    Issuer := e.Issuer
    ClientID := e.ClientID
    ClientSecret := e.ClientSecret
    Scopes := e.Scopes }

/-- Handles old OIDC idpConfig changes. -/
def OIDCIDPWriteModel.reduceOIDCConfigChangedEvent (wm : OIDCIDPWriteModel)
    (e : OIDCConfigChangedEvent) : OIDCIDPWriteModel :=
  { wm with
    Issuer := assignIfSet e.Issuer wm.Issuer
    ClientID := assignIfSet e.ClientID wm.ClientID
    ClientSecret := assignIfNonNil e.ClientSecret wm.ClientSecret
    Scopes := assignIfNonNil e.Scopes wm.Scopes }

/-- The body of the loop of `Reduce`: the type switch on one event. -/
def OIDCIDPWriteModel.reduceEvent (wm : OIDCIDPWriteModel) (event : Event) :
    OIDCIDPWriteModel :=
  match event.pkg, event.payload with
  | .plain, .OIDCIDPAdded e => wm.reduceAddedEvent e
  | .plain, .OIDCIDPChanged e => wm.reduceChangedEvent e
  | .plain, .OIDCIDPMigratedAzureAD _ => { wm with State := .IDPStateMigrated }
  | .plain, .OIDCIDPMigratedGoogle _ => { wm with State := .IDPStateMigrated }
  | .plain, .Removed _ => { wm with State := .IDPStateRemoved }
  | .plain, .IDPConfigAdded e => wm.reduceIDPConfigAddedEvent e
  | .plain, .IDPConfigChanged e => wm.reduceIDPConfigChangedEvent e
  | .plain, .OIDCConfigAdded e => wm.reduceOIDCConfigAddedEvent e
  | .plain, .OIDCConfigChanged e => wm.reduceOIDCConfigChangedEvent e
  | .plain, .IDPConfigRemoved _ => { wm with State := .IDPStateRemoved }
  | _, _ => wm

/-- The event types named in the switch of `OIDCIDPWriteModel.Reduce`. -/
def OIDCIDPWriteModel.switchTypes : List (EventPackage × EventKind) :=
  [(.plain, .OIDCIDPAddedEvent), (.plain, .OIDCIDPChangedEvent),
   (.plain, .OIDCIDPMigratedAzureADEvent), (.plain, .OIDCIDPMigratedGoogleEvent),
   (.plain, .RemovedEvent), (.plain, .IDPConfigAddedEvent), (.plain, .IDPConfigChangedEvent),
   (.plain, .OIDCConfigAddedEvent), (.plain, .OIDCConfigChangedEvent),
   (.plain, .IDPConfigRemovedEvent)]

/-- Folds the buffered events in order, then hands over to the embedded base. -/
def OIDCIDPWriteModel.Reduce (wm : OIDCIDPWriteModel) :
    Except Error OIDCIDPWriteModel :=
  let folded := wm.Events.foldl OIDCIDPWriteModel.reduceEvent wm
  match folded.toWriteModel.Reduce with
  | .error err => .error err
  | .ok base => .ok { folded with toWriteModel := base }

/-- The entries of a change set of this variant (`idp.OIDCIDPChanges`): each `Change…`
function of `repository/idp`, with the value it was called with. -/
inductive OIDCIDPChanges where
  | ChangeOIDCClientSecret (clientSecret : Option CryptoValue)
  | ChangeOIDCClientID (clientID : String)
  | ChangeOIDCName (name : String)
  | ChangeOIDCIssuer (issuer : String)
  | ChangeOIDCScopes (scopes : StringSlice)
  | ChangeOIDCIsIDTokenMapping (idTokenMapping : Bool)
  | ChangeOIDCOptions (options : OptionChanges)
deriving DecidableEq, Repr

/-- Diffs the stored configuration against the desired one. -/
def OIDCIDPWriteModel.NewChanges (wm : OIDCIDPWriteModel)
    (name issuer clientID clientSecretString : String) (secretCrypto : Crypto)
    (scopes : StringSlice) (idTokenMapping : Bool) (options : Zitadel.Options) :
    Except Error (List OIDCIDPChanges) := do
  let changes : List OIDCIDPChanges := []
  let changes ←
    if clientSecretString ≠ "" then
      match Crypt clientSecretString secretCrypto with
      | .error err => Except.error err
      | .ok clientSecret =>
        Except.ok (changes ++ [.ChangeOIDCClientSecret clientSecret])
    else Except.ok changes
  let changes :=
    if wm.ClientID ≠ clientID then changes ++ [.ChangeOIDCClientID clientID]
    else changes
  let changes := if wm.Name ≠ name then changes ++ [.ChangeOIDCName name] else changes
  let changes := if wm.Issuer ≠ issuer then changes ++ [.ChangeOIDCIssuer issuer] else changes
  let changes := if wm.Scopes ≠ scopes then changes ++ [.ChangeOIDCScopes scopes] else changes
  let changes :=
    if wm.IsIDTokenMapping ≠ idTokenMapping then
      changes ++ [.ChangeOIDCIsIDTokenMapping idTokenMapping]
    else changes
  let opts := wm.Options.Changes options
  let changes := if !opts.IsZero then changes ++ [.ChangeOIDCOptions opts] else changes
  return changes

/-! ## JWTIDPWriteModel -/

/-- The write model of a JWT provider. -/
structure JWTIDPWriteModel extends WriteModel where
  ID : String
  Name : String
  Issuer : String
  JWTEndpoint : String
  KeysEndpoint : String
  HeaderName : String
  Options : Zitadel.Options
  State : IDPState
deriving Repr

/-- An added event overwrites every configuration field and activates the model. -/
def JWTIDPWriteModel.reduceAddedEvent (wm : JWTIDPWriteModel)
    (e : JWTIDPAddedEvent) : JWTIDPWriteModel :=
  { wm with
    Name := e.Name
    Issuer := e.Issuer
    JWTEndpoint := e.JWTEndpoint
    KeysEndpoint := e.KeysEndpoint
    HeaderName := e.HeaderName
    Options := e.Options
    State := .IDPStateActive }

/-- A changed event overwrites the fields it carries. -/
def JWTIDPWriteModel.reduceChangedEvent (wm : JWTIDPWriteModel)
    (e : JWTIDPChangedEvent) : JWTIDPWriteModel :=
  { wm with
    Name := assignIfSet e.Name wm.Name
    Issuer := assignIfSet e.Issuer wm.Issuer
    JWTEndpoint := assignIfSet e.JWTEndpoint wm.JWTEndpoint
    KeysEndpoint := assignIfSet e.KeysEndpoint wm.KeysEndpoint
    HeaderName := assignIfSet e.HeaderName wm.HeaderName
    Options := wm.Options.ReduceChanges e.OptionChanges }

/-- Handles old idpConfig events. -/
def JWTIDPWriteModel.reduceIDPConfigAddedEvent (wm : JWTIDPWriteModel)
    (e : IDPConfigAddedEvent) : JWTIDPWriteModel :=
  { wm with
    Name := e.Name
    Options := { wm.Options with IsAutoCreation := e.AutoRegister }
    State := .IDPStateActive }

/-- Handles old idpConfig changes. -/
def JWTIDPWriteModel.reduceIDPConfigChangedEvent (wm : JWTIDPWriteModel)
    (e : IDPConfigChangedEvent) : JWTIDPWriteModel :=
  { wm with
    Name := assignIfSet e.Name wm.Name
    Options :=
      { wm.Options with IsAutoCreation := assignIfSet e.AutoRegister wm.Options.IsAutoCreation } }

/-- Handles old JWT idpConfig events. -/
def JWTIDPWriteModel.reduceJWTConfigAddedEvent (wm : JWTIDPWriteModel)
    (e : JWTConfigAddedEvent) : JWTIDPWriteModel :=
  { wm with
    Issuer := e.Issuer
    JWTEndpoint := e.JWTEndpoint
    KeysEndpoint := e.KeysEndpoint
    HeaderName := e.HeaderName }

/-- Handles old JWT idpConfig changes. -/
def JWTIDPWriteModel.reduceJWTConfigChangedEvent (wm : JWTIDPWriteModel)
    (e : JWTConfigChangedEvent) : JWTIDPWriteModel :=
  { wm with
    Issuer := assignIfSet e.Issuer wm.Issuer
    JWTEndpoint := assignIfSet e.JWTEndpoint wm.JWTEndpoint
    KeysEndpoint := assignIfSet e.KeysEndpoint wm.KeysEndpoint
    HeaderName := assignIfSet e.HeaderName wm.HeaderName }

/-- The body of the loop of `Reduce`: the type switch on one event. -/
def JWTIDPWriteModel.reduceEvent (wm : JWTIDPWriteModel) (event : Event) :
    JWTIDPWriteModel :=
  match event.pkg, event.payload with
  | .plain, .JWTIDPAdded e => wm.reduceAddedEvent e
  | .plain, .JWTIDPChanged e => wm.reduceChangedEvent e
  | .plain, .Removed _ => { wm with State := .IDPStateRemoved }
  | .plain, .IDPConfigAdded e => wm.reduceIDPConfigAddedEvent e
  | .plain, .IDPConfigChanged e => wm.reduceIDPConfigChangedEvent e
  | .plain, .JWTConfigAdded e => wm.reduceJWTConfigAddedEvent e
  | .plain, .JWTConfigChanged e => wm.reduceJWTConfigChangedEvent e
  | .plain, .IDPConfigRemoved _ => { wm with State := .IDPStateRemoved }
  | _, _ => wm

/-- The event types named in the switch of `JWTIDPWriteModel.Reduce`. -/
def JWTIDPWriteModel.switchTypes : List (EventPackage × EventKind) :=
  [(.plain, .JWTIDPAddedEvent), (.plain, .JWTIDPChangedEvent), (.plain, .RemovedEvent),
   (.plain, .IDPConfigAddedEvent), (.plain, .IDPConfigChangedEvent),
   (.plain, .JWTConfigAddedEvent), (.plain, .JWTConfigChangedEvent),
   (.plain, .IDPConfigRemovedEvent)]

/-- Folds the buffered events in order, then hands over to the embedded base. -/
def JWTIDPWriteModel.Reduce (wm : JWTIDPWriteModel) :
    Except Error JWTIDPWriteModel :=
  let folded := wm.Events.foldl JWTIDPWriteModel.reduceEvent wm
  match folded.toWriteModel.Reduce with
  | .error err => .error err
  | .ok base => .ok { folded with toWriteModel := base }

/-- The entries of a change set of this variant (`idp.JWTIDPChanges`): each `Change…`
function of `repository/idp`, with the value it was called with. -/
inductive JWTIDPChanges where
  | ChangeJWTName (name : String)
  | ChangeJWTIssuer (issuer : String)
  | ChangeJWTEndpoint (jwtEndpoint : String)
  | ChangeJWTKeysEndpoint (keysEndpoint : String)
  | ChangeJWTHeaderName (headerName : String)
  | ChangeJWTOptions (options : OptionChanges)
deriving DecidableEq, Repr

/-- Diffs the stored configuration against the desired one. -/
def JWTIDPWriteModel.NewChanges (wm : JWTIDPWriteModel)
    (name issuer jwtEndpoint keysEndpoint headerName : String) (options : Zitadel.Options) :
    Except Error (List JWTIDPChanges) := do
  let changes : List JWTIDPChanges := []
  let changes := if wm.Name ≠ name then changes ++ [.ChangeJWTName name] else changes
  let changes := if wm.Issuer ≠ issuer then changes ++ [.ChangeJWTIssuer issuer] else changes
  let changes :=
    if wm.JWTEndpoint ≠ jwtEndpoint then changes ++ [.ChangeJWTEndpoint jwtEndpoint]
    else changes
  let changes :=
    if wm.KeysEndpoint ≠ keysEndpoint then changes ++ [.ChangeJWTKeysEndpoint keysEndpoint]
    else changes
  let changes :=
    if wm.HeaderName ≠ headerName then changes ++ [.ChangeJWTHeaderName headerName]
    else changes
  let opts := wm.Options.Changes options
  let changes := if !opts.IsZero then changes ++ [.ChangeJWTOptions opts] else changes
  return changes

/-! ## AzureADIDPWriteModel -/

/-- The write model of an Azure AD provider. -/
structure AzureADIDPWriteModel extends WriteModel where
  ID : String
  Name : String
  ClientID : String
  ClientSecret : Option CryptoValue
  Scopes : StringSlice
  Tenant : String
  IsEmailVerified : Bool
  Options : Zitadel.Options
  State : IDPState
deriving Repr

/-- An added event overwrites every configuration field and activates the model. -/
def AzureADIDPWriteModel.reduceAddedEvent (wm : AzureADIDPWriteModel)
    (e : AzureADIDPAddedEvent) : AzureADIDPWriteModel :=
  { wm with
    Name := e.Name
    ClientID := e.ClientID
    ClientSecret := e.ClientSecret
    Scopes := e.Scopes
    Tenant := e.Tenant
    IsEmailVerified := e.IsEmailVerified
    Options := e.Options
    State := .IDPStateActive }

/-- A changed event overwrites the fields it carries. -/
def AzureADIDPWriteModel.reduceChangedEvent (wm : AzureADIDPWriteModel)
    (e : AzureADIDPChangedEvent) : AzureADIDPWriteModel :=
  { wm with
    ClientID := assignIfSet e.ClientID wm.ClientID
    ClientSecret := assignIfNonNil e.ClientSecret wm.ClientSecret
    Name := assignIfSet e.Name wm.Name
    Scopes := assignIfNonNil e.Scopes wm.Scopes
    Tenant := assignIfSet e.Tenant wm.Tenant
    IsEmailVerified := assignIfSet e.IsEmailVerified wm.IsEmailVerified
    Options := wm.Options.ReduceChanges e.OptionChanges }

/-- The body of the loop of `Reduce`: the type switch on one event. -/
def AzureADIDPWriteModel.reduceEvent (wm : AzureADIDPWriteModel) (event : Event) :
    AzureADIDPWriteModel :=
  match event.pkg, event.payload with
  | .plain, .AzureADIDPAdded e => wm.reduceAddedEvent e
  | .plain, .OIDCIDPMigratedAzureAD e => wm.reduceAddedEvent e.AzureADIDPAddedEvent
  | .plain, .AzureADIDPChanged e => wm.reduceChangedEvent e
  | .plain, .Removed _ => { wm with State := .IDPStateRemoved }
  | _, _ => wm

/-- The event types named in the switch of `AzureADIDPWriteModel.Reduce`. -/
def AzureADIDPWriteModel.switchTypes : List (EventPackage × EventKind) :=
  [(.plain, .AzureADIDPAddedEvent), (.plain, .OIDCIDPMigratedAzureADEvent),
   (.plain, .AzureADIDPChangedEvent), (.plain, .RemovedEvent)]

/-- Folds the buffered events in order, then hands over to the embedded base. -/
def AzureADIDPWriteModel.Reduce (wm : AzureADIDPWriteModel) :
    Except Error AzureADIDPWriteModel :=
  let folded := wm.Events.foldl AzureADIDPWriteModel.reduceEvent wm
  match folded.toWriteModel.Reduce with
  | .error err => .error err
  | .ok base => .ok { folded with toWriteModel := base }

/-- The entries of a change set of this variant (`idp.AzureADIDPChanges`): each `Change…`
function of `repository/idp`, with the value it was called with. -/
inductive AzureADIDPChanges where
  | ChangeAzureADClientSecret (clientSecret : Option CryptoValue)
  | ChangeAzureADName (name : String)
  | ChangeAzureADClientID (clientID : String)
  | ChangeAzureADTenant (tenant : String)
  | ChangeAzureADIsEmailVerified (isEmailVerified : Bool)
  | ChangeAzureADScopes (scopes : StringSlice)
  | ChangeAzureADOptions (options : OptionChanges)
deriving DecidableEq, Repr

/-- Diffs the stored configuration against the desired one. -/
def AzureADIDPWriteModel.NewChanges (wm : AzureADIDPWriteModel)
    (name clientID clientSecretString : String) (secretCrypto : Crypto) (scopes : StringSlice)
    (tenant : String) (isEmailVerified : Bool) (options : Zitadel.Options) :
    Except Error (List AzureADIDPChanges) := do
  let changes : List AzureADIDPChanges := []
  let changes ←
    if clientSecretString ≠ "" then
      match Crypt clientSecretString secretCrypto with
      | .error err => Except.error err
      | .ok clientSecret =>
        Except.ok (changes ++ [.ChangeAzureADClientSecret clientSecret])
    else Except.ok changes
  let changes := if wm.Name ≠ name then changes ++ [.ChangeAzureADName name] else changes
  let changes :=
    if wm.ClientID ≠ clientID then changes ++ [.ChangeAzureADClientID clientID]
    else changes
  let changes := if wm.Tenant ≠ tenant then changes ++ [.ChangeAzureADTenant tenant] else changes
  let changes :=
    if wm.IsEmailVerified ≠ isEmailVerified then
      changes ++ [.ChangeAzureADIsEmailVerified isEmailVerified]
    else changes
  let changes := if wm.Scopes ≠ scopes then changes ++ [.ChangeAzureADScopes scopes] else changes
  let opts := wm.Options.Changes options
  let changes := if !opts.IsZero then changes ++ [.ChangeAzureADOptions opts] else changes
  return changes

/-! ## GitHubIDPWriteModel -/

/-- The write model of a GitHub provider. -/
structure GitHubIDPWriteModel extends WriteModel where
  ID : String
  Name : String
  ClientID : String
  ClientSecret : Option CryptoValue
  Scopes : StringSlice
  Options : Zitadel.Options
  State : IDPState
deriving Repr

/-- An added event overwrites every configuration field and activates the model. -/
def GitHubIDPWriteModel.reduceAddedEvent (wm : GitHubIDPWriteModel)
    (e : GitHubIDPAddedEvent) : GitHubIDPWriteModel :=
  { wm with
    Name := e.Name
    ClientID := e.ClientID
    ClientSecret := e.ClientSecret
    Scopes := e.Scopes
    Options := e.Options
    State := .IDPStateActive }

/-- A changed event overwrites the fields it carries. -/
def GitHubIDPWriteModel.reduceChangedEvent (wm : GitHubIDPWriteModel)
    (e : GitHubIDPChangedEvent) : GitHubIDPWriteModel :=
  { wm with
    Name := assignIfSet e.Name wm.Name
    ClientID := assignIfSet e.ClientID wm.ClientID
    ClientSecret := assignIfNonNil e.ClientSecret wm.ClientSecret
    Scopes := assignIfNonNil e.Scopes wm.Scopes
    Options := wm.Options.ReduceChanges e.OptionChanges }

/-- The body of the loop of `Reduce`: the type switch on one event. -/
def GitHubIDPWriteModel.reduceEvent (wm : GitHubIDPWriteModel) (event : Event) :
    GitHubIDPWriteModel :=
  match event.pkg, event.payload with
  | .plain, .GitHubIDPAdded e => wm.reduceAddedEvent e
  | .plain, .GitHubIDPChanged e => wm.reduceChangedEvent e
  | .plain, .Removed _ => { wm with State := .IDPStateRemoved }
  | _, _ => wm

/-- The event types named in the switch of `GitHubIDPWriteModel.Reduce`. -/
def GitHubIDPWriteModel.switchTypes : List (EventPackage × EventKind) :=
  [(.plain, .GitHubIDPAddedEvent), (.plain, .GitHubIDPChangedEvent), (.plain, .RemovedEvent)]

/-- Folds the buffered events in order, then hands over to the embedded base. -/
def GitHubIDPWriteModel.Reduce (wm : GitHubIDPWriteModel) :
    Except Error GitHubIDPWriteModel :=
  let folded := wm.Events.foldl GitHubIDPWriteModel.reduceEvent wm
  match folded.toWriteModel.Reduce with
  | .error err => .error err
  | .ok base => .ok { folded with toWriteModel := base }

/-- The entries of a change set of this variant (`idp.GitHubIDPChanges`): each `Change…`
function of `repository/idp`, with the value it was called with. -/
inductive GitHubIDPChanges where
  | ChangeGitHubClientSecret (clientSecret : Option CryptoValue)
  | ChangeGitHubName (name : String)
  | ChangeGitHubClientID (clientID : String)
  | ChangeGitHubScopes (scopes : StringSlice)
  | ChangeGitHubOptions (options : OptionChanges)
deriving DecidableEq, Repr

/-- Diffs the stored configuration against the desired one. -/
def GitHubIDPWriteModel.NewChanges (wm : GitHubIDPWriteModel)
    (name clientID clientSecretString : String) (secretCrypto : Crypto) (scopes : StringSlice)
    (options : Zitadel.Options) :
    Except Error (List GitHubIDPChanges) := do
  let changes : List GitHubIDPChanges := []
  let changes ←
    if clientSecretString ≠ "" then
      match Crypt clientSecretString secretCrypto with
      | .error err => Except.error err
      | .ok clientSecret =>
        Except.ok (changes ++ [.ChangeGitHubClientSecret clientSecret])
    else Except.ok changes
  let changes := if wm.Name ≠ name then changes ++ [.ChangeGitHubName name] else changes
  let changes :=
    if wm.ClientID ≠ clientID then changes ++ [.ChangeGitHubClientID clientID]
    else changes
  let changes := if wm.Scopes ≠ scopes then changes ++ [.ChangeGitHubScopes scopes] else changes
  let opts := wm.Options.Changes options
  let changes := if !opts.IsZero then changes ++ [.ChangeGitHubOptions opts] else changes
  return changes

/-! ## GitHubEnterpriseIDPWriteModel -/

/-- The write model of a GitHub Enterprise provider. -/
structure GitHubEnterpriseIDPWriteModel extends WriteModel where
  ID : String
  Name : String
  ClientID : String
  ClientSecret : Option CryptoValue
  AuthorizationEndpoint : String
  TokenEndpoint : String
  UserEndpoint : String
  Scopes : StringSlice
  Options : Zitadel.Options
  State : IDPState
deriving Repr

/-- An added event overwrites every configuration field and activates the model. -/
def GitHubEnterpriseIDPWriteModel.reduceAddedEvent (wm : GitHubEnterpriseIDPWriteModel)
    (e : GitHubEnterpriseIDPAddedEvent) : GitHubEnterpriseIDPWriteModel :=
  { wm with
    Name := e.Name
    ClientID := e.ClientID
    ClientSecret := e.ClientSecret
    AuthorizationEndpoint := e.AuthorizationEndpoint
    TokenEndpoint := e.TokenEndpoint
    UserEndpoint := e.UserEndpoint
    Scopes := e.Scopes
    Options := e.Options
    State := .IDPStateActive }

/-- A changed event overwrites the fields it carries. -/
def GitHubEnterpriseIDPWriteModel.reduceChangedEvent (wm : GitHubEnterpriseIDPWriteModel)
    (e : GitHubEnterpriseIDPChangedEvent) : GitHubEnterpriseIDPWriteModel :=
  { wm with
    ClientID := assignIfSet e.ClientID wm.ClientID
    ClientSecret := assignIfNonNil e.ClientSecret wm.ClientSecret
    Name := assignIfSet e.Name wm.Name
    AuthorizationEndpoint := assignIfSet e.AuthorizationEndpoint wm.AuthorizationEndpoint
    TokenEndpoint := assignIfSet e.TokenEndpoint wm.TokenEndpoint
    UserEndpoint := assignIfSet e.UserEndpoint wm.UserEndpoint
    Scopes := assignIfNonNil e.Scopes wm.Scopes
    Options := wm.Options.ReduceChanges e.OptionChanges }

/-- The body of the loop of `Reduce`: the type switch on one event. -/
def GitHubEnterpriseIDPWriteModel.reduceEvent (wm : GitHubEnterpriseIDPWriteModel) (event : Event) :
    GitHubEnterpriseIDPWriteModel :=
  match event.pkg, event.payload with
  | .plain, .GitHubEnterpriseIDPAdded e => wm.reduceAddedEvent e
  | .plain, .GitHubEnterpriseIDPChanged e => wm.reduceChangedEvent e
  | .plain, .Removed _ => { wm with State := .IDPStateRemoved }
  | _, _ => wm

/-- The event types named in the switch of `GitHubEnterpriseIDPWriteModel.Reduce`. -/
def GitHubEnterpriseIDPWriteModel.switchTypes : List (EventPackage × EventKind) :=
  [(.plain, .GitHubEnterpriseIDPAddedEvent), (.plain, .GitHubEnterpriseIDPChangedEvent),
   (.plain, .RemovedEvent)]

/-- Folds the buffered events in order, then hands over to the embedded base. -/
def GitHubEnterpriseIDPWriteModel.Reduce (wm : GitHubEnterpriseIDPWriteModel) :
    Except Error GitHubEnterpriseIDPWriteModel :=
  let folded := wm.Events.foldl GitHubEnterpriseIDPWriteModel.reduceEvent wm
  match folded.toWriteModel.Reduce with
  | .error err => .error err
  | .ok base => .ok { folded with toWriteModel := base }

/-- The entries of a change set of this variant (`idp.GitHubEnterpriseIDPChanges`): each `Change…`
function of `repository/idp`, with the value it was called with. -/
inductive GitHubEnterpriseIDPChanges where
  | ChangeGitHubEnterpriseClientSecret (clientSecret : Option CryptoValue)
  | ChangeGitHubEnterpriseClientID (clientID : String)
  | ChangeGitHubEnterpriseName (name : String)
  | ChangeGitHubEnterpriseAuthorizationEndpoint (authorizationEndpoint : String)
  | ChangeGitHubEnterpriseTokenEndpoint (tokenEndpoint : String)
  | ChangeGitHubEnterpriseUserEndpoint (userEndpoint : String)
  | ChangeGitHubEnterpriseScopes (scopes : StringSlice)
  | ChangeGitHubEnterpriseOptions (options : OptionChanges)
deriving DecidableEq, Repr

/-- Diffs the stored configuration against the desired one. -/
def GitHubEnterpriseIDPWriteModel.NewChanges (wm : GitHubEnterpriseIDPWriteModel)
    (name clientID clientSecretString : String) (secretCrypto : Crypto)
    (authorizationEndpoint tokenEndpoint userEndpoint : String) (scopes : StringSlice)
    (options : Zitadel.Options) :
    Except Error (List GitHubEnterpriseIDPChanges) := do
  let changes : List GitHubEnterpriseIDPChanges := []
  let changes ←
    if clientSecretString ≠ "" then
      match Crypt clientSecretString secretCrypto with
      | .error err => Except.error err
      | .ok clientSecret =>
        Except.ok (changes ++ [.ChangeGitHubEnterpriseClientSecret clientSecret])
    else Except.ok changes
  let changes :=
    if wm.ClientID ≠ clientID then changes ++ [.ChangeGitHubEnterpriseClientID clientID]
    else changes
  let changes := if wm.Name ≠ name then changes ++ [.ChangeGitHubEnterpriseName name] else changes
  let changes :=
    if wm.AuthorizationEndpoint ≠ authorizationEndpoint then
      changes ++ [.ChangeGitHubEnterpriseAuthorizationEndpoint authorizationEndpoint]
    else changes
  let changes :=
    if wm.TokenEndpoint ≠ tokenEndpoint then
      changes ++ [.ChangeGitHubEnterpriseTokenEndpoint tokenEndpoint]
    else changes
  let changes :=
    if wm.UserEndpoint ≠ userEndpoint then
      changes ++ [.ChangeGitHubEnterpriseUserEndpoint userEndpoint]
    else changes
  let changes :=
    if wm.Scopes ≠ scopes then changes ++ [.ChangeGitHubEnterpriseScopes scopes]
    else changes
  let opts := wm.Options.Changes options
  let changes := if !opts.IsZero then changes ++ [.ChangeGitHubEnterpriseOptions opts] else changes
  return changes

/-! ## GitLabIDPWriteModel -/

/-- The write model of a GitLab provider. -/
structure GitLabIDPWriteModel extends WriteModel where
  ID : String
  Name : String
  ClientID : String
  ClientSecret : Option CryptoValue
  Scopes : StringSlice
  Options : Zitadel.Options
  State : IDPState
deriving Repr

/-- An added event overwrites every configuration field and activates the model. -/
def GitLabIDPWriteModel.reduceAddedEvent (wm : GitLabIDPWriteModel)
    (e : GitLabIDPAddedEvent) : GitLabIDPWriteModel :=
  { wm with
    Name := e.Name
    ClientID := e.ClientID
    ClientSecret := e.ClientSecret
    Scopes := e.Scopes
    Options := e.Options
    State := .IDPStateActive }

/-- A changed event overwrites the fields it carries. -/
def GitLabIDPWriteModel.reduceChangedEvent (wm : GitLabIDPWriteModel)
    (e : GitLabIDPChangedEvent) : GitLabIDPWriteModel :=
  { wm with
    Name := assignIfSet e.Name wm.Name
    ClientID := assignIfSet e.ClientID wm.ClientID
    ClientSecret := assignIfNonNil e.ClientSecret wm.ClientSecret
    Scopes := assignIfNonNil e.Scopes wm.Scopes
    Options := wm.Options.ReduceChanges e.OptionChanges }

/-- The body of the loop of `Reduce`: the type switch on one event. -/
def GitLabIDPWriteModel.reduceEvent (wm : GitLabIDPWriteModel) (event : Event) :
    GitLabIDPWriteModel :=
  match event.pkg, event.payload with
  | .plain, .GitLabIDPAdded e => wm.reduceAddedEvent e
  | .plain, .GitLabIDPChanged e => wm.reduceChangedEvent e
  | .plain, .Removed _ => { wm with State := .IDPStateRemoved }
  | _, _ => wm

/-- The event types named in the switch of `GitLabIDPWriteModel.Reduce`. -/
def GitLabIDPWriteModel.switchTypes : List (EventPackage × EventKind) :=
  [(.plain, .GitLabIDPAddedEvent), (.plain, .GitLabIDPChangedEvent), (.plain, .RemovedEvent)]

/-- Folds the buffered events in order, then hands over to the embedded base. -/
def GitLabIDPWriteModel.Reduce (wm : GitLabIDPWriteModel) :
    Except Error GitLabIDPWriteModel :=
  let folded := wm.Events.foldl GitLabIDPWriteModel.reduceEvent wm
  match folded.toWriteModel.Reduce with
  | .error err => .error err
  | .ok base => .ok { folded with toWriteModel := base }

/-- The entries of a change set of this variant (`idp.GitLabIDPChanges`): each `Change…`
function of `repository/idp`, with the value it was called with. -/
inductive GitLabIDPChanges where
  | ChangeGitLabClientSecret (clientSecret : Option CryptoValue)
  | ChangeGitLabName (name : String)
  | ChangeGitLabClientID (clientID : String)
  | ChangeGitLabScopes (scopes : StringSlice)
  | ChangeGitLabOptions (options : OptionChanges)
deriving DecidableEq, Repr

/-- Diffs the stored configuration against the desired one. -/
def GitLabIDPWriteModel.NewChanges (wm : GitLabIDPWriteModel)
    (name clientID clientSecretString : String) (secretCrypto : Crypto) (scopes : StringSlice)
    (options : Zitadel.Options) :
    Except Error (List GitLabIDPChanges) := do
  let changes : List GitLabIDPChanges := []
  let changes ←
    if clientSecretString ≠ "" then
      match Crypt clientSecretString secretCrypto with
      | .error err => Except.error err
      | .ok clientSecret =>
        Except.ok (changes ++ [.ChangeGitLabClientSecret clientSecret])
    else Except.ok changes
  let changes := if wm.Name ≠ name then changes ++ [.ChangeGitLabName name] else changes
  let changes :=
    if wm.ClientID ≠ clientID then changes ++ [.ChangeGitLabClientID clientID]
    else changes
  let changes := if wm.Scopes ≠ scopes then changes ++ [.ChangeGitLabScopes scopes] else changes
  let opts := wm.Options.Changes options
  let changes := if !opts.IsZero then changes ++ [.ChangeGitLabOptions opts] else changes
  return changes

/-! ## GitLabSelfHostedIDPWriteModel -/

/-- The write model of a self-hosted GitLab provider. -/
structure GitLabSelfHostedIDPWriteModel extends WriteModel where
  ID : String
  Name : String
  Issuer : String
  ClientID : String
  ClientSecret : Option CryptoValue
  Scopes : StringSlice
  Options : Zitadel.Options
  State : IDPState
deriving Repr

/-- An added event overwrites every configuration field and activates the model. -/
def GitLabSelfHostedIDPWriteModel.reduceAddedEvent (wm : GitLabSelfHostedIDPWriteModel)
    (e : GitLabSelfHostedIDPAddedEvent) : GitLabSelfHostedIDPWriteModel :=
  { wm with
    Name := e.Name
    Issuer := e.Issuer
    ClientID := e.ClientID
    ClientSecret := e.ClientSecret
    Scopes := e.Scopes
    Options := e.Options
    State := .IDPStateActive }

/-- A changed event overwrites the fields it carries. -/
def GitLabSelfHostedIDPWriteModel.reduceChangedEvent (wm : GitLabSelfHostedIDPWriteModel)
    (e : GitLabSelfHostedIDPChangedEvent) : GitLabSelfHostedIDPWriteModel :=
  { wm with
    ClientID := assignIfSet e.ClientID wm.ClientID
    ClientSecret := assignIfNonNil e.ClientSecret wm.ClientSecret
    Name := assignIfSet e.Name wm.Name
    Issuer := assignIfSet e.Issuer wm.Issuer
    Scopes := assignIfNonNil e.Scopes wm.Scopes
    Options := wm.Options.ReduceChanges e.OptionChanges }

/-- The body of the loop of `Reduce`: the type switch on one event. -/
def GitLabSelfHostedIDPWriteModel.reduceEvent (wm : GitLabSelfHostedIDPWriteModel) (event : Event) :
    GitLabSelfHostedIDPWriteModel :=
  match event.pkg, event.payload with
  | .plain, .GitLabSelfHostedIDPAdded e => wm.reduceAddedEvent e
  | .plain, .GitLabSelfHostedIDPChanged e => wm.reduceChangedEvent e
  | .plain, .Removed _ => { wm with State := .IDPStateRemoved }
  | _, _ => wm

/-- The event types named in the switch of `GitLabSelfHostedIDPWriteModel.Reduce`. -/
def GitLabSelfHostedIDPWriteModel.switchTypes : List (EventPackage × EventKind) :=
  [(.plain, .GitLabSelfHostedIDPAddedEvent), (.plain, .GitLabSelfHostedIDPChangedEvent),
   (.plain, .RemovedEvent)]

/-- Folds the buffered events in order, then hands over to the embedded base. -/
def GitLabSelfHostedIDPWriteModel.Reduce (wm : GitLabSelfHostedIDPWriteModel) :
    Except Error GitLabSelfHostedIDPWriteModel :=
  let folded := wm.Events.foldl GitLabSelfHostedIDPWriteModel.reduceEvent wm
  match folded.toWriteModel.Reduce with
  | .error err => .error err
  | .ok base => .ok { folded with toWriteModel := base }

/-- The entries of a change set of this variant (`idp.GitLabSelfHostedIDPChanges`): each `Change…`
function of `repository/idp`, with the value it was called with. -/
inductive GitLabSelfHostedIDPChanges where
  | ChangeGitLabSelfHostedClientSecret (clientSecret : Option CryptoValue)
  | ChangeGitLabSelfHostedClientID (clientID : String)
  | ChangeGitLabSelfHostedName (name : String)
  | ChangeGitLabSelfHostedIssuer (issuer : String)
  | ChangeGitLabSelfHostedScopes (scopes : StringSlice)
  | ChangeGitLabSelfHostedOptions (options : OptionChanges)
deriving DecidableEq, Repr

/-- Diffs the stored configuration against the desired one. -/
def GitLabSelfHostedIDPWriteModel.NewChanges (wm : GitLabSelfHostedIDPWriteModel)
    (name issuer clientID clientSecretString : String) (secretCrypto : Crypto)
    (scopes : StringSlice) (options : Zitadel.Options) :
    Except Error (List GitLabSelfHostedIDPChanges) := do
  let changes : List GitLabSelfHostedIDPChanges := []
  let changes ←
    if clientSecretString ≠ "" then
      match Crypt clientSecretString secretCrypto with
      | .error err => Except.error err
      | .ok clientSecret =>
        Except.ok (changes ++ [.ChangeGitLabSelfHostedClientSecret clientSecret])
    else Except.ok changes
  let changes :=
    if wm.ClientID ≠ clientID then changes ++ [.ChangeGitLabSelfHostedClientID clientID]
    else changes
  let changes := if wm.Name ≠ name then changes ++ [.ChangeGitLabSelfHostedName name] else changes
  let changes :=
    if wm.Issuer ≠ issuer then changes ++ [.ChangeGitLabSelfHostedIssuer issuer]
    else changes
  let changes :=
    if wm.Scopes ≠ scopes then changes ++ [.ChangeGitLabSelfHostedScopes scopes]
    else changes
  let opts := wm.Options.Changes options
  let changes := if !opts.IsZero then changes ++ [.ChangeGitLabSelfHostedOptions opts] else changes
  return changes

/-! ## GoogleIDPWriteModel -/

/-- The write model of a Google provider. -/
structure GoogleIDPWriteModel extends WriteModel where
  ID : String
  Name : String
  ClientID : String
  ClientSecret : Option CryptoValue
  Scopes : StringSlice
  Options : Zitadel.Options
  State : IDPState
deriving Repr

/-- An added event overwrites every configuration field and activates the model. -/
def GoogleIDPWriteModel.reduceAddedEvent (wm : GoogleIDPWriteModel)
    (e : GoogleIDPAddedEvent) : GoogleIDPWriteModel :=
  { wm with
    Name := e.Name
    ClientID := e.ClientID
    ClientSecret := e.ClientSecret
    Scopes := e.Scopes
    Options := e.Options
    State := .IDPStateActive }

/-- A changed event overwrites the fields it carries. -/
def GoogleIDPWriteModel.reduceChangedEvent (wm : GoogleIDPWriteModel)
    (e : GoogleIDPChangedEvent) : GoogleIDPWriteModel :=
  { wm with
    Name := assignIfSet e.Name wm.Name
    ClientID := assignIfSet e.ClientID wm.ClientID
    ClientSecret := assignIfNonNil e.ClientSecret wm.ClientSecret
    Scopes := assignIfNonNil e.Scopes wm.Scopes
    Options := wm.Options.ReduceChanges e.OptionChanges }

/-- The body of the loop of `Reduce`: the type switch on one event. -/
def GoogleIDPWriteModel.reduceEvent (wm : GoogleIDPWriteModel) (event : Event) :
    GoogleIDPWriteModel :=
  match event.pkg, event.payload with
  | .plain, .GoogleIDPAdded e => wm.reduceAddedEvent e
  | .plain, .GoogleIDPChanged e => wm.reduceChangedEvent e
  | .plain, .OIDCIDPMigratedGoogle e => wm.reduceAddedEvent e.GoogleIDPAddedEvent
  | .plain, .Removed _ => { wm with State := .IDPStateRemoved }
  | _, _ => wm

/-- The event types named in the switch of `GoogleIDPWriteModel.Reduce`. -/
def GoogleIDPWriteModel.switchTypes : List (EventPackage × EventKind) :=
  [(.plain, .GoogleIDPAddedEvent), (.plain, .GoogleIDPChangedEvent),
   (.plain, .OIDCIDPMigratedGoogleEvent), (.plain, .RemovedEvent)]

/-- Folds the buffered events in order, then hands over to the embedded base. -/
def GoogleIDPWriteModel.Reduce (wm : GoogleIDPWriteModel) :
    Except Error GoogleIDPWriteModel :=
  let folded := wm.Events.foldl GoogleIDPWriteModel.reduceEvent wm
  match folded.toWriteModel.Reduce with
  | .error err => .error err
  | .ok base => .ok { folded with toWriteModel := base }

/-- The entries of a change set of this variant (`idp.GoogleIDPChanges`): each `Change…`
function of `repository/idp`, with the value it was called with. -/
inductive GoogleIDPChanges where
  | ChangeGoogleClientSecret (clientSecret : Option CryptoValue)
  | ChangeGoogleName (name : String)
  | ChangeGoogleClientID (clientID : String)
  | ChangeGoogleScopes (scopes : StringSlice)
  | ChangeGoogleOptions (options : OptionChanges)
deriving DecidableEq, Repr

/-- Diffs the stored configuration against the desired one. -/
def GoogleIDPWriteModel.NewChanges (wm : GoogleIDPWriteModel)
    (name clientID clientSecretString : String) (secretCrypto : Crypto) (scopes : StringSlice)
    (options : Zitadel.Options) :
    Except Error (List GoogleIDPChanges) := do
  let changes : List GoogleIDPChanges := []
  let changes ←
    if clientSecretString ≠ "" then
      match Crypt clientSecretString secretCrypto with
      | .error err => Except.error err
      | .ok clientSecret =>
        Except.ok (changes ++ [.ChangeGoogleClientSecret clientSecret])
    else Except.ok changes
  let changes := if wm.Name ≠ name then changes ++ [.ChangeGoogleName name] else changes
  let changes :=
    if wm.ClientID ≠ clientID then changes ++ [.ChangeGoogleClientID clientID]
    else changes
  let changes := if wm.Scopes ≠ scopes then changes ++ [.ChangeGoogleScopes scopes] else changes
  let opts := wm.Options.Changes options
  let changes := if !opts.IsZero then changes ++ [.ChangeGoogleOptions opts] else changes
  return changes

/-! ## LDAPIDPWriteModel -/

/-- The write model of an LDAP provider. -/
structure LDAPIDPWriteModel extends WriteModel where
  ID : String
  Name : String
  Servers : StringSlice
  StartTLS : Bool
  BaseDN : String
  BindDN : String
  BindPassword : Option CryptoValue
  UserBase : String
  UserObjectClasses : StringSlice
  UserFilters : StringSlice
  Timeout : Int
  LDAPAttributes : Zitadel.LDAPAttributes
  Options : Zitadel.Options
  State : IDPState
deriving Repr

/-- An added event overwrites every configuration field and activates the model. -/
def LDAPIDPWriteModel.reduceAddedEvent (wm : LDAPIDPWriteModel)
    (e : LDAPIDPAddedEvent) : LDAPIDPWriteModel :=
  { wm with
    Name := e.Name
    Servers := e.Servers
    StartTLS := e.StartTLS
    BaseDN := e.BaseDN
    BindDN := e.BindDN
    BindPassword := e.BindPassword
    UserBase := e.UserBase
    UserObjectClasses := e.UserObjectClasses
    UserFilters := e.UserFilters
    Timeout := e.Timeout
    LDAPAttributes := e.LDAPAttributes
    Options := e.Options
    State := .IDPStateActive }

/-- A changed event overwrites the fields it carries; the source tests and assigns
`Name` twice in a row. -/
def LDAPIDPWriteModel.reduceChangedEvent (wm : LDAPIDPWriteModel)
    (e : LDAPIDPChangedEvent) : LDAPIDPWriteModel :=
  { wm with
    Name := assignIfSet e.Name (assignIfSet e.Name wm.Name)
    Servers := assignIfNonNil e.Servers wm.Servers
    StartTLS := assignIfSet e.StartTLS wm.StartTLS
    BaseDN := assignIfSet e.BaseDN wm.BaseDN
    BindDN := assignIfSet e.BindDN wm.BindDN
    BindPassword := assignIfNonNil e.BindPassword wm.BindPassword
    UserBase := assignIfSet e.UserBase wm.UserBase
    UserObjectClasses := assignIfNonNil e.UserObjectClasses wm.UserObjectClasses
    UserFilters := assignIfNonNil e.UserFilters wm.UserFilters
    Timeout := assignIfSet e.Timeout wm.Timeout
    LDAPAttributes := wm.LDAPAttributes.ReduceChanges e.LDAPAttributeChanges
    Options := wm.Options.ReduceChanges e.OptionChanges }

/-- The body of the loop of `Reduce`: the type switch on one event. -/
def LDAPIDPWriteModel.reduceEvent (wm : LDAPIDPWriteModel) (event : Event) :
    LDAPIDPWriteModel :=
  match event.pkg, event.payload with
  | .plain, .LDAPIDPAdded e => if wm.ID ≠ e.ID then wm else wm.reduceAddedEvent e
  | .plain, .LDAPIDPChanged e => if wm.ID ≠ e.ID then wm else wm.reduceChangedEvent e
  | .plain, .Removed e => if wm.ID ≠ e.ID then wm else { wm with State := .IDPStateRemoved }
  | _, _ => wm

/-- The event types named in the switch of `LDAPIDPWriteModel.Reduce`. -/
def LDAPIDPWriteModel.switchTypes : List (EventPackage × EventKind) :=
  [(.plain, .LDAPIDPAddedEvent), (.plain, .LDAPIDPChangedEvent), (.plain, .RemovedEvent)]

/-- Folds the buffered events in order, then hands over to the embedded base. -/
def LDAPIDPWriteModel.Reduce (wm : LDAPIDPWriteModel) :
    Except Error LDAPIDPWriteModel :=
  let folded := wm.Events.foldl LDAPIDPWriteModel.reduceEvent wm
  match folded.toWriteModel.Reduce with
  | .error err => .error err
  | .ok base => .ok { folded with toWriteModel := base }

/-- The entries of a change set of this variant (`idp.LDAPIDPChanges`): each `Change…`
function of `repository/idp`, with the value it was called with. -/
inductive LDAPIDPChanges where
  | ChangeLDAPBindPassword (password : Option CryptoValue)
  | ChangeLDAPName (name : String)
  | ChangeLDAPServers (servers : StringSlice)
  | ChangeLDAPStartTLS (startTLS : Bool)
  | ChangeLDAPBaseDN (baseDN : String)
  | ChangeLDAPBindDN (bindDN : String)
  | ChangeLDAPUserBase (userBase : String)
  | ChangeLDAPUserObjectClasses (userObjectClasses : StringSlice)
  | ChangeLDAPUserFilters (userFilters : StringSlice)
  | ChangeLDAPTimeout (timeout : Int)
  | ChangeLDAPAttributes (attributes : LDAPAttributeChanges)
  | ChangeLDAPOptions (options : OptionChanges)
deriving DecidableEq, Repr

/-- Diffs the stored configuration against the desired one. -/
def LDAPIDPWriteModel.NewChanges (wm : LDAPIDPWriteModel) (name : String) (servers : StringSlice)
    (startTLS : Bool) (baseDN bindDN bindPassword userBase : String)
    (userObjectClasses userFilters : StringSlice) (timeout : Int) (secretCrypto : Crypto)
    (attributes : Zitadel.LDAPAttributes) (options : Zitadel.Options) :
    Except Error (List LDAPIDPChanges) := do
  let changes : List LDAPIDPChanges := []
  let changes ←
    if bindPassword ≠ "" then
      match Crypt bindPassword secretCrypto with
      | .error err => Except.error err
      | .ok cryptedPassword =>
        Except.ok (changes ++ [.ChangeLDAPBindPassword cryptedPassword])
    else Except.ok changes
  let changes := if wm.Name ≠ name then changes ++ [.ChangeLDAPName name] else changes
  let changes := if wm.Servers ≠ servers then changes ++ [.ChangeLDAPServers servers] else changes
  let changes :=
    if wm.StartTLS ≠ startTLS then changes ++ [.ChangeLDAPStartTLS startTLS]
    else changes
  let changes := if wm.BaseDN ≠ baseDN then changes ++ [.ChangeLDAPBaseDN baseDN] else changes
  let changes := if wm.BindDN ≠ bindDN then changes ++ [.ChangeLDAPBindDN bindDN] else changes
  let changes :=
    if wm.UserBase ≠ userBase then changes ++ [.ChangeLDAPUserBase userBase]
    else changes
  let changes :=
    if wm.UserObjectClasses ≠ userObjectClasses then
      changes ++ [.ChangeLDAPUserObjectClasses userObjectClasses]
    else changes
  let changes :=
    if wm.UserFilters ≠ userFilters then changes ++ [.ChangeLDAPUserFilters userFilters]
    else changes
  let changes := if wm.Timeout ≠ timeout then changes ++ [.ChangeLDAPTimeout timeout] else changes
  let attrs := wm.LDAPAttributes.Changes attributes
  let changes := if !attrs.IsZero then changes ++ [.ChangeLDAPAttributes attrs] else changes
  let opts := wm.Options.Changes options
  let changes := if !opts.IsZero then changes ++ [.ChangeLDAPOptions opts] else changes
  return changes

/-! ## IDPRemoveWriteModel -/

/-- The write model that only tracks whether the provider `ID` exists. -/
structure IDPRemoveWriteModel extends WriteModel where
  ID : String
  State : IDPState
deriving Repr

/-- An added event of the watched provider activates the model. -/
def IDPRemoveWriteModel.reduceAdded (wm : IDPRemoveWriteModel) (id : String) :
    IDPRemoveWriteModel :=
  if wm.ID ≠ id then wm else { wm with State := .IDPStateActive }

/-- A removed event of the watched provider removes the model. -/
def IDPRemoveWriteModel.reduceRemoved (wm : IDPRemoveWriteModel) (id : String) :
    IDPRemoveWriteModel :=
  if wm.ID ≠ id then wm else { wm with State := .IDPStateRemoved }

/-- The body of the loop of `Reduce`: the type switch on one event. -/
def IDPRemoveWriteModel.reduceEvent (wm : IDPRemoveWriteModel) (event : Event) :
    IDPRemoveWriteModel :=
  match event.pkg, event.payload with
  | .plain, .OAuthIDPAdded e => wm.reduceAdded e.ID
  | .plain, .OIDCIDPAdded e => wm.reduceAdded e.ID
  | .plain, .JWTIDPAdded e => wm.reduceAdded e.ID
  | .plain, .AzureADIDPAdded e => wm.reduceAdded e.ID
  | .plain, .GitHubIDPAdded e => wm.reduceAdded e.ID
  | .plain, .GitHubEnterpriseIDPAdded e => wm.reduceAdded e.ID
  | .plain, .GitLabIDPAdded e => wm.reduceAdded e.ID
  | .plain, .GitLabSelfHostedIDPAdded e => wm.reduceAdded e.ID
  | .plain, .GoogleIDPAdded e => wm.reduceAdded e.ID
  | .plain, .LDAPIDPAdded e => wm.reduceAdded e.ID
  | .plain, .Removed e => wm.reduceRemoved e.ID
  | .plain, .IDPConfigAdded e => wm.reduceAdded e.ConfigID
  | .plain, .IDPConfigRemoved e => wm.reduceRemoved e.ConfigID
  | _, _ => wm

/-- The event types named in the switch of `IDPRemoveWriteModel.Reduce`. -/
def IDPRemoveWriteModel.switchTypes : List (EventPackage × EventKind) :=
  [(.plain, .OAuthIDPAddedEvent), (.plain, .OIDCIDPAddedEvent), (.plain, .JWTIDPAddedEvent),
   (.plain, .AzureADIDPAddedEvent), (.plain, .GitHubIDPAddedEvent),
   (.plain, .GitHubEnterpriseIDPAddedEvent), (.plain, .GitLabIDPAddedEvent),
   (.plain, .GitLabSelfHostedIDPAddedEvent), (.plain, .GoogleIDPAddedEvent),
   (.plain, .LDAPIDPAddedEvent), (.plain, .RemovedEvent), (.plain, .IDPConfigAddedEvent),
   (.plain, .IDPConfigRemovedEvent)]

/-- Folds the buffered events in order, then hands over to the embedded base. -/
def IDPRemoveWriteModel.Reduce (wm : IDPRemoveWriteModel) :
    Except Error IDPRemoveWriteModel :=
  let folded := wm.Events.foldl IDPRemoveWriteModel.reduceEvent wm
  match folded.toWriteModel.Reduce with
  | .error err => .error err
  | .ok base => .ok { folded with toWriteModel := base }

/-! ## IDPTypeWriteModel -/

/-- The write model that tracks the kind and the owner of the provider `ID`; the Go
field `Type` is spelled `Type_`, `Type` being reserved. -/
structure IDPTypeWriteModel extends WriteModel where
  ID : String
  Type_ : IDPType
  State : IDPState
deriving Repr

/-- An added event of the watched provider records its kind and its owner. -/
def IDPTypeWriteModel.reduceAdded (wm : IDPTypeWriteModel) (id : String) (t : IDPType)
    (agg : Aggregate) : IDPTypeWriteModel :=
  if wm.ID ≠ id then wm
  else
    { wm with
      Type_ := t
      State := .IDPStateActive
      ResourceOwner := agg.ResourceOwner
      InstanceID := agg.InstanceID }

/-- A removed event of the watched provider resets kind and owner. -/
def IDPTypeWriteModel.reduceRemoved (wm : IDPTypeWriteModel) (id : String) :
    IDPTypeWriteModel :=
  if wm.ID ≠ id then wm
  else
    { wm with
      Type_ := .IDPTypeUnspecified
      State := .IDPStateRemoved
      ResourceOwner := ""
      InstanceID := "" }

/-- The legacy case of the switch: an `IDPConfigAddedEvent` counts as OIDC or JWT by
its `Typ` and is skipped otherwise. -/
def IDPTypeWriteModel.reduceIDPConfigAdded (wm : IDPTypeWriteModel) (e : IDPConfigAddedEvent)
    (agg : Aggregate) : IDPTypeWriteModel :=
  if e.Typ = .IDPConfigTypeOIDC then wm.reduceAdded e.ConfigID .IDPTypeOIDC agg
  else if e.Typ = .IDPConfigTypeJWT then wm.reduceAdded e.ConfigID .IDPTypeJWT agg
  else wm

/-- The body of the loop of `Reduce`: the type switch on one event, which names the
event types of the instance and of the org package. -/
def IDPTypeWriteModel.reduceEvent (wm : IDPTypeWriteModel) (event : Event) :
    IDPTypeWriteModel :=
  match event.pkg, event.payload with
  | .instancePkg, .OAuthIDPAdded e => wm.reduceAdded e.ID .IDPTypeOAuth event.Aggregate
  | .orgPkg, .OAuthIDPAdded e => wm.reduceAdded e.ID .IDPTypeOAuth event.Aggregate
  | .instancePkg, .OIDCIDPAdded e => wm.reduceAdded e.ID .IDPTypeOIDC event.Aggregate
  | .orgPkg, .OIDCIDPAdded e => wm.reduceAdded e.ID .IDPTypeOIDC event.Aggregate
  | .instancePkg, .JWTIDPAdded e => wm.reduceAdded e.ID .IDPTypeJWT event.Aggregate
  | .orgPkg, .JWTIDPAdded e => wm.reduceAdded e.ID .IDPTypeJWT event.Aggregate
  | .instancePkg, .AzureADIDPAdded e => wm.reduceAdded e.ID .IDPTypeAzureAD event.Aggregate
  | .orgPkg, .AzureADIDPAdded e => wm.reduceAdded e.ID .IDPTypeAzureAD event.Aggregate
  | .instancePkg, .GitHubIDPAdded e => wm.reduceAdded e.ID .IDPTypeGitHub event.Aggregate
  | .orgPkg, .GitHubIDPAdded e => wm.reduceAdded e.ID .IDPTypeGitHub event.Aggregate
  | .instancePkg, .GitHubEnterpriseIDPAdded e =>
      wm.reduceAdded e.ID .IDPTypeGitHubEnterprise event.Aggregate
  | .orgPkg, .GitHubEnterpriseIDPAdded e =>
      wm.reduceAdded e.ID .IDPTypeGitHubEnterprise event.Aggregate
  | .instancePkg, .GitLabIDPAdded e => wm.reduceAdded e.ID .IDPTypeGitLab event.Aggregate
  | .orgPkg, .GitLabIDPAdded e => wm.reduceAdded e.ID .IDPTypeGitLab event.Aggregate
  | .instancePkg, .GitLabSelfHostedIDPAdded e =>
      wm.reduceAdded e.ID .IDPTypeGitLabSelfHosted event.Aggregate
  | .orgPkg, .GitLabSelfHostedIDPAdded e =>
      wm.reduceAdded e.ID .IDPTypeGitLabSelfHosted event.Aggregate
  | .instancePkg, .GoogleIDPAdded e => wm.reduceAdded e.ID .IDPTypeGoogle event.Aggregate
  | .orgPkg, .GoogleIDPAdded e => wm.reduceAdded e.ID .IDPTypeGoogle event.Aggregate
  | .instancePkg, .LDAPIDPAdded e => wm.reduceAdded e.ID .IDPTypeLDAP event.Aggregate
  | .orgPkg, .LDAPIDPAdded e => wm.reduceAdded e.ID .IDPTypeLDAP event.Aggregate
  | .instancePkg, .Removed e => wm.reduceRemoved e.ID
  | .orgPkg, .Removed e => wm.reduceRemoved e.ID
  | .instancePkg, .IDPConfigAdded e => wm.reduceIDPConfigAdded e event.Aggregate
  | .orgPkg, .IDPConfigAdded e => wm.reduceIDPConfigAdded e event.Aggregate
  | .instancePkg, .IDPConfigRemoved e => wm.reduceRemoved e.ConfigID
  | .orgPkg, .IDPConfigRemoved e => wm.reduceRemoved e.ConfigID
  | _, _ => wm

/-- The event types named in the switch of `IDPTypeWriteModel.Reduce`. -/
def IDPTypeWriteModel.switchTypes : List (EventPackage × EventKind) :=
  [(.instancePkg, .OAuthIDPAddedEvent), (.orgPkg, .OAuthIDPAddedEvent),
   (.instancePkg, .OIDCIDPAddedEvent), (.orgPkg, .OIDCIDPAddedEvent),
   (.instancePkg, .JWTIDPAddedEvent), (.orgPkg, .JWTIDPAddedEvent),
   (.instancePkg, .AzureADIDPAddedEvent), (.orgPkg, .AzureADIDPAddedEvent),
   (.instancePkg, .GitHubIDPAddedEvent), (.orgPkg, .GitHubIDPAddedEvent),
   (.instancePkg, .GitHubEnterpriseIDPAddedEvent), (.orgPkg, .GitHubEnterpriseIDPAddedEvent),
   (.instancePkg, .GitLabIDPAddedEvent), (.orgPkg, .GitLabIDPAddedEvent),
   (.instancePkg, .GitLabSelfHostedIDPAddedEvent), (.orgPkg, .GitLabSelfHostedIDPAddedEvent),
   (.instancePkg, .GoogleIDPAddedEvent), (.orgPkg, .GoogleIDPAddedEvent),
   (.instancePkg, .LDAPIDPAddedEvent), (.orgPkg, .LDAPIDPAddedEvent),
   (.instancePkg, .RemovedEvent), (.orgPkg, .RemovedEvent),
   (.instancePkg, .IDPConfigAddedEvent), (.orgPkg, .IDPConfigAddedEvent),
   (.instancePkg, .IDPConfigRemovedEvent), (.orgPkg, .IDPConfigRemovedEvent)]

/-- Folds the buffered events in order, then hands over to the embedded base. -/
def IDPTypeWriteModel.Reduce (wm : IDPTypeWriteModel) : Except Error IDPTypeWriteModel :=
  let folded := wm.Events.foldl IDPTypeWriteModel.reduceEvent wm
  match folded.toWriteModel.Reduce with
  | .error err => .error err
  | .ok base => .ok { folded with toWriteModel := base }

/-! ## Provider materialization

`ToProvider` builds a runtime client through the protocol client libraries of
`internal/idp/providers`, which are not part of the sources at hand. A constructor call is
recorded with its arguments, and what the libraries return for a call is a parameter. -/

/-- Modelled from the spec: the `crypto.EncryptionAlgorithm` capability handed to
`ToProvider`, as the decryption it computes on a stored `*CryptoValue`. -/
abbrev EncryptionAlgorithm := Option CryptoValue → Except Error String

/-- Modelled from the spec: `crypto.DecryptString(value, alg)` runs the capability on the
stored value and returns what it returns. -/
def DecryptString (value : Option CryptoValue) (alg : EncryptionAlgorithm) :
    Except Error String :=
  alg value

/-- The options of `providers/oauth` that `ToProvider` constructs (`oauth.ProviderOpts`). -/
inductive OAuthProviderOpts where
  | WithCreationAllowed
  | WithLinkingAllowed
  | WithAutoCreation
  | WithAutoUpdate
deriving DecidableEq, Repr

/-- The options of `providers/oidc` that `ToProvider` constructs (`oidc.ProviderOpts`);
`WithRelyingPartyOption` wraps the token-exchange error handler of the Google variant. -/
inductive OIDCProviderOpts where
  | WithSelectAccount
  | WithIDTokenMapping
  | WithCreationAllowed
  | WithLinkingAllowed
  | WithAutoCreation
  | WithAutoUpdate
  | WithRelyingPartyOption
deriving DecidableEq, Repr

/-- The options of `providers/jwt` that `ToProvider` constructs (`jwt.ProviderOpts`). -/
inductive JWTProviderOpts where
  | WithCreationAllowed
  | WithLinkingAllowed
  | WithAutoCreation
  | WithAutoUpdate
deriving DecidableEq, Repr

/-- The options of `providers/azuread` that `ToProvider` constructs
(`azuread.ProviderOptions`). -/
inductive AzureADProviderOptions where
  | WithEmailVerified
  | WithTenant (tenantType : String)
  | WithOAuthOptions (opts : List OAuthProviderOpts)
deriving DecidableEq, Repr

/-- The options of `providers/ldap` that `ToProvider` constructs (`ldap.ProviderOpts`). -/
inductive LDAPProviderOpts where
  | WithoutStartTLS
  | WithCustomIDAttribute (name : String)
  | WithFirstNameAttribute (name : String)
  | WithLastNameAttribute (name : String)
  | WithDisplayNameAttribute (name : String)
  | WithNickNameAttribute (name : String)
  | WithPreferredUsernameAttribute (name : String)
  | WithEmailAttribute (name : String)
  | WithEmailVerifiedAttribute (name : String)
  | WithPhoneAttribute (name : String)
  | WithPhoneVerifiedAttribute (name : String)
  | WithPreferredLanguageAttribute (name : String)
  | WithAvatarURLAttribute (name : String)
  | WithProfileAttribute (name : String)
  | WithCreationAllowed
  | WithLinkingAllowed
  | WithAutoCreation
  | WithAutoUpdate
deriving DecidableEq, Repr

/-- The endpoint of an `oauth2.Config`. -/
structure OAuth2Endpoint where
  AuthURL : String
  TokenURL : String
deriving DecidableEq, Repr

/-- The `oauth2.Config` that the OAuth variant hands to `oauth.New`. -/
structure OAuth2Config where
  ClientID : String
  ClientSecret : String
  Endpoint : OAuth2Endpoint
  RedirectURL : String
  Scopes : StringSlice
deriving DecidableEq, Repr

/-- A call of a protocol client constructor that returns a provider or an error, with the
arguments `ToProvider` passes, in the order of the Go call. The user mapper that
`oauth.New` receives is recorded by the ID attribute it is built from; the default mapper
that `oidc.New` receives is a constant and is left out. -/
inductive ProviderCall where
  | oauthNew (config : OAuth2Config) (name userEndpoint idAttribute : String)
      (opts : List OAuthProviderOpts)
  | oidcNew (name issuer clientID clientSecret redirectURI : String) (scopes : StringSlice)
      (opts : List OIDCProviderOpts)
  | jwtNew (name issuer jwtEndpoint keysEndpoint headerName : String)
      (encryptionAlg : EncryptionAlgorithm) (opts : List JWTProviderOpts)
  | azureadNew (name clientID clientSecret redirectURI : String) (scopes : StringSlice)
      (opts : List AzureADProviderOptions)
  | githubNew (clientID clientSecret redirectURI : String) (scopes : StringSlice)
      (opts : List OAuthProviderOpts)
  | githubNewCustomURL (name clientID clientSecret redirectURI authURL tokenURL
      profileURL : String) (scopes : StringSlice) (opts : List OAuthProviderOpts)
  | gitlabNew (clientID clientSecret redirectURI : String) (scopes : StringSlice)
      (opts : List OIDCProviderOpts)
  | gitlabNewCustomIssuer (name issuer clientID clientSecret redirectURI : String)
      (scopes : StringSlice) (opts : List OIDCProviderOpts)
  | googleNew (clientID clientSecret redirectURI : String) (scopes : StringSlice)
      (opts : List OIDCProviderOpts)

/-- The call of `ldap.New`, which returns a provider and no error. -/
structure LDAPProviderCall where
  name : String
  servers : StringSlice
  baseDN : String
  bindDN : String
  bindPassword : String
  userBase : String
  userObjectClasses : StringSlice
  userFilters : StringSlice
  timeout : Int
  loginUrl : String
  opts : List LDAPProviderOpts
deriving DecidableEq, Repr

/-- The protocol client libraries, as a parameter: what a constructor call returns. -/
structure ProviderLibraries (Provider : Type) where
  construct : ProviderCall → Except Error Provider
  ldapNew : LDAPProviderCall → Provider

/-- Materializes the OAuth provider: decrypts the secret, then calls `oauth.New`. -/
def OAuthIDPWriteModel.ToProvider {Provider : Type} (wm : OAuthIDPWriteModel)
    (lib : ProviderLibraries Provider) (callbackURL : String)
    (idpAlg : EncryptionAlgorithm) : Except Error Provider :=
  match DecryptString wm.ClientSecret idpAlg with
  | .error err => .error err
  | .ok secret =>
    let config : OAuth2Config :=
      { ClientID := wm.ClientID
        ClientSecret := secret
        Endpoint := { AuthURL := wm.AuthorizationEndpoint, TokenURL := wm.TokenEndpoint }
        RedirectURL := callbackURL
        Scopes := wm.Scopes }
    let opts : List OAuthProviderOpts := []
    let opts := if wm.Options.IsCreationAllowed then opts ++ [.WithCreationAllowed] else opts
    let opts := if wm.Options.IsLinkingAllowed then opts ++ [.WithLinkingAllowed] else opts
    let opts := if wm.Options.IsAutoCreation then opts ++ [.WithAutoCreation] else opts
    let opts := if wm.Options.IsAutoUpdate then opts ++ [.WithAutoUpdate] else opts
    lib.construct (.oauthNew config wm.Name wm.UserEndpoint wm.IDAttribute opts)

/-- Materializes the OIDC provider: decrypts the secret, then calls `oidc.New`. -/
def OIDCIDPWriteModel.ToProvider {Provider : Type} (wm : OIDCIDPWriteModel)
    (lib : ProviderLibraries Provider) (callbackURL : String)
    (idpAlg : EncryptionAlgorithm) : Except Error Provider :=
  match DecryptString wm.ClientSecret idpAlg with
  | .error err => .error err
  | .ok secret =>
    let opts : List OIDCProviderOpts := [.WithSelectAccount]
    let opts := if wm.IsIDTokenMapping then opts ++ [.WithIDTokenMapping] else opts
    let opts := if wm.Options.IsCreationAllowed then opts ++ [.WithCreationAllowed] else opts
    let opts := if wm.Options.IsLinkingAllowed then opts ++ [.WithLinkingAllowed] else opts
    let opts := if wm.Options.IsAutoCreation then opts ++ [.WithAutoCreation] else opts
    let opts := if wm.Options.IsAutoUpdate then opts ++ [.WithAutoUpdate] else opts
    lib.construct
      (.oidcNew wm.Name wm.Issuer wm.ClientID secret callbackURL wm.Scopes opts)

/-- Materializes the JWT provider: calls `jwt.New`; there is no secret to decrypt, and the
callback URL is not used. -/
def JWTIDPWriteModel.ToProvider {Provider : Type} (wm : JWTIDPWriteModel)
    (lib : ProviderLibraries Provider) (_callbackURL : String)
    (idpAlg : EncryptionAlgorithm) : Except Error Provider :=
  let opts : List JWTProviderOpts := []
  let opts := if wm.Options.IsCreationAllowed then opts ++ [.WithCreationAllowed] else opts
  let opts := if wm.Options.IsLinkingAllowed then opts ++ [.WithLinkingAllowed] else opts
  let opts := if wm.Options.IsAutoCreation then opts ++ [.WithAutoCreation] else opts
  let opts := if wm.Options.IsAutoUpdate then opts ++ [.WithAutoUpdate] else opts
  lib.construct
    (.jwtNew wm.Name wm.Issuer wm.JWTEndpoint wm.KeysEndpoint wm.HeaderName idpAlg opts)

/-- Materializes the Azure AD provider: decrypts the secret, then calls `azuread.New`. -/
def AzureADIDPWriteModel.ToProvider {Provider : Type} (wm : AzureADIDPWriteModel)
    (lib : ProviderLibraries Provider) (callbackURL : String)
    (idpAlg : EncryptionAlgorithm) : Except Error Provider :=
  match DecryptString wm.ClientSecret idpAlg with
  | .error err => .error err
  | .ok secret =>
    let opts : List AzureADProviderOptions := []
    let opts := if wm.IsEmailVerified then opts ++ [.WithEmailVerified] else opts
    let opts := if wm.Tenant ≠ "" then opts ++ [.WithTenant wm.Tenant] else opts
    let oauthOpts : List OAuthProviderOpts := []
    let oauthOpts := if wm.Options.IsCreationAllowed then oauthOpts ++ [.WithCreationAllowed] else oauthOpts
    let oauthOpts := if wm.Options.IsLinkingAllowed then oauthOpts ++ [.WithLinkingAllowed] else oauthOpts
    let oauthOpts := if wm.Options.IsAutoCreation then oauthOpts ++ [.WithAutoCreation] else oauthOpts
    let oauthOpts := if wm.Options.IsAutoUpdate then oauthOpts ++ [.WithAutoUpdate] else oauthOpts
    let opts := if oauthOpts.length > 0 then opts ++ [.WithOAuthOptions oauthOpts] else opts
    lib.construct (.azureadNew wm.Name wm.ClientID secret callbackURL wm.Scopes opts)

/-- Materializes the GitHub provider: decrypts the secret, then calls `github.New`. -/
def GitHubIDPWriteModel.ToProvider {Provider : Type} (wm : GitHubIDPWriteModel)
    (lib : ProviderLibraries Provider) (callbackURL : String)
    (idpAlg : EncryptionAlgorithm) : Except Error Provider :=
  match DecryptString wm.ClientSecret idpAlg with
  | .error err => .error err
  | .ok secret =>
    let oauthOpts : List OAuthProviderOpts := []
    let oauthOpts := if wm.Options.IsCreationAllowed then oauthOpts ++ [.WithCreationAllowed] else oauthOpts
    let oauthOpts := if wm.Options.IsLinkingAllowed then oauthOpts ++ [.WithLinkingAllowed] else oauthOpts
    let oauthOpts := if wm.Options.IsAutoCreation then oauthOpts ++ [.WithAutoCreation] else oauthOpts
    let oauthOpts := if wm.Options.IsAutoUpdate then oauthOpts ++ [.WithAutoUpdate] else oauthOpts
    lib.construct (.githubNew wm.ClientID secret callbackURL wm.Scopes oauthOpts)

/-- Materializes the GitHub Enterprise provider: decrypts the secret, then calls
`github.NewCustomURL`. -/
def GitHubEnterpriseIDPWriteModel.ToProvider {Provider : Type} (wm : GitHubEnterpriseIDPWriteModel)
    (lib : ProviderLibraries Provider) (callbackURL : String)
    (idpAlg : EncryptionAlgorithm) : Except Error Provider :=
  match DecryptString wm.ClientSecret idpAlg with
  | .error err => .error err
  | .ok secret =>
    let oauthOpts : List OAuthProviderOpts := []
    let oauthOpts := if wm.Options.IsCreationAllowed then oauthOpts ++ [.WithCreationAllowed] else oauthOpts
    let oauthOpts := if wm.Options.IsLinkingAllowed then oauthOpts ++ [.WithLinkingAllowed] else oauthOpts
    let oauthOpts := if wm.Options.IsAutoCreation then oauthOpts ++ [.WithAutoCreation] else oauthOpts
    let oauthOpts := if wm.Options.IsAutoUpdate then oauthOpts ++ [.WithAutoUpdate] else oauthOpts
    lib.construct
      (.githubNewCustomURL wm.Name wm.ClientID secret callbackURL wm.AuthorizationEndpoint
        wm.TokenEndpoint wm.UserEndpoint wm.Scopes oauthOpts)

/-- Materializes the GitLab provider: decrypts the secret, then calls `gitlab.New`. -/
def GitLabIDPWriteModel.ToProvider {Provider : Type} (wm : GitLabIDPWriteModel)
    (lib : ProviderLibraries Provider) (callbackURL : String)
    (idpAlg : EncryptionAlgorithm) : Except Error Provider :=
  match DecryptString wm.ClientSecret idpAlg with
  | .error err => .error err
  | .ok secret =>
    let opts : List OIDCProviderOpts := []
    let opts := if wm.Options.IsCreationAllowed then opts ++ [.WithCreationAllowed] else opts
    let opts := if wm.Options.IsLinkingAllowed then opts ++ [.WithLinkingAllowed] else opts
    let opts := if wm.Options.IsAutoCreation then opts ++ [.WithAutoCreation] else opts
    let opts := if wm.Options.IsAutoUpdate then opts ++ [.WithAutoUpdate] else opts
    lib.construct (.gitlabNew wm.ClientID secret callbackURL wm.Scopes opts)

/-- Materializes the self-hosted GitLab provider: decrypts the secret, then calls
`gitlab.NewCustomIssuer`. -/
def GitLabSelfHostedIDPWriteModel.ToProvider {Provider : Type} (wm : GitLabSelfHostedIDPWriteModel)
    (lib : ProviderLibraries Provider) (callbackURL : String)
    (idpAlg : EncryptionAlgorithm) : Except Error Provider :=
  match DecryptString wm.ClientSecret idpAlg with
  | .error err => .error err
  | .ok secret =>
    let opts : List OIDCProviderOpts := []
    let opts := if wm.Options.IsCreationAllowed then opts ++ [.WithCreationAllowed] else opts
    let opts := if wm.Options.IsLinkingAllowed then opts ++ [.WithLinkingAllowed] else opts
    let opts := if wm.Options.IsAutoCreation then opts ++ [.WithAutoCreation] else opts
    let opts := if wm.Options.IsAutoUpdate then opts ++ [.WithAutoUpdate] else opts
    lib.construct
      (.gitlabNewCustomIssuer wm.Name wm.Issuer wm.ClientID secret callbackURL wm.Scopes
        opts)

/-- Materializes the Google provider: builds the relying-party option that wraps the
token-exchange error handler and drops it, decrypts the secret, then calls `google.New`. -/
def GoogleIDPWriteModel.ToProvider {Provider : Type} (wm : GoogleIDPWriteModel)
    (lib : ProviderLibraries Provider) (callbackURL : String)
    (idpAlg : EncryptionAlgorithm) : Except Error Provider :=
  let _ : OIDCProviderOpts := .WithRelyingPartyOption
  match DecryptString wm.ClientSecret idpAlg with
  | .error err => .error err
  | .ok secret =>
    let opts : List OIDCProviderOpts := []
    let opts := if wm.Options.IsCreationAllowed then opts ++ [.WithCreationAllowed] else opts
    let opts := if wm.Options.IsLinkingAllowed then opts ++ [.WithLinkingAllowed] else opts
    let opts := if wm.Options.IsAutoCreation then opts ++ [.WithAutoCreation] else opts
    let opts := if wm.Options.IsAutoUpdate then opts ++ [.WithAutoUpdate] else opts
    lib.construct (.googleNew wm.ClientID secret callbackURL wm.Scopes opts)

/-- Materializes the LDAP provider: decrypts the bind password, then calls `ldap.New`,
which returns no error. -/
def LDAPIDPWriteModel.ToProvider {Provider : Type} (wm : LDAPIDPWriteModel)
    (lib : ProviderLibraries Provider) (callbackURL : String)
    (idpAlg : EncryptionAlgorithm) : Except Error Provider :=
  match DecryptString wm.BindPassword idpAlg with
  | .error err => .error err
  | .ok password =>
    let opts : List LDAPProviderOpts := []
    let opts : List LDAPProviderOpts :=
      if !wm.StartTLS then opts ++ [LDAPProviderOpts.WithoutStartTLS] else opts
    let opts : List LDAPProviderOpts :=
      if wm.LDAPAttributes.IDAttribute ≠ "" then
        opts ++ [LDAPProviderOpts.WithCustomIDAttribute wm.LDAPAttributes.IDAttribute]
      else opts
    let opts : List LDAPProviderOpts :=
      if wm.LDAPAttributes.FirstNameAttribute ≠ "" then
        opts ++ [LDAPProviderOpts.WithFirstNameAttribute wm.LDAPAttributes.FirstNameAttribute]
      else opts
    let opts : List LDAPProviderOpts :=
      if wm.LDAPAttributes.LastNameAttribute ≠ "" then
        opts ++ [LDAPProviderOpts.WithLastNameAttribute wm.LDAPAttributes.LastNameAttribute]
      else opts
    let opts : List LDAPProviderOpts :=
      if wm.LDAPAttributes.DisplayNameAttribute ≠ "" then
        opts ++ [LDAPProviderOpts.WithDisplayNameAttribute wm.LDAPAttributes.DisplayNameAttribute]
      else opts
    let opts : List LDAPProviderOpts :=
      if wm.LDAPAttributes.NickNameAttribute ≠ "" then
        opts ++ [LDAPProviderOpts.WithNickNameAttribute wm.LDAPAttributes.NickNameAttribute]
      else opts
    let opts : List LDAPProviderOpts :=
      if wm.LDAPAttributes.PreferredUsernameAttribute ≠ "" then
        opts ++ [LDAPProviderOpts.WithPreferredUsernameAttribute wm.LDAPAttributes.PreferredUsernameAttribute]
      else opts
    let opts : List LDAPProviderOpts :=
      if wm.LDAPAttributes.EmailAttribute ≠ "" then
        opts ++ [LDAPProviderOpts.WithEmailAttribute wm.LDAPAttributes.EmailAttribute]
      else opts
    let opts : List LDAPProviderOpts :=
      if wm.LDAPAttributes.EmailVerifiedAttribute ≠ "" then
        opts ++ [LDAPProviderOpts.WithEmailVerifiedAttribute wm.LDAPAttributes.EmailVerifiedAttribute]
      else opts
    let opts : List LDAPProviderOpts :=
      if wm.LDAPAttributes.PhoneAttribute ≠ "" then
        opts ++ [LDAPProviderOpts.WithPhoneAttribute wm.LDAPAttributes.PhoneAttribute]
      else opts
    let opts : List LDAPProviderOpts :=
      if wm.LDAPAttributes.PhoneVerifiedAttribute ≠ "" then
        opts ++ [LDAPProviderOpts.WithPhoneVerifiedAttribute wm.LDAPAttributes.PhoneVerifiedAttribute]
      else opts
    let opts : List LDAPProviderOpts :=
      if wm.LDAPAttributes.PreferredLanguageAttribute ≠ "" then
        opts ++ [LDAPProviderOpts.WithPreferredLanguageAttribute wm.LDAPAttributes.PreferredLanguageAttribute]
      else opts
    let opts : List LDAPProviderOpts :=
      if wm.LDAPAttributes.AvatarURLAttribute ≠ "" then
        opts ++ [LDAPProviderOpts.WithAvatarURLAttribute wm.LDAPAttributes.AvatarURLAttribute]
      else opts
    let opts : List LDAPProviderOpts :=
      if wm.LDAPAttributes.ProfileAttribute ≠ "" then
        opts ++ [LDAPProviderOpts.WithProfileAttribute wm.LDAPAttributes.ProfileAttribute]
      else opts
    let opts : List LDAPProviderOpts :=
      if wm.Options.IsCreationAllowed then opts ++ [LDAPProviderOpts.WithCreationAllowed] else opts
    let opts : List LDAPProviderOpts :=
      if wm.Options.IsLinkingAllowed then opts ++ [LDAPProviderOpts.WithLinkingAllowed] else opts
    let opts : List LDAPProviderOpts :=
      if wm.Options.IsAutoCreation then opts ++ [LDAPProviderOpts.WithAutoCreation] else opts
    let opts : List LDAPProviderOpts :=
      if wm.Options.IsAutoUpdate then opts ++ [LDAPProviderOpts.WithAutoUpdate] else opts
    .ok (lib.ldapNew
      { name := wm.Name
        servers := wm.Servers
        baseDN := wm.BaseDN
        bindDN := wm.BindDN
        bindPassword := password
        userBase := wm.UserBase
        userObjectClasses := wm.UserObjectClasses
        userFilters := wm.UserFilters
        timeout := wm.Timeout
        loginUrl := callbackURL
        opts := opts })

/-! ## AllIDPWriteModel -/

/-- The Go interface `IDP`, closed over the implementations that `NewAllIDPWriteModel`
constructs: for each of the ten kinds the instance-scoped and the org-scoped wrapper of
the write model (`instanceScoped` tells which), each embedding the write model. -/
inductive IDP where
  | OAuth (instanceScoped : Bool) (wm : OAuthIDPWriteModel)
  | OIDC (instanceScoped : Bool) (wm : OIDCIDPWriteModel)
  | JWT (instanceScoped : Bool) (wm : JWTIDPWriteModel)
  | AzureAD (instanceScoped : Bool) (wm : AzureADIDPWriteModel)
  | GitHub (instanceScoped : Bool) (wm : GitHubIDPWriteModel)
  | GitHubEnterprise (instanceScoped : Bool) (wm : GitHubEnterpriseIDPWriteModel)
  | GitLab (instanceScoped : Bool) (wm : GitLabIDPWriteModel)
  | GitLabSelfHosted (instanceScoped : Bool) (wm : GitLabSelfHostedIDPWriteModel)
  | Google (instanceScoped : Bool) (wm : GoogleIDPWriteModel)
  | LDAP (instanceScoped : Bool) (wm : LDAPIDPWriteModel)

/-- Modelled from the spec: the write model a per-variant constructor returns, scoped by
owner and id, every other field at its zero value. -/
def OAuthIDPWriteModel.fresh (resourceOwner id : String) : OAuthIDPWriteModel :=
  { AggregateID := resourceOwner
    ProcessedSequence := 0
    Events := []
    ResourceOwner := resourceOwner
    InstanceID := ""
    Name := ""
    ID := id
    ClientID := ""
    ClientSecret := none
    AuthorizationEndpoint := ""
    TokenEndpoint := ""
    UserEndpoint := ""
    Scopes := none
    IDAttribute := ""
    Options := ⟨false, false, false, false⟩
    State := .IDPStateUnspecified }

/-- Modelled from the spec: the write model a per-variant constructor returns, scoped by
owner and id, every other field at its zero value. -/
def OIDCIDPWriteModel.fresh (resourceOwner id : String) : OIDCIDPWriteModel :=
  { AggregateID := resourceOwner
    ProcessedSequence := 0
    Events := []
    ResourceOwner := resourceOwner
    InstanceID := ""
    Name := ""
    ID := id
    Issuer := ""
    ClientID := ""
    ClientSecret := none
    Scopes := none
    IsIDTokenMapping := false
    Options := ⟨false, false, false, false⟩
    State := .IDPStateUnspecified }

/-- Modelled from the spec: the write model a per-variant constructor returns, scoped by
owner and id, every other field at its zero value. -/
def JWTIDPWriteModel.fresh (resourceOwner id : String) : JWTIDPWriteModel :=
  { AggregateID := resourceOwner
    ProcessedSequence := 0
    Events := []
    ResourceOwner := resourceOwner
    InstanceID := ""
    ID := id
    Name := ""
    Issuer := ""
    JWTEndpoint := ""
    KeysEndpoint := ""
    HeaderName := ""
    Options := ⟨false, false, false, false⟩
    State := .IDPStateUnspecified }

/-- Modelled from the spec: the write model a per-variant constructor returns, scoped by
owner and id, every other field at its zero value. -/
def AzureADIDPWriteModel.fresh (resourceOwner id : String) : AzureADIDPWriteModel :=
  { AggregateID := resourceOwner
    ProcessedSequence := 0
    Events := []
    ResourceOwner := resourceOwner
    InstanceID := ""
    ID := id
    Name := ""
    ClientID := ""
    ClientSecret := none
    Scopes := none
    Tenant := ""
    IsEmailVerified := false
    Options := ⟨false, false, false, false⟩
    State := .IDPStateUnspecified }

/-- Modelled from the spec: the write model a per-variant constructor returns, scoped by
owner and id, every other field at its zero value. -/
def GitHubIDPWriteModel.fresh (resourceOwner id : String) : GitHubIDPWriteModel :=
  { AggregateID := resourceOwner
    ProcessedSequence := 0
    Events := []
    ResourceOwner := resourceOwner
    InstanceID := ""
    ID := id
    Name := ""
    ClientID := ""
    ClientSecret := none
    Scopes := none
    Options := ⟨false, false, false, false⟩
    State := .IDPStateUnspecified }

/-- Modelled from the spec: the write model a per-variant constructor returns, scoped by
owner and id, every other field at its zero value. -/
def GitHubEnterpriseIDPWriteModel.fresh (resourceOwner id : String) : GitHubEnterpriseIDPWriteModel :=
  { AggregateID := resourceOwner
    ProcessedSequence := 0
    Events := []
    ResourceOwner := resourceOwner
    InstanceID := ""
    ID := id
    Name := ""
    ClientID := ""
    ClientSecret := none
    AuthorizationEndpoint := ""
    TokenEndpoint := ""
    UserEndpoint := ""
    Scopes := none
    Options := ⟨false, false, false, false⟩
    State := .IDPStateUnspecified }

/-- Modelled from the spec: the write model a per-variant constructor returns, scoped by
owner and id, every other field at its zero value. -/
def GitLabIDPWriteModel.fresh (resourceOwner id : String) : GitLabIDPWriteModel :=
  { AggregateID := resourceOwner
    ProcessedSequence := 0
    Events := []
    ResourceOwner := resourceOwner
    InstanceID := ""
    ID := id
    Name := ""
    ClientID := ""
    ClientSecret := none
    Scopes := none
    Options := ⟨false, false, false, false⟩
    State := .IDPStateUnspecified }

/-- Modelled from the spec: the write model a per-variant constructor returns, scoped by
owner and id, every other field at its zero value. -/
def GitLabSelfHostedIDPWriteModel.fresh (resourceOwner id : String) : GitLabSelfHostedIDPWriteModel :=
  { AggregateID := resourceOwner
    ProcessedSequence := 0
    Events := []
    ResourceOwner := resourceOwner
    InstanceID := ""
    ID := id
    Name := ""
    Issuer := ""
    ClientID := ""
    ClientSecret := none
    Scopes := none
    Options := ⟨false, false, false, false⟩
    State := .IDPStateUnspecified }

/-- Modelled from the spec: the write model a per-variant constructor returns, scoped by
owner and id, every other field at its zero value. -/
def GoogleIDPWriteModel.fresh (resourceOwner id : String) : GoogleIDPWriteModel :=
  { AggregateID := resourceOwner
    ProcessedSequence := 0
    Events := []
    ResourceOwner := resourceOwner
    InstanceID := ""
    ID := id
    Name := ""
    ClientID := ""
    ClientSecret := none
    Scopes := none
    Options := ⟨false, false, false, false⟩
    State := .IDPStateUnspecified }

/-- Modelled from the spec: the write model a per-variant constructor returns, scoped by
owner and id, every other field at its zero value. -/
def LDAPIDPWriteModel.fresh (resourceOwner id : String) : LDAPIDPWriteModel :=
  { AggregateID := resourceOwner
    ProcessedSequence := 0
    Events := []
    ResourceOwner := resourceOwner
    InstanceID := ""
    ID := id
    Name := ""
    Servers := none
    StartTLS := false
    BaseDN := ""
    BindDN := ""
    BindPassword := none
    UserBase := ""
    UserObjectClasses := none
    UserFilters := none
    Timeout := 0
    LDAPAttributes := ⟨"", "", "", "", "", "", "", "", "", "", "", "", ""⟩
    Options := ⟨false, false, false, false⟩
    State := .IDPStateUnspecified }

/-- Modelled from the spec: the instance-scoped constructor of the OAuth variant, which lies
outside the sources at hand. -/
def NewOAuthInstanceIDPWriteModel (resourceOwner id : String) : IDP :=
  .OAuth true (OAuthIDPWriteModel.fresh resourceOwner id)

/-- Modelled from the spec: the org-scoped constructor of the OAuth variant, which lies
outside the sources at hand. -/
def NewOAuthOrgIDPWriteModel (resourceOwner id : String) : IDP :=
  .OAuth false (OAuthIDPWriteModel.fresh resourceOwner id)

/-- Modelled from the spec: the instance-scoped constructor of the OIDC variant, which lies
outside the sources at hand. -/
def NewOIDCInstanceIDPWriteModel (resourceOwner id : String) : IDP :=
  .OIDC true (OIDCIDPWriteModel.fresh resourceOwner id)

/-- Modelled from the spec: the org-scoped constructor of the OIDC variant, which lies
outside the sources at hand. -/
def NewOIDCOrgIDPWriteModel (resourceOwner id : String) : IDP :=
  .OIDC false (OIDCIDPWriteModel.fresh resourceOwner id)

/-- Modelled from the spec: the instance-scoped constructor of the JWT variant, which lies
outside the sources at hand. -/
def NewJWTInstanceIDPWriteModel (resourceOwner id : String) : IDP :=
  .JWT true (JWTIDPWriteModel.fresh resourceOwner id)

/-- Modelled from the spec: the org-scoped constructor of the JWT variant, which lies
outside the sources at hand. -/
def NewJWTOrgIDPWriteModel (resourceOwner id : String) : IDP :=
  .JWT false (JWTIDPWriteModel.fresh resourceOwner id)

/-- Modelled from the spec: the instance-scoped constructor of the AzureAD variant, which lies
outside the sources at hand. -/
def NewAzureADInstanceIDPWriteModel (resourceOwner id : String) : IDP :=
  .AzureAD true (AzureADIDPWriteModel.fresh resourceOwner id)

/-- Modelled from the spec: the org-scoped constructor of the AzureAD variant, which lies
outside the sources at hand. -/
def NewAzureADOrgIDPWriteModel (resourceOwner id : String) : IDP :=
  .AzureAD false (AzureADIDPWriteModel.fresh resourceOwner id)

/-- Modelled from the spec: the instance-scoped constructor of the GitHub variant, which lies
outside the sources at hand. -/
def NewGitHubInstanceIDPWriteModel (resourceOwner id : String) : IDP :=
  .GitHub true (GitHubIDPWriteModel.fresh resourceOwner id)

/-- Modelled from the spec: the org-scoped constructor of the GitHub variant, which lies
outside the sources at hand. -/
def NewGitHubOrgIDPWriteModel (resourceOwner id : String) : IDP :=
  .GitHub false (GitHubIDPWriteModel.fresh resourceOwner id)

/-- Modelled from the spec: the instance-scoped constructor of the GitHubEnterprise variant, which lies
outside the sources at hand. -/
def NewGitHubEnterpriseInstanceIDPWriteModel (resourceOwner id : String) : IDP :=
  .GitHubEnterprise true (GitHubEnterpriseIDPWriteModel.fresh resourceOwner id)

/-- Modelled from the spec: the org-scoped constructor of the GitHubEnterprise variant, which lies
outside the sources at hand. -/
def NewGitHubEnterpriseOrgIDPWriteModel (resourceOwner id : String) : IDP :=
  .GitHubEnterprise false (GitHubEnterpriseIDPWriteModel.fresh resourceOwner id)

/-- Modelled from the spec: the instance-scoped constructor of the GitLab variant, which lies
outside the sources at hand. -/
def NewGitLabInstanceIDPWriteModel (resourceOwner id : String) : IDP :=
  .GitLab true (GitLabIDPWriteModel.fresh resourceOwner id)

/-- Modelled from the spec: the org-scoped constructor of the GitLab variant, which lies
outside the sources at hand. -/
def NewGitLabOrgIDPWriteModel (resourceOwner id : String) : IDP :=
  .GitLab false (GitLabIDPWriteModel.fresh resourceOwner id)

/-- Modelled from the spec: the instance-scoped constructor of the GitLabSelfHosted variant, which lies
outside the sources at hand. -/
def NewGitLabSelfHostedInstanceIDPWriteModel (resourceOwner id : String) : IDP :=
  .GitLabSelfHosted true (GitLabSelfHostedIDPWriteModel.fresh resourceOwner id)

/-- Modelled from the spec: the org-scoped constructor of the GitLabSelfHosted variant, which lies
outside the sources at hand. -/
def NewGitLabSelfHostedOrgIDPWriteModel (resourceOwner id : String) : IDP :=
  .GitLabSelfHosted false (GitLabSelfHostedIDPWriteModel.fresh resourceOwner id)

/-- Modelled from the spec: the instance-scoped constructor of the Google variant, which lies
outside the sources at hand. -/
def NewGoogleInstanceIDPWriteModel (resourceOwner id : String) : IDP :=
  .Google true (GoogleIDPWriteModel.fresh resourceOwner id)

/-- Modelled from the spec: the org-scoped constructor of the Google variant, which lies
outside the sources at hand. -/
def NewGoogleOrgIDPWriteModel (resourceOwner id : String) : IDP :=
  .Google false (GoogleIDPWriteModel.fresh resourceOwner id)

/-- Modelled from the spec: the instance-scoped constructor of the LDAP variant, which lies
outside the sources at hand. -/
def NewLDAPInstanceIDPWriteModel (resourceOwner id : String) : IDP :=
  .LDAP true (LDAPIDPWriteModel.fresh resourceOwner id)

/-- Modelled from the spec: the org-scoped constructor of the LDAP variant, which lies
outside the sources at hand. -/
def NewLDAPOrgIDPWriteModel (resourceOwner id : String) : IDP :=
  .LDAP false (LDAPIDPWriteModel.fresh resourceOwner id)

/-- The methods of one implementation of the interface `IDP` that the umbrella calls, for
a wrapper that embeds the write model `σ`. The instance-scoped and the org-scoped wrapper
types are declared outside the sources at hand, so what their methods do is a parameter.
A method has the wrapper as its receiver: it works on the write model the wrapper embeds
and cannot turn the wrapper into one of another type. -/
structure IDPMethods (σ Provider : Type) where
  Reduce : σ → Except Error σ
  AppendEvents : σ → List Event → σ
  ToProvider : σ → String → EncryptionAlgorithm → Except Error Provider

/-- The methods of the implementations of `IDP` that `NewAllIDPWriteModel` constructs: for
each of the ten kinds those of the instance-scoped wrapper (at `true`) and those of the
org-scoped wrapper (at `false`). -/
structure IDPImplementations (Provider : Type) where
  OAuth : Bool → IDPMethods OAuthIDPWriteModel Provider
  OIDC : Bool → IDPMethods OIDCIDPWriteModel Provider
  JWT : Bool → IDPMethods JWTIDPWriteModel Provider
  AzureAD : Bool → IDPMethods AzureADIDPWriteModel Provider
  GitHub : Bool → IDPMethods GitHubIDPWriteModel Provider
  GitHubEnterprise : Bool → IDPMethods GitHubEnterpriseIDPWriteModel Provider
  GitLab : Bool → IDPMethods GitLabIDPWriteModel Provider
  GitLabSelfHosted : Bool → IDPMethods GitLabSelfHostedIDPWriteModel Provider
  Google : Bool → IDPMethods GoogleIDPWriteModel Provider
  LDAP : Bool → IDPMethods LDAPIDPWriteModel Provider

/-- The call `model.Reduce()` on a value of the interface `IDP`: the `Reduce` of the
implementation the value holds. -/
def IDP.Reduce {Provider : Type} (model : IDP) (impl : IDPImplementations Provider) :
    Except Error IDP :=
  match model with
  | .OAuth inst wm => ((impl.OAuth inst).Reduce wm).map (.OAuth inst)
  | .OIDC inst wm => ((impl.OIDC inst).Reduce wm).map (.OIDC inst)
  | .JWT inst wm => ((impl.JWT inst).Reduce wm).map (.JWT inst)
  | .AzureAD inst wm => ((impl.AzureAD inst).Reduce wm).map (.AzureAD inst)
  | .GitHub inst wm => ((impl.GitHub inst).Reduce wm).map (.GitHub inst)
  | .GitHubEnterprise inst wm => ((impl.GitHubEnterprise inst).Reduce wm).map (.GitHubEnterprise inst)
  | .GitLab inst wm => ((impl.GitLab inst).Reduce wm).map (.GitLab inst)
  | .GitLabSelfHosted inst wm => ((impl.GitLabSelfHosted inst).Reduce wm).map (.GitLabSelfHosted inst)
  | .Google inst wm => ((impl.Google inst).Reduce wm).map (.Google inst)
  | .LDAP inst wm => ((impl.LDAP inst).Reduce wm).map (.LDAP inst)

/-- The call `model.AppendEvents(events...)` on a value of the interface `IDP`: the
`AppendEvents` of the implementation the value holds. -/
def IDP.AppendEvents {Provider : Type} (model : IDP) (impl : IDPImplementations Provider)
    (events : List Event) : IDP :=
  match model with
  | .OAuth inst wm => .OAuth inst ((impl.OAuth inst).AppendEvents wm events)
  | .OIDC inst wm => .OIDC inst ((impl.OIDC inst).AppendEvents wm events)
  | .JWT inst wm => .JWT inst ((impl.JWT inst).AppendEvents wm events)
  | .AzureAD inst wm => .AzureAD inst ((impl.AzureAD inst).AppendEvents wm events)
  | .GitHub inst wm => .GitHub inst ((impl.GitHub inst).AppendEvents wm events)
  | .GitHubEnterprise inst wm => .GitHubEnterprise inst ((impl.GitHubEnterprise inst).AppendEvents wm events)
  | .GitLab inst wm => .GitLab inst ((impl.GitLab inst).AppendEvents wm events)
  | .GitLabSelfHosted inst wm => .GitLabSelfHosted inst ((impl.GitLabSelfHosted inst).AppendEvents wm events)
  | .Google inst wm => .Google inst ((impl.Google inst).AppendEvents wm events)
  | .LDAP inst wm => .LDAP inst ((impl.LDAP inst).AppendEvents wm events)

/-- The call `model.ToProvider(callbackURL, idpAlg)` on a value of the interface `IDP`:
the `ToProvider` of the implementation the value holds. -/
def IDP.ToProvider {Provider : Type} (model : IDP) (impl : IDPImplementations Provider)
    (callbackURL : String) (idpAlg : EncryptionAlgorithm) : Except Error Provider :=
  match model with
  | .OAuth inst wm => (impl.OAuth inst).ToProvider wm callbackURL idpAlg
  | .OIDC inst wm => (impl.OIDC inst).ToProvider wm callbackURL idpAlg
  | .JWT inst wm => (impl.JWT inst).ToProvider wm callbackURL idpAlg
  | .AzureAD inst wm => (impl.AzureAD inst).ToProvider wm callbackURL idpAlg
  | .GitHub inst wm => (impl.GitHub inst).ToProvider wm callbackURL idpAlg
  | .GitHubEnterprise inst wm => (impl.GitHubEnterprise inst).ToProvider wm callbackURL idpAlg
  | .GitLab inst wm => (impl.GitLab inst).ToProvider wm callbackURL idpAlg
  | .GitLabSelfHosted inst wm => (impl.GitLabSelfHosted inst).ToProvider wm callbackURL idpAlg
  | .Google inst wm => (impl.Google inst).ToProvider wm callbackURL idpAlg
  | .LDAP inst wm => (impl.LDAP inst).ToProvider wm callbackURL idpAlg

/-- The umbrella write model: the selected implementation and the discriminator. -/
structure AllIDPWriteModel where
  model : IDP
  ID : String
  IDPType : IDPType
  ResourceOwner : String
  Instance : Bool

/-- Selects the implementation by kind and owner scope; an unspecified or unknown kind is
an error. -/
def NewAllIDPWriteModel (resourceOwner : String) (instanceBool : Bool) (id : String)
    (idpType : IDPType) : Except Error AllIDPWriteModel :=
  let writeModel (model : IDP) : AllIDPWriteModel :=
    { model := model, ID := id, IDPType := idpType, ResourceOwner := resourceOwner,
      Instance := instanceBool }
  if instanceBool then
    match idpType with
    | .IDPTypeOIDC => .ok (writeModel (NewOIDCInstanceIDPWriteModel resourceOwner id))
    | .IDPTypeJWT => .ok (writeModel (NewJWTInstanceIDPWriteModel resourceOwner id))
    | .IDPTypeOAuth => .ok (writeModel (NewOAuthInstanceIDPWriteModel resourceOwner id))
    | .IDPTypeLDAP => .ok (writeModel (NewLDAPInstanceIDPWriteModel resourceOwner id))
    | .IDPTypeAzureAD => .ok (writeModel (NewAzureADInstanceIDPWriteModel resourceOwner id))
    | .IDPTypeGitHub => .ok (writeModel (NewGitHubInstanceIDPWriteModel resourceOwner id))
    | .IDPTypeGitHubEnterprise =>
      .ok (writeModel (NewGitHubEnterpriseInstanceIDPWriteModel resourceOwner id))
    | .IDPTypeGitLab => .ok (writeModel (NewGitLabInstanceIDPWriteModel resourceOwner id))
    | .IDPTypeGitLabSelfHosted =>
      .ok (writeModel (NewGitLabSelfHostedInstanceIDPWriteModel resourceOwner id))
    | .IDPTypeGoogle => .ok (writeModel (NewGoogleInstanceIDPWriteModel resourceOwner id))
    | .IDPTypeUnspecified =>
      .error (ThrowInternal "COMMAND-xw921211" "Errors.IDPConfig.NotExisting")
    | _ => .error (ThrowInternal "COMMAND-xw921211" "Errors.IDPConfig.NotExisting")
  else
    match idpType with
    | .IDPTypeOIDC => .ok (writeModel (NewOIDCOrgIDPWriteModel resourceOwner id))
    | .IDPTypeJWT => .ok (writeModel (NewJWTOrgIDPWriteModel resourceOwner id))
    | .IDPTypeOAuth => .ok (writeModel (NewOAuthOrgIDPWriteModel resourceOwner id))
    | .IDPTypeLDAP => .ok (writeModel (NewLDAPOrgIDPWriteModel resourceOwner id))
    | .IDPTypeAzureAD => .ok (writeModel (NewAzureADOrgIDPWriteModel resourceOwner id))
    | .IDPTypeGitHub => .ok (writeModel (NewGitHubOrgIDPWriteModel resourceOwner id))
    | .IDPTypeGitHubEnterprise =>
      .ok (writeModel (NewGitHubEnterpriseOrgIDPWriteModel resourceOwner id))
    | .IDPTypeGitLab => .ok (writeModel (NewGitLabOrgIDPWriteModel resourceOwner id))
    | .IDPTypeGitLabSelfHosted =>
      .ok (writeModel (NewGitLabSelfHostedOrgIDPWriteModel resourceOwner id))
    | .IDPTypeGoogle => .ok (writeModel (NewGoogleOrgIDPWriteModel resourceOwner id))
    | .IDPTypeUnspecified =>
      .error (ThrowInternal "COMMAND-xw921111" "Errors.IDPConfig.NotExisting")
    | _ => .error (ThrowInternal "COMMAND-xw921111" "Errors.IDPConfig.NotExisting")

/-- Forwards to the selected implementation: `return wm.model.Reduce()`. The result is the
umbrella, whose inner model the call has reduced, or the error of the call. -/
def AllIDPWriteModel.Reduce {Provider : Type} (wm : AllIDPWriteModel)
    (impl : IDPImplementations Provider) : Except Error AllIDPWriteModel :=
  match wm.model.Reduce impl with
  | .error err => .error err
  | .ok model => .ok { wm with model := model }

/-- Forwards to the selected implementation: `wm.model.AppendEvents(events...)`. -/
def AllIDPWriteModel.AppendEvents {Provider : Type} (wm : AllIDPWriteModel)
    (impl : IDPImplementations Provider) (events : List Event) : AllIDPWriteModel :=
  { wm with model := wm.model.AppendEvents impl events }

/-- Forwards to the selected implementation:
`return wm.model.ToProvider(callbackURL, idpAlg)`. -/
def AllIDPWriteModel.ToProvider {Provider : Type} (wm : AllIDPWriteModel)
    (impl : IDPImplementations Provider) (callbackURL : String)
    (idpAlg : EncryptionAlgorithm) : Except Error Provider :=
  wm.model.ToProvider impl callbackURL idpAlg

/-! ## Change sets: the field of an entry, and the event that carries a change set -/

/-- The configuration fields a change-set entry can be for. -/
inductive ConfigField where
  | ClientSecret
  | ClientID
  | Name
  | AuthorizationEndpoint
  | TokenEndpoint
  | UserEndpoint
  | Scopes
  | IDAttribute
  | Options
  | Issuer
  | IsIDTokenMapping
  | JWTEndpoint
  | KeysEndpoint
  | HeaderName
  | Tenant
  | IsEmailVerified
  | BindPassword
  | Servers
  | StartTLS
  | BaseDN
  | BindDN
  | UserBase
  | UserObjectClasses
  | UserFilters
  | Timeout
  | LDAPAttributes
deriving DecidableEq, Repr

/-- The entries of the rows whose field differs: `rows` lists, for each compared field
in turn, whether the stored value differs from the desired one and the entry to emit. -/
def differingEntries {α : Type} : List (Bool × α) → List α
  | [] => []
  | (differs, entry) :: rest =>
    if differs then entry :: differingEntries rest else differingEntries rest

/-! ### Change sets of OAuthIDPWriteModel -/

/-- The configuration field an entry is for. -/
def OAuthIDPChanges.field : OAuthIDPChanges → ConfigField
  | .ChangeOAuthClientSecret _ => .ClientSecret
  | .ChangeOAuthClientID _ => .ClientID
  | .ChangeOAuthName _ => .Name
  | .ChangeOAuthAuthorizationEndpoint _ => .AuthorizationEndpoint
  | .ChangeOAuthTokenEndpoint _ => .TokenEndpoint
  | .ChangeOAuthUserEndpoint _ => .UserEndpoint
  | .ChangeOAuthScopes _ => .Scopes
  | .ChangeOAuthIDAttribute _ => .IDAttribute
  | .ChangeOAuthOptions _ => .Options

/-- Modelled from the spec: the `Change…` functions of `repository/idp` are not part
of the sources at hand; each entry stores its value in the field of the changed event
it is named after. -/
def OAuthIDPChanges.apply : OAuthIDPChanges → OAuthIDPChangedEvent → OAuthIDPChangedEvent
  | .ChangeOAuthClientSecret clientSecret, e => { e with ClientSecret := clientSecret }
  | .ChangeOAuthClientID clientID, e => { e with ClientID := some clientID }
  | .ChangeOAuthName name, e => { e with Name := some name }
  | .ChangeOAuthAuthorizationEndpoint authorizationEndpoint, e =>
    { e with AuthorizationEndpoint := some authorizationEndpoint }
  | .ChangeOAuthTokenEndpoint tokenEndpoint, e => { e with TokenEndpoint := some tokenEndpoint }
  | .ChangeOAuthUserEndpoint userEndpoint, e => { e with UserEndpoint := some userEndpoint }
  | .ChangeOAuthScopes scopes, e => { e with Scopes := scopes }
  | .ChangeOAuthIDAttribute idAttribute, e => { e with IDAttribute := some idAttribute }
  | .ChangeOAuthOptions options, e => { e with OptionChanges := options }

/-- A changed event that carries nothing. -/
def OAuthIDPChangedEvent.empty : OAuthIDPChangedEvent :=
  { Name := none
    ClientID := none
    ClientSecret := none
    AuthorizationEndpoint := none
    TokenEndpoint := none
    UserEndpoint := none
    Scopes := none
    IDAttribute := none
    OptionChanges := ⟨none, none, none, none⟩ }

/-- Modelled from the spec: the changed event that carries exactly the entries of a
change set, each entry applied in turn to an event that carries nothing. -/
def OAuthIDPChangedEvent.withChanges (changes : List OAuthIDPChanges) :
    OAuthIDPChangedEvent :=
  changes.foldl (fun e change => change.apply e) OAuthIDPChangedEvent.empty

/-- The compared fields of `NewChanges` in the order of the source: for each, whether
the stored value differs from the desired one, and the entry for the desired value. -/
def OAuthIDPWriteModel.comparedFields (wm : OAuthIDPWriteModel)
    (name clientID authorizationEndpoint tokenEndpoint userEndpoint idAttribute : String)
    (scopes : StringSlice) (options : Zitadel.Options) :
    List (Bool × OAuthIDPChanges) :=
  [ (decide (wm.ClientID ≠ clientID), .ChangeOAuthClientID clientID),
    (decide (wm.Name ≠ name), .ChangeOAuthName name),
    (decide (wm.AuthorizationEndpoint ≠ authorizationEndpoint),
      .ChangeOAuthAuthorizationEndpoint authorizationEndpoint),
    (decide (wm.TokenEndpoint ≠ tokenEndpoint), .ChangeOAuthTokenEndpoint tokenEndpoint),
    (decide (wm.UserEndpoint ≠ userEndpoint), .ChangeOAuthUserEndpoint userEndpoint),
    (decide (wm.Scopes ≠ scopes), .ChangeOAuthScopes scopes),
    (decide (wm.IDAttribute ≠ idAttribute), .ChangeOAuthIDAttribute idAttribute),
    (decide (wm.Options ≠ options), .ChangeOAuthOptions (wm.Options.Changes options)) ]

/-! ### Change sets of OIDCIDPWriteModel -/

/-- The configuration field an entry is for. -/
def OIDCIDPChanges.field : OIDCIDPChanges → ConfigField
  | .ChangeOIDCClientSecret _ => .ClientSecret
  | .ChangeOIDCClientID _ => .ClientID
  | .ChangeOIDCName _ => .Name
  | .ChangeOIDCIssuer _ => .Issuer
  | .ChangeOIDCScopes _ => .Scopes
  | .ChangeOIDCIsIDTokenMapping _ => .IsIDTokenMapping
  | .ChangeOIDCOptions _ => .Options

/-- Modelled from the spec: the `Change…` functions of `repository/idp` are not part
of the sources at hand; each entry stores its value in the field of the changed event
it is named after. -/
def OIDCIDPChanges.apply : OIDCIDPChanges → OIDCIDPChangedEvent → OIDCIDPChangedEvent
  | .ChangeOIDCClientSecret clientSecret, e => { e with ClientSecret := clientSecret }
  | .ChangeOIDCClientID clientID, e => { e with ClientID := some clientID }
  | .ChangeOIDCName name, e => { e with Name := some name }
  | .ChangeOIDCIssuer issuer, e => { e with Issuer := some issuer }
  | .ChangeOIDCScopes scopes, e => { e with Scopes := scopes }
  | .ChangeOIDCIsIDTokenMapping idTokenMapping, e =>
    { e with IsIDTokenMapping := some idTokenMapping }
  | .ChangeOIDCOptions options, e => { e with OptionChanges := options }

/-- A changed event that carries nothing. -/
def OIDCIDPChangedEvent.empty : OIDCIDPChangedEvent :=
  { Name := none
    Issuer := none
    ClientID := none
    ClientSecret := none
    Scopes := none
    IsIDTokenMapping := none
    OptionChanges := ⟨none, none, none, none⟩ }

/-- Modelled from the spec: the changed event that carries exactly the entries of a
change set, each entry applied in turn to an event that carries nothing. -/
def OIDCIDPChangedEvent.withChanges (changes : List OIDCIDPChanges) :
    OIDCIDPChangedEvent :=
  changes.foldl (fun e change => change.apply e) OIDCIDPChangedEvent.empty

/-- The compared fields of `NewChanges` in the order of the source: for each, whether
the stored value differs from the desired one, and the entry for the desired value. -/
def OIDCIDPWriteModel.comparedFields (wm : OIDCIDPWriteModel) (name issuer clientID : String)
    (scopes : StringSlice) (idTokenMapping : Bool) (options : Zitadel.Options) :
    List (Bool × OIDCIDPChanges) :=
  [ (decide (wm.ClientID ≠ clientID), .ChangeOIDCClientID clientID),
    (decide (wm.Name ≠ name), .ChangeOIDCName name),
    (decide (wm.Issuer ≠ issuer), .ChangeOIDCIssuer issuer),
    (decide (wm.Scopes ≠ scopes), .ChangeOIDCScopes scopes),
    (decide (wm.IsIDTokenMapping ≠ idTokenMapping), .ChangeOIDCIsIDTokenMapping idTokenMapping),
    (decide (wm.Options ≠ options), .ChangeOIDCOptions (wm.Options.Changes options)) ]

/-! ### Change sets of JWTIDPWriteModel -/

/-- The configuration field an entry is for. -/
def JWTIDPChanges.field : JWTIDPChanges → ConfigField
  | .ChangeJWTName _ => .Name
  | .ChangeJWTIssuer _ => .Issuer
  | .ChangeJWTEndpoint _ => .JWTEndpoint
  | .ChangeJWTKeysEndpoint _ => .KeysEndpoint
  | .ChangeJWTHeaderName _ => .HeaderName
  | .ChangeJWTOptions _ => .Options

/-- Modelled from the spec: the `Change…` functions of `repository/idp` are not part
of the sources at hand; each entry stores its value in the field of the changed event
it is named after. -/
def JWTIDPChanges.apply : JWTIDPChanges → JWTIDPChangedEvent → JWTIDPChangedEvent
  | .ChangeJWTName name, e => { e with Name := some name }
  | .ChangeJWTIssuer issuer, e => { e with Issuer := some issuer }
  | .ChangeJWTEndpoint jwtEndpoint, e => { e with JWTEndpoint := some jwtEndpoint }
  | .ChangeJWTKeysEndpoint keysEndpoint, e => { e with KeysEndpoint := some keysEndpoint }
  | .ChangeJWTHeaderName headerName, e => { e with HeaderName := some headerName }
  | .ChangeJWTOptions options, e => { e with OptionChanges := options }

/-- A changed event that carries nothing. -/
def JWTIDPChangedEvent.empty : JWTIDPChangedEvent :=
  { Name := none
    Issuer := none
    JWTEndpoint := none
    KeysEndpoint := none
    HeaderName := none
    OptionChanges := ⟨none, none, none, none⟩ }

/-- Modelled from the spec: the changed event that carries exactly the entries of a
change set, each entry applied in turn to an event that carries nothing. -/
def JWTIDPChangedEvent.withChanges (changes : List JWTIDPChanges) :
    JWTIDPChangedEvent :=
  changes.foldl (fun e change => change.apply e) JWTIDPChangedEvent.empty

/-- The compared fields of `NewChanges` in the order of the source: for each, whether
the stored value differs from the desired one, and the entry for the desired value. -/
def JWTIDPWriteModel.comparedFields (wm : JWTIDPWriteModel)
    (name issuer jwtEndpoint keysEndpoint headerName : String) (options : Zitadel.Options) :
    List (Bool × JWTIDPChanges) :=
  [ (decide (wm.Name ≠ name), .ChangeJWTName name),
    (decide (wm.Issuer ≠ issuer), .ChangeJWTIssuer issuer),
    (decide (wm.JWTEndpoint ≠ jwtEndpoint), .ChangeJWTEndpoint jwtEndpoint),
    (decide (wm.KeysEndpoint ≠ keysEndpoint), .ChangeJWTKeysEndpoint keysEndpoint),
    (decide (wm.HeaderName ≠ headerName), .ChangeJWTHeaderName headerName),
    (decide (wm.Options ≠ options), .ChangeJWTOptions (wm.Options.Changes options)) ]

/-! ### Change sets of AzureADIDPWriteModel -/

/-- The configuration field an entry is for. -/
def AzureADIDPChanges.field : AzureADIDPChanges → ConfigField
  | .ChangeAzureADClientSecret _ => .ClientSecret
  | .ChangeAzureADName _ => .Name
  | .ChangeAzureADClientID _ => .ClientID
  | .ChangeAzureADTenant _ => .Tenant
  | .ChangeAzureADIsEmailVerified _ => .IsEmailVerified
  | .ChangeAzureADScopes _ => .Scopes
  | .ChangeAzureADOptions _ => .Options

/-- Modelled from the spec: the `Change…` functions of `repository/idp` are not part
of the sources at hand; each entry stores its value in the field of the changed event
it is named after. -/
def AzureADIDPChanges.apply : AzureADIDPChanges → AzureADIDPChangedEvent → AzureADIDPChangedEvent
  | .ChangeAzureADClientSecret clientSecret, e => { e with ClientSecret := clientSecret }
  | .ChangeAzureADName name, e => { e with Name := some name }
  | .ChangeAzureADClientID clientID, e => { e with ClientID := some clientID }
  | .ChangeAzureADTenant tenant, e => { e with Tenant := some tenant }
  | .ChangeAzureADIsEmailVerified isEmailVerified, e =>
    { e with IsEmailVerified := some isEmailVerified }
  | .ChangeAzureADScopes scopes, e => { e with Scopes := scopes }
  | .ChangeAzureADOptions options, e => { e with OptionChanges := options }

/-- A changed event that carries nothing. -/
def AzureADIDPChangedEvent.empty : AzureADIDPChangedEvent :=
  { Name := none
    ClientID := none
    ClientSecret := none
    Scopes := none
    Tenant := none
    IsEmailVerified := none
    OptionChanges := ⟨none, none, none, none⟩ }

/-- Modelled from the spec: the changed event that carries exactly the entries of a
change set, each entry applied in turn to an event that carries nothing. -/
def AzureADIDPChangedEvent.withChanges (changes : List AzureADIDPChanges) :
    AzureADIDPChangedEvent :=
  changes.foldl (fun e change => change.apply e) AzureADIDPChangedEvent.empty

/-- The compared fields of `NewChanges` in the order of the source: for each, whether
the stored value differs from the desired one, and the entry for the desired value. -/
def AzureADIDPWriteModel.comparedFields (wm : AzureADIDPWriteModel) (name clientID : String)
    (scopes : StringSlice) (tenant : String) (isEmailVerified : Bool) (options : Zitadel.Options)
    :
    List (Bool × AzureADIDPChanges) :=
  [ (decide (wm.Name ≠ name), .ChangeAzureADName name),
    (decide (wm.ClientID ≠ clientID), .ChangeAzureADClientID clientID),
    (decide (wm.Tenant ≠ tenant), .ChangeAzureADTenant tenant),
    (decide (wm.IsEmailVerified ≠ isEmailVerified), .ChangeAzureADIsEmailVerified isEmailVerified),
    (decide (wm.Scopes ≠ scopes), .ChangeAzureADScopes scopes),
    (decide (wm.Options ≠ options), .ChangeAzureADOptions (wm.Options.Changes options)) ]

/-! ### Change sets of GitHubIDPWriteModel -/

/-- The configuration field an entry is for. -/
def GitHubIDPChanges.field : GitHubIDPChanges → ConfigField
  | .ChangeGitHubClientSecret _ => .ClientSecret
  | .ChangeGitHubName _ => .Name
  | .ChangeGitHubClientID _ => .ClientID
  | .ChangeGitHubScopes _ => .Scopes
  | .ChangeGitHubOptions _ => .Options

/-- Modelled from the spec: the `Change…` functions of `repository/idp` are not part
of the sources at hand; each entry stores its value in the field of the changed event
it is named after. -/
def GitHubIDPChanges.apply : GitHubIDPChanges → GitHubIDPChangedEvent → GitHubIDPChangedEvent
  | .ChangeGitHubClientSecret clientSecret, e => { e with ClientSecret := clientSecret }
  | .ChangeGitHubName name, e => { e with Name := some name }
  | .ChangeGitHubClientID clientID, e => { e with ClientID := some clientID }
  | .ChangeGitHubScopes scopes, e => { e with Scopes := scopes }
  | .ChangeGitHubOptions options, e => { e with OptionChanges := options }

/-- A changed event that carries nothing. -/
def GitHubIDPChangedEvent.empty : GitHubIDPChangedEvent :=
  { Name := none
    ClientID := none
    ClientSecret := none
    Scopes := none
    OptionChanges := ⟨none, none, none, none⟩ }

/-- Modelled from the spec: the changed event that carries exactly the entries of a
change set, each entry applied in turn to an event that carries nothing. -/
def GitHubIDPChangedEvent.withChanges (changes : List GitHubIDPChanges) :
    GitHubIDPChangedEvent :=
  changes.foldl (fun e change => change.apply e) GitHubIDPChangedEvent.empty

/-- The compared fields of `NewChanges` in the order of the source: for each, whether
the stored value differs from the desired one, and the entry for the desired value. -/
def GitHubIDPWriteModel.comparedFields (wm : GitHubIDPWriteModel) (name clientID : String)
    (scopes : StringSlice) (options : Zitadel.Options) :
    List (Bool × GitHubIDPChanges) :=
  [ (decide (wm.Name ≠ name), .ChangeGitHubName name),
    (decide (wm.ClientID ≠ clientID), .ChangeGitHubClientID clientID),
    (decide (wm.Scopes ≠ scopes), .ChangeGitHubScopes scopes),
    (decide (wm.Options ≠ options), .ChangeGitHubOptions (wm.Options.Changes options)) ]

/-! ### Change sets of GitHubEnterpriseIDPWriteModel -/

/-- The configuration field an entry is for. -/
def GitHubEnterpriseIDPChanges.field : GitHubEnterpriseIDPChanges → ConfigField
  | .ChangeGitHubEnterpriseClientSecret _ => .ClientSecret
  | .ChangeGitHubEnterpriseClientID _ => .ClientID
  | .ChangeGitHubEnterpriseName _ => .Name
  | .ChangeGitHubEnterpriseAuthorizationEndpoint _ => .AuthorizationEndpoint
  | .ChangeGitHubEnterpriseTokenEndpoint _ => .TokenEndpoint
  | .ChangeGitHubEnterpriseUserEndpoint _ => .UserEndpoint
  | .ChangeGitHubEnterpriseScopes _ => .Scopes
  | .ChangeGitHubEnterpriseOptions _ => .Options

/-- Modelled from the spec: the `Change…` functions of `repository/idp` are not part
of the sources at hand; each entry stores its value in the field of the changed event
it is named after. -/
def GitHubEnterpriseIDPChanges.apply : GitHubEnterpriseIDPChanges → GitHubEnterpriseIDPChangedEvent → GitHubEnterpriseIDPChangedEvent
  | .ChangeGitHubEnterpriseClientSecret clientSecret, e => { e with ClientSecret := clientSecret }
  | .ChangeGitHubEnterpriseClientID clientID, e => { e with ClientID := some clientID }
  | .ChangeGitHubEnterpriseName name, e => { e with Name := some name }
  | .ChangeGitHubEnterpriseAuthorizationEndpoint authorizationEndpoint, e =>
    { e with AuthorizationEndpoint := some authorizationEndpoint }
  | .ChangeGitHubEnterpriseTokenEndpoint tokenEndpoint, e =>
    { e with TokenEndpoint := some tokenEndpoint }
  | .ChangeGitHubEnterpriseUserEndpoint userEndpoint, e =>
    { e with UserEndpoint := some userEndpoint }
  | .ChangeGitHubEnterpriseScopes scopes, e => { e with Scopes := scopes }
  | .ChangeGitHubEnterpriseOptions options, e => { e with OptionChanges := options }

/-- A changed event that carries nothing. -/
def GitHubEnterpriseIDPChangedEvent.empty : GitHubEnterpriseIDPChangedEvent :=
  { Name := none
    ClientID := none
    ClientSecret := none
    AuthorizationEndpoint := none
    TokenEndpoint := none
    UserEndpoint := none
    Scopes := none
    OptionChanges := ⟨none, none, none, none⟩ }

/-- Modelled from the spec: the changed event that carries exactly the entries of a
change set, each entry applied in turn to an event that carries nothing. -/
def GitHubEnterpriseIDPChangedEvent.withChanges (changes : List GitHubEnterpriseIDPChanges) :
    GitHubEnterpriseIDPChangedEvent :=
  changes.foldl (fun e change => change.apply e) GitHubEnterpriseIDPChangedEvent.empty

/-- The compared fields of `NewChanges` in the order of the source: for each, whether
the stored value differs from the desired one, and the entry for the desired value. -/
def GitHubEnterpriseIDPWriteModel.comparedFields (wm : GitHubEnterpriseIDPWriteModel)
    (name clientID authorizationEndpoint tokenEndpoint userEndpoint : String)
    (scopes : StringSlice) (options : Zitadel.Options) :
    List (Bool × GitHubEnterpriseIDPChanges) :=
  [ (decide (wm.ClientID ≠ clientID), .ChangeGitHubEnterpriseClientID clientID),
    (decide (wm.Name ≠ name), .ChangeGitHubEnterpriseName name),
    (decide (wm.AuthorizationEndpoint ≠ authorizationEndpoint),
      .ChangeGitHubEnterpriseAuthorizationEndpoint authorizationEndpoint),
    (decide (wm.TokenEndpoint ≠ tokenEndpoint),
      .ChangeGitHubEnterpriseTokenEndpoint tokenEndpoint),
    (decide (wm.UserEndpoint ≠ userEndpoint), .ChangeGitHubEnterpriseUserEndpoint userEndpoint),
    (decide (wm.Scopes ≠ scopes), .ChangeGitHubEnterpriseScopes scopes),
    (decide (wm.Options ≠ options), .ChangeGitHubEnterpriseOptions (wm.Options.Changes options)) ]

/-! ### Change sets of GitLabIDPWriteModel -/

/-- The configuration field an entry is for. -/
def GitLabIDPChanges.field : GitLabIDPChanges → ConfigField
  | .ChangeGitLabClientSecret _ => .ClientSecret
  | .ChangeGitLabName _ => .Name
  | .ChangeGitLabClientID _ => .ClientID
  | .ChangeGitLabScopes _ => .Scopes
  | .ChangeGitLabOptions _ => .Options

/-- Modelled from the spec: the `Change…` functions of `repository/idp` are not part
of the sources at hand; each entry stores its value in the field of the changed event
it is named after. -/
def GitLabIDPChanges.apply : GitLabIDPChanges → GitLabIDPChangedEvent → GitLabIDPChangedEvent
  | .ChangeGitLabClientSecret clientSecret, e => { e with ClientSecret := clientSecret }
  | .ChangeGitLabName name, e => { e with Name := some name }
  | .ChangeGitLabClientID clientID, e => { e with ClientID := some clientID }
  | .ChangeGitLabScopes scopes, e => { e with Scopes := scopes }
  | .ChangeGitLabOptions options, e => { e with OptionChanges := options }

/-- A changed event that carries nothing. -/
def GitLabIDPChangedEvent.empty : GitLabIDPChangedEvent :=
  { Name := none
    ClientID := none
    ClientSecret := none
    Scopes := none
    OptionChanges := ⟨none, none, none, none⟩ }

/-- Modelled from the spec: the changed event that carries exactly the entries of a
change set, each entry applied in turn to an event that carries nothing. -/
def GitLabIDPChangedEvent.withChanges (changes : List GitLabIDPChanges) :
    GitLabIDPChangedEvent :=
  changes.foldl (fun e change => change.apply e) GitLabIDPChangedEvent.empty

/-- The compared fields of `NewChanges` in the order of the source: for each, whether
the stored value differs from the desired one, and the entry for the desired value. -/
def GitLabIDPWriteModel.comparedFields (wm : GitLabIDPWriteModel) (name clientID : String)
    (scopes : StringSlice) (options : Zitadel.Options) :
    List (Bool × GitLabIDPChanges) :=
  [ (decide (wm.Name ≠ name), .ChangeGitLabName name),
    (decide (wm.ClientID ≠ clientID), .ChangeGitLabClientID clientID),
    (decide (wm.Scopes ≠ scopes), .ChangeGitLabScopes scopes),
    (decide (wm.Options ≠ options), .ChangeGitLabOptions (wm.Options.Changes options)) ]

/-! ### Change sets of GitLabSelfHostedIDPWriteModel -/

/-- The configuration field an entry is for. -/
def GitLabSelfHostedIDPChanges.field : GitLabSelfHostedIDPChanges → ConfigField
  | .ChangeGitLabSelfHostedClientSecret _ => .ClientSecret
  | .ChangeGitLabSelfHostedClientID _ => .ClientID
  | .ChangeGitLabSelfHostedName _ => .Name
  | .ChangeGitLabSelfHostedIssuer _ => .Issuer
  | .ChangeGitLabSelfHostedScopes _ => .Scopes
  | .ChangeGitLabSelfHostedOptions _ => .Options

/-- Modelled from the spec: the `Change…` functions of `repository/idp` are not part
of the sources at hand; each entry stores its value in the field of the changed event
it is named after. -/
def GitLabSelfHostedIDPChanges.apply : GitLabSelfHostedIDPChanges → GitLabSelfHostedIDPChangedEvent → GitLabSelfHostedIDPChangedEvent
  | .ChangeGitLabSelfHostedClientSecret clientSecret, e => { e with ClientSecret := clientSecret }
  | .ChangeGitLabSelfHostedClientID clientID, e => { e with ClientID := some clientID }
  | .ChangeGitLabSelfHostedName name, e => { e with Name := some name }
  | .ChangeGitLabSelfHostedIssuer issuer, e => { e with Issuer := some issuer }
  | .ChangeGitLabSelfHostedScopes scopes, e => { e with Scopes := scopes }
  | .ChangeGitLabSelfHostedOptions options, e => { e with OptionChanges := options }

/-- A changed event that carries nothing. -/
def GitLabSelfHostedIDPChangedEvent.empty : GitLabSelfHostedIDPChangedEvent :=
  { Name := none
    Issuer := none
    ClientID := none
    ClientSecret := none
    Scopes := none
    OptionChanges := ⟨none, none, none, none⟩ }

/-- Modelled from the spec: the changed event that carries exactly the entries of a
change set, each entry applied in turn to an event that carries nothing. -/
def GitLabSelfHostedIDPChangedEvent.withChanges (changes : List GitLabSelfHostedIDPChanges) :
    GitLabSelfHostedIDPChangedEvent :=
  changes.foldl (fun e change => change.apply e) GitLabSelfHostedIDPChangedEvent.empty

/-- The compared fields of `NewChanges` in the order of the source: for each, whether
the stored value differs from the desired one, and the entry for the desired value. -/
def GitLabSelfHostedIDPWriteModel.comparedFields (wm : GitLabSelfHostedIDPWriteModel)
    (name issuer clientID : String) (scopes : StringSlice) (options : Zitadel.Options) :
    List (Bool × GitLabSelfHostedIDPChanges) :=
  [ (decide (wm.ClientID ≠ clientID), .ChangeGitLabSelfHostedClientID clientID),
    (decide (wm.Name ≠ name), .ChangeGitLabSelfHostedName name),
    (decide (wm.Issuer ≠ issuer), .ChangeGitLabSelfHostedIssuer issuer),
    (decide (wm.Scopes ≠ scopes), .ChangeGitLabSelfHostedScopes scopes),
    (decide (wm.Options ≠ options), .ChangeGitLabSelfHostedOptions (wm.Options.Changes options)) ]

/-! ### Change sets of GoogleIDPWriteModel -/

/-- The configuration field an entry is for. -/
def GoogleIDPChanges.field : GoogleIDPChanges → ConfigField
  | .ChangeGoogleClientSecret _ => .ClientSecret
  | .ChangeGoogleName _ => .Name
  | .ChangeGoogleClientID _ => .ClientID
  | .ChangeGoogleScopes _ => .Scopes
  | .ChangeGoogleOptions _ => .Options

/-- Modelled from the spec: the `Change…` functions of `repository/idp` are not part
of the sources at hand; each entry stores its value in the field of the changed event
it is named after. -/
def GoogleIDPChanges.apply : GoogleIDPChanges → GoogleIDPChangedEvent → GoogleIDPChangedEvent
  | .ChangeGoogleClientSecret clientSecret, e => { e with ClientSecret := clientSecret }
  | .ChangeGoogleName name, e => { e with Name := some name }
  | .ChangeGoogleClientID clientID, e => { e with ClientID := some clientID }
  | .ChangeGoogleScopes scopes, e => { e with Scopes := scopes }
  | .ChangeGoogleOptions options, e => { e with OptionChanges := options }

/-- A changed event that carries nothing. -/
def GoogleIDPChangedEvent.empty : GoogleIDPChangedEvent :=
  { Name := none
    ClientID := none
    ClientSecret := none
    Scopes := none
    OptionChanges := ⟨none, none, none, none⟩ }

/-- Modelled from the spec: the changed event that carries exactly the entries of a
change set, each entry applied in turn to an event that carries nothing. -/
def GoogleIDPChangedEvent.withChanges (changes : List GoogleIDPChanges) :
    GoogleIDPChangedEvent :=
  changes.foldl (fun e change => change.apply e) GoogleIDPChangedEvent.empty

/-- The compared fields of `NewChanges` in the order of the source: for each, whether
the stored value differs from the desired one, and the entry for the desired value. -/
def GoogleIDPWriteModel.comparedFields (wm : GoogleIDPWriteModel) (name clientID : String)
    (scopes : StringSlice) (options : Zitadel.Options) :
    List (Bool × GoogleIDPChanges) :=
  [ (decide (wm.Name ≠ name), .ChangeGoogleName name),
    (decide (wm.ClientID ≠ clientID), .ChangeGoogleClientID clientID),
    (decide (wm.Scopes ≠ scopes), .ChangeGoogleScopes scopes),
    (decide (wm.Options ≠ options), .ChangeGoogleOptions (wm.Options.Changes options)) ]

/-! ### Change sets of LDAPIDPWriteModel -/

/-- The configuration field an entry is for. -/
def LDAPIDPChanges.field : LDAPIDPChanges → ConfigField
  | .ChangeLDAPBindPassword _ => .BindPassword
  | .ChangeLDAPName _ => .Name
  | .ChangeLDAPServers _ => .Servers
  | .ChangeLDAPStartTLS _ => .StartTLS
  | .ChangeLDAPBaseDN _ => .BaseDN
  | .ChangeLDAPBindDN _ => .BindDN
  | .ChangeLDAPUserBase _ => .UserBase
  | .ChangeLDAPUserObjectClasses _ => .UserObjectClasses
  | .ChangeLDAPUserFilters _ => .UserFilters
  | .ChangeLDAPTimeout _ => .Timeout
  | .ChangeLDAPAttributes _ => .LDAPAttributes
  | .ChangeLDAPOptions _ => .Options

/-- Modelled from the spec: the `Change…` functions of `repository/idp` are not part
of the sources at hand; each entry stores its value in the field of the changed event
it is named after. -/
def LDAPIDPChanges.apply : LDAPIDPChanges → LDAPIDPChangedEvent → LDAPIDPChangedEvent
  | .ChangeLDAPBindPassword password, e => { e with BindPassword := password }
  | .ChangeLDAPName name, e => { e with Name := some name }
  | .ChangeLDAPServers servers, e => { e with Servers := servers }
  | .ChangeLDAPStartTLS startTLS, e => { e with StartTLS := some startTLS }
  | .ChangeLDAPBaseDN baseDN, e => { e with BaseDN := some baseDN }
  | .ChangeLDAPBindDN bindDN, e => { e with BindDN := some bindDN }
  | .ChangeLDAPUserBase userBase, e => { e with UserBase := some userBase }
  | .ChangeLDAPUserObjectClasses userObjectClasses, e =>
    { e with UserObjectClasses := userObjectClasses }
  | .ChangeLDAPUserFilters userFilters, e => { e with UserFilters := userFilters }
  | .ChangeLDAPTimeout timeout, e => { e with Timeout := some timeout }
  | .ChangeLDAPAttributes attributes, e => { e with LDAPAttributeChanges := attributes }
  | .ChangeLDAPOptions options, e => { e with OptionChanges := options }

/-- A changed event that carries nothing. -/
def LDAPIDPChangedEvent.empty (id : String) : LDAPIDPChangedEvent :=
  { ID := id
    Name := none
    Servers := none
    StartTLS := none
    BaseDN := none
    BindDN := none
    BindPassword := none
    UserBase := none
    UserObjectClasses := none
    UserFilters := none
    Timeout := none
    LDAPAttributeChanges :=
      ⟨none, none, none, none, none, none, none, none, none, none, none, none, none⟩
    OptionChanges := ⟨none, none, none, none⟩ }

/-- Modelled from the spec: the changed event that carries exactly the entries of a
change set, each entry applied in turn to an event that carries nothing. -/
def LDAPIDPChangedEvent.withChanges (id : String) (changes : List LDAPIDPChanges) :
    LDAPIDPChangedEvent :=
  changes.foldl (fun e change => change.apply e) (LDAPIDPChangedEvent.empty id)

/-- The compared fields of `NewChanges` in the order of the source: for each, whether
the stored value differs from the desired one, and the entry for the desired value. -/
def LDAPIDPWriteModel.comparedFields (wm : LDAPIDPWriteModel) (name : String)
    (servers : StringSlice) (startTLS : Bool) (baseDN bindDN userBase : String)
    (userObjectClasses userFilters : StringSlice) (timeout : Int)
    (attributes : Zitadel.LDAPAttributes) (options : Zitadel.Options) :
    List (Bool × LDAPIDPChanges) :=
  [ (decide (wm.Name ≠ name), .ChangeLDAPName name),
    (decide (wm.Servers ≠ servers), .ChangeLDAPServers servers),
    (decide (wm.StartTLS ≠ startTLS), .ChangeLDAPStartTLS startTLS),
    (decide (wm.BaseDN ≠ baseDN), .ChangeLDAPBaseDN baseDN),
    (decide (wm.BindDN ≠ bindDN), .ChangeLDAPBindDN bindDN),
    (decide (wm.UserBase ≠ userBase), .ChangeLDAPUserBase userBase),
    (decide (wm.UserObjectClasses ≠ userObjectClasses),
      .ChangeLDAPUserObjectClasses userObjectClasses),
    (decide (wm.UserFilters ≠ userFilters), .ChangeLDAPUserFilters userFilters),
    (decide (wm.Timeout ≠ timeout), .ChangeLDAPTimeout timeout),
    (decide (wm.LDAPAttributes ≠ attributes),
      .ChangeLDAPAttributes (wm.LDAPAttributes.Changes attributes)),
    (decide (wm.Options ≠ options), .ChangeLDAPOptions (wm.Options.Changes options)) ]

/-! ## Relations on write models used to state and prove the fold properties -/

/-- The value `t` is the value `s` or the value `u`. -/
def Pick {α : Type} (s u t : α) : Prop :=
  t = s ∨ t = u

/-- Flag by flag, `t` holds the flag of `s` or the flag of `u`. -/
def Options.Mix (s u t : Options) : Prop :=
  Pick s.IsCreationAllowed u.IsCreationAllowed t.IsCreationAllowed ∧
    Pick s.IsLinkingAllowed u.IsLinkingAllowed t.IsLinkingAllowed ∧
    Pick s.IsAutoCreation u.IsAutoCreation t.IsAutoCreation ∧
    Pick s.IsAutoUpdate u.IsAutoUpdate t.IsAutoUpdate

/-- Attribute by attribute, `t` holds the attribute of `s` or the attribute of `u`. -/
def LDAPAttributes.Mix (s u t : LDAPAttributes) : Prop :=
  Pick s.IDAttribute u.IDAttribute t.IDAttribute ∧
    Pick s.FirstNameAttribute u.FirstNameAttribute t.FirstNameAttribute ∧
    Pick s.LastNameAttribute u.LastNameAttribute t.LastNameAttribute ∧
    Pick s.DisplayNameAttribute u.DisplayNameAttribute t.DisplayNameAttribute ∧
    Pick s.NickNameAttribute u.NickNameAttribute t.NickNameAttribute ∧
    Pick s.PreferredUsernameAttribute u.PreferredUsernameAttribute t.PreferredUsernameAttribute ∧
    Pick s.EmailAttribute u.EmailAttribute t.EmailAttribute ∧
    Pick s.EmailVerifiedAttribute u.EmailVerifiedAttribute t.EmailVerifiedAttribute ∧
    Pick s.PhoneAttribute u.PhoneAttribute t.PhoneAttribute ∧
    Pick s.PhoneVerifiedAttribute u.PhoneVerifiedAttribute t.PhoneVerifiedAttribute ∧
    Pick s.PreferredLanguageAttribute u.PreferredLanguageAttribute t.PreferredLanguageAttribute ∧
    Pick s.AvatarURLAttribute u.AvatarURLAttribute t.AvatarURLAttribute ∧
    Pick s.ProfileAttribute u.ProfileAttribute t.ProfileAttribute

/-- Two write models agree on every domain field, that is on every field but those of
the embedded `eventstore.WriteModel`. -/
def OAuthIDPWriteModel.SameDomain (a b : OAuthIDPWriteModel) : Prop :=
  a.Name = b.Name ∧ a.ID = b.ID ∧ a.ClientID = b.ClientID ∧ a.ClientSecret = b.ClientSecret ∧
    a.AuthorizationEndpoint = b.AuthorizationEndpoint ∧ a.TokenEndpoint = b.TokenEndpoint ∧
    a.UserEndpoint = b.UserEndpoint ∧ a.Scopes = b.Scopes ∧ a.IDAttribute = b.IDAttribute ∧
    a.Options = b.Options ∧ a.State = b.State

/-- Field by field, `t` holds the value of `s` or the value of `u`, and `t` has the
`ID` of `s`. -/
def OAuthIDPWriteModel.Mix (s u t : OAuthIDPWriteModel) : Prop :=
  Pick s.Name u.Name t.Name ∧ t.ID = s.ID ∧ Pick s.ClientID u.ClientID t.ClientID ∧
    Pick s.ClientSecret u.ClientSecret t.ClientSecret ∧
    Pick s.AuthorizationEndpoint u.AuthorizationEndpoint t.AuthorizationEndpoint ∧
    Pick s.TokenEndpoint u.TokenEndpoint t.TokenEndpoint ∧
    Pick s.UserEndpoint u.UserEndpoint t.UserEndpoint ∧ Pick s.Scopes u.Scopes t.Scopes ∧
    Pick s.IDAttribute u.IDAttribute t.IDAttribute ∧ Options.Mix s.Options u.Options t.Options ∧
    Pick s.State u.State t.State

/-- Two write models agree on every domain field, that is on every field but those of
the embedded `eventstore.WriteModel`. -/
def OIDCIDPWriteModel.SameDomain (a b : OIDCIDPWriteModel) : Prop :=
  a.Name = b.Name ∧ a.ID = b.ID ∧ a.Issuer = b.Issuer ∧ a.ClientID = b.ClientID ∧
    a.ClientSecret = b.ClientSecret ∧ a.Scopes = b.Scopes ∧
    a.IsIDTokenMapping = b.IsIDTokenMapping ∧ a.Options = b.Options ∧ a.State = b.State

/-- Field by field, `t` holds the value of `s` or the value of `u`, and `t` has the
`ID` of `s`. -/
def OIDCIDPWriteModel.Mix (s u t : OIDCIDPWriteModel) : Prop :=
  Pick s.Name u.Name t.Name ∧ t.ID = s.ID ∧ Pick s.Issuer u.Issuer t.Issuer ∧
    Pick s.ClientID u.ClientID t.ClientID ∧ Pick s.ClientSecret u.ClientSecret t.ClientSecret ∧
    Pick s.Scopes u.Scopes t.Scopes ∧
    Pick s.IsIDTokenMapping u.IsIDTokenMapping t.IsIDTokenMapping ∧
    Options.Mix s.Options u.Options t.Options ∧ Pick s.State u.State t.State

/-- Two write models agree on every domain field, that is on every field but those of
the embedded `eventstore.WriteModel`. -/
def JWTIDPWriteModel.SameDomain (a b : JWTIDPWriteModel) : Prop :=
  a.ID = b.ID ∧ a.Name = b.Name ∧ a.Issuer = b.Issuer ∧ a.JWTEndpoint = b.JWTEndpoint ∧
    a.KeysEndpoint = b.KeysEndpoint ∧ a.HeaderName = b.HeaderName ∧ a.Options = b.Options ∧
    a.State = b.State

/-- Field by field, `t` holds the value of `s` or the value of `u`, and `t` has the
`ID` of `s`. -/
def JWTIDPWriteModel.Mix (s u t : JWTIDPWriteModel) : Prop :=
  t.ID = s.ID ∧ Pick s.Name u.Name t.Name ∧ Pick s.Issuer u.Issuer t.Issuer ∧
    Pick s.JWTEndpoint u.JWTEndpoint t.JWTEndpoint ∧
    Pick s.KeysEndpoint u.KeysEndpoint t.KeysEndpoint ∧
    Pick s.HeaderName u.HeaderName t.HeaderName ∧ Options.Mix s.Options u.Options t.Options ∧
    Pick s.State u.State t.State

/-- Two write models agree on every domain field, that is on every field but those of
the embedded `eventstore.WriteModel`. -/
def AzureADIDPWriteModel.SameDomain (a b : AzureADIDPWriteModel) : Prop :=
  a.ID = b.ID ∧ a.Name = b.Name ∧ a.ClientID = b.ClientID ∧ a.ClientSecret = b.ClientSecret ∧
    a.Scopes = b.Scopes ∧ a.Tenant = b.Tenant ∧ a.IsEmailVerified = b.IsEmailVerified ∧
    a.Options = b.Options ∧ a.State = b.State

/-- Field by field, `t` holds the value of `s` or the value of `u`, and `t` has the
`ID` of `s`. -/
def AzureADIDPWriteModel.Mix (s u t : AzureADIDPWriteModel) : Prop :=
  t.ID = s.ID ∧ Pick s.Name u.Name t.Name ∧ Pick s.ClientID u.ClientID t.ClientID ∧
    Pick s.ClientSecret u.ClientSecret t.ClientSecret ∧ Pick s.Scopes u.Scopes t.Scopes ∧
    Pick s.Tenant u.Tenant t.Tenant ∧ Pick s.IsEmailVerified u.IsEmailVerified t.IsEmailVerified ∧
    Options.Mix s.Options u.Options t.Options ∧ Pick s.State u.State t.State

/-- Two write models agree on every domain field, that is on every field but those of
the embedded `eventstore.WriteModel`. -/
def GitHubIDPWriteModel.SameDomain (a b : GitHubIDPWriteModel) : Prop :=
  a.ID = b.ID ∧ a.Name = b.Name ∧ a.ClientID = b.ClientID ∧ a.ClientSecret = b.ClientSecret ∧
    a.Scopes = b.Scopes ∧ a.Options = b.Options ∧ a.State = b.State

/-- Field by field, `t` holds the value of `s` or the value of `u`, and `t` has the
`ID` of `s`. -/
def GitHubIDPWriteModel.Mix (s u t : GitHubIDPWriteModel) : Prop :=
  t.ID = s.ID ∧ Pick s.Name u.Name t.Name ∧ Pick s.ClientID u.ClientID t.ClientID ∧
    Pick s.ClientSecret u.ClientSecret t.ClientSecret ∧ Pick s.Scopes u.Scopes t.Scopes ∧
    Options.Mix s.Options u.Options t.Options ∧ Pick s.State u.State t.State

/-- Two write models agree on every domain field, that is on every field but those of
the embedded `eventstore.WriteModel`. -/
def GitHubEnterpriseIDPWriteModel.SameDomain (a b : GitHubEnterpriseIDPWriteModel) : Prop :=
  a.ID = b.ID ∧ a.Name = b.Name ∧ a.ClientID = b.ClientID ∧ a.ClientSecret = b.ClientSecret ∧
    a.AuthorizationEndpoint = b.AuthorizationEndpoint ∧ a.TokenEndpoint = b.TokenEndpoint ∧
    a.UserEndpoint = b.UserEndpoint ∧ a.Scopes = b.Scopes ∧ a.Options = b.Options ∧
    a.State = b.State

/-- Field by field, `t` holds the value of `s` or the value of `u`, and `t` has the
`ID` of `s`. -/
def GitHubEnterpriseIDPWriteModel.Mix (s u t : GitHubEnterpriseIDPWriteModel) : Prop :=
  t.ID = s.ID ∧ Pick s.Name u.Name t.Name ∧ Pick s.ClientID u.ClientID t.ClientID ∧
    Pick s.ClientSecret u.ClientSecret t.ClientSecret ∧
    Pick s.AuthorizationEndpoint u.AuthorizationEndpoint t.AuthorizationEndpoint ∧
    Pick s.TokenEndpoint u.TokenEndpoint t.TokenEndpoint ∧
    Pick s.UserEndpoint u.UserEndpoint t.UserEndpoint ∧ Pick s.Scopes u.Scopes t.Scopes ∧
    Options.Mix s.Options u.Options t.Options ∧ Pick s.State u.State t.State

/-- Two write models agree on every domain field, that is on every field but those of
the embedded `eventstore.WriteModel`. -/
def GitLabIDPWriteModel.SameDomain (a b : GitLabIDPWriteModel) : Prop :=
  a.ID = b.ID ∧ a.Name = b.Name ∧ a.ClientID = b.ClientID ∧ a.ClientSecret = b.ClientSecret ∧
    a.Scopes = b.Scopes ∧ a.Options = b.Options ∧ a.State = b.State

/-- Field by field, `t` holds the value of `s` or the value of `u`, and `t` has the
`ID` of `s`. -/
def GitLabIDPWriteModel.Mix (s u t : GitLabIDPWriteModel) : Prop :=
  t.ID = s.ID ∧ Pick s.Name u.Name t.Name ∧ Pick s.ClientID u.ClientID t.ClientID ∧
    Pick s.ClientSecret u.ClientSecret t.ClientSecret ∧ Pick s.Scopes u.Scopes t.Scopes ∧
    Options.Mix s.Options u.Options t.Options ∧ Pick s.State u.State t.State

/-- Two write models agree on every domain field, that is on every field but those of
the embedded `eventstore.WriteModel`. -/
def GitLabSelfHostedIDPWriteModel.SameDomain (a b : GitLabSelfHostedIDPWriteModel) : Prop :=
  a.ID = b.ID ∧ a.Name = b.Name ∧ a.Issuer = b.Issuer ∧ a.ClientID = b.ClientID ∧
    a.ClientSecret = b.ClientSecret ∧ a.Scopes = b.Scopes ∧ a.Options = b.Options ∧
    a.State = b.State

/-- Field by field, `t` holds the value of `s` or the value of `u`, and `t` has the
`ID` of `s`. -/
def GitLabSelfHostedIDPWriteModel.Mix (s u t : GitLabSelfHostedIDPWriteModel) : Prop :=
  t.ID = s.ID ∧ Pick s.Name u.Name t.Name ∧ Pick s.Issuer u.Issuer t.Issuer ∧
    Pick s.ClientID u.ClientID t.ClientID ∧ Pick s.ClientSecret u.ClientSecret t.ClientSecret ∧
    Pick s.Scopes u.Scopes t.Scopes ∧ Options.Mix s.Options u.Options t.Options ∧
    Pick s.State u.State t.State

/-- Two write models agree on every domain field, that is on every field but those of
the embedded `eventstore.WriteModel`. -/
def GoogleIDPWriteModel.SameDomain (a b : GoogleIDPWriteModel) : Prop :=
  a.ID = b.ID ∧ a.Name = b.Name ∧ a.ClientID = b.ClientID ∧ a.ClientSecret = b.ClientSecret ∧
    a.Scopes = b.Scopes ∧ a.Options = b.Options ∧ a.State = b.State

/-- Field by field, `t` holds the value of `s` or the value of `u`, and `t` has the
`ID` of `s`. -/
def GoogleIDPWriteModel.Mix (s u t : GoogleIDPWriteModel) : Prop :=
  t.ID = s.ID ∧ Pick s.Name u.Name t.Name ∧ Pick s.ClientID u.ClientID t.ClientID ∧
    Pick s.ClientSecret u.ClientSecret t.ClientSecret ∧ Pick s.Scopes u.Scopes t.Scopes ∧
    Options.Mix s.Options u.Options t.Options ∧ Pick s.State u.State t.State

/-- Two write models agree on every domain field, that is on every field but those of
the embedded `eventstore.WriteModel`. -/
def LDAPIDPWriteModel.SameDomain (a b : LDAPIDPWriteModel) : Prop :=
  a.ID = b.ID ∧ a.Name = b.Name ∧ a.Servers = b.Servers ∧ a.StartTLS = b.StartTLS ∧
    a.BaseDN = b.BaseDN ∧ a.BindDN = b.BindDN ∧ a.BindPassword = b.BindPassword ∧
    a.UserBase = b.UserBase ∧ a.UserObjectClasses = b.UserObjectClasses ∧
    a.UserFilters = b.UserFilters ∧ a.Timeout = b.Timeout ∧ a.LDAPAttributes = b.LDAPAttributes ∧
    a.Options = b.Options ∧ a.State = b.State

/-- Field by field, `t` holds the value of `s` or the value of `u`, and `t` has the
`ID` of `s`. -/
def LDAPIDPWriteModel.Mix (s u t : LDAPIDPWriteModel) : Prop :=
  t.ID = s.ID ∧ Pick s.Name u.Name t.Name ∧ Pick s.Servers u.Servers t.Servers ∧
    Pick s.StartTLS u.StartTLS t.StartTLS ∧ Pick s.BaseDN u.BaseDN t.BaseDN ∧
    Pick s.BindDN u.BindDN t.BindDN ∧ Pick s.BindPassword u.BindPassword t.BindPassword ∧
    Pick s.UserBase u.UserBase t.UserBase ∧
    Pick s.UserObjectClasses u.UserObjectClasses t.UserObjectClasses ∧
    Pick s.UserFilters u.UserFilters t.UserFilters ∧ Pick s.Timeout u.Timeout t.Timeout ∧
    LDAPAttributes.Mix s.LDAPAttributes u.LDAPAttributes t.LDAPAttributes ∧
    Options.Mix s.Options u.Options t.Options ∧ Pick s.State u.State t.State

/-- Two write models agree on every domain field, that is on every field but those of
the embedded `eventstore.WriteModel`. -/
def IDPRemoveWriteModel.SameDomain (a b : IDPRemoveWriteModel) : Prop :=
  a.ID = b.ID ∧ a.State = b.State

/-- Field by field, `t` holds the value of `s` or the value of `u`, and `t` has the
`ID` of `s`. -/
def IDPRemoveWriteModel.Mix (s u t : IDPRemoveWriteModel) : Prop :=
  t.ID = s.ID ∧ Pick s.State u.State t.State

/-- Two write models agree on every domain field, that is on every field but those of
the embedded `eventstore.WriteModel`. -/
def IDPTypeWriteModel.SameDomain (a b : IDPTypeWriteModel) : Prop :=
  a.ID = b.ID ∧ a.Type_ = b.Type_ ∧ a.State = b.State

/-- Field by field, `t` holds the value of `s` or the value of `u`, and `t` has the
`ID` of `s`. -/
def IDPTypeWriteModel.Mix (s u t : IDPTypeWriteModel) : Prop :=
  t.ID = s.ID ∧ Pick s.Type_ u.Type_ t.Type_ ∧ Pick s.State u.State t.State

/-! ## Lifecycle: the event types that set the state -/

/-- The event types whose case in the switch of `Reduce` assigns `State` a value other
than removed: the added events (modern, legacy or embedded in a migration event). -/
def OAuthIDPWriteModel.restoringTypes : List (EventPackage × EventKind) :=
  [(.plain, .OAuthIDPAddedEvent)]

/-- The event types whose case in the switch of `Reduce` assigns `State` a value other
than removed: the added events (modern, legacy or embedded in a migration event) and, for
this variant, the migrated events. -/
def OIDCIDPWriteModel.restoringTypes : List (EventPackage × EventKind) :=
  [(.plain, .OIDCIDPAddedEvent), (.plain, .OIDCIDPMigratedAzureADEvent),
   (.plain, .OIDCIDPMigratedGoogleEvent), (.plain, .IDPConfigAddedEvent)]

/-- The event types whose case in the switch of `Reduce` assigns `State` a value other
than removed: the added events (modern, legacy or embedded in a migration event). -/
def JWTIDPWriteModel.restoringTypes : List (EventPackage × EventKind) :=
  [(.plain, .JWTIDPAddedEvent), (.plain, .IDPConfigAddedEvent)]

/-- The event types whose case in the switch of `Reduce` assigns `State` a value other
than removed: the added events (modern, legacy or embedded in a migration event). -/
def AzureADIDPWriteModel.restoringTypes : List (EventPackage × EventKind) :=
  [(.plain, .AzureADIDPAddedEvent), (.plain, .OIDCIDPMigratedAzureADEvent)]

/-- The event types whose case in the switch of `Reduce` assigns `State` a value other
than removed: the added events (modern, legacy or embedded in a migration event). -/
def GitHubIDPWriteModel.restoringTypes : List (EventPackage × EventKind) :=
  [(.plain, .GitHubIDPAddedEvent)]

/-- The event types whose case in the switch of `Reduce` assigns `State` a value other
than removed: the added events (modern, legacy or embedded in a migration event). -/
def GitHubEnterpriseIDPWriteModel.restoringTypes : List (EventPackage × EventKind) :=
  [(.plain, .GitHubEnterpriseIDPAddedEvent)]

/-- The event types whose case in the switch of `Reduce` assigns `State` a value other
than removed: the added events (modern, legacy or embedded in a migration event). -/
def GitLabIDPWriteModel.restoringTypes : List (EventPackage × EventKind) :=
  [(.plain, .GitLabIDPAddedEvent)]

/-- The event types whose case in the switch of `Reduce` assigns `State` a value other
than removed: the added events (modern, legacy or embedded in a migration event). -/
def GitLabSelfHostedIDPWriteModel.restoringTypes : List (EventPackage × EventKind) :=
  [(.plain, .GitLabSelfHostedIDPAddedEvent)]

/-- The event types whose case in the switch of `Reduce` assigns `State` a value other
than removed: the added events (modern, legacy or embedded in a migration event). -/
def GoogleIDPWriteModel.restoringTypes : List (EventPackage × EventKind) :=
  [(.plain, .GoogleIDPAddedEvent), (.plain, .OIDCIDPMigratedGoogleEvent)]

/-- The event types whose case in the switch of `Reduce` assigns `State` a value other
than removed: the added events (modern, legacy or embedded in a migration event). -/
def LDAPIDPWriteModel.restoringTypes : List (EventPackage × EventKind) :=
  [(.plain, .LDAPIDPAddedEvent)]

/-- The event types whose case in the switch of `Reduce` assigns `State` a value other
than removed: the added events (modern, legacy or embedded in a migration event). -/
def IDPRemoveWriteModel.restoringTypes : List (EventPackage × EventKind) :=
  [(.plain, .OAuthIDPAddedEvent), (.plain, .OIDCIDPAddedEvent), (.plain, .JWTIDPAddedEvent),
   (.plain, .AzureADIDPAddedEvent), (.plain, .GitHubIDPAddedEvent),
   (.plain, .GitHubEnterpriseIDPAddedEvent), (.plain, .GitLabIDPAddedEvent),
   (.plain, .GitLabSelfHostedIDPAddedEvent), (.plain, .GoogleIDPAddedEvent),
   (.plain, .LDAPIDPAddedEvent), (.plain, .IDPConfigAddedEvent)]

/-- The event types whose case in the switch of `Reduce` assigns `State` a value other
than removed: the added events (modern, legacy or embedded in a migration event). -/
def IDPTypeWriteModel.restoringTypes : List (EventPackage × EventKind) :=
  [(.instancePkg, .OAuthIDPAddedEvent), (.orgPkg, .OAuthIDPAddedEvent),
   (.instancePkg, .OIDCIDPAddedEvent), (.orgPkg, .OIDCIDPAddedEvent),
   (.instancePkg, .JWTIDPAddedEvent), (.orgPkg, .JWTIDPAddedEvent),
   (.instancePkg, .AzureADIDPAddedEvent), (.orgPkg, .AzureADIDPAddedEvent),
   (.instancePkg, .GitHubIDPAddedEvent), (.orgPkg, .GitHubIDPAddedEvent),
   (.instancePkg, .GitHubEnterpriseIDPAddedEvent), (.orgPkg, .GitHubEnterpriseIDPAddedEvent),
   (.instancePkg, .GitLabIDPAddedEvent), (.orgPkg, .GitLabIDPAddedEvent),
   (.instancePkg, .GitLabSelfHostedIDPAddedEvent), (.orgPkg, .GitLabSelfHostedIDPAddedEvent),
   (.instancePkg, .GoogleIDPAddedEvent), (.orgPkg, .GoogleIDPAddedEvent),
   (.instancePkg, .LDAPIDPAddedEvent), (.orgPkg, .LDAPIDPAddedEvent),
   (.instancePkg, .IDPConfigAddedEvent), (.orgPkg, .IDPConfigAddedEvent)]

/-- The event types that reclassify a generic OIDC provider as Azure AD or Google. -/
def OIDCIDPWriteModel.migratedTypes : List (EventPackage × EventKind) :=
  [(.plain, .OIDCIDPMigratedAzureADEvent), (.plain, .OIDCIDPMigratedGoogleEvent)]

/-! ## The umbrella write model: kinds and selected implementation -/

/-- The ten kinds of the closed variant set. -/
def supportedKinds : List IDPType :=
  [.IDPTypeOIDC, .IDPTypeJWT, .IDPTypeOAuth, .IDPTypeLDAP, .IDPTypeAzureAD, .IDPTypeGitHub,
   .IDPTypeGitHubEnterprise, .IDPTypeGitLab, .IDPTypeGitLabSelfHosted, .IDPTypeGoogle]

/-- The kind of the write model an implementation of `IDP` embeds. -/
def IDP.kind : IDP → IDPType
  | .OAuth _ _ => .IDPTypeOAuth
  | .OIDC _ _ => .IDPTypeOIDC
  | .JWT _ _ => .IDPTypeJWT
  | .AzureAD _ _ => .IDPTypeAzureAD
  | .GitHub _ _ => .IDPTypeGitHub
  | .GitHubEnterprise _ _ => .IDPTypeGitHubEnterprise
  | .GitLab _ _ => .IDPTypeGitLab
  | .GitLabSelfHosted _ _ => .IDPTypeGitLabSelfHosted
  | .Google _ _ => .IDPTypeGoogle
  | .LDAP _ _ => .IDPTypeLDAP

/-- Whether an implementation of `IDP` is the instance-scoped wrapper. -/
def IDP.instanceScoped : IDP → Bool
  | .OAuth inst _ => inst
  | .OIDC inst _ => inst
  | .JWT inst _ => inst
  | .AzureAD inst _ => inst
  | .GitHub inst _ => inst
  | .GitHubEnterprise inst _ => inst
  | .GitLab inst _ => inst
  | .GitLabSelfHosted inst _ => inst
  | .Google inst _ => inst
  | .LDAP inst _ => inst

/-! ## Search queries

The query builder of `internal/eventstore` is not part of the sources at hand. A query is
recorded as the data the calls of `Query` put into it. -/

/-- Modelled from the spec: `eventstore.AggregateType`, the type tag of an aggregate
stream. -/
abbrev AggregateType := String

/-- Modelled from the spec: the constant `instance.AggregateType`. -/
def instanceAggregateType : AggregateType := "instance"

/-- Modelled from the spec: the constant `org.AggregateType`. -/
def orgAggregateType : AggregateType := "org"

/-- Modelled from the spec: `eventstore.EventType`. A constant such as
`instance.OAuthIDPAddedEventType` tags the events of the Go type
`*instance.OAuthIDPAddedEvent`; it is identified with that type, the pair of the declaring
package and the payload kind (`instance.IDPRemovedEventType` tags `*instance.IDPRemovedEvent`,
the `RemovedEvent` of the instance package). -/
abbrev EventType := EventPackage × EventKind

/-- Modelled from the spec: the columns a search query selects; `Query` asks for
`eventstore.ColumnsEvent`. -/
inductive Columns where
  | ColumnsEvent
  | ColumnsMaxSequence
deriving DecidableEq, Repr

/-- Modelled from the spec: the filters of one sub-query: aggregate types, event types and
the payload entries an event must carry. -/
structure QueryFilter where
  aggregateTypes : List AggregateType
  eventTypes : List EventType
  eventData : List (String × String)
deriving DecidableEq, Repr

/-- Modelled from the spec: `eventstore.SearchQueryBuilder`, the selected columns and the
sub-queries, of which an event has to match one. -/
structure SearchQueryBuilder where
  columns : Columns
  queries : List QueryFilter
deriving DecidableEq, Repr

/-- Modelled from the spec: `eventstore.SearchQuery`, the sub-query under construction
together with the builder it belongs to. -/
structure SearchQuery where
  builder : SearchQueryBuilder
  filter : QueryFilter
deriving DecidableEq, Repr

/-- Modelled from the spec: `eventstore.NewSearchQueryBuilder(columns)`. -/
def NewSearchQueryBuilder (columns : Columns) : SearchQueryBuilder :=
  { columns := columns, queries := [] }

/-- Modelled from the spec: `AddQuery` starts a sub-query without filters. -/
def SearchQueryBuilder.AddQuery (builder : SearchQueryBuilder) : SearchQuery :=
  { builder := builder, filter := { aggregateTypes := [], eventTypes := [], eventData := [] } }

/-- Modelled from the spec: `AggregateTypes` sets the aggregate types of the sub-query. -/
def SearchQuery.AggregateTypes (query : SearchQuery) (types : List AggregateType) :
    SearchQuery :=
  { query with filter := { query.filter with aggregateTypes := types } }

/-- Modelled from the spec: `EventTypes` sets the event types of the sub-query. -/
def SearchQuery.EventTypes (query : SearchQuery) (types : List EventType) : SearchQuery :=
  { query with filter := { query.filter with eventTypes := types } }

/-- Modelled from the spec: `EventData` sets the payload entries of the sub-query. -/
def SearchQuery.EventData (query : SearchQuery) (data : List (String × String)) :
    SearchQuery :=
  { query with filter := { query.filter with eventData := data } }

/-- Modelled from the spec: `Or` closes the sub-query and starts the next one. -/
def SearchQuery.Or (query : SearchQuery) : SearchQuery :=
  SearchQueryBuilder.AddQuery
    { query.builder with queries := query.builder.queries ++ [query.filter] }

/-- Modelled from the spec: `Builder` closes the sub-query and returns the builder. -/
def SearchQuery.Builder (query : SearchQuery) : SearchQueryBuilder :=
  { query.builder with queries := query.builder.queries ++ [query.filter] }

/-- The query of `IDPTypeWriteModel`: the added and removed events of the provider in the
instance and in the org aggregate, and the old events of both. -/
def IDPTypeWriteModel.Query (wm : IDPTypeWriteModel) : SearchQueryBuilder :=
  (NewSearchQueryBuilder .ColumnsEvent).AddQuery
    |>.AggregateTypes [instanceAggregateType]
    |>.EventTypes
      [(.instancePkg, .OAuthIDPAddedEvent),
       (.instancePkg, .OIDCIDPAddedEvent),
       (.instancePkg, .JWTIDPAddedEvent),
       (.instancePkg, .AzureADIDPAddedEvent),
       (.instancePkg, .GitHubIDPAddedEvent),
       (.instancePkg, .GitHubEnterpriseIDPAddedEvent),
       (.instancePkg, .GitLabIDPAddedEvent),
       (.instancePkg, .GitLabSelfHostedIDPAddedEvent),
       (.instancePkg, .GoogleIDPAddedEvent),
       (.instancePkg, .LDAPIDPAddedEvent),
       (.instancePkg, .RemovedEvent)]
    |>.EventData [("id", wm.ID)]
    |>.Or
    |>.AggregateTypes [orgAggregateType]
    |>.EventTypes
      [(.orgPkg, .OAuthIDPAddedEvent),
       (.orgPkg, .OIDCIDPAddedEvent),
       (.orgPkg, .JWTIDPAddedEvent),
       (.orgPkg, .AzureADIDPAddedEvent),
       (.orgPkg, .GitHubIDPAddedEvent),
       (.orgPkg, .GitHubEnterpriseIDPAddedEvent),
       (.orgPkg, .GitLabIDPAddedEvent),
       (.orgPkg, .GitLabSelfHostedIDPAddedEvent),
       (.orgPkg, .GoogleIDPAddedEvent),
       (.orgPkg, .LDAPIDPAddedEvent),
       (.orgPkg, .RemovedEvent)]
    |>.EventData [("id", wm.ID)]
    |>.Or
    |>.AggregateTypes [instanceAggregateType]
    |>.EventTypes
      [(.instancePkg, .IDPConfigAddedEvent),
       (.instancePkg, .IDPConfigRemovedEvent)]
    |>.EventData [("idpConfigId", wm.ID)]
    |>.Or
    |>.AggregateTypes [orgAggregateType]
    |>.EventTypes
      [(.orgPkg, .IDPConfigAddedEvent),
       (.orgPkg, .IDPConfigRemovedEvent)]
    |>.EventData [("idpConfigId", wm.ID)]
    |>.Builder

/-- The aggregate type whose stream carries the events a package declares; the `idp`
package declares the shared payloads and belongs to no aggregate. -/
def EventPackage.aggregateType : EventPackage → Option AggregateType
  | .plain => none
  | .instancePkg => some instanceAggregateType
  | .orgPkg => some orgAggregateType

/-- The event types a query names, over all its sub-queries. -/
def SearchQueryBuilder.eventTypes (builder : SearchQueryBuilder) : List EventType :=
  builder.queries.foldr (fun query types => query.eventTypes ++ types) []

/-! ## The event log

The interface `Repository` of `internal/eventstore/v2/repository` declares `Push`; no
implementation is part of the sources at hand. -/

/-- Modelled from the spec: `repository.Event`, the event as the log stores it. `Sequence`
is assigned by the log at push time; `PreviousAggregateSequence` is the sequence the
pushing command observed last on the aggregate, the precondition of the push. The Go field
`Type` is spelled `Type_`, `Type` being reserved. -/
structure repository.Event where
  AggregateID : String
  AggregateType : AggregateType
  ResourceOwner : String
  Type_ : String
  Data : String
  Sequence : Nat
  PreviousAggregateSequence : Nat
deriving DecidableEq, Repr

/-- Modelled from the spec: a repository, as the state `Push` acts on: the append-only log
and whether the storage can be reached. -/
structure Repository where
  events : List repository.Event
  reachable : Bool
deriving DecidableEq, Repr

/-- Modelled from the spec: the error of a push whose precondition does not match. -/
def ConcurrencyConflict : Error := .other "ConcurrencyConflict"

/-- Modelled from the spec: the error of a push that cannot reach the storage. -/
def StorageError : Error := .other "StorageError"

/-- The stream of an aggregate: its events in the order of the log. -/
def streamOf (events : List repository.Event) (aggregateID : String) :
    List repository.Event :=
  events.filter (fun e => decide (e.AggregateID = aggregateID))

/-- Modelled from the spec: the sequence at the tail of an aggregate stream, `0` for an
aggregate without events. -/
def tailSequence (events : List repository.Event) (aggregateID : String) : Nat :=
  match (streamOf events aggregateID).getLast? with
  | none => 0
  | some e => e.Sequence

/-- Modelled from the spec: appending one event assigns it the next sequence of its
aggregate stream. -/
def appendEvent (events : List repository.Event) (e : repository.Event) :
    List repository.Event :=
  events ++ [{ e with Sequence := tailSequence events e.AggregateID + 1 }]

/-- Modelled from the spec: `Push(events...)` appends the batch atomically; it fails as a
whole, leaving the log as it is, if the storage is unreachable or if an event of the batch
expects another sequence than the tail of its aggregate stream. -/
def Repository.Push (r : Repository) (events : List repository.Event) :
    Repository × Option Error :=
  if !r.reachable then (r, some StorageError)
  else if events.any
      (fun e => decide (e.PreviousAggregateSequence ≠ tailSequence r.events e.AggregateID)) then
    (r, some ConcurrencyConflict)
  else ({ r with events := events.foldl appendEvent r.events }, none)

/-! ## Reading configuration files

The function `readerFuncForFile` of `internal/config` is not part of the sources at hand;
its test is. -/

/-- The readers `readerFuncForFile` returns; the test compares them by name. -/
inductive ReaderFunc where
  | TOMLReader
  | JSONReader
  | YAMLReader
deriving DecidableEq, Repr

/-- The scan of `filepath.Ext` from the end of the path: `rest` is the part of the path
not yet scanned, reversed, and `suffix` the part scanned. -/
def extScan : List Char → List Char → List Char
  | [], _ => []
  | c :: rest, suffix =>
    if c = '/' then []
    else if c = '.' then '.' :: suffix
    else extScan rest (c :: suffix)

/-- The Go library function `filepath.Ext`: the suffix beginning at the final dot in the
final element of the path, empty if there is no dot. -/
def Ext (path : String) : String :=
  ⟨extScan path.data.reverse []⟩

/-- Modelled from the spec: `readerFuncForFile` chooses the reader by the extension of the
file name and fails for an extension it does not know. -/
def readerFuncForFile (configFile : String) : Except Error ReaderFunc :=
  let ext := Ext configFile
  if ext = ".yaml" ∨ ext = ".yml" then .ok .YAMLReader
  else if ext = ".json" then .ok .JSONReader
  else if ext = ".toml" then .ok .TOMLReader
  else .error (.other ("file extension (" ++ ext ++ ") not supported"))
/-! ## Setup of the first instance (`cmd/setup/03.go`)

`Execute` calls into the packages `crypto`, `command` and `domain`, which are not part of
the sources at hand. Their types are parameters, and what their functions return is given
by a record of collaborators; the record holds results only, the effects of the calls on
the storage and on the file system are not modelled. -/

/-- Modelled from the spec: `crypto.KeyConfig`, of which `verifyKey` reads the key id. -/
structure KeyConfig where
  EncryptionKeyID : String
deriving DecidableEq, Repr

/-- Modelled from the spec: `domain.Email`, with the address `Execute` reads and writes. -/
structure Email where
  Address : String
deriving DecidableEq, Repr

/-- Modelled from the spec: `command.AddHuman`, with the fields `Execute` reads and writes. -/
structure AddHuman where
  Username : String
  Email : Email
deriving DecidableEq, Repr

/-- Modelled from the spec: `command.AddPat`, the request for a personal access token;
`Execute` tests only whether it is there. -/
structure AddPat where
  Scopes : List String
deriving DecidableEq, Repr

/-- Modelled from the spec: `command.AddMachineKey`, the request for a machine key;
`Execute` tests only whether it is there. The Go field `Type` is spelled `Type_`. -/
structure AddMachineKey where
  Type_ : String
deriving DecidableEq, Repr

/-- Modelled from the spec: `command.AddMachine`, the machine user of the first org, with
the two credential requests, both pointers. -/
structure AddMachine where
  Pat : Option AddPat
  MachineKey : Option AddMachineKey
deriving DecidableEq, Repr

/-- Modelled from the spec: `command.OrgSetup`, with the fields `Execute` reads and writes;
`Machine` is a pointer. -/
structure OrgSetup where
  Name : String
  Human : AddHuman
  Machine : Option AddMachine
deriving DecidableEq, Repr

/-- Modelled from the spec: the domain policy of `command.InstanceSetup`, with the field
`Execute` reads. -/
structure DomainPolicy where
  UserLoginMustBeDomain : Bool
deriving DecidableEq, Repr

/-- Modelled from the spec: `command.InstanceSetup`, with the fields `Execute` reads and
writes. -/
structure InstanceSetup where
  InstanceName : String
  CustomDomain : String
  DefaultLanguage : String
  Org : OrgSetup
  DomainPolicy : DomainPolicy
deriving DecidableEq, Repr

/-- The migration step `FirstInstance`; the handles `db`, `es`, `defaults` and
`zitadelRoles`, which `Execute` only hands on to its collaborators, are left out. -/
structure FirstInstance where
  InstanceName : String
  DefaultLanguage : String
  Org : OrgSetup
  MachineKeyPath : String
  PatPath : String
  instanceSetup : InstanceSetup
  userEncryptionKey : KeyConfig
  smtpEncryptionKey : KeyConfig
  oidcEncryptionKey : KeyConfig
  masterKey : String
  externalDomain : String
  externalSecure : Bool
  externalPort : Nat
  domain : String
deriving DecidableEq, Repr

/-- What the functions of other packages that `Execute`, `verifyKey` and
`outputStdoutOrPath` call return, in the order of their first call. -/
structure Collaborators (KeyStorage Key Alg Commands MachineKey File : Type) where
  /-- The result of `crypto_db.NewKeyStorage(db, masterKey)`. -/
  NewKeyStorage : String → Except Error KeyStorage
  /-- The result of `crypto.LoadKey(id, storage)`. -/
  LoadKey : String → KeyStorage → Except Error String
  /-- The result of `crypto.NewKey(id)`. -/
  NewKey : String → Except Error Key
  /-- The result of `storage.CreateKeys(key)`. -/
  CreateKeys : KeyStorage → Key → Option Error
  /-- The result of `crypto.NewAESCrypto(config, storage)`. -/
  NewAESCrypto : KeyConfig → KeyStorage → Except Error Alg
  /-- The result of `command.StartCommands`, by the arguments that are not handles or nil:
  external domain, secure flag and port, then the SMTP, user and OIDC encryption. -/
  StartCommands : String → Bool → Nat → Alg → Alg → Alg → Except Error Commands
  /-- The result of `domain.NewIAMDomainName(orgName, iamDomain)`. -/
  NewIAMDomainName : String → String → String
  /-- The result of `EmailAddress.Normalize`. -/
  Normalize : String → String
  /-- The token, the key and the error of `cmd.SetUpInstance(ctx, setup)`. -/
  SetUpInstance : Commands → InstanceSetup → Except Error (String × Option MachineKey)
  /-- The result of `key.Detail()`. -/
  Detail : MachineKey → Except Error String
  /-- The file `os.Stdout`. -/
  Stdout : File
  /-- The result of `os.OpenFile(path, ...)`. -/
  OpenFile : String → Except Error File
  /-- The error of `fmt.Fprintln(f, content)`. -/
  Fprintln : File → String → Option Error

/-- The Go library function `strings.Contains`: whether `substr` occurs in `s`. -/
def strings.Contains (s substr : String) : Bool :=
  decide (substr.data <:+: s.data)

/-- Loads the key and, failing that, creates it. -/
def verifyKey {KeyStorage Key Alg Commands MachineKey File : Type}
    (env : Collaborators KeyStorage Key Alg Commands MachineKey File) (key : KeyConfig)
    (storage : KeyStorage) : Option Error :=
  match env.LoadKey key.EncryptionKeyID storage with
  | .ok _ => none
  | .error _ =>
    match env.NewKey key.EncryptionKeyID with
    | .error err => some err
    | .ok k => env.CreateKeys storage k

/-- Writes the content to the file at `path`, or to the standard output if the path is
empty. -/
def outputStdoutOrPath {KeyStorage Key Alg Commands MachineKey File : Type}
    (env : Collaborators KeyStorage Key Alg Commands MachineKey File) (path content : String) :
    Option Error :=
  if path ≠ "" then
    match env.OpenFile path with
    | .error err => some err
    | .ok f => env.Fprintln f content
  else env.Fprintln env.Stdout content

/-- The assignments of `Execute` to `mig.instanceSetup` between the call of
`StartCommands` and the call of `SetUpInstance`: name, domain, language and org are taken
from the step, the username is made email style and the email address is filled in. -/
def FirstInstance.fillInstanceSetup {KeyStorage Key Alg Commands MachineKey File : Type}
    (env : Collaborators KeyStorage Key Alg Commands MachineKey File) (mig : FirstInstance) :
    InstanceSetup :=
  let setup : InstanceSetup :=
    { mig.instanceSetup with
      InstanceName := mig.InstanceName
      CustomDomain := mig.externalDomain
      DefaultLanguage := mig.DefaultLanguage
      Org := mig.Org }
  -- check if username is email style or else append @<orgname>.<custom-domain>
  let setup : InstanceSetup :=
    if !setup.DomainPolicy.UserLoginMustBeDomain
        && !strings.Contains setup.Org.Human.Username "@" then
      { setup with
        Org.Human.Username :=
          setup.Org.Human.Username ++ "@"
            ++ env.NewIAMDomainName setup.Org.Name setup.CustomDomain }
    else setup
  let setup : InstanceSetup :=
    { setup with Org.Human.Email.Address := env.Normalize setup.Org.Human.Email.Address }
  if setup.Org.Human.Email.Address = "" then
    let setup : InstanceSetup :=
      { setup with Org.Human.Email.Address := setup.Org.Human.Username }
    if !strings.Contains setup.Org.Human.Email.Address "@" then
      { setup with
        Org.Human.Email.Address :=
          setup.Org.Human.Username ++ "@"
            ++ env.NewIAMDomainName setup.Org.Name setup.CustomDomain }
    else setup
  else setup

/-- The migration step: prepares the encryption, fills in the instance setup, sets the
instance up and writes the credentials out. The result is the step with the
`instanceSetup` as `Execute` leaves it, and the returned error. -/
def FirstInstance.Execute {KeyStorage Key Alg Commands MachineKey File : Type}
    (env : Collaborators KeyStorage Key Alg Commands MachineKey File) (mig : FirstInstance) :
    FirstInstance × Option Error :=
  match env.NewKeyStorage mig.masterKey with
  | .error err => (mig, some (.Errorf "cannot start key storage: %w" err))
  | .ok keyStorage =>
  match verifyKey env mig.userEncryptionKey keyStorage with
  | some err => (mig, some err)
  | none =>
  match env.NewAESCrypto mig.userEncryptionKey keyStorage with
  | .error err => (mig, some err)
  | .ok userAlg =>
  match verifyKey env mig.smtpEncryptionKey keyStorage with
  | some err => (mig, some err)
  | none =>
  match env.NewAESCrypto mig.smtpEncryptionKey keyStorage with
  | .error err => (mig, some err)
  | .ok smtpEncryption =>
  match verifyKey env mig.oidcEncryptionKey keyStorage with
  | some err => (mig, some err)
  | none =>
  match env.NewAESCrypto mig.oidcEncryptionKey keyStorage with
  | .error err => (mig, some err)
  | .ok oidcEncryption =>
  match env.StartCommands mig.externalDomain mig.externalSecure mig.externalPort
      smtpEncryption userAlg oidcEncryption with
  | .error err => (mig, some err)
  | .ok cmd =>
    let mig : FirstInstance := { mig with instanceSetup := mig.fillInstanceSetup env }
    match env.SetUpInstance cmd mig.instanceSetup with
    | .error err => (mig, some err)
    | .ok (token, key) =>
      -- past the test above, `err` is nil
      let err : Option Error := none
      if (match mig.instanceSetup.Org.Machine with
          | none => false
          | some machine =>
            (machine.Pat.isSome && token == "") || (machine.MachineKey.isSome && key.isNone))
      then (mig, err)
      else
        match
          (match key with
           | none => (none : Option Error)
           | some key =>
             match env.Detail key with
             | .error err => some err
             | .ok keyDetails => outputStdoutOrPath env mig.MachineKeyPath keyDetails) with
        | some err => (mig, some err)
        | none =>
          if token ≠ "" then
            match outputStdoutOrPath env mig.PatPath token with
            | some err => (mig, some err)
            | none => (mig, none)
          else (mig, none)

/-! ## The kind tracker from its constructor -/

/-- The constructor of `IDPTypeWriteModel`: only `ID` is set. The kind and the state are
the zero values of their types, which are the unspecified ones, and the embedded base is
empty. -/
def NewIDPTypeWriteModel (id : String) : IDPTypeWriteModel :=
  { AggregateID := ""
    ProcessedSequence := 0
    Events := []
    ResourceOwner := ""
    InstanceID := ""
    ID := id
    Type_ := .IDPTypeUnspecified
    State := .IDPStateUnspecified }

/-! ## Events by the provider they are about

These definitions follow the wording of the specification, not the switches of the
reducers; the theorems compare the two. -/

/-- The provider id that an added event carries: `ID` for the added events of the ten
kinds, `ConfigID` for the legacy `IDPConfigAddedEvent`; nothing for any other event. -/
def EventPayload.addedID : EventPayload → Option String
  | .OAuthIDPAdded e => some e.ID
  | .OIDCIDPAdded e => some e.ID
  | .JWTIDPAdded e => some e.ID
  | .AzureADIDPAdded e => some e.ID
  | .GitHubIDPAdded e => some e.ID
  | .GitHubEnterpriseIDPAdded e => some e.ID
  | .GitLabIDPAdded e => some e.ID
  | .GitLabSelfHostedIDPAdded e => some e.ID
  | .GoogleIDPAdded e => some e.ID
  | .LDAPIDPAdded e => some e.ID
  | .IDPConfigAdded e => some e.ConfigID
  | _ => none

/-- The provider id that a removed event carries: `ID` for `RemovedEvent`, `ConfigID` for
the legacy `IDPConfigRemovedEvent`; nothing for any other event. -/
def EventPayload.removedID : EventPayload → Option String
  | .Removed e => some e.ID
  | .IDPConfigRemoved e => some e.ConfigID
  | _ => none

/-- The kind that an added event stands for: its own kind for the added events of the ten
kinds; a legacy `IDPConfigAddedEvent` counts as OIDC or JWT by its `Typ` and has no kind
for any other `Typ`. -/
def EventPayload.addedKind : EventPayload → Option IDPType
  | .OAuthIDPAdded _ => some .IDPTypeOAuth
  | .OIDCIDPAdded _ => some .IDPTypeOIDC
  | .JWTIDPAdded _ => some .IDPTypeJWT
  | .AzureADIDPAdded _ => some .IDPTypeAzureAD
  | .GitHubIDPAdded _ => some .IDPTypeGitHub
  | .GitHubEnterpriseIDPAdded _ => some .IDPTypeGitHubEnterprise
  | .GitLabIDPAdded _ => some .IDPTypeGitLab
  | .GitLabSelfHostedIDPAdded _ => some .IDPTypeGitLabSelfHosted
  | .GoogleIDPAdded _ => some .IDPTypeGoogle
  | .LDAPIDPAdded _ => some .IDPTypeLDAP
  | .IDPConfigAdded e =>
    if e.Typ = .IDPConfigTypeOIDC then some .IDPTypeOIDC
    else if e.Typ = .IDPConfigTypeJWT then some .IDPTypeJWT
    else none
  | _ => none

/-- The state that an event decides for `IDPRemoveWriteModel` watching the provider `id`:
active for an added event with that id, removed for a removed event with that id, nothing
for an event with another id or of another type. The events are those of the plain `idp`
and `idpconfig` types, which `IDPRemoveWriteModel.Reduce` receives. -/
def IDPRemoveWriteModel.decidedState (id : String) (event : Event) : Option IDPState :=
  if event.pkg = .plain then
    if event.payload.addedID = some id then some .IDPStateActive
    else if event.payload.removedID = some id then some .IDPStateRemoved
    else none
  else none

/-- What a matching event means for `IDPTypeWriteModel`: the provider was added with a
kind on an aggregate, or it was removed. -/
inductive IDPTypeEffect where
  | added (kind : IDPType) (aggregate : Aggregate)
  | removed
deriving DecidableEq, Repr

/-- The effect of an event on `IDPTypeWriteModel` watching the provider `id`: an added event
with that id adds the provider with the kind the event stands for, on the aggregate of the
event; a removed event with that id removes it; an event with another id, of another
type, or a legacy added event of another `Typ`, has no effect. The events are those of the
`instance` and `org` types, which `IDPTypeWriteModel.Reduce` receives. -/
def IDPTypeWriteModel.matchingEffect (id : String) (event : Event) : Option IDPTypeEffect :=
  if event.pkg = .plain then none
  else if event.payload.addedID = some id then
    event.payload.addedKind.map (fun kind => .added kind event.Aggregate)
  else if event.payload.removedID = some id then some .removed
  else none

/-- The write model as an effect leaves it: an added provider is active with its kind and
the owner of the aggregate; a removed provider is removed, without kind and owner. -/
def IDPTypeWriteModel.withEffect (wm : IDPTypeWriteModel) : IDPTypeEffect → IDPTypeWriteModel
  | .added kind aggregate =>
    { wm with
      Type_ := kind
      State := .IDPStateActive
      ResourceOwner := aggregate.ResourceOwner
      InstanceID := aggregate.InstanceID }
  | .removed =>
    { wm with
      Type_ := .IDPTypeUnspecified
      State := .IDPStateRemoved
      ResourceOwner := ""
      InstanceID := "" }

/-- The provider id that an event carries for the LDAP write model: the `ID` of an
`LDAPIDPAddedEvent`, an `LDAPIDPChangedEvent` or a `RemovedEvent`; nothing for any other
event. -/
def LDAPIDPWriteModel.eventID (event : Event) : Option String :=
  match event.pkg, event.payload with
  | .plain, .LDAPIDPAdded e => some e.ID
  | .plain, .LDAPIDPChanged e => some e.ID
  | .plain, .Removed e => some e.ID
  | _, _ => none

/-! ## One-time passwords (`internal/domain/human_otp.go`) -/

/-- Verifies a one-time password against the stored secret: decrypts the secret, then
validates the code. `totp.Validate` of the TOTP library, which reads the clock, is the
parameter `Validate`. The result is the returned error, `none` for nil. -/
def VerifyMFAOTP (Validate : String → String → Bool) (code : String)
    (secret : Option CryptoValue) (cryptoAlg : EncryptionAlgorithm) : Option Error :=
  match DecryptString secret cryptoAlg with
  | .error err => some err
  | .ok decrypt =>
    let valid := Validate code decrypt
    if !valid then
      some (ThrowInvalidArgument "EVENT-8isk2" "Errors.User.MFA.OTP.InvalidCode")
    else none
/-! ## Scenarios used to instantiate the theorems -/

/-- The base of a write model that has folded nothing yet. -/
def scenarioBase : WriteModel :=
  { AggregateID := "org-1", ProcessedSequence := 0, Events := [], ResourceOwner := "org-1",
    InstanceID := "instance-1" }

/-- The OAuth write model of the rename scenario: stored `Name = "A"`, `ClientID = "1"`. -/
def scenarioOAuth : OAuthIDPWriteModel :=
  { toWriteModel := scenarioBase, Name := "A", ID := "idp-1", ClientID := "1",
    ClientSecret := none, AuthorizationEndpoint := "https://idp/authorize",
    TokenEndpoint := "https://idp/token", UserEndpoint := "https://idp/user",
    Scopes := some ["openid"], IDAttribute := "sub",
    Options := ⟨true, true, false, false⟩, State := .IDPStateActive }

/-- An encryption capability that succeeds on every plaintext. -/
def scenarioCrypto : Crypto :=
  fun _ => .ok (some { Algorithm := "aes256", KeyID := "key-1", Crypted := [17, 42] })

/-- The aggregate of the scenario events. -/
def scenarioAggregate : Aggregate :=
  { ID := "org-1", ResourceOwner := "org-1", InstanceID := "instance-1" }

/-- An event of a type that no reducer of `idp_model.go` names. -/
def scenarioUnknownEvent : Event :=
  { pkg := .plain, Sequence := 7, Aggregate := scenarioAggregate,
    payload := .Other "user.human.added" }

/-- The removal of the provider `idp-1`. -/
def scenarioRemovedEvent : Event :=
  { pkg := .plain, Sequence := 8, Aggregate := scenarioAggregate,
    payload := .Removed { ID := "idp-1" } }

/-- An OAuth added event for the provider `idp-1`, as it is folded when the provider is
added again after its removal. -/
def scenarioOAuthAddedEvent : Event :=
  { pkg := .plain, Sequence := 9, Aggregate := scenarioAggregate,
    payload :=
      .OAuthIDPAdded
        { ID := "idp-1", Name := "B", ClientID := "2", ClientSecret := none,
          AuthorizationEndpoint := "https://idp/authorize", TokenEndpoint := "https://idp/token",
          UserEndpoint := "https://idp/user", Scopes := some ["openid"], IDAttribute := "sub",
          Options := ⟨true, false, false, false⟩ } }

/-- An active generic OIDC write model. -/
def scenarioOIDC : OIDCIDPWriteModel :=
  { toWriteModel := scenarioBase, Name := "corp", ID := "idp-2",
    Issuer := "https://login.microsoftonline.com/common/v2.0", ClientID := "1",
    ClientSecret := none, Scopes := some ["openid"], IsIDTokenMapping := true,
    Options := ⟨true, true, false, false⟩, State := .IDPStateActive }

/-- The event that reclassifies the provider `idp-2` as an Azure AD provider. -/
def scenarioMigratedEvent : Event :=
  { pkg := .plain, Sequence := 10, Aggregate := scenarioAggregate,
    payload :=
      .OIDCIDPMigratedAzureAD
        { AzureADIDPAddedEvent :=
            { ID := "idp-2", Name := "corp", ClientID := "1", ClientSecret := none,
              Scopes := some ["openid"], Tenant := "common", IsEmailVerified := true,
              Options := ⟨true, true, false, false⟩ } } }

/-- The attribute mapping of the LDAP scenario. -/
def scenarioLDAPAttributes : LDAPAttributes :=
  { IDAttribute := "uid", FirstNameAttribute := "", LastNameAttribute := "",
    DisplayNameAttribute := "cn", NickNameAttribute := "", PreferredUsernameAttribute := "",
    EmailAttribute := "mail", EmailVerifiedAttribute := "", PhoneAttribute := "",
    PhoneVerifiedAttribute := "", PreferredLanguageAttribute := "", AvatarURLAttribute := "",
    ProfileAttribute := "" }

/-- An LDAP write model for the provider `idp-3` that has folded nothing yet. -/
def scenarioLDAP : LDAPIDPWriteModel :=
  { toWriteModel := scenarioBase, ID := "idp-3", Name := "", Servers := none, StartTLS := false,
    BaseDN := "", BindDN := "", BindPassword := none, UserBase := "", UserObjectClasses := none,
    UserFilters := none, Timeout := 0,
    LDAPAttributes := ⟨"", "", "", "", "", "", "", "", "", "", "", "", ""⟩,
    Options := ⟨false, false, false, false⟩, State := .IDPStateUnspecified }

/-- The payload of an LDAP added event for the provider `idp-3`. -/
def scenarioLDAPAdded : LDAPIDPAddedEvent :=
  { ID := "idp-3", Name := "directory", Servers := some ["ldaps://directory:636"],
    StartTLS := true, BaseDN := "dc=example,dc=com", BindDN := "cn=admin,dc=example,dc=com",
    BindPassword := some { Algorithm := "aes256", KeyID := "key-1", Crypted := [17, 42] },
    UserBase := "dn", UserObjectClasses := some ["user"], UserFilters := some ["uid"],
    Timeout := 10000000000, LDAPAttributes := scenarioLDAPAttributes,
    Options := ⟨true, false, true, false⟩ }

/-- Client libraries that return the recorded constructor call as the provider and never
report an error. -/
def scenarioLibraries : ProviderLibraries (ProviderCall ⊕ LDAPProviderCall) :=
  { construct := fun call => .ok (.inl call), ldapNew := fun call => .inr call }

/-- A decryption capability that succeeds on every stored value. -/
def scenarioDecrypt : EncryptionAlgorithm :=
  fun _ => .ok "s3cr3t"

/-- A decryption capability that cannot resolve the key of any stored value. -/
def scenarioDecryptFails : EncryptionAlgorithm :=
  fun _ => .error (.other "unknown key")

/-- The OAuth write model of the scenario with a stored client secret. -/
def scenarioOAuthWithSecret : OAuthIDPWriteModel :=
  { scenarioOAuth with
    ClientSecret := some { Algorithm := "aes256", KeyID := "key-1", Crypted := [17, 42] } }

/-- The OAuth write model of the scenario after the removal of the provider: the stored
configuration and secret are as before, `State` is removed. -/
def scenarioOAuthRemoved : OAuthIDPWriteModel :=
  { scenarioOAuthWithSecret with State := .IDPStateRemoved }

/-- The OAuth write model of the scenario as it is when only changed events have been
folded: a configuration and a secret are stored, `State` is still unspecified. -/
def scenarioOAuthUnspecified : OAuthIDPWriteModel :=
  { scenarioOAuthWithSecret with State := .IDPStateUnspecified }

/-- An encryption capability that fails on every plaintext. -/
def scenarioCryptoFails : Crypto :=
  fun _ => .error (.other "no encryption key")

/-- A write model that tracks the kind of the provider with the empty id and has folded
nothing yet. -/
def scenarioIDPType : IDPTypeWriteModel :=
  { toWriteModel := scenarioBase, ID := "", Type_ := .IDPTypeUnspecified,
    State := .IDPStateUnspecified }

/-- A log that holds the added event of the provider `idp-1`, on reachable storage. -/
def scenarioRepository : Repository :=
  { events :=
      [{ AggregateID := "idp-1", AggregateType := orgAggregateType, ResourceOwner := "org-1",
         Type_ := "org.idp.oauth.added", Data := "name: A", Sequence := 1,
         PreviousAggregateSequence := 0 }],
    reachable := true }

/-- A rename of the provider `idp-1` by a command that loaded the sequence 1. -/
def scenarioPushRename : repository.Event :=
  { AggregateID := "idp-1", AggregateType := orgAggregateType, ResourceOwner := "org-1",
    Type_ := "org.idp.oauth.changed", Data := "name: B", Sequence := 0,
    PreviousAggregateSequence := 1 }

/-- A removal of the provider `idp-1` by a command that loaded the sequence 1. -/
def scenarioPushRemove : repository.Event :=
  { AggregateID := "idp-1", AggregateType := orgAggregateType, ResourceOwner := "org-1",
    Type_ := "org.idp.removed", Data := "", Sequence := 0, PreviousAggregateSequence := 1 }

/-- A rename of the provider `idp-1` by a command that loaded the log before the provider
was added. -/
def scenarioPushStale : repository.Event :=
  { scenarioPushRename with PreviousAggregateSequence := 0 }

/-- Collaborators that all succeed; `SetUpInstance` returns no error, an empty token and
no machine key. -/
def scenarioCollaborators : Collaborators Unit Unit Unit Unit Unit Unit :=
  { NewKeyStorage := fun _ => .ok ()
    LoadKey := fun _ _ => .ok "key"
    NewKey := fun _ => .ok ()
    CreateKeys := fun _ _ => none
    NewAESCrypto := fun _ _ => .ok ()
    StartCommands := fun _ _ _ _ _ _ => .ok ()
    NewIAMDomainName := fun orgName iamDomain => orgName ++ "." ++ iamDomain
    Normalize := fun address => address
    SetUpInstance := fun _ _ => .ok ("", none)
    Detail := fun _ => .ok "key details"
    Stdout := ()
    OpenFile := fun _ => .ok ()
    Fprintln := fun _ _ => none }

/-- The org of the first instance: the admin `zitadel-admin` and a machine user for which
a personal access token is requested. -/
def scenarioOrgSetup : OrgSetup :=
  { Name := "zitadel",
    Human := { Username := "zitadel-admin", Email := { Address := "" } },
    Machine := some { Pat := some { Scopes := [] }, MachineKey := none } }

/-- The migration step of the first instance, with a domain policy that does not require
the login name to be the domain. -/
def scenarioFirstInstance : FirstInstance :=
  { InstanceName := "ZITADEL", DefaultLanguage := "en", Org := scenarioOrgSetup,
    MachineKeyPath := "", PatPath := "",
    instanceSetup :=
      { InstanceName := "", CustomDomain := "", DefaultLanguage := "",
        Org := { Name := "", Human := { Username := "", Email := { Address := "" } },
                 Machine := none },
        DomainPolicy := { UserLoginMustBeDomain := false } },
    userEncryptionKey := { EncryptionKeyID := "userKey" },
    smtpEncryptionKey := { EncryptionKeyID := "smtpKey" },
    oidcEncryptionKey := { EncryptionKeyID := "oidcKey" },
    masterKey := "MasterkeyNeedsToHave32Characters", externalDomain := "localhost",
    externalSecure := false, externalPort := 8080, domain := "" }

/-- A validation that accepts the code `123456` for every secret. -/
def scenarioValidate : String → String → Bool :=
  fun passcode _ => passcode == "123456"

/-- A write model that tracks whether the provider `idp-1` exists and has folded nothing
yet. -/
def scenarioIDPRemove : IDPRemoveWriteModel :=
  { toWriteModel := scenarioBase, ID := "idp-1", State := .IDPStateUnspecified }

/-- The removal of another provider, `idp-9`. -/
def scenarioForeignRemovedEvent : Event :=
  { pkg := .plain, Sequence := 10, Aggregate := scenarioAggregate,
    payload := .Removed { ID := "idp-9" } }

/-- The addition of the OAuth provider `idp-1` as the instance declares it. -/
def scenarioInstanceAddedEvent : Event :=
  { scenarioOAuthAddedEvent with pkg := .instancePkg }

/-- The removal of the provider `idp-1` as the instance declares it. -/
def scenarioInstanceRemovedEvent : Event :=
  { scenarioRemovedEvent with pkg := .instancePkg, Sequence := 11 }

/-- A Google write model of which every capability flag is set. -/
def scenarioGoogle : GoogleIDPWriteModel :=
  { toWriteModel := scenarioBase, ID := "idp-4", Name := "Google", ClientID := "client",
    ClientSecret := some { Algorithm := "aes256", KeyID := "key-1", Crypted := [17, 42] },
    Scopes := some ["openid"], Options := ⟨true, true, true, true⟩,
    State := .IDPStateActive }

/-- An Azure AD write model with a tenant, a verified email and two capability flags. -/
def scenarioAzureAD : AzureADIDPWriteModel :=
  { toWriteModel := scenarioBase, ID := "idp-5", Name := "Azure", ClientID := "client",
    ClientSecret := some { Algorithm := "aes256", KeyID := "key-1", Crypted := [17, 42] },
    Scopes := some ["openid"], Tenant := "organizations", IsEmailVerified := true,
    Options := ⟨true, false, false, true⟩, State := .IDPStateActive }

/-- The events of the instance about providers: `idp-1` is added as an OAuth provider, then
another provider, `idp-9`, is removed. -/
def scenarioInstanceEvents : List Event :=
  [scenarioInstanceAddedEvent, { scenarioForeignRemovedEvent with pkg := .instancePkg }]

/-- The events of one owner scope, as the plain events they embed: those that the instance
declares for an instance-scoped wrapper, those that the org declares otherwise. -/
def scenarioScopeEvents (instanceScoped : Bool) (events : List Event) : List Event :=
  events.filterMap (fun e =>
    if e.pkg = (if instanceScoped then EventPackage.instancePkg else EventPackage.orgPkg) then
      some { e with pkg := .plain }
    else none)

/-- Implementations of `IDP` for the scenario: each wrapper hands the events of its owner
scope to the write model it embeds, as the plain events they embed, and lets that write
model reduce and materialize, with the recording library. -/
def scenarioImplementations : IDPImplementations (ProviderCall ⊕ LDAPProviderCall) :=
  { OAuth := fun instanceScoped =>
      { Reduce := OAuthIDPWriteModel.Reduce
        AppendEvents := fun wm events =>
          { wm with
            toWriteModel :=
              wm.toWriteModel.AppendEvents (scenarioScopeEvents instanceScoped events) }
        ToProvider := fun wm callbackURL idpAlg =>
          wm.ToProvider scenarioLibraries callbackURL idpAlg }
    OIDC := fun instanceScoped =>
      { Reduce := OIDCIDPWriteModel.Reduce
        AppendEvents := fun wm events =>
          { wm with
            toWriteModel :=
              wm.toWriteModel.AppendEvents (scenarioScopeEvents instanceScoped events) }
        ToProvider := fun wm callbackURL idpAlg =>
          wm.ToProvider scenarioLibraries callbackURL idpAlg }
    JWT := fun instanceScoped =>
      { Reduce := JWTIDPWriteModel.Reduce
        AppendEvents := fun wm events =>
          { wm with
            toWriteModel :=
              wm.toWriteModel.AppendEvents (scenarioScopeEvents instanceScoped events) }
        ToProvider := fun wm callbackURL idpAlg =>
          wm.ToProvider scenarioLibraries callbackURL idpAlg }
    AzureAD := fun instanceScoped =>
      { Reduce := AzureADIDPWriteModel.Reduce
        AppendEvents := fun wm events =>
          { wm with
            toWriteModel :=
              wm.toWriteModel.AppendEvents (scenarioScopeEvents instanceScoped events) }
        ToProvider := fun wm callbackURL idpAlg =>
          wm.ToProvider scenarioLibraries callbackURL idpAlg }
    GitHub := fun instanceScoped =>
      { Reduce := GitHubIDPWriteModel.Reduce
        AppendEvents := fun wm events =>
          { wm with
            toWriteModel :=
              wm.toWriteModel.AppendEvents (scenarioScopeEvents instanceScoped events) }
        ToProvider := fun wm callbackURL idpAlg =>
          wm.ToProvider scenarioLibraries callbackURL idpAlg }
    GitHubEnterprise := fun instanceScoped =>
      { Reduce := GitHubEnterpriseIDPWriteModel.Reduce
        AppendEvents := fun wm events =>
          { wm with
            toWriteModel :=
              wm.toWriteModel.AppendEvents (scenarioScopeEvents instanceScoped events) }
        ToProvider := fun wm callbackURL idpAlg =>
          wm.ToProvider scenarioLibraries callbackURL idpAlg }
    GitLab := fun instanceScoped =>
      { Reduce := GitLabIDPWriteModel.Reduce
        AppendEvents := fun wm events =>
          { wm with
            toWriteModel :=
              wm.toWriteModel.AppendEvents (scenarioScopeEvents instanceScoped events) }
        ToProvider := fun wm callbackURL idpAlg =>
          wm.ToProvider scenarioLibraries callbackURL idpAlg }
    GitLabSelfHosted := fun instanceScoped =>
      { Reduce := GitLabSelfHostedIDPWriteModel.Reduce
        AppendEvents := fun wm events =>
          { wm with
            toWriteModel :=
              wm.toWriteModel.AppendEvents (scenarioScopeEvents instanceScoped events) }
        ToProvider := fun wm callbackURL idpAlg =>
          wm.ToProvider scenarioLibraries callbackURL idpAlg }
    Google := fun instanceScoped =>
      { Reduce := GoogleIDPWriteModel.Reduce
        AppendEvents := fun wm events =>
          { wm with
            toWriteModel :=
              wm.toWriteModel.AppendEvents (scenarioScopeEvents instanceScoped events) }
        ToProvider := fun wm callbackURL idpAlg =>
          wm.ToProvider scenarioLibraries callbackURL idpAlg }
    LDAP := fun instanceScoped =>
      { Reduce := LDAPIDPWriteModel.Reduce
        AppendEvents := fun wm events =>
          { wm with
            toWriteModel :=
              wm.toWriteModel.AppendEvents (scenarioScopeEvents instanceScoped events) }
        ToProvider := fun wm callbackURL idpAlg =>
          wm.ToProvider scenarioLibraries callbackURL idpAlg } }
/-! ## Lemmas on lists of conditional entries -/

theorem ite_append_single {α : Type} (c : Prop) [Decidable c] (l : List α) (x : α) :
    (if c then l ++ [x] else l) = l ++ (if c then [x] else []) := by
  split <;> simp

theorem foldl_ite_single {α β : Type} (f : β → α → β) (c : Prop) [Decidable c] (b : β)
    (x : α) : List.foldl f b (if c then [x] else []) = if c then f b x else b := by
  split <;> rfl

theorem countP_ite_single {α : Type} (p : α → Bool) (c : Prop) [Decidable c] (x : α) :
    List.countP p (if c then [x] else []) = if c then (if p x then 1 else 0) else 0 := by
  split <;> simp [List.countP_cons]

theorem differingEntries_nil {α : Type} : differingEntries ([] : List (Bool × α)) = [] :=
  rfl

theorem differingEntries_cons {α : Type} (c : Bool) (x : α) (rest : List (Bool × α)) :
    differingEntries ((c, x) :: rest) = (if c then [x] else []) ++ differingEntries rest := by
  cases c <;> simp [differingEntries]

theorem differingEntries_sublist {α : Type} (rows : List (Bool × α)) :
    (differingEntries rows).Sublist (rows.map (fun r => r.2)) := by
  induction rows with
  | nil => simp [differingEntries]
  | cons r rest ih =>
    obtain ⟨c, x⟩ := r
    cases c
    · simpa [differingEntries] using ih.cons x
    · simpa [differingEntries] using ih.cons₂ x

theorem differingEntries_forall {α : Type} (P : α → Prop) (rows : List (Bool × α))
    (h : ∀ r ∈ rows, P r.2) : ∀ c ∈ differingEntries rows, P c := by
  intro c hc
  have h2 := (differingEntries_sublist rows).subset hc
  rw [List.mem_map] at h2
  obtain ⟨r, hr, hrc⟩ := h2
  rw [← hrc]
  exact h r hr

theorem differingEntries_length {α : Type} (rows : List (Bool × α)) :
    (differingEntries rows).length = rows.countP (fun r => r.1) := by
  induction rows with
  | nil => simp [differingEntries]
  | cons r rest ih =>
    obtain ⟨c, x⟩ := r
    cases c <;> simp [differingEntries, ih]

theorem differingEntries_nodup {α β : Type} (f : α → β) (rows : List (Bool × α))
    (hnd : (rows.map (fun r => f r.2)).Nodup) : ((differingEntries rows).map f).Nodup := by
  have h := (differingEntries_sublist rows).map f
  rw [List.map_map] at h
  exact hnd.sublist h

theorem differingEntries_count {α β : Type} [DecidableEq α] (f : α → β)
    (rows : List (Bool × α)) (hnd : (rows.map (fun r => f r.2)).Nodup) :
    ∀ r ∈ rows, (differingEntries rows).count r.2 = if r.1 then 1 else 0 := by
  induction rows with
  | nil => simp
  | cons r0 rest ih =>
    obtain ⟨c, x⟩ := r0
    rw [List.map_cons, List.nodup_cons] at hnd
    obtain ⟨hx, hrest⟩ := hnd
    have hxnot : x ∉ differingEntries rest := by
      intro hmem
      have h2 := (differingEntries_sublist rest).subset hmem
      apply hx
      rw [List.mem_map] at h2 ⊢
      obtain ⟨r, hr, hrx⟩ := h2
      exact ⟨r, hr, by rw [hrx]⟩
    intro r hr
    rw [List.mem_cons] at hr
    rcases hr with hr | hr
    · subst hr
      cases c
      · simpa [differingEntries] using List.count_eq_zero_of_not_mem hxnot
      · simp [differingEntries, List.count_eq_zero_of_not_mem hxnot]
    · have hne : r.2 ≠ x := by
        intro he
        apply hx
        rw [List.mem_map]
        exact ⟨r, hr, by rw [he]⟩
      have hih := ih hrest r hr
      cases c
      · simpa [differingEntries] using hih
      · simp only [differingEntries, if_true]
        rw [List.count_cons, hih]
        simp [hne.symm]

/-- What a change set built from a secret row and the compared fields satisfies, when no
two rows are for the same field. -/
theorem differingEntries_facts {α β : Type} [DecidableEq α] (f : α → β) (secretRow : Bool × α)
    (rows : List (Bool × α)) (hnd : (((secretRow :: rows)).map (fun r => f r.2)).Nodup) :
    (∀ r ∈ rows, (differingEntries (secretRow :: rows)).count r.2 = if r.1 then 1 else 0) ∧
      (differingEntries (secretRow :: rows)).length
        = rows.countP (fun r => r.1) + (if secretRow.1 then 1 else 0) ∧
      ((differingEntries (secretRow :: rows)).map f).Nodup := by
  refine ⟨fun r hr => differingEntries_count f _ hnd r (List.mem_cons_of_mem _ hr), ?_,
    differingEntries_nodup f _ hnd⟩
  rw [differingEntries_length, List.countP_cons]

/-! ## Lemmas on folds -/

theorem foldl_filter_noop {σ ε : Type} (step : σ → ε → σ) (p : ε → Bool)
    (h : ∀ s e, p e = false → step s e = s) (L : List ε) (s : σ) :
    (L.filter p).foldl step s = L.foldl step s := by
  induction L generalizing s with
  | nil => rfl
  | cons e rest ih =>
    cases hp : p e
    · rw [List.filter_cons_of_neg (by simp [hp]), List.foldl_cons, h s e hp, ih]
    · rw [List.filter_cons_of_pos hp, List.foldl_cons, List.foldl_cons, ih]

theorem foldl_rel {σ ε : Type} (step : σ → ε → σ) (R : σ → σ → Prop)
    (h : ∀ a b e, R a b → R (step a e) (step b e)) (L : List ε) :
    ∀ a b, R a b → R (L.foldl step a) (L.foldl step b) := by
  induction L with
  | nil => intro a b hab; exact hab
  | cons e rest ih => intro a b hab; exact ih _ _ (h a b e hab)

/-- A second pass over the same events is absorbed: if every step keeps or overwrites
each field, a state mixed from the start state and the end state folds to the end state. -/
theorem foldl_absorb {σ ε : Type} (step : σ → ε → σ) (M : σ → σ → σ → Prop)
    (R : σ → σ → Prop) (hbase : ∀ s t, M s s t → R t s)
    (hstep : ∀ s u t e, M s u t → M (step s e) u (step t e)) (L : List ε) :
    ∀ s t, M s (L.foldl step s) t → R (L.foldl step t) (L.foldl step s) := by
  induction L with
  | nil => intro s t h; exact hbase s t h
  | cons e rest ih => intro s t h; exact ih _ _ (hstep s _ t e h)

theorem foldl_inv {σ ε α : Type} (step : σ → ε → σ) (f : σ → α)
    (h : ∀ s e, f (step s e) = f s) (L : List ε) (s : σ) : f (L.foldl step s) = f s := by
  induction L generalizing s with
  | nil => rfl
  | cons e rest ih => rw [List.foldl_cons, ih, h]

/-! ## Lemmas on the reducer idioms and the bundles -/

theorem pick_const {α : Type} (c u : α) : Pick c u c :=
  Or.inl rfl

theorem pick_right {α : Type} (s u : α) : Pick s u u :=
  Or.inr rfl

theorem pick_base {α : Type} {s t : α} (h : Pick s s t) : t = s := by
  rcases h with h | h <;> exact h

theorem pick_assignIfSet {α : Type} (p : Option α) {s u t : α} (h : Pick s u t) :
    Pick (assignIfSet p s) u (assignIfSet p t) := by
  cases p with
  | none => exact h
  | some v => exact Or.inl rfl

theorem pick_assignIfNonNil {α : Type} (p : Option α) {s u t : Option α} (h : Pick s u t) :
    Pick (assignIfNonNil p s) u (assignIfNonNil p t) := by
  cases p with
  | none => exact h
  | some v => exact Or.inl rfl

theorem pick_getD {α : Type} (p : Option α) {s u t : α} (h : Pick s u t) :
    Pick (p.getD s) u (p.getD t) := by
  cases p with
  | none => exact h
  | some v => exact Or.inl rfl

theorem optionsMix_reduceChanges (c : OptionChanges) {s u t : Options}
    (h : Options.Mix s u t) : Options.Mix (s.ReduceChanges c) u (t.ReduceChanges c) :=
  ⟨pick_getD _ h.1, pick_getD _ h.2.1, pick_getD _ h.2.2.1, pick_getD _ h.2.2.2⟩

theorem optionsMix_const (c u : Options) : Options.Mix c u c :=
  ⟨Or.inl rfl, Or.inl rfl, Or.inl rfl, Or.inl rfl⟩

theorem optionsMix_right (s u : Options) : Options.Mix s u u :=
  ⟨Or.inr rfl, Or.inr rfl, Or.inr rfl, Or.inr rfl⟩

theorem optionsMix_base {s t : Options} (h : Options.Mix s s t) : t = s := by
  cases s; cases t
  obtain ⟨h1, h2, h3, h4⟩ := h
  simp only [Options.mk.injEq]
  exact ⟨pick_base h1, pick_base h2, pick_base h3, pick_base h4⟩

/-- The legacy reducers overwrite the auto-creation flag alone. -/
theorem optionsMix_autoCreation (p : Option Bool) {s u t : Options} (h : Options.Mix s u t) :
    Options.Mix { s with IsAutoCreation := assignIfSet p s.IsAutoCreation } u
      { t with IsAutoCreation := assignIfSet p t.IsAutoCreation } :=
  ⟨h.1, h.2.1, pick_assignIfSet _ h.2.2.1, h.2.2.2⟩

theorem optionsMix_autoCreation_const (b : Bool) {s u t : Options} (h : Options.Mix s u t) :
    Options.Mix { s with IsAutoCreation := b } u { t with IsAutoCreation := b } :=
  ⟨h.1, h.2.1, Or.inl rfl, h.2.2.2⟩

theorem ldapAttributesMix_reduceChanges (c : LDAPAttributeChanges) {s u t : LDAPAttributes}
    (h : LDAPAttributes.Mix s u t) :
    LDAPAttributes.Mix (s.ReduceChanges c) u (t.ReduceChanges c) := by
  obtain ⟨h1, h2, h3, h4, h5, h6, h7, h8, h9, h10, h11, h12, h13⟩ := h
  exact ⟨pick_getD _ h1, pick_getD _ h2, pick_getD _ h3, pick_getD _ h4, pick_getD _ h5,
    pick_getD _ h6, pick_getD _ h7, pick_getD _ h8, pick_getD _ h9, pick_getD _ h10,
    pick_getD _ h11, pick_getD _ h12, pick_getD _ h13⟩

theorem ldapAttributesMix_const (c u : LDAPAttributes) : LDAPAttributes.Mix c u c :=
  ⟨Or.inl rfl, Or.inl rfl, Or.inl rfl, Or.inl rfl, Or.inl rfl, Or.inl rfl, Or.inl rfl,
    Or.inl rfl, Or.inl rfl, Or.inl rfl, Or.inl rfl, Or.inl rfl, Or.inl rfl⟩

theorem ldapAttributesMix_right (s u : LDAPAttributes) : LDAPAttributes.Mix s u u :=
  ⟨Or.inr rfl, Or.inr rfl, Or.inr rfl, Or.inr rfl, Or.inr rfl, Or.inr rfl, Or.inr rfl,
    Or.inr rfl, Or.inr rfl, Or.inr rfl, Or.inr rfl, Or.inr rfl, Or.inr rfl⟩

theorem ldapAttributesMix_base {s t : LDAPAttributes} (h : LDAPAttributes.Mix s s t) :
    t = s := by
  cases s; cases t
  obtain ⟨h1, h2, h3, h4, h5, h6, h7, h8, h9, h10, h11, h12, h13⟩ := h
  simp only [LDAPAttributes.mk.injEq]
  exact ⟨pick_base h1, pick_base h2, pick_base h3, pick_base h4, pick_base h5, pick_base h6, pick_base h7, pick_base h8, pick_base h9,
    pick_base h10, pick_base h11, pick_base h12, pick_base h13⟩

theorem isNone_ite_ne {α : Type} [DecidableEq α] (a b : α) :
    (if a ≠ b then some b else none).isNone = true ↔ a = b := by
  by_cases h : a = b <;> simp [h]

theorem getD_ite_ne {α : Type} [DecidableEq α] (a b : α) :
    (if a ≠ b then some b else none).getD a = b := by
  by_cases h : a = b <;> simp [h]

/-- The options delta is non-empty exactly when the bundles differ. -/
theorem options_changes_isZero (o options : Options) :
    (!(o.Changes options).IsZero) = true ↔ o ≠ options := by
  cases o; cases options
  simp only [Options.Changes, OptionChanges.IsZero, Bool.not_eq_true', ← Bool.not_eq_true,
    Bool.and_eq_true, isNone_ite_ne, ne_eq, Options.mk.injEq, and_assoc]

/-- Two bundles differ exactly when one of the four flags differs. -/
theorem options_ne_iff (o options : Options) :
    o ≠ options ↔
      (o.IsCreationAllowed ≠ options.IsCreationAllowed ∨
        o.IsLinkingAllowed ≠ options.IsLinkingAllowed ∨
        o.IsAutoCreation ≠ options.IsAutoCreation ∨ o.IsAutoUpdate ≠ options.IsAutoUpdate) := by
  cases o; cases options
  simp only [ne_eq, Options.mk.injEq]
  tauto

theorem options_reduceChanges_changes (o options : Options) :
    o.ReduceChanges (o.Changes options) = options := by
  cases o; cases options
  simp only [Options.ReduceChanges, Options.Changes, getD_ite_ne]

theorem options_reduceChanges_ite (o options : Options) :
    o.ReduceChanges (if o ≠ options then o.Changes options else ⟨none, none, none, none⟩)
      = options := by
  by_cases h : o = options
  · subst h; simp [Options.ReduceChanges]
  · simp only [ne_eq, h, not_false_eq_true, if_true, options_reduceChanges_changes]

/-- The attribute delta is non-empty exactly when the bundles differ. -/
theorem ldapAttributes_changes_isZero (o attributes : LDAPAttributes) :
    (!(o.Changes attributes).IsZero) = true ↔ o ≠ attributes := by
  cases o; cases attributes
  simp only [LDAPAttributes.Changes, LDAPAttributeChanges.IsZero, changedString,
    Bool.not_eq_true', ← Bool.not_eq_true, Bool.and_eq_true, isNone_ite_ne, ne_eq,
    LDAPAttributes.mk.injEq, and_assoc]

theorem ldapAttributes_reduceChanges_changes (o attributes : LDAPAttributes) :
    o.ReduceChanges (o.Changes attributes) = attributes := by
  cases o; cases attributes
  simp only [LDAPAttributes.ReduceChanges, LDAPAttributes.Changes, changedString, getD_ite_ne]

theorem ldapAttributes_reduceChanges_ite (o attributes : LDAPAttributes) :
    o.ReduceChanges
        (if o ≠ attributes then o.Changes attributes
         else ⟨none, none, none, none, none, none, none, none, none, none, none, none, none⟩)
      = attributes := by
  by_cases h : o = attributes
  · subst h; simp [LDAPAttributes.ReduceChanges]
  · simp only [ne_eq, h, not_false_eq_true, if_true, ldapAttributes_reduceChanges_changes]

theorem assignIfSet_ite {α : Type} [DecidableEq α] (stored desired : α) :
    assignIfSet (if stored ≠ desired then some desired else none) stored = desired := by
  by_cases h : stored = desired <;> simp [h, assignIfSet]

theorem assignIfSet_ite_self {α : Type} [DecidableEq α] (stored desired : α) :
    assignIfSet (if stored ≠ desired then some desired else none) desired = desired := by
  by_cases h : stored = desired <;> simp [h, assignIfSet]

/-- A slice travels through a changed event unless the desired slice is nil and the
stored one is not. -/
theorem assignIfNonNil_ite {α : Type} [DecidableEq α] (stored desired : Option α)
    (h : desired ≠ none ∨ desired = stored) :
    assignIfNonNil (if stored ≠ desired then desired else none) stored = desired := by
  by_cases hd : stored = desired
  · simp [hd, assignIfNonNil]
  · have hn : desired ≠ none := h.resolve_right (fun he => hd he.symm)
    cases desired with
    | none => exact absurd rfl hn
    | some v => simp [hd, assignIfNonNil]

/-! ## Lemmas on the write models -/

/-! ### OAuthIDPWriteModel -/

/-- Closed form of `NewChanges`: the secret entry, then the entries of the compared
fields that differ. -/
theorem OAuth_newChanges_eq (wm : OAuthIDPWriteModel) (name clientID clientSecretString : String)
    (secretCrypto : Crypto)
    (authorizationEndpoint tokenEndpoint userEndpoint idAttribute : String) (scopes : StringSlice)
    (options : Zitadel.Options) (v : Option CryptoValue)
    (h : clientSecretString = "" ∨ Crypt clientSecretString secretCrypto = .ok v) :
    wm.NewChanges name clientID clientSecretString secretCrypto authorizationEndpoint
      tokenEndpoint userEndpoint idAttribute scopes options
      = .ok (differingEntries ((decide (clientSecretString ≠ ""), .ChangeOAuthClientSecret v) ::
          wm.comparedFields name clientID authorizationEndpoint tokenEndpoint userEndpoint
            idAttribute scopes options)) := by
  have hz := options_changes_isZero wm.Options options
  simp only [OAuthIDPWriteModel.NewChanges, OAuthIDPWriteModel.comparedFields, bind, Except.bind, pure, Except.pure,
    ite_append_single, hz, differingEntries_cons, differingEntries_nil]
  by_cases hs : clientSecretString = ""
  · simp [hs]
  · have h := h.resolve_left hs
    simp [hs, h]

/-- A change set is returned only if the secret is empty or was encrypted. -/
theorem OAuth_newChanges_crypt (wm : OAuthIDPWriteModel)
    (name clientID clientSecretString : String) (secretCrypto : Crypto)
    (authorizationEndpoint tokenEndpoint userEndpoint idAttribute : String) (scopes : StringSlice)
    (options : Zitadel.Options) (cs : List OAuthIDPChanges)
    (hcs : wm.NewChanges name clientID clientSecretString secretCrypto authorizationEndpoint
      tokenEndpoint userEndpoint idAttribute scopes options = .ok cs) :
    ∃ v, clientSecretString = "" ∨ Crypt clientSecretString secretCrypto = .ok v := by
  by_cases hs : clientSecretString = ""
  · exact ⟨none, Or.inl hs⟩
  · cases hc : Crypt clientSecretString secretCrypto with
    | ok v => exact ⟨v, Or.inr rfl⟩
    | error err => simp [OAuthIDPWriteModel.NewChanges, hs, hc, bind, Except.bind] at hcs

/-- No two rows of the change set are for the same field. -/
theorem OAuth_rows_nodup (wm : OAuthIDPWriteModel) (name clientID clientSecretString : String)
    (authorizationEndpoint tokenEndpoint userEndpoint idAttribute : String) (scopes : StringSlice)
    (options : Zitadel.Options) (v : Option CryptoValue) :
    ((((decide (clientSecretString ≠ ""), OAuthIDPChanges.ChangeOAuthClientSecret v) ::
        wm.comparedFields name clientID authorizationEndpoint tokenEndpoint userEndpoint
          idAttribute scopes options).map
      (fun r => r.2.field))).Nodup := by
  simp [OAuthIDPWriteModel.comparedFields, OAuthIDPChanges.field]

/-- The result of `Reduce`: the folded model, with `ProcessedSequence` advanced by the base. -/
theorem OAuth_reduce_eq (wm : OAuthIDPWriteModel) :
    wm.Reduce = .ok
      { wm.Events.foldl OAuthIDPWriteModel.reduceEvent wm with
        ProcessedSequence :=
          match (wm.Events.foldl OAuthIDPWriteModel.reduceEvent wm).Events.getLast? with
          | none => (wm.Events.foldl OAuthIDPWriteModel.reduceEvent wm).ProcessedSequence
          | some e => e.Sequence } := by
  cases h : (List.foldl OAuthIDPWriteModel.reduceEvent wm wm.Events).Events.getLast? <;>
    simp only [OAuthIDPWriteModel.Reduce, WriteModel.Reduce, h]

theorem OAuth_reduce_same (wm : OAuthIDPWriteModel) :
    ∃ r, wm.Reduce = .ok r ∧
      OAuthIDPWriteModel.SameDomain r (wm.Events.foldl OAuthIDPWriteModel.reduceEvent wm) :=
  ⟨_, OAuth_reduce_eq wm, ⟨rfl, rfl, rfl, rfl, rfl, rfl, rfl, rfl, rfl, rfl, rfl⟩⟩

theorem OAuth_same_symm {a b : OAuthIDPWriteModel} (h : OAuthIDPWriteModel.SameDomain a b) :
    OAuthIDPWriteModel.SameDomain b a := by
  obtain ⟨h1, h2, h3, h4, h5, h6, h7, h8, h9, h10, h11⟩ := h
  exact
    ⟨h1.symm, h2.symm, h3.symm, h4.symm, h5.symm, h6.symm, h7.symm, h8.symm, h9.symm, h10.symm, h11.symm⟩

theorem OAuth_same_trans {a b c : OAuthIDPWriteModel} (h : OAuthIDPWriteModel.SameDomain a b)
    (g : OAuthIDPWriteModel.SameDomain b c) : OAuthIDPWriteModel.SameDomain a c := by
  obtain ⟨h1, h2, h3, h4, h5, h6, h7, h8, h9, h10, h11⟩ := h
  obtain ⟨g1, g2, g3, g4, g5, g6, g7, g8, g9, g10, g11⟩ := g
  exact
    ⟨h1.trans g1, h2.trans g2, h3.trans g3, h4.trans g4, h5.trans g5, h6.trans g6, h7.trans g7, h8.trans g8, h9.trans g9, h10.trans g10, h11.trans g11⟩

/-- Replacing the event buffer changes no domain field. -/
theorem OAuth_same_events (wm : OAuthIDPWriteModel) (L : List Event) :
    OAuthIDPWriteModel.SameDomain { wm with Events := L } wm :=
  ⟨rfl, rfl, rfl, rfl, rfl, rfl, rfl, rfl, rfl, rfl, rfl⟩

theorem OAuth_step_id (wm : OAuthIDPWriteModel) (e : Event) : (wm.reduceEvent e).ID = wm.ID := by
  unfold OAuthIDPWriteModel.reduceEvent
  split <;> rfl

/-- An event of a type the switch does not name is skipped. -/
theorem OAuth_step_noop (wm : OAuthIDPWriteModel) (e : Event)
    (h : e.goType ∉ OAuthIDPWriteModel.switchTypes) : wm.reduceEvent e = wm := by
  obtain ⟨pkg, seq, agg, payload⟩ := e
  cases pkg <;> cases payload <;>
    first
      | rfl
      | (exfalso; apply h; simp [Event.goType, EventPayload.kind, OAuthIDPWriteModel.switchTypes])

/-- A step reads the domain fields only. -/
theorem OAuth_step_same (a b : OAuthIDPWriteModel) (e : Event) (h : OAuthIDPWriteModel.SameDomain a b) :
    OAuthIDPWriteModel.SameDomain (a.reduceEvent e) (b.reduceEvent e) := by
  obtain ⟨h1, h2, h3, h4, h5, h6, h7, h8, h9, h10, h11⟩ := h
  unfold OAuthIDPWriteModel.reduceEvent
  split <;>
    simp only [OAuthIDPWriteModel.SameDomain, OAuthIDPWriteModel.reduceAddedEvent,
      OAuthIDPWriteModel.reduceChangedEvent, h1, h2, h3, h4, h5, h6, h7, h8, h9, h10, h11,
      and_self]

/-- A step keeps or overwrites each field. -/
theorem OAuth_step_mix (s u t : OAuthIDPWriteModel) (e : Event) (h : OAuthIDPWriteModel.Mix s u t) :
    OAuthIDPWriteModel.Mix (s.reduceEvent e) u (t.reduceEvent e) := by
  obtain ⟨h1, h2, h3, h4, h5, h6, h7, h8, h9, h10, h11⟩ := h
  unfold OAuthIDPWriteModel.reduceEvent
  split
  · exact
      ⟨pick_const _ _, h2, pick_const _ _, pick_const _ _, pick_const _ _, pick_const _ _, pick_const _ _, pick_const _ _, pick_const _ _, optionsMix_const _ _, pick_const _ _⟩
  · exact
      ⟨pick_assignIfSet _ h1, h2, pick_assignIfSet _ h3, pick_assignIfNonNil _ h4, pick_assignIfSet _ h5, pick_assignIfSet _ h6, pick_assignIfSet _ h7, pick_assignIfNonNil _ h8, pick_assignIfSet _ h9, optionsMix_reduceChanges _ h10, h11⟩
  · exact ⟨h1, h2, h3, h4, h5, h6, h7, h8, h9, h10, pick_const _ _⟩
  · exact ⟨h1, h2, h3, h4, h5, h6, h7, h8, h9, h10, h11⟩

theorem OAuth_mix_base {s t : OAuthIDPWriteModel} (h : OAuthIDPWriteModel.Mix s s t) :
    OAuthIDPWriteModel.SameDomain t s := by
  obtain ⟨h1, h2, h3, h4, h5, h6, h7, h8, h9, h10, h11⟩ := h
  exact
    ⟨pick_base h1, h2, pick_base h3, pick_base h4, pick_base h5, pick_base h6, pick_base h7, pick_base h8, pick_base h9, optionsMix_base h10, pick_base h11⟩

theorem OAuth_mix_right (s u : OAuthIDPWriteModel) (h : u.ID = s.ID) : OAuthIDPWriteModel.Mix s u u :=
 ⟨pick_right _ _, h, pick_right _ _, pick_right _ _, pick_right _ _, pick_right _ _, pick_right _ _, pick_right _ _, pick_right _ _, optionsMix_right _ _, pick_right _ _⟩

/-- On a buffer `L`, `Reduce` returns a model with the domain fields of the fold of `L`. -/
theorem OAuth_reduce_events (wm : OAuthIDPWriteModel) (L : List Event) :
    ∃ r, OAuthIDPWriteModel.Reduce { wm with Events := L } = .ok r ∧
      OAuthIDPWriteModel.SameDomain r (L.foldl OAuthIDPWriteModel.reduceEvent wm) := by
  obtain ⟨r, hr, hsame⟩ := OAuth_reduce_same { wm with Events := L }
  exact ⟨r, hr, OAuth_same_trans hsame
    (foldl_rel _ _ OAuth_step_same L _ _ (OAuth_same_events wm L))⟩

/-- Folding the same events a second time changes no domain field. -/
theorem OAuth_fold_idem (wm : OAuthIDPWriteModel) (L : List Event) :
    OAuthIDPWriteModel.SameDomain (L.foldl OAuthIDPWriteModel.reduceEvent (L.foldl OAuthIDPWriteModel.reduceEvent wm))
      (L.foldl OAuthIDPWriteModel.reduceEvent wm) :=
  foldl_absorb _ OAuthIDPWriteModel.Mix _ (fun _ _ h => OAuth_mix_base h) OAuth_step_mix L wm _
    (OAuth_mix_right _ _ (foldl_inv _ (fun s => s.ID) OAuth_step_id L wm))

/-- Reducing the changed event that carries the change set of `NewChanges` assigns the
desired values. -/
theorem OAuth_roundtrip_step (wm : OAuthIDPWriteModel) (name clientID clientSecretString : String)
    (authorizationEndpoint tokenEndpoint userEndpoint idAttribute : String) (scopes : StringSlice)
    (options : Zitadel.Options) (v : Option CryptoValue)
    (hScopes : scopes ≠ none ∨ scopes = wm.Scopes) :
    let r := wm.reduceChangedEvent
      (OAuthIDPChangedEvent.withChanges (differingEntries
        ((decide (clientSecretString ≠ ""), .ChangeOAuthClientSecret v) ::
          wm.comparedFields name clientID authorizationEndpoint tokenEndpoint userEndpoint idAttribute
            scopes options)))
   r.Name = name ∧ r.ClientID = clientID ∧ r.AuthorizationEndpoint = authorizationEndpoint ∧
      r.TokenEndpoint = tokenEndpoint ∧ r.UserEndpoint = userEndpoint ∧
      r.IDAttribute = idAttribute ∧ r.Scopes = scopes ∧ r.Options = options ∧ r.ID = wm.ID ∧
      r.State = wm.State := by
  intro r
  refine ⟨?_, ?_, ?_, ?_, ?_, ?_, ?_, ?_, ?_, ?_⟩ <;>
    (simp only [r, OAuthIDPWriteModel.reduceChangedEvent, OAuthIDPChangedEvent.withChanges,
      OAuthIDPWriteModel.comparedFields, differingEntries_cons, differingEntries_nil,
      List.foldl_append, foldl_ite_single, List.foldl_nil, OAuthIDPChanges.apply,
      OAuthIDPChangedEvent.empty, apply_ite OAuthIDPChangedEvent.Name,
      apply_ite OAuthIDPChangedEvent.ClientID, apply_ite OAuthIDPChangedEvent.ClientSecret,
      apply_ite OAuthIDPChangedEvent.AuthorizationEndpoint,
      apply_ite OAuthIDPChangedEvent.TokenEndpoint, apply_ite OAuthIDPChangedEvent.UserEndpoint,
      apply_ite OAuthIDPChangedEvent.Scopes, apply_ite OAuthIDPChangedEvent.IDAttribute,
      apply_ite OAuthIDPChangedEvent.OptionChanges, ite_self, decide_eq_true_eq]
     all_goals first
       | rfl
       | exact assignIfSet_ite _ _
       | exact options_reduceChanges_ite _ _
       | exact assignIfNonNil_ite _ _ hScopes)

/-! ### OIDCIDPWriteModel -/

/-- Closed form of `NewChanges`: the secret entry, then the entries of the compared
fields that differ. -/
theorem OIDC_newChanges_eq (wm : OIDCIDPWriteModel)
    (name issuer clientID clientSecretString : String) (secretCrypto : Crypto)
    (scopes : StringSlice) (idTokenMapping : Bool) (options : Zitadel.Options)
    (v : Option CryptoValue)
    (h : clientSecretString = "" ∨ Crypt clientSecretString secretCrypto = .ok v) :
    wm.NewChanges name issuer clientID clientSecretString secretCrypto scopes idTokenMapping
      options
      = .ok (differingEntries ((decide (clientSecretString ≠ ""), .ChangeOIDCClientSecret v) ::
          wm.comparedFields name issuer clientID scopes idTokenMapping options)) := by
  have hz := options_changes_isZero wm.Options options
  simp only [OIDCIDPWriteModel.NewChanges, OIDCIDPWriteModel.comparedFields, bind, Except.bind, pure, Except.pure,
    ite_append_single, hz, differingEntries_cons, differingEntries_nil]
  by_cases hs : clientSecretString = ""
  · simp [hs]
  · have h := h.resolve_left hs
    simp [hs, h]

/-- A change set is returned only if the secret is empty or was encrypted. -/
theorem OIDC_newChanges_crypt (wm : OIDCIDPWriteModel)
    (name issuer clientID clientSecretString : String) (secretCrypto : Crypto)
    (scopes : StringSlice) (idTokenMapping : Bool) (options : Zitadel.Options)
    (cs : List OIDCIDPChanges)
    (hcs : wm.NewChanges name issuer clientID clientSecretString secretCrypto scopes
      idTokenMapping options = .ok cs) :
    ∃ v, clientSecretString = "" ∨ Crypt clientSecretString secretCrypto = .ok v := by
  by_cases hs : clientSecretString = ""
  · exact ⟨none, Or.inl hs⟩
  · cases hc : Crypt clientSecretString secretCrypto with
    | ok v => exact ⟨v, Or.inr rfl⟩
    | error err => simp [OIDCIDPWriteModel.NewChanges, hs, hc, bind, Except.bind] at hcs

/-- No two rows of the change set are for the same field. -/
theorem OIDC_rows_nodup (wm : OIDCIDPWriteModel)
    (name issuer clientID clientSecretString : String) (scopes : StringSlice)
    (idTokenMapping : Bool) (options : Zitadel.Options) (v : Option CryptoValue) :
    ((((decide (clientSecretString ≠ ""), OIDCIDPChanges.ChangeOIDCClientSecret v) ::
        wm.comparedFields name issuer clientID scopes idTokenMapping options).map
      (fun r => r.2.field))).Nodup := by
  simp [OIDCIDPWriteModel.comparedFields, OIDCIDPChanges.field]

/-- The result of `Reduce`: the folded model, with `ProcessedSequence` advanced by the base. -/
theorem OIDC_reduce_eq (wm : OIDCIDPWriteModel) :
    wm.Reduce = .ok
      { wm.Events.foldl OIDCIDPWriteModel.reduceEvent wm with
        ProcessedSequence :=
          match (wm.Events.foldl OIDCIDPWriteModel.reduceEvent wm).Events.getLast? with
          | none => (wm.Events.foldl OIDCIDPWriteModel.reduceEvent wm).ProcessedSequence
          | some e => e.Sequence } := by
  cases h : (List.foldl OIDCIDPWriteModel.reduceEvent wm wm.Events).Events.getLast? <;>
    simp only [OIDCIDPWriteModel.Reduce, WriteModel.Reduce, h]

theorem OIDC_reduce_same (wm : OIDCIDPWriteModel) :
    ∃ r, wm.Reduce = .ok r ∧
      OIDCIDPWriteModel.SameDomain r (wm.Events.foldl OIDCIDPWriteModel.reduceEvent wm) :=
  ⟨_, OIDC_reduce_eq wm, ⟨rfl, rfl, rfl, rfl, rfl, rfl, rfl, rfl, rfl⟩⟩

theorem OIDC_same_symm {a b : OIDCIDPWriteModel} (h : OIDCIDPWriteModel.SameDomain a b) :
    OIDCIDPWriteModel.SameDomain b a := by
  obtain ⟨h1, h2, h3, h4, h5, h6, h7, h8, h9⟩ := h
  exact ⟨h1.symm, h2.symm, h3.symm, h4.symm, h5.symm, h6.symm, h7.symm, h8.symm, h9.symm⟩

theorem OIDC_same_trans {a b c : OIDCIDPWriteModel} (h : OIDCIDPWriteModel.SameDomain a b)
    (g : OIDCIDPWriteModel.SameDomain b c) : OIDCIDPWriteModel.SameDomain a c := by
  obtain ⟨h1, h2, h3, h4, h5, h6, h7, h8, h9⟩ := h
  obtain ⟨g1, g2, g3, g4, g5, g6, g7, g8, g9⟩ := g
  exact
    ⟨h1.trans g1, h2.trans g2, h3.trans g3, h4.trans g4, h5.trans g5, h6.trans g6, h7.trans g7, h8.trans g8, h9.trans g9⟩

/-- Replacing the event buffer changes no domain field. -/
theorem OIDC_same_events (wm : OIDCIDPWriteModel) (L : List Event) :
    OIDCIDPWriteModel.SameDomain { wm with Events := L } wm :=
  ⟨rfl, rfl, rfl, rfl, rfl, rfl, rfl, rfl, rfl⟩

theorem OIDC_step_id (wm : OIDCIDPWriteModel) (e : Event) : (wm.reduceEvent e).ID = wm.ID := by
  unfold OIDCIDPWriteModel.reduceEvent
  split <;> rfl

/-- An event of a type the switch does not name is skipped. -/
theorem OIDC_step_noop (wm : OIDCIDPWriteModel) (e : Event)
    (h : e.goType ∉ OIDCIDPWriteModel.switchTypes) : wm.reduceEvent e = wm := by
  obtain ⟨pkg, seq, agg, payload⟩ := e
  cases pkg <;> cases payload <;>
    first
      | rfl
      | (exfalso; apply h; simp [Event.goType, EventPayload.kind, OIDCIDPWriteModel.switchTypes])

/-- A step reads the domain fields only. -/
theorem OIDC_step_same (a b : OIDCIDPWriteModel) (e : Event) (h : OIDCIDPWriteModel.SameDomain a b) :
    OIDCIDPWriteModel.SameDomain (a.reduceEvent e) (b.reduceEvent e) := by
  obtain ⟨h1, h2, h3, h4, h5, h6, h7, h8, h9⟩ := h
  unfold OIDCIDPWriteModel.reduceEvent
  split <;>
    simp only [OIDCIDPWriteModel.SameDomain, OIDCIDPWriteModel.reduceAddedEvent,
      OIDCIDPWriteModel.reduceChangedEvent, OIDCIDPWriteModel.reduceIDPConfigAddedEvent,
      OIDCIDPWriteModel.reduceIDPConfigChangedEvent, OIDCIDPWriteModel.reduceOIDCConfigAddedEvent,
      OIDCIDPWriteModel.reduceOIDCConfigChangedEvent, h1, h2, h3, h4, h5, h6, h7, h8, h9,
      and_self]

/-- A step keeps or overwrites each field. -/
theorem OIDC_step_mix (s u t : OIDCIDPWriteModel) (e : Event) (h : OIDCIDPWriteModel.Mix s u t) :
    OIDCIDPWriteModel.Mix (s.reduceEvent e) u (t.reduceEvent e) := by
  obtain ⟨h1, h2, h3, h4, h5, h6, h7, h8, h9⟩ := h
  unfold OIDCIDPWriteModel.reduceEvent
  split
  · exact
      ⟨pick_const _ _, h2, pick_const _ _, pick_const _ _, pick_const _ _, pick_const _ _, pick_const _ _, optionsMix_const _ _, pick_const _ _⟩
  · exact
      ⟨pick_assignIfSet _ h1, h2, pick_assignIfSet _ h3, pick_assignIfSet _ h4, pick_assignIfNonNil _ h5, pick_assignIfNonNil _ h6, pick_assignIfSet _ h7, optionsMix_reduceChanges _ h8, h9⟩
  · exact ⟨h1, h2, h3, h4, h5, h6, h7, h8, pick_const _ _⟩
  · exact ⟨h1, h2, h3, h4, h5, h6, h7, h8, pick_const _ _⟩
  · exact ⟨h1, h2, h3, h4, h5, h6, h7, h8, pick_const _ _⟩
  · exact
      ⟨pick_const _ _, h2, h3, h4, h5, h6, h7, optionsMix_autoCreation_const _ h8, pick_const _ _⟩
  · exact ⟨pick_assignIfSet _ h1, h2, h3, h4, h5, h6, h7, optionsMix_autoCreation _ h8, h9⟩
  · exact ⟨h1, h2, pick_const _ _, pick_const _ _, pick_const _ _, pick_const _ _, h7, h8, h9⟩
  · exact
      ⟨h1, h2, pick_assignIfSet _ h3, pick_assignIfSet _ h4, pick_assignIfNonNil _ h5, pick_assignIfNonNil _ h6, h7, h8, h9⟩
  · exact ⟨h1, h2, h3, h4, h5, h6, h7, h8, pick_const _ _⟩
  · exact ⟨h1, h2, h3, h4, h5, h6, h7, h8, h9⟩

theorem OIDC_mix_base {s t : OIDCIDPWriteModel} (h : OIDCIDPWriteModel.Mix s s t) :
    OIDCIDPWriteModel.SameDomain t s := by
  obtain ⟨h1, h2, h3, h4, h5, h6, h7, h8, h9⟩ := h
  exact
    ⟨pick_base h1, h2, pick_base h3, pick_base h4, pick_base h5, pick_base h6, pick_base h7, optionsMix_base h8, pick_base h9⟩

theorem OIDC_mix_right (s u : OIDCIDPWriteModel) (h : u.ID = s.ID) : OIDCIDPWriteModel.Mix s u u :=
 ⟨pick_right _ _, h, pick_right _ _, pick_right _ _, pick_right _ _, pick_right _ _, pick_right _ _, optionsMix_right _ _, pick_right _ _⟩

/-- On a buffer `L`, `Reduce` returns a model with the domain fields of the fold of `L`. -/
theorem OIDC_reduce_events (wm : OIDCIDPWriteModel) (L : List Event) :
    ∃ r, OIDCIDPWriteModel.Reduce { wm with Events := L } = .ok r ∧
      OIDCIDPWriteModel.SameDomain r (L.foldl OIDCIDPWriteModel.reduceEvent wm) := by
  obtain ⟨r, hr, hsame⟩ := OIDC_reduce_same { wm with Events := L }
  exact ⟨r, hr, OIDC_same_trans hsame
    (foldl_rel _ _ OIDC_step_same L _ _ (OIDC_same_events wm L))⟩

/-- Folding the same events a second time changes no domain field. -/
theorem OIDC_fold_idem (wm : OIDCIDPWriteModel) (L : List Event) :
    OIDCIDPWriteModel.SameDomain (L.foldl OIDCIDPWriteModel.reduceEvent (L.foldl OIDCIDPWriteModel.reduceEvent wm))
      (L.foldl OIDCIDPWriteModel.reduceEvent wm) :=
  foldl_absorb _ OIDCIDPWriteModel.Mix _ (fun _ _ h => OIDC_mix_base h) OIDC_step_mix L wm _
    (OIDC_mix_right _ _ (foldl_inv _ (fun s => s.ID) OIDC_step_id L wm))

/-- Reducing the changed event that carries the change set of `NewChanges` assigns the
desired values. -/
theorem OIDC_roundtrip_step (wm : OIDCIDPWriteModel)
    (name issuer clientID clientSecretString : String) (scopes : StringSlice)
    (idTokenMapping : Bool) (options : Zitadel.Options) (v : Option CryptoValue)
    (hScopes : scopes ≠ none ∨ scopes = wm.Scopes) :
    let r := wm.reduceChangedEvent
      (OIDCIDPChangedEvent.withChanges (differingEntries
        ((decide (clientSecretString ≠ ""), .ChangeOIDCClientSecret v) ::
          wm.comparedFields name issuer clientID scopes idTokenMapping options)))
   r.Name = name ∧ r.Issuer = issuer ∧ r.ClientID = clientID ∧ r.Scopes = scopes ∧
      r.IsIDTokenMapping = idTokenMapping ∧ r.Options = options ∧ r.ID = wm.ID ∧
      r.State = wm.State := by
  intro r
  refine ⟨?_, ?_, ?_, ?_, ?_, ?_, ?_, ?_⟩ <;>
    (simp only [r, OIDCIDPWriteModel.reduceChangedEvent, OIDCIDPChangedEvent.withChanges,
      OIDCIDPWriteModel.comparedFields, differingEntries_cons, differingEntries_nil,
      List.foldl_append, foldl_ite_single, List.foldl_nil, OIDCIDPChanges.apply,
      OIDCIDPChangedEvent.empty, apply_ite OIDCIDPChangedEvent.Name,
      apply_ite OIDCIDPChangedEvent.Issuer, apply_ite OIDCIDPChangedEvent.ClientID,
      apply_ite OIDCIDPChangedEvent.ClientSecret, apply_ite OIDCIDPChangedEvent.Scopes,
      apply_ite OIDCIDPChangedEvent.IsIDTokenMapping, apply_ite OIDCIDPChangedEvent.OptionChanges,
      ite_self, decide_eq_true_eq]
     all_goals first
       | rfl
       | exact assignIfSet_ite _ _
       | exact options_reduceChanges_ite _ _
       | exact assignIfNonNil_ite _ _ hScopes)

/-! ### JWTIDPWriteModel -/

/-- Closed form of `NewChanges`: the entries of the compared fields that differ. -/
theorem JWT_newChanges_eq (wm : JWTIDPWriteModel)
    (name issuer jwtEndpoint keysEndpoint headerName : String) (options : Zitadel.Options) :
    wm.NewChanges name issuer jwtEndpoint keysEndpoint headerName options
      = .ok (differingEntries (wm.comparedFields name issuer jwtEndpoint keysEndpoint headerName
          options)) := by
  have hz := options_changes_isZero wm.Options options
  simp only [JWTIDPWriteModel.NewChanges, JWTIDPWriteModel.comparedFields, bind, Except.bind, pure, Except.pure,
    ite_append_single, hz, differingEntries_cons, differingEntries_nil]
  simp

/-- No two rows of the change set are for the same field. -/
theorem JWT_rows_nodup (wm : JWTIDPWriteModel)
    (name issuer jwtEndpoint keysEndpoint headerName : String) (options : Zitadel.Options) :
    ((wm.comparedFields name issuer jwtEndpoint keysEndpoint headerName options).map
      (fun r => r.2.field)).Nodup := by
  simp [JWTIDPWriteModel.comparedFields, JWTIDPChanges.field]

/-- The result of `Reduce`: the folded model, with `ProcessedSequence` advanced by the base. -/
theorem JWT_reduce_eq (wm : JWTIDPWriteModel) :
    wm.Reduce = .ok
      { wm.Events.foldl JWTIDPWriteModel.reduceEvent wm with
        ProcessedSequence :=
          match (wm.Events.foldl JWTIDPWriteModel.reduceEvent wm).Events.getLast? with
          | none => (wm.Events.foldl JWTIDPWriteModel.reduceEvent wm).ProcessedSequence
          | some e => e.Sequence } := by
  cases h : (List.foldl JWTIDPWriteModel.reduceEvent wm wm.Events).Events.getLast? <;>
    simp only [JWTIDPWriteModel.Reduce, WriteModel.Reduce, h]

theorem JWT_reduce_same (wm : JWTIDPWriteModel) :
    ∃ r, wm.Reduce = .ok r ∧
      JWTIDPWriteModel.SameDomain r (wm.Events.foldl JWTIDPWriteModel.reduceEvent wm) :=
  ⟨_, JWT_reduce_eq wm, ⟨rfl, rfl, rfl, rfl, rfl, rfl, rfl, rfl⟩⟩

theorem JWT_same_symm {a b : JWTIDPWriteModel} (h : JWTIDPWriteModel.SameDomain a b) :
    JWTIDPWriteModel.SameDomain b a := by
  obtain ⟨h1, h2, h3, h4, h5, h6, h7, h8⟩ := h
  exact ⟨h1.symm, h2.symm, h3.symm, h4.symm, h5.symm, h6.symm, h7.symm, h8.symm⟩

theorem JWT_same_trans {a b c : JWTIDPWriteModel} (h : JWTIDPWriteModel.SameDomain a b)
    (g : JWTIDPWriteModel.SameDomain b c) : JWTIDPWriteModel.SameDomain a c := by
  obtain ⟨h1, h2, h3, h4, h5, h6, h7, h8⟩ := h
  obtain ⟨g1, g2, g3, g4, g5, g6, g7, g8⟩ := g
  exact
    ⟨h1.trans g1, h2.trans g2, h3.trans g3, h4.trans g4, h5.trans g5, h6.trans g6, h7.trans g7, h8.trans g8⟩

/-- Replacing the event buffer changes no domain field. -/
theorem JWT_same_events (wm : JWTIDPWriteModel) (L : List Event) :
    JWTIDPWriteModel.SameDomain { wm with Events := L } wm :=
  ⟨rfl, rfl, rfl, rfl, rfl, rfl, rfl, rfl⟩

theorem JWT_step_id (wm : JWTIDPWriteModel) (e : Event) : (wm.reduceEvent e).ID = wm.ID := by
  unfold JWTIDPWriteModel.reduceEvent
  split <;> rfl

/-- An event of a type the switch does not name is skipped. -/
theorem JWT_step_noop (wm : JWTIDPWriteModel) (e : Event)
    (h : e.goType ∉ JWTIDPWriteModel.switchTypes) : wm.reduceEvent e = wm := by
  obtain ⟨pkg, seq, agg, payload⟩ := e
  cases pkg <;> cases payload <;>
    first
      | rfl
      | (exfalso; apply h; simp [Event.goType, EventPayload.kind, JWTIDPWriteModel.switchTypes])

/-- A step reads the domain fields only. -/
theorem JWT_step_same (a b : JWTIDPWriteModel) (e : Event) (h : JWTIDPWriteModel.SameDomain a b) :
    JWTIDPWriteModel.SameDomain (a.reduceEvent e) (b.reduceEvent e) := by
  obtain ⟨h1, h2, h3, h4, h5, h6, h7, h8⟩ := h
  unfold JWTIDPWriteModel.reduceEvent
  split <;>
    simp only [JWTIDPWriteModel.SameDomain, JWTIDPWriteModel.reduceAddedEvent,
      JWTIDPWriteModel.reduceChangedEvent, JWTIDPWriteModel.reduceIDPConfigAddedEvent,
      JWTIDPWriteModel.reduceIDPConfigChangedEvent, JWTIDPWriteModel.reduceJWTConfigAddedEvent,
      JWTIDPWriteModel.reduceJWTConfigChangedEvent, h1, h2, h3, h4, h5, h6, h7, h8, and_self]

/-- A step keeps or overwrites each field. -/
theorem JWT_step_mix (s u t : JWTIDPWriteModel) (e : Event) (h : JWTIDPWriteModel.Mix s u t) :
    JWTIDPWriteModel.Mix (s.reduceEvent e) u (t.reduceEvent e) := by
  obtain ⟨h1, h2, h3, h4, h5, h6, h7, h8⟩ := h
  unfold JWTIDPWriteModel.reduceEvent
  split
  · exact
      ⟨h1, pick_const _ _, pick_const _ _, pick_const _ _, pick_const _ _, pick_const _ _, optionsMix_const _ _, pick_const _ _⟩
  · exact
      ⟨h1, pick_assignIfSet _ h2, pick_assignIfSet _ h3, pick_assignIfSet _ h4, pick_assignIfSet _ h5, pick_assignIfSet _ h6, optionsMix_reduceChanges _ h7, h8⟩
  · exact ⟨h1, h2, h3, h4, h5, h6, h7, pick_const _ _⟩
  · exact ⟨h1, pick_const _ _, h3, h4, h5, h6, optionsMix_autoCreation_const _ h7, pick_const _ _⟩
  · exact ⟨h1, pick_assignIfSet _ h2, h3, h4, h5, h6, optionsMix_autoCreation _ h7, h8⟩
  · exact ⟨h1, h2, pick_const _ _, pick_const _ _, pick_const _ _, pick_const _ _, h7, h8⟩
  · exact
      ⟨h1, h2, pick_assignIfSet _ h3, pick_assignIfSet _ h4, pick_assignIfSet _ h5, pick_assignIfSet _ h6, h7, h8⟩
  · exact ⟨h1, h2, h3, h4, h5, h6, h7, pick_const _ _⟩
  · exact ⟨h1, h2, h3, h4, h5, h6, h7, h8⟩

theorem JWT_mix_base {s t : JWTIDPWriteModel} (h : JWTIDPWriteModel.Mix s s t) :
    JWTIDPWriteModel.SameDomain t s := by
  obtain ⟨h1, h2, h3, h4, h5, h6, h7, h8⟩ := h
  exact
    ⟨h1, pick_base h2, pick_base h3, pick_base h4, pick_base h5, pick_base h6, optionsMix_base h7, pick_base h8⟩

theorem JWT_mix_right (s u : JWTIDPWriteModel) (h : u.ID = s.ID) : JWTIDPWriteModel.Mix s u u :=
 ⟨h, pick_right _ _, pick_right _ _, pick_right _ _, pick_right _ _, pick_right _ _, optionsMix_right _ _, pick_right _ _⟩

/-- On a buffer `L`, `Reduce` returns a model with the domain fields of the fold of `L`. -/
theorem JWT_reduce_events (wm : JWTIDPWriteModel) (L : List Event) :
    ∃ r, JWTIDPWriteModel.Reduce { wm with Events := L } = .ok r ∧
      JWTIDPWriteModel.SameDomain r (L.foldl JWTIDPWriteModel.reduceEvent wm) := by
  obtain ⟨r, hr, hsame⟩ := JWT_reduce_same { wm with Events := L }
  exact ⟨r, hr, JWT_same_trans hsame
    (foldl_rel _ _ JWT_step_same L _ _ (JWT_same_events wm L))⟩

/-- Folding the same events a second time changes no domain field. -/
theorem JWT_fold_idem (wm : JWTIDPWriteModel) (L : List Event) :
    JWTIDPWriteModel.SameDomain (L.foldl JWTIDPWriteModel.reduceEvent (L.foldl JWTIDPWriteModel.reduceEvent wm))
      (L.foldl JWTIDPWriteModel.reduceEvent wm) :=
  foldl_absorb _ JWTIDPWriteModel.Mix _ (fun _ _ h => JWT_mix_base h) JWT_step_mix L wm _
    (JWT_mix_right _ _ (foldl_inv _ (fun s => s.ID) JWT_step_id L wm))

/-- Reducing the changed event that carries the change set of `NewChanges` assigns the
desired values. -/
theorem JWT_roundtrip_step (wm : JWTIDPWriteModel)
    (name issuer jwtEndpoint keysEndpoint headerName : String) (options : Zitadel.Options) :
    let r := wm.reduceChangedEvent
      (JWTIDPChangedEvent.withChanges (differingEntries
        (wm.comparedFields name issuer jwtEndpoint keysEndpoint headerName options)))
   r.Name = name ∧ r.Issuer = issuer ∧ r.JWTEndpoint = jwtEndpoint ∧
      r.KeysEndpoint = keysEndpoint ∧ r.HeaderName = headerName ∧ r.Options = options ∧
      r.ID = wm.ID ∧ r.State = wm.State := by
  intro r
  refine ⟨?_, ?_, ?_, ?_, ?_, ?_, ?_, ?_⟩ <;>
    (simp only [r, JWTIDPWriteModel.reduceChangedEvent, JWTIDPChangedEvent.withChanges,
      JWTIDPWriteModel.comparedFields, differingEntries_cons, differingEntries_nil,
      List.foldl_append, foldl_ite_single, List.foldl_nil, JWTIDPChanges.apply,
      JWTIDPChangedEvent.empty, apply_ite JWTIDPChangedEvent.Name,
      apply_ite JWTIDPChangedEvent.Issuer, apply_ite JWTIDPChangedEvent.JWTEndpoint,
      apply_ite JWTIDPChangedEvent.KeysEndpoint, apply_ite JWTIDPChangedEvent.HeaderName,
      apply_ite JWTIDPChangedEvent.OptionChanges, ite_self, decide_eq_true_eq]
     all_goals first
       | rfl
       | exact assignIfSet_ite _ _
       | exact options_reduceChanges_ite _ _)

/-! ### AzureADIDPWriteModel -/

/-- Closed form of `NewChanges`: the secret entry, then the entries of the compared
fields that differ. -/
theorem AzureAD_newChanges_eq (wm : AzureADIDPWriteModel)
    (name clientID clientSecretString : String) (secretCrypto : Crypto) (scopes : StringSlice)
    (tenant : String) (isEmailVerified : Bool) (options : Zitadel.Options)
    (v : Option CryptoValue)
    (h : clientSecretString = "" ∨ Crypt clientSecretString secretCrypto = .ok v) :
    wm.NewChanges name clientID clientSecretString secretCrypto scopes tenant isEmailVerified
      options
      = .ok (differingEntries ((decide (clientSecretString ≠ ""), .ChangeAzureADClientSecret v) ::
          wm.comparedFields name clientID scopes tenant isEmailVerified options)) := by
  have hz := options_changes_isZero wm.Options options
  simp only [AzureADIDPWriteModel.NewChanges, AzureADIDPWriteModel.comparedFields, bind, Except.bind, pure, Except.pure,
    ite_append_single, hz, differingEntries_cons, differingEntries_nil]
  by_cases hs : clientSecretString = ""
  · simp [hs]
  · have h := h.resolve_left hs
    simp [hs, h]

/-- A change set is returned only if the secret is empty or was encrypted. -/
theorem AzureAD_newChanges_crypt (wm : AzureADIDPWriteModel)
    (name clientID clientSecretString : String) (secretCrypto : Crypto) (scopes : StringSlice)
    (tenant : String) (isEmailVerified : Bool) (options : Zitadel.Options)
    (cs : List AzureADIDPChanges)
    (hcs : wm.NewChanges name clientID clientSecretString secretCrypto scopes tenant
      isEmailVerified options = .ok cs) :
    ∃ v, clientSecretString = "" ∨ Crypt clientSecretString secretCrypto = .ok v := by
  by_cases hs : clientSecretString = ""
  · exact ⟨none, Or.inl hs⟩
  · cases hc : Crypt clientSecretString secretCrypto with
    | ok v => exact ⟨v, Or.inr rfl⟩
    | error err => simp [AzureADIDPWriteModel.NewChanges, hs, hc, bind, Except.bind] at hcs

/-- No two rows of the change set are for the same field. -/
theorem AzureAD_rows_nodup (wm : AzureADIDPWriteModel) (name clientID clientSecretString : String)
    (scopes : StringSlice) (tenant : String) (isEmailVerified : Bool) (options : Zitadel.Options)
    (v : Option CryptoValue) :
    ((((decide (clientSecretString ≠ ""), AzureADIDPChanges.ChangeAzureADClientSecret v) ::
        wm.comparedFields name clientID scopes tenant isEmailVerified options).map
      (fun r => r.2.field))).Nodup := by
  simp [AzureADIDPWriteModel.comparedFields, AzureADIDPChanges.field]

/-- The result of `Reduce`: the folded model, with `ProcessedSequence` advanced by the base. -/
theorem AzureAD_reduce_eq (wm : AzureADIDPWriteModel) :
    wm.Reduce = .ok
      { wm.Events.foldl AzureADIDPWriteModel.reduceEvent wm with
        ProcessedSequence :=
          match (wm.Events.foldl AzureADIDPWriteModel.reduceEvent wm).Events.getLast? with
          | none => (wm.Events.foldl AzureADIDPWriteModel.reduceEvent wm).ProcessedSequence
          | some e => e.Sequence } := by
  cases h : (List.foldl AzureADIDPWriteModel.reduceEvent wm wm.Events).Events.getLast? <;>
    simp only [AzureADIDPWriteModel.Reduce, WriteModel.Reduce, h]

theorem AzureAD_reduce_same (wm : AzureADIDPWriteModel) :
    ∃ r, wm.Reduce = .ok r ∧
      AzureADIDPWriteModel.SameDomain r (wm.Events.foldl AzureADIDPWriteModel.reduceEvent wm) :=
  ⟨_, AzureAD_reduce_eq wm, ⟨rfl, rfl, rfl, rfl, rfl, rfl, rfl, rfl, rfl⟩⟩

theorem AzureAD_same_symm {a b : AzureADIDPWriteModel} (h : AzureADIDPWriteModel.SameDomain a b) :
    AzureADIDPWriteModel.SameDomain b a := by
  obtain ⟨h1, h2, h3, h4, h5, h6, h7, h8, h9⟩ := h
  exact ⟨h1.symm, h2.symm, h3.symm, h4.symm, h5.symm, h6.symm, h7.symm, h8.symm, h9.symm⟩

theorem AzureAD_same_trans {a b c : AzureADIDPWriteModel} (h : AzureADIDPWriteModel.SameDomain a b)
    (g : AzureADIDPWriteModel.SameDomain b c) : AzureADIDPWriteModel.SameDomain a c := by
  obtain ⟨h1, h2, h3, h4, h5, h6, h7, h8, h9⟩ := h
  obtain ⟨g1, g2, g3, g4, g5, g6, g7, g8, g9⟩ := g
  exact
    ⟨h1.trans g1, h2.trans g2, h3.trans g3, h4.trans g4, h5.trans g5, h6.trans g6, h7.trans g7, h8.trans g8, h9.trans g9⟩

/-- Replacing the event buffer changes no domain field. -/
theorem AzureAD_same_events (wm : AzureADIDPWriteModel) (L : List Event) :
    AzureADIDPWriteModel.SameDomain { wm with Events := L } wm :=
  ⟨rfl, rfl, rfl, rfl, rfl, rfl, rfl, rfl, rfl⟩

theorem AzureAD_step_id (wm : AzureADIDPWriteModel) (e : Event) : (wm.reduceEvent e).ID = wm.ID := by
  unfold AzureADIDPWriteModel.reduceEvent
  split <;> rfl

/-- An event of a type the switch does not name is skipped. -/
theorem AzureAD_step_noop (wm : AzureADIDPWriteModel) (e : Event)
    (h : e.goType ∉ AzureADIDPWriteModel.switchTypes) : wm.reduceEvent e = wm := by
  obtain ⟨pkg, seq, agg, payload⟩ := e
  cases pkg <;> cases payload <;>
    first
      | rfl
      | (exfalso; apply h; simp [Event.goType, EventPayload.kind, AzureADIDPWriteModel.switchTypes])

/-- A step reads the domain fields only. -/
theorem AzureAD_step_same (a b : AzureADIDPWriteModel) (e : Event) (h : AzureADIDPWriteModel.SameDomain a b) :
    AzureADIDPWriteModel.SameDomain (a.reduceEvent e) (b.reduceEvent e) := by
  obtain ⟨h1, h2, h3, h4, h5, h6, h7, h8, h9⟩ := h
  unfold AzureADIDPWriteModel.reduceEvent
  split <;>
    simp only [AzureADIDPWriteModel.SameDomain, AzureADIDPWriteModel.reduceAddedEvent,
      AzureADIDPWriteModel.reduceChangedEvent, h1, h2, h3, h4, h5, h6, h7, h8, h9, and_self]

/-- A step keeps or overwrites each field. -/
theorem AzureAD_step_mix (s u t : AzureADIDPWriteModel) (e : Event) (h : AzureADIDPWriteModel.Mix s u t) :
    AzureADIDPWriteModel.Mix (s.reduceEvent e) u (t.reduceEvent e) := by
  obtain ⟨h1, h2, h3, h4, h5, h6, h7, h8, h9⟩ := h
  unfold AzureADIDPWriteModel.reduceEvent
  split
  · exact
      ⟨h1, pick_const _ _, pick_const _ _, pick_const _ _, pick_const _ _, pick_const _ _, pick_const _ _, optionsMix_const _ _, pick_const _ _⟩
  · exact
      ⟨h1, pick_const _ _, pick_const _ _, pick_const _ _, pick_const _ _, pick_const _ _, pick_const _ _, optionsMix_const _ _, pick_const _ _⟩
  · exact
      ⟨h1, pick_assignIfSet _ h2, pick_assignIfSet _ h3, pick_assignIfNonNil _ h4, pick_assignIfNonNil _ h5, pick_assignIfSet _ h6, pick_assignIfSet _ h7, optionsMix_reduceChanges _ h8, h9⟩
  · exact ⟨h1, h2, h3, h4, h5, h6, h7, h8, pick_const _ _⟩
  · exact ⟨h1, h2, h3, h4, h5, h6, h7, h8, h9⟩

theorem AzureAD_mix_base {s t : AzureADIDPWriteModel} (h : AzureADIDPWriteModel.Mix s s t) :
    AzureADIDPWriteModel.SameDomain t s := by
  obtain ⟨h1, h2, h3, h4, h5, h6, h7, h8, h9⟩ := h
  exact
    ⟨h1, pick_base h2, pick_base h3, pick_base h4, pick_base h5, pick_base h6, pick_base h7, optionsMix_base h8, pick_base h9⟩

theorem AzureAD_mix_right (s u : AzureADIDPWriteModel) (h : u.ID = s.ID) : AzureADIDPWriteModel.Mix s u u :=
 ⟨h, pick_right _ _, pick_right _ _, pick_right _ _, pick_right _ _, pick_right _ _, pick_right _ _, optionsMix_right _ _, pick_right _ _⟩

/-- On a buffer `L`, `Reduce` returns a model with the domain fields of the fold of `L`. -/
theorem AzureAD_reduce_events (wm : AzureADIDPWriteModel) (L : List Event) :
    ∃ r, AzureADIDPWriteModel.Reduce { wm with Events := L } = .ok r ∧
      AzureADIDPWriteModel.SameDomain r (L.foldl AzureADIDPWriteModel.reduceEvent wm) := by
  obtain ⟨r, hr, hsame⟩ := AzureAD_reduce_same { wm with Events := L }
  exact ⟨r, hr, AzureAD_same_trans hsame
    (foldl_rel _ _ AzureAD_step_same L _ _ (AzureAD_same_events wm L))⟩

/-- Folding the same events a second time changes no domain field. -/
theorem AzureAD_fold_idem (wm : AzureADIDPWriteModel) (L : List Event) :
    AzureADIDPWriteModel.SameDomain (L.foldl AzureADIDPWriteModel.reduceEvent (L.foldl AzureADIDPWriteModel.reduceEvent wm))
      (L.foldl AzureADIDPWriteModel.reduceEvent wm) :=
  foldl_absorb _ AzureADIDPWriteModel.Mix _ (fun _ _ h => AzureAD_mix_base h) AzureAD_step_mix L wm _
    (AzureAD_mix_right _ _ (foldl_inv _ (fun s => s.ID) AzureAD_step_id L wm))

/-- Reducing the changed event that carries the change set of `NewChanges` assigns the
desired values. -/
theorem AzureAD_roundtrip_step (wm : AzureADIDPWriteModel)
    (name clientID clientSecretString : String) (scopes : StringSlice) (tenant : String)
    (isEmailVerified : Bool) (options : Zitadel.Options) (v : Option CryptoValue)
    (hScopes : scopes ≠ none ∨ scopes = wm.Scopes) :
    let r := wm.reduceChangedEvent
      (AzureADIDPChangedEvent.withChanges (differingEntries
        ((decide (clientSecretString ≠ ""), .ChangeAzureADClientSecret v) ::
          wm.comparedFields name clientID scopes tenant isEmailVerified options)))
   r.Name = name ∧ r.ClientID = clientID ∧ r.Scopes = scopes ∧ r.Tenant = tenant ∧
      r.IsEmailVerified = isEmailVerified ∧ r.Options = options ∧ r.ID = wm.ID ∧
      r.State = wm.State := by
  intro r
  refine ⟨?_, ?_, ?_, ?_, ?_, ?_, ?_, ?_⟩ <;>
    (simp only [r, AzureADIDPWriteModel.reduceChangedEvent, AzureADIDPChangedEvent.withChanges,
      AzureADIDPWriteModel.comparedFields, differingEntries_cons, differingEntries_nil,
      List.foldl_append, foldl_ite_single, List.foldl_nil, AzureADIDPChanges.apply,
      AzureADIDPChangedEvent.empty, apply_ite AzureADIDPChangedEvent.Name,
      apply_ite AzureADIDPChangedEvent.ClientID, apply_ite AzureADIDPChangedEvent.ClientSecret,
      apply_ite AzureADIDPChangedEvent.Scopes, apply_ite AzureADIDPChangedEvent.Tenant,
      apply_ite AzureADIDPChangedEvent.IsEmailVerified,
      apply_ite AzureADIDPChangedEvent.OptionChanges, ite_self, decide_eq_true_eq]
     all_goals first
       | rfl
       | exact assignIfSet_ite _ _
       | exact options_reduceChanges_ite _ _
       | exact assignIfNonNil_ite _ _ hScopes)

/-! ### GitHubIDPWriteModel -/

/-- Closed form of `NewChanges`: the secret entry, then the entries of the compared
fields that differ. -/
theorem GitHub_newChanges_eq (wm : GitHubIDPWriteModel)
    (name clientID clientSecretString : String) (secretCrypto : Crypto) (scopes : StringSlice)
    (options : Zitadel.Options) (v : Option CryptoValue)
    (h : clientSecretString = "" ∨ Crypt clientSecretString secretCrypto = .ok v) :
    wm.NewChanges name clientID clientSecretString secretCrypto scopes options
      = .ok (differingEntries ((decide (clientSecretString ≠ ""), .ChangeGitHubClientSecret v) ::
          wm.comparedFields name clientID scopes options)) := by
  have hz := options_changes_isZero wm.Options options
  simp only [GitHubIDPWriteModel.NewChanges, GitHubIDPWriteModel.comparedFields, bind, Except.bind, pure, Except.pure,
    ite_append_single, hz, differingEntries_cons, differingEntries_nil]
  by_cases hs : clientSecretString = ""
  · simp [hs]
  · have h := h.resolve_left hs
    simp [hs, h]

/-- A change set is returned only if the secret is empty or was encrypted. -/
theorem GitHub_newChanges_crypt (wm : GitHubIDPWriteModel)
    (name clientID clientSecretString : String) (secretCrypto : Crypto) (scopes : StringSlice)
    (options : Zitadel.Options) (cs : List GitHubIDPChanges)
    (hcs : wm.NewChanges name clientID clientSecretString secretCrypto scopes options = .ok cs) :
    ∃ v, clientSecretString = "" ∨ Crypt clientSecretString secretCrypto = .ok v := by
  by_cases hs : clientSecretString = ""
  · exact ⟨none, Or.inl hs⟩
  · cases hc : Crypt clientSecretString secretCrypto with
    | ok v => exact ⟨v, Or.inr rfl⟩
    | error err => simp [GitHubIDPWriteModel.NewChanges, hs, hc, bind, Except.bind] at hcs

/-- No two rows of the change set are for the same field. -/
theorem GitHub_rows_nodup (wm : GitHubIDPWriteModel) (name clientID clientSecretString : String)
    (scopes : StringSlice) (options : Zitadel.Options) (v : Option CryptoValue) :
    ((((decide (clientSecretString ≠ ""), GitHubIDPChanges.ChangeGitHubClientSecret v) ::
        wm.comparedFields name clientID scopes options).map
      (fun r => r.2.field))).Nodup := by
  simp [GitHubIDPWriteModel.comparedFields, GitHubIDPChanges.field]

/-- The result of `Reduce`: the folded model, with `ProcessedSequence` advanced by the base. -/
theorem GitHub_reduce_eq (wm : GitHubIDPWriteModel) :
    wm.Reduce = .ok
      { wm.Events.foldl GitHubIDPWriteModel.reduceEvent wm with
        ProcessedSequence :=
          match (wm.Events.foldl GitHubIDPWriteModel.reduceEvent wm).Events.getLast? with
          | none => (wm.Events.foldl GitHubIDPWriteModel.reduceEvent wm).ProcessedSequence
          | some e => e.Sequence } := by
  cases h : (List.foldl GitHubIDPWriteModel.reduceEvent wm wm.Events).Events.getLast? <;>
    simp only [GitHubIDPWriteModel.Reduce, WriteModel.Reduce, h]

theorem GitHub_reduce_same (wm : GitHubIDPWriteModel) :
    ∃ r, wm.Reduce = .ok r ∧
      GitHubIDPWriteModel.SameDomain r (wm.Events.foldl GitHubIDPWriteModel.reduceEvent wm) :=
  ⟨_, GitHub_reduce_eq wm, ⟨rfl, rfl, rfl, rfl, rfl, rfl, rfl⟩⟩

theorem GitHub_same_symm {a b : GitHubIDPWriteModel} (h : GitHubIDPWriteModel.SameDomain a b) :
    GitHubIDPWriteModel.SameDomain b a := by
  obtain ⟨h1, h2, h3, h4, h5, h6, h7⟩ := h
  exact ⟨h1.symm, h2.symm, h3.symm, h4.symm, h5.symm, h6.symm, h7.symm⟩

theorem GitHub_same_trans {a b c : GitHubIDPWriteModel} (h : GitHubIDPWriteModel.SameDomain a b)
    (g : GitHubIDPWriteModel.SameDomain b c) : GitHubIDPWriteModel.SameDomain a c := by
  obtain ⟨h1, h2, h3, h4, h5, h6, h7⟩ := h
  obtain ⟨g1, g2, g3, g4, g5, g6, g7⟩ := g
  exact
    ⟨h1.trans g1, h2.trans g2, h3.trans g3, h4.trans g4, h5.trans g5, h6.trans g6, h7.trans g7⟩

/-- Replacing the event buffer changes no domain field. -/
theorem GitHub_same_events (wm : GitHubIDPWriteModel) (L : List Event) :
    GitHubIDPWriteModel.SameDomain { wm with Events := L } wm :=
  ⟨rfl, rfl, rfl, rfl, rfl, rfl, rfl⟩

theorem GitHub_step_id (wm : GitHubIDPWriteModel) (e : Event) : (wm.reduceEvent e).ID = wm.ID := by
  unfold GitHubIDPWriteModel.reduceEvent
  split <;> rfl

/-- An event of a type the switch does not name is skipped. -/
theorem GitHub_step_noop (wm : GitHubIDPWriteModel) (e : Event)
    (h : e.goType ∉ GitHubIDPWriteModel.switchTypes) : wm.reduceEvent e = wm := by
  obtain ⟨pkg, seq, agg, payload⟩ := e
  cases pkg <;> cases payload <;>
    first
      | rfl
      | (exfalso; apply h; simp [Event.goType, EventPayload.kind, GitHubIDPWriteModel.switchTypes])

/-- A step reads the domain fields only. -/
theorem GitHub_step_same (a b : GitHubIDPWriteModel) (e : Event) (h : GitHubIDPWriteModel.SameDomain a b) :
    GitHubIDPWriteModel.SameDomain (a.reduceEvent e) (b.reduceEvent e) := by
  obtain ⟨h1, h2, h3, h4, h5, h6, h7⟩ := h
  unfold GitHubIDPWriteModel.reduceEvent
  split <;>
    simp only [GitHubIDPWriteModel.SameDomain, GitHubIDPWriteModel.reduceAddedEvent,
      GitHubIDPWriteModel.reduceChangedEvent, h1, h2, h3, h4, h5, h6, h7, and_self]

/-- A step keeps or overwrites each field. -/
theorem GitHub_step_mix (s u t : GitHubIDPWriteModel) (e : Event) (h : GitHubIDPWriteModel.Mix s u t) :
    GitHubIDPWriteModel.Mix (s.reduceEvent e) u (t.reduceEvent e) := by
  obtain ⟨h1, h2, h3, h4, h5, h6, h7⟩ := h
  unfold GitHubIDPWriteModel.reduceEvent
  split
  · exact
      ⟨h1, pick_const _ _, pick_const _ _, pick_const _ _, pick_const _ _, optionsMix_const _ _, pick_const _ _⟩
  · exact
      ⟨h1, pick_assignIfSet _ h2, pick_assignIfSet _ h3, pick_assignIfNonNil _ h4, pick_assignIfNonNil _ h5, optionsMix_reduceChanges _ h6, h7⟩
  · exact ⟨h1, h2, h3, h4, h5, h6, pick_const _ _⟩
  · exact ⟨h1, h2, h3, h4, h5, h6, h7⟩

theorem GitHub_mix_base {s t : GitHubIDPWriteModel} (h : GitHubIDPWriteModel.Mix s s t) :
    GitHubIDPWriteModel.SameDomain t s := by
  obtain ⟨h1, h2, h3, h4, h5, h6, h7⟩ := h
  exact
    ⟨h1, pick_base h2, pick_base h3, pick_base h4, pick_base h5, optionsMix_base h6, pick_base h7⟩

theorem GitHub_mix_right (s u : GitHubIDPWriteModel) (h : u.ID = s.ID) : GitHubIDPWriteModel.Mix s u u :=
 ⟨h, pick_right _ _, pick_right _ _, pick_right _ _, pick_right _ _, optionsMix_right _ _, pick_right _ _⟩

/-- On a buffer `L`, `Reduce` returns a model with the domain fields of the fold of `L`. -/
theorem GitHub_reduce_events (wm : GitHubIDPWriteModel) (L : List Event) :
    ∃ r, GitHubIDPWriteModel.Reduce { wm with Events := L } = .ok r ∧
      GitHubIDPWriteModel.SameDomain r (L.foldl GitHubIDPWriteModel.reduceEvent wm) := by
  obtain ⟨r, hr, hsame⟩ := GitHub_reduce_same { wm with Events := L }
  exact ⟨r, hr, GitHub_same_trans hsame
    (foldl_rel _ _ GitHub_step_same L _ _ (GitHub_same_events wm L))⟩

/-- Folding the same events a second time changes no domain field. -/
theorem GitHub_fold_idem (wm : GitHubIDPWriteModel) (L : List Event) :
    GitHubIDPWriteModel.SameDomain (L.foldl GitHubIDPWriteModel.reduceEvent (L.foldl GitHubIDPWriteModel.reduceEvent wm))
      (L.foldl GitHubIDPWriteModel.reduceEvent wm) :=
  foldl_absorb _ GitHubIDPWriteModel.Mix _ (fun _ _ h => GitHub_mix_base h) GitHub_step_mix L wm _
    (GitHub_mix_right _ _ (foldl_inv _ (fun s => s.ID) GitHub_step_id L wm))

/-- Reducing the changed event that carries the change set of `NewChanges` assigns the
desired values. -/
theorem GitHub_roundtrip_step (wm : GitHubIDPWriteModel)
    (name clientID clientSecretString : String) (scopes : StringSlice) (options : Zitadel.Options)
    (v : Option CryptoValue)
    (hScopes : scopes ≠ none ∨ scopes = wm.Scopes) :
    let r := wm.reduceChangedEvent
      (GitHubIDPChangedEvent.withChanges (differingEntries
        ((decide (clientSecretString ≠ ""), .ChangeGitHubClientSecret v) ::
          wm.comparedFields name clientID scopes options)))
   r.Name = name ∧ r.ClientID = clientID ∧ r.Scopes = scopes ∧ r.Options = options ∧
      r.ID = wm.ID ∧ r.State = wm.State := by
  intro r
  refine ⟨?_, ?_, ?_, ?_, ?_, ?_⟩ <;>
    (simp only [r, GitHubIDPWriteModel.reduceChangedEvent, GitHubIDPChangedEvent.withChanges,
      GitHubIDPWriteModel.comparedFields, differingEntries_cons, differingEntries_nil,
      List.foldl_append, foldl_ite_single, List.foldl_nil, GitHubIDPChanges.apply,
      GitHubIDPChangedEvent.empty, apply_ite GitHubIDPChangedEvent.Name,
      apply_ite GitHubIDPChangedEvent.ClientID, apply_ite GitHubIDPChangedEvent.ClientSecret,
      apply_ite GitHubIDPChangedEvent.Scopes, apply_ite GitHubIDPChangedEvent.OptionChanges,
      ite_self, decide_eq_true_eq]
     all_goals first
       | rfl
       | exact assignIfSet_ite _ _
       | exact options_reduceChanges_ite _ _
       | exact assignIfNonNil_ite _ _ hScopes)

/-! ### GitHubEnterpriseIDPWriteModel -/

/-- Closed form of `NewChanges`: the secret entry, then the entries of the compared
fields that differ. -/
theorem GitHubEnterprise_newChanges_eq (wm : GitHubEnterpriseIDPWriteModel)
    (name clientID clientSecretString : String) (secretCrypto : Crypto)
    (authorizationEndpoint tokenEndpoint userEndpoint : String) (scopes : StringSlice)
    (options : Zitadel.Options) (v : Option CryptoValue)
    (h : clientSecretString = "" ∨ Crypt clientSecretString secretCrypto = .ok v) :
    wm.NewChanges name clientID clientSecretString secretCrypto authorizationEndpoint
      tokenEndpoint userEndpoint scopes options
      = .ok (differingEntries ((decide (clientSecretString ≠ ""), .ChangeGitHubEnterpriseClientSecret v) ::
          wm.comparedFields name clientID authorizationEndpoint tokenEndpoint userEndpoint scopes
            options)) := by
  have hz := options_changes_isZero wm.Options options
  simp only [GitHubEnterpriseIDPWriteModel.NewChanges, GitHubEnterpriseIDPWriteModel.comparedFields, bind, Except.bind, pure, Except.pure,
    ite_append_single, hz, differingEntries_cons, differingEntries_nil]
  by_cases hs : clientSecretString = ""
  · simp [hs]
  · have h := h.resolve_left hs
    simp [hs, h]

/-- A change set is returned only if the secret is empty or was encrypted. -/
theorem GitHubEnterprise_newChanges_crypt (wm : GitHubEnterpriseIDPWriteModel)
    (name clientID clientSecretString : String) (secretCrypto : Crypto)
    (authorizationEndpoint tokenEndpoint userEndpoint : String) (scopes : StringSlice)
    (options : Zitadel.Options) (cs : List GitHubEnterpriseIDPChanges)
    (hcs : wm.NewChanges name clientID clientSecretString secretCrypto authorizationEndpoint
      tokenEndpoint userEndpoint scopes options = .ok cs) :
    ∃ v, clientSecretString = "" ∨ Crypt clientSecretString secretCrypto = .ok v := by
  by_cases hs : clientSecretString = ""
  · exact ⟨none, Or.inl hs⟩
  · cases hc : Crypt clientSecretString secretCrypto with
    | ok v => exact ⟨v, Or.inr rfl⟩
    | error err => simp [GitHubEnterpriseIDPWriteModel.NewChanges, hs, hc, bind, Except.bind] at hcs

/-- No two rows of the change set are for the same field. -/
theorem GitHubEnterprise_rows_nodup (wm : GitHubEnterpriseIDPWriteModel)
    (name clientID clientSecretString : String)
    (authorizationEndpoint tokenEndpoint userEndpoint : String) (scopes : StringSlice)
    (options : Zitadel.Options) (v : Option CryptoValue) :
    ((((decide (clientSecretString ≠ ""), GitHubEnterpriseIDPChanges.ChangeGitHubEnterpriseClientSecret v) ::
        wm.comparedFields name clientID authorizationEndpoint tokenEndpoint userEndpoint scopes
          options).map
      (fun r => r.2.field))).Nodup := by
  simp [GitHubEnterpriseIDPWriteModel.comparedFields, GitHubEnterpriseIDPChanges.field]

/-- The result of `Reduce`: the folded model, with `ProcessedSequence` advanced by the base. -/
theorem GitHubEnterprise_reduce_eq (wm : GitHubEnterpriseIDPWriteModel) :
    wm.Reduce = .ok
      { wm.Events.foldl GitHubEnterpriseIDPWriteModel.reduceEvent wm with
        ProcessedSequence :=
          match (wm.Events.foldl GitHubEnterpriseIDPWriteModel.reduceEvent wm).Events.getLast? with
          | none => (wm.Events.foldl GitHubEnterpriseIDPWriteModel.reduceEvent wm).ProcessedSequence
          | some e => e.Sequence } := by
  cases h : (List.foldl GitHubEnterpriseIDPWriteModel.reduceEvent wm wm.Events).Events.getLast? <;>
    simp only [GitHubEnterpriseIDPWriteModel.Reduce, WriteModel.Reduce, h]

theorem GitHubEnterprise_reduce_same (wm : GitHubEnterpriseIDPWriteModel) :
    ∃ r, wm.Reduce = .ok r ∧
      GitHubEnterpriseIDPWriteModel.SameDomain r (wm.Events.foldl GitHubEnterpriseIDPWriteModel.reduceEvent wm) :=
  ⟨_, GitHubEnterprise_reduce_eq wm, ⟨rfl, rfl, rfl, rfl, rfl, rfl, rfl, rfl, rfl, rfl⟩⟩

theorem GitHubEnterprise_same_symm {a b : GitHubEnterpriseIDPWriteModel} (h : GitHubEnterpriseIDPWriteModel.SameDomain a b) :
    GitHubEnterpriseIDPWriteModel.SameDomain b a := by
  obtain ⟨h1, h2, h3, h4, h5, h6, h7, h8, h9, h10⟩ := h
  exact
    ⟨h1.symm, h2.symm, h3.symm, h4.symm, h5.symm, h6.symm, h7.symm, h8.symm, h9.symm, h10.symm⟩

theorem GitHubEnterprise_same_trans {a b c : GitHubEnterpriseIDPWriteModel} (h : GitHubEnterpriseIDPWriteModel.SameDomain a b)
    (g : GitHubEnterpriseIDPWriteModel.SameDomain b c) : GitHubEnterpriseIDPWriteModel.SameDomain a c := by
  obtain ⟨h1, h2, h3, h4, h5, h6, h7, h8, h9, h10⟩ := h
  obtain ⟨g1, g2, g3, g4, g5, g6, g7, g8, g9, g10⟩ := g
  exact
    ⟨h1.trans g1, h2.trans g2, h3.trans g3, h4.trans g4, h5.trans g5, h6.trans g6, h7.trans g7, h8.trans g8, h9.trans g9, h10.trans g10⟩

/-- Replacing the event buffer changes no domain field. -/
theorem GitHubEnterprise_same_events (wm : GitHubEnterpriseIDPWriteModel) (L : List Event) :
    GitHubEnterpriseIDPWriteModel.SameDomain { wm with Events := L } wm :=
  ⟨rfl, rfl, rfl, rfl, rfl, rfl, rfl, rfl, rfl, rfl⟩

theorem GitHubEnterprise_step_id (wm : GitHubEnterpriseIDPWriteModel) (e : Event) : (wm.reduceEvent e).ID = wm.ID := by
  unfold GitHubEnterpriseIDPWriteModel.reduceEvent
  split <;> rfl

/-- An event of a type the switch does not name is skipped. -/
theorem GitHubEnterprise_step_noop (wm : GitHubEnterpriseIDPWriteModel) (e : Event)
    (h : e.goType ∉ GitHubEnterpriseIDPWriteModel.switchTypes) : wm.reduceEvent e = wm := by
  obtain ⟨pkg, seq, agg, payload⟩ := e
  cases pkg <;> cases payload <;>
    first
      | rfl
      | (exfalso; apply h; simp [Event.goType, EventPayload.kind, GitHubEnterpriseIDPWriteModel.switchTypes])

/-- A step reads the domain fields only. -/
theorem GitHubEnterprise_step_same (a b : GitHubEnterpriseIDPWriteModel) (e : Event) (h : GitHubEnterpriseIDPWriteModel.SameDomain a b) :
    GitHubEnterpriseIDPWriteModel.SameDomain (a.reduceEvent e) (b.reduceEvent e) := by
  obtain ⟨h1, h2, h3, h4, h5, h6, h7, h8, h9, h10⟩ := h
  unfold GitHubEnterpriseIDPWriteModel.reduceEvent
  split <;>
    simp only [GitHubEnterpriseIDPWriteModel.SameDomain,
      GitHubEnterpriseIDPWriteModel.reduceAddedEvent,
      GitHubEnterpriseIDPWriteModel.reduceChangedEvent, h1, h2, h3, h4, h5, h6, h7, h8, h9, h10,
      and_self]

/-- A step keeps or overwrites each field. -/
theorem GitHubEnterprise_step_mix (s u t : GitHubEnterpriseIDPWriteModel) (e : Event) (h : GitHubEnterpriseIDPWriteModel.Mix s u t) :
    GitHubEnterpriseIDPWriteModel.Mix (s.reduceEvent e) u (t.reduceEvent e) := by
  obtain ⟨h1, h2, h3, h4, h5, h6, h7, h8, h9, h10⟩ := h
  unfold GitHubEnterpriseIDPWriteModel.reduceEvent
  split
  · exact
      ⟨h1, pick_const _ _, pick_const _ _, pick_const _ _, pick_const _ _, pick_const _ _, pick_const _ _, pick_const _ _, optionsMix_const _ _, pick_const _ _⟩
  · exact
      ⟨h1, pick_assignIfSet _ h2, pick_assignIfSet _ h3, pick_assignIfNonNil _ h4, pick_assignIfSet _ h5, pick_assignIfSet _ h6, pick_assignIfSet _ h7, pick_assignIfNonNil _ h8, optionsMix_reduceChanges _ h9, h10⟩
  · exact ⟨h1, h2, h3, h4, h5, h6, h7, h8, h9, pick_const _ _⟩
  · exact ⟨h1, h2, h3, h4, h5, h6, h7, h8, h9, h10⟩

theorem GitHubEnterprise_mix_base {s t : GitHubEnterpriseIDPWriteModel} (h : GitHubEnterpriseIDPWriteModel.Mix s s t) :
    GitHubEnterpriseIDPWriteModel.SameDomain t s := by
  obtain ⟨h1, h2, h3, h4, h5, h6, h7, h8, h9, h10⟩ := h
  exact
    ⟨h1, pick_base h2, pick_base h3, pick_base h4, pick_base h5, pick_base h6, pick_base h7, pick_base h8, optionsMix_base h9, pick_base h10⟩

theorem GitHubEnterprise_mix_right (s u : GitHubEnterpriseIDPWriteModel) (h : u.ID = s.ID) : GitHubEnterpriseIDPWriteModel.Mix s u u :=
 ⟨h, pick_right _ _, pick_right _ _, pick_right _ _, pick_right _ _, pick_right _ _, pick_right _ _, pick_right _ _, optionsMix_right _ _, pick_right _ _⟩

/-- On a buffer `L`, `Reduce` returns a model with the domain fields of the fold of `L`. -/
theorem GitHubEnterprise_reduce_events (wm : GitHubEnterpriseIDPWriteModel) (L : List Event) :
    ∃ r, GitHubEnterpriseIDPWriteModel.Reduce { wm with Events := L } = .ok r ∧
      GitHubEnterpriseIDPWriteModel.SameDomain r (L.foldl GitHubEnterpriseIDPWriteModel.reduceEvent wm) := by
  obtain ⟨r, hr, hsame⟩ := GitHubEnterprise_reduce_same { wm with Events := L }
  exact ⟨r, hr, GitHubEnterprise_same_trans hsame
    (foldl_rel _ _ GitHubEnterprise_step_same L _ _ (GitHubEnterprise_same_events wm L))⟩

/-- Folding the same events a second time changes no domain field. -/
theorem GitHubEnterprise_fold_idem (wm : GitHubEnterpriseIDPWriteModel) (L : List Event) :
    GitHubEnterpriseIDPWriteModel.SameDomain (L.foldl GitHubEnterpriseIDPWriteModel.reduceEvent (L.foldl GitHubEnterpriseIDPWriteModel.reduceEvent wm))
      (L.foldl GitHubEnterpriseIDPWriteModel.reduceEvent wm) :=
  foldl_absorb _ GitHubEnterpriseIDPWriteModel.Mix _ (fun _ _ h => GitHubEnterprise_mix_base h) GitHubEnterprise_step_mix L wm _
    (GitHubEnterprise_mix_right _ _ (foldl_inv _ (fun s => s.ID) GitHubEnterprise_step_id L wm))

/-- Reducing the changed event that carries the change set of `NewChanges` assigns the
desired values. -/
theorem GitHubEnterprise_roundtrip_step (wm : GitHubEnterpriseIDPWriteModel)
    (name clientID clientSecretString : String)
    (authorizationEndpoint tokenEndpoint userEndpoint : String) (scopes : StringSlice)
    (options : Zitadel.Options) (v : Option CryptoValue)
    (hScopes : scopes ≠ none ∨ scopes = wm.Scopes) :
    let r := wm.reduceChangedEvent
      (GitHubEnterpriseIDPChangedEvent.withChanges (differingEntries
        ((decide (clientSecretString ≠ ""), .ChangeGitHubEnterpriseClientSecret v) ::
          wm.comparedFields name clientID authorizationEndpoint tokenEndpoint userEndpoint scopes options)))
   r.Name = name ∧ r.ClientID = clientID ∧ r.AuthorizationEndpoint = authorizationEndpoint ∧
      r.TokenEndpoint = tokenEndpoint ∧ r.UserEndpoint = userEndpoint ∧ r.Scopes = scopes ∧
      r.Options = options ∧ r.ID = wm.ID ∧ r.State = wm.State := by
  intro r
  refine ⟨?_, ?_, ?_, ?_, ?_, ?_, ?_, ?_, ?_⟩ <;>
    (simp only [r, GitHubEnterpriseIDPWriteModel.reduceChangedEvent,
      GitHubEnterpriseIDPChangedEvent.withChanges, GitHubEnterpriseIDPWriteModel.comparedFields,
      differingEntries_cons, differingEntries_nil, List.foldl_append, foldl_ite_single,
      List.foldl_nil, GitHubEnterpriseIDPChanges.apply, GitHubEnterpriseIDPChangedEvent.empty,
      apply_ite GitHubEnterpriseIDPChangedEvent.Name,
      apply_ite GitHubEnterpriseIDPChangedEvent.ClientID,
      apply_ite GitHubEnterpriseIDPChangedEvent.ClientSecret,
      apply_ite GitHubEnterpriseIDPChangedEvent.AuthorizationEndpoint,
      apply_ite GitHubEnterpriseIDPChangedEvent.TokenEndpoint,
      apply_ite GitHubEnterpriseIDPChangedEvent.UserEndpoint,
      apply_ite GitHubEnterpriseIDPChangedEvent.Scopes,
      apply_ite GitHubEnterpriseIDPChangedEvent.OptionChanges, ite_self, decide_eq_true_eq]
     all_goals first
       | rfl
       | exact assignIfSet_ite _ _
       | exact options_reduceChanges_ite _ _
       | exact assignIfNonNil_ite _ _ hScopes)

/-! ### GitLabIDPWriteModel -/

/-- Closed form of `NewChanges`: the secret entry, then the entries of the compared
fields that differ. -/
theorem GitLab_newChanges_eq (wm : GitLabIDPWriteModel)
    (name clientID clientSecretString : String) (secretCrypto : Crypto) (scopes : StringSlice)
    (options : Zitadel.Options) (v : Option CryptoValue)
    (h : clientSecretString = "" ∨ Crypt clientSecretString secretCrypto = .ok v) :
    wm.NewChanges name clientID clientSecretString secretCrypto scopes options
      = .ok (differingEntries ((decide (clientSecretString ≠ ""), .ChangeGitLabClientSecret v) ::
          wm.comparedFields name clientID scopes options)) := by
  have hz := options_changes_isZero wm.Options options
  simp only [GitLabIDPWriteModel.NewChanges, GitLabIDPWriteModel.comparedFields, bind, Except.bind, pure, Except.pure,
    ite_append_single, hz, differingEntries_cons, differingEntries_nil]
  by_cases hs : clientSecretString = ""
  · simp [hs]
  · have h := h.resolve_left hs
    simp [hs, h]

/-- A change set is returned only if the secret is empty or was encrypted. -/
theorem GitLab_newChanges_crypt (wm : GitLabIDPWriteModel)
    (name clientID clientSecretString : String) (secretCrypto : Crypto) (scopes : StringSlice)
    (options : Zitadel.Options) (cs : List GitLabIDPChanges)
    (hcs : wm.NewChanges name clientID clientSecretString secretCrypto scopes options = .ok cs) :
    ∃ v, clientSecretString = "" ∨ Crypt clientSecretString secretCrypto = .ok v := by
  by_cases hs : clientSecretString = ""
  · exact ⟨none, Or.inl hs⟩
  · cases hc : Crypt clientSecretString secretCrypto with
    | ok v => exact ⟨v, Or.inr rfl⟩
    | error err => simp [GitLabIDPWriteModel.NewChanges, hs, hc, bind, Except.bind] at hcs

/-- No two rows of the change set are for the same field. -/
theorem GitLab_rows_nodup (wm : GitLabIDPWriteModel) (name clientID clientSecretString : String)
    (scopes : StringSlice) (options : Zitadel.Options) (v : Option CryptoValue) :
    ((((decide (clientSecretString ≠ ""), GitLabIDPChanges.ChangeGitLabClientSecret v) ::
        wm.comparedFields name clientID scopes options).map
      (fun r => r.2.field))).Nodup := by
  simp [GitLabIDPWriteModel.comparedFields, GitLabIDPChanges.field]

/-- The result of `Reduce`: the folded model, with `ProcessedSequence` advanced by the base. -/
theorem GitLab_reduce_eq (wm : GitLabIDPWriteModel) :
    wm.Reduce = .ok
      { wm.Events.foldl GitLabIDPWriteModel.reduceEvent wm with
        ProcessedSequence :=
          match (wm.Events.foldl GitLabIDPWriteModel.reduceEvent wm).Events.getLast? with
          | none => (wm.Events.foldl GitLabIDPWriteModel.reduceEvent wm).ProcessedSequence
          | some e => e.Sequence } := by
  cases h : (List.foldl GitLabIDPWriteModel.reduceEvent wm wm.Events).Events.getLast? <;>
    simp only [GitLabIDPWriteModel.Reduce, WriteModel.Reduce, h]

theorem GitLab_reduce_same (wm : GitLabIDPWriteModel) :
    ∃ r, wm.Reduce = .ok r ∧
      GitLabIDPWriteModel.SameDomain r (wm.Events.foldl GitLabIDPWriteModel.reduceEvent wm) :=
  ⟨_, GitLab_reduce_eq wm, ⟨rfl, rfl, rfl, rfl, rfl, rfl, rfl⟩⟩

theorem GitLab_same_symm {a b : GitLabIDPWriteModel} (h : GitLabIDPWriteModel.SameDomain a b) :
    GitLabIDPWriteModel.SameDomain b a := by
  obtain ⟨h1, h2, h3, h4, h5, h6, h7⟩ := h
  exact ⟨h1.symm, h2.symm, h3.symm, h4.symm, h5.symm, h6.symm, h7.symm⟩

theorem GitLab_same_trans {a b c : GitLabIDPWriteModel} (h : GitLabIDPWriteModel.SameDomain a b)
    (g : GitLabIDPWriteModel.SameDomain b c) : GitLabIDPWriteModel.SameDomain a c := by
  obtain ⟨h1, h2, h3, h4, h5, h6, h7⟩ := h
  obtain ⟨g1, g2, g3, g4, g5, g6, g7⟩ := g
  exact
    ⟨h1.trans g1, h2.trans g2, h3.trans g3, h4.trans g4, h5.trans g5, h6.trans g6, h7.trans g7⟩

/-- Replacing the event buffer changes no domain field. -/
theorem GitLab_same_events (wm : GitLabIDPWriteModel) (L : List Event) :
    GitLabIDPWriteModel.SameDomain { wm with Events := L } wm :=
  ⟨rfl, rfl, rfl, rfl, rfl, rfl, rfl⟩

theorem GitLab_step_id (wm : GitLabIDPWriteModel) (e : Event) : (wm.reduceEvent e).ID = wm.ID := by
  unfold GitLabIDPWriteModel.reduceEvent
  split <;> rfl

/-- An event of a type the switch does not name is skipped. -/
theorem GitLab_step_noop (wm : GitLabIDPWriteModel) (e : Event)
    (h : e.goType ∉ GitLabIDPWriteModel.switchTypes) : wm.reduceEvent e = wm := by
  obtain ⟨pkg, seq, agg, payload⟩ := e
  cases pkg <;> cases payload <;>
    first
      | rfl
      | (exfalso; apply h; simp [Event.goType, EventPayload.kind, GitLabIDPWriteModel.switchTypes])

/-- A step reads the domain fields only. -/
theorem GitLab_step_same (a b : GitLabIDPWriteModel) (e : Event) (h : GitLabIDPWriteModel.SameDomain a b) :
    GitLabIDPWriteModel.SameDomain (a.reduceEvent e) (b.reduceEvent e) := by
  obtain ⟨h1, h2, h3, h4, h5, h6, h7⟩ := h
  unfold GitLabIDPWriteModel.reduceEvent
  split <;>
    simp only [GitLabIDPWriteModel.SameDomain, GitLabIDPWriteModel.reduceAddedEvent,
      GitLabIDPWriteModel.reduceChangedEvent, h1, h2, h3, h4, h5, h6, h7, and_self]

/-- A step keeps or overwrites each field. -/
theorem GitLab_step_mix (s u t : GitLabIDPWriteModel) (e : Event) (h : GitLabIDPWriteModel.Mix s u t) :
    GitLabIDPWriteModel.Mix (s.reduceEvent e) u (t.reduceEvent e) := by
  obtain ⟨h1, h2, h3, h4, h5, h6, h7⟩ := h
  unfold GitLabIDPWriteModel.reduceEvent
  split
  · exact
      ⟨h1, pick_const _ _, pick_const _ _, pick_const _ _, pick_const _ _, optionsMix_const _ _, pick_const _ _⟩
  · exact
      ⟨h1, pick_assignIfSet _ h2, pick_assignIfSet _ h3, pick_assignIfNonNil _ h4, pick_assignIfNonNil _ h5, optionsMix_reduceChanges _ h6, h7⟩
  · exact ⟨h1, h2, h3, h4, h5, h6, pick_const _ _⟩
  · exact ⟨h1, h2, h3, h4, h5, h6, h7⟩

theorem GitLab_mix_base {s t : GitLabIDPWriteModel} (h : GitLabIDPWriteModel.Mix s s t) :
    GitLabIDPWriteModel.SameDomain t s := by
  obtain ⟨h1, h2, h3, h4, h5, h6, h7⟩ := h
  exact
    ⟨h1, pick_base h2, pick_base h3, pick_base h4, pick_base h5, optionsMix_base h6, pick_base h7⟩

theorem GitLab_mix_right (s u : GitLabIDPWriteModel) (h : u.ID = s.ID) : GitLabIDPWriteModel.Mix s u u :=
 ⟨h, pick_right _ _, pick_right _ _, pick_right _ _, pick_right _ _, optionsMix_right _ _, pick_right _ _⟩

/-- On a buffer `L`, `Reduce` returns a model with the domain fields of the fold of `L`. -/
theorem GitLab_reduce_events (wm : GitLabIDPWriteModel) (L : List Event) :
    ∃ r, GitLabIDPWriteModel.Reduce { wm with Events := L } = .ok r ∧
      GitLabIDPWriteModel.SameDomain r (L.foldl GitLabIDPWriteModel.reduceEvent wm) := by
  obtain ⟨r, hr, hsame⟩ := GitLab_reduce_same { wm with Events := L }
  exact ⟨r, hr, GitLab_same_trans hsame
    (foldl_rel _ _ GitLab_step_same L _ _ (GitLab_same_events wm L))⟩

/-- Folding the same events a second time changes no domain field. -/
theorem GitLab_fold_idem (wm : GitLabIDPWriteModel) (L : List Event) :
    GitLabIDPWriteModel.SameDomain (L.foldl GitLabIDPWriteModel.reduceEvent (L.foldl GitLabIDPWriteModel.reduceEvent wm))
      (L.foldl GitLabIDPWriteModel.reduceEvent wm) :=
  foldl_absorb _ GitLabIDPWriteModel.Mix _ (fun _ _ h => GitLab_mix_base h) GitLab_step_mix L wm _
    (GitLab_mix_right _ _ (foldl_inv _ (fun s => s.ID) GitLab_step_id L wm))

/-- Reducing the changed event that carries the change set of `NewChanges` assigns the
desired values. -/
theorem GitLab_roundtrip_step (wm : GitLabIDPWriteModel)
    (name clientID clientSecretString : String) (scopes : StringSlice) (options : Zitadel.Options)
    (v : Option CryptoValue)
    (hScopes : scopes ≠ none ∨ scopes = wm.Scopes) :
    let r := wm.reduceChangedEvent
      (GitLabIDPChangedEvent.withChanges (differingEntries
        ((decide (clientSecretString ≠ ""), .ChangeGitLabClientSecret v) ::
          wm.comparedFields name clientID scopes options)))
   r.Name = name ∧ r.ClientID = clientID ∧ r.Scopes = scopes ∧ r.Options = options ∧
      r.ID = wm.ID ∧ r.State = wm.State := by
  intro r
  refine ⟨?_, ?_, ?_, ?_, ?_, ?_⟩ <;>
    (simp only [r, GitLabIDPWriteModel.reduceChangedEvent, GitLabIDPChangedEvent.withChanges,
      GitLabIDPWriteModel.comparedFields, differingEntries_cons, differingEntries_nil,
      List.foldl_append, foldl_ite_single, List.foldl_nil, GitLabIDPChanges.apply,
      GitLabIDPChangedEvent.empty, apply_ite GitLabIDPChangedEvent.Name,
      apply_ite GitLabIDPChangedEvent.ClientID, apply_ite GitLabIDPChangedEvent.ClientSecret,
      apply_ite GitLabIDPChangedEvent.Scopes, apply_ite GitLabIDPChangedEvent.OptionChanges,
      ite_self, decide_eq_true_eq]
     all_goals first
       | rfl
       | exact assignIfSet_ite _ _
       | exact options_reduceChanges_ite _ _
       | exact assignIfNonNil_ite _ _ hScopes)

/-! ### GitLabSelfHostedIDPWriteModel -/

/-- Closed form of `NewChanges`: the secret entry, then the entries of the compared
fields that differ. -/
theorem GitLabSelfHosted_newChanges_eq (wm : GitLabSelfHostedIDPWriteModel)
    (name issuer clientID clientSecretString : String) (secretCrypto : Crypto)
    (scopes : StringSlice) (options : Zitadel.Options) (v : Option CryptoValue)
    (h : clientSecretString = "" ∨ Crypt clientSecretString secretCrypto = .ok v) :
    wm.NewChanges name issuer clientID clientSecretString secretCrypto scopes options
      = .ok (differingEntries ((decide (clientSecretString ≠ ""), .ChangeGitLabSelfHostedClientSecret v) ::
          wm.comparedFields name issuer clientID scopes options)) := by
  have hz := options_changes_isZero wm.Options options
  simp only [GitLabSelfHostedIDPWriteModel.NewChanges, GitLabSelfHostedIDPWriteModel.comparedFields, bind, Except.bind, pure, Except.pure,
    ite_append_single, hz, differingEntries_cons, differingEntries_nil]
  by_cases hs : clientSecretString = ""
  · simp [hs]
  · have h := h.resolve_left hs
    simp [hs, h]

/-- A change set is returned only if the secret is empty or was encrypted. -/
theorem GitLabSelfHosted_newChanges_crypt (wm : GitLabSelfHostedIDPWriteModel)
    (name issuer clientID clientSecretString : String) (secretCrypto : Crypto)
    (scopes : StringSlice) (options : Zitadel.Options) (cs : List GitLabSelfHostedIDPChanges)
    (hcs : wm.NewChanges name issuer clientID clientSecretString secretCrypto scopes options = .ok
      cs) :
    ∃ v, clientSecretString = "" ∨ Crypt clientSecretString secretCrypto = .ok v := by
  by_cases hs : clientSecretString = ""
  · exact ⟨none, Or.inl hs⟩
  · cases hc : Crypt clientSecretString secretCrypto with
    | ok v => exact ⟨v, Or.inr rfl⟩
    | error err => simp [GitLabSelfHostedIDPWriteModel.NewChanges, hs, hc, bind, Except.bind] at hcs

/-- No two rows of the change set are for the same field. -/
theorem GitLabSelfHosted_rows_nodup (wm : GitLabSelfHostedIDPWriteModel)
    (name issuer clientID clientSecretString : String) (scopes : StringSlice)
    (options : Zitadel.Options) (v : Option CryptoValue) :
    ((((decide (clientSecretString ≠ ""), GitLabSelfHostedIDPChanges.ChangeGitLabSelfHostedClientSecret v) ::
        wm.comparedFields name issuer clientID scopes options).map
      (fun r => r.2.field))).Nodup := by
  simp [GitLabSelfHostedIDPWriteModel.comparedFields, GitLabSelfHostedIDPChanges.field]

/-- The result of `Reduce`: the folded model, with `ProcessedSequence` advanced by the base. -/
theorem GitLabSelfHosted_reduce_eq (wm : GitLabSelfHostedIDPWriteModel) :
    wm.Reduce = .ok
      { wm.Events.foldl GitLabSelfHostedIDPWriteModel.reduceEvent wm with
        ProcessedSequence :=
          match (wm.Events.foldl GitLabSelfHostedIDPWriteModel.reduceEvent wm).Events.getLast? with
          | none => (wm.Events.foldl GitLabSelfHostedIDPWriteModel.reduceEvent wm).ProcessedSequence
          | some e => e.Sequence } := by
  cases h : (List.foldl GitLabSelfHostedIDPWriteModel.reduceEvent wm wm.Events).Events.getLast? <;>
    simp only [GitLabSelfHostedIDPWriteModel.Reduce, WriteModel.Reduce, h]

theorem GitLabSelfHosted_reduce_same (wm : GitLabSelfHostedIDPWriteModel) :
    ∃ r, wm.Reduce = .ok r ∧
      GitLabSelfHostedIDPWriteModel.SameDomain r (wm.Events.foldl GitLabSelfHostedIDPWriteModel.reduceEvent wm) :=
  ⟨_, GitLabSelfHosted_reduce_eq wm, ⟨rfl, rfl, rfl, rfl, rfl, rfl, rfl, rfl⟩⟩

theorem GitLabSelfHosted_same_symm {a b : GitLabSelfHostedIDPWriteModel} (h : GitLabSelfHostedIDPWriteModel.SameDomain a b) :
    GitLabSelfHostedIDPWriteModel.SameDomain b a := by
  obtain ⟨h1, h2, h3, h4, h5, h6, h7, h8⟩ := h
  exact ⟨h1.symm, h2.symm, h3.symm, h4.symm, h5.symm, h6.symm, h7.symm, h8.symm⟩

theorem GitLabSelfHosted_same_trans {a b c : GitLabSelfHostedIDPWriteModel} (h : GitLabSelfHostedIDPWriteModel.SameDomain a b)
    (g : GitLabSelfHostedIDPWriteModel.SameDomain b c) : GitLabSelfHostedIDPWriteModel.SameDomain a c := by
  obtain ⟨h1, h2, h3, h4, h5, h6, h7, h8⟩ := h
  obtain ⟨g1, g2, g3, g4, g5, g6, g7, g8⟩ := g
  exact
    ⟨h1.trans g1, h2.trans g2, h3.trans g3, h4.trans g4, h5.trans g5, h6.trans g6, h7.trans g7, h8.trans g8⟩

/-- Replacing the event buffer changes no domain field. -/
theorem GitLabSelfHosted_same_events (wm : GitLabSelfHostedIDPWriteModel) (L : List Event) :
    GitLabSelfHostedIDPWriteModel.SameDomain { wm with Events := L } wm :=
  ⟨rfl, rfl, rfl, rfl, rfl, rfl, rfl, rfl⟩

theorem GitLabSelfHosted_step_id (wm : GitLabSelfHostedIDPWriteModel) (e : Event) : (wm.reduceEvent e).ID = wm.ID := by
  unfold GitLabSelfHostedIDPWriteModel.reduceEvent
  split <;> rfl

/-- An event of a type the switch does not name is skipped. -/
theorem GitLabSelfHosted_step_noop (wm : GitLabSelfHostedIDPWriteModel) (e : Event)
    (h : e.goType ∉ GitLabSelfHostedIDPWriteModel.switchTypes) : wm.reduceEvent e = wm := by
  obtain ⟨pkg, seq, agg, payload⟩ := e
  cases pkg <;> cases payload <;>
    first
      | rfl
      | (exfalso; apply h; simp [Event.goType, EventPayload.kind, GitLabSelfHostedIDPWriteModel.switchTypes])

/-- A step reads the domain fields only. -/
theorem GitLabSelfHosted_step_same (a b : GitLabSelfHostedIDPWriteModel) (e : Event) (h : GitLabSelfHostedIDPWriteModel.SameDomain a b) :
    GitLabSelfHostedIDPWriteModel.SameDomain (a.reduceEvent e) (b.reduceEvent e) := by
  obtain ⟨h1, h2, h3, h4, h5, h6, h7, h8⟩ := h
  unfold GitLabSelfHostedIDPWriteModel.reduceEvent
  split <;>
    simp only [GitLabSelfHostedIDPWriteModel.SameDomain,
      GitLabSelfHostedIDPWriteModel.reduceAddedEvent,
      GitLabSelfHostedIDPWriteModel.reduceChangedEvent, h1, h2, h3, h4, h5, h6, h7, h8, and_self]

/-- A step keeps or overwrites each field. -/
theorem GitLabSelfHosted_step_mix (s u t : GitLabSelfHostedIDPWriteModel) (e : Event) (h : GitLabSelfHostedIDPWriteModel.Mix s u t) :
    GitLabSelfHostedIDPWriteModel.Mix (s.reduceEvent e) u (t.reduceEvent e) := by
  obtain ⟨h1, h2, h3, h4, h5, h6, h7, h8⟩ := h
  unfold GitLabSelfHostedIDPWriteModel.reduceEvent
  split
  · exact
      ⟨h1, pick_const _ _, pick_const _ _, pick_const _ _, pick_const _ _, pick_const _ _, optionsMix_const _ _, pick_const _ _⟩
  · exact
      ⟨h1, pick_assignIfSet _ h2, pick_assignIfSet _ h3, pick_assignIfSet _ h4, pick_assignIfNonNil _ h5, pick_assignIfNonNil _ h6, optionsMix_reduceChanges _ h7, h8⟩
  · exact ⟨h1, h2, h3, h4, h5, h6, h7, pick_const _ _⟩
  · exact ⟨h1, h2, h3, h4, h5, h6, h7, h8⟩

theorem GitLabSelfHosted_mix_base {s t : GitLabSelfHostedIDPWriteModel} (h : GitLabSelfHostedIDPWriteModel.Mix s s t) :
    GitLabSelfHostedIDPWriteModel.SameDomain t s := by
  obtain ⟨h1, h2, h3, h4, h5, h6, h7, h8⟩ := h
  exact
    ⟨h1, pick_base h2, pick_base h3, pick_base h4, pick_base h5, pick_base h6, optionsMix_base h7, pick_base h8⟩

theorem GitLabSelfHosted_mix_right (s u : GitLabSelfHostedIDPWriteModel) (h : u.ID = s.ID) : GitLabSelfHostedIDPWriteModel.Mix s u u :=
 ⟨h, pick_right _ _, pick_right _ _, pick_right _ _, pick_right _ _, pick_right _ _, optionsMix_right _ _, pick_right _ _⟩

/-- On a buffer `L`, `Reduce` returns a model with the domain fields of the fold of `L`. -/
theorem GitLabSelfHosted_reduce_events (wm : GitLabSelfHostedIDPWriteModel) (L : List Event) :
    ∃ r, GitLabSelfHostedIDPWriteModel.Reduce { wm with Events := L } = .ok r ∧
      GitLabSelfHostedIDPWriteModel.SameDomain r (L.foldl GitLabSelfHostedIDPWriteModel.reduceEvent wm) := by
  obtain ⟨r, hr, hsame⟩ := GitLabSelfHosted_reduce_same { wm with Events := L }
  exact ⟨r, hr, GitLabSelfHosted_same_trans hsame
    (foldl_rel _ _ GitLabSelfHosted_step_same L _ _ (GitLabSelfHosted_same_events wm L))⟩

/-- Folding the same events a second time changes no domain field. -/
theorem GitLabSelfHosted_fold_idem (wm : GitLabSelfHostedIDPWriteModel) (L : List Event) :
    GitLabSelfHostedIDPWriteModel.SameDomain (L.foldl GitLabSelfHostedIDPWriteModel.reduceEvent (L.foldl GitLabSelfHostedIDPWriteModel.reduceEvent wm))
      (L.foldl GitLabSelfHostedIDPWriteModel.reduceEvent wm) :=
  foldl_absorb _ GitLabSelfHostedIDPWriteModel.Mix _ (fun _ _ h => GitLabSelfHosted_mix_base h) GitLabSelfHosted_step_mix L wm _
    (GitLabSelfHosted_mix_right _ _ (foldl_inv _ (fun s => s.ID) GitLabSelfHosted_step_id L wm))

/-- Reducing the changed event that carries the change set of `NewChanges` assigns the
desired values. -/
theorem GitLabSelfHosted_roundtrip_step (wm : GitLabSelfHostedIDPWriteModel)
    (name issuer clientID clientSecretString : String) (scopes : StringSlice)
    (options : Zitadel.Options) (v : Option CryptoValue)
    (hScopes : scopes ≠ none ∨ scopes = wm.Scopes) :
    let r := wm.reduceChangedEvent
      (GitLabSelfHostedIDPChangedEvent.withChanges (differingEntries
        ((decide (clientSecretString ≠ ""), .ChangeGitLabSelfHostedClientSecret v) ::
          wm.comparedFields name issuer clientID scopes options)))
   r.Name = name ∧ r.Issuer = issuer ∧ r.ClientID = clientID ∧ r.Scopes = scopes ∧
      r.Options = options ∧ r.ID = wm.ID ∧ r.State = wm.State := by
  intro r
  refine ⟨?_, ?_, ?_, ?_, ?_, ?_, ?_⟩ <;>
    (simp only [r, GitLabSelfHostedIDPWriteModel.reduceChangedEvent,
      GitLabSelfHostedIDPChangedEvent.withChanges, GitLabSelfHostedIDPWriteModel.comparedFields,
      differingEntries_cons, differingEntries_nil, List.foldl_append, foldl_ite_single,
      List.foldl_nil, GitLabSelfHostedIDPChanges.apply, GitLabSelfHostedIDPChangedEvent.empty,
      apply_ite GitLabSelfHostedIDPChangedEvent.Name,
      apply_ite GitLabSelfHostedIDPChangedEvent.Issuer,
      apply_ite GitLabSelfHostedIDPChangedEvent.ClientID,
      apply_ite GitLabSelfHostedIDPChangedEvent.ClientSecret,
      apply_ite GitLabSelfHostedIDPChangedEvent.Scopes,
      apply_ite GitLabSelfHostedIDPChangedEvent.OptionChanges, ite_self, decide_eq_true_eq]
     all_goals first
       | rfl
       | exact assignIfSet_ite _ _
       | exact options_reduceChanges_ite _ _
       | exact assignIfNonNil_ite _ _ hScopes)

/-! ### GoogleIDPWriteModel -/

/-- Closed form of `NewChanges`: the secret entry, then the entries of the compared
fields that differ. -/
theorem Google_newChanges_eq (wm : GoogleIDPWriteModel)
    (name clientID clientSecretString : String) (secretCrypto : Crypto) (scopes : StringSlice)
    (options : Zitadel.Options) (v : Option CryptoValue)
    (h : clientSecretString = "" ∨ Crypt clientSecretString secretCrypto = .ok v) :
    wm.NewChanges name clientID clientSecretString secretCrypto scopes options
      = .ok (differingEntries ((decide (clientSecretString ≠ ""), .ChangeGoogleClientSecret v) ::
          wm.comparedFields name clientID scopes options)) := by
  have hz := options_changes_isZero wm.Options options
  simp only [GoogleIDPWriteModel.NewChanges, GoogleIDPWriteModel.comparedFields, bind, Except.bind, pure, Except.pure,
    ite_append_single, hz, differingEntries_cons, differingEntries_nil]
  by_cases hs : clientSecretString = ""
  · simp [hs]
  · have h := h.resolve_left hs
    simp [hs, h]

/-- A change set is returned only if the secret is empty or was encrypted. -/
theorem Google_newChanges_crypt (wm : GoogleIDPWriteModel)
    (name clientID clientSecretString : String) (secretCrypto : Crypto) (scopes : StringSlice)
    (options : Zitadel.Options) (cs : List GoogleIDPChanges)
    (hcs : wm.NewChanges name clientID clientSecretString secretCrypto scopes options = .ok cs) :
    ∃ v, clientSecretString = "" ∨ Crypt clientSecretString secretCrypto = .ok v := by
  by_cases hs : clientSecretString = ""
  · exact ⟨none, Or.inl hs⟩
  · cases hc : Crypt clientSecretString secretCrypto with
    | ok v => exact ⟨v, Or.inr rfl⟩
    | error err => simp [GoogleIDPWriteModel.NewChanges, hs, hc, bind, Except.bind] at hcs

/-- No two rows of the change set are for the same field. -/
theorem Google_rows_nodup (wm : GoogleIDPWriteModel) (name clientID clientSecretString : String)
    (scopes : StringSlice) (options : Zitadel.Options) (v : Option CryptoValue) :
    ((((decide (clientSecretString ≠ ""), GoogleIDPChanges.ChangeGoogleClientSecret v) ::
        wm.comparedFields name clientID scopes options).map
      (fun r => r.2.field))).Nodup := by
  simp [GoogleIDPWriteModel.comparedFields, GoogleIDPChanges.field]

/-- The result of `Reduce`: the folded model, with `ProcessedSequence` advanced by the base. -/
theorem Google_reduce_eq (wm : GoogleIDPWriteModel) :
    wm.Reduce = .ok
      { wm.Events.foldl GoogleIDPWriteModel.reduceEvent wm with
        ProcessedSequence :=
          match (wm.Events.foldl GoogleIDPWriteModel.reduceEvent wm).Events.getLast? with
          | none => (wm.Events.foldl GoogleIDPWriteModel.reduceEvent wm).ProcessedSequence
          | some e => e.Sequence } := by
  cases h : (List.foldl GoogleIDPWriteModel.reduceEvent wm wm.Events).Events.getLast? <;>
    simp only [GoogleIDPWriteModel.Reduce, WriteModel.Reduce, h]

theorem Google_reduce_same (wm : GoogleIDPWriteModel) :
    ∃ r, wm.Reduce = .ok r ∧
      GoogleIDPWriteModel.SameDomain r (wm.Events.foldl GoogleIDPWriteModel.reduceEvent wm) :=
  ⟨_, Google_reduce_eq wm, ⟨rfl, rfl, rfl, rfl, rfl, rfl, rfl⟩⟩

theorem Google_same_symm {a b : GoogleIDPWriteModel} (h : GoogleIDPWriteModel.SameDomain a b) :
    GoogleIDPWriteModel.SameDomain b a := by
  obtain ⟨h1, h2, h3, h4, h5, h6, h7⟩ := h
  exact ⟨h1.symm, h2.symm, h3.symm, h4.symm, h5.symm, h6.symm, h7.symm⟩

theorem Google_same_trans {a b c : GoogleIDPWriteModel} (h : GoogleIDPWriteModel.SameDomain a b)
    (g : GoogleIDPWriteModel.SameDomain b c) : GoogleIDPWriteModel.SameDomain a c := by
  obtain ⟨h1, h2, h3, h4, h5, h6, h7⟩ := h
  obtain ⟨g1, g2, g3, g4, g5, g6, g7⟩ := g
  exact
    ⟨h1.trans g1, h2.trans g2, h3.trans g3, h4.trans g4, h5.trans g5, h6.trans g6, h7.trans g7⟩

/-- Replacing the event buffer changes no domain field. -/
theorem Google_same_events (wm : GoogleIDPWriteModel) (L : List Event) :
    GoogleIDPWriteModel.SameDomain { wm with Events := L } wm :=
  ⟨rfl, rfl, rfl, rfl, rfl, rfl, rfl⟩

theorem Google_step_id (wm : GoogleIDPWriteModel) (e : Event) : (wm.reduceEvent e).ID = wm.ID := by
  unfold GoogleIDPWriteModel.reduceEvent
  split <;> rfl

/-- An event of a type the switch does not name is skipped. -/
theorem Google_step_noop (wm : GoogleIDPWriteModel) (e : Event)
    (h : e.goType ∉ GoogleIDPWriteModel.switchTypes) : wm.reduceEvent e = wm := by
  obtain ⟨pkg, seq, agg, payload⟩ := e
  cases pkg <;> cases payload <;>
    first
      | rfl
      | (exfalso; apply h; simp [Event.goType, EventPayload.kind, GoogleIDPWriteModel.switchTypes])

/-- A step reads the domain fields only. -/
theorem Google_step_same (a b : GoogleIDPWriteModel) (e : Event) (h : GoogleIDPWriteModel.SameDomain a b) :
    GoogleIDPWriteModel.SameDomain (a.reduceEvent e) (b.reduceEvent e) := by
  obtain ⟨h1, h2, h3, h4, h5, h6, h7⟩ := h
  unfold GoogleIDPWriteModel.reduceEvent
  split <;>
    simp only [GoogleIDPWriteModel.SameDomain, GoogleIDPWriteModel.reduceAddedEvent,
      GoogleIDPWriteModel.reduceChangedEvent, h1, h2, h3, h4, h5, h6, h7, and_self]

/-- A step keeps or overwrites each field. -/
theorem Google_step_mix (s u t : GoogleIDPWriteModel) (e : Event) (h : GoogleIDPWriteModel.Mix s u t) :
    GoogleIDPWriteModel.Mix (s.reduceEvent e) u (t.reduceEvent e) := by
  obtain ⟨h1, h2, h3, h4, h5, h6, h7⟩ := h
  unfold GoogleIDPWriteModel.reduceEvent
  split
  · exact
      ⟨h1, pick_const _ _, pick_const _ _, pick_const _ _, pick_const _ _, optionsMix_const _ _, pick_const _ _⟩
  · exact
      ⟨h1, pick_assignIfSet _ h2, pick_assignIfSet _ h3, pick_assignIfNonNil _ h4, pick_assignIfNonNil _ h5, optionsMix_reduceChanges _ h6, h7⟩
  · exact
      ⟨h1, pick_const _ _, pick_const _ _, pick_const _ _, pick_const _ _, optionsMix_const _ _, pick_const _ _⟩
  · exact ⟨h1, h2, h3, h4, h5, h6, pick_const _ _⟩
  · exact ⟨h1, h2, h3, h4, h5, h6, h7⟩

theorem Google_mix_base {s t : GoogleIDPWriteModel} (h : GoogleIDPWriteModel.Mix s s t) :
    GoogleIDPWriteModel.SameDomain t s := by
  obtain ⟨h1, h2, h3, h4, h5, h6, h7⟩ := h
  exact
    ⟨h1, pick_base h2, pick_base h3, pick_base h4, pick_base h5, optionsMix_base h6, pick_base h7⟩

theorem Google_mix_right (s u : GoogleIDPWriteModel) (h : u.ID = s.ID) : GoogleIDPWriteModel.Mix s u u :=
 ⟨h, pick_right _ _, pick_right _ _, pick_right _ _, pick_right _ _, optionsMix_right _ _, pick_right _ _⟩

/-- On a buffer `L`, `Reduce` returns a model with the domain fields of the fold of `L`. -/
theorem Google_reduce_events (wm : GoogleIDPWriteModel) (L : List Event) :
    ∃ r, GoogleIDPWriteModel.Reduce { wm with Events := L } = .ok r ∧
      GoogleIDPWriteModel.SameDomain r (L.foldl GoogleIDPWriteModel.reduceEvent wm) := by
  obtain ⟨r, hr, hsame⟩ := Google_reduce_same { wm with Events := L }
  exact ⟨r, hr, Google_same_trans hsame
    (foldl_rel _ _ Google_step_same L _ _ (Google_same_events wm L))⟩

/-- Folding the same events a second time changes no domain field. -/
theorem Google_fold_idem (wm : GoogleIDPWriteModel) (L : List Event) :
    GoogleIDPWriteModel.SameDomain (L.foldl GoogleIDPWriteModel.reduceEvent (L.foldl GoogleIDPWriteModel.reduceEvent wm))
      (L.foldl GoogleIDPWriteModel.reduceEvent wm) :=
  foldl_absorb _ GoogleIDPWriteModel.Mix _ (fun _ _ h => Google_mix_base h) Google_step_mix L wm _
    (Google_mix_right _ _ (foldl_inv _ (fun s => s.ID) Google_step_id L wm))

/-- Reducing the changed event that carries the change set of `NewChanges` assigns the
desired values. -/
theorem Google_roundtrip_step (wm : GoogleIDPWriteModel)
    (name clientID clientSecretString : String) (scopes : StringSlice) (options : Zitadel.Options)
    (v : Option CryptoValue)
    (hScopes : scopes ≠ none ∨ scopes = wm.Scopes) :
    let r := wm.reduceChangedEvent
      (GoogleIDPChangedEvent.withChanges (differingEntries
        ((decide (clientSecretString ≠ ""), .ChangeGoogleClientSecret v) ::
          wm.comparedFields name clientID scopes options)))
   r.Name = name ∧ r.ClientID = clientID ∧ r.Scopes = scopes ∧ r.Options = options ∧
      r.ID = wm.ID ∧ r.State = wm.State := by
  intro r
  refine ⟨?_, ?_, ?_, ?_, ?_, ?_⟩ <;>
    (simp only [r, GoogleIDPWriteModel.reduceChangedEvent, GoogleIDPChangedEvent.withChanges,
      GoogleIDPWriteModel.comparedFields, differingEntries_cons, differingEntries_nil,
      List.foldl_append, foldl_ite_single, List.foldl_nil, GoogleIDPChanges.apply,
      GoogleIDPChangedEvent.empty, apply_ite GoogleIDPChangedEvent.Name,
      apply_ite GoogleIDPChangedEvent.ClientID, apply_ite GoogleIDPChangedEvent.ClientSecret,
      apply_ite GoogleIDPChangedEvent.Scopes, apply_ite GoogleIDPChangedEvent.OptionChanges,
      ite_self, decide_eq_true_eq]
     all_goals first
       | rfl
       | exact assignIfSet_ite _ _
       | exact options_reduceChanges_ite _ _
       | exact assignIfNonNil_ite _ _ hScopes)

/-! ### LDAPIDPWriteModel -/

/-- Closed form of `NewChanges`: the secret entry, then the entries of the compared
fields that differ. -/
theorem LDAP_newChanges_eq (wm : LDAPIDPWriteModel) (name : String) (servers : StringSlice)
    (startTLS : Bool) (baseDN bindDN bindPassword userBase : String)
    (userObjectClasses userFilters : StringSlice) (timeout : Int) (secretCrypto : Crypto)
    (attributes : Zitadel.LDAPAttributes) (options : Zitadel.Options) (v : Option CryptoValue)
    (h : bindPassword = "" ∨ Crypt bindPassword secretCrypto = .ok v) :
    wm.NewChanges name servers startTLS baseDN bindDN bindPassword userBase userObjectClasses
      userFilters timeout secretCrypto attributes options
      = .ok (differingEntries ((decide (bindPassword ≠ ""), .ChangeLDAPBindPassword v) ::
          wm.comparedFields name servers startTLS baseDN bindDN userBase userObjectClasses
            userFilters timeout attributes options)) := by
  have hz := options_changes_isZero wm.Options options
  have hza := ldapAttributes_changes_isZero wm.LDAPAttributes attributes
  simp only [LDAPIDPWriteModel.NewChanges, LDAPIDPWriteModel.comparedFields, bind, Except.bind, pure, Except.pure,
    ite_append_single, hz, hza, differingEntries_cons, differingEntries_nil]
  by_cases hs : bindPassword = ""
  · simp [hs]
  · have h := h.resolve_left hs
    simp [hs, h]

/-- A change set is returned only if the secret is empty or was encrypted. -/
theorem LDAP_newChanges_crypt (wm : LDAPIDPWriteModel) (name : String) (servers : StringSlice)
    (startTLS : Bool) (baseDN bindDN bindPassword userBase : String)
    (userObjectClasses userFilters : StringSlice) (timeout : Int) (secretCrypto : Crypto)
    (attributes : Zitadel.LDAPAttributes) (options : Zitadel.Options) (cs : List LDAPIDPChanges)
    (hcs : wm.NewChanges name servers startTLS baseDN bindDN bindPassword userBase
      userObjectClasses userFilters timeout secretCrypto attributes options = .ok cs) :
    ∃ v, bindPassword = "" ∨ Crypt bindPassword secretCrypto = .ok v := by
  by_cases hs : bindPassword = ""
  · exact ⟨none, Or.inl hs⟩
  · cases hc : Crypt bindPassword secretCrypto with
    | ok v => exact ⟨v, Or.inr rfl⟩
    | error err => simp [LDAPIDPWriteModel.NewChanges, hs, hc, bind, Except.bind] at hcs

/-- No two rows of the change set are for the same field. -/
theorem LDAP_rows_nodup (wm : LDAPIDPWriteModel) (name : String) (servers : StringSlice)
    (startTLS : Bool) (baseDN bindDN bindPassword userBase : String)
    (userObjectClasses userFilters : StringSlice) (timeout : Int)
    (attributes : Zitadel.LDAPAttributes) (options : Zitadel.Options) (v : Option CryptoValue) :
    ((((decide (bindPassword ≠ ""), LDAPIDPChanges.ChangeLDAPBindPassword v) ::
        wm.comparedFields name servers startTLS baseDN bindDN userBase userObjectClasses
          userFilters timeout attributes options).map
      (fun r => r.2.field))).Nodup := by
  simp [LDAPIDPWriteModel.comparedFields, LDAPIDPChanges.field]

/-- The result of `Reduce`: the folded model, with `ProcessedSequence` advanced by the base. -/
theorem LDAP_reduce_eq (wm : LDAPIDPWriteModel) :
    wm.Reduce = .ok
      { wm.Events.foldl LDAPIDPWriteModel.reduceEvent wm with
        ProcessedSequence :=
          match (wm.Events.foldl LDAPIDPWriteModel.reduceEvent wm).Events.getLast? with
          | none => (wm.Events.foldl LDAPIDPWriteModel.reduceEvent wm).ProcessedSequence
          | some e => e.Sequence } := by
  cases h : (List.foldl LDAPIDPWriteModel.reduceEvent wm wm.Events).Events.getLast? <;>
    simp only [LDAPIDPWriteModel.Reduce, WriteModel.Reduce, h]

theorem LDAP_reduce_same (wm : LDAPIDPWriteModel) :
    ∃ r, wm.Reduce = .ok r ∧
      LDAPIDPWriteModel.SameDomain r (wm.Events.foldl LDAPIDPWriteModel.reduceEvent wm) :=
  ⟨_, LDAP_reduce_eq wm, ⟨rfl, rfl, rfl, rfl, rfl, rfl, rfl, rfl, rfl, rfl, rfl, rfl, rfl, rfl⟩⟩

theorem LDAP_same_symm {a b : LDAPIDPWriteModel} (h : LDAPIDPWriteModel.SameDomain a b) :
    LDAPIDPWriteModel.SameDomain b a := by
  obtain ⟨h1, h2, h3, h4, h5, h6, h7, h8, h9, h10, h11, h12, h13, h14⟩ := h
  exact
    ⟨h1.symm, h2.symm, h3.symm, h4.symm, h5.symm, h6.symm, h7.symm, h8.symm, h9.symm, h10.symm, h11.symm, h12.symm, h13.symm, h14.symm⟩

theorem LDAP_same_trans {a b c : LDAPIDPWriteModel} (h : LDAPIDPWriteModel.SameDomain a b)
    (g : LDAPIDPWriteModel.SameDomain b c) : LDAPIDPWriteModel.SameDomain a c := by
  obtain ⟨h1, h2, h3, h4, h5, h6, h7, h8, h9, h10, h11, h12, h13, h14⟩ := h
  obtain ⟨g1, g2, g3, g4, g5, g6, g7, g8, g9, g10, g11, g12, g13, g14⟩ := g
  exact
    ⟨h1.trans g1, h2.trans g2, h3.trans g3, h4.trans g4, h5.trans g5, h6.trans g6, h7.trans g7, h8.trans g8, h9.trans g9, h10.trans g10, h11.trans g11, h12.trans g12, h13.trans g13, h14.trans g14⟩

/-- Replacing the event buffer changes no domain field. -/
theorem LDAP_same_events (wm : LDAPIDPWriteModel) (L : List Event) :
    LDAPIDPWriteModel.SameDomain { wm with Events := L } wm :=
  ⟨rfl, rfl, rfl, rfl, rfl, rfl, rfl, rfl, rfl, rfl, rfl, rfl, rfl, rfl⟩

/-- The guard on the event ID of the LDAP reducer respects agreement on the domain. -/
theorem LDAP_guard_same (a b : LDAPIDPWriteModel) (id : String)
    (f : LDAPIDPWriteModel → LDAPIDPWriteModel) (h : LDAPIDPWriteModel.SameDomain a b)
    (hf : LDAPIDPWriteModel.SameDomain (f a) (f b)) :
    LDAPIDPWriteModel.SameDomain (if a.ID ≠ id then a else f a)
      (if b.ID ≠ id then b else f b) := by
  have h1 : a.ID = b.ID := h.1
  by_cases hid : b.ID = id
  · rw [if_neg (not_not.mpr (h1.trans hid)), if_neg (not_not.mpr hid)]
    exact hf
  · rw [if_pos (fun hc => hid (h1.symm.trans hc)), if_pos hid]
    exact h

/-- The guard on the event ID of the LDAP reducer respects mixes. -/
theorem LDAP_guard_mix (s u t : LDAPIDPWriteModel) (id : String)
    (f : LDAPIDPWriteModel → LDAPIDPWriteModel) (h : LDAPIDPWriteModel.Mix s u t)
    (hf : LDAPIDPWriteModel.Mix (f s) u (f t)) :
    LDAPIDPWriteModel.Mix (if s.ID ≠ id then s else f s) u
      (if t.ID ≠ id then t else f t) := by
  have h1 : t.ID = s.ID := h.1
  by_cases hid : s.ID = id
  · rw [if_neg (not_not.mpr hid), if_neg (not_not.mpr (h1.trans hid))]
    exact hf
  · rw [if_pos hid, if_pos (fun hc => hid (h1.symm.trans hc))]
    exact h

theorem LDAP_step_id (wm : LDAPIDPWriteModel) (e : Event) : (wm.reduceEvent e).ID = wm.ID := by
  unfold LDAPIDPWriteModel.reduceEvent
  split <;> first | rfl | (split <;> rfl)

/-- An event of a type the switch does not name is skipped. -/
theorem LDAP_step_noop (wm : LDAPIDPWriteModel) (e : Event)
    (h : e.goType ∉ LDAPIDPWriteModel.switchTypes) : wm.reduceEvent e = wm := by
  obtain ⟨pkg, seq, agg, payload⟩ := e
  cases pkg <;> cases payload <;>
    first
      | rfl
      | (exfalso; apply h; simp [Event.goType, EventPayload.kind, LDAPIDPWriteModel.switchTypes])

/-- A step reads the domain fields only. -/
theorem LDAP_step_same (a b : LDAPIDPWriteModel) (e : Event) (h : LDAPIDPWriteModel.SameDomain a b) :
    LDAPIDPWriteModel.SameDomain (a.reduceEvent e) (b.reduceEvent e) := by
  obtain ⟨h1, h2, h3, h4, h5, h6, h7, h8, h9, h10, h11, h12, h13, h14⟩ := h
  unfold LDAPIDPWriteModel.reduceEvent
  split
  · refine LDAP_guard_same _ _ _ (fun wm => wm.reduceAddedEvent _) ⟨h1, h2, h3, h4, h5, h6, h7, h8, h9, h10, h11, h12, h13, h14⟩ ?_
    simp only [LDAPIDPWriteModel.SameDomain, LDAPIDPWriteModel.reduceAddedEvent,
      LDAPIDPWriteModel.reduceChangedEvent, h1, h2, h3, h4, h5, h6, h7, h8, h9, h10, h11, h12,
      h13, h14, and_self]
  · refine LDAP_guard_same _ _ _ (fun wm => wm.reduceChangedEvent _) ⟨h1, h2, h3, h4, h5, h6, h7, h8, h9, h10, h11, h12, h13, h14⟩ ?_
    simp only [LDAPIDPWriteModel.SameDomain, LDAPIDPWriteModel.reduceAddedEvent,
      LDAPIDPWriteModel.reduceChangedEvent, h1, h2, h3, h4, h5, h6, h7, h8, h9, h10, h11, h12,
      h13, h14, and_self]
  · refine LDAP_guard_same _ _ _ (fun wm => { wm with State := .IDPStateRemoved }) ⟨h1, h2, h3, h4, h5, h6, h7, h8, h9, h10, h11, h12, h13, h14⟩ ?_
    simp only [LDAPIDPWriteModel.SameDomain, LDAPIDPWriteModel.reduceAddedEvent,
      LDAPIDPWriteModel.reduceChangedEvent, h1, h2, h3, h4, h5, h6, h7, h8, h9, h10, h11, h12,
      h13, h14, and_self]
  · exact ⟨h1, h2, h3, h4, h5, h6, h7, h8, h9, h10, h11, h12, h13, h14⟩

/-- A step keeps or overwrites each field. -/
theorem LDAP_step_mix (s u t : LDAPIDPWriteModel) (e : Event) (h : LDAPIDPWriteModel.Mix s u t) :
    LDAPIDPWriteModel.Mix (s.reduceEvent e) u (t.reduceEvent e) := by
  obtain ⟨h1, h2, h3, h4, h5, h6, h7, h8, h9, h10, h11, h12, h13, h14⟩ := h
  unfold LDAPIDPWriteModel.reduceEvent
  split
  · refine LDAP_guard_mix _ _ _ _ (fun wm => wm.reduceAddedEvent _) ⟨h1, h2, h3, h4, h5, h6, h7, h8, h9, h10, h11, h12, h13, h14⟩ ?_
    exact
      ⟨h1, pick_const _ _, pick_const _ _, pick_const _ _, pick_const _ _, pick_const _ _, pick_const _ _, pick_const _ _, pick_const _ _, pick_const _ _, pick_const _ _, ldapAttributesMix_const _ _, optionsMix_const _ _, pick_const _ _⟩
  · refine LDAP_guard_mix _ _ _ _ (fun wm => wm.reduceChangedEvent _) ⟨h1, h2, h3, h4, h5, h6, h7, h8, h9, h10, h11, h12, h13, h14⟩ ?_
    exact
      ⟨h1, pick_assignIfSet _ (pick_assignIfSet _ h2), pick_assignIfNonNil _ h3, pick_assignIfSet _ h4, pick_assignIfSet _ h5, pick_assignIfSet _ h6, pick_assignIfNonNil _ h7, pick_assignIfSet _ h8, pick_assignIfNonNil _ h9, pick_assignIfNonNil _ h10, pick_assignIfSet _ h11, ldapAttributesMix_reduceChanges _ h12, optionsMix_reduceChanges _ h13, h14⟩
  · refine LDAP_guard_mix _ _ _ _ (fun wm => { wm with State := .IDPStateRemoved }) ⟨h1, h2, h3, h4, h5, h6, h7, h8, h9, h10, h11, h12, h13, h14⟩ ?_
    exact ⟨h1, h2, h3, h4, h5, h6, h7, h8, h9, h10, h11, h12, h13, pick_const _ _⟩
  · exact ⟨h1, h2, h3, h4, h5, h6, h7, h8, h9, h10, h11, h12, h13, h14⟩

theorem LDAP_mix_base {s t : LDAPIDPWriteModel} (h : LDAPIDPWriteModel.Mix s s t) :
    LDAPIDPWriteModel.SameDomain t s := by
  obtain ⟨h1, h2, h3, h4, h5, h6, h7, h8, h9, h10, h11, h12, h13, h14⟩ := h
  exact
    ⟨h1, pick_base h2, pick_base h3, pick_base h4, pick_base h5, pick_base h6, pick_base h7, pick_base h8, pick_base h9, pick_base h10, pick_base h11, ldapAttributesMix_base h12, optionsMix_base h13, pick_base h14⟩

theorem LDAP_mix_right (s u : LDAPIDPWriteModel) (h : u.ID = s.ID) : LDAPIDPWriteModel.Mix s u u :=
 ⟨h, pick_right _ _, pick_right _ _, pick_right _ _, pick_right _ _, pick_right _ _, pick_right _ _, pick_right _ _, pick_right _ _, pick_right _ _, pick_right _ _, ldapAttributesMix_right _ _, optionsMix_right _ _, pick_right _ _⟩

/-- On a buffer `L`, `Reduce` returns a model with the domain fields of the fold of `L`. -/
theorem LDAP_reduce_events (wm : LDAPIDPWriteModel) (L : List Event) :
    ∃ r, LDAPIDPWriteModel.Reduce { wm with Events := L } = .ok r ∧
      LDAPIDPWriteModel.SameDomain r (L.foldl LDAPIDPWriteModel.reduceEvent wm) := by
  obtain ⟨r, hr, hsame⟩ := LDAP_reduce_same { wm with Events := L }
  exact ⟨r, hr, LDAP_same_trans hsame
    (foldl_rel _ _ LDAP_step_same L _ _ (LDAP_same_events wm L))⟩

/-- Folding the same events a second time changes no domain field. -/
theorem LDAP_fold_idem (wm : LDAPIDPWriteModel) (L : List Event) :
    LDAPIDPWriteModel.SameDomain (L.foldl LDAPIDPWriteModel.reduceEvent (L.foldl LDAPIDPWriteModel.reduceEvent wm))
      (L.foldl LDAPIDPWriteModel.reduceEvent wm) :=
  foldl_absorb _ LDAPIDPWriteModel.Mix _ (fun _ _ h => LDAP_mix_base h) LDAP_step_mix L wm _
    (LDAP_mix_right _ _ (foldl_inv _ (fun s => s.ID) LDAP_step_id L wm))

/-- No entry of a change set touches the ID of the changed event. -/
theorem LDAP_withChanges_id (id : String) (changes : List LDAPIDPChanges) :
    (LDAPIDPChangedEvent.withChanges id changes).ID = id := by
  unfold LDAPIDPChangedEvent.withChanges
  rw [foldl_inv (fun e change => LDAPIDPChanges.apply change e) (fun e => e.ID)]
  · rfl
  · intro s c
    cases c <;> rfl

/-- Reducing the changed event that carries the change set of `NewChanges` assigns the
desired values. -/
theorem LDAP_roundtrip_step (wm : LDAPIDPWriteModel) (name : String) (servers : StringSlice)
    (startTLS : Bool) (baseDN bindDN bindPassword userBase : String)
    (userObjectClasses userFilters : StringSlice) (timeout : Int)
    (attributes : Zitadel.LDAPAttributes) (options : Zitadel.Options) (v : Option CryptoValue)
    (hServers : servers ≠ none ∨ servers = wm.Servers)
    (hUserObjectClasses : userObjectClasses ≠ none ∨ userObjectClasses = wm.UserObjectClasses)
    (hUserFilters : userFilters ≠ none ∨ userFilters = wm.UserFilters) :
    let r := wm.reduceChangedEvent
      (LDAPIDPChangedEvent.withChanges wm.ID (differingEntries
        ((decide (bindPassword ≠ ""), .ChangeLDAPBindPassword v) ::
          wm.comparedFields name servers startTLS baseDN bindDN userBase userObjectClasses userFilters
            timeout attributes options)))
   r.Name = name ∧ r.Servers = servers ∧ r.StartTLS = startTLS ∧ r.BaseDN = baseDN ∧
      r.BindDN = bindDN ∧ r.UserBase = userBase ∧ r.UserObjectClasses = userObjectClasses ∧
      r.UserFilters = userFilters ∧ r.Timeout = timeout ∧ r.LDAPAttributes = attributes ∧
      r.Options = options ∧ r.ID = wm.ID ∧ r.State = wm.State := by
  intro r
  refine ⟨?_, ?_, ?_, ?_, ?_, ?_, ?_, ?_, ?_, ?_, ?_, ?_, ?_⟩ <;>
    (simp only [r, LDAPIDPWriteModel.reduceChangedEvent, LDAPIDPChangedEvent.withChanges,
      LDAPIDPWriteModel.comparedFields, differingEntries_cons, differingEntries_nil,
      List.foldl_append, foldl_ite_single, List.foldl_nil, LDAPIDPChanges.apply,
      LDAPIDPChangedEvent.empty, apply_ite LDAPIDPChangedEvent.Name,
      apply_ite LDAPIDPChangedEvent.Servers, apply_ite LDAPIDPChangedEvent.StartTLS,
      apply_ite LDAPIDPChangedEvent.BaseDN, apply_ite LDAPIDPChangedEvent.BindDN,
      apply_ite LDAPIDPChangedEvent.BindPassword, apply_ite LDAPIDPChangedEvent.UserBase,
      apply_ite LDAPIDPChangedEvent.UserObjectClasses, apply_ite LDAPIDPChangedEvent.UserFilters,
      apply_ite LDAPIDPChangedEvent.Timeout, apply_ite LDAPIDPChangedEvent.OptionChanges,
      apply_ite LDAPIDPChangedEvent.LDAPAttributeChanges, apply_ite LDAPIDPChangedEvent.ID,
      ite_self, decide_eq_true_eq]
     all_goals first
       | rfl
       | exact assignIfSet_ite _ _
       | exact options_reduceChanges_ite _ _
       | exact ldapAttributes_reduceChanges_ite _ _
       | (rw [assignIfSet_ite]; exact assignIfSet_ite_self _ _)
       | exact assignIfNonNil_ite _ _ hServers
       | exact assignIfNonNil_ite _ _ hUserObjectClasses
       | exact assignIfNonNil_ite _ _ hUserFilters)

/-! ### IDPRemoveWriteModel -/

/-- The result of `Reduce`: the folded model, with `ProcessedSequence` advanced by the base. -/
theorem IDPRemove_reduce_eq (wm : IDPRemoveWriteModel) :
    wm.Reduce = .ok
      { wm.Events.foldl IDPRemoveWriteModel.reduceEvent wm with
        ProcessedSequence :=
          match (wm.Events.foldl IDPRemoveWriteModel.reduceEvent wm).Events.getLast? with
          | none => (wm.Events.foldl IDPRemoveWriteModel.reduceEvent wm).ProcessedSequence
          | some e => e.Sequence } := by
  cases h : (List.foldl IDPRemoveWriteModel.reduceEvent wm wm.Events).Events.getLast? <;>
    simp only [IDPRemoveWriteModel.Reduce, WriteModel.Reduce, h]

theorem IDPRemove_reduce_same (wm : IDPRemoveWriteModel) :
    ∃ r, wm.Reduce = .ok r ∧
      IDPRemoveWriteModel.SameDomain r (wm.Events.foldl IDPRemoveWriteModel.reduceEvent wm) :=
  ⟨_, IDPRemove_reduce_eq wm, ⟨rfl, rfl⟩⟩

theorem IDPRemove_same_symm {a b : IDPRemoveWriteModel} (h : IDPRemoveWriteModel.SameDomain a b) :
    IDPRemoveWriteModel.SameDomain b a := by
  obtain ⟨h1, h2⟩ := h
  exact ⟨h1.symm, h2.symm⟩

theorem IDPRemove_same_trans {a b c : IDPRemoveWriteModel} (h : IDPRemoveWriteModel.SameDomain a b)
    (g : IDPRemoveWriteModel.SameDomain b c) : IDPRemoveWriteModel.SameDomain a c := by
  obtain ⟨h1, h2⟩ := h
  obtain ⟨g1, g2⟩ := g
  exact ⟨h1.trans g1, h2.trans g2⟩

/-- Replacing the event buffer changes no domain field. -/
theorem IDPRemove_same_events (wm : IDPRemoveWriteModel) (L : List Event) :
    IDPRemoveWriteModel.SameDomain { wm with Events := L } wm :=
  ⟨rfl, rfl⟩

theorem IDPRemove_step_id (wm : IDPRemoveWriteModel) (e : Event) :
    (wm.reduceEvent e).ID = wm.ID := by
  unfold IDPRemoveWriteModel.reduceEvent
  split <;>
    first
      | rfl
      | (simp only [IDPRemoveWriteModel.reduceAdded, IDPRemoveWriteModel.reduceRemoved]
         split <;> rfl)

/-- An event of a type the switch does not name is skipped. -/
theorem IDPRemove_step_noop (wm : IDPRemoveWriteModel) (e : Event)
    (h : e.goType ∉ IDPRemoveWriteModel.switchTypes) : wm.reduceEvent e = wm := by
  obtain ⟨pkg, seq, agg, payload⟩ := e
  cases pkg <;> cases payload <;>
    first
      | rfl
      | (exfalso; apply h; simp [Event.goType, EventPayload.kind, IDPRemoveWriteModel.switchTypes])

theorem IDPRemove_added_same (a b : IDPRemoveWriteModel) (id : String)
    (h : IDPRemoveWriteModel.SameDomain a b) :
    IDPRemoveWriteModel.SameDomain (a.reduceAdded id) (b.reduceAdded id) := by
  obtain ⟨h1, h2⟩ := h
  unfold IDPRemoveWriteModel.reduceAdded
  by_cases hid : b.ID = id
  · rw [if_neg (not_not.mpr (h1.trans hid)), if_neg (not_not.mpr hid)]
    exact ⟨h1, rfl⟩
  · rw [if_pos (fun hc => hid (h1.symm.trans hc)), if_pos hid]
    exact ⟨h1, h2⟩

theorem IDPRemove_removed_same (a b : IDPRemoveWriteModel) (id : String)
    (h : IDPRemoveWriteModel.SameDomain a b) :
    IDPRemoveWriteModel.SameDomain (a.reduceRemoved id) (b.reduceRemoved id) := by
  obtain ⟨h1, h2⟩ := h
  unfold IDPRemoveWriteModel.reduceRemoved
  by_cases hid : b.ID = id
  · rw [if_neg (not_not.mpr (h1.trans hid)), if_neg (not_not.mpr hid)]
    exact ⟨h1, rfl⟩
  · rw [if_pos (fun hc => hid (h1.symm.trans hc)), if_pos hid]
    exact ⟨h1, h2⟩

/-- A step reads the domain fields only. -/
theorem IDPRemove_step_same (a b : IDPRemoveWriteModel) (e : Event)
    (h : IDPRemoveWriteModel.SameDomain a b) :
    IDPRemoveWriteModel.SameDomain (a.reduceEvent e) (b.reduceEvent e) := by
  unfold IDPRemoveWriteModel.reduceEvent
  split <;>
    first
      | exact IDPRemove_added_same _ _ _ h
      | exact IDPRemove_removed_same _ _ _ h
      | exact h

theorem IDPRemove_added_mix (s u t : IDPRemoveWriteModel) (id : String)
    (h : IDPRemoveWriteModel.Mix s u t) :
    IDPRemoveWriteModel.Mix (s.reduceAdded id) u (t.reduceAdded id) := by
  obtain ⟨h1, h2⟩ := h
  unfold IDPRemoveWriteModel.reduceAdded
  by_cases hid : s.ID = id
  · rw [if_neg (not_not.mpr hid), if_neg (not_not.mpr (h1.trans hid))]
    exact ⟨h1, pick_const _ _⟩
  · rw [if_pos hid, if_pos (fun hc => hid (h1.symm.trans hc))]
    exact ⟨h1, h2⟩

theorem IDPRemove_removed_mix (s u t : IDPRemoveWriteModel) (id : String)
    (h : IDPRemoveWriteModel.Mix s u t) :
    IDPRemoveWriteModel.Mix (s.reduceRemoved id) u (t.reduceRemoved id) := by
  obtain ⟨h1, h2⟩ := h
  unfold IDPRemoveWriteModel.reduceRemoved
  by_cases hid : s.ID = id
  · rw [if_neg (not_not.mpr hid), if_neg (not_not.mpr (h1.trans hid))]
    exact ⟨h1, pick_const _ _⟩
  · rw [if_pos hid, if_pos (fun hc => hid (h1.symm.trans hc))]
    exact ⟨h1, h2⟩

/-- A step keeps or overwrites each field. -/
theorem IDPRemove_step_mix (s u t : IDPRemoveWriteModel) (e : Event)
    (h : IDPRemoveWriteModel.Mix s u t) :
    IDPRemoveWriteModel.Mix (s.reduceEvent e) u (t.reduceEvent e) := by
  unfold IDPRemoveWriteModel.reduceEvent
  split <;>
    first
      | exact IDPRemove_added_mix _ _ _ _ h
      | exact IDPRemove_removed_mix _ _ _ _ h
      | exact h

theorem IDPRemove_mix_base {s t : IDPRemoveWriteModel} (h : IDPRemoveWriteModel.Mix s s t) :
    IDPRemoveWriteModel.SameDomain t s :=
  ⟨h.1, pick_base h.2⟩

theorem IDPRemove_mix_right (s u : IDPRemoveWriteModel) (h : u.ID = s.ID) :
    IDPRemoveWriteModel.Mix s u u :=
  ⟨h, pick_right _ _⟩

/-- On a buffer `L`, `Reduce` returns a model with the domain fields of the fold of `L`. -/
theorem IDPRemove_reduce_events (wm : IDPRemoveWriteModel) (L : List Event) :
    ∃ r, IDPRemoveWriteModel.Reduce { wm with Events := L } = .ok r ∧
      IDPRemoveWriteModel.SameDomain r (L.foldl IDPRemoveWriteModel.reduceEvent wm) := by
  obtain ⟨r, hr, hsame⟩ := IDPRemove_reduce_same { wm with Events := L }
  exact ⟨r, hr, IDPRemove_same_trans hsame
    (foldl_rel _ _ IDPRemove_step_same L _ _ (IDPRemove_same_events wm L))⟩

/-- Folding the same events a second time changes no domain field. -/
theorem IDPRemove_fold_idem (wm : IDPRemoveWriteModel) (L : List Event) :
    IDPRemoveWriteModel.SameDomain (L.foldl IDPRemoveWriteModel.reduceEvent (L.foldl IDPRemoveWriteModel.reduceEvent wm))
      (L.foldl IDPRemoveWriteModel.reduceEvent wm) :=
  foldl_absorb _ IDPRemoveWriteModel.Mix _ (fun _ _ h => IDPRemove_mix_base h) IDPRemove_step_mix L wm _
    (IDPRemove_mix_right _ _ (foldl_inv _ (fun s => s.ID) IDPRemove_step_id L wm))

/-! ### IDPTypeWriteModel -/

/-- The result of `Reduce`: the folded model, with `ProcessedSequence` advanced by the base. -/
theorem IDPType_reduce_eq (wm : IDPTypeWriteModel) :
    wm.Reduce = .ok
      { wm.Events.foldl IDPTypeWriteModel.reduceEvent wm with
        ProcessedSequence :=
          match (wm.Events.foldl IDPTypeWriteModel.reduceEvent wm).Events.getLast? with
          | none => (wm.Events.foldl IDPTypeWriteModel.reduceEvent wm).ProcessedSequence
          | some e => e.Sequence } := by
  cases h : (List.foldl IDPTypeWriteModel.reduceEvent wm wm.Events).Events.getLast? <;>
    simp only [IDPTypeWriteModel.Reduce, WriteModel.Reduce, h]

theorem IDPType_reduce_same (wm : IDPTypeWriteModel) :
    ∃ r, wm.Reduce = .ok r ∧
      IDPTypeWriteModel.SameDomain r (wm.Events.foldl IDPTypeWriteModel.reduceEvent wm) :=
  ⟨_, IDPType_reduce_eq wm, ⟨rfl, rfl, rfl⟩⟩

theorem IDPType_same_symm {a b : IDPTypeWriteModel} (h : IDPTypeWriteModel.SameDomain a b) :
    IDPTypeWriteModel.SameDomain b a := by
  obtain ⟨h1, h2, h3⟩ := h
  exact ⟨h1.symm, h2.symm, h3.symm⟩

theorem IDPType_same_trans {a b c : IDPTypeWriteModel} (h : IDPTypeWriteModel.SameDomain a b)
    (g : IDPTypeWriteModel.SameDomain b c) : IDPTypeWriteModel.SameDomain a c := by
  obtain ⟨h1, h2, h3⟩ := h
  obtain ⟨g1, g2, g3⟩ := g
  exact ⟨h1.trans g1, h2.trans g2, h3.trans g3⟩

/-- Replacing the event buffer changes no domain field. -/
theorem IDPType_same_events (wm : IDPTypeWriteModel) (L : List Event) :
    IDPTypeWriteModel.SameDomain { wm with Events := L } wm :=
  ⟨rfl, rfl, rfl⟩

theorem IDPType_added_id (wm : IDPTypeWriteModel) (id : String) (t : IDPType)
    (agg : Aggregate) : (wm.reduceAdded id t agg).ID = wm.ID := by
  unfold IDPTypeWriteModel.reduceAdded
  split <;> rfl

theorem IDPType_removed_id (wm : IDPTypeWriteModel) (id : String) :
    (wm.reduceRemoved id).ID = wm.ID := by
  unfold IDPTypeWriteModel.reduceRemoved
  split <;> rfl

theorem IDPType_config_id (wm : IDPTypeWriteModel) (e : IDPConfigAddedEvent)
    (agg : Aggregate) : (wm.reduceIDPConfigAdded e agg).ID = wm.ID := by
  unfold IDPTypeWriteModel.reduceIDPConfigAdded
  split
  · exact IDPType_added_id _ _ _ _
  · split
    · exact IDPType_added_id _ _ _ _
    · rfl

theorem IDPType_step_id (wm : IDPTypeWriteModel) (e : Event) :
    (wm.reduceEvent e).ID = wm.ID := by
  unfold IDPTypeWriteModel.reduceEvent
  split <;>
    first
      | exact IDPType_added_id _ _ _ _
      | exact IDPType_removed_id _ _
      | exact IDPType_config_id _ _ _
      | rfl

/-- An event of a type the switch does not name is skipped. -/
theorem IDPType_step_noop (wm : IDPTypeWriteModel) (e : Event)
    (h : e.goType ∉ IDPTypeWriteModel.switchTypes) : wm.reduceEvent e = wm := by
  obtain ⟨pkg, seq, agg, payload⟩ := e
  cases pkg <;> cases payload <;>
    first
      | rfl
      | (exfalso; apply h; simp [Event.goType, EventPayload.kind, IDPTypeWriteModel.switchTypes])

theorem IDPType_added_same (a b : IDPTypeWriteModel) (id : String) (t : IDPType)
    (agg : Aggregate) (h : IDPTypeWriteModel.SameDomain a b) :
    IDPTypeWriteModel.SameDomain (a.reduceAdded id t agg) (b.reduceAdded id t agg) := by
  obtain ⟨h1, h2, h3⟩ := h
  unfold IDPTypeWriteModel.reduceAdded
  by_cases hid : b.ID = id
  · rw [if_neg (not_not.mpr (h1.trans hid)), if_neg (not_not.mpr hid)]
    exact ⟨h1, rfl, rfl⟩
  · rw [if_pos (fun hc => hid (h1.symm.trans hc)), if_pos hid]
    exact ⟨h1, h2, h3⟩

theorem IDPType_removed_same (a b : IDPTypeWriteModel) (id : String)
    (h : IDPTypeWriteModel.SameDomain a b) :
    IDPTypeWriteModel.SameDomain (a.reduceRemoved id) (b.reduceRemoved id) := by
  obtain ⟨h1, h2, h3⟩ := h
  unfold IDPTypeWriteModel.reduceRemoved
  by_cases hid : b.ID = id
  · rw [if_neg (not_not.mpr (h1.trans hid)), if_neg (not_not.mpr hid)]
    exact ⟨h1, rfl, rfl⟩
  · rw [if_pos (fun hc => hid (h1.symm.trans hc)), if_pos hid]
    exact ⟨h1, h2, h3⟩

theorem IDPType_config_same (a b : IDPTypeWriteModel) (e : IDPConfigAddedEvent)
    (agg : Aggregate) (h : IDPTypeWriteModel.SameDomain a b) :
    IDPTypeWriteModel.SameDomain (a.reduceIDPConfigAdded e agg)
      (b.reduceIDPConfigAdded e agg) := by
  unfold IDPTypeWriteModel.reduceIDPConfigAdded
  split
  · exact IDPType_added_same _ _ _ _ _ h
  · split
    · exact IDPType_added_same _ _ _ _ _ h
    · exact h

/-- A step reads the domain fields only. -/
theorem IDPType_step_same (a b : IDPTypeWriteModel) (e : Event)
    (h : IDPTypeWriteModel.SameDomain a b) :
    IDPTypeWriteModel.SameDomain (a.reduceEvent e) (b.reduceEvent e) := by
  unfold IDPTypeWriteModel.reduceEvent
  split <;>
    first
      | exact IDPType_added_same _ _ _ _ _ h
      | exact IDPType_removed_same _ _ _ h
      | exact IDPType_config_same _ _ _ _ h
      | exact h

theorem IDPType_added_mix (s u t : IDPTypeWriteModel) (id : String) (ty : IDPType)
    (agg : Aggregate) (h : IDPTypeWriteModel.Mix s u t) :
    IDPTypeWriteModel.Mix (s.reduceAdded id ty agg) u (t.reduceAdded id ty agg) := by
  obtain ⟨h1, h2, h3⟩ := h
  unfold IDPTypeWriteModel.reduceAdded
  by_cases hid : s.ID = id
  · rw [if_neg (not_not.mpr hid), if_neg (not_not.mpr (h1.trans hid))]
    exact ⟨h1, pick_const _ _, pick_const _ _⟩
  · rw [if_pos hid, if_pos (fun hc => hid (h1.symm.trans hc))]
    exact ⟨h1, h2, h3⟩

theorem IDPType_removed_mix (s u t : IDPTypeWriteModel) (id : String)
    (h : IDPTypeWriteModel.Mix s u t) :
    IDPTypeWriteModel.Mix (s.reduceRemoved id) u (t.reduceRemoved id) := by
  obtain ⟨h1, h2, h3⟩ := h
  unfold IDPTypeWriteModel.reduceRemoved
  by_cases hid : s.ID = id
  · rw [if_neg (not_not.mpr hid), if_neg (not_not.mpr (h1.trans hid))]
    exact ⟨h1, pick_const _ _, pick_const _ _⟩
  · rw [if_pos hid, if_pos (fun hc => hid (h1.symm.trans hc))]
    exact ⟨h1, h2, h3⟩

theorem IDPType_config_mix (s u t : IDPTypeWriteModel) (e : IDPConfigAddedEvent)
    (agg : Aggregate) (h : IDPTypeWriteModel.Mix s u t) :
    IDPTypeWriteModel.Mix (s.reduceIDPConfigAdded e agg) u (t.reduceIDPConfigAdded e agg) := by
  unfold IDPTypeWriteModel.reduceIDPConfigAdded
  split
  · exact IDPType_added_mix _ _ _ _ _ _ h
  · split
    · exact IDPType_added_mix _ _ _ _ _ _ h
    · exact h

/-- A step keeps or overwrites each field. -/
theorem IDPType_step_mix (s u t : IDPTypeWriteModel) (e : Event)
    (h : IDPTypeWriteModel.Mix s u t) :
    IDPTypeWriteModel.Mix (s.reduceEvent e) u (t.reduceEvent e) := by
  unfold IDPTypeWriteModel.reduceEvent
  split <;>
    first
      | exact IDPType_added_mix _ _ _ _ _ _ h
      | exact IDPType_removed_mix _ _ _ _ h
      | exact IDPType_config_mix _ _ _ _ _ h
      | exact h

theorem IDPType_mix_base {s t : IDPTypeWriteModel} (h : IDPTypeWriteModel.Mix s s t) :
    IDPTypeWriteModel.SameDomain t s :=
  ⟨h.1, pick_base h.2.1, pick_base h.2.2⟩

theorem IDPType_mix_right (s u : IDPTypeWriteModel) (h : u.ID = s.ID) :
    IDPTypeWriteModel.Mix s u u :=
  ⟨h, pick_right _ _, pick_right _ _⟩

/-- On a buffer `L`, `Reduce` returns a model with the domain fields of the fold of `L`. -/
theorem IDPType_reduce_events (wm : IDPTypeWriteModel) (L : List Event) :
    ∃ r, IDPTypeWriteModel.Reduce { wm with Events := L } = .ok r ∧
      IDPTypeWriteModel.SameDomain r (L.foldl IDPTypeWriteModel.reduceEvent wm) := by
  obtain ⟨r, hr, hsame⟩ := IDPType_reduce_same { wm with Events := L }
  exact ⟨r, hr, IDPType_same_trans hsame
    (foldl_rel _ _ IDPType_step_same L _ _ (IDPType_same_events wm L))⟩

/-- Folding the same events a second time changes no domain field. -/
theorem IDPType_fold_idem (wm : IDPTypeWriteModel) (L : List Event) :
    IDPTypeWriteModel.SameDomain (L.foldl IDPTypeWriteModel.reduceEvent (L.foldl IDPTypeWriteModel.reduceEvent wm))
      (L.foldl IDPTypeWriteModel.reduceEvent wm) :=
  foldl_absorb _ IDPTypeWriteModel.Mix _ (fun _ _ h => IDPType_mix_base h) IDPType_step_mix L wm _
    (IDPType_mix_right _ _ (foldl_inv _ (fun s => s.ID) IDPType_step_id L wm))

/-! ## The change set of `NewChanges` -/

/-- C1: for each of the ten provider write models and every state of it, `NewChanges` with an
empty secret string and every desired field equal to the stored one (name, client id,
endpoints, issuer, lists, booleans, timeout, LDAP attributes, Options) returns the empty
change list and no error. -/
theorem newChanges_unchanged_is_empty :
    (∀ (wm : OAuthIDPWriteModel) (secretCrypto : Crypto),
      wm.NewChanges wm.Name wm.ClientID "" secretCrypto wm.AuthorizationEndpoint wm.TokenEndpoint
        wm.UserEndpoint wm.IDAttribute wm.Scopes wm.Options = .ok []) ∧
    (∀ (wm : OIDCIDPWriteModel) (secretCrypto : Crypto),
      wm.NewChanges wm.Name wm.Issuer wm.ClientID "" secretCrypto wm.Scopes wm.IsIDTokenMapping
        wm.Options = .ok []) ∧
    (∀ (wm : JWTIDPWriteModel),
      wm.NewChanges wm.Name wm.Issuer wm.JWTEndpoint wm.KeysEndpoint wm.HeaderName wm.Options = .ok []) ∧
    (∀ (wm : AzureADIDPWriteModel) (secretCrypto : Crypto),
      wm.NewChanges wm.Name wm.ClientID "" secretCrypto wm.Scopes wm.Tenant wm.IsEmailVerified
        wm.Options = .ok []) ∧
    (∀ (wm : GitHubIDPWriteModel) (secretCrypto : Crypto),
      wm.NewChanges wm.Name wm.ClientID "" secretCrypto wm.Scopes wm.Options = .ok []) ∧
    (∀ (wm : GitHubEnterpriseIDPWriteModel) (secretCrypto : Crypto),
      wm.NewChanges wm.Name wm.ClientID "" secretCrypto wm.AuthorizationEndpoint wm.TokenEndpoint
        wm.UserEndpoint wm.Scopes wm.Options = .ok []) ∧
    (∀ (wm : GitLabIDPWriteModel) (secretCrypto : Crypto),
      wm.NewChanges wm.Name wm.ClientID "" secretCrypto wm.Scopes wm.Options = .ok []) ∧
    (∀ (wm : GitLabSelfHostedIDPWriteModel) (secretCrypto : Crypto),
      wm.NewChanges wm.Name wm.Issuer wm.ClientID "" secretCrypto wm.Scopes wm.Options = .ok []) ∧
    (∀ (wm : GoogleIDPWriteModel) (secretCrypto : Crypto),
      wm.NewChanges wm.Name wm.ClientID "" secretCrypto wm.Scopes wm.Options = .ok []) ∧
    (∀ (wm : LDAPIDPWriteModel) (secretCrypto : Crypto),
      wm.NewChanges wm.Name wm.Servers wm.StartTLS wm.BaseDN wm.BindDN "" wm.UserBase
        wm.UserObjectClasses wm.UserFilters wm.Timeout secretCrypto wm.LDAPAttributes wm.Options = .ok []) := by
  refine ⟨?_, ?_, ?_, ?_, ?_, ?_, ?_, ?_, ?_, ?_⟩
  · intro wm secretCrypto
    exact (OAuth_newChanges_eq wm _ _ _ _ _ _ _ _ _ _ none (Or.inl rfl)).trans
      (by simp [OAuthIDPWriteModel.comparedFields, differingEntries])
  · intro wm secretCrypto
    exact (OIDC_newChanges_eq wm _ _ _ _ _ _ _ _ none (Or.inl rfl)).trans
      (by simp [OIDCIDPWriteModel.comparedFields, differingEntries])
  · intro wm
    exact (JWT_newChanges_eq wm _ _ _ _ _ _).trans
      (by simp [JWTIDPWriteModel.comparedFields, differingEntries])
  · intro wm secretCrypto
    exact (AzureAD_newChanges_eq wm _ _ _ _ _ _ _ _ none (Or.inl rfl)).trans
      (by simp [AzureADIDPWriteModel.comparedFields, differingEntries])
  · intro wm secretCrypto
    exact (GitHub_newChanges_eq wm _ _ _ _ _ _ none (Or.inl rfl)).trans
      (by simp [GitHubIDPWriteModel.comparedFields, differingEntries])
  · intro wm secretCrypto
    exact (GitHubEnterprise_newChanges_eq wm _ _ _ _ _ _ _ _ _ none (Or.inl rfl)).trans
      (by simp [GitHubEnterpriseIDPWriteModel.comparedFields, differingEntries])
  · intro wm secretCrypto
    exact (GitLab_newChanges_eq wm _ _ _ _ _ _ none (Or.inl rfl)).trans
      (by simp [GitLabIDPWriteModel.comparedFields, differingEntries])
  · intro wm secretCrypto
    exact (GitLabSelfHosted_newChanges_eq wm _ _ _ _ _ _ _ none (Or.inl rfl)).trans
      (by simp [GitLabSelfHostedIDPWriteModel.comparedFields, differingEntries])
  · intro wm secretCrypto
    exact (Google_newChanges_eq wm _ _ _ _ _ _ none (Or.inl rfl)).trans
      (by simp [GoogleIDPWriteModel.comparedFields, differingEntries])
  · intro wm secretCrypto
    exact (LDAP_newChanges_eq wm _ _ _ _ _ _ _ _ _ _ _ _ _ none (Or.inl rfl)).trans
      (by simp [LDAPIDPWriteModel.comparedFields, differingEntries])

/-- C2: for each of the ten provider write models and every state of it, if the desired name
differs from the stored `Name`, the secret string is empty and every other desired field
equals the stored one, `NewChanges` returns exactly one entry, the name change carrying the
desired name. -/
theorem newChanges_rename_only :
    (∀ (wm : OAuthIDPWriteModel) (name : String) (secretCrypto : Crypto), wm.Name ≠ name →
      wm.NewChanges name wm.ClientID "" secretCrypto wm.AuthorizationEndpoint wm.TokenEndpoint
        wm.UserEndpoint wm.IDAttribute wm.Scopes wm.Options
        = .ok [.ChangeOAuthName name]) ∧
    (∀ (wm : OIDCIDPWriteModel) (name : String) (secretCrypto : Crypto), wm.Name ≠ name →
      wm.NewChanges name wm.Issuer wm.ClientID "" secretCrypto wm.Scopes wm.IsIDTokenMapping
        wm.Options
        = .ok [.ChangeOIDCName name]) ∧
    (∀ (wm : JWTIDPWriteModel) (name : String), wm.Name ≠ name →
      wm.NewChanges name wm.Issuer wm.JWTEndpoint wm.KeysEndpoint wm.HeaderName wm.Options
        = .ok [.ChangeJWTName name]) ∧
    (∀ (wm : AzureADIDPWriteModel) (name : String) (secretCrypto : Crypto), wm.Name ≠ name →
      wm.NewChanges name wm.ClientID "" secretCrypto wm.Scopes wm.Tenant wm.IsEmailVerified
        wm.Options
        = .ok [.ChangeAzureADName name]) ∧
    (∀ (wm : GitHubIDPWriteModel) (name : String) (secretCrypto : Crypto), wm.Name ≠ name →
      wm.NewChanges name wm.ClientID "" secretCrypto wm.Scopes wm.Options
        = .ok [.ChangeGitHubName name]) ∧
    (∀ (wm : GitHubEnterpriseIDPWriteModel) (name : String) (secretCrypto : Crypto), wm.Name ≠ name →
      wm.NewChanges name wm.ClientID "" secretCrypto wm.AuthorizationEndpoint wm.TokenEndpoint
        wm.UserEndpoint wm.Scopes wm.Options
        = .ok [.ChangeGitHubEnterpriseName name]) ∧
    (∀ (wm : GitLabIDPWriteModel) (name : String) (secretCrypto : Crypto), wm.Name ≠ name →
      wm.NewChanges name wm.ClientID "" secretCrypto wm.Scopes wm.Options
        = .ok [.ChangeGitLabName name]) ∧
    (∀ (wm : GitLabSelfHostedIDPWriteModel) (name : String) (secretCrypto : Crypto), wm.Name ≠ name →
      wm.NewChanges name wm.Issuer wm.ClientID "" secretCrypto wm.Scopes wm.Options
        = .ok [.ChangeGitLabSelfHostedName name]) ∧
    (∀ (wm : GoogleIDPWriteModel) (name : String) (secretCrypto : Crypto), wm.Name ≠ name →
      wm.NewChanges name wm.ClientID "" secretCrypto wm.Scopes wm.Options
        = .ok [.ChangeGoogleName name]) ∧
    (∀ (wm : LDAPIDPWriteModel) (name : String) (secretCrypto : Crypto), wm.Name ≠ name →
      wm.NewChanges name wm.Servers wm.StartTLS wm.BaseDN wm.BindDN "" wm.UserBase
        wm.UserObjectClasses wm.UserFilters wm.Timeout secretCrypto wm.LDAPAttributes wm.Options
        = .ok [.ChangeLDAPName name]) := by
  refine ⟨?_, ?_, ?_, ?_, ?_, ?_, ?_, ?_, ?_, ?_⟩
  · intro wm name secretCrypto h
    exact (OAuth_newChanges_eq wm _ _ _ _ _ _ _ _ _ _ none (Or.inl rfl)).trans
      (by simp [OAuthIDPWriteModel.comparedFields, differingEntries, h])
  · intro wm name secretCrypto h
    exact (OIDC_newChanges_eq wm _ _ _ _ _ _ _ _ none (Or.inl rfl)).trans
      (by simp [OIDCIDPWriteModel.comparedFields, differingEntries, h])
  · intro wm name h
    exact (JWT_newChanges_eq wm _ _ _ _ _ _).trans
      (by simp [JWTIDPWriteModel.comparedFields, differingEntries, h])
  · intro wm name secretCrypto h
    exact (AzureAD_newChanges_eq wm _ _ _ _ _ _ _ _ none (Or.inl rfl)).trans
      (by simp [AzureADIDPWriteModel.comparedFields, differingEntries, h])
  · intro wm name secretCrypto h
    exact (GitHub_newChanges_eq wm _ _ _ _ _ _ none (Or.inl rfl)).trans
      (by simp [GitHubIDPWriteModel.comparedFields, differingEntries, h])
  · intro wm name secretCrypto h
    exact (GitHubEnterprise_newChanges_eq wm _ _ _ _ _ _ _ _ _ none (Or.inl rfl)).trans
      (by simp [GitHubEnterpriseIDPWriteModel.comparedFields, differingEntries, h])
  · intro wm name secretCrypto h
    exact (GitLab_newChanges_eq wm _ _ _ _ _ _ none (Or.inl rfl)).trans
      (by simp [GitLabIDPWriteModel.comparedFields, differingEntries, h])
  · intro wm name secretCrypto h
    exact (GitLabSelfHosted_newChanges_eq wm _ _ _ _ _ _ _ none (Or.inl rfl)).trans
      (by simp [GitLabSelfHostedIDPWriteModel.comparedFields, differingEntries, h])
  · intro wm name secretCrypto h
    exact (Google_newChanges_eq wm _ _ _ _ _ _ none (Or.inl rfl)).trans
      (by simp [GoogleIDPWriteModel.comparedFields, differingEntries, h])
  · intro wm name secretCrypto h
    exact (LDAP_newChanges_eq wm _ _ _ _ _ _ _ _ _ _ _ _ _ none (Or.inl rfl)).trans
      (by simp [LDAPIDPWriteModel.comparedFields, differingEntries, h])

/-- The rename scenario of C2: the OAuth write model with `Name = "A"`, `ClientID = "1"`
diffed against name `"B"` and client id `"1"` yields the single entry `ChangeOAuthName "B"`. -/
theorem newChanges_rename_only_witness :
    scenarioOAuth.Name ≠ "B" ∧
      scenarioOAuth.NewChanges "B" "1" "" scenarioCrypto scenarioOAuth.AuthorizationEndpoint
          scenarioOAuth.TokenEndpoint scenarioOAuth.UserEndpoint scenarioOAuth.IDAttribute
          scenarioOAuth.Scopes scenarioOAuth.Options
        = .ok [.ChangeOAuthName "B"] :=
  ⟨by decide, newChanges_rename_only.1 scenarioOAuth "B" scenarioCrypto (by decide)⟩

/-- C3: for each of the ten provider write models, every state of it and every desired
configuration for which encryption succeeds, the list `NewChanges` returns holds, for each
compared field (the Options bundle and the LDAP attribute bundle counting as one field
each), exactly one entry if the stored value differs from the desired one and none if they
are equal; its length is the number of differing fields, plus one if the secret string is
non-empty; and no two entries are for the same field. -/
theorem newChanges_one_entry_per_differing_field :
    (∀ (wm : OAuthIDPWriteModel) (name clientID clientSecretString : String)
        (secretCrypto : Crypto)
        (authorizationEndpoint tokenEndpoint userEndpoint idAttribute : String)
        (scopes : StringSlice) (options : Zitadel.Options) (v : Option CryptoValue),
      (clientSecretString = "" ∨ Crypt clientSecretString secretCrypto = .ok v) →
      ∃ cs,
        wm.NewChanges name clientID clientSecretString secretCrypto authorizationEndpoint
          tokenEndpoint userEndpoint idAttribute scopes options = .ok cs ∧
        (∀ r ∈ wm.comparedFields name clientID authorizationEndpoint tokenEndpoint userEndpoint
            idAttribute scopes options,
          cs.count r.2 = if r.1 then 1 else 0) ∧
        cs.length = (wm.comparedFields name clientID authorizationEndpoint tokenEndpoint
            userEndpoint idAttribute scopes options).countP
            (fun r => r.1) + (if clientSecretString ≠ "" then 1 else 0) ∧
        (cs.map OAuthIDPChanges.field).Nodup) ∧
    (∀ (wm : OIDCIDPWriteModel) (name issuer clientID clientSecretString : String)
        (secretCrypto : Crypto) (scopes : StringSlice) (idTokenMapping : Bool)
        (options : Zitadel.Options) (v : Option CryptoValue),
      (clientSecretString = "" ∨ Crypt clientSecretString secretCrypto = .ok v) →
      ∃ cs,
        wm.NewChanges name issuer clientID clientSecretString secretCrypto scopes idTokenMapping
          options = .ok cs ∧
        (∀ r ∈ wm.comparedFields name issuer clientID scopes idTokenMapping options,
          cs.count r.2 = if r.1 then 1 else 0) ∧
        cs.length = (wm.comparedFields name issuer clientID scopes idTokenMapping options).countP
            (fun r => r.1) + (if clientSecretString ≠ "" then 1 else 0) ∧
        (cs.map OIDCIDPChanges.field).Nodup) ∧
    (∀ (wm : JWTIDPWriteModel) (name issuer jwtEndpoint keysEndpoint headerName : String)
        (options : Zitadel.Options),
      ∃ cs,
        wm.NewChanges name issuer jwtEndpoint keysEndpoint headerName options = .ok cs ∧
        (∀ r ∈ wm.comparedFields name issuer jwtEndpoint keysEndpoint headerName options,
          cs.count r.2 = if r.1 then 1 else 0) ∧
        cs.length = (wm.comparedFields name issuer jwtEndpoint keysEndpoint headerName
            options).countP
            (fun r => r.1) ∧
        (cs.map JWTIDPChanges.field).Nodup) ∧
    (∀ (wm : AzureADIDPWriteModel) (name clientID clientSecretString : String)
        (secretCrypto : Crypto) (scopes : StringSlice) (tenant : String) (isEmailVerified : Bool)
        (options : Zitadel.Options) (v : Option CryptoValue),
      (clientSecretString = "" ∨ Crypt clientSecretString secretCrypto = .ok v) →
      ∃ cs,
        wm.NewChanges name clientID clientSecretString secretCrypto scopes tenant isEmailVerified
          options = .ok cs ∧
        (∀ r ∈ wm.comparedFields name clientID scopes tenant isEmailVerified options,
          cs.count r.2 = if r.1 then 1 else 0) ∧
        cs.length = (wm.comparedFields name clientID scopes tenant isEmailVerified options).countP
            (fun r => r.1) + (if clientSecretString ≠ "" then 1 else 0) ∧
        (cs.map AzureADIDPChanges.field).Nodup) ∧
    (∀ (wm : GitHubIDPWriteModel) (name clientID clientSecretString : String)
        (secretCrypto : Crypto) (scopes : StringSlice) (options : Zitadel.Options)
        (v : Option CryptoValue),
      (clientSecretString = "" ∨ Crypt clientSecretString secretCrypto = .ok v) →
      ∃ cs,
        wm.NewChanges name clientID clientSecretString secretCrypto scopes options = .ok cs ∧
        (∀ r ∈ wm.comparedFields name clientID scopes options,
          cs.count r.2 = if r.1 then 1 else 0) ∧
        cs.length = (wm.comparedFields name clientID scopes options).countP
            (fun r => r.1) + (if clientSecretString ≠ "" then 1 else 0) ∧
        (cs.map GitHubIDPChanges.field).Nodup) ∧
    (∀ (wm : GitHubEnterpriseIDPWriteModel) (name clientID clientSecretString : String)
        (secretCrypto : Crypto) (authorizationEndpoint tokenEndpoint userEndpoint : String)
        (scopes : StringSlice) (options : Zitadel.Options) (v : Option CryptoValue),
      (clientSecretString = "" ∨ Crypt clientSecretString secretCrypto = .ok v) →
      ∃ cs,
        wm.NewChanges name clientID clientSecretString secretCrypto authorizationEndpoint
          tokenEndpoint userEndpoint scopes options = .ok cs ∧
        (∀ r ∈ wm.comparedFields name clientID authorizationEndpoint tokenEndpoint userEndpoint
            scopes options,
          cs.count r.2 = if r.1 then 1 else 0) ∧
        cs.length = (wm.comparedFields name clientID authorizationEndpoint tokenEndpoint
            userEndpoint scopes options).countP
            (fun r => r.1) + (if clientSecretString ≠ "" then 1 else 0) ∧
        (cs.map GitHubEnterpriseIDPChanges.field).Nodup) ∧
    (∀ (wm : GitLabIDPWriteModel) (name clientID clientSecretString : String)
        (secretCrypto : Crypto) (scopes : StringSlice) (options : Zitadel.Options)
        (v : Option CryptoValue),
      (clientSecretString = "" ∨ Crypt clientSecretString secretCrypto = .ok v) →
      ∃ cs,
        wm.NewChanges name clientID clientSecretString secretCrypto scopes options = .ok cs ∧
        (∀ r ∈ wm.comparedFields name clientID scopes options,
          cs.count r.2 = if r.1 then 1 else 0) ∧
        cs.length = (wm.comparedFields name clientID scopes options).countP
            (fun r => r.1) + (if clientSecretString ≠ "" then 1 else 0) ∧
        (cs.map GitLabIDPChanges.field).Nodup) ∧
    (∀ (wm : GitLabSelfHostedIDPWriteModel) (name issuer clientID clientSecretString : String)
        (secretCrypto : Crypto) (scopes : StringSlice) (options : Zitadel.Options)
        (v : Option CryptoValue),
      (clientSecretString = "" ∨ Crypt clientSecretString secretCrypto = .ok v) →
      ∃ cs,
        wm.NewChanges name issuer clientID clientSecretString secretCrypto scopes options = .ok cs ∧
        (∀ r ∈ wm.comparedFields name issuer clientID scopes options,
          cs.count r.2 = if r.1 then 1 else 0) ∧
        cs.length = (wm.comparedFields name issuer clientID scopes options).countP
            (fun r => r.1) + (if clientSecretString ≠ "" then 1 else 0) ∧
        (cs.map GitLabSelfHostedIDPChanges.field).Nodup) ∧
    (∀ (wm : GoogleIDPWriteModel) (name clientID clientSecretString : String)
        (secretCrypto : Crypto) (scopes : StringSlice) (options : Zitadel.Options)
        (v : Option CryptoValue),
      (clientSecretString = "" ∨ Crypt clientSecretString secretCrypto = .ok v) →
      ∃ cs,
        wm.NewChanges name clientID clientSecretString secretCrypto scopes options = .ok cs ∧
        (∀ r ∈ wm.comparedFields name clientID scopes options,
          cs.count r.2 = if r.1 then 1 else 0) ∧
        cs.length = (wm.comparedFields name clientID scopes options).countP
            (fun r => r.1) + (if clientSecretString ≠ "" then 1 else 0) ∧
        (cs.map GoogleIDPChanges.field).Nodup) ∧
    (∀ (wm : LDAPIDPWriteModel) (name : String) (servers : StringSlice) (startTLS : Bool)
        (baseDN bindDN bindPassword userBase : String)
        (userObjectClasses userFilters : StringSlice) (timeout : Int) (secretCrypto : Crypto)
        (attributes : Zitadel.LDAPAttributes) (options : Zitadel.Options)
        (v : Option CryptoValue),
      (bindPassword = "" ∨ Crypt bindPassword secretCrypto = .ok v) →
      ∃ cs,
        wm.NewChanges name servers startTLS baseDN bindDN bindPassword userBase userObjectClasses
          userFilters timeout secretCrypto attributes options = .ok cs ∧
        (∀ r ∈ wm.comparedFields name servers startTLS baseDN bindDN userBase userObjectClasses
            userFilters timeout attributes options,
          cs.count r.2 = if r.1 then 1 else 0) ∧
        cs.length = (wm.comparedFields name servers startTLS baseDN bindDN userBase
            userObjectClasses userFilters timeout attributes options).countP
            (fun r => r.1) + (if bindPassword ≠ "" then 1 else 0) ∧
        (cs.map LDAPIDPChanges.field).Nodup) := by
  refine ⟨?_, ?_, ?_, ?_, ?_, ?_, ?_, ?_, ?_, ?_⟩
  · intro wm name clientID clientSecretString secretCrypto authorizationEndpoint tokenEndpoint userEndpoint idAttribute scopes options v h
    obtain ⟨h1, h2, h3⟩ := differingEntries_facts OAuthIDPChanges.field _ _
      (OAuth_rows_nodup wm name clientID clientSecretString authorizationEndpoint tokenEndpoint userEndpoint idAttribute scopes options v)
    refine ⟨_, OAuth_newChanges_eq wm _ _ _ _ _ _ _ _ _ _ v h, h1, ?_, h3⟩
    rw [h2]
    simp only [decide_eq_true_eq]
  · intro wm name issuer clientID clientSecretString secretCrypto scopes idTokenMapping options v h
    obtain ⟨h1, h2, h3⟩ := differingEntries_facts OIDCIDPChanges.field _ _
      (OIDC_rows_nodup wm name issuer clientID clientSecretString scopes idTokenMapping options v)
    refine ⟨_, OIDC_newChanges_eq wm _ _ _ _ _ _ _ _ v h, h1, ?_, h3⟩
    rw [h2]
    simp only [decide_eq_true_eq]
  · intro wm name issuer jwtEndpoint keysEndpoint headerName options
    have hnd := JWT_rows_nodup wm name issuer jwtEndpoint keysEndpoint headerName options
    exact ⟨_, JWT_newChanges_eq wm _ _ _ _ _ _, differingEntries_count JWTIDPChanges.field _ hnd,
      differingEntries_length _, differingEntries_nodup JWTIDPChanges.field _ hnd⟩
  · intro wm name clientID clientSecretString secretCrypto scopes tenant isEmailVerified options v h
    obtain ⟨h1, h2, h3⟩ := differingEntries_facts AzureADIDPChanges.field _ _
      (AzureAD_rows_nodup wm name clientID clientSecretString scopes tenant isEmailVerified options v)
    refine ⟨_, AzureAD_newChanges_eq wm _ _ _ _ _ _ _ _ v h, h1, ?_, h3⟩
    rw [h2]
    simp only [decide_eq_true_eq]
  · intro wm name clientID clientSecretString secretCrypto scopes options v h
    obtain ⟨h1, h2, h3⟩ := differingEntries_facts GitHubIDPChanges.field _ _
      (GitHub_rows_nodup wm name clientID clientSecretString scopes options v)
    refine ⟨_, GitHub_newChanges_eq wm _ _ _ _ _ _ v h, h1, ?_, h3⟩
    rw [h2]
    simp only [decide_eq_true_eq]
  · intro wm name clientID clientSecretString secretCrypto authorizationEndpoint tokenEndpoint userEndpoint scopes options v h
    obtain ⟨h1, h2, h3⟩ := differingEntries_facts GitHubEnterpriseIDPChanges.field _ _
      (GitHubEnterprise_rows_nodup wm name clientID clientSecretString authorizationEndpoint tokenEndpoint userEndpoint scopes options v)
    refine ⟨_, GitHubEnterprise_newChanges_eq wm _ _ _ _ _ _ _ _ _ v h, h1, ?_, h3⟩
    rw [h2]
    simp only [decide_eq_true_eq]
  · intro wm name clientID clientSecretString secretCrypto scopes options v h
    obtain ⟨h1, h2, h3⟩ := differingEntries_facts GitLabIDPChanges.field _ _
      (GitLab_rows_nodup wm name clientID clientSecretString scopes options v)
    refine ⟨_, GitLab_newChanges_eq wm _ _ _ _ _ _ v h, h1, ?_, h3⟩
    rw [h2]
    simp only [decide_eq_true_eq]
  · intro wm name issuer clientID clientSecretString secretCrypto scopes options v h
    obtain ⟨h1, h2, h3⟩ := differingEntries_facts GitLabSelfHostedIDPChanges.field _ _
      (GitLabSelfHosted_rows_nodup wm name issuer clientID clientSecretString scopes options v)
    refine ⟨_, GitLabSelfHosted_newChanges_eq wm _ _ _ _ _ _ _ v h, h1, ?_, h3⟩
    rw [h2]
    simp only [decide_eq_true_eq]
  · intro wm name clientID clientSecretString secretCrypto scopes options v h
    obtain ⟨h1, h2, h3⟩ := differingEntries_facts GoogleIDPChanges.field _ _
      (Google_rows_nodup wm name clientID clientSecretString scopes options v)
    refine ⟨_, Google_newChanges_eq wm _ _ _ _ _ _ v h, h1, ?_, h3⟩
    rw [h2]
    simp only [decide_eq_true_eq]
  · intro wm name servers startTLS baseDN bindDN bindPassword userBase userObjectClasses userFilters timeout secretCrypto attributes options v h
    obtain ⟨h1, h2, h3⟩ := differingEntries_facts LDAPIDPChanges.field _ _
      (LDAP_rows_nodup wm name servers startTLS baseDN bindDN bindPassword userBase userObjectClasses userFilters timeout attributes options v)
    refine ⟨_, LDAP_newChanges_eq wm _ _ _ _ _ _ _ _ _ _ _ _ _ v h, h1, ?_, h3⟩
    rw [h2]
    simp only [decide_eq_true_eq]

/-- An instance of C3: the OAuth write model of the scenario diffed against a new name, a
new secret and otherwise the stored values. -/
theorem newChanges_one_entry_per_differing_field_witness :
    ("s3cret" = "" ∨ Crypt "s3cret" scenarioCrypto
        = .ok (some { Algorithm := "aes256", KeyID := "key-1", Crypted := [17, 42] })) ∧
      ∃ cs,
        scenarioOAuth.NewChanges "B" "1" "s3cret" scenarioCrypto "https://idp/authorize"
          "https://idp/token" "https://idp/user" "sub" (some ["openid"])
          ⟨true, true, false, false⟩ = .ok cs ∧
        (∀ r ∈ scenarioOAuth.comparedFields "B" "1" "https://idp/authorize" "https://idp/token"
            "https://idp/user" "sub" (some ["openid"]) ⟨true, true, false, false⟩,
          cs.count r.2 = if r.1 then 1 else 0) ∧
        cs.length = (scenarioOAuth.comparedFields "B" "1" "https://idp/authorize"
            "https://idp/token" "https://idp/user" "sub" (some ["openid"])
            ⟨true, true, false, false⟩).countP
            (fun r => r.1) + (if "s3cret" ≠ "" then 1 else 0) ∧
        (cs.map OAuthIDPChanges.field).Nodup :=
  ⟨Or.inr rfl,
    newChanges_one_entry_per_differing_field.1 scenarioOAuth "B" "1" "s3cret" scenarioCrypto
      "https://idp/authorize" "https://idp/token" "https://idp/user" "sub" (some ["openid"])
      ⟨true, true, false, false⟩ _ (Or.inr rfl)⟩

/-- C4: for each of the nine secret-bearing write models (OAuth, OIDC, Azure AD, GitHub,
GitHub Enterprise, GitLab, GitLab self-hosted, Google, LDAP): with an empty secret string
`NewChanges` returns a list without a secret entry; with a non-empty secret string that
`Crypt` encrypts to `v` it returns, whatever the stored secret is, a list whose first entry
is the secret change carrying exactly `v`, and no other entry is a secret entry. -/
theorem newChanges_secret_entry :
    (∀ (wm : OAuthIDPWriteModel) (name clientID clientSecretString : String)
        (secretCrypto : Crypto)
        (authorizationEndpoint tokenEndpoint userEndpoint idAttribute : String)
        (scopes : StringSlice) (options : Zitadel.Options),
      (clientSecretString = "" →
        ∃ cs,
          wm.NewChanges name clientID clientSecretString secretCrypto authorizationEndpoint
            tokenEndpoint userEndpoint idAttribute scopes options = .ok cs ∧
          ∀ c ∈ cs, c.field ≠ .ClientSecret) ∧
      (∀ v, clientSecretString ≠ "" → Crypt clientSecretString secretCrypto = .ok v →
        ∃ rest,
          wm.NewChanges name clientID clientSecretString secretCrypto authorizationEndpoint
            tokenEndpoint userEndpoint idAttribute scopes options
            = .ok (.ChangeOAuthClientSecret v :: rest) ∧
          ∀ c ∈ rest, c.field ≠ .ClientSecret)) ∧
    (∀ (wm : OIDCIDPWriteModel) (name issuer clientID clientSecretString : String)
        (secretCrypto : Crypto) (scopes : StringSlice) (idTokenMapping : Bool)
        (options : Zitadel.Options),
      (clientSecretString = "" →
        ∃ cs,
          wm.NewChanges name issuer clientID clientSecretString secretCrypto scopes idTokenMapping
            options = .ok cs ∧
          ∀ c ∈ cs, c.field ≠ .ClientSecret) ∧
      (∀ v, clientSecretString ≠ "" → Crypt clientSecretString secretCrypto = .ok v →
        ∃ rest,
          wm.NewChanges name issuer clientID clientSecretString secretCrypto scopes idTokenMapping
            options
            = .ok (.ChangeOIDCClientSecret v :: rest) ∧
          ∀ c ∈ rest, c.field ≠ .ClientSecret)) ∧
    (∀ (wm : AzureADIDPWriteModel) (name clientID clientSecretString : String)
        (secretCrypto : Crypto) (scopes : StringSlice) (tenant : String) (isEmailVerified : Bool)
        (options : Zitadel.Options),
      (clientSecretString = "" →
        ∃ cs,
          wm.NewChanges name clientID clientSecretString secretCrypto scopes tenant
            isEmailVerified options = .ok cs ∧
          ∀ c ∈ cs, c.field ≠ .ClientSecret) ∧
      (∀ v, clientSecretString ≠ "" → Crypt clientSecretString secretCrypto = .ok v →
        ∃ rest,
          wm.NewChanges name clientID clientSecretString secretCrypto scopes tenant
            isEmailVerified options
            = .ok (.ChangeAzureADClientSecret v :: rest) ∧
          ∀ c ∈ rest, c.field ≠ .ClientSecret)) ∧
    (∀ (wm : GitHubIDPWriteModel) (name clientID clientSecretString : String)
        (secretCrypto : Crypto) (scopes : StringSlice) (options : Zitadel.Options),
      (clientSecretString = "" →
        ∃ cs,
          wm.NewChanges name clientID clientSecretString secretCrypto scopes options = .ok cs ∧
          ∀ c ∈ cs, c.field ≠ .ClientSecret) ∧
      (∀ v, clientSecretString ≠ "" → Crypt clientSecretString secretCrypto = .ok v →
        ∃ rest,
          wm.NewChanges name clientID clientSecretString secretCrypto scopes options
            = .ok (.ChangeGitHubClientSecret v :: rest) ∧
          ∀ c ∈ rest, c.field ≠ .ClientSecret)) ∧
    (∀ (wm : GitHubEnterpriseIDPWriteModel) (name clientID clientSecretString : String)
        (secretCrypto : Crypto) (authorizationEndpoint tokenEndpoint userEndpoint : String)
        (scopes : StringSlice) (options : Zitadel.Options),
      (clientSecretString = "" →
        ∃ cs,
          wm.NewChanges name clientID clientSecretString secretCrypto authorizationEndpoint
            tokenEndpoint userEndpoint scopes options = .ok cs ∧
          ∀ c ∈ cs, c.field ≠ .ClientSecret) ∧
      (∀ v, clientSecretString ≠ "" → Crypt clientSecretString secretCrypto = .ok v →
        ∃ rest,
          wm.NewChanges name clientID clientSecretString secretCrypto authorizationEndpoint
            tokenEndpoint userEndpoint scopes options
            = .ok (.ChangeGitHubEnterpriseClientSecret v :: rest) ∧
          ∀ c ∈ rest, c.field ≠ .ClientSecret)) ∧
    (∀ (wm : GitLabIDPWriteModel) (name clientID clientSecretString : String)
        (secretCrypto : Crypto) (scopes : StringSlice) (options : Zitadel.Options),
      (clientSecretString = "" →
        ∃ cs,
          wm.NewChanges name clientID clientSecretString secretCrypto scopes options = .ok cs ∧
          ∀ c ∈ cs, c.field ≠ .ClientSecret) ∧
      (∀ v, clientSecretString ≠ "" → Crypt clientSecretString secretCrypto = .ok v →
        ∃ rest,
          wm.NewChanges name clientID clientSecretString secretCrypto scopes options
            = .ok (.ChangeGitLabClientSecret v :: rest) ∧
          ∀ c ∈ rest, c.field ≠ .ClientSecret)) ∧
    (∀ (wm : GitLabSelfHostedIDPWriteModel) (name issuer clientID clientSecretString : String)
        (secretCrypto : Crypto) (scopes : StringSlice) (options : Zitadel.Options),
      (clientSecretString = "" →
        ∃ cs,
          wm.NewChanges name issuer clientID clientSecretString secretCrypto scopes options = .ok cs ∧
          ∀ c ∈ cs, c.field ≠ .ClientSecret) ∧
      (∀ v, clientSecretString ≠ "" → Crypt clientSecretString secretCrypto = .ok v →
        ∃ rest,
          wm.NewChanges name issuer clientID clientSecretString secretCrypto scopes options
            = .ok (.ChangeGitLabSelfHostedClientSecret v :: rest) ∧
          ∀ c ∈ rest, c.field ≠ .ClientSecret)) ∧
    (∀ (wm : GoogleIDPWriteModel) (name clientID clientSecretString : String)
        (secretCrypto : Crypto) (scopes : StringSlice) (options : Zitadel.Options),
      (clientSecretString = "" →
        ∃ cs,
          wm.NewChanges name clientID clientSecretString secretCrypto scopes options = .ok cs ∧
          ∀ c ∈ cs, c.field ≠ .ClientSecret) ∧
      (∀ v, clientSecretString ≠ "" → Crypt clientSecretString secretCrypto = .ok v →
        ∃ rest,
          wm.NewChanges name clientID clientSecretString secretCrypto scopes options
            = .ok (.ChangeGoogleClientSecret v :: rest) ∧
          ∀ c ∈ rest, c.field ≠ .ClientSecret)) ∧
    (∀ (wm : LDAPIDPWriteModel) (name : String) (servers : StringSlice) (startTLS : Bool)
        (baseDN bindDN bindPassword userBase : String)
        (userObjectClasses userFilters : StringSlice) (timeout : Int) (secretCrypto : Crypto)
        (attributes : Zitadel.LDAPAttributes) (options : Zitadel.Options),
      (bindPassword = "" →
        ∃ cs,
          wm.NewChanges name servers startTLS baseDN bindDN bindPassword userBase
            userObjectClasses userFilters timeout secretCrypto attributes options = .ok cs ∧
          ∀ c ∈ cs, c.field ≠ .BindPassword) ∧
      (∀ v, bindPassword ≠ "" → Crypt bindPassword secretCrypto = .ok v →
        ∃ rest,
          wm.NewChanges name servers startTLS baseDN bindDN bindPassword userBase
            userObjectClasses userFilters timeout secretCrypto attributes options
            = .ok (.ChangeLDAPBindPassword v :: rest) ∧
          ∀ c ∈ rest, c.field ≠ .BindPassword)) := by
  refine ⟨?_, ?_, ?_, ?_, ?_, ?_, ?_, ?_, ?_⟩
  · intro wm name clientID clientSecretString secretCrypto authorizationEndpoint tokenEndpoint userEndpoint idAttribute scopes options
    have hrows : ∀ r ∈ wm.comparedFields name clientID authorizationEndpoint tokenEndpoint
          userEndpoint idAttribute scopes options,
        r.2.field ≠ .ClientSecret := by
      simp [OAuthIDPWriteModel.comparedFields, OAuthIDPChanges.field]
    constructor
    · intro hs
      refine ⟨_, OAuth_newChanges_eq wm _ _ _ _ _ _ _ _ _ _ none (Or.inl hs), ?_⟩
      rw [differingEntries_cons, if_neg (by simp [hs]), List.nil_append]
      exact differingEntries_forall _ _ hrows
    · intro v hs hv
      refine ⟨_, (OAuth_newChanges_eq wm _ _ _ _ _ _ _ _ _ _ v (Or.inr hv)).trans ?_,
        differingEntries_forall _ _ hrows⟩
      rw [differingEntries_cons, if_pos (by simp [hs]), List.singleton_append]
  · intro wm name issuer clientID clientSecretString secretCrypto scopes idTokenMapping options
    have hrows : ∀ r ∈ wm.comparedFields name issuer clientID scopes idTokenMapping options,
        r.2.field ≠ .ClientSecret := by
      simp [OIDCIDPWriteModel.comparedFields, OIDCIDPChanges.field]
    constructor
    · intro hs
      refine ⟨_, OIDC_newChanges_eq wm _ _ _ _ _ _ _ _ none (Or.inl hs), ?_⟩
      rw [differingEntries_cons, if_neg (by simp [hs]), List.nil_append]
      exact differingEntries_forall _ _ hrows
    · intro v hs hv
      refine ⟨_, (OIDC_newChanges_eq wm _ _ _ _ _ _ _ _ v (Or.inr hv)).trans ?_,
        differingEntries_forall _ _ hrows⟩
      rw [differingEntries_cons, if_pos (by simp [hs]), List.singleton_append]
  · intro wm name clientID clientSecretString secretCrypto scopes tenant isEmailVerified options
    have hrows : ∀ r ∈ wm.comparedFields name clientID scopes tenant isEmailVerified options,
        r.2.field ≠ .ClientSecret := by
      simp [AzureADIDPWriteModel.comparedFields, AzureADIDPChanges.field]
    constructor
    · intro hs
      refine ⟨_, AzureAD_newChanges_eq wm _ _ _ _ _ _ _ _ none (Or.inl hs), ?_⟩
      rw [differingEntries_cons, if_neg (by simp [hs]), List.nil_append]
      exact differingEntries_forall _ _ hrows
    · intro v hs hv
      refine ⟨_, (AzureAD_newChanges_eq wm _ _ _ _ _ _ _ _ v (Or.inr hv)).trans ?_,
        differingEntries_forall _ _ hrows⟩
      rw [differingEntries_cons, if_pos (by simp [hs]), List.singleton_append]
  · intro wm name clientID clientSecretString secretCrypto scopes options
    have hrows : ∀ r ∈ wm.comparedFields name clientID scopes options,
        r.2.field ≠ .ClientSecret := by
      simp [GitHubIDPWriteModel.comparedFields, GitHubIDPChanges.field]
    constructor
    · intro hs
      refine ⟨_, GitHub_newChanges_eq wm _ _ _ _ _ _ none (Or.inl hs), ?_⟩
      rw [differingEntries_cons, if_neg (by simp [hs]), List.nil_append]
      exact differingEntries_forall _ _ hrows
    · intro v hs hv
      refine ⟨_, (GitHub_newChanges_eq wm _ _ _ _ _ _ v (Or.inr hv)).trans ?_,
        differingEntries_forall _ _ hrows⟩
      rw [differingEntries_cons, if_pos (by simp [hs]), List.singleton_append]
  · intro wm name clientID clientSecretString secretCrypto authorizationEndpoint tokenEndpoint userEndpoint scopes options
    have hrows : ∀ r ∈ wm.comparedFields name clientID authorizationEndpoint tokenEndpoint
          userEndpoint scopes options,
        r.2.field ≠ .ClientSecret := by
      simp [GitHubEnterpriseIDPWriteModel.comparedFields, GitHubEnterpriseIDPChanges.field]
    constructor
    · intro hs
      refine ⟨_, GitHubEnterprise_newChanges_eq wm _ _ _ _ _ _ _ _ _ none (Or.inl hs), ?_⟩
      rw [differingEntries_cons, if_neg (by simp [hs]), List.nil_append]
      exact differingEntries_forall _ _ hrows
    · intro v hs hv
      refine ⟨_, (GitHubEnterprise_newChanges_eq wm _ _ _ _ _ _ _ _ _ v (Or.inr hv)).trans ?_,
        differingEntries_forall _ _ hrows⟩
      rw [differingEntries_cons, if_pos (by simp [hs]), List.singleton_append]
  · intro wm name clientID clientSecretString secretCrypto scopes options
    have hrows : ∀ r ∈ wm.comparedFields name clientID scopes options,
        r.2.field ≠ .ClientSecret := by
      simp [GitLabIDPWriteModel.comparedFields, GitLabIDPChanges.field]
    constructor
    · intro hs
      refine ⟨_, GitLab_newChanges_eq wm _ _ _ _ _ _ none (Or.inl hs), ?_⟩
      rw [differingEntries_cons, if_neg (by simp [hs]), List.nil_append]
      exact differingEntries_forall _ _ hrows
    · intro v hs hv
      refine ⟨_, (GitLab_newChanges_eq wm _ _ _ _ _ _ v (Or.inr hv)).trans ?_,
        differingEntries_forall _ _ hrows⟩
      rw [differingEntries_cons, if_pos (by simp [hs]), List.singleton_append]
  · intro wm name issuer clientID clientSecretString secretCrypto scopes options
    have hrows : ∀ r ∈ wm.comparedFields name issuer clientID scopes options,
        r.2.field ≠ .ClientSecret := by
      simp [GitLabSelfHostedIDPWriteModel.comparedFields, GitLabSelfHostedIDPChanges.field]
    constructor
    · intro hs
      refine ⟨_, GitLabSelfHosted_newChanges_eq wm _ _ _ _ _ _ _ none (Or.inl hs), ?_⟩
      rw [differingEntries_cons, if_neg (by simp [hs]), List.nil_append]
      exact differingEntries_forall _ _ hrows
    · intro v hs hv
      refine ⟨_, (GitLabSelfHosted_newChanges_eq wm _ _ _ _ _ _ _ v (Or.inr hv)).trans ?_,
        differingEntries_forall _ _ hrows⟩
      rw [differingEntries_cons, if_pos (by simp [hs]), List.singleton_append]
  · intro wm name clientID clientSecretString secretCrypto scopes options
    have hrows : ∀ r ∈ wm.comparedFields name clientID scopes options,
        r.2.field ≠ .ClientSecret := by
      simp [GoogleIDPWriteModel.comparedFields, GoogleIDPChanges.field]
    constructor
    · intro hs
      refine ⟨_, Google_newChanges_eq wm _ _ _ _ _ _ none (Or.inl hs), ?_⟩
      rw [differingEntries_cons, if_neg (by simp [hs]), List.nil_append]
      exact differingEntries_forall _ _ hrows
    · intro v hs hv
      refine ⟨_, (Google_newChanges_eq wm _ _ _ _ _ _ v (Or.inr hv)).trans ?_,
        differingEntries_forall _ _ hrows⟩
      rw [differingEntries_cons, if_pos (by simp [hs]), List.singleton_append]
  · intro wm name servers startTLS baseDN bindDN bindPassword userBase userObjectClasses userFilters timeout secretCrypto attributes options
    have hrows : ∀ r ∈ wm.comparedFields name servers startTLS baseDN bindDN userBase
          userObjectClasses userFilters timeout attributes options,
        r.2.field ≠ .BindPassword := by
      simp [LDAPIDPWriteModel.comparedFields, LDAPIDPChanges.field]
    constructor
    · intro hs
      refine ⟨_, LDAP_newChanges_eq wm _ _ _ _ _ _ _ _ _ _ _ _ _ none (Or.inl hs), ?_⟩
      rw [differingEntries_cons, if_neg (by simp [hs]), List.nil_append]
      exact differingEntries_forall _ _ hrows
    · intro v hs hv
      refine ⟨_, (LDAP_newChanges_eq wm _ _ _ _ _ _ _ _ _ _ _ _ _ v (Or.inr hv)).trans ?_,
        differingEntries_forall _ _ hrows⟩
      rw [differingEntries_cons, if_pos (by simp [hs]), List.singleton_append]

/-- An instance of C4: a new secret for the OAuth write model of the scenario. -/
theorem newChanges_secret_entry_witness :
    "s3cret" ≠ "" ∧
      ∃ rest,
        scenarioOAuth.NewChanges "A" "1" "s3cret" scenarioCrypto "https://idp/authorize"
          "https://idp/token" "https://idp/user" "sub" (some ["openid"])
          ⟨true, true, false, false⟩
          = .ok (.ChangeOAuthClientSecret
              (some { Algorithm := "aes256", KeyID := "key-1", Crypted := [17, 42] }) :: rest) ∧
        ∀ c ∈ rest, c.field ≠ .ClientSecret :=
  ⟨by decide,
    (newChanges_secret_entry.1 scenarioOAuth "A" "1" "s3cret" scenarioCrypto
      "https://idp/authorize" "https://idp/token" "https://idp/user" "sub" (some ["openid"])
      ⟨true, true, false, false⟩).2 _ (by decide) rfl⟩

/-- C5: for each of the ten provider write models, the list `NewChanges` returns contains
exactly one Options change entry if at least one of the four option flags
(IsCreationAllowed, IsLinkingAllowed, IsAutoCreation, IsAutoUpdate) differs between the
stored and the desired Options, and none otherwise; for LDAP the same holds, independently,
for the entry of the LDAPAttributes bundle. -/
theorem newChanges_options_entry :
    (∀ (wm : OAuthIDPWriteModel) (name clientID clientSecretString : String)
        (secretCrypto : Crypto)
        (authorizationEndpoint tokenEndpoint userEndpoint idAttribute : String)
        (scopes : StringSlice) (options : Zitadel.Options) (cs : List OAuthIDPChanges),
      wm.NewChanges name clientID clientSecretString secretCrypto authorizationEndpoint
        tokenEndpoint userEndpoint idAttribute scopes options = .ok cs →
      cs.countP (fun c => decide (c.field = .Options)) =
        (if wm.Options.IsCreationAllowed ≠ options.IsCreationAllowed ∨
            wm.Options.IsLinkingAllowed ≠ options.IsLinkingAllowed ∨
            wm.Options.IsAutoCreation ≠ options.IsAutoCreation ∨
            wm.Options.IsAutoUpdate ≠ options.IsAutoUpdate then 1 else 0)) ∧
    (∀ (wm : OIDCIDPWriteModel) (name issuer clientID clientSecretString : String)
        (secretCrypto : Crypto) (scopes : StringSlice) (idTokenMapping : Bool)
        (options : Zitadel.Options) (cs : List OIDCIDPChanges),
      wm.NewChanges name issuer clientID clientSecretString secretCrypto scopes idTokenMapping
        options = .ok cs →
      cs.countP (fun c => decide (c.field = .Options)) =
        (if wm.Options.IsCreationAllowed ≠ options.IsCreationAllowed ∨
            wm.Options.IsLinkingAllowed ≠ options.IsLinkingAllowed ∨
            wm.Options.IsAutoCreation ≠ options.IsAutoCreation ∨
            wm.Options.IsAutoUpdate ≠ options.IsAutoUpdate then 1 else 0)) ∧
    (∀ (wm : JWTIDPWriteModel) (name issuer jwtEndpoint keysEndpoint headerName : String)
        (options : Zitadel.Options) (cs : List JWTIDPChanges),
      wm.NewChanges name issuer jwtEndpoint keysEndpoint headerName options = .ok cs →
      cs.countP (fun c => decide (c.field = .Options)) =
        (if wm.Options.IsCreationAllowed ≠ options.IsCreationAllowed ∨
            wm.Options.IsLinkingAllowed ≠ options.IsLinkingAllowed ∨
            wm.Options.IsAutoCreation ≠ options.IsAutoCreation ∨
            wm.Options.IsAutoUpdate ≠ options.IsAutoUpdate then 1 else 0)) ∧
    (∀ (wm : AzureADIDPWriteModel) (name clientID clientSecretString : String)
        (secretCrypto : Crypto) (scopes : StringSlice) (tenant : String) (isEmailVerified : Bool)
        (options : Zitadel.Options) (cs : List AzureADIDPChanges),
      wm.NewChanges name clientID clientSecretString secretCrypto scopes tenant isEmailVerified
        options = .ok cs →
      cs.countP (fun c => decide (c.field = .Options)) =
        (if wm.Options.IsCreationAllowed ≠ options.IsCreationAllowed ∨
            wm.Options.IsLinkingAllowed ≠ options.IsLinkingAllowed ∨
            wm.Options.IsAutoCreation ≠ options.IsAutoCreation ∨
            wm.Options.IsAutoUpdate ≠ options.IsAutoUpdate then 1 else 0)) ∧
    (∀ (wm : GitHubIDPWriteModel) (name clientID clientSecretString : String)
        (secretCrypto : Crypto) (scopes : StringSlice) (options : Zitadel.Options)
        (cs : List GitHubIDPChanges),
      wm.NewChanges name clientID clientSecretString secretCrypto scopes options = .ok cs →
      cs.countP (fun c => decide (c.field = .Options)) =
        (if wm.Options.IsCreationAllowed ≠ options.IsCreationAllowed ∨
            wm.Options.IsLinkingAllowed ≠ options.IsLinkingAllowed ∨
            wm.Options.IsAutoCreation ≠ options.IsAutoCreation ∨
            wm.Options.IsAutoUpdate ≠ options.IsAutoUpdate then 1 else 0)) ∧
    (∀ (wm : GitHubEnterpriseIDPWriteModel) (name clientID clientSecretString : String)
        (secretCrypto : Crypto) (authorizationEndpoint tokenEndpoint userEndpoint : String)
        (scopes : StringSlice) (options : Zitadel.Options) (cs : List GitHubEnterpriseIDPChanges),
      wm.NewChanges name clientID clientSecretString secretCrypto authorizationEndpoint
        tokenEndpoint userEndpoint scopes options = .ok cs →
      cs.countP (fun c => decide (c.field = .Options)) =
        (if wm.Options.IsCreationAllowed ≠ options.IsCreationAllowed ∨
            wm.Options.IsLinkingAllowed ≠ options.IsLinkingAllowed ∨
            wm.Options.IsAutoCreation ≠ options.IsAutoCreation ∨
            wm.Options.IsAutoUpdate ≠ options.IsAutoUpdate then 1 else 0)) ∧
    (∀ (wm : GitLabIDPWriteModel) (name clientID clientSecretString : String)
        (secretCrypto : Crypto) (scopes : StringSlice) (options : Zitadel.Options)
        (cs : List GitLabIDPChanges),
      wm.NewChanges name clientID clientSecretString secretCrypto scopes options = .ok cs →
      cs.countP (fun c => decide (c.field = .Options)) =
        (if wm.Options.IsCreationAllowed ≠ options.IsCreationAllowed ∨
            wm.Options.IsLinkingAllowed ≠ options.IsLinkingAllowed ∨
            wm.Options.IsAutoCreation ≠ options.IsAutoCreation ∨
            wm.Options.IsAutoUpdate ≠ options.IsAutoUpdate then 1 else 0)) ∧
    (∀ (wm : GitLabSelfHostedIDPWriteModel) (name issuer clientID clientSecretString : String)
        (secretCrypto : Crypto) (scopes : StringSlice) (options : Zitadel.Options)
        (cs : List GitLabSelfHostedIDPChanges),
      wm.NewChanges name issuer clientID clientSecretString secretCrypto scopes options = .ok cs →
      cs.countP (fun c => decide (c.field = .Options)) =
        (if wm.Options.IsCreationAllowed ≠ options.IsCreationAllowed ∨
            wm.Options.IsLinkingAllowed ≠ options.IsLinkingAllowed ∨
            wm.Options.IsAutoCreation ≠ options.IsAutoCreation ∨
            wm.Options.IsAutoUpdate ≠ options.IsAutoUpdate then 1 else 0)) ∧
    (∀ (wm : GoogleIDPWriteModel) (name clientID clientSecretString : String)
        (secretCrypto : Crypto) (scopes : StringSlice) (options : Zitadel.Options)
        (cs : List GoogleIDPChanges),
      wm.NewChanges name clientID clientSecretString secretCrypto scopes options = .ok cs →
      cs.countP (fun c => decide (c.field = .Options)) =
        (if wm.Options.IsCreationAllowed ≠ options.IsCreationAllowed ∨
            wm.Options.IsLinkingAllowed ≠ options.IsLinkingAllowed ∨
            wm.Options.IsAutoCreation ≠ options.IsAutoCreation ∨
            wm.Options.IsAutoUpdate ≠ options.IsAutoUpdate then 1 else 0)) ∧
    (∀ (wm : LDAPIDPWriteModel) (name : String) (servers : StringSlice) (startTLS : Bool)
        (baseDN bindDN bindPassword userBase : String)
        (userObjectClasses userFilters : StringSlice) (timeout : Int) (secretCrypto : Crypto)
        (attributes : Zitadel.LDAPAttributes) (options : Zitadel.Options)
        (cs : List LDAPIDPChanges),
      wm.NewChanges name servers startTLS baseDN bindDN bindPassword userBase userObjectClasses
        userFilters timeout secretCrypto attributes options = .ok cs →
      cs.countP (fun c => decide (c.field = .Options)) =
        (if wm.Options.IsCreationAllowed ≠ options.IsCreationAllowed ∨
            wm.Options.IsLinkingAllowed ≠ options.IsLinkingAllowed ∨
            wm.Options.IsAutoCreation ≠ options.IsAutoCreation ∨
            wm.Options.IsAutoUpdate ≠ options.IsAutoUpdate then 1 else 0) ∧
      cs.countP (fun c => decide (c.field = .LDAPAttributes)) =
        (if wm.LDAPAttributes ≠ attributes then 1 else 0)) := by
  refine ⟨?_, ?_, ?_, ?_, ?_, ?_, ?_, ?_, ?_, ?_⟩
  · intro wm name clientID clientSecretString secretCrypto authorizationEndpoint tokenEndpoint userEndpoint idAttribute scopes options cs hcs
    obtain ⟨v, hv⟩ := OAuth_newChanges_crypt wm _ _ _ _ _ _ _ _ _ _ cs hcs
    rw [OAuth_newChanges_eq wm _ _ _ _ _ _ _ _ _ _ v hv] at hcs
    injection hcs with hcs
    subst hcs
    simp only [← options_ne_iff, OAuthIDPWriteModel.comparedFields, differingEntries_cons,
      differingEntries_nil, List.countP_append, countP_ite_single, OAuthIDPChanges.field,
      List.countP_nil, decide_eq_true_eq, reduceCtorEq, if_false, if_true, ite_self,
      add_zero, zero_add]
  · intro wm name issuer clientID clientSecretString secretCrypto scopes idTokenMapping options cs hcs
    obtain ⟨v, hv⟩ := OIDC_newChanges_crypt wm _ _ _ _ _ _ _ _ cs hcs
    rw [OIDC_newChanges_eq wm _ _ _ _ _ _ _ _ v hv] at hcs
    injection hcs with hcs
    subst hcs
    simp only [← options_ne_iff, OIDCIDPWriteModel.comparedFields, differingEntries_cons,
      differingEntries_nil, List.countP_append, countP_ite_single, OIDCIDPChanges.field,
      List.countP_nil, decide_eq_true_eq, reduceCtorEq, if_false, if_true, ite_self,
      add_zero, zero_add]
  · intro wm name issuer jwtEndpoint keysEndpoint headerName options cs hcs
    rw [JWT_newChanges_eq wm _ _ _ _ _ _] at hcs
    injection hcs with hcs
    subst hcs
    simp only [← options_ne_iff, JWTIDPWriteModel.comparedFields, differingEntries_cons,
      differingEntries_nil, List.countP_append, countP_ite_single, JWTIDPChanges.field,
      List.countP_nil, decide_eq_true_eq, reduceCtorEq, if_false, if_true, ite_self,
      add_zero, zero_add]
  · intro wm name clientID clientSecretString secretCrypto scopes tenant isEmailVerified options cs hcs
    obtain ⟨v, hv⟩ := AzureAD_newChanges_crypt wm _ _ _ _ _ _ _ _ cs hcs
    rw [AzureAD_newChanges_eq wm _ _ _ _ _ _ _ _ v hv] at hcs
    injection hcs with hcs
    subst hcs
    simp only [← options_ne_iff, AzureADIDPWriteModel.comparedFields, differingEntries_cons,
      differingEntries_nil, List.countP_append, countP_ite_single, AzureADIDPChanges.field,
      List.countP_nil, decide_eq_true_eq, reduceCtorEq, if_false, if_true, ite_self,
      add_zero, zero_add]
  · intro wm name clientID clientSecretString secretCrypto scopes options cs hcs
    obtain ⟨v, hv⟩ := GitHub_newChanges_crypt wm _ _ _ _ _ _ cs hcs
    rw [GitHub_newChanges_eq wm _ _ _ _ _ _ v hv] at hcs
    injection hcs with hcs
    subst hcs
    simp only [← options_ne_iff, GitHubIDPWriteModel.comparedFields, differingEntries_cons,
      differingEntries_nil, List.countP_append, countP_ite_single, GitHubIDPChanges.field,
      List.countP_nil, decide_eq_true_eq, reduceCtorEq, if_false, if_true, ite_self,
      add_zero, zero_add]
  · intro wm name clientID clientSecretString secretCrypto authorizationEndpoint tokenEndpoint userEndpoint scopes options cs hcs
    obtain ⟨v, hv⟩ := GitHubEnterprise_newChanges_crypt wm _ _ _ _ _ _ _ _ _ cs hcs
    rw [GitHubEnterprise_newChanges_eq wm _ _ _ _ _ _ _ _ _ v hv] at hcs
    injection hcs with hcs
    subst hcs
    simp only [← options_ne_iff, GitHubEnterpriseIDPWriteModel.comparedFields, differingEntries_cons,
      differingEntries_nil, List.countP_append, countP_ite_single, GitHubEnterpriseIDPChanges.field,
      List.countP_nil, decide_eq_true_eq, reduceCtorEq, if_false, if_true, ite_self,
      add_zero, zero_add]
  · intro wm name clientID clientSecretString secretCrypto scopes options cs hcs
    obtain ⟨v, hv⟩ := GitLab_newChanges_crypt wm _ _ _ _ _ _ cs hcs
    rw [GitLab_newChanges_eq wm _ _ _ _ _ _ v hv] at hcs
    injection hcs with hcs
    subst hcs
    simp only [← options_ne_iff, GitLabIDPWriteModel.comparedFields, differingEntries_cons,
      differingEntries_nil, List.countP_append, countP_ite_single, GitLabIDPChanges.field,
      List.countP_nil, decide_eq_true_eq, reduceCtorEq, if_false, if_true, ite_self,
      add_zero, zero_add]
  · intro wm name issuer clientID clientSecretString secretCrypto scopes options cs hcs
    obtain ⟨v, hv⟩ := GitLabSelfHosted_newChanges_crypt wm _ _ _ _ _ _ _ cs hcs
    rw [GitLabSelfHosted_newChanges_eq wm _ _ _ _ _ _ _ v hv] at hcs
    injection hcs with hcs
    subst hcs
    simp only [← options_ne_iff, GitLabSelfHostedIDPWriteModel.comparedFields, differingEntries_cons,
      differingEntries_nil, List.countP_append, countP_ite_single, GitLabSelfHostedIDPChanges.field,
      List.countP_nil, decide_eq_true_eq, reduceCtorEq, if_false, if_true, ite_self,
      add_zero, zero_add]
  · intro wm name clientID clientSecretString secretCrypto scopes options cs hcs
    obtain ⟨v, hv⟩ := Google_newChanges_crypt wm _ _ _ _ _ _ cs hcs
    rw [Google_newChanges_eq wm _ _ _ _ _ _ v hv] at hcs
    injection hcs with hcs
    subst hcs
    simp only [← options_ne_iff, GoogleIDPWriteModel.comparedFields, differingEntries_cons,
      differingEntries_nil, List.countP_append, countP_ite_single, GoogleIDPChanges.field,
      List.countP_nil, decide_eq_true_eq, reduceCtorEq, if_false, if_true, ite_self,
      add_zero, zero_add]
  · intro wm name servers startTLS baseDN bindDN bindPassword userBase userObjectClasses userFilters timeout secretCrypto attributes options cs hcs
    obtain ⟨v, hv⟩ := LDAP_newChanges_crypt wm _ _ _ _ _ _ _ _ _ _ _ _ _ cs hcs
    rw [LDAP_newChanges_eq wm _ _ _ _ _ _ _ _ _ _ _ _ _ v hv] at hcs
    injection hcs with hcs
    subst hcs
    simp only [← options_ne_iff, LDAPIDPWriteModel.comparedFields, differingEntries_cons,
      differingEntries_nil, List.countP_append, countP_ite_single, LDAPIDPChanges.field,
      List.countP_nil, decide_eq_true_eq, reduceCtorEq, if_false, if_true, ite_self,
      add_zero, zero_add, and_self]

/-- An instance of C5: two option flags differ, and the change set holds one Options entry. -/
theorem newChanges_options_entry_witness :
    scenarioOAuth.NewChanges "A" "1" "" scenarioCrypto "https://idp/authorize"
        "https://idp/token" "https://idp/user" "sub" (some ["openid"])
        ⟨false, true, true, false⟩
      = .ok [.ChangeOAuthOptions ⟨some false, none, some true, none⟩] ∧
    [OAuthIDPChanges.ChangeOAuthOptions ⟨some false, none, some true, none⟩].countP
        (fun c => decide (c.field = .Options)) =
      (if scenarioOAuth.Options.IsCreationAllowed ≠ false ∨
          scenarioOAuth.Options.IsLinkingAllowed ≠ true ∨
          scenarioOAuth.Options.IsAutoCreation ≠ true ∨
          scenarioOAuth.Options.IsAutoUpdate ≠ false then 1 else 0) :=
  ⟨rfl,
    newChanges_options_entry.1 scenarioOAuth "A" "1" "" scenarioCrypto "https://idp/authorize"
      "https://idp/token" "https://idp/user" "sub" (some ["openid"])
      ⟨false, true, true, false⟩ _ rfl⟩

/-! ## Change sets and `Reduce` -/

/-- C6, as amended: for each of the ten provider write models, every state of it and every
desired configuration whose list-valued fields (scopes; for LDAP servers, user object
classes and user filters) are non-nil or equal to the stored list, folding with `Reduce` a
changed event that carries exactly the entries `NewChanges` returned yields a write model
whose configuration fields (name, client id, endpoints, issuer, lists, booleans, timeout,
LDAP attributes, Options) all equal the desired values, with `ID` and `State` as before. -/
theorem changed_event_roundtrip :
    (∀ (wm : OAuthIDPWriteModel) (name clientID clientSecretString : String)
        (secretCrypto : Crypto)
        (authorizationEndpoint tokenEndpoint userEndpoint idAttribute : String)
        (scopes : StringSlice) (options : Zitadel.Options) (cs : List OAuthIDPChanges) (seq : Nat)
        (agg : Aggregate),
      wm.NewChanges name clientID clientSecretString secretCrypto authorizationEndpoint
        tokenEndpoint userEndpoint idAttribute scopes options = .ok cs →
      (scopes ≠ none ∨ scopes = wm.Scopes) →
      ∃ r,
        OAuthIDPWriteModel.Reduce
            { wm with
              Events :=
                [{ pkg := .plain, Sequence := seq, Aggregate := agg,
                   payload := .OAuthIDPChanged (OAuthIDPChangedEvent.withChanges cs) }] }
          = .ok r ∧
       r.Name = name ∧ r.ClientID = clientID ∧ r.AuthorizationEndpoint = authorizationEndpoint ∧
        r.TokenEndpoint = tokenEndpoint ∧ r.UserEndpoint = userEndpoint ∧
        r.IDAttribute = idAttribute ∧ r.Scopes = scopes ∧ r.Options = options ∧ r.ID = wm.ID ∧
        r.State = wm.State) ∧
    (∀ (wm : OIDCIDPWriteModel) (name issuer clientID clientSecretString : String)
        (secretCrypto : Crypto) (scopes : StringSlice) (idTokenMapping : Bool)
        (options : Zitadel.Options) (cs : List OIDCIDPChanges) (seq : Nat) (agg : Aggregate),
      wm.NewChanges name issuer clientID clientSecretString secretCrypto scopes idTokenMapping
        options = .ok cs →
      (scopes ≠ none ∨ scopes = wm.Scopes) →
      ∃ r,
        OIDCIDPWriteModel.Reduce
            { wm with
              Events :=
                [{ pkg := .plain, Sequence := seq, Aggregate := agg,
                   payload := .OIDCIDPChanged (OIDCIDPChangedEvent.withChanges cs) }] }
          = .ok r ∧
       r.Name = name ∧ r.Issuer = issuer ∧ r.ClientID = clientID ∧ r.Scopes = scopes ∧
        r.IsIDTokenMapping = idTokenMapping ∧ r.Options = options ∧ r.ID = wm.ID ∧
        r.State = wm.State) ∧
    (∀ (wm : JWTIDPWriteModel) (name issuer jwtEndpoint keysEndpoint headerName : String)
        (options : Zitadel.Options) (cs : List JWTIDPChanges) (seq : Nat) (agg : Aggregate),
      wm.NewChanges name issuer jwtEndpoint keysEndpoint headerName options = .ok cs →
      ∃ r,
        JWTIDPWriteModel.Reduce
            { wm with
              Events :=
                [{ pkg := .plain, Sequence := seq, Aggregate := agg,
                   payload := .JWTIDPChanged (JWTIDPChangedEvent.withChanges cs) }] }
          = .ok r ∧
       r.Name = name ∧ r.Issuer = issuer ∧ r.JWTEndpoint = jwtEndpoint ∧
        r.KeysEndpoint = keysEndpoint ∧ r.HeaderName = headerName ∧ r.Options = options ∧
        r.ID = wm.ID ∧ r.State = wm.State) ∧
    (∀ (wm : AzureADIDPWriteModel) (name clientID clientSecretString : String)
        (secretCrypto : Crypto) (scopes : StringSlice) (tenant : String) (isEmailVerified : Bool)
        (options : Zitadel.Options) (cs : List AzureADIDPChanges) (seq : Nat) (agg : Aggregate),
      wm.NewChanges name clientID clientSecretString secretCrypto scopes tenant isEmailVerified
        options = .ok cs →
      (scopes ≠ none ∨ scopes = wm.Scopes) →
      ∃ r,
        AzureADIDPWriteModel.Reduce
            { wm with
              Events :=
                [{ pkg := .plain, Sequence := seq, Aggregate := agg,
                   payload := .AzureADIDPChanged (AzureADIDPChangedEvent.withChanges cs) }] }
          = .ok r ∧
       r.Name = name ∧ r.ClientID = clientID ∧ r.Scopes = scopes ∧ r.Tenant = tenant ∧
        r.IsEmailVerified = isEmailVerified ∧ r.Options = options ∧ r.ID = wm.ID ∧
        r.State = wm.State) ∧
    (∀ (wm : GitHubIDPWriteModel) (name clientID clientSecretString : String)
        (secretCrypto : Crypto) (scopes : StringSlice) (options : Zitadel.Options)
        (cs : List GitHubIDPChanges) (seq : Nat) (agg : Aggregate),
      wm.NewChanges name clientID clientSecretString secretCrypto scopes options = .ok cs →
      (scopes ≠ none ∨ scopes = wm.Scopes) →
      ∃ r,
        GitHubIDPWriteModel.Reduce
            { wm with
              Events :=
                [{ pkg := .plain, Sequence := seq, Aggregate := agg,
                   payload := .GitHubIDPChanged (GitHubIDPChangedEvent.withChanges cs) }] }
          = .ok r ∧
       r.Name = name ∧ r.ClientID = clientID ∧ r.Scopes = scopes ∧ r.Options = options ∧
        r.ID = wm.ID ∧ r.State = wm.State) ∧
    (∀ (wm : GitHubEnterpriseIDPWriteModel) (name clientID clientSecretString : String)
        (secretCrypto : Crypto) (authorizationEndpoint tokenEndpoint userEndpoint : String)
        (scopes : StringSlice) (options : Zitadel.Options) (cs : List GitHubEnterpriseIDPChanges)
        (seq : Nat) (agg : Aggregate),
      wm.NewChanges name clientID clientSecretString secretCrypto authorizationEndpoint
        tokenEndpoint userEndpoint scopes options = .ok cs →
      (scopes ≠ none ∨ scopes = wm.Scopes) →
      ∃ r,
        GitHubEnterpriseIDPWriteModel.Reduce
            { wm with
              Events :=
                [{ pkg := .plain, Sequence := seq, Aggregate := agg,
                   payload := .GitHubEnterpriseIDPChanged (GitHubEnterpriseIDPChangedEvent.withChanges cs) }] }
          = .ok r ∧
       r.Name = name ∧ r.ClientID = clientID ∧ r.AuthorizationEndpoint = authorizationEndpoint ∧
        r.TokenEndpoint = tokenEndpoint ∧ r.UserEndpoint = userEndpoint ∧ r.Scopes = scopes ∧
        r.Options = options ∧ r.ID = wm.ID ∧ r.State = wm.State) ∧
    (∀ (wm : GitLabIDPWriteModel) (name clientID clientSecretString : String)
        (secretCrypto : Crypto) (scopes : StringSlice) (options : Zitadel.Options)
        (cs : List GitLabIDPChanges) (seq : Nat) (agg : Aggregate),
      wm.NewChanges name clientID clientSecretString secretCrypto scopes options = .ok cs →
      (scopes ≠ none ∨ scopes = wm.Scopes) →
      ∃ r,
        GitLabIDPWriteModel.Reduce
            { wm with
              Events :=
                [{ pkg := .plain, Sequence := seq, Aggregate := agg,
                   payload := .GitLabIDPChanged (GitLabIDPChangedEvent.withChanges cs) }] }
          = .ok r ∧
       r.Name = name ∧ r.ClientID = clientID ∧ r.Scopes = scopes ∧ r.Options = options ∧
        r.ID = wm.ID ∧ r.State = wm.State) ∧
    (∀ (wm : GitLabSelfHostedIDPWriteModel) (name issuer clientID clientSecretString : String)
        (secretCrypto : Crypto) (scopes : StringSlice) (options : Zitadel.Options)
        (cs : List GitLabSelfHostedIDPChanges) (seq : Nat) (agg : Aggregate),
      wm.NewChanges name issuer clientID clientSecretString secretCrypto scopes options = .ok cs →
      (scopes ≠ none ∨ scopes = wm.Scopes) →
      ∃ r,
        GitLabSelfHostedIDPWriteModel.Reduce
            { wm with
              Events :=
                [{ pkg := .plain, Sequence := seq, Aggregate := agg,
                   payload := .GitLabSelfHostedIDPChanged (GitLabSelfHostedIDPChangedEvent.withChanges cs) }] }
          = .ok r ∧
       r.Name = name ∧ r.Issuer = issuer ∧ r.ClientID = clientID ∧ r.Scopes = scopes ∧
        r.Options = options ∧ r.ID = wm.ID ∧ r.State = wm.State) ∧
    (∀ (wm : GoogleIDPWriteModel) (name clientID clientSecretString : String)
        (secretCrypto : Crypto) (scopes : StringSlice) (options : Zitadel.Options)
        (cs : List GoogleIDPChanges) (seq : Nat) (agg : Aggregate),
      wm.NewChanges name clientID clientSecretString secretCrypto scopes options = .ok cs →
      (scopes ≠ none ∨ scopes = wm.Scopes) →
      ∃ r,
        GoogleIDPWriteModel.Reduce
            { wm with
              Events :=
                [{ pkg := .plain, Sequence := seq, Aggregate := agg,
                   payload := .GoogleIDPChanged (GoogleIDPChangedEvent.withChanges cs) }] }
          = .ok r ∧
       r.Name = name ∧ r.ClientID = clientID ∧ r.Scopes = scopes ∧ r.Options = options ∧
        r.ID = wm.ID ∧ r.State = wm.State) ∧
    (∀ (wm : LDAPIDPWriteModel) (name : String) (servers : StringSlice) (startTLS : Bool)
        (baseDN bindDN bindPassword userBase : String)
        (userObjectClasses userFilters : StringSlice) (timeout : Int) (secretCrypto : Crypto)
        (attributes : Zitadel.LDAPAttributes) (options : Zitadel.Options)
        (cs : List LDAPIDPChanges) (seq : Nat) (agg : Aggregate),
      wm.NewChanges name servers startTLS baseDN bindDN bindPassword userBase userObjectClasses
        userFilters timeout secretCrypto attributes options = .ok cs →
      (servers ≠ none ∨ servers = wm.Servers) →
      (userObjectClasses ≠ none ∨ userObjectClasses = wm.UserObjectClasses) →
      (userFilters ≠ none ∨ userFilters = wm.UserFilters) →
      ∃ r,
        LDAPIDPWriteModel.Reduce
            { wm with
              Events :=
                [{ pkg := .plain, Sequence := seq, Aggregate := agg,
                   payload := .LDAPIDPChanged (LDAPIDPChangedEvent.withChanges wm.ID cs) }] }
          = .ok r ∧
       r.Name = name ∧ r.Servers = servers ∧ r.StartTLS = startTLS ∧ r.BaseDN = baseDN ∧
        r.BindDN = bindDN ∧ r.UserBase = userBase ∧ r.UserObjectClasses = userObjectClasses ∧
        r.UserFilters = userFilters ∧ r.Timeout = timeout ∧ r.LDAPAttributes = attributes ∧
        r.Options = options ∧ r.ID = wm.ID ∧ r.State = wm.State) := by
  refine ⟨?_, ?_, ?_, ?_, ?_, ?_, ?_, ?_, ?_, ?_⟩
  · intro wm name clientID clientSecretString secretCrypto authorizationEndpoint tokenEndpoint userEndpoint idAttribute scopes options cs seq agg hcs hScopes
    obtain ⟨v, hv⟩ := OAuth_newChanges_crypt wm _ _ _ _ _ _ _ _ _ _ cs hcs
    rw [OAuth_newChanges_eq wm _ _ _ _ _ _ _ _ _ _ v hv] at hcs
    injection hcs with hcs
    subst hcs
    refine ⟨_, OAuth_reduce_eq _, ?_⟩
    exact OAuth_roundtrip_step wm name clientID clientSecretString authorizationEndpoint tokenEndpoint userEndpoint idAttribute scopes options v hScopes
  · intro wm name issuer clientID clientSecretString secretCrypto scopes idTokenMapping options cs seq agg hcs hScopes
    obtain ⟨v, hv⟩ := OIDC_newChanges_crypt wm _ _ _ _ _ _ _ _ cs hcs
    rw [OIDC_newChanges_eq wm _ _ _ _ _ _ _ _ v hv] at hcs
    injection hcs with hcs
    subst hcs
    refine ⟨_, OIDC_reduce_eq _, ?_⟩
    exact OIDC_roundtrip_step wm name issuer clientID clientSecretString scopes idTokenMapping options v hScopes
  · intro wm name issuer jwtEndpoint keysEndpoint headerName options cs seq agg hcs
    rw [JWT_newChanges_eq wm _ _ _ _ _ _] at hcs
    injection hcs with hcs
    subst hcs
    refine ⟨_, JWT_reduce_eq _, ?_⟩
    exact JWT_roundtrip_step wm name issuer jwtEndpoint keysEndpoint headerName options
  · intro wm name clientID clientSecretString secretCrypto scopes tenant isEmailVerified options cs seq agg hcs hScopes
    obtain ⟨v, hv⟩ := AzureAD_newChanges_crypt wm _ _ _ _ _ _ _ _ cs hcs
    rw [AzureAD_newChanges_eq wm _ _ _ _ _ _ _ _ v hv] at hcs
    injection hcs with hcs
    subst hcs
    refine ⟨_, AzureAD_reduce_eq _, ?_⟩
    exact AzureAD_roundtrip_step wm name clientID clientSecretString scopes tenant isEmailVerified options v hScopes
  · intro wm name clientID clientSecretString secretCrypto scopes options cs seq agg hcs hScopes
    obtain ⟨v, hv⟩ := GitHub_newChanges_crypt wm _ _ _ _ _ _ cs hcs
    rw [GitHub_newChanges_eq wm _ _ _ _ _ _ v hv] at hcs
    injection hcs with hcs
    subst hcs
    refine ⟨_, GitHub_reduce_eq _, ?_⟩
    exact GitHub_roundtrip_step wm name clientID clientSecretString scopes options v hScopes
  · intro wm name clientID clientSecretString secretCrypto authorizationEndpoint tokenEndpoint userEndpoint scopes options cs seq agg hcs hScopes
    obtain ⟨v, hv⟩ := GitHubEnterprise_newChanges_crypt wm _ _ _ _ _ _ _ _ _ cs hcs
    rw [GitHubEnterprise_newChanges_eq wm _ _ _ _ _ _ _ _ _ v hv] at hcs
    injection hcs with hcs
    subst hcs
    refine ⟨_, GitHubEnterprise_reduce_eq _, ?_⟩
    exact GitHubEnterprise_roundtrip_step wm name clientID clientSecretString authorizationEndpoint tokenEndpoint userEndpoint scopes options v hScopes
  · intro wm name clientID clientSecretString secretCrypto scopes options cs seq agg hcs hScopes
    obtain ⟨v, hv⟩ := GitLab_newChanges_crypt wm _ _ _ _ _ _ cs hcs
    rw [GitLab_newChanges_eq wm _ _ _ _ _ _ v hv] at hcs
    injection hcs with hcs
    subst hcs
    refine ⟨_, GitLab_reduce_eq _, ?_⟩
    exact GitLab_roundtrip_step wm name clientID clientSecretString scopes options v hScopes
  · intro wm name issuer clientID clientSecretString secretCrypto scopes options cs seq agg hcs hScopes
    obtain ⟨v, hv⟩ := GitLabSelfHosted_newChanges_crypt wm _ _ _ _ _ _ _ cs hcs
    rw [GitLabSelfHosted_newChanges_eq wm _ _ _ _ _ _ _ v hv] at hcs
    injection hcs with hcs
    subst hcs
    refine ⟨_, GitLabSelfHosted_reduce_eq _, ?_⟩
    exact GitLabSelfHosted_roundtrip_step wm name issuer clientID clientSecretString scopes options v hScopes
  · intro wm name clientID clientSecretString secretCrypto scopes options cs seq agg hcs hScopes
    obtain ⟨v, hv⟩ := Google_newChanges_crypt wm _ _ _ _ _ _ cs hcs
    rw [Google_newChanges_eq wm _ _ _ _ _ _ v hv] at hcs
    injection hcs with hcs
    subst hcs
    refine ⟨_, Google_reduce_eq _, ?_⟩
    exact Google_roundtrip_step wm name clientID clientSecretString scopes options v hScopes
  · intro wm name servers startTLS baseDN bindDN bindPassword userBase userObjectClasses userFilters timeout secretCrypto attributes options cs seq agg hcs hServers hUserObjectClasses hUserFilters
    obtain ⟨v, hv⟩ := LDAP_newChanges_crypt wm _ _ _ _ _ _ _ _ _ _ _ _ _ cs hcs
    rw [LDAP_newChanges_eq wm _ _ _ _ _ _ _ _ _ _ _ _ _ v hv] at hcs
    injection hcs with hcs
    subst hcs
    refine ⟨_, LDAP_reduce_eq _, ?_⟩
    have hstep := LDAP_roundtrip_step wm name servers startTLS baseDN bindDN bindPassword userBase userObjectClasses userFilters timeout attributes options v hServers hUserObjectClasses hUserFilters
    simp only [List.foldl_cons, List.foldl_nil, LDAPIDPWriteModel.reduceEvent,
      LDAP_withChanges_id, ne_eq, not_true_eq_false, if_false]
    exact hstep

/-- An instance of the amended C6: the rename scenario, through the changed event and back. -/
theorem changed_event_roundtrip_witness :
    scenarioOAuth.NewChanges "B" "1" "" scenarioCrypto "https://idp/authorize"
        "https://idp/token" "https://idp/user" "sub" (some ["openid"])
        ⟨true, true, false, false⟩ = .ok [.ChangeOAuthName "B"] ∧
      ((some ["openid"] : StringSlice) ≠ none ∨ some ["openid"] = scenarioOAuth.Scopes) ∧
      ∃ r,
        OAuthIDPWriteModel.Reduce
            { scenarioOAuth with
              Events :=
                [{ pkg := .plain, Sequence := 3, Aggregate := scenarioAggregate,
                   payload :=
                    .OAuthIDPChanged (OAuthIDPChangedEvent.withChanges [.ChangeOAuthName "B"]) }] }
          = .ok r ∧
        r.Name = "B" ∧ r.ClientID = "1" ∧ r.AuthorizationEndpoint = "https://idp/authorize" ∧
        r.TokenEndpoint = "https://idp/token" ∧ r.UserEndpoint = "https://idp/user" ∧
        r.IDAttribute = "sub" ∧ r.Scopes = some ["openid"] ∧
        r.Options = ⟨true, true, false, false⟩ ∧ r.ID = scenarioOAuth.ID ∧
        r.State = scenarioOAuth.State :=
  ⟨rfl, Or.inl (by decide),
    changed_event_roundtrip.1 scenarioOAuth "B" "1" "" scenarioCrypto "https://idp/authorize"
      "https://idp/token" "https://idp/user" "sub" (some ["openid"])
      ⟨true, true, false, false⟩ _ 3 scenarioAggregate rfl (Or.inl (by decide))⟩

/-- C6 as stated fails: the OAuth write model of the scenario stores the scopes
`["openid"]`; diffed against the nil scope list and otherwise the stored values,
`NewChanges` returns the single entry `ChangeOAuthScopes nil`, and folding the changed event
that carries it leaves `Scopes` at `["openid"]`, not at the desired nil list. -/
theorem changed_event_roundtrip_fails_for_nil_scopes :
    ∃ r,
      scenarioOAuth.NewChanges "A" "1" "" scenarioCrypto "https://idp/authorize"
          "https://idp/token" "https://idp/user" "sub" none ⟨true, true, false, false⟩
        = .ok [.ChangeOAuthScopes none] ∧
      OAuthIDPWriteModel.Reduce
          { scenarioOAuth with
            Events :=
              [{ pkg := .plain, Sequence := 3, Aggregate := scenarioAggregate,
                 payload :=
                  .OAuthIDPChanged (OAuthIDPChangedEvent.withChanges [.ChangeOAuthScopes none]) }] }
        = .ok r ∧
      r.Scopes = some ["openid"] ∧ r.Scopes ≠ none :=
  ⟨_, rfl, rfl, rfl, by decide⟩

/-- C7: legacy replay. For every OIDC write model, a freshly constructed one included,
reducing the two-event list of a legacy `IDPConfigAddedEvent` with name `n` and auto-register
flag `a`, then a legacy `OIDCConfigAddedEvent` with issuer `i`, client id `c`, secret `s` and
scopes `sc`, returns a model with `State = Active`, `Name = n`,
`Options.IsAutoCreation = a`, `Issuer = i`, `ClientID = c`, `ClientSecret = s`,
`Scopes = sc`. -/
theorem oidc_legacy_replay (wm : OIDCIDPWriteModel) (n : String) (a : Bool) (i c : String)
    (s : Option CryptoValue) (sc : StringSlice) (configID : String) (typ : IDPConfigType)
    (seq1 seq2 : Nat) (agg1 agg2 : Aggregate) :
    ∃ r,
      OIDCIDPWriteModel.Reduce
          { wm with
            Events :=
              [{ pkg := .plain, Sequence := seq1, Aggregate := agg1,
                 payload :=
                  .IDPConfigAdded { ConfigID := configID, Name := n, Typ := typ, AutoRegister := a } },
               { pkg := .plain, Sequence := seq2, Aggregate := agg2,
                 payload :=
                  .OIDCConfigAdded { Issuer := i, ClientID := c, ClientSecret := s, Scopes := sc } }] }
        = .ok r ∧
      r.State = .IDPStateActive ∧ r.Name = n ∧ r.Options.IsAutoCreation = a ∧ r.Issuer = i ∧
      r.ClientID = c ∧ r.ClientSecret = s ∧ r.Scopes = sc :=
  ⟨_, OIDC_reduce_eq _, rfl, rfl, rfl, rfl, rfl, rfl, rfl⟩

/-! ## `Reduce` as a fold -/

/-- C8: for each of the ten provider write models, `IDPRemoveWriteModel` and
`IDPTypeWriteModel`: an event whose type is not named in the switch of `Reduce` leaves the
write model as it is; `Reduce` returns without error on every event list; and two event
lists that differ only by such events, inserted or deleted anywhere, reduce to the same
domain fields. -/
theorem reduce_ignores_unknown_events :
    ((∀ (wm : OAuthIDPWriteModel) (e : Event),
        e.goType ∉ OAuthIDPWriteModel.switchTypes → wm.reduceEvent e = wm) ∧
      ∀ (wm : OAuthIDPWriteModel) (L1 L2 : List Event),
        L1.filter (fun e => decide (e.goType ∈ OAuthIDPWriteModel.switchTypes))
            = L2.filter (fun e => decide (e.goType ∈ OAuthIDPWriteModel.switchTypes)) →
        ∃ r1 r2,
          OAuthIDPWriteModel.Reduce { wm with Events := L1 } = .ok r1 ∧
          OAuthIDPWriteModel.Reduce { wm with Events := L2 } = .ok r2 ∧
          OAuthIDPWriteModel.SameDomain r1 r2) ∧
    ((∀ (wm : OIDCIDPWriteModel) (e : Event),
        e.goType ∉ OIDCIDPWriteModel.switchTypes → wm.reduceEvent e = wm) ∧
      ∀ (wm : OIDCIDPWriteModel) (L1 L2 : List Event),
        L1.filter (fun e => decide (e.goType ∈ OIDCIDPWriteModel.switchTypes))
            = L2.filter (fun e => decide (e.goType ∈ OIDCIDPWriteModel.switchTypes)) →
        ∃ r1 r2,
          OIDCIDPWriteModel.Reduce { wm with Events := L1 } = .ok r1 ∧
          OIDCIDPWriteModel.Reduce { wm with Events := L2 } = .ok r2 ∧
          OIDCIDPWriteModel.SameDomain r1 r2) ∧
    ((∀ (wm : JWTIDPWriteModel) (e : Event),
        e.goType ∉ JWTIDPWriteModel.switchTypes → wm.reduceEvent e = wm) ∧
      ∀ (wm : JWTIDPWriteModel) (L1 L2 : List Event),
        L1.filter (fun e => decide (e.goType ∈ JWTIDPWriteModel.switchTypes))
            = L2.filter (fun e => decide (e.goType ∈ JWTIDPWriteModel.switchTypes)) →
        ∃ r1 r2,
          JWTIDPWriteModel.Reduce { wm with Events := L1 } = .ok r1 ∧
          JWTIDPWriteModel.Reduce { wm with Events := L2 } = .ok r2 ∧
          JWTIDPWriteModel.SameDomain r1 r2) ∧
    ((∀ (wm : AzureADIDPWriteModel) (e : Event),
        e.goType ∉ AzureADIDPWriteModel.switchTypes → wm.reduceEvent e = wm) ∧
      ∀ (wm : AzureADIDPWriteModel) (L1 L2 : List Event),
        L1.filter (fun e => decide (e.goType ∈ AzureADIDPWriteModel.switchTypes))
            = L2.filter (fun e => decide (e.goType ∈ AzureADIDPWriteModel.switchTypes)) →
        ∃ r1 r2,
          AzureADIDPWriteModel.Reduce { wm with Events := L1 } = .ok r1 ∧
          AzureADIDPWriteModel.Reduce { wm with Events := L2 } = .ok r2 ∧
          AzureADIDPWriteModel.SameDomain r1 r2) ∧
    ((∀ (wm : GitHubIDPWriteModel) (e : Event),
        e.goType ∉ GitHubIDPWriteModel.switchTypes → wm.reduceEvent e = wm) ∧
      ∀ (wm : GitHubIDPWriteModel) (L1 L2 : List Event),
        L1.filter (fun e => decide (e.goType ∈ GitHubIDPWriteModel.switchTypes))
            = L2.filter (fun e => decide (e.goType ∈ GitHubIDPWriteModel.switchTypes)) →
        ∃ r1 r2,
          GitHubIDPWriteModel.Reduce { wm with Events := L1 } = .ok r1 ∧
          GitHubIDPWriteModel.Reduce { wm with Events := L2 } = .ok r2 ∧
          GitHubIDPWriteModel.SameDomain r1 r2) ∧
    ((∀ (wm : GitHubEnterpriseIDPWriteModel) (e : Event),
        e.goType ∉ GitHubEnterpriseIDPWriteModel.switchTypes → wm.reduceEvent e = wm) ∧
      ∀ (wm : GitHubEnterpriseIDPWriteModel) (L1 L2 : List Event),
        L1.filter (fun e => decide (e.goType ∈ GitHubEnterpriseIDPWriteModel.switchTypes))
            = L2.filter (fun e => decide (e.goType ∈ GitHubEnterpriseIDPWriteModel.switchTypes)) →
        ∃ r1 r2,
          GitHubEnterpriseIDPWriteModel.Reduce { wm with Events := L1 } = .ok r1 ∧
          GitHubEnterpriseIDPWriteModel.Reduce { wm with Events := L2 } = .ok r2 ∧
          GitHubEnterpriseIDPWriteModel.SameDomain r1 r2) ∧
    ((∀ (wm : GitLabIDPWriteModel) (e : Event),
        e.goType ∉ GitLabIDPWriteModel.switchTypes → wm.reduceEvent e = wm) ∧
      ∀ (wm : GitLabIDPWriteModel) (L1 L2 : List Event),
        L1.filter (fun e => decide (e.goType ∈ GitLabIDPWriteModel.switchTypes))
            = L2.filter (fun e => decide (e.goType ∈ GitLabIDPWriteModel.switchTypes)) →
        ∃ r1 r2,
          GitLabIDPWriteModel.Reduce { wm with Events := L1 } = .ok r1 ∧
          GitLabIDPWriteModel.Reduce { wm with Events := L2 } = .ok r2 ∧
          GitLabIDPWriteModel.SameDomain r1 r2) ∧
    ((∀ (wm : GitLabSelfHostedIDPWriteModel) (e : Event),
        e.goType ∉ GitLabSelfHostedIDPWriteModel.switchTypes → wm.reduceEvent e = wm) ∧
      ∀ (wm : GitLabSelfHostedIDPWriteModel) (L1 L2 : List Event),
        L1.filter (fun e => decide (e.goType ∈ GitLabSelfHostedIDPWriteModel.switchTypes))
            = L2.filter (fun e => decide (e.goType ∈ GitLabSelfHostedIDPWriteModel.switchTypes)) →
        ∃ r1 r2,
          GitLabSelfHostedIDPWriteModel.Reduce { wm with Events := L1 } = .ok r1 ∧
          GitLabSelfHostedIDPWriteModel.Reduce { wm with Events := L2 } = .ok r2 ∧
          GitLabSelfHostedIDPWriteModel.SameDomain r1 r2) ∧
    ((∀ (wm : GoogleIDPWriteModel) (e : Event),
        e.goType ∉ GoogleIDPWriteModel.switchTypes → wm.reduceEvent e = wm) ∧
      ∀ (wm : GoogleIDPWriteModel) (L1 L2 : List Event),
        L1.filter (fun e => decide (e.goType ∈ GoogleIDPWriteModel.switchTypes))
            = L2.filter (fun e => decide (e.goType ∈ GoogleIDPWriteModel.switchTypes)) →
        ∃ r1 r2,
          GoogleIDPWriteModel.Reduce { wm with Events := L1 } = .ok r1 ∧
          GoogleIDPWriteModel.Reduce { wm with Events := L2 } = .ok r2 ∧
          GoogleIDPWriteModel.SameDomain r1 r2) ∧
    ((∀ (wm : LDAPIDPWriteModel) (e : Event),
        e.goType ∉ LDAPIDPWriteModel.switchTypes → wm.reduceEvent e = wm) ∧
      ∀ (wm : LDAPIDPWriteModel) (L1 L2 : List Event),
        L1.filter (fun e => decide (e.goType ∈ LDAPIDPWriteModel.switchTypes))
            = L2.filter (fun e => decide (e.goType ∈ LDAPIDPWriteModel.switchTypes)) →
        ∃ r1 r2,
          LDAPIDPWriteModel.Reduce { wm with Events := L1 } = .ok r1 ∧
          LDAPIDPWriteModel.Reduce { wm with Events := L2 } = .ok r2 ∧
          LDAPIDPWriteModel.SameDomain r1 r2) ∧
    ((∀ (wm : IDPRemoveWriteModel) (e : Event),
        e.goType ∉ IDPRemoveWriteModel.switchTypes → wm.reduceEvent e = wm) ∧
      ∀ (wm : IDPRemoveWriteModel) (L1 L2 : List Event),
        L1.filter (fun e => decide (e.goType ∈ IDPRemoveWriteModel.switchTypes))
            = L2.filter (fun e => decide (e.goType ∈ IDPRemoveWriteModel.switchTypes)) →
        ∃ r1 r2,
          IDPRemoveWriteModel.Reduce { wm with Events := L1 } = .ok r1 ∧
          IDPRemoveWriteModel.Reduce { wm with Events := L2 } = .ok r2 ∧
          IDPRemoveWriteModel.SameDomain r1 r2) ∧
    ((∀ (wm : IDPTypeWriteModel) (e : Event),
        e.goType ∉ IDPTypeWriteModel.switchTypes → wm.reduceEvent e = wm) ∧
      ∀ (wm : IDPTypeWriteModel) (L1 L2 : List Event),
        L1.filter (fun e => decide (e.goType ∈ IDPTypeWriteModel.switchTypes))
            = L2.filter (fun e => decide (e.goType ∈ IDPTypeWriteModel.switchTypes)) →
        ∃ r1 r2,
          IDPTypeWriteModel.Reduce { wm with Events := L1 } = .ok r1 ∧
          IDPTypeWriteModel.Reduce { wm with Events := L2 } = .ok r2 ∧
          IDPTypeWriteModel.SameDomain r1 r2) := by
  refine ⟨?_, ?_, ?_, ?_, ?_, ?_, ?_, ?_, ?_, ?_, ?_, ?_⟩
  · refine ⟨OAuth_step_noop, ?_⟩
    intro wm L1 L2 hL
    obtain ⟨r1, hr1, hs1⟩ := OAuth_reduce_events wm L1
    obtain ⟨r2, hr2, hs2⟩ := OAuth_reduce_events wm L2
    refine ⟨r1, r2, hr1, hr2, OAuth_same_trans hs1 ?_⟩
    have hno : ∀ (s : OAuthIDPWriteModel) (e : Event),
        decide (e.goType ∈ OAuthIDPWriteModel.switchTypes) = false → s.reduceEvent e = s := by
      intro s e he
      exact OAuth_step_noop s e (by simpa using he)
    rw [← foldl_filter_noop _ _ hno L1 wm, hL, foldl_filter_noop _ _ hno L2 wm]
    exact OAuth_same_symm hs2
  · refine ⟨OIDC_step_noop, ?_⟩
    intro wm L1 L2 hL
    obtain ⟨r1, hr1, hs1⟩ := OIDC_reduce_events wm L1
    obtain ⟨r2, hr2, hs2⟩ := OIDC_reduce_events wm L2
    refine ⟨r1, r2, hr1, hr2, OIDC_same_trans hs1 ?_⟩
    have hno : ∀ (s : OIDCIDPWriteModel) (e : Event),
        decide (e.goType ∈ OIDCIDPWriteModel.switchTypes) = false → s.reduceEvent e = s := by
      intro s e he
      exact OIDC_step_noop s e (by simpa using he)
    rw [← foldl_filter_noop _ _ hno L1 wm, hL, foldl_filter_noop _ _ hno L2 wm]
    exact OIDC_same_symm hs2
  · refine ⟨JWT_step_noop, ?_⟩
    intro wm L1 L2 hL
    obtain ⟨r1, hr1, hs1⟩ := JWT_reduce_events wm L1
    obtain ⟨r2, hr2, hs2⟩ := JWT_reduce_events wm L2
    refine ⟨r1, r2, hr1, hr2, JWT_same_trans hs1 ?_⟩
    have hno : ∀ (s : JWTIDPWriteModel) (e : Event),
        decide (e.goType ∈ JWTIDPWriteModel.switchTypes) = false → s.reduceEvent e = s := by
      intro s e he
      exact JWT_step_noop s e (by simpa using he)
    rw [← foldl_filter_noop _ _ hno L1 wm, hL, foldl_filter_noop _ _ hno L2 wm]
    exact JWT_same_symm hs2
  · refine ⟨AzureAD_step_noop, ?_⟩
    intro wm L1 L2 hL
    obtain ⟨r1, hr1, hs1⟩ := AzureAD_reduce_events wm L1
    obtain ⟨r2, hr2, hs2⟩ := AzureAD_reduce_events wm L2
    refine ⟨r1, r2, hr1, hr2, AzureAD_same_trans hs1 ?_⟩
    have hno : ∀ (s : AzureADIDPWriteModel) (e : Event),
        decide (e.goType ∈ AzureADIDPWriteModel.switchTypes) = false → s.reduceEvent e = s := by
      intro s e he
      exact AzureAD_step_noop s e (by simpa using he)
    rw [← foldl_filter_noop _ _ hno L1 wm, hL, foldl_filter_noop _ _ hno L2 wm]
    exact AzureAD_same_symm hs2
  · refine ⟨GitHub_step_noop, ?_⟩
    intro wm L1 L2 hL
    obtain ⟨r1, hr1, hs1⟩ := GitHub_reduce_events wm L1
    obtain ⟨r2, hr2, hs2⟩ := GitHub_reduce_events wm L2
    refine ⟨r1, r2, hr1, hr2, GitHub_same_trans hs1 ?_⟩
    have hno : ∀ (s : GitHubIDPWriteModel) (e : Event),
        decide (e.goType ∈ GitHubIDPWriteModel.switchTypes) = false → s.reduceEvent e = s := by
      intro s e he
      exact GitHub_step_noop s e (by simpa using he)
    rw [← foldl_filter_noop _ _ hno L1 wm, hL, foldl_filter_noop _ _ hno L2 wm]
    exact GitHub_same_symm hs2
  · refine ⟨GitHubEnterprise_step_noop, ?_⟩
    intro wm L1 L2 hL
    obtain ⟨r1, hr1, hs1⟩ := GitHubEnterprise_reduce_events wm L1
    obtain ⟨r2, hr2, hs2⟩ := GitHubEnterprise_reduce_events wm L2
    refine ⟨r1, r2, hr1, hr2, GitHubEnterprise_same_trans hs1 ?_⟩
    have hno : ∀ (s : GitHubEnterpriseIDPWriteModel) (e : Event),
        decide (e.goType ∈ GitHubEnterpriseIDPWriteModel.switchTypes) = false → s.reduceEvent e = s := by
      intro s e he
      exact GitHubEnterprise_step_noop s e (by simpa using he)
    rw [← foldl_filter_noop _ _ hno L1 wm, hL, foldl_filter_noop _ _ hno L2 wm]
    exact GitHubEnterprise_same_symm hs2
  · refine ⟨GitLab_step_noop, ?_⟩
    intro wm L1 L2 hL
    obtain ⟨r1, hr1, hs1⟩ := GitLab_reduce_events wm L1
    obtain ⟨r2, hr2, hs2⟩ := GitLab_reduce_events wm L2
    refine ⟨r1, r2, hr1, hr2, GitLab_same_trans hs1 ?_⟩
    have hno : ∀ (s : GitLabIDPWriteModel) (e : Event),
        decide (e.goType ∈ GitLabIDPWriteModel.switchTypes) = false → s.reduceEvent e = s := by
      intro s e he
      exact GitLab_step_noop s e (by simpa using he)
    rw [← foldl_filter_noop _ _ hno L1 wm, hL, foldl_filter_noop _ _ hno L2 wm]
    exact GitLab_same_symm hs2
  · refine ⟨GitLabSelfHosted_step_noop, ?_⟩
    intro wm L1 L2 hL
    obtain ⟨r1, hr1, hs1⟩ := GitLabSelfHosted_reduce_events wm L1
    obtain ⟨r2, hr2, hs2⟩ := GitLabSelfHosted_reduce_events wm L2
    refine ⟨r1, r2, hr1, hr2, GitLabSelfHosted_same_trans hs1 ?_⟩
    have hno : ∀ (s : GitLabSelfHostedIDPWriteModel) (e : Event),
        decide (e.goType ∈ GitLabSelfHostedIDPWriteModel.switchTypes) = false → s.reduceEvent e = s := by
      intro s e he
      exact GitLabSelfHosted_step_noop s e (by simpa using he)
    rw [← foldl_filter_noop _ _ hno L1 wm, hL, foldl_filter_noop _ _ hno L2 wm]
    exact GitLabSelfHosted_same_symm hs2
  · refine ⟨Google_step_noop, ?_⟩
    intro wm L1 L2 hL
    obtain ⟨r1, hr1, hs1⟩ := Google_reduce_events wm L1
    obtain ⟨r2, hr2, hs2⟩ := Google_reduce_events wm L2
    refine ⟨r1, r2, hr1, hr2, Google_same_trans hs1 ?_⟩
    have hno : ∀ (s : GoogleIDPWriteModel) (e : Event),
        decide (e.goType ∈ GoogleIDPWriteModel.switchTypes) = false → s.reduceEvent e = s := by
      intro s e he
      exact Google_step_noop s e (by simpa using he)
    rw [← foldl_filter_noop _ _ hno L1 wm, hL, foldl_filter_noop _ _ hno L2 wm]
    exact Google_same_symm hs2
  · refine ⟨LDAP_step_noop, ?_⟩
    intro wm L1 L2 hL
    obtain ⟨r1, hr1, hs1⟩ := LDAP_reduce_events wm L1
    obtain ⟨r2, hr2, hs2⟩ := LDAP_reduce_events wm L2
    refine ⟨r1, r2, hr1, hr2, LDAP_same_trans hs1 ?_⟩
    have hno : ∀ (s : LDAPIDPWriteModel) (e : Event),
        decide (e.goType ∈ LDAPIDPWriteModel.switchTypes) = false → s.reduceEvent e = s := by
      intro s e he
      exact LDAP_step_noop s e (by simpa using he)
    rw [← foldl_filter_noop _ _ hno L1 wm, hL, foldl_filter_noop _ _ hno L2 wm]
    exact LDAP_same_symm hs2
  · refine ⟨IDPRemove_step_noop, ?_⟩
    intro wm L1 L2 hL
    obtain ⟨r1, hr1, hs1⟩ := IDPRemove_reduce_events wm L1
    obtain ⟨r2, hr2, hs2⟩ := IDPRemove_reduce_events wm L2
    refine ⟨r1, r2, hr1, hr2, IDPRemove_same_trans hs1 ?_⟩
    have hno : ∀ (s : IDPRemoveWriteModel) (e : Event),
        decide (e.goType ∈ IDPRemoveWriteModel.switchTypes) = false → s.reduceEvent e = s := by
      intro s e he
      exact IDPRemove_step_noop s e (by simpa using he)
    rw [← foldl_filter_noop _ _ hno L1 wm, hL, foldl_filter_noop _ _ hno L2 wm]
    exact IDPRemove_same_symm hs2
  · refine ⟨IDPType_step_noop, ?_⟩
    intro wm L1 L2 hL
    obtain ⟨r1, hr1, hs1⟩ := IDPType_reduce_events wm L1
    obtain ⟨r2, hr2, hs2⟩ := IDPType_reduce_events wm L2
    refine ⟨r1, r2, hr1, hr2, IDPType_same_trans hs1 ?_⟩
    have hno : ∀ (s : IDPTypeWriteModel) (e : Event),
        decide (e.goType ∈ IDPTypeWriteModel.switchTypes) = false → s.reduceEvent e = s := by
      intro s e he
      exact IDPType_step_noop s e (by simpa using he)
    rw [← foldl_filter_noop _ _ hno L1 wm, hL, foldl_filter_noop _ _ hno L2 wm]
    exact IDPType_same_symm hs2

/-- An instance of C8: an event of an unknown type, put in front of a rename, changes nothing. -/
theorem reduce_ignores_unknown_events_witness :
    scenarioUnknownEvent.goType ∉ OAuthIDPWriteModel.switchTypes ∧
      scenarioOAuth.reduceEvent scenarioUnknownEvent = scenarioOAuth :=
  ⟨by decide, reduce_ignores_unknown_events.1.1 scenarioOAuth scenarioUnknownEvent (by decide)⟩

/-- C9: determinism of `Reduce`. For each of the ten provider write models,
`IDPRemoveWriteModel` and `IDPTypeWriteModel`: two write models that agree on every domain
field and hold the same buffered event list agree on every domain field after `Reduce`,
whatever the fields of their embedded base are; both calls return without error. -/
theorem reduce_deterministic :
    (∀ (a b : OAuthIDPWriteModel) (L : List Event), OAuthIDPWriteModel.SameDomain a b →
      ∃ ra rb,
        OAuthIDPWriteModel.Reduce { a with Events := L } = .ok ra ∧
        OAuthIDPWriteModel.Reduce { b with Events := L } = .ok rb ∧
        OAuthIDPWriteModel.SameDomain ra rb) ∧
    (∀ (a b : OIDCIDPWriteModel) (L : List Event), OIDCIDPWriteModel.SameDomain a b →
      ∃ ra rb,
        OIDCIDPWriteModel.Reduce { a with Events := L } = .ok ra ∧
        OIDCIDPWriteModel.Reduce { b with Events := L } = .ok rb ∧
        OIDCIDPWriteModel.SameDomain ra rb) ∧
    (∀ (a b : JWTIDPWriteModel) (L : List Event), JWTIDPWriteModel.SameDomain a b →
      ∃ ra rb,
        JWTIDPWriteModel.Reduce { a with Events := L } = .ok ra ∧
        JWTIDPWriteModel.Reduce { b with Events := L } = .ok rb ∧
        JWTIDPWriteModel.SameDomain ra rb) ∧
    (∀ (a b : AzureADIDPWriteModel) (L : List Event), AzureADIDPWriteModel.SameDomain a b →
      ∃ ra rb,
        AzureADIDPWriteModel.Reduce { a with Events := L } = .ok ra ∧
        AzureADIDPWriteModel.Reduce { b with Events := L } = .ok rb ∧
        AzureADIDPWriteModel.SameDomain ra rb) ∧
    (∀ (a b : GitHubIDPWriteModel) (L : List Event), GitHubIDPWriteModel.SameDomain a b →
      ∃ ra rb,
        GitHubIDPWriteModel.Reduce { a with Events := L } = .ok ra ∧
        GitHubIDPWriteModel.Reduce { b with Events := L } = .ok rb ∧
        GitHubIDPWriteModel.SameDomain ra rb) ∧
    (∀ (a b : GitHubEnterpriseIDPWriteModel) (L : List Event), GitHubEnterpriseIDPWriteModel.SameDomain a b →
      ∃ ra rb,
        GitHubEnterpriseIDPWriteModel.Reduce { a with Events := L } = .ok ra ∧
        GitHubEnterpriseIDPWriteModel.Reduce { b with Events := L } = .ok rb ∧
        GitHubEnterpriseIDPWriteModel.SameDomain ra rb) ∧
    (∀ (a b : GitLabIDPWriteModel) (L : List Event), GitLabIDPWriteModel.SameDomain a b →
      ∃ ra rb,
        GitLabIDPWriteModel.Reduce { a with Events := L } = .ok ra ∧
        GitLabIDPWriteModel.Reduce { b with Events := L } = .ok rb ∧
        GitLabIDPWriteModel.SameDomain ra rb) ∧
    (∀ (a b : GitLabSelfHostedIDPWriteModel) (L : List Event), GitLabSelfHostedIDPWriteModel.SameDomain a b →
      ∃ ra rb,
        GitLabSelfHostedIDPWriteModel.Reduce { a with Events := L } = .ok ra ∧
        GitLabSelfHostedIDPWriteModel.Reduce { b with Events := L } = .ok rb ∧
        GitLabSelfHostedIDPWriteModel.SameDomain ra rb) ∧
    (∀ (a b : GoogleIDPWriteModel) (L : List Event), GoogleIDPWriteModel.SameDomain a b →
      ∃ ra rb,
        GoogleIDPWriteModel.Reduce { a with Events := L } = .ok ra ∧
        GoogleIDPWriteModel.Reduce { b with Events := L } = .ok rb ∧
        GoogleIDPWriteModel.SameDomain ra rb) ∧
    (∀ (a b : LDAPIDPWriteModel) (L : List Event), LDAPIDPWriteModel.SameDomain a b →
      ∃ ra rb,
        LDAPIDPWriteModel.Reduce { a with Events := L } = .ok ra ∧
        LDAPIDPWriteModel.Reduce { b with Events := L } = .ok rb ∧
        LDAPIDPWriteModel.SameDomain ra rb) ∧
    (∀ (a b : IDPRemoveWriteModel) (L : List Event), IDPRemoveWriteModel.SameDomain a b →
      ∃ ra rb,
        IDPRemoveWriteModel.Reduce { a with Events := L } = .ok ra ∧
        IDPRemoveWriteModel.Reduce { b with Events := L } = .ok rb ∧
        IDPRemoveWriteModel.SameDomain ra rb) ∧
    (∀ (a b : IDPTypeWriteModel) (L : List Event), IDPTypeWriteModel.SameDomain a b →
      ∃ ra rb,
        IDPTypeWriteModel.Reduce { a with Events := L } = .ok ra ∧
        IDPTypeWriteModel.Reduce { b with Events := L } = .ok rb ∧
        IDPTypeWriteModel.SameDomain ra rb) := by
  refine ⟨?_, ?_, ?_, ?_, ?_, ?_, ?_, ?_, ?_, ?_, ?_, ?_⟩
  · intro a b L hab
    obtain ⟨ra, hra, hsa⟩ := OAuth_reduce_events a L
    obtain ⟨rb, hrb, hsb⟩ := OAuth_reduce_events b L
    exact ⟨ra, rb, hra, hrb, OAuth_same_trans hsa
      (OAuth_same_trans (foldl_rel _ _ OAuth_step_same L _ _ hab) (OAuth_same_symm hsb))⟩
  · intro a b L hab
    obtain ⟨ra, hra, hsa⟩ := OIDC_reduce_events a L
    obtain ⟨rb, hrb, hsb⟩ := OIDC_reduce_events b L
    exact ⟨ra, rb, hra, hrb, OIDC_same_trans hsa
      (OIDC_same_trans (foldl_rel _ _ OIDC_step_same L _ _ hab) (OIDC_same_symm hsb))⟩
  · intro a b L hab
    obtain ⟨ra, hra, hsa⟩ := JWT_reduce_events a L
    obtain ⟨rb, hrb, hsb⟩ := JWT_reduce_events b L
    exact ⟨ra, rb, hra, hrb, JWT_same_trans hsa
      (JWT_same_trans (foldl_rel _ _ JWT_step_same L _ _ hab) (JWT_same_symm hsb))⟩
  · intro a b L hab
    obtain ⟨ra, hra, hsa⟩ := AzureAD_reduce_events a L
    obtain ⟨rb, hrb, hsb⟩ := AzureAD_reduce_events b L
    exact ⟨ra, rb, hra, hrb, AzureAD_same_trans hsa
      (AzureAD_same_trans (foldl_rel _ _ AzureAD_step_same L _ _ hab) (AzureAD_same_symm hsb))⟩
  · intro a b L hab
    obtain ⟨ra, hra, hsa⟩ := GitHub_reduce_events a L
    obtain ⟨rb, hrb, hsb⟩ := GitHub_reduce_events b L
    exact ⟨ra, rb, hra, hrb, GitHub_same_trans hsa
      (GitHub_same_trans (foldl_rel _ _ GitHub_step_same L _ _ hab) (GitHub_same_symm hsb))⟩
  · intro a b L hab
    obtain ⟨ra, hra, hsa⟩ := GitHubEnterprise_reduce_events a L
    obtain ⟨rb, hrb, hsb⟩ := GitHubEnterprise_reduce_events b L
    exact ⟨ra, rb, hra, hrb, GitHubEnterprise_same_trans hsa
      (GitHubEnterprise_same_trans (foldl_rel _ _ GitHubEnterprise_step_same L _ _ hab) (GitHubEnterprise_same_symm hsb))⟩
  · intro a b L hab
    obtain ⟨ra, hra, hsa⟩ := GitLab_reduce_events a L
    obtain ⟨rb, hrb, hsb⟩ := GitLab_reduce_events b L
    exact ⟨ra, rb, hra, hrb, GitLab_same_trans hsa
      (GitLab_same_trans (foldl_rel _ _ GitLab_step_same L _ _ hab) (GitLab_same_symm hsb))⟩
  · intro a b L hab
    obtain ⟨ra, hra, hsa⟩ := GitLabSelfHosted_reduce_events a L
    obtain ⟨rb, hrb, hsb⟩ := GitLabSelfHosted_reduce_events b L
    exact ⟨ra, rb, hra, hrb, GitLabSelfHosted_same_trans hsa
      (GitLabSelfHosted_same_trans (foldl_rel _ _ GitLabSelfHosted_step_same L _ _ hab) (GitLabSelfHosted_same_symm hsb))⟩
  · intro a b L hab
    obtain ⟨ra, hra, hsa⟩ := Google_reduce_events a L
    obtain ⟨rb, hrb, hsb⟩ := Google_reduce_events b L
    exact ⟨ra, rb, hra, hrb, Google_same_trans hsa
      (Google_same_trans (foldl_rel _ _ Google_step_same L _ _ hab) (Google_same_symm hsb))⟩
  · intro a b L hab
    obtain ⟨ra, hra, hsa⟩ := LDAP_reduce_events a L
    obtain ⟨rb, hrb, hsb⟩ := LDAP_reduce_events b L
    exact ⟨ra, rb, hra, hrb, LDAP_same_trans hsa
      (LDAP_same_trans (foldl_rel _ _ LDAP_step_same L _ _ hab) (LDAP_same_symm hsb))⟩
  · intro a b L hab
    obtain ⟨ra, hra, hsa⟩ := IDPRemove_reduce_events a L
    obtain ⟨rb, hrb, hsb⟩ := IDPRemove_reduce_events b L
    exact ⟨ra, rb, hra, hrb, IDPRemove_same_trans hsa
      (IDPRemove_same_trans (foldl_rel _ _ IDPRemove_step_same L _ _ hab) (IDPRemove_same_symm hsb))⟩
  · intro a b L hab
    obtain ⟨ra, hra, hsa⟩ := IDPType_reduce_events a L
    obtain ⟨rb, hrb, hsb⟩ := IDPType_reduce_events b L
    exact ⟨ra, rb, hra, hrb, IDPType_same_trans hsa
      (IDPType_same_trans (foldl_rel _ _ IDPType_step_same L _ _ hab) (IDPType_same_symm hsb))⟩

/-- An instance of C9: the scenario write model, with and without folded history in its
base, reduces an unknown event and a removal to the same domain fields. -/
theorem reduce_deterministic_witness :
    OAuthIDPWriteModel.SameDomain scenarioOAuth { scenarioOAuth with ProcessedSequence := 41 } ∧
      ∃ ra rb,
        OAuthIDPWriteModel.Reduce
            { scenarioOAuth with
              Events :=
                [scenarioUnknownEvent,
                 { pkg := .plain, Sequence := 8, Aggregate := scenarioAggregate,
                   payload := .Removed { ID := "idp-1" } }] }
          = .ok ra ∧
        OAuthIDPWriteModel.Reduce
            { ({ scenarioOAuth with ProcessedSequence := 41 } : OAuthIDPWriteModel) with
              Events :=
                [scenarioUnknownEvent,
                 { pkg := .plain, Sequence := 8, Aggregate := scenarioAggregate,
                   payload := .Removed { ID := "idp-1" } }] }
          = .ok rb ∧
        OAuthIDPWriteModel.SameDomain ra rb :=
  ⟨⟨rfl, rfl, rfl, rfl, rfl, rfl, rfl, rfl, rfl, rfl, rfl⟩,
    reduce_deterministic.1 scenarioOAuth { scenarioOAuth with ProcessedSequence := 41 } _
      ⟨rfl, rfl, rfl, rfl, rfl, rfl, rfl, rfl, rfl, rfl, rfl⟩⟩

/-- C10: re-invocation of `Reduce`. For each of the ten provider write models,
`IDPRemoveWriteModel` and `IDPTypeWriteModel`, every initial state and every event list
`L`: folding `L` and then folding the same list `L` again gives the same domain fields as
folding `L` once. -/
theorem reduce_idempotent :
    (∀ (wm : OAuthIDPWriteModel) (L : List Event),
      ∃ r1 r2,
        OAuthIDPWriteModel.Reduce { wm with Events := L } = .ok r1 ∧
        OAuthIDPWriteModel.Reduce { r1 with Events := L } = .ok r2 ∧
        OAuthIDPWriteModel.SameDomain r2 r1) ∧
    (∀ (wm : OIDCIDPWriteModel) (L : List Event),
      ∃ r1 r2,
        OIDCIDPWriteModel.Reduce { wm with Events := L } = .ok r1 ∧
        OIDCIDPWriteModel.Reduce { r1 with Events := L } = .ok r2 ∧
        OIDCIDPWriteModel.SameDomain r2 r1) ∧
    (∀ (wm : JWTIDPWriteModel) (L : List Event),
      ∃ r1 r2,
        JWTIDPWriteModel.Reduce { wm with Events := L } = .ok r1 ∧
        JWTIDPWriteModel.Reduce { r1 with Events := L } = .ok r2 ∧
        JWTIDPWriteModel.SameDomain r2 r1) ∧
    (∀ (wm : AzureADIDPWriteModel) (L : List Event),
      ∃ r1 r2,
        AzureADIDPWriteModel.Reduce { wm with Events := L } = .ok r1 ∧
        AzureADIDPWriteModel.Reduce { r1 with Events := L } = .ok r2 ∧
        AzureADIDPWriteModel.SameDomain r2 r1) ∧
    (∀ (wm : GitHubIDPWriteModel) (L : List Event),
      ∃ r1 r2,
        GitHubIDPWriteModel.Reduce { wm with Events := L } = .ok r1 ∧
        GitHubIDPWriteModel.Reduce { r1 with Events := L } = .ok r2 ∧
        GitHubIDPWriteModel.SameDomain r2 r1) ∧
    (∀ (wm : GitHubEnterpriseIDPWriteModel) (L : List Event),
      ∃ r1 r2,
        GitHubEnterpriseIDPWriteModel.Reduce { wm with Events := L } = .ok r1 ∧
        GitHubEnterpriseIDPWriteModel.Reduce { r1 with Events := L } = .ok r2 ∧
        GitHubEnterpriseIDPWriteModel.SameDomain r2 r1) ∧
    (∀ (wm : GitLabIDPWriteModel) (L : List Event),
      ∃ r1 r2,
        GitLabIDPWriteModel.Reduce { wm with Events := L } = .ok r1 ∧
        GitLabIDPWriteModel.Reduce { r1 with Events := L } = .ok r2 ∧
        GitLabIDPWriteModel.SameDomain r2 r1) ∧
    (∀ (wm : GitLabSelfHostedIDPWriteModel) (L : List Event),
      ∃ r1 r2,
        GitLabSelfHostedIDPWriteModel.Reduce { wm with Events := L } = .ok r1 ∧
        GitLabSelfHostedIDPWriteModel.Reduce { r1 with Events := L } = .ok r2 ∧
        GitLabSelfHostedIDPWriteModel.SameDomain r2 r1) ∧
    (∀ (wm : GoogleIDPWriteModel) (L : List Event),
      ∃ r1 r2,
        GoogleIDPWriteModel.Reduce { wm with Events := L } = .ok r1 ∧
        GoogleIDPWriteModel.Reduce { r1 with Events := L } = .ok r2 ∧
        GoogleIDPWriteModel.SameDomain r2 r1) ∧
    (∀ (wm : LDAPIDPWriteModel) (L : List Event),
      ∃ r1 r2,
        LDAPIDPWriteModel.Reduce { wm with Events := L } = .ok r1 ∧
        LDAPIDPWriteModel.Reduce { r1 with Events := L } = .ok r2 ∧
        LDAPIDPWriteModel.SameDomain r2 r1) ∧
    (∀ (wm : IDPRemoveWriteModel) (L : List Event),
      ∃ r1 r2,
        IDPRemoveWriteModel.Reduce { wm with Events := L } = .ok r1 ∧
        IDPRemoveWriteModel.Reduce { r1 with Events := L } = .ok r2 ∧
        IDPRemoveWriteModel.SameDomain r2 r1) ∧
    (∀ (wm : IDPTypeWriteModel) (L : List Event),
      ∃ r1 r2,
        IDPTypeWriteModel.Reduce { wm with Events := L } = .ok r1 ∧
        IDPTypeWriteModel.Reduce { r1 with Events := L } = .ok r2 ∧
        IDPTypeWriteModel.SameDomain r2 r1) := by
  refine ⟨?_, ?_, ?_, ?_, ?_, ?_, ?_, ?_, ?_, ?_, ?_, ?_⟩
  · intro wm L
    obtain ⟨r1, hr1, hs1⟩ := OAuth_reduce_events wm L
    obtain ⟨r2, hr2, hs2⟩ := OAuth_reduce_events r1 L
    exact ⟨r1, r2, hr1, hr2, OAuth_same_trans hs2
      (OAuth_same_trans (foldl_rel _ _ OAuth_step_same L _ _ hs1)
        (OAuth_same_trans (OAuth_fold_idem wm L) (OAuth_same_symm hs1)))⟩
  · intro wm L
    obtain ⟨r1, hr1, hs1⟩ := OIDC_reduce_events wm L
    obtain ⟨r2, hr2, hs2⟩ := OIDC_reduce_events r1 L
    exact ⟨r1, r2, hr1, hr2, OIDC_same_trans hs2
      (OIDC_same_trans (foldl_rel _ _ OIDC_step_same L _ _ hs1)
        (OIDC_same_trans (OIDC_fold_idem wm L) (OIDC_same_symm hs1)))⟩
  · intro wm L
    obtain ⟨r1, hr1, hs1⟩ := JWT_reduce_events wm L
    obtain ⟨r2, hr2, hs2⟩ := JWT_reduce_events r1 L
    exact ⟨r1, r2, hr1, hr2, JWT_same_trans hs2
      (JWT_same_trans (foldl_rel _ _ JWT_step_same L _ _ hs1)
        (JWT_same_trans (JWT_fold_idem wm L) (JWT_same_symm hs1)))⟩
  · intro wm L
    obtain ⟨r1, hr1, hs1⟩ := AzureAD_reduce_events wm L
    obtain ⟨r2, hr2, hs2⟩ := AzureAD_reduce_events r1 L
    exact ⟨r1, r2, hr1, hr2, AzureAD_same_trans hs2
      (AzureAD_same_trans (foldl_rel _ _ AzureAD_step_same L _ _ hs1)
        (AzureAD_same_trans (AzureAD_fold_idem wm L) (AzureAD_same_symm hs1)))⟩
  · intro wm L
    obtain ⟨r1, hr1, hs1⟩ := GitHub_reduce_events wm L
    obtain ⟨r2, hr2, hs2⟩ := GitHub_reduce_events r1 L
    exact ⟨r1, r2, hr1, hr2, GitHub_same_trans hs2
      (GitHub_same_trans (foldl_rel _ _ GitHub_step_same L _ _ hs1)
        (GitHub_same_trans (GitHub_fold_idem wm L) (GitHub_same_symm hs1)))⟩
  · intro wm L
    obtain ⟨r1, hr1, hs1⟩ := GitHubEnterprise_reduce_events wm L
    obtain ⟨r2, hr2, hs2⟩ := GitHubEnterprise_reduce_events r1 L
    exact ⟨r1, r2, hr1, hr2, GitHubEnterprise_same_trans hs2
      (GitHubEnterprise_same_trans (foldl_rel _ _ GitHubEnterprise_step_same L _ _ hs1)
        (GitHubEnterprise_same_trans (GitHubEnterprise_fold_idem wm L) (GitHubEnterprise_same_symm hs1)))⟩
  · intro wm L
    obtain ⟨r1, hr1, hs1⟩ := GitLab_reduce_events wm L
    obtain ⟨r2, hr2, hs2⟩ := GitLab_reduce_events r1 L
    exact ⟨r1, r2, hr1, hr2, GitLab_same_trans hs2
      (GitLab_same_trans (foldl_rel _ _ GitLab_step_same L _ _ hs1)
        (GitLab_same_trans (GitLab_fold_idem wm L) (GitLab_same_symm hs1)))⟩
  · intro wm L
    obtain ⟨r1, hr1, hs1⟩ := GitLabSelfHosted_reduce_events wm L
    obtain ⟨r2, hr2, hs2⟩ := GitLabSelfHosted_reduce_events r1 L
    exact ⟨r1, r2, hr1, hr2, GitLabSelfHosted_same_trans hs2
      (GitLabSelfHosted_same_trans (foldl_rel _ _ GitLabSelfHosted_step_same L _ _ hs1)
        (GitLabSelfHosted_same_trans (GitLabSelfHosted_fold_idem wm L) (GitLabSelfHosted_same_symm hs1)))⟩
  · intro wm L
    obtain ⟨r1, hr1, hs1⟩ := Google_reduce_events wm L
    obtain ⟨r2, hr2, hs2⟩ := Google_reduce_events r1 L
    exact ⟨r1, r2, hr1, hr2, Google_same_trans hs2
      (Google_same_trans (foldl_rel _ _ Google_step_same L _ _ hs1)
        (Google_same_trans (Google_fold_idem wm L) (Google_same_symm hs1)))⟩
  · intro wm L
    obtain ⟨r1, hr1, hs1⟩ := LDAP_reduce_events wm L
    obtain ⟨r2, hr2, hs2⟩ := LDAP_reduce_events r1 L
    exact ⟨r1, r2, hr1, hr2, LDAP_same_trans hs2
      (LDAP_same_trans (foldl_rel _ _ LDAP_step_same L _ _ hs1)
        (LDAP_same_trans (LDAP_fold_idem wm L) (LDAP_same_symm hs1)))⟩
  · intro wm L
    obtain ⟨r1, hr1, hs1⟩ := IDPRemove_reduce_events wm L
    obtain ⟨r2, hr2, hs2⟩ := IDPRemove_reduce_events r1 L
    exact ⟨r1, r2, hr1, hr2, IDPRemove_same_trans hs2
      (IDPRemove_same_trans (foldl_rel _ _ IDPRemove_step_same L _ _ hs1)
        (IDPRemove_same_trans (IDPRemove_fold_idem wm L) (IDPRemove_same_symm hs1)))⟩
  · intro wm L
    obtain ⟨r1, hr1, hs1⟩ := IDPType_reduce_events wm L
    obtain ⟨r2, hr2, hs2⟩ := IDPType_reduce_events r1 L
    exact ⟨r1, r2, hr1, hr2, IDPType_same_trans hs2
      (IDPType_same_trans (foldl_rel _ _ IDPType_step_same L _ _ hs1)
        (IDPType_same_trans (IDPType_fold_idem wm L) (IDPType_same_symm hs1)))⟩

/-! ## Lemmas on the lifecycle state -/

theorem foldl_preserve {σ ε : Type} (step : σ → ε → σ) (P : σ → Prop) (Q : ε → Prop)
    (h : ∀ s e, P s → Q e → P (step s e)) (L : List ε) :
    ∀ s, P s → (∀ e ∈ L, Q e) → P (L.foldl step s) := by
  induction L with
  | nil => intro s hs _; exact hs
  | cons e rest ih =>
    intro s hs hq
    exact ih _ (h s e hs (hq e (List.mem_cons_self _ _)))
      (fun x hx => hq x (List.mem_cons_of_mem _ hx))

/-- A removed model stays removed under every event that is not of a restoring type. -/
theorem OAuth_step_removed (wm : OAuthIDPWriteModel) (e : Event)
    (h : wm.State = .IDPStateRemoved) (he : e.goType ∉ OAuthIDPWriteModel.restoringTypes) :
    (wm.reduceEvent e).State = .IDPStateRemoved := by
  obtain ⟨pkg, seq, agg, payload⟩ := e
  cases pkg <;> cases payload <;>
    simp only [OAuthIDPWriteModel.reduceEvent, OAuthIDPWriteModel.reduceAddedEvent,
      OAuthIDPWriteModel.reduceChangedEvent] <;>
    first
      | exact h
      | rfl
      | (exfalso; apply he; simp [Event.goType, EventPayload.kind, OAuthIDPWriteModel.restoringTypes])

/-- No step makes the state migrated. -/
theorem OAuth_step_migrated (wm : OAuthIDPWriteModel) (e : Event)
    (h : (wm.reduceEvent e).State = .IDPStateMigrated) : wm.State = .IDPStateMigrated := by
  obtain ⟨pkg, seq, agg, payload⟩ := e
  cases pkg <;> cases payload <;>
    simp only [OAuthIDPWriteModel.reduceEvent, OAuthIDPWriteModel.reduceAddedEvent,
      OAuthIDPWriteModel.reduceChangedEvent] at h <;>
    first
      | exact h
      | exact absurd h (by decide)

/-- The state after `Reduce` on a buffer `L` is the state of the fold of `L`. -/
theorem OAuth_reduce_state (wm : OAuthIDPWriteModel) (L : List Event) :
    ∃ r, OAuthIDPWriteModel.Reduce { wm with Events := L } = .ok r ∧
      r.State = (L.foldl OAuthIDPWriteModel.reduceEvent wm).State := by
  obtain ⟨r, hr, hs⟩ := OAuth_reduce_events wm L
  exact ⟨r, hr, hs.2.2.2.2.2.2.2.2.2.2⟩

/-- A removed model stays removed under every event that is not of a restoring type. -/
theorem OIDC_step_removed (wm : OIDCIDPWriteModel) (e : Event)
    (h : wm.State = .IDPStateRemoved) (he : e.goType ∉ OIDCIDPWriteModel.restoringTypes) :
    (wm.reduceEvent e).State = .IDPStateRemoved := by
  obtain ⟨pkg, seq, agg, payload⟩ := e
  cases pkg <;> cases payload <;>
    simp only [OIDCIDPWriteModel.reduceEvent, OIDCIDPWriteModel.reduceAddedEvent,
      OIDCIDPWriteModel.reduceChangedEvent, OIDCIDPWriteModel.reduceIDPConfigAddedEvent,
      OIDCIDPWriteModel.reduceIDPConfigChangedEvent, OIDCIDPWriteModel.reduceOIDCConfigAddedEvent,
      OIDCIDPWriteModel.reduceOIDCConfigChangedEvent] <;>
    first
      | exact h
      | rfl
      | (exfalso; apply he; simp [Event.goType, EventPayload.kind, OIDCIDPWriteModel.restoringTypes])

/-- No step makes the state migrated, the migrated events apart. -/
theorem OIDC_step_migrated (wm : OIDCIDPWriteModel) (e : Event)
    (he : e.goType ∉ OIDCIDPWriteModel.migratedTypes)
    (h : (wm.reduceEvent e).State = .IDPStateMigrated) : wm.State = .IDPStateMigrated := by
  obtain ⟨pkg, seq, agg, payload⟩ := e
  cases pkg <;> cases payload <;>
    simp only [OIDCIDPWriteModel.reduceEvent, OIDCIDPWriteModel.reduceAddedEvent,
      OIDCIDPWriteModel.reduceChangedEvent, OIDCIDPWriteModel.reduceIDPConfigAddedEvent,
      OIDCIDPWriteModel.reduceIDPConfigChangedEvent, OIDCIDPWriteModel.reduceOIDCConfigAddedEvent,
      OIDCIDPWriteModel.reduceOIDCConfigChangedEvent] at h <;>
    first
      | exact h
      | exact absurd h (by decide)
      | (exfalso; apply he; simp [Event.goType, EventPayload.kind, OIDCIDPWriteModel.migratedTypes])

/-- The state after `Reduce` on a buffer `L` is the state of the fold of `L`. -/
theorem OIDC_reduce_state (wm : OIDCIDPWriteModel) (L : List Event) :
    ∃ r, OIDCIDPWriteModel.Reduce { wm with Events := L } = .ok r ∧
      r.State = (L.foldl OIDCIDPWriteModel.reduceEvent wm).State := by
  obtain ⟨r, hr, hs⟩ := OIDC_reduce_events wm L
  exact ⟨r, hr, hs.2.2.2.2.2.2.2.2⟩

/-- A removed model stays removed under every event that is not of a restoring type. -/
theorem JWT_step_removed (wm : JWTIDPWriteModel) (e : Event)
    (h : wm.State = .IDPStateRemoved) (he : e.goType ∉ JWTIDPWriteModel.restoringTypes) :
    (wm.reduceEvent e).State = .IDPStateRemoved := by
  obtain ⟨pkg, seq, agg, payload⟩ := e
  cases pkg <;> cases payload <;>
    simp only [JWTIDPWriteModel.reduceEvent, JWTIDPWriteModel.reduceAddedEvent,
      JWTIDPWriteModel.reduceChangedEvent, JWTIDPWriteModel.reduceIDPConfigAddedEvent,
      JWTIDPWriteModel.reduceIDPConfigChangedEvent, JWTIDPWriteModel.reduceJWTConfigAddedEvent,
      JWTIDPWriteModel.reduceJWTConfigChangedEvent] <;>
    first
      | exact h
      | rfl
      | (exfalso; apply he; simp [Event.goType, EventPayload.kind, JWTIDPWriteModel.restoringTypes])

/-- No step makes the state migrated. -/
theorem JWT_step_migrated (wm : JWTIDPWriteModel) (e : Event)
    (h : (wm.reduceEvent e).State = .IDPStateMigrated) : wm.State = .IDPStateMigrated := by
  obtain ⟨pkg, seq, agg, payload⟩ := e
  cases pkg <;> cases payload <;>
    simp only [JWTIDPWriteModel.reduceEvent, JWTIDPWriteModel.reduceAddedEvent,
      JWTIDPWriteModel.reduceChangedEvent, JWTIDPWriteModel.reduceIDPConfigAddedEvent,
      JWTIDPWriteModel.reduceIDPConfigChangedEvent, JWTIDPWriteModel.reduceJWTConfigAddedEvent,
      JWTIDPWriteModel.reduceJWTConfigChangedEvent] at h <;>
    first
      | exact h
      | exact absurd h (by decide)

/-- The state after `Reduce` on a buffer `L` is the state of the fold of `L`. -/
theorem JWT_reduce_state (wm : JWTIDPWriteModel) (L : List Event) :
    ∃ r, JWTIDPWriteModel.Reduce { wm with Events := L } = .ok r ∧
      r.State = (L.foldl JWTIDPWriteModel.reduceEvent wm).State := by
  obtain ⟨r, hr, hs⟩ := JWT_reduce_events wm L
  exact ⟨r, hr, hs.2.2.2.2.2.2.2⟩

/-- A removed model stays removed under every event that is not of a restoring type. -/
theorem AzureAD_step_removed (wm : AzureADIDPWriteModel) (e : Event)
    (h : wm.State = .IDPStateRemoved) (he : e.goType ∉ AzureADIDPWriteModel.restoringTypes) :
    (wm.reduceEvent e).State = .IDPStateRemoved := by
  obtain ⟨pkg, seq, agg, payload⟩ := e
  cases pkg <;> cases payload <;>
    simp only [AzureADIDPWriteModel.reduceEvent, AzureADIDPWriteModel.reduceAddedEvent,
      AzureADIDPWriteModel.reduceChangedEvent] <;>
    first
      | exact h
      | rfl
      | (exfalso; apply he; simp [Event.goType, EventPayload.kind, AzureADIDPWriteModel.restoringTypes])

/-- No step makes the state migrated. -/
theorem AzureAD_step_migrated (wm : AzureADIDPWriteModel) (e : Event)
    (h : (wm.reduceEvent e).State = .IDPStateMigrated) : wm.State = .IDPStateMigrated := by
  obtain ⟨pkg, seq, agg, payload⟩ := e
  cases pkg <;> cases payload <;>
    simp only [AzureADIDPWriteModel.reduceEvent, AzureADIDPWriteModel.reduceAddedEvent,
      AzureADIDPWriteModel.reduceChangedEvent] at h <;>
    first
      | exact h
      | exact absurd h (by decide)

/-- The state after `Reduce` on a buffer `L` is the state of the fold of `L`. -/
theorem AzureAD_reduce_state (wm : AzureADIDPWriteModel) (L : List Event) :
    ∃ r, AzureADIDPWriteModel.Reduce { wm with Events := L } = .ok r ∧
      r.State = (L.foldl AzureADIDPWriteModel.reduceEvent wm).State := by
  obtain ⟨r, hr, hs⟩ := AzureAD_reduce_events wm L
  exact ⟨r, hr, hs.2.2.2.2.2.2.2.2⟩

/-- A removed model stays removed under every event that is not of a restoring type. -/
theorem GitHub_step_removed (wm : GitHubIDPWriteModel) (e : Event)
    (h : wm.State = .IDPStateRemoved) (he : e.goType ∉ GitHubIDPWriteModel.restoringTypes) :
    (wm.reduceEvent e).State = .IDPStateRemoved := by
  obtain ⟨pkg, seq, agg, payload⟩ := e
  cases pkg <;> cases payload <;>
    simp only [GitHubIDPWriteModel.reduceEvent, GitHubIDPWriteModel.reduceAddedEvent,
      GitHubIDPWriteModel.reduceChangedEvent] <;>
    first
      | exact h
      | rfl
      | (exfalso; apply he; simp [Event.goType, EventPayload.kind, GitHubIDPWriteModel.restoringTypes])

/-- No step makes the state migrated. -/
theorem GitHub_step_migrated (wm : GitHubIDPWriteModel) (e : Event)
    (h : (wm.reduceEvent e).State = .IDPStateMigrated) : wm.State = .IDPStateMigrated := by
  obtain ⟨pkg, seq, agg, payload⟩ := e
  cases pkg <;> cases payload <;>
    simp only [GitHubIDPWriteModel.reduceEvent, GitHubIDPWriteModel.reduceAddedEvent,
      GitHubIDPWriteModel.reduceChangedEvent] at h <;>
    first
      | exact h
      | exact absurd h (by decide)

/-- The state after `Reduce` on a buffer `L` is the state of the fold of `L`. -/
theorem GitHub_reduce_state (wm : GitHubIDPWriteModel) (L : List Event) :
    ∃ r, GitHubIDPWriteModel.Reduce { wm with Events := L } = .ok r ∧
      r.State = (L.foldl GitHubIDPWriteModel.reduceEvent wm).State := by
  obtain ⟨r, hr, hs⟩ := GitHub_reduce_events wm L
  exact ⟨r, hr, hs.2.2.2.2.2.2⟩

/-- A removed model stays removed under every event that is not of a restoring type. -/
theorem GitHubEnterprise_step_removed (wm : GitHubEnterpriseIDPWriteModel) (e : Event)
    (h : wm.State = .IDPStateRemoved) (he : e.goType ∉ GitHubEnterpriseIDPWriteModel.restoringTypes) :
    (wm.reduceEvent e).State = .IDPStateRemoved := by
  obtain ⟨pkg, seq, agg, payload⟩ := e
  cases pkg <;> cases payload <;>
    simp only [GitHubEnterpriseIDPWriteModel.reduceEvent,
      GitHubEnterpriseIDPWriteModel.reduceAddedEvent,
      GitHubEnterpriseIDPWriteModel.reduceChangedEvent] <;>
    first
      | exact h
      | rfl
      | (exfalso; apply he; simp [Event.goType, EventPayload.kind, GitHubEnterpriseIDPWriteModel.restoringTypes])

/-- No step makes the state migrated. -/
theorem GitHubEnterprise_step_migrated (wm : GitHubEnterpriseIDPWriteModel) (e : Event)
    (h : (wm.reduceEvent e).State = .IDPStateMigrated) : wm.State = .IDPStateMigrated := by
  obtain ⟨pkg, seq, agg, payload⟩ := e
  cases pkg <;> cases payload <;>
    simp only [GitHubEnterpriseIDPWriteModel.reduceEvent,
      GitHubEnterpriseIDPWriteModel.reduceAddedEvent,
      GitHubEnterpriseIDPWriteModel.reduceChangedEvent] at h <;>
    first
      | exact h
      | exact absurd h (by decide)

/-- The state after `Reduce` on a buffer `L` is the state of the fold of `L`. -/
theorem GitHubEnterprise_reduce_state (wm : GitHubEnterpriseIDPWriteModel) (L : List Event) :
    ∃ r, GitHubEnterpriseIDPWriteModel.Reduce { wm with Events := L } = .ok r ∧
      r.State = (L.foldl GitHubEnterpriseIDPWriteModel.reduceEvent wm).State := by
  obtain ⟨r, hr, hs⟩ := GitHubEnterprise_reduce_events wm L
  exact ⟨r, hr, hs.2.2.2.2.2.2.2.2.2⟩

/-- A removed model stays removed under every event that is not of a restoring type. -/
theorem GitLab_step_removed (wm : GitLabIDPWriteModel) (e : Event)
    (h : wm.State = .IDPStateRemoved) (he : e.goType ∉ GitLabIDPWriteModel.restoringTypes) :
    (wm.reduceEvent e).State = .IDPStateRemoved := by
  obtain ⟨pkg, seq, agg, payload⟩ := e
  cases pkg <;> cases payload <;>
    simp only [GitLabIDPWriteModel.reduceEvent, GitLabIDPWriteModel.reduceAddedEvent,
      GitLabIDPWriteModel.reduceChangedEvent] <;>
    first
      | exact h
      | rfl
      | (exfalso; apply he; simp [Event.goType, EventPayload.kind, GitLabIDPWriteModel.restoringTypes])

/-- No step makes the state migrated. -/
theorem GitLab_step_migrated (wm : GitLabIDPWriteModel) (e : Event)
    (h : (wm.reduceEvent e).State = .IDPStateMigrated) : wm.State = .IDPStateMigrated := by
  obtain ⟨pkg, seq, agg, payload⟩ := e
  cases pkg <;> cases payload <;>
    simp only [GitLabIDPWriteModel.reduceEvent, GitLabIDPWriteModel.reduceAddedEvent,
      GitLabIDPWriteModel.reduceChangedEvent] at h <;>
    first
      | exact h
      | exact absurd h (by decide)

/-- The state after `Reduce` on a buffer `L` is the state of the fold of `L`. -/
theorem GitLab_reduce_state (wm : GitLabIDPWriteModel) (L : List Event) :
    ∃ r, GitLabIDPWriteModel.Reduce { wm with Events := L } = .ok r ∧
      r.State = (L.foldl GitLabIDPWriteModel.reduceEvent wm).State := by
  obtain ⟨r, hr, hs⟩ := GitLab_reduce_events wm L
  exact ⟨r, hr, hs.2.2.2.2.2.2⟩

/-- A removed model stays removed under every event that is not of a restoring type. -/
theorem GitLabSelfHosted_step_removed (wm : GitLabSelfHostedIDPWriteModel) (e : Event)
    (h : wm.State = .IDPStateRemoved) (he : e.goType ∉ GitLabSelfHostedIDPWriteModel.restoringTypes) :
    (wm.reduceEvent e).State = .IDPStateRemoved := by
  obtain ⟨pkg, seq, agg, payload⟩ := e
  cases pkg <;> cases payload <;>
    simp only [GitLabSelfHostedIDPWriteModel.reduceEvent,
      GitLabSelfHostedIDPWriteModel.reduceAddedEvent,
      GitLabSelfHostedIDPWriteModel.reduceChangedEvent] <;>
    first
      | exact h
      | rfl
      | (exfalso; apply he; simp [Event.goType, EventPayload.kind, GitLabSelfHostedIDPWriteModel.restoringTypes])

/-- No step makes the state migrated. -/
theorem GitLabSelfHosted_step_migrated (wm : GitLabSelfHostedIDPWriteModel) (e : Event)
    (h : (wm.reduceEvent e).State = .IDPStateMigrated) : wm.State = .IDPStateMigrated := by
  obtain ⟨pkg, seq, agg, payload⟩ := e
  cases pkg <;> cases payload <;>
    simp only [GitLabSelfHostedIDPWriteModel.reduceEvent,
      GitLabSelfHostedIDPWriteModel.reduceAddedEvent,
      GitLabSelfHostedIDPWriteModel.reduceChangedEvent] at h <;>
    first
      | exact h
      | exact absurd h (by decide)

/-- The state after `Reduce` on a buffer `L` is the state of the fold of `L`. -/
theorem GitLabSelfHosted_reduce_state (wm : GitLabSelfHostedIDPWriteModel) (L : List Event) :
    ∃ r, GitLabSelfHostedIDPWriteModel.Reduce { wm with Events := L } = .ok r ∧
      r.State = (L.foldl GitLabSelfHostedIDPWriteModel.reduceEvent wm).State := by
  obtain ⟨r, hr, hs⟩ := GitLabSelfHosted_reduce_events wm L
  exact ⟨r, hr, hs.2.2.2.2.2.2.2⟩

/-- A removed model stays removed under every event that is not of a restoring type. -/
theorem Google_step_removed (wm : GoogleIDPWriteModel) (e : Event)
    (h : wm.State = .IDPStateRemoved) (he : e.goType ∉ GoogleIDPWriteModel.restoringTypes) :
    (wm.reduceEvent e).State = .IDPStateRemoved := by
  obtain ⟨pkg, seq, agg, payload⟩ := e
  cases pkg <;> cases payload <;>
    simp only [GoogleIDPWriteModel.reduceEvent, GoogleIDPWriteModel.reduceAddedEvent,
      GoogleIDPWriteModel.reduceChangedEvent] <;>
    first
      | exact h
      | rfl
      | (exfalso; apply he; simp [Event.goType, EventPayload.kind, GoogleIDPWriteModel.restoringTypes])

/-- No step makes the state migrated. -/
theorem Google_step_migrated (wm : GoogleIDPWriteModel) (e : Event)
    (h : (wm.reduceEvent e).State = .IDPStateMigrated) : wm.State = .IDPStateMigrated := by
  obtain ⟨pkg, seq, agg, payload⟩ := e
  cases pkg <;> cases payload <;>
    simp only [GoogleIDPWriteModel.reduceEvent, GoogleIDPWriteModel.reduceAddedEvent,
      GoogleIDPWriteModel.reduceChangedEvent] at h <;>
    first
      | exact h
      | exact absurd h (by decide)

/-- The state after `Reduce` on a buffer `L` is the state of the fold of `L`. -/
theorem Google_reduce_state (wm : GoogleIDPWriteModel) (L : List Event) :
    ∃ r, GoogleIDPWriteModel.Reduce { wm with Events := L } = .ok r ∧
      r.State = (L.foldl GoogleIDPWriteModel.reduceEvent wm).State := by
  obtain ⟨r, hr, hs⟩ := Google_reduce_events wm L
  exact ⟨r, hr, hs.2.2.2.2.2.2⟩

/-- A removed model stays removed under every event that is not of a restoring type. -/
theorem LDAP_step_removed (wm : LDAPIDPWriteModel) (e : Event)
    (h : wm.State = .IDPStateRemoved) (he : e.goType ∉ LDAPIDPWriteModel.restoringTypes) :
    (wm.reduceEvent e).State = .IDPStateRemoved := by
  obtain ⟨pkg, seq, agg, payload⟩ := e
  cases pkg <;> cases payload <;>
    simp only [LDAPIDPWriteModel.reduceEvent, LDAPIDPWriteModel.reduceAddedEvent,
      LDAPIDPWriteModel.reduceChangedEvent] <;>
    (try split_ifs) <;>
    first
      | exact h
      | rfl
      | (exfalso; apply he; simp [Event.goType, EventPayload.kind, LDAPIDPWriteModel.restoringTypes])

/-- No step makes the state migrated. -/
theorem LDAP_step_migrated (wm : LDAPIDPWriteModel) (e : Event)
    (h : (wm.reduceEvent e).State = .IDPStateMigrated) : wm.State = .IDPStateMigrated := by
  obtain ⟨pkg, seq, agg, payload⟩ := e
  cases pkg <;> cases payload <;>
    simp only [LDAPIDPWriteModel.reduceEvent, LDAPIDPWriteModel.reduceAddedEvent,
      LDAPIDPWriteModel.reduceChangedEvent] at h <;>
    (try split_ifs at h) <;>
    first
      | exact h

/-- The state after `Reduce` on a buffer `L` is the state of the fold of `L`. -/
theorem LDAP_reduce_state (wm : LDAPIDPWriteModel) (L : List Event) :
    ∃ r, LDAPIDPWriteModel.Reduce { wm with Events := L } = .ok r ∧
      r.State = (L.foldl LDAPIDPWriteModel.reduceEvent wm).State := by
  obtain ⟨r, hr, hs⟩ := LDAP_reduce_events wm L
  exact ⟨r, hr, hs.2.2.2.2.2.2.2.2.2.2.2.2.2⟩

/-- A removed model stays removed under every event that is not of a restoring type. -/
theorem IDPRemove_step_removed (wm : IDPRemoveWriteModel) (e : Event)
    (h : wm.State = .IDPStateRemoved) (he : e.goType ∉ IDPRemoveWriteModel.restoringTypes) :
    (wm.reduceEvent e).State = .IDPStateRemoved := by
  obtain ⟨pkg, seq, agg, payload⟩ := e
  cases pkg <;> cases payload <;>
    simp only [IDPRemoveWriteModel.reduceEvent, IDPRemoveWriteModel.reduceAdded,
      IDPRemoveWriteModel.reduceRemoved] <;>
    (try split_ifs) <;>
    first
      | exact h
      | rfl
      | (exfalso; apply he; simp [Event.goType, EventPayload.kind, IDPRemoveWriteModel.restoringTypes])

/-- No step makes the state migrated. -/
theorem IDPRemove_step_migrated (wm : IDPRemoveWriteModel) (e : Event)
    (h : (wm.reduceEvent e).State = .IDPStateMigrated) : wm.State = .IDPStateMigrated := by
  obtain ⟨pkg, seq, agg, payload⟩ := e
  cases pkg <;> cases payload <;>
    simp only [IDPRemoveWriteModel.reduceEvent, IDPRemoveWriteModel.reduceAdded,
      IDPRemoveWriteModel.reduceRemoved] at h <;>
    (try split_ifs at h) <;>
    first
      | exact h

/-- The state after `Reduce` on a buffer `L` is the state of the fold of `L`. -/
theorem IDPRemove_reduce_state (wm : IDPRemoveWriteModel) (L : List Event) :
    ∃ r, IDPRemoveWriteModel.Reduce { wm with Events := L } = .ok r ∧
      r.State = (L.foldl IDPRemoveWriteModel.reduceEvent wm).State := by
  obtain ⟨r, hr, hs⟩ := IDPRemove_reduce_events wm L
  exact ⟨r, hr, hs.2⟩

/-- A removed model stays removed under every event that is not of a restoring type. -/
theorem IDPType_step_removed (wm : IDPTypeWriteModel) (e : Event)
    (h : wm.State = .IDPStateRemoved) (he : e.goType ∉ IDPTypeWriteModel.restoringTypes) :
    (wm.reduceEvent e).State = .IDPStateRemoved := by
  obtain ⟨pkg, seq, agg, payload⟩ := e
  cases pkg <;> cases payload <;>
    simp only [IDPTypeWriteModel.reduceEvent, IDPTypeWriteModel.reduceAdded,
      IDPTypeWriteModel.reduceRemoved, IDPTypeWriteModel.reduceIDPConfigAdded] <;>
    (try split_ifs) <;>
    first
      | exact h
      | rfl
      | (exfalso; apply he; simp [Event.goType, EventPayload.kind, IDPTypeWriteModel.restoringTypes])

/-- No step makes the state migrated. -/
theorem IDPType_step_migrated (wm : IDPTypeWriteModel) (e : Event)
    (h : (wm.reduceEvent e).State = .IDPStateMigrated) : wm.State = .IDPStateMigrated := by
  obtain ⟨pkg, seq, agg, payload⟩ := e
  cases pkg <;> cases payload <;>
    simp only [IDPTypeWriteModel.reduceEvent, IDPTypeWriteModel.reduceAdded,
      IDPTypeWriteModel.reduceRemoved, IDPTypeWriteModel.reduceIDPConfigAdded] at h <;>
    (try split_ifs at h) <;>
    first
      | exact h

/-- The state after `Reduce` on a buffer `L` is the state of the fold of `L`. -/
theorem IDPType_reduce_state (wm : IDPTypeWriteModel) (L : List Event) :
    ∃ r, IDPTypeWriteModel.Reduce { wm with Events := L } = .ok r ∧
      r.State = (L.foldl IDPTypeWriteModel.reduceEvent wm).State := by
  obtain ⟨r, hr, hs⟩ := IDPType_reduce_events wm L
  exact ⟨r, hr, hs.2.2⟩

/-! ## Lemmas on materialization -/

/-- A failed decryption is what `ToProvider` returns. -/
theorem OAuth_toProvider_error (wm : OAuthIDPWriteModel) {Provider : Type}
    (lib : ProviderLibraries Provider) (cb : String) (alg : EncryptionAlgorithm) (err : Error)
    (h : DecryptString wm.ClientSecret alg = .error err) :
    wm.ToProvider lib cb alg = .error err := by
  simp only [OAuthIDPWriteModel.ToProvider, h]

/-- The constructor call of `ToProvider`, with the option list written as one append. -/
theorem OAuth_toProvider_ok (wm : OAuthIDPWriteModel) {Provider : Type}
    (lib : ProviderLibraries Provider) (cb : String) (alg : EncryptionAlgorithm) (secret : String)
    (h : DecryptString wm.ClientSecret alg = .ok secret) :
    wm.ToProvider lib cb alg =
      lib.construct
        (.oauthNew
          { ClientID := wm.ClientID, ClientSecret := secret,
            Endpoint :=
              { AuthURL := wm.AuthorizationEndpoint, TokenURL := wm.TokenEndpoint },
            RedirectURL := cb, Scopes := wm.Scopes }
          wm.Name wm.UserEndpoint wm.IDAttribute
            ((if wm.Options.IsCreationAllowed = true then
               [OAuthProviderOpts.WithCreationAllowed] else []) ++
             ((if wm.Options.IsLinkingAllowed = true then
               [OAuthProviderOpts.WithLinkingAllowed] else []) ++
             ((if wm.Options.IsAutoCreation = true then
               [OAuthProviderOpts.WithAutoCreation] else []) ++
             (if wm.Options.IsAutoUpdate = true then
               [OAuthProviderOpts.WithAutoUpdate] else []))))) := by
  simp only [OAuthIDPWriteModel.ToProvider, h, ite_append_single]
  simp only [List.append_assoc, List.nil_append]

/-- A failed decryption is what `ToProvider` returns. -/
theorem OIDC_toProvider_error (wm : OIDCIDPWriteModel) {Provider : Type}
    (lib : ProviderLibraries Provider) (cb : String) (alg : EncryptionAlgorithm) (err : Error)
    (h : DecryptString wm.ClientSecret alg = .error err) :
    wm.ToProvider lib cb alg = .error err := by
  simp only [OIDCIDPWriteModel.ToProvider, h]

/-- The constructor call of `ToProvider`, with the option list written as one append. -/
theorem OIDC_toProvider_ok (wm : OIDCIDPWriteModel) {Provider : Type}
    (lib : ProviderLibraries Provider) (cb : String) (alg : EncryptionAlgorithm) (secret : String)
    (h : DecryptString wm.ClientSecret alg = .ok secret) :
    wm.ToProvider lib cb alg =
      lib.construct
        (.oidcNew wm.Name wm.Issuer wm.ClientID secret cb
          wm.Scopes
            (([OIDCProviderOpts.WithSelectAccount]) ++
             ((if wm.IsIDTokenMapping = true then
               [OIDCProviderOpts.WithIDTokenMapping] else []) ++
             ((if wm.Options.IsCreationAllowed = true then
               [OIDCProviderOpts.WithCreationAllowed] else []) ++
             ((if wm.Options.IsLinkingAllowed = true then
               [OIDCProviderOpts.WithLinkingAllowed] else []) ++
             ((if wm.Options.IsAutoCreation = true then
               [OIDCProviderOpts.WithAutoCreation] else []) ++
             (if wm.Options.IsAutoUpdate = true then
               [OIDCProviderOpts.WithAutoUpdate] else []))))))) := by
  simp only [OIDCIDPWriteModel.ToProvider, h, ite_append_single]
  simp only [List.append_assoc, List.nil_append]

/-- The constructor call of `ToProvider`, with the option list written as one append. -/
theorem JWT_toProvider_ok (wm : JWTIDPWriteModel) {Provider : Type}
    (lib : ProviderLibraries Provider) (cb : String) (alg : EncryptionAlgorithm) :
    wm.ToProvider lib cb alg =
      lib.construct
        (.jwtNew wm.Name wm.Issuer wm.JWTEndpoint wm.KeysEndpoint
          wm.HeaderName alg
            ((if wm.Options.IsCreationAllowed = true then
               [JWTProviderOpts.WithCreationAllowed] else []) ++
             ((if wm.Options.IsLinkingAllowed = true then
               [JWTProviderOpts.WithLinkingAllowed] else []) ++
             ((if wm.Options.IsAutoCreation = true then
               [JWTProviderOpts.WithAutoCreation] else []) ++
             (if wm.Options.IsAutoUpdate = true then
               [JWTProviderOpts.WithAutoUpdate] else []))))) := by
  simp only [JWTIDPWriteModel.ToProvider, ite_append_single]
  simp only [List.append_assoc, List.nil_append]

/-- A failed decryption is what `ToProvider` returns. -/
theorem AzureAD_toProvider_error (wm : AzureADIDPWriteModel) {Provider : Type}
    (lib : ProviderLibraries Provider) (cb : String) (alg : EncryptionAlgorithm) (err : Error)
    (h : DecryptString wm.ClientSecret alg = .error err) :
    wm.ToProvider lib cb alg = .error err := by
  simp only [AzureADIDPWriteModel.ToProvider, h]

/-- The constructor call of `ToProvider`, with the option list written as one append. -/
theorem AzureAD_toProvider_ok (wm : AzureADIDPWriteModel) {Provider : Type}
    (lib : ProviderLibraries Provider) (cb : String) (alg : EncryptionAlgorithm) (secret : String)
    (h : DecryptString wm.ClientSecret alg = .ok secret) :
    ∃ opts, wm.ToProvider lib cb alg =
      lib.construct
        (.azureadNew wm.Name wm.ClientID secret cb
          wm.Scopes opts) := by
  simp only [AzureADIDPWriteModel.ToProvider, h]
  exact ⟨_, rfl⟩

/-- A failed decryption is what `ToProvider` returns. -/
theorem GitHub_toProvider_error (wm : GitHubIDPWriteModel) {Provider : Type}
    (lib : ProviderLibraries Provider) (cb : String) (alg : EncryptionAlgorithm) (err : Error)
    (h : DecryptString wm.ClientSecret alg = .error err) :
    wm.ToProvider lib cb alg = .error err := by
  simp only [GitHubIDPWriteModel.ToProvider, h]

/-- The constructor call of `ToProvider`, with the option list written as one append. -/
theorem GitHub_toProvider_ok (wm : GitHubIDPWriteModel) {Provider : Type}
    (lib : ProviderLibraries Provider) (cb : String) (alg : EncryptionAlgorithm) (secret : String)
    (h : DecryptString wm.ClientSecret alg = .ok secret) :
    wm.ToProvider lib cb alg =
      lib.construct
        (.githubNew wm.ClientID secret cb
          wm.Scopes
            ((if wm.Options.IsCreationAllowed = true then
               [OAuthProviderOpts.WithCreationAllowed] else []) ++
             ((if wm.Options.IsLinkingAllowed = true then
               [OAuthProviderOpts.WithLinkingAllowed] else []) ++
             ((if wm.Options.IsAutoCreation = true then
               [OAuthProviderOpts.WithAutoCreation] else []) ++
             (if wm.Options.IsAutoUpdate = true then
               [OAuthProviderOpts.WithAutoUpdate] else []))))) := by
  simp only [GitHubIDPWriteModel.ToProvider, h, ite_append_single]
  simp only [List.append_assoc, List.nil_append]

/-- A failed decryption is what `ToProvider` returns. -/
theorem GitHubEnterprise_toProvider_error (wm : GitHubEnterpriseIDPWriteModel) {Provider : Type}
    (lib : ProviderLibraries Provider) (cb : String) (alg : EncryptionAlgorithm) (err : Error)
    (h : DecryptString wm.ClientSecret alg = .error err) :
    wm.ToProvider lib cb alg = .error err := by
  simp only [GitHubEnterpriseIDPWriteModel.ToProvider, h]

/-- The constructor call of `ToProvider`, with the option list written as one append. -/
theorem GitHubEnterprise_toProvider_ok (wm : GitHubEnterpriseIDPWriteModel) {Provider : Type}
    (lib : ProviderLibraries Provider) (cb : String) (alg : EncryptionAlgorithm) (secret : String)
    (h : DecryptString wm.ClientSecret alg = .ok secret) :
    wm.ToProvider lib cb alg =
      lib.construct
        (.githubNewCustomURL wm.Name wm.ClientID secret cb
          wm.AuthorizationEndpoint wm.TokenEndpoint wm.UserEndpoint
          wm.Scopes
            ((if wm.Options.IsCreationAllowed = true then
               [OAuthProviderOpts.WithCreationAllowed] else []) ++
             ((if wm.Options.IsLinkingAllowed = true then
               [OAuthProviderOpts.WithLinkingAllowed] else []) ++
             ((if wm.Options.IsAutoCreation = true then
               [OAuthProviderOpts.WithAutoCreation] else []) ++
             (if wm.Options.IsAutoUpdate = true then
               [OAuthProviderOpts.WithAutoUpdate] else []))))) := by
  simp only [GitHubEnterpriseIDPWriteModel.ToProvider, h, ite_append_single]
  simp only [List.append_assoc, List.nil_append]

/-- A failed decryption is what `ToProvider` returns. -/
theorem GitLab_toProvider_error (wm : GitLabIDPWriteModel) {Provider : Type}
    (lib : ProviderLibraries Provider) (cb : String) (alg : EncryptionAlgorithm) (err : Error)
    (h : DecryptString wm.ClientSecret alg = .error err) :
    wm.ToProvider lib cb alg = .error err := by
  simp only [GitLabIDPWriteModel.ToProvider, h]

/-- The constructor call of `ToProvider`, with the option list written as one append. -/
theorem GitLab_toProvider_ok (wm : GitLabIDPWriteModel) {Provider : Type}
    (lib : ProviderLibraries Provider) (cb : String) (alg : EncryptionAlgorithm) (secret : String)
    (h : DecryptString wm.ClientSecret alg = .ok secret) :
    wm.ToProvider lib cb alg =
      lib.construct
        (.gitlabNew wm.ClientID secret cb
          wm.Scopes
            ((if wm.Options.IsCreationAllowed = true then
               [OIDCProviderOpts.WithCreationAllowed] else []) ++
             ((if wm.Options.IsLinkingAllowed = true then
               [OIDCProviderOpts.WithLinkingAllowed] else []) ++
             ((if wm.Options.IsAutoCreation = true then
               [OIDCProviderOpts.WithAutoCreation] else []) ++
             (if wm.Options.IsAutoUpdate = true then
               [OIDCProviderOpts.WithAutoUpdate] else []))))) := by
  simp only [GitLabIDPWriteModel.ToProvider, h, ite_append_single]
  simp only [List.append_assoc, List.nil_append]

/-- A failed decryption is what `ToProvider` returns. -/
theorem GitLabSelfHosted_toProvider_error (wm : GitLabSelfHostedIDPWriteModel) {Provider : Type}
    (lib : ProviderLibraries Provider) (cb : String) (alg : EncryptionAlgorithm) (err : Error)
    (h : DecryptString wm.ClientSecret alg = .error err) :
    wm.ToProvider lib cb alg = .error err := by
  simp only [GitLabSelfHostedIDPWriteModel.ToProvider, h]

/-- The constructor call of `ToProvider`, with the option list written as one append. -/
theorem GitLabSelfHosted_toProvider_ok (wm : GitLabSelfHostedIDPWriteModel) {Provider : Type}
    (lib : ProviderLibraries Provider) (cb : String) (alg : EncryptionAlgorithm) (secret : String)
    (h : DecryptString wm.ClientSecret alg = .ok secret) :
    wm.ToProvider lib cb alg =
      lib.construct
        (.gitlabNewCustomIssuer wm.Name wm.Issuer wm.ClientID secret cb
          wm.Scopes
            ((if wm.Options.IsCreationAllowed = true then
               [OIDCProviderOpts.WithCreationAllowed] else []) ++
             ((if wm.Options.IsLinkingAllowed = true then
               [OIDCProviderOpts.WithLinkingAllowed] else []) ++
             ((if wm.Options.IsAutoCreation = true then
               [OIDCProviderOpts.WithAutoCreation] else []) ++
             (if wm.Options.IsAutoUpdate = true then
               [OIDCProviderOpts.WithAutoUpdate] else []))))) := by
  simp only [GitLabSelfHostedIDPWriteModel.ToProvider, h, ite_append_single]
  simp only [List.append_assoc, List.nil_append]

/-- A failed decryption is what `ToProvider` returns. -/
theorem Google_toProvider_error (wm : GoogleIDPWriteModel) {Provider : Type}
    (lib : ProviderLibraries Provider) (cb : String) (alg : EncryptionAlgorithm) (err : Error)
    (h : DecryptString wm.ClientSecret alg = .error err) :
    wm.ToProvider lib cb alg = .error err := by
  simp only [GoogleIDPWriteModel.ToProvider, h]

/-- The constructor call of `ToProvider`, with the option list written as one append. -/
theorem Google_toProvider_ok (wm : GoogleIDPWriteModel) {Provider : Type}
    (lib : ProviderLibraries Provider) (cb : String) (alg : EncryptionAlgorithm) (secret : String)
    (h : DecryptString wm.ClientSecret alg = .ok secret) :
    wm.ToProvider lib cb alg =
      lib.construct
        (.googleNew wm.ClientID secret cb
          wm.Scopes
            ((if wm.Options.IsCreationAllowed = true then
               [OIDCProviderOpts.WithCreationAllowed] else []) ++
             ((if wm.Options.IsLinkingAllowed = true then
               [OIDCProviderOpts.WithLinkingAllowed] else []) ++
             ((if wm.Options.IsAutoCreation = true then
               [OIDCProviderOpts.WithAutoCreation] else []) ++
             (if wm.Options.IsAutoUpdate = true then
               [OIDCProviderOpts.WithAutoUpdate] else []))))) := by
  simp only [GoogleIDPWriteModel.ToProvider, h, ite_append_single]
  simp only [List.append_assoc, List.nil_append]

/-- A failed decryption is what `ToProvider` returns. -/
theorem LDAP_toProvider_error (wm : LDAPIDPWriteModel) {Provider : Type}
    (lib : ProviderLibraries Provider) (cb : String) (alg : EncryptionAlgorithm) (err : Error)
    (h : DecryptString wm.BindPassword alg = .error err) :
    wm.ToProvider lib cb alg = .error err := by
  simp only [LDAPIDPWriteModel.ToProvider, h]

/-- The constructor call of `ToProvider`, with the option list written as one append. -/
theorem LDAP_toProvider_ok (wm : LDAPIDPWriteModel) {Provider : Type}
    (lib : ProviderLibraries Provider) (cb : String) (alg : EncryptionAlgorithm) (secret : String)
    (h : DecryptString wm.BindPassword alg = .ok secret) :
    wm.ToProvider lib cb alg =
      .ok (lib.ldapNew
        { name := wm.Name, servers := wm.Servers, baseDN := wm.BaseDN, bindDN := wm.BindDN,
          bindPassword := secret, userBase := wm.UserBase,
          userObjectClasses := wm.UserObjectClasses, userFilters := wm.UserFilters,
          timeout := wm.Timeout, loginUrl := cb, opts :=
            ((if (!wm.StartTLS) = true then
               [LDAPProviderOpts.WithoutStartTLS] else []) ++
             ((if wm.LDAPAttributes.IDAttribute ≠ "" then
               [LDAPProviderOpts.WithCustomIDAttribute wm.LDAPAttributes.IDAttribute] else []) ++
             ((if wm.LDAPAttributes.FirstNameAttribute ≠ "" then
               [LDAPProviderOpts.WithFirstNameAttribute wm.LDAPAttributes.FirstNameAttribute] else []) ++
             ((if wm.LDAPAttributes.LastNameAttribute ≠ "" then
               [LDAPProviderOpts.WithLastNameAttribute wm.LDAPAttributes.LastNameAttribute] else []) ++
             ((if wm.LDAPAttributes.DisplayNameAttribute ≠ "" then
               [LDAPProviderOpts.WithDisplayNameAttribute wm.LDAPAttributes.DisplayNameAttribute] else []) ++
             ((if wm.LDAPAttributes.NickNameAttribute ≠ "" then
               [LDAPProviderOpts.WithNickNameAttribute wm.LDAPAttributes.NickNameAttribute] else []) ++
             ((if wm.LDAPAttributes.PreferredUsernameAttribute ≠ "" then
               [LDAPProviderOpts.WithPreferredUsernameAttribute wm.LDAPAttributes.PreferredUsernameAttribute] else []) ++
             ((if wm.LDAPAttributes.EmailAttribute ≠ "" then
               [LDAPProviderOpts.WithEmailAttribute wm.LDAPAttributes.EmailAttribute] else []) ++
             ((if wm.LDAPAttributes.EmailVerifiedAttribute ≠ "" then
               [LDAPProviderOpts.WithEmailVerifiedAttribute wm.LDAPAttributes.EmailVerifiedAttribute] else []) ++
             ((if wm.LDAPAttributes.PhoneAttribute ≠ "" then
               [LDAPProviderOpts.WithPhoneAttribute wm.LDAPAttributes.PhoneAttribute] else []) ++
             ((if wm.LDAPAttributes.PhoneVerifiedAttribute ≠ "" then
               [LDAPProviderOpts.WithPhoneVerifiedAttribute wm.LDAPAttributes.PhoneVerifiedAttribute] else []) ++
             ((if wm.LDAPAttributes.PreferredLanguageAttribute ≠ "" then
               [LDAPProviderOpts.WithPreferredLanguageAttribute wm.LDAPAttributes.PreferredLanguageAttribute] else []) ++
             ((if wm.LDAPAttributes.AvatarURLAttribute ≠ "" then
               [LDAPProviderOpts.WithAvatarURLAttribute wm.LDAPAttributes.AvatarURLAttribute] else []) ++
             ((if wm.LDAPAttributes.ProfileAttribute ≠ "" then
               [LDAPProviderOpts.WithProfileAttribute wm.LDAPAttributes.ProfileAttribute] else []) ++
             ((if wm.Options.IsCreationAllowed = true then
               [LDAPProviderOpts.WithCreationAllowed] else []) ++
             ((if wm.Options.IsLinkingAllowed = true then
               [LDAPProviderOpts.WithLinkingAllowed] else []) ++
             ((if wm.Options.IsAutoCreation = true then
               [LDAPProviderOpts.WithAutoCreation] else []) ++
             (if wm.Options.IsAutoUpdate = true then
               [LDAPProviderOpts.WithAutoUpdate] else [])))))))))))))))))) }) := by
  simp only [LDAPIDPWriteModel.ToProvider, h, ite_append_single]
  simp only [List.append_assoc, List.nil_append]

/-! ## Lemmas on the interface `IDP` -/

/-- No call of `AppendEvents` changes the kind or the owner scope of the implementation. -/
theorem IDP_appendEvents_kind {Provider : Type} (model : IDP)
    (impl : IDPImplementations Provider) (events : List Event) :
    (model.AppendEvents impl events).kind = model.kind ∧
      (model.AppendEvents impl events).instanceScoped = model.instanceScoped := by
  cases model <;> exact ⟨rfl, rfl⟩

/-- No call of `Reduce` changes the kind or the owner scope of the implementation. -/
theorem IDP_reduce_kind {Provider : Type} (model : IDP) (impl : IDPImplementations Provider)
    (r : IDP) (h : model.Reduce impl = .ok r) :
    r.kind = model.kind ∧ r.instanceScoped = model.instanceScoped := by
  cases model <;>
    (simp only [IDP.Reduce, Except.map] at h
     split at h
     · exact absurd h (by simp)
     · cases h
       exact ⟨rfl, rfl⟩)

/-- What `NewAllIDPWriteModel` returns has the requested kind and scope and holds the
arguments. -/
theorem newAllIDPWriteModel_fields (resourceOwner : String) (instanceBool : Bool)
    (id : String) (idpType : IDPType) (wm : AllIDPWriteModel)
    (h : NewAllIDPWriteModel resourceOwner instanceBool id idpType = .ok wm) :
    wm.model.kind = idpType ∧ wm.model.instanceScoped = instanceBool ∧ wm.ID = id ∧
      wm.IDPType = idpType ∧ wm.ResourceOwner = resourceOwner ∧
      wm.Instance = instanceBool := by
  cases instanceBool <;> cases idpType <;>
    first
      | (cases h; exact ⟨rfl, rfl, rfl, rfl, rfl, rfl⟩)
      | (exact absurd h (by simp [NewAllIDPWriteModel]))

/-- The umbrella returns what the inner model returns, around the umbrella. -/
theorem allIDP_reduce_eq {Provider : Type} (wm : AllIDPWriteModel)
    (impl : IDPImplementations Provider) :
    wm.Reduce impl = (wm.model.Reduce impl).map (fun model => { wm with model := model }) := by
  cases h : wm.model.Reduce impl <;> simp only [AllIDPWriteModel.Reduce, h] <;> rfl

/-! ## Lifecycle, materialization and the umbrella write model -/

/-- C11, as amended: for each of the ten provider write models, `IDPRemoveWriteModel` and
`IDPTypeWriteModel`: a model whose `State` is removed keeps that state under every event
whose type is not one of the restoring types of the model (its added events, modern,
legacy or embedded in a migration event, and for the OIDC model the migrated events);
and if `State` is removed after `Reduce` on the event list `L1`, it is removed after
`Reduce` on `L1 ++ L2` for every `L2` that holds no event of a restoring type. -/
theorem removed_stays_removed_without_added_event :
    ((∀ (wm : OAuthIDPWriteModel) (e : Event),
        wm.State = .IDPStateRemoved → e.goType ∉ OAuthIDPWriteModel.restoringTypes →
        (wm.reduceEvent e).State = .IDPStateRemoved) ∧
      ∀ (wm : OAuthIDPWriteModel) (L1 L2 : List Event),
        (∃ r1, OAuthIDPWriteModel.Reduce { wm with Events := L1 } = .ok r1 ∧
          r1.State = .IDPStateRemoved) →
        (∀ e ∈ L2, e.goType ∉ OAuthIDPWriteModel.restoringTypes) →
        ∃ r2, OAuthIDPWriteModel.Reduce { wm with Events := L1 ++ L2 } = .ok r2 ∧
          r2.State = .IDPStateRemoved) ∧
    ((∀ (wm : OIDCIDPWriteModel) (e : Event),
        wm.State = .IDPStateRemoved → e.goType ∉ OIDCIDPWriteModel.restoringTypes →
        (wm.reduceEvent e).State = .IDPStateRemoved) ∧
      ∀ (wm : OIDCIDPWriteModel) (L1 L2 : List Event),
        (∃ r1, OIDCIDPWriteModel.Reduce { wm with Events := L1 } = .ok r1 ∧
          r1.State = .IDPStateRemoved) →
        (∀ e ∈ L2, e.goType ∉ OIDCIDPWriteModel.restoringTypes) →
        ∃ r2, OIDCIDPWriteModel.Reduce { wm with Events := L1 ++ L2 } = .ok r2 ∧
          r2.State = .IDPStateRemoved) ∧
    ((∀ (wm : JWTIDPWriteModel) (e : Event),
        wm.State = .IDPStateRemoved → e.goType ∉ JWTIDPWriteModel.restoringTypes →
        (wm.reduceEvent e).State = .IDPStateRemoved) ∧
      ∀ (wm : JWTIDPWriteModel) (L1 L2 : List Event),
        (∃ r1, JWTIDPWriteModel.Reduce { wm with Events := L1 } = .ok r1 ∧
          r1.State = .IDPStateRemoved) →
        (∀ e ∈ L2, e.goType ∉ JWTIDPWriteModel.restoringTypes) →
        ∃ r2, JWTIDPWriteModel.Reduce { wm with Events := L1 ++ L2 } = .ok r2 ∧
          r2.State = .IDPStateRemoved) ∧
    ((∀ (wm : AzureADIDPWriteModel) (e : Event),
        wm.State = .IDPStateRemoved → e.goType ∉ AzureADIDPWriteModel.restoringTypes →
        (wm.reduceEvent e).State = .IDPStateRemoved) ∧
      ∀ (wm : AzureADIDPWriteModel) (L1 L2 : List Event),
        (∃ r1, AzureADIDPWriteModel.Reduce { wm with Events := L1 } = .ok r1 ∧
          r1.State = .IDPStateRemoved) →
        (∀ e ∈ L2, e.goType ∉ AzureADIDPWriteModel.restoringTypes) →
        ∃ r2, AzureADIDPWriteModel.Reduce { wm with Events := L1 ++ L2 } = .ok r2 ∧
          r2.State = .IDPStateRemoved) ∧
    ((∀ (wm : GitHubIDPWriteModel) (e : Event),
        wm.State = .IDPStateRemoved → e.goType ∉ GitHubIDPWriteModel.restoringTypes →
        (wm.reduceEvent e).State = .IDPStateRemoved) ∧
      ∀ (wm : GitHubIDPWriteModel) (L1 L2 : List Event),
        (∃ r1, GitHubIDPWriteModel.Reduce { wm with Events := L1 } = .ok r1 ∧
          r1.State = .IDPStateRemoved) →
        (∀ e ∈ L2, e.goType ∉ GitHubIDPWriteModel.restoringTypes) →
        ∃ r2, GitHubIDPWriteModel.Reduce { wm with Events := L1 ++ L2 } = .ok r2 ∧
          r2.State = .IDPStateRemoved) ∧
    ((∀ (wm : GitHubEnterpriseIDPWriteModel) (e : Event),
        wm.State = .IDPStateRemoved → e.goType ∉ GitHubEnterpriseIDPWriteModel.restoringTypes →
        (wm.reduceEvent e).State = .IDPStateRemoved) ∧
      ∀ (wm : GitHubEnterpriseIDPWriteModel) (L1 L2 : List Event),
        (∃ r1, GitHubEnterpriseIDPWriteModel.Reduce { wm with Events := L1 } = .ok r1 ∧
          r1.State = .IDPStateRemoved) →
        (∀ e ∈ L2, e.goType ∉ GitHubEnterpriseIDPWriteModel.restoringTypes) →
        ∃ r2, GitHubEnterpriseIDPWriteModel.Reduce { wm with Events := L1 ++ L2 } = .ok r2 ∧
          r2.State = .IDPStateRemoved) ∧
    ((∀ (wm : GitLabIDPWriteModel) (e : Event),
        wm.State = .IDPStateRemoved → e.goType ∉ GitLabIDPWriteModel.restoringTypes →
        (wm.reduceEvent e).State = .IDPStateRemoved) ∧
      ∀ (wm : GitLabIDPWriteModel) (L1 L2 : List Event),
        (∃ r1, GitLabIDPWriteModel.Reduce { wm with Events := L1 } = .ok r1 ∧
          r1.State = .IDPStateRemoved) →
        (∀ e ∈ L2, e.goType ∉ GitLabIDPWriteModel.restoringTypes) →
        ∃ r2, GitLabIDPWriteModel.Reduce { wm with Events := L1 ++ L2 } = .ok r2 ∧
          r2.State = .IDPStateRemoved) ∧
    ((∀ (wm : GitLabSelfHostedIDPWriteModel) (e : Event),
        wm.State = .IDPStateRemoved → e.goType ∉ GitLabSelfHostedIDPWriteModel.restoringTypes →
        (wm.reduceEvent e).State = .IDPStateRemoved) ∧
      ∀ (wm : GitLabSelfHostedIDPWriteModel) (L1 L2 : List Event),
        (∃ r1, GitLabSelfHostedIDPWriteModel.Reduce { wm with Events := L1 } = .ok r1 ∧
          r1.State = .IDPStateRemoved) →
        (∀ e ∈ L2, e.goType ∉ GitLabSelfHostedIDPWriteModel.restoringTypes) →
        ∃ r2, GitLabSelfHostedIDPWriteModel.Reduce { wm with Events := L1 ++ L2 } = .ok r2 ∧
          r2.State = .IDPStateRemoved) ∧
    ((∀ (wm : GoogleIDPWriteModel) (e : Event),
        wm.State = .IDPStateRemoved → e.goType ∉ GoogleIDPWriteModel.restoringTypes →
        (wm.reduceEvent e).State = .IDPStateRemoved) ∧
      ∀ (wm : GoogleIDPWriteModel) (L1 L2 : List Event),
        (∃ r1, GoogleIDPWriteModel.Reduce { wm with Events := L1 } = .ok r1 ∧
          r1.State = .IDPStateRemoved) →
        (∀ e ∈ L2, e.goType ∉ GoogleIDPWriteModel.restoringTypes) →
        ∃ r2, GoogleIDPWriteModel.Reduce { wm with Events := L1 ++ L2 } = .ok r2 ∧
          r2.State = .IDPStateRemoved) ∧
    ((∀ (wm : LDAPIDPWriteModel) (e : Event),
        wm.State = .IDPStateRemoved → e.goType ∉ LDAPIDPWriteModel.restoringTypes →
        (wm.reduceEvent e).State = .IDPStateRemoved) ∧
      ∀ (wm : LDAPIDPWriteModel) (L1 L2 : List Event),
        (∃ r1, LDAPIDPWriteModel.Reduce { wm with Events := L1 } = .ok r1 ∧
          r1.State = .IDPStateRemoved) →
        (∀ e ∈ L2, e.goType ∉ LDAPIDPWriteModel.restoringTypes) →
        ∃ r2, LDAPIDPWriteModel.Reduce { wm with Events := L1 ++ L2 } = .ok r2 ∧
          r2.State = .IDPStateRemoved) ∧
    ((∀ (wm : IDPRemoveWriteModel) (e : Event),
        wm.State = .IDPStateRemoved → e.goType ∉ IDPRemoveWriteModel.restoringTypes →
        (wm.reduceEvent e).State = .IDPStateRemoved) ∧
      ∀ (wm : IDPRemoveWriteModel) (L1 L2 : List Event),
        (∃ r1, IDPRemoveWriteModel.Reduce { wm with Events := L1 } = .ok r1 ∧
          r1.State = .IDPStateRemoved) →
        (∀ e ∈ L2, e.goType ∉ IDPRemoveWriteModel.restoringTypes) →
        ∃ r2, IDPRemoveWriteModel.Reduce { wm with Events := L1 ++ L2 } = .ok r2 ∧
          r2.State = .IDPStateRemoved) ∧
    ((∀ (wm : IDPTypeWriteModel) (e : Event),
        wm.State = .IDPStateRemoved → e.goType ∉ IDPTypeWriteModel.restoringTypes →
        (wm.reduceEvent e).State = .IDPStateRemoved) ∧
      ∀ (wm : IDPTypeWriteModel) (L1 L2 : List Event),
        (∃ r1, IDPTypeWriteModel.Reduce { wm with Events := L1 } = .ok r1 ∧
          r1.State = .IDPStateRemoved) →
        (∀ e ∈ L2, e.goType ∉ IDPTypeWriteModel.restoringTypes) →
        ∃ r2, IDPTypeWriteModel.Reduce { wm with Events := L1 ++ L2 } = .ok r2 ∧
          r2.State = .IDPStateRemoved) := by
  refine ⟨?_, ?_, ?_, ?_, ?_, ?_, ?_, ?_, ?_, ?_, ?_, ?_⟩
  · refine ⟨OAuth_step_removed, ?_⟩
    intro wm L1 L2 h1 hL2
    obtain ⟨r1, hr1, hs1⟩ := h1
    obtain ⟨q1, hq1, hqs1⟩ := OAuth_reduce_state wm L1
    have hq : r1 = q1 := Except.ok.inj (hr1.symm.trans hq1)
    obtain ⟨r2, hr2, hs2⟩ := OAuth_reduce_state wm (L1 ++ L2)
    refine ⟨r2, hr2, ?_⟩
    rw [hs2, List.foldl_append]
    exact foldl_preserve OAuthIDPWriteModel.reduceEvent
      (fun (s : OAuthIDPWriteModel) => s.State = IDPState.IDPStateRemoved)
      (fun e => e.goType ∉ OAuthIDPWriteModel.restoringTypes) OAuth_step_removed L2 _
      (hqs1.symm.trans (hq ▸ hs1)) hL2
  · refine ⟨OIDC_step_removed, ?_⟩
    intro wm L1 L2 h1 hL2
    obtain ⟨r1, hr1, hs1⟩ := h1
    obtain ⟨q1, hq1, hqs1⟩ := OIDC_reduce_state wm L1
    have hq : r1 = q1 := Except.ok.inj (hr1.symm.trans hq1)
    obtain ⟨r2, hr2, hs2⟩ := OIDC_reduce_state wm (L1 ++ L2)
    refine ⟨r2, hr2, ?_⟩
    rw [hs2, List.foldl_append]
    exact foldl_preserve OIDCIDPWriteModel.reduceEvent
      (fun (s : OIDCIDPWriteModel) => s.State = IDPState.IDPStateRemoved)
      (fun e => e.goType ∉ OIDCIDPWriteModel.restoringTypes) OIDC_step_removed L2 _
      (hqs1.symm.trans (hq ▸ hs1)) hL2
  · refine ⟨JWT_step_removed, ?_⟩
    intro wm L1 L2 h1 hL2
    obtain ⟨r1, hr1, hs1⟩ := h1
    obtain ⟨q1, hq1, hqs1⟩ := JWT_reduce_state wm L1
    have hq : r1 = q1 := Except.ok.inj (hr1.symm.trans hq1)
    obtain ⟨r2, hr2, hs2⟩ := JWT_reduce_state wm (L1 ++ L2)
    refine ⟨r2, hr2, ?_⟩
    rw [hs2, List.foldl_append]
    exact foldl_preserve JWTIDPWriteModel.reduceEvent
      (fun (s : JWTIDPWriteModel) => s.State = IDPState.IDPStateRemoved)
      (fun e => e.goType ∉ JWTIDPWriteModel.restoringTypes) JWT_step_removed L2 _
      (hqs1.symm.trans (hq ▸ hs1)) hL2
  · refine ⟨AzureAD_step_removed, ?_⟩
    intro wm L1 L2 h1 hL2
    obtain ⟨r1, hr1, hs1⟩ := h1
    obtain ⟨q1, hq1, hqs1⟩ := AzureAD_reduce_state wm L1
    have hq : r1 = q1 := Except.ok.inj (hr1.symm.trans hq1)
    obtain ⟨r2, hr2, hs2⟩ := AzureAD_reduce_state wm (L1 ++ L2)
    refine ⟨r2, hr2, ?_⟩
    rw [hs2, List.foldl_append]
    exact foldl_preserve AzureADIDPWriteModel.reduceEvent
      (fun (s : AzureADIDPWriteModel) => s.State = IDPState.IDPStateRemoved)
      (fun e => e.goType ∉ AzureADIDPWriteModel.restoringTypes) AzureAD_step_removed L2 _
      (hqs1.symm.trans (hq ▸ hs1)) hL2
  · refine ⟨GitHub_step_removed, ?_⟩
    intro wm L1 L2 h1 hL2
    obtain ⟨r1, hr1, hs1⟩ := h1
    obtain ⟨q1, hq1, hqs1⟩ := GitHub_reduce_state wm L1
    have hq : r1 = q1 := Except.ok.inj (hr1.symm.trans hq1)
    obtain ⟨r2, hr2, hs2⟩ := GitHub_reduce_state wm (L1 ++ L2)
    refine ⟨r2, hr2, ?_⟩
    rw [hs2, List.foldl_append]
    exact foldl_preserve GitHubIDPWriteModel.reduceEvent
      (fun (s : GitHubIDPWriteModel) => s.State = IDPState.IDPStateRemoved)
      (fun e => e.goType ∉ GitHubIDPWriteModel.restoringTypes) GitHub_step_removed L2 _
      (hqs1.symm.trans (hq ▸ hs1)) hL2
  · refine ⟨GitHubEnterprise_step_removed, ?_⟩
    intro wm L1 L2 h1 hL2
    obtain ⟨r1, hr1, hs1⟩ := h1
    obtain ⟨q1, hq1, hqs1⟩ := GitHubEnterprise_reduce_state wm L1
    have hq : r1 = q1 := Except.ok.inj (hr1.symm.trans hq1)
    obtain ⟨r2, hr2, hs2⟩ := GitHubEnterprise_reduce_state wm (L1 ++ L2)
    refine ⟨r2, hr2, ?_⟩
    rw [hs2, List.foldl_append]
    exact foldl_preserve GitHubEnterpriseIDPWriteModel.reduceEvent
      (fun (s : GitHubEnterpriseIDPWriteModel) => s.State = IDPState.IDPStateRemoved)
      (fun e => e.goType ∉ GitHubEnterpriseIDPWriteModel.restoringTypes) GitHubEnterprise_step_removed L2 _
      (hqs1.symm.trans (hq ▸ hs1)) hL2
  · refine ⟨GitLab_step_removed, ?_⟩
    intro wm L1 L2 h1 hL2
    obtain ⟨r1, hr1, hs1⟩ := h1
    obtain ⟨q1, hq1, hqs1⟩ := GitLab_reduce_state wm L1
    have hq : r1 = q1 := Except.ok.inj (hr1.symm.trans hq1)
    obtain ⟨r2, hr2, hs2⟩ := GitLab_reduce_state wm (L1 ++ L2)
    refine ⟨r2, hr2, ?_⟩
    rw [hs2, List.foldl_append]
    exact foldl_preserve GitLabIDPWriteModel.reduceEvent
      (fun (s : GitLabIDPWriteModel) => s.State = IDPState.IDPStateRemoved)
      (fun e => e.goType ∉ GitLabIDPWriteModel.restoringTypes) GitLab_step_removed L2 _
      (hqs1.symm.trans (hq ▸ hs1)) hL2
  · refine ⟨GitLabSelfHosted_step_removed, ?_⟩
    intro wm L1 L2 h1 hL2
    obtain ⟨r1, hr1, hs1⟩ := h1
    obtain ⟨q1, hq1, hqs1⟩ := GitLabSelfHosted_reduce_state wm L1
    have hq : r1 = q1 := Except.ok.inj (hr1.symm.trans hq1)
    obtain ⟨r2, hr2, hs2⟩ := GitLabSelfHosted_reduce_state wm (L1 ++ L2)
    refine ⟨r2, hr2, ?_⟩
    rw [hs2, List.foldl_append]
    exact foldl_preserve GitLabSelfHostedIDPWriteModel.reduceEvent
      (fun (s : GitLabSelfHostedIDPWriteModel) => s.State = IDPState.IDPStateRemoved)
      (fun e => e.goType ∉ GitLabSelfHostedIDPWriteModel.restoringTypes) GitLabSelfHosted_step_removed L2 _
      (hqs1.symm.trans (hq ▸ hs1)) hL2
  · refine ⟨Google_step_removed, ?_⟩
    intro wm L1 L2 h1 hL2
    obtain ⟨r1, hr1, hs1⟩ := h1
    obtain ⟨q1, hq1, hqs1⟩ := Google_reduce_state wm L1
    have hq : r1 = q1 := Except.ok.inj (hr1.symm.trans hq1)
    obtain ⟨r2, hr2, hs2⟩ := Google_reduce_state wm (L1 ++ L2)
    refine ⟨r2, hr2, ?_⟩
    rw [hs2, List.foldl_append]
    exact foldl_preserve GoogleIDPWriteModel.reduceEvent
      (fun (s : GoogleIDPWriteModel) => s.State = IDPState.IDPStateRemoved)
      (fun e => e.goType ∉ GoogleIDPWriteModel.restoringTypes) Google_step_removed L2 _
      (hqs1.symm.trans (hq ▸ hs1)) hL2
  · refine ⟨LDAP_step_removed, ?_⟩
    intro wm L1 L2 h1 hL2
    obtain ⟨r1, hr1, hs1⟩ := h1
    obtain ⟨q1, hq1, hqs1⟩ := LDAP_reduce_state wm L1
    have hq : r1 = q1 := Except.ok.inj (hr1.symm.trans hq1)
    obtain ⟨r2, hr2, hs2⟩ := LDAP_reduce_state wm (L1 ++ L2)
    refine ⟨r2, hr2, ?_⟩
    rw [hs2, List.foldl_append]
    exact foldl_preserve LDAPIDPWriteModel.reduceEvent
      (fun (s : LDAPIDPWriteModel) => s.State = IDPState.IDPStateRemoved)
      (fun e => e.goType ∉ LDAPIDPWriteModel.restoringTypes) LDAP_step_removed L2 _
      (hqs1.symm.trans (hq ▸ hs1)) hL2
  · refine ⟨IDPRemove_step_removed, ?_⟩
    intro wm L1 L2 h1 hL2
    obtain ⟨r1, hr1, hs1⟩ := h1
    obtain ⟨q1, hq1, hqs1⟩ := IDPRemove_reduce_state wm L1
    have hq : r1 = q1 := Except.ok.inj (hr1.symm.trans hq1)
    obtain ⟨r2, hr2, hs2⟩ := IDPRemove_reduce_state wm (L1 ++ L2)
    refine ⟨r2, hr2, ?_⟩
    rw [hs2, List.foldl_append]
    exact foldl_preserve IDPRemoveWriteModel.reduceEvent
      (fun (s : IDPRemoveWriteModel) => s.State = IDPState.IDPStateRemoved)
      (fun e => e.goType ∉ IDPRemoveWriteModel.restoringTypes) IDPRemove_step_removed L2 _
      (hqs1.symm.trans (hq ▸ hs1)) hL2
  · refine ⟨IDPType_step_removed, ?_⟩
    intro wm L1 L2 h1 hL2
    obtain ⟨r1, hr1, hs1⟩ := h1
    obtain ⟨q1, hq1, hqs1⟩ := IDPType_reduce_state wm L1
    have hq : r1 = q1 := Except.ok.inj (hr1.symm.trans hq1)
    obtain ⟨r2, hr2, hs2⟩ := IDPType_reduce_state wm (L1 ++ L2)
    refine ⟨r2, hr2, ?_⟩
    rw [hs2, List.foldl_append]
    exact foldl_preserve IDPTypeWriteModel.reduceEvent
      (fun (s : IDPTypeWriteModel) => s.State = IDPState.IDPStateRemoved)
      (fun e => e.goType ∉ IDPTypeWriteModel.restoringTypes) IDPType_step_removed L2 _
      (hqs1.symm.trans (hq ▸ hs1)) hL2

/-- An instance of C11 as amended: after the removal of the provider, an event of an unknown
type and a second removal leave the OAuth write model of the scenario removed. -/
theorem removed_stays_removed_without_added_event_witness :
    (∃ r1, OAuthIDPWriteModel.Reduce { scenarioOAuth with Events := [scenarioRemovedEvent] }
        = .ok r1 ∧ r1.State = .IDPStateRemoved) ∧
      (∀ e ∈ [scenarioUnknownEvent, scenarioRemovedEvent],
        e.goType ∉ OAuthIDPWriteModel.restoringTypes) ∧
      ∃ r2,
        OAuthIDPWriteModel.Reduce
            { scenarioOAuth with
              Events := [scenarioRemovedEvent] ++ [scenarioUnknownEvent, scenarioRemovedEvent] }
          = .ok r2 ∧
        r2.State = .IDPStateRemoved :=
  ⟨⟨_, rfl, rfl⟩, by decide,
    removed_stays_removed_without_added_event.1.2 scenarioOAuth [scenarioRemovedEvent]
      [scenarioUnknownEvent, scenarioRemovedEvent] ⟨_, rfl, rfl⟩ (by decide)⟩

/-- C11 as stated fails: the OAuth write model of the scenario is removed after `Reduce` on
the list that holds the removal of the provider, and active again after `Reduce` on the
longer list that holds the removal followed by an OAuth added event. -/
theorem added_event_after_removal_activates :
    ∃ r1 r2,
      OAuthIDPWriteModel.Reduce { scenarioOAuth with Events := [scenarioRemovedEvent] }
        = .ok r1 ∧
      r1.State = .IDPStateRemoved ∧
      OAuthIDPWriteModel.Reduce
          { scenarioOAuth with Events := [scenarioRemovedEvent] ++ [scenarioOAuthAddedEvent] }
        = .ok r2 ∧
      r2.State = .IDPStateActive ∧ r2.State ≠ .IDPStateRemoved :=
  ⟨_, _, rfl, rfl, rfl, rfl, by decide⟩

/-- C12: migration is handled by the added handler of the target variant. For every Azure AD
write model and every `OIDCIDPMigratedAzureADEvent` `m`, folding `m` gives the same write
model as folding the `AzureADIDPAddedEvent` embedded in `m`, namely `reduceAddedEvent` of
the embedded event, and `Reduce` on the buffer that holds `m` returns without error a
write model with the domain fields of that `reduceAddedEvent`; the `State` is active and
every configuration field, the secret and the options are those of the embedded event.
Likewise for the Google write model with `OIDCIDPMigratedGoogleEvent` and its embedded
`GoogleIDPAddedEvent`. -/
theorem migrated_event_reduces_as_embedded_added_event :
    (∀ (wm : AzureADIDPWriteModel) (m : OIDCIDPMigratedAzureADEvent) (seq : Nat) (agg : Aggregate),
      wm.reduceEvent ⟨.plain, seq, agg, .OIDCIDPMigratedAzureAD m⟩
          = wm.reduceEvent ⟨.plain, seq, agg, .AzureADIDPAdded m.AzureADIDPAddedEvent⟩ ∧
        wm.reduceEvent ⟨.plain, seq, agg, .OIDCIDPMigratedAzureAD m⟩ = wm.reduceAddedEvent m.AzureADIDPAddedEvent ∧
        (∃ r, AzureADIDPWriteModel.Reduce { wm with Events := [⟨.plain, seq, agg, .OIDCIDPMigratedAzureAD m⟩] } = .ok r ∧
          AzureADIDPWriteModel.SameDomain r (wm.reduceAddedEvent m.AzureADIDPAddedEvent)) ∧
        (wm.reduceEvent ⟨.plain, seq, agg, .OIDCIDPMigratedAzureAD m⟩).State = .IDPStateActive ∧
        (wm.reduceEvent ⟨.plain, seq, agg, .OIDCIDPMigratedAzureAD m⟩).Name = m.AzureADIDPAddedEvent.Name ∧
        (wm.reduceEvent ⟨.plain, seq, agg, .OIDCIDPMigratedAzureAD m⟩).ClientID = m.AzureADIDPAddedEvent.ClientID ∧
        (wm.reduceEvent ⟨.plain, seq, agg, .OIDCIDPMigratedAzureAD m⟩).ClientSecret = m.AzureADIDPAddedEvent.ClientSecret ∧
        (wm.reduceEvent ⟨.plain, seq, agg, .OIDCIDPMigratedAzureAD m⟩).Scopes = m.AzureADIDPAddedEvent.Scopes ∧
        (wm.reduceEvent ⟨.plain, seq, agg, .OIDCIDPMigratedAzureAD m⟩).Tenant = m.AzureADIDPAddedEvent.Tenant ∧
        (wm.reduceEvent ⟨.plain, seq, agg, .OIDCIDPMigratedAzureAD m⟩).IsEmailVerified = m.AzureADIDPAddedEvent.IsEmailVerified ∧
        (wm.reduceEvent ⟨.plain, seq, agg, .OIDCIDPMigratedAzureAD m⟩).Options = m.AzureADIDPAddedEvent.Options) ∧
    (∀ (wm : GoogleIDPWriteModel) (m : OIDCIDPMigratedGoogleEvent) (seq : Nat) (agg : Aggregate),
      wm.reduceEvent ⟨.plain, seq, agg, .OIDCIDPMigratedGoogle m⟩
          = wm.reduceEvent ⟨.plain, seq, agg, .GoogleIDPAdded m.GoogleIDPAddedEvent⟩ ∧
        wm.reduceEvent ⟨.plain, seq, agg, .OIDCIDPMigratedGoogle m⟩ = wm.reduceAddedEvent m.GoogleIDPAddedEvent ∧
        (∃ r, GoogleIDPWriteModel.Reduce { wm with Events := [⟨.plain, seq, agg, .OIDCIDPMigratedGoogle m⟩] } = .ok r ∧
          GoogleIDPWriteModel.SameDomain r (wm.reduceAddedEvent m.GoogleIDPAddedEvent)) ∧
        (wm.reduceEvent ⟨.plain, seq, agg, .OIDCIDPMigratedGoogle m⟩).State = .IDPStateActive ∧
        (wm.reduceEvent ⟨.plain, seq, agg, .OIDCIDPMigratedGoogle m⟩).Name = m.GoogleIDPAddedEvent.Name ∧
        (wm.reduceEvent ⟨.plain, seq, agg, .OIDCIDPMigratedGoogle m⟩).ClientID = m.GoogleIDPAddedEvent.ClientID ∧
        (wm.reduceEvent ⟨.plain, seq, agg, .OIDCIDPMigratedGoogle m⟩).ClientSecret = m.GoogleIDPAddedEvent.ClientSecret ∧
        (wm.reduceEvent ⟨.plain, seq, agg, .OIDCIDPMigratedGoogle m⟩).Scopes = m.GoogleIDPAddedEvent.Scopes ∧
        (wm.reduceEvent ⟨.plain, seq, agg, .OIDCIDPMigratedGoogle m⟩).Options = m.GoogleIDPAddedEvent.Options) := by
  refine ⟨?_, ?_⟩
  · intro wm m seq agg
    exact ⟨rfl, rfl, AzureAD_reduce_events wm [⟨.plain, seq, agg, .OIDCIDPMigratedAzureAD m⟩], rfl, rfl, rfl, rfl, rfl, rfl, rfl, rfl⟩
  · intro wm m seq agg
    exact ⟨rfl, rfl, Google_reduce_events wm [⟨.plain, seq, agg, .OIDCIDPMigratedGoogle m⟩], rfl, rfl, rfl, rfl, rfl, rfl⟩

/-- C13: `State` becomes migrated only through reclassification. The OIDC write model
folding an event of type `OIDCIDPMigratedAzureADEvent` or `OIDCIDPMigratedGoogleEvent`
sets `State` to migrated and changes no other field; folding an event of any other type
gives a migrated state only if the state was migrated before, so that `Reduce` on a list
without migrated events keeps a state that is not migrated not migrated. For each of the
nine other provider write models, `IDPRemoveWriteModel` and `IDPTypeWriteModel`, no
event gives a migrated state unless the state was migrated before, and `Reduce` on any
event list, started from a state that is not migrated, returns a state that is not
migrated. -/
theorem migrated_only_by_oidc_reclassification :
    (∀ (wm : OIDCIDPWriteModel) (e : Event),
      e.goType ∈ OIDCIDPWriteModel.migratedTypes →
      wm.reduceEvent e = { wm with State := .IDPStateMigrated }) ∧
    (∀ (wm : OIDCIDPWriteModel) (e : Event),
      e.goType ∉ OIDCIDPWriteModel.migratedTypes →
      (wm.reduceEvent e).State = .IDPStateMigrated → wm.State = .IDPStateMigrated) ∧
    (∀ (wm : OIDCIDPWriteModel) (L : List Event),
      wm.State ≠ .IDPStateMigrated →
      (∀ e ∈ L, e.goType ∉ OIDCIDPWriteModel.migratedTypes) →
      ∃ r, OIDCIDPWriteModel.Reduce { wm with Events := L } = .ok r ∧
        r.State ≠ .IDPStateMigrated) ∧
    ((∀ (wm : OAuthIDPWriteModel) (e : Event),
        (wm.reduceEvent e).State = .IDPStateMigrated →
        wm.State = .IDPStateMigrated) ∧
      ∀ (wm : OAuthIDPWriteModel) (L : List Event),
        wm.State ≠ .IDPStateMigrated →
        ∃ r, OAuthIDPWriteModel.Reduce { wm with Events := L } = .ok r ∧
          r.State ≠ .IDPStateMigrated) ∧
    ((∀ (wm : JWTIDPWriteModel) (e : Event),
        (wm.reduceEvent e).State = .IDPStateMigrated →
        wm.State = .IDPStateMigrated) ∧
      ∀ (wm : JWTIDPWriteModel) (L : List Event),
        wm.State ≠ .IDPStateMigrated →
        ∃ r, JWTIDPWriteModel.Reduce { wm with Events := L } = .ok r ∧
          r.State ≠ .IDPStateMigrated) ∧
    ((∀ (wm : AzureADIDPWriteModel) (e : Event),
        (wm.reduceEvent e).State = .IDPStateMigrated →
        wm.State = .IDPStateMigrated) ∧
      ∀ (wm : AzureADIDPWriteModel) (L : List Event),
        wm.State ≠ .IDPStateMigrated →
        ∃ r, AzureADIDPWriteModel.Reduce { wm with Events := L } = .ok r ∧
          r.State ≠ .IDPStateMigrated) ∧
    ((∀ (wm : GitHubIDPWriteModel) (e : Event),
        (wm.reduceEvent e).State = .IDPStateMigrated →
        wm.State = .IDPStateMigrated) ∧
      ∀ (wm : GitHubIDPWriteModel) (L : List Event),
        wm.State ≠ .IDPStateMigrated →
        ∃ r, GitHubIDPWriteModel.Reduce { wm with Events := L } = .ok r ∧
          r.State ≠ .IDPStateMigrated) ∧
    ((∀ (wm : GitHubEnterpriseIDPWriteModel) (e : Event),
        (wm.reduceEvent e).State = .IDPStateMigrated →
        wm.State = .IDPStateMigrated) ∧
      ∀ (wm : GitHubEnterpriseIDPWriteModel) (L : List Event),
        wm.State ≠ .IDPStateMigrated →
        ∃ r, GitHubEnterpriseIDPWriteModel.Reduce { wm with Events := L } = .ok r ∧
          r.State ≠ .IDPStateMigrated) ∧
    ((∀ (wm : GitLabIDPWriteModel) (e : Event),
        (wm.reduceEvent e).State = .IDPStateMigrated →
        wm.State = .IDPStateMigrated) ∧
      ∀ (wm : GitLabIDPWriteModel) (L : List Event),
        wm.State ≠ .IDPStateMigrated →
        ∃ r, GitLabIDPWriteModel.Reduce { wm with Events := L } = .ok r ∧
          r.State ≠ .IDPStateMigrated) ∧
    ((∀ (wm : GitLabSelfHostedIDPWriteModel) (e : Event),
        (wm.reduceEvent e).State = .IDPStateMigrated →
        wm.State = .IDPStateMigrated) ∧
      ∀ (wm : GitLabSelfHostedIDPWriteModel) (L : List Event),
        wm.State ≠ .IDPStateMigrated →
        ∃ r, GitLabSelfHostedIDPWriteModel.Reduce { wm with Events := L } = .ok r ∧
          r.State ≠ .IDPStateMigrated) ∧
    ((∀ (wm : GoogleIDPWriteModel) (e : Event),
        (wm.reduceEvent e).State = .IDPStateMigrated →
        wm.State = .IDPStateMigrated) ∧
      ∀ (wm : GoogleIDPWriteModel) (L : List Event),
        wm.State ≠ .IDPStateMigrated →
        ∃ r, GoogleIDPWriteModel.Reduce { wm with Events := L } = .ok r ∧
          r.State ≠ .IDPStateMigrated) ∧
    ((∀ (wm : LDAPIDPWriteModel) (e : Event),
        (wm.reduceEvent e).State = .IDPStateMigrated →
        wm.State = .IDPStateMigrated) ∧
      ∀ (wm : LDAPIDPWriteModel) (L : List Event),
        wm.State ≠ .IDPStateMigrated →
        ∃ r, LDAPIDPWriteModel.Reduce { wm with Events := L } = .ok r ∧
          r.State ≠ .IDPStateMigrated) ∧
    ((∀ (wm : IDPRemoveWriteModel) (e : Event),
        (wm.reduceEvent e).State = .IDPStateMigrated →
        wm.State = .IDPStateMigrated) ∧
      ∀ (wm : IDPRemoveWriteModel) (L : List Event),
        wm.State ≠ .IDPStateMigrated →
        ∃ r, IDPRemoveWriteModel.Reduce { wm with Events := L } = .ok r ∧
          r.State ≠ .IDPStateMigrated) ∧
    ((∀ (wm : IDPTypeWriteModel) (e : Event),
        (wm.reduceEvent e).State = .IDPStateMigrated →
        wm.State = .IDPStateMigrated) ∧
      ∀ (wm : IDPTypeWriteModel) (L : List Event),
        wm.State ≠ .IDPStateMigrated →
        ∃ r, IDPTypeWriteModel.Reduce { wm with Events := L } = .ok r ∧
          r.State ≠ .IDPStateMigrated) := by
  refine ⟨?_, ?_, ?_, ?_, ?_, ?_, ?_, ?_, ?_, ?_, ?_, ?_, ?_, ?_⟩
  · intro wm e he
    obtain ⟨pkg, seq, agg, payload⟩ := e
    cases pkg <;> cases payload <;>
      first
        | rfl
        | (simp [Event.goType, EventPayload.kind, OIDCIDPWriteModel.migratedTypes] at he)
  · exact OIDC_step_migrated
  · intro wm L h hL
    obtain ⟨r, hr, hs⟩ := OIDC_reduce_state wm L
    refine ⟨r, hr, ?_⟩
    rw [hs]
    exact foldl_preserve OIDCIDPWriteModel.reduceEvent
      (fun (s : OIDCIDPWriteModel) => s.State ≠ IDPState.IDPStateMigrated)
      (fun e => e.goType ∉ OIDCIDPWriteModel.migratedTypes)
      (fun s e hs he hm => hs (OIDC_step_migrated s e he hm)) L _ h hL
  · refine ⟨OAuth_step_migrated, ?_⟩
    intro wm L h
    obtain ⟨r, hr, hs⟩ := OAuth_reduce_state wm L
    refine ⟨r, hr, ?_⟩
    rw [hs]
    exact foldl_preserve OAuthIDPWriteModel.reduceEvent
      (fun (s : OAuthIDPWriteModel) => s.State ≠ IDPState.IDPStateMigrated) (fun _ => True)
      (fun s e hs _ hm => hs (OAuth_step_migrated s e hm)) L _ h (fun _ _ => trivial)
  · refine ⟨JWT_step_migrated, ?_⟩
    intro wm L h
    obtain ⟨r, hr, hs⟩ := JWT_reduce_state wm L
    refine ⟨r, hr, ?_⟩
    rw [hs]
    exact foldl_preserve JWTIDPWriteModel.reduceEvent
      (fun (s : JWTIDPWriteModel) => s.State ≠ IDPState.IDPStateMigrated) (fun _ => True)
      (fun s e hs _ hm => hs (JWT_step_migrated s e hm)) L _ h (fun _ _ => trivial)
  · refine ⟨AzureAD_step_migrated, ?_⟩
    intro wm L h
    obtain ⟨r, hr, hs⟩ := AzureAD_reduce_state wm L
    refine ⟨r, hr, ?_⟩
    rw [hs]
    exact foldl_preserve AzureADIDPWriteModel.reduceEvent
      (fun (s : AzureADIDPWriteModel) => s.State ≠ IDPState.IDPStateMigrated) (fun _ => True)
      (fun s e hs _ hm => hs (AzureAD_step_migrated s e hm)) L _ h (fun _ _ => trivial)
  · refine ⟨GitHub_step_migrated, ?_⟩
    intro wm L h
    obtain ⟨r, hr, hs⟩ := GitHub_reduce_state wm L
    refine ⟨r, hr, ?_⟩
    rw [hs]
    exact foldl_preserve GitHubIDPWriteModel.reduceEvent
      (fun (s : GitHubIDPWriteModel) => s.State ≠ IDPState.IDPStateMigrated) (fun _ => True)
      (fun s e hs _ hm => hs (GitHub_step_migrated s e hm)) L _ h (fun _ _ => trivial)
  · refine ⟨GitHubEnterprise_step_migrated, ?_⟩
    intro wm L h
    obtain ⟨r, hr, hs⟩ := GitHubEnterprise_reduce_state wm L
    refine ⟨r, hr, ?_⟩
    rw [hs]
    exact foldl_preserve GitHubEnterpriseIDPWriteModel.reduceEvent
      (fun (s : GitHubEnterpriseIDPWriteModel) => s.State ≠ IDPState.IDPStateMigrated) (fun _ => True)
      (fun s e hs _ hm => hs (GitHubEnterprise_step_migrated s e hm)) L _ h (fun _ _ => trivial)
  · refine ⟨GitLab_step_migrated, ?_⟩
    intro wm L h
    obtain ⟨r, hr, hs⟩ := GitLab_reduce_state wm L
    refine ⟨r, hr, ?_⟩
    rw [hs]
    exact foldl_preserve GitLabIDPWriteModel.reduceEvent
      (fun (s : GitLabIDPWriteModel) => s.State ≠ IDPState.IDPStateMigrated) (fun _ => True)
      (fun s e hs _ hm => hs (GitLab_step_migrated s e hm)) L _ h (fun _ _ => trivial)
  · refine ⟨GitLabSelfHosted_step_migrated, ?_⟩
    intro wm L h
    obtain ⟨r, hr, hs⟩ := GitLabSelfHosted_reduce_state wm L
    refine ⟨r, hr, ?_⟩
    rw [hs]
    exact foldl_preserve GitLabSelfHostedIDPWriteModel.reduceEvent
      (fun (s : GitLabSelfHostedIDPWriteModel) => s.State ≠ IDPState.IDPStateMigrated) (fun _ => True)
      (fun s e hs _ hm => hs (GitLabSelfHosted_step_migrated s e hm)) L _ h (fun _ _ => trivial)
  · refine ⟨Google_step_migrated, ?_⟩
    intro wm L h
    obtain ⟨r, hr, hs⟩ := Google_reduce_state wm L
    refine ⟨r, hr, ?_⟩
    rw [hs]
    exact foldl_preserve GoogleIDPWriteModel.reduceEvent
      (fun (s : GoogleIDPWriteModel) => s.State ≠ IDPState.IDPStateMigrated) (fun _ => True)
      (fun s e hs _ hm => hs (Google_step_migrated s e hm)) L _ h (fun _ _ => trivial)
  · refine ⟨LDAP_step_migrated, ?_⟩
    intro wm L h
    obtain ⟨r, hr, hs⟩ := LDAP_reduce_state wm L
    refine ⟨r, hr, ?_⟩
    rw [hs]
    exact foldl_preserve LDAPIDPWriteModel.reduceEvent
      (fun (s : LDAPIDPWriteModel) => s.State ≠ IDPState.IDPStateMigrated) (fun _ => True)
      (fun s e hs _ hm => hs (LDAP_step_migrated s e hm)) L _ h (fun _ _ => trivial)
  · refine ⟨IDPRemove_step_migrated, ?_⟩
    intro wm L h
    obtain ⟨r, hr, hs⟩ := IDPRemove_reduce_state wm L
    refine ⟨r, hr, ?_⟩
    rw [hs]
    exact foldl_preserve IDPRemoveWriteModel.reduceEvent
      (fun (s : IDPRemoveWriteModel) => s.State ≠ IDPState.IDPStateMigrated) (fun _ => True)
      (fun s e hs _ hm => hs (IDPRemove_step_migrated s e hm)) L _ h (fun _ _ => trivial)
  · refine ⟨IDPType_step_migrated, ?_⟩
    intro wm L h
    obtain ⟨r, hr, hs⟩ := IDPType_reduce_state wm L
    refine ⟨r, hr, ?_⟩
    rw [hs]
    exact foldl_preserve IDPTypeWriteModel.reduceEvent
      (fun (s : IDPTypeWriteModel) => s.State ≠ IDPState.IDPStateMigrated) (fun _ => True)
      (fun s e hs _ hm => hs (IDPType_step_migrated s e hm)) L _ h (fun _ _ => trivial)

/-- An instance of C13: the migration event of the scenario is of a migrated type, and the
OIDC write model of the scenario folds it by setting `State` to migrated, every other field
left as it was. -/
theorem migrated_only_by_oidc_reclassification_witness :
    scenarioMigratedEvent.goType ∈ OIDCIDPWriteModel.migratedTypes ∧
      scenarioOIDC.reduceEvent scenarioMigratedEvent
        = { scenarioOIDC with State := .IDPStateMigrated } :=
  ⟨by decide,
    migrated_only_by_oidc_reclassification.1 scenarioOIDC scenarioMigratedEvent (by decide)⟩

/-- C14: an added event is a full overwrite that activates the model. For each of the ten
provider write models, every prior state of it and every added event `e` of its variant
(for LDAP: with the `ID` of the write model), `Reduce` on the buffer that holds `e`
returns without error a write model whose `State` is active and whose configuration
fields, secret and options are those of `e`, whatever they were before. -/
theorem added_event_overwrites_and_activates :
    (∀ (wm : OAuthIDPWriteModel) (e : OAuthIDPAddedEvent) (seq : Nat) (agg : Aggregate),
      ∃ r,
        OAuthIDPWriteModel.Reduce { wm with Events := [⟨.plain, seq, agg, .OAuthIDPAdded e⟩] }
          = .ok r ∧
        r.State = .IDPStateActive ∧
        r.Name = e.Name ∧ r.ClientID = e.ClientID ∧ r.ClientSecret = e.ClientSecret ∧
        r.AuthorizationEndpoint = e.AuthorizationEndpoint ∧ r.TokenEndpoint = e.TokenEndpoint ∧
        r.UserEndpoint = e.UserEndpoint ∧ r.Scopes = e.Scopes ∧ r.IDAttribute = e.IDAttribute ∧
        r.Options = e.Options) ∧
    (∀ (wm : OIDCIDPWriteModel) (e : OIDCIDPAddedEvent) (seq : Nat) (agg : Aggregate),
      ∃ r,
        OIDCIDPWriteModel.Reduce { wm with Events := [⟨.plain, seq, agg, .OIDCIDPAdded e⟩] }
          = .ok r ∧
        r.State = .IDPStateActive ∧
        r.Name = e.Name ∧ r.Issuer = e.Issuer ∧ r.ClientID = e.ClientID ∧
        r.ClientSecret = e.ClientSecret ∧ r.Scopes = e.Scopes ∧
        r.IsIDTokenMapping = e.IsIDTokenMapping ∧ r.Options = e.Options) ∧
    (∀ (wm : JWTIDPWriteModel) (e : JWTIDPAddedEvent) (seq : Nat) (agg : Aggregate),
      ∃ r,
        JWTIDPWriteModel.Reduce { wm with Events := [⟨.plain, seq, agg, .JWTIDPAdded e⟩] }
          = .ok r ∧
        r.State = .IDPStateActive ∧
        r.Name = e.Name ∧ r.Issuer = e.Issuer ∧ r.JWTEndpoint = e.JWTEndpoint ∧
        r.KeysEndpoint = e.KeysEndpoint ∧ r.HeaderName = e.HeaderName ∧ r.Options = e.Options) ∧
    (∀ (wm : AzureADIDPWriteModel) (e : AzureADIDPAddedEvent) (seq : Nat) (agg : Aggregate),
      ∃ r,
        AzureADIDPWriteModel.Reduce { wm with Events := [⟨.plain, seq, agg, .AzureADIDPAdded e⟩] }
          = .ok r ∧
        r.State = .IDPStateActive ∧
        r.Name = e.Name ∧ r.ClientID = e.ClientID ∧ r.ClientSecret = e.ClientSecret ∧
        r.Scopes = e.Scopes ∧ r.Tenant = e.Tenant ∧ r.IsEmailVerified = e.IsEmailVerified ∧
        r.Options = e.Options) ∧
    (∀ (wm : GitHubIDPWriteModel) (e : GitHubIDPAddedEvent) (seq : Nat) (agg : Aggregate),
      ∃ r,
        GitHubIDPWriteModel.Reduce { wm with Events := [⟨.plain, seq, agg, .GitHubIDPAdded e⟩] }
          = .ok r ∧
        r.State = .IDPStateActive ∧
        r.Name = e.Name ∧ r.ClientID = e.ClientID ∧ r.ClientSecret = e.ClientSecret ∧
        r.Scopes = e.Scopes ∧ r.Options = e.Options) ∧
    (∀ (wm : GitHubEnterpriseIDPWriteModel) (e : GitHubEnterpriseIDPAddedEvent) (seq : Nat) (agg : Aggregate),
      ∃ r,
        GitHubEnterpriseIDPWriteModel.Reduce { wm with Events := [⟨.plain, seq, agg, .GitHubEnterpriseIDPAdded e⟩] }
          = .ok r ∧
        r.State = .IDPStateActive ∧
        r.Name = e.Name ∧ r.ClientID = e.ClientID ∧ r.ClientSecret = e.ClientSecret ∧
        r.AuthorizationEndpoint = e.AuthorizationEndpoint ∧ r.TokenEndpoint = e.TokenEndpoint ∧
        r.UserEndpoint = e.UserEndpoint ∧ r.Scopes = e.Scopes ∧ r.Options = e.Options) ∧
    (∀ (wm : GitLabIDPWriteModel) (e : GitLabIDPAddedEvent) (seq : Nat) (agg : Aggregate),
      ∃ r,
        GitLabIDPWriteModel.Reduce { wm with Events := [⟨.plain, seq, agg, .GitLabIDPAdded e⟩] }
          = .ok r ∧
        r.State = .IDPStateActive ∧
        r.Name = e.Name ∧ r.ClientID = e.ClientID ∧ r.ClientSecret = e.ClientSecret ∧
        r.Scopes = e.Scopes ∧ r.Options = e.Options) ∧
    (∀ (wm : GitLabSelfHostedIDPWriteModel) (e : GitLabSelfHostedIDPAddedEvent) (seq : Nat) (agg : Aggregate),
      ∃ r,
        GitLabSelfHostedIDPWriteModel.Reduce { wm with Events := [⟨.plain, seq, agg, .GitLabSelfHostedIDPAdded e⟩] }
          = .ok r ∧
        r.State = .IDPStateActive ∧
        r.Name = e.Name ∧ r.Issuer = e.Issuer ∧ r.ClientID = e.ClientID ∧
        r.ClientSecret = e.ClientSecret ∧ r.Scopes = e.Scopes ∧ r.Options = e.Options) ∧
    (∀ (wm : GoogleIDPWriteModel) (e : GoogleIDPAddedEvent) (seq : Nat) (agg : Aggregate),
      ∃ r,
        GoogleIDPWriteModel.Reduce { wm with Events := [⟨.plain, seq, agg, .GoogleIDPAdded e⟩] }
          = .ok r ∧
        r.State = .IDPStateActive ∧
        r.Name = e.Name ∧ r.ClientID = e.ClientID ∧ r.ClientSecret = e.ClientSecret ∧
        r.Scopes = e.Scopes ∧ r.Options = e.Options) ∧
    (∀ (wm : LDAPIDPWriteModel) (e : LDAPIDPAddedEvent) (seq : Nat) (agg : Aggregate),
      wm.ID = e.ID →
      ∃ r,
        LDAPIDPWriteModel.Reduce { wm with Events := [⟨.plain, seq, agg, .LDAPIDPAdded e⟩] }
          = .ok r ∧
        r.State = .IDPStateActive ∧
        r.Name = e.Name ∧ r.Servers = e.Servers ∧ r.StartTLS = e.StartTLS ∧ r.BaseDN = e.BaseDN ∧
        r.BindDN = e.BindDN ∧ r.BindPassword = e.BindPassword ∧ r.UserBase = e.UserBase ∧
        r.UserObjectClasses = e.UserObjectClasses ∧ r.UserFilters = e.UserFilters ∧
        r.Timeout = e.Timeout ∧ r.LDAPAttributes = e.LDAPAttributes ∧ r.Options = e.Options) := by
  refine ⟨?_, ?_, ?_, ?_, ?_, ?_, ?_, ?_, ?_, ?_⟩
  · intro wm e seq agg
    obtain ⟨r, hr, hs⟩ := OAuth_reduce_events wm [⟨.plain, seq, agg, .OAuthIDPAdded e⟩]
    exact ⟨r, hr, hs.2.2.2.2.2.2.2.2.2.2, hs.1, hs.2.2.1, hs.2.2.2.1, hs.2.2.2.2.1, hs.2.2.2.2.2.1,
      hs.2.2.2.2.2.2.1, hs.2.2.2.2.2.2.2.1, hs.2.2.2.2.2.2.2.2.1, hs.2.2.2.2.2.2.2.2.2.1⟩
  · intro wm e seq agg
    obtain ⟨r, hr, hs⟩ := OIDC_reduce_events wm [⟨.plain, seq, agg, .OIDCIDPAdded e⟩]
    exact ⟨r, hr, hs.2.2.2.2.2.2.2.2, hs.1, hs.2.2.1, hs.2.2.2.1, hs.2.2.2.2.1, hs.2.2.2.2.2.1,
      hs.2.2.2.2.2.2.1, hs.2.2.2.2.2.2.2.1⟩
  · intro wm e seq agg
    obtain ⟨r, hr, hs⟩ := JWT_reduce_events wm [⟨.plain, seq, agg, .JWTIDPAdded e⟩]
    exact ⟨r, hr, hs.2.2.2.2.2.2.2, hs.2.1, hs.2.2.1, hs.2.2.2.1, hs.2.2.2.2.1, hs.2.2.2.2.2.1,
      hs.2.2.2.2.2.2.1⟩
  · intro wm e seq agg
    obtain ⟨r, hr, hs⟩ := AzureAD_reduce_events wm [⟨.plain, seq, agg, .AzureADIDPAdded e⟩]
    exact ⟨r, hr, hs.2.2.2.2.2.2.2.2, hs.2.1, hs.2.2.1, hs.2.2.2.1, hs.2.2.2.2.1, hs.2.2.2.2.2.1,
      hs.2.2.2.2.2.2.1, hs.2.2.2.2.2.2.2.1⟩
  · intro wm e seq agg
    obtain ⟨r, hr, hs⟩ := GitHub_reduce_events wm [⟨.plain, seq, agg, .GitHubIDPAdded e⟩]
    exact ⟨r, hr, hs.2.2.2.2.2.2, hs.2.1, hs.2.2.1, hs.2.2.2.1, hs.2.2.2.2.1, hs.2.2.2.2.2.1⟩
  · intro wm e seq agg
    obtain ⟨r, hr, hs⟩ := GitHubEnterprise_reduce_events wm [⟨.plain, seq, agg, .GitHubEnterpriseIDPAdded e⟩]
    exact ⟨r, hr, hs.2.2.2.2.2.2.2.2.2, hs.2.1, hs.2.2.1, hs.2.2.2.1, hs.2.2.2.2.1, hs.2.2.2.2.2.1,
      hs.2.2.2.2.2.2.1, hs.2.2.2.2.2.2.2.1, hs.2.2.2.2.2.2.2.2.1⟩
  · intro wm e seq agg
    obtain ⟨r, hr, hs⟩ := GitLab_reduce_events wm [⟨.plain, seq, agg, .GitLabIDPAdded e⟩]
    exact ⟨r, hr, hs.2.2.2.2.2.2, hs.2.1, hs.2.2.1, hs.2.2.2.1, hs.2.2.2.2.1, hs.2.2.2.2.2.1⟩
  · intro wm e seq agg
    obtain ⟨r, hr, hs⟩ := GitLabSelfHosted_reduce_events wm [⟨.plain, seq, agg, .GitLabSelfHostedIDPAdded e⟩]
    exact ⟨r, hr, hs.2.2.2.2.2.2.2, hs.2.1, hs.2.2.1, hs.2.2.2.1, hs.2.2.2.2.1, hs.2.2.2.2.2.1,
      hs.2.2.2.2.2.2.1⟩
  · intro wm e seq agg
    obtain ⟨r, hr, hs⟩ := Google_reduce_events wm [⟨.plain, seq, agg, .GoogleIDPAdded e⟩]
    exact ⟨r, hr, hs.2.2.2.2.2.2, hs.2.1, hs.2.2.1, hs.2.2.2.1, hs.2.2.2.2.1, hs.2.2.2.2.2.1⟩
  · intro wm e seq agg hid
    obtain ⟨r, hr, hs⟩ := LDAP_reduce_events wm [⟨.plain, seq, agg, .LDAPIDPAdded e⟩]
    have hstep : [(⟨.plain, seq, agg, .LDAPIDPAdded e⟩ : Event)].foldl LDAPIDPWriteModel.reduceEvent wm
        = wm.reduceAddedEvent e := by
      simp [List.foldl, LDAPIDPWriteModel.reduceEvent, hid]
    rw [hstep] at hs
    exact ⟨r, hr, hs.2.2.2.2.2.2.2.2.2.2.2.2.2, hs.2.1, hs.2.2.1, hs.2.2.2.1, hs.2.2.2.2.1,
      hs.2.2.2.2.2.1, hs.2.2.2.2.2.2.1, hs.2.2.2.2.2.2.2.1, hs.2.2.2.2.2.2.2.2.1,
      hs.2.2.2.2.2.2.2.2.2.1, hs.2.2.2.2.2.2.2.2.2.2.1, hs.2.2.2.2.2.2.2.2.2.2.2.1,
      hs.2.2.2.2.2.2.2.2.2.2.2.2.1⟩

/-- An instance of C14: the LDAP write model of the scenario, which has folded nothing yet,
reduces the added event of its provider to an active model with the fields of the event. -/
theorem added_event_overwrites_and_activates_witness :
    scenarioLDAP.ID = scenarioLDAPAdded.ID ∧
      ∃ r,
        LDAPIDPWriteModel.Reduce
            { scenarioLDAP with
              Events := [⟨.plain, 11, scenarioAggregate, .LDAPIDPAdded scenarioLDAPAdded⟩] }
          = .ok r ∧
        r.State = .IDPStateActive ∧
        r.Name = scenarioLDAPAdded.Name ∧ r.Servers = scenarioLDAPAdded.Servers ∧
        r.StartTLS = scenarioLDAPAdded.StartTLS ∧ r.BaseDN = scenarioLDAPAdded.BaseDN ∧
        r.BindDN = scenarioLDAPAdded.BindDN ∧ r.BindPassword = scenarioLDAPAdded.BindPassword ∧
        r.UserBase = scenarioLDAPAdded.UserBase ∧
        r.UserObjectClasses = scenarioLDAPAdded.UserObjectClasses ∧
        r.UserFilters = scenarioLDAPAdded.UserFilters ∧ r.Timeout = scenarioLDAPAdded.Timeout ∧
        r.LDAPAttributes = scenarioLDAPAdded.LDAPAttributes ∧
        r.Options = scenarioLDAPAdded.Options :=
  ⟨rfl,
    added_event_overwrites_and_activates.2.2.2.2.2.2.2.2.2 scenarioLDAP scenarioLDAPAdded 11
      scenarioAggregate rfl⟩

/-- C15, as amended: `ToProvider` does not read `State`. For each of the ten provider write
models, every write model, callback URL, decryption capability and client library: the
model with its `State` replaced by any state, removed and unspecified included,
materializes exactly as the model itself; and `ToProvider` returns a provider whenever
decrypting the stored secret succeeds (no secret for JWT) and the client constructor
returns a provider for every call (the constructor of LDAP returns no error). -/
theorem toProvider_independent_of_state :
    ((∀ (wm : OAuthIDPWriteModel) (st : IDPState) (Provider : Type) (lib : ProviderLibraries Provider)
        (cb : String) (alg : EncryptionAlgorithm),
        ({ wm with State := st } : OAuthIDPWriteModel).ToProvider lib cb alg
          = wm.ToProvider lib cb alg) ∧
      ∀ (wm : OAuthIDPWriteModel) (Provider : Type) (lib : ProviderLibraries Provider)
        (cb : String) (alg : EncryptionAlgorithm),
        (∃ secret, DecryptString wm.ClientSecret alg = .ok secret) →
        (∀ call, ∃ p, lib.construct call = .ok p) →
        ∃ p, wm.ToProvider lib cb alg = .ok p) ∧
    ((∀ (wm : OIDCIDPWriteModel) (st : IDPState) (Provider : Type) (lib : ProviderLibraries Provider)
        (cb : String) (alg : EncryptionAlgorithm),
        ({ wm with State := st } : OIDCIDPWriteModel).ToProvider lib cb alg
          = wm.ToProvider lib cb alg) ∧
      ∀ (wm : OIDCIDPWriteModel) (Provider : Type) (lib : ProviderLibraries Provider)
        (cb : String) (alg : EncryptionAlgorithm),
        (∃ secret, DecryptString wm.ClientSecret alg = .ok secret) →
        (∀ call, ∃ p, lib.construct call = .ok p) →
        ∃ p, wm.ToProvider lib cb alg = .ok p) ∧
    ((∀ (wm : JWTIDPWriteModel) (st : IDPState) (Provider : Type) (lib : ProviderLibraries Provider)
        (cb : String) (alg : EncryptionAlgorithm),
        ({ wm with State := st } : JWTIDPWriteModel).ToProvider lib cb alg
          = wm.ToProvider lib cb alg) ∧
      ∀ (wm : JWTIDPWriteModel) (Provider : Type) (lib : ProviderLibraries Provider)
        (cb : String) (alg : EncryptionAlgorithm),
        (∀ call, ∃ p, lib.construct call = .ok p) →
        ∃ p, wm.ToProvider lib cb alg = .ok p) ∧
    ((∀ (wm : AzureADIDPWriteModel) (st : IDPState) (Provider : Type) (lib : ProviderLibraries Provider)
        (cb : String) (alg : EncryptionAlgorithm),
        ({ wm with State := st } : AzureADIDPWriteModel).ToProvider lib cb alg
          = wm.ToProvider lib cb alg) ∧
      ∀ (wm : AzureADIDPWriteModel) (Provider : Type) (lib : ProviderLibraries Provider)
        (cb : String) (alg : EncryptionAlgorithm),
        (∃ secret, DecryptString wm.ClientSecret alg = .ok secret) →
        (∀ call, ∃ p, lib.construct call = .ok p) →
        ∃ p, wm.ToProvider lib cb alg = .ok p) ∧
    ((∀ (wm : GitHubIDPWriteModel) (st : IDPState) (Provider : Type) (lib : ProviderLibraries Provider)
        (cb : String) (alg : EncryptionAlgorithm),
        ({ wm with State := st } : GitHubIDPWriteModel).ToProvider lib cb alg
          = wm.ToProvider lib cb alg) ∧
      ∀ (wm : GitHubIDPWriteModel) (Provider : Type) (lib : ProviderLibraries Provider)
        (cb : String) (alg : EncryptionAlgorithm),
        (∃ secret, DecryptString wm.ClientSecret alg = .ok secret) →
        (∀ call, ∃ p, lib.construct call = .ok p) →
        ∃ p, wm.ToProvider lib cb alg = .ok p) ∧
    ((∀ (wm : GitHubEnterpriseIDPWriteModel) (st : IDPState) (Provider : Type) (lib : ProviderLibraries Provider)
        (cb : String) (alg : EncryptionAlgorithm),
        ({ wm with State := st } : GitHubEnterpriseIDPWriteModel).ToProvider lib cb alg
          = wm.ToProvider lib cb alg) ∧
      ∀ (wm : GitHubEnterpriseIDPWriteModel) (Provider : Type) (lib : ProviderLibraries Provider)
        (cb : String) (alg : EncryptionAlgorithm),
        (∃ secret, DecryptString wm.ClientSecret alg = .ok secret) →
        (∀ call, ∃ p, lib.construct call = .ok p) →
        ∃ p, wm.ToProvider lib cb alg = .ok p) ∧
    ((∀ (wm : GitLabIDPWriteModel) (st : IDPState) (Provider : Type) (lib : ProviderLibraries Provider)
        (cb : String) (alg : EncryptionAlgorithm),
        ({ wm with State := st } : GitLabIDPWriteModel).ToProvider lib cb alg
          = wm.ToProvider lib cb alg) ∧
      ∀ (wm : GitLabIDPWriteModel) (Provider : Type) (lib : ProviderLibraries Provider)
        (cb : String) (alg : EncryptionAlgorithm),
        (∃ secret, DecryptString wm.ClientSecret alg = .ok secret) →
        (∀ call, ∃ p, lib.construct call = .ok p) →
        ∃ p, wm.ToProvider lib cb alg = .ok p) ∧
    ((∀ (wm : GitLabSelfHostedIDPWriteModel) (st : IDPState) (Provider : Type) (lib : ProviderLibraries Provider)
        (cb : String) (alg : EncryptionAlgorithm),
        ({ wm with State := st } : GitLabSelfHostedIDPWriteModel).ToProvider lib cb alg
          = wm.ToProvider lib cb alg) ∧
      ∀ (wm : GitLabSelfHostedIDPWriteModel) (Provider : Type) (lib : ProviderLibraries Provider)
        (cb : String) (alg : EncryptionAlgorithm),
        (∃ secret, DecryptString wm.ClientSecret alg = .ok secret) →
        (∀ call, ∃ p, lib.construct call = .ok p) →
        ∃ p, wm.ToProvider lib cb alg = .ok p) ∧
    ((∀ (wm : GoogleIDPWriteModel) (st : IDPState) (Provider : Type) (lib : ProviderLibraries Provider)
        (cb : String) (alg : EncryptionAlgorithm),
        ({ wm with State := st } : GoogleIDPWriteModel).ToProvider lib cb alg
          = wm.ToProvider lib cb alg) ∧
      ∀ (wm : GoogleIDPWriteModel) (Provider : Type) (lib : ProviderLibraries Provider)
        (cb : String) (alg : EncryptionAlgorithm),
        (∃ secret, DecryptString wm.ClientSecret alg = .ok secret) →
        (∀ call, ∃ p, lib.construct call = .ok p) →
        ∃ p, wm.ToProvider lib cb alg = .ok p) ∧
    ((∀ (wm : LDAPIDPWriteModel) (st : IDPState) (Provider : Type) (lib : ProviderLibraries Provider)
        (cb : String) (alg : EncryptionAlgorithm),
        ({ wm with State := st } : LDAPIDPWriteModel).ToProvider lib cb alg
          = wm.ToProvider lib cb alg) ∧
      ∀ (wm : LDAPIDPWriteModel) (Provider : Type) (lib : ProviderLibraries Provider)
        (cb : String) (alg : EncryptionAlgorithm),
        (∃ secret, DecryptString wm.BindPassword alg = .ok secret) →
        ∃ p, wm.ToProvider lib cb alg = .ok p) := by
  refine ⟨?_, ?_, ?_, ?_, ?_, ?_, ?_, ?_, ?_, ?_⟩
  · refine ⟨fun _ _ _ _ _ _ => rfl, ?_⟩
    intro wm Provider lib cb alg hdec hlib
    obtain ⟨secret, hs⟩ := hdec
    rw [OAuth_toProvider_ok wm lib cb alg secret hs]
    exact hlib _
  · refine ⟨fun _ _ _ _ _ _ => rfl, ?_⟩
    intro wm Provider lib cb alg hdec hlib
    obtain ⟨secret, hs⟩ := hdec
    rw [OIDC_toProvider_ok wm lib cb alg secret hs]
    exact hlib _
  · refine ⟨fun _ _ _ _ _ _ => rfl, ?_⟩
    intro wm Provider lib cb alg hlib
    rw [JWT_toProvider_ok wm lib cb alg]
    exact hlib _
  · refine ⟨fun _ _ _ _ _ _ => rfl, ?_⟩
    intro wm Provider lib cb alg hdec hlib
    obtain ⟨secret, hs⟩ := hdec
    obtain ⟨opts, ho⟩ := AzureAD_toProvider_ok wm lib cb alg secret hs
    rw [ho]
    exact hlib _
  · refine ⟨fun _ _ _ _ _ _ => rfl, ?_⟩
    intro wm Provider lib cb alg hdec hlib
    obtain ⟨secret, hs⟩ := hdec
    rw [GitHub_toProvider_ok wm lib cb alg secret hs]
    exact hlib _
  · refine ⟨fun _ _ _ _ _ _ => rfl, ?_⟩
    intro wm Provider lib cb alg hdec hlib
    obtain ⟨secret, hs⟩ := hdec
    rw [GitHubEnterprise_toProvider_ok wm lib cb alg secret hs]
    exact hlib _
  · refine ⟨fun _ _ _ _ _ _ => rfl, ?_⟩
    intro wm Provider lib cb alg hdec hlib
    obtain ⟨secret, hs⟩ := hdec
    rw [GitLab_toProvider_ok wm lib cb alg secret hs]
    exact hlib _
  · refine ⟨fun _ _ _ _ _ _ => rfl, ?_⟩
    intro wm Provider lib cb alg hdec hlib
    obtain ⟨secret, hs⟩ := hdec
    rw [GitLabSelfHosted_toProvider_ok wm lib cb alg secret hs]
    exact hlib _
  · refine ⟨fun _ _ _ _ _ _ => rfl, ?_⟩
    intro wm Provider lib cb alg hdec hlib
    obtain ⟨secret, hs⟩ := hdec
    rw [Google_toProvider_ok wm lib cb alg secret hs]
    exact hlib _
  · refine ⟨fun _ _ _ _ _ _ => rfl, ?_⟩
    intro wm Provider lib cb alg hdec
    obtain ⟨secret, hs⟩ := hdec
    rw [LDAP_toProvider_ok wm lib cb alg secret hs]
    exact ⟨_, rfl⟩

/-- An instance of C15 as amended: the removed OAuth write model of the scenario
materializes, given a decryption capability that succeeds and client libraries that report
no error. -/
theorem toProvider_independent_of_state_witness :
    (∃ secret,
        DecryptString scenarioOAuthRemoved.ClientSecret scenarioDecrypt = .ok secret) ∧
      (∀ call, ∃ p, scenarioLibraries.construct call = .ok p) ∧
      ∃ p,
        scenarioOAuthRemoved.ToProvider scenarioLibraries "https://zitadel/callback" scenarioDecrypt
          = .ok p :=
  ⟨⟨_, rfl⟩, fun _ => ⟨_, rfl⟩,
    toProvider_independent_of_state.1.2 scenarioOAuthRemoved _
      scenarioLibraries "https://zitadel/callback" scenarioDecrypt ⟨_, rfl⟩ (fun _ => ⟨_, rfl⟩)⟩

/-- C15 as stated fails: the OAuth write model of the scenario with a stored secret and
`State` removed, and the same model with `State` unspecified, handed a decryption
capability that succeeds, both return the provider that `oauth.New` builds from the stored
configuration and the decrypted secret, and no error. -/
theorem removed_model_still_materializes :
    scenarioOAuthRemoved.State = .IDPStateRemoved ∧
    scenarioOAuthUnspecified.State = .IDPStateUnspecified ∧
    scenarioOAuthRemoved.ToProvider scenarioLibraries "https://zitadel/callback" scenarioDecrypt
      = .ok (.inl (.oauthNew
          { ClientID := "1", ClientSecret := "s3cr3t",
            Endpoint := { AuthURL := "https://idp/authorize", TokenURL := "https://idp/token" },
            RedirectURL := "https://zitadel/callback", Scopes := some ["openid"] }
          "A" "https://idp/user" "sub" [.WithCreationAllowed, .WithLinkingAllowed])) ∧
    scenarioOAuthUnspecified.ToProvider scenarioLibraries "https://zitadel/callback" scenarioDecrypt
      = .ok (.inl (.oauthNew
          { ClientID := "1", ClientSecret := "s3cr3t",
            Endpoint := { AuthURL := "https://idp/authorize", TokenURL := "https://idp/token" },
            RedirectURL := "https://zitadel/callback", Scopes := some ["openid"] }
          "A" "https://idp/user" "sub" [.WithCreationAllowed, .WithLinkingAllowed])) :=
  ⟨rfl, rfl, rfl, rfl⟩

/-- C16: for each of the nine secret-bearing write models (OAuth, OIDC, Azure AD, GitHub,
GitHub Enterprise, GitLab, GitLab self-hosted, Google, LDAP), every callback URL,
decryption capability and client library: if decrypting the stored `ClientSecret`
(`BindPassword` for LDAP) fails with `err`, `ToProvider` returns `err` and no provider,
whatever the client library would return for any call; if it succeeds with `secret`,
`ToProvider` returns what the client constructor returns for the call whose secret
argument is `secret`. -/
theorem toProvider_decrypts_secret_first :
    ((∀ (wm : OAuthIDPWriteModel) (Provider : Type) (lib : ProviderLibraries Provider)
        (cb : String) (alg : EncryptionAlgorithm) (err : Error),
        DecryptString wm.ClientSecret alg = .error err →
        wm.ToProvider lib cb alg = .error err) ∧
      ∀ (wm : OAuthIDPWriteModel) (Provider : Type) (lib : ProviderLibraries Provider)
        (cb : String) (alg : EncryptionAlgorithm) (secret : String),
        DecryptString wm.ClientSecret alg = .ok secret →
        ∃ opts, wm.ToProvider lib cb alg =
          lib.construct
            (.oauthNew
              { ClientID := wm.ClientID, ClientSecret := secret,
                Endpoint :=
                  { AuthURL := wm.AuthorizationEndpoint, TokenURL := wm.TokenEndpoint },
                RedirectURL := cb, Scopes := wm.Scopes }
              wm.Name wm.UserEndpoint wm.IDAttribute opts)) ∧
    ((∀ (wm : OIDCIDPWriteModel) (Provider : Type) (lib : ProviderLibraries Provider)
        (cb : String) (alg : EncryptionAlgorithm) (err : Error),
        DecryptString wm.ClientSecret alg = .error err →
        wm.ToProvider lib cb alg = .error err) ∧
      ∀ (wm : OIDCIDPWriteModel) (Provider : Type) (lib : ProviderLibraries Provider)
        (cb : String) (alg : EncryptionAlgorithm) (secret : String),
        DecryptString wm.ClientSecret alg = .ok secret →
        ∃ opts, wm.ToProvider lib cb alg =
          lib.construct
            (.oidcNew wm.Name wm.Issuer wm.ClientID secret cb
              wm.Scopes opts)) ∧
    ((∀ (wm : AzureADIDPWriteModel) (Provider : Type) (lib : ProviderLibraries Provider)
        (cb : String) (alg : EncryptionAlgorithm) (err : Error),
        DecryptString wm.ClientSecret alg = .error err →
        wm.ToProvider lib cb alg = .error err) ∧
      ∀ (wm : AzureADIDPWriteModel) (Provider : Type) (lib : ProviderLibraries Provider)
        (cb : String) (alg : EncryptionAlgorithm) (secret : String),
        DecryptString wm.ClientSecret alg = .ok secret →
        ∃ opts, wm.ToProvider lib cb alg =
          lib.construct
            (.azureadNew wm.Name wm.ClientID secret cb
              wm.Scopes opts)) ∧
    ((∀ (wm : GitHubIDPWriteModel) (Provider : Type) (lib : ProviderLibraries Provider)
        (cb : String) (alg : EncryptionAlgorithm) (err : Error),
        DecryptString wm.ClientSecret alg = .error err →
        wm.ToProvider lib cb alg = .error err) ∧
      ∀ (wm : GitHubIDPWriteModel) (Provider : Type) (lib : ProviderLibraries Provider)
        (cb : String) (alg : EncryptionAlgorithm) (secret : String),
        DecryptString wm.ClientSecret alg = .ok secret →
        ∃ opts, wm.ToProvider lib cb alg =
          lib.construct
            (.githubNew wm.ClientID secret cb
              wm.Scopes opts)) ∧
    ((∀ (wm : GitHubEnterpriseIDPWriteModel) (Provider : Type) (lib : ProviderLibraries Provider)
        (cb : String) (alg : EncryptionAlgorithm) (err : Error),
        DecryptString wm.ClientSecret alg = .error err →
        wm.ToProvider lib cb alg = .error err) ∧
      ∀ (wm : GitHubEnterpriseIDPWriteModel) (Provider : Type) (lib : ProviderLibraries Provider)
        (cb : String) (alg : EncryptionAlgorithm) (secret : String),
        DecryptString wm.ClientSecret alg = .ok secret →
        ∃ opts, wm.ToProvider lib cb alg =
          lib.construct
            (.githubNewCustomURL wm.Name wm.ClientID secret cb
              wm.AuthorizationEndpoint wm.TokenEndpoint wm.UserEndpoint
              wm.Scopes opts)) ∧
    ((∀ (wm : GitLabIDPWriteModel) (Provider : Type) (lib : ProviderLibraries Provider)
        (cb : String) (alg : EncryptionAlgorithm) (err : Error),
        DecryptString wm.ClientSecret alg = .error err →
        wm.ToProvider lib cb alg = .error err) ∧
      ∀ (wm : GitLabIDPWriteModel) (Provider : Type) (lib : ProviderLibraries Provider)
        (cb : String) (alg : EncryptionAlgorithm) (secret : String),
        DecryptString wm.ClientSecret alg = .ok secret →
        ∃ opts, wm.ToProvider lib cb alg =
          lib.construct
            (.gitlabNew wm.ClientID secret cb
              wm.Scopes opts)) ∧
    ((∀ (wm : GitLabSelfHostedIDPWriteModel) (Provider : Type) (lib : ProviderLibraries Provider)
        (cb : String) (alg : EncryptionAlgorithm) (err : Error),
        DecryptString wm.ClientSecret alg = .error err →
        wm.ToProvider lib cb alg = .error err) ∧
      ∀ (wm : GitLabSelfHostedIDPWriteModel) (Provider : Type) (lib : ProviderLibraries Provider)
        (cb : String) (alg : EncryptionAlgorithm) (secret : String),
        DecryptString wm.ClientSecret alg = .ok secret →
        ∃ opts, wm.ToProvider lib cb alg =
          lib.construct
            (.gitlabNewCustomIssuer wm.Name wm.Issuer wm.ClientID secret cb
              wm.Scopes opts)) ∧
    ((∀ (wm : GoogleIDPWriteModel) (Provider : Type) (lib : ProviderLibraries Provider)
        (cb : String) (alg : EncryptionAlgorithm) (err : Error),
        DecryptString wm.ClientSecret alg = .error err →
        wm.ToProvider lib cb alg = .error err) ∧
      ∀ (wm : GoogleIDPWriteModel) (Provider : Type) (lib : ProviderLibraries Provider)
        (cb : String) (alg : EncryptionAlgorithm) (secret : String),
        DecryptString wm.ClientSecret alg = .ok secret →
        ∃ opts, wm.ToProvider lib cb alg =
          lib.construct
            (.googleNew wm.ClientID secret cb
              wm.Scopes opts)) ∧
    ((∀ (wm : LDAPIDPWriteModel) (Provider : Type) (lib : ProviderLibraries Provider)
        (cb : String) (alg : EncryptionAlgorithm) (err : Error),
        DecryptString wm.BindPassword alg = .error err →
        wm.ToProvider lib cb alg = .error err) ∧
      ∀ (wm : LDAPIDPWriteModel) (Provider : Type) (lib : ProviderLibraries Provider)
        (cb : String) (alg : EncryptionAlgorithm) (secret : String),
        DecryptString wm.BindPassword alg = .ok secret →
        ∃ opts, wm.ToProvider lib cb alg =
          .ok (lib.ldapNew
            { name := wm.Name, servers := wm.Servers, baseDN := wm.BaseDN, bindDN := wm.BindDN,
              bindPassword := secret, userBase := wm.UserBase,
              userObjectClasses := wm.UserObjectClasses, userFilters := wm.UserFilters,
              timeout := wm.Timeout, loginUrl := cb, opts := opts })) := by
  refine ⟨?_, ?_, ?_, ?_, ?_, ?_, ?_, ?_, ?_⟩
  · refine ⟨fun wm _ lib cb alg err h => OAuth_toProvider_error wm lib cb alg err h, ?_⟩
    intro wm Provider lib cb alg secret h
    exact ⟨_, OAuth_toProvider_ok wm lib cb alg secret h⟩
  · refine ⟨fun wm _ lib cb alg err h => OIDC_toProvider_error wm lib cb alg err h, ?_⟩
    intro wm Provider lib cb alg secret h
    exact ⟨_, OIDC_toProvider_ok wm lib cb alg secret h⟩
  · refine ⟨fun wm _ lib cb alg err h => AzureAD_toProvider_error wm lib cb alg err h, ?_⟩
    intro wm Provider lib cb alg secret h
    exact AzureAD_toProvider_ok wm lib cb alg secret h
  · refine ⟨fun wm _ lib cb alg err h => GitHub_toProvider_error wm lib cb alg err h, ?_⟩
    intro wm Provider lib cb alg secret h
    exact ⟨_, GitHub_toProvider_ok wm lib cb alg secret h⟩
  · refine ⟨fun wm _ lib cb alg err h => GitHubEnterprise_toProvider_error wm lib cb alg err h, ?_⟩
    intro wm Provider lib cb alg secret h
    exact ⟨_, GitHubEnterprise_toProvider_ok wm lib cb alg secret h⟩
  · refine ⟨fun wm _ lib cb alg err h => GitLab_toProvider_error wm lib cb alg err h, ?_⟩
    intro wm Provider lib cb alg secret h
    exact ⟨_, GitLab_toProvider_ok wm lib cb alg secret h⟩
  · refine ⟨fun wm _ lib cb alg err h => GitLabSelfHosted_toProvider_error wm lib cb alg err h, ?_⟩
    intro wm Provider lib cb alg secret h
    exact ⟨_, GitLabSelfHosted_toProvider_ok wm lib cb alg secret h⟩
  · refine ⟨fun wm _ lib cb alg err h => Google_toProvider_error wm lib cb alg err h, ?_⟩
    intro wm Provider lib cb alg secret h
    exact ⟨_, Google_toProvider_ok wm lib cb alg secret h⟩
  · refine ⟨fun wm _ lib cb alg err h => LDAP_toProvider_error wm lib cb alg err h, ?_⟩
    intro wm Provider lib cb alg secret h
    exact ⟨_, LDAP_toProvider_ok wm lib cb alg secret h⟩

/-- An instance of C16: the OAuth write model of the scenario, handed a decryption
capability that cannot resolve the key, returns that error although the client libraries
of the scenario would return a provider for every call. -/
theorem toProvider_decrypts_secret_first_witness :
    DecryptString scenarioOAuthWithSecret.ClientSecret scenarioDecryptFails = .error (.other "unknown key") ∧
      scenarioOAuthWithSecret.ToProvider scenarioLibraries "https://zitadel/callback" scenarioDecryptFails
        = .error (.other "unknown key") :=
  ⟨rfl,
    toProvider_decrypts_secret_first.1.1 scenarioOAuthWithSecret _ scenarioLibraries "https://zitadel/callback"
      scenarioDecryptFails (.other "unknown key") rfl⟩

/-- C17: option flags translate one-to-one into client construction options. For the OAuth,
GitHub, GitHub Enterprise, GitLab, GitLab self-hosted, Google, JWT and LDAP write models
(after a successful decryption, where there is a secret), the option list `opts` handed
to the client constructor is a sublist of creation-allowed, linking-allowed,
auto-creation, auto-update, so each occurs at most once and in that order, and it holds
each of the four exactly if the flag of the same name is set; for LDAP this list follows
the options `pre` built from the TLS setting and the attribute mapping, none of which is
one of the four. For the OIDC write model the list is a sublist of select-account,
ID-token-mapping and the same four, it starts with select-account, and it holds
ID-token-mapping exactly if `IsIDTokenMapping` is set. -/
theorem toProvider_option_flags :
    (∀ (wm : OAuthIDPWriteModel) (Provider : Type) (lib : ProviderLibraries Provider)
      (cb : String) (alg : EncryptionAlgorithm) (secret : String),
      DecryptString wm.ClientSecret alg = .ok secret →
      ∃ (opts : List OAuthProviderOpts), wm.ToProvider lib cb alg =
          lib.construct
            (.oauthNew
              { ClientID := wm.ClientID, ClientSecret := secret,
                Endpoint :=
                  { AuthURL := wm.AuthorizationEndpoint, TokenURL := wm.TokenEndpoint },
                RedirectURL := cb, Scopes := wm.Scopes }
              wm.Name wm.UserEndpoint wm.IDAttribute opts) ∧
        opts.Sublist
          [OAuthProviderOpts.WithCreationAllowed, .WithLinkingAllowed, .WithAutoCreation, .WithAutoUpdate] ∧
        (OAuthProviderOpts.WithCreationAllowed ∈ opts ↔ wm.Options.IsCreationAllowed = true) ∧
        (OAuthProviderOpts.WithLinkingAllowed ∈ opts ↔ wm.Options.IsLinkingAllowed = true) ∧
        (OAuthProviderOpts.WithAutoCreation ∈ opts ↔ wm.Options.IsAutoCreation = true) ∧
        (OAuthProviderOpts.WithAutoUpdate ∈ opts ↔ wm.Options.IsAutoUpdate = true)) ∧
    (∀ (wm : GitHubIDPWriteModel) (Provider : Type) (lib : ProviderLibraries Provider)
      (cb : String) (alg : EncryptionAlgorithm) (secret : String),
      DecryptString wm.ClientSecret alg = .ok secret →
      ∃ (opts : List OAuthProviderOpts), wm.ToProvider lib cb alg =
          lib.construct
            (.githubNew wm.ClientID secret cb
              wm.Scopes opts) ∧
        opts.Sublist
          [OAuthProviderOpts.WithCreationAllowed, .WithLinkingAllowed, .WithAutoCreation, .WithAutoUpdate] ∧
        (OAuthProviderOpts.WithCreationAllowed ∈ opts ↔ wm.Options.IsCreationAllowed = true) ∧
        (OAuthProviderOpts.WithLinkingAllowed ∈ opts ↔ wm.Options.IsLinkingAllowed = true) ∧
        (OAuthProviderOpts.WithAutoCreation ∈ opts ↔ wm.Options.IsAutoCreation = true) ∧
        (OAuthProviderOpts.WithAutoUpdate ∈ opts ↔ wm.Options.IsAutoUpdate = true)) ∧
    (∀ (wm : GitHubEnterpriseIDPWriteModel) (Provider : Type) (lib : ProviderLibraries Provider)
      (cb : String) (alg : EncryptionAlgorithm) (secret : String),
      DecryptString wm.ClientSecret alg = .ok secret →
      ∃ (opts : List OAuthProviderOpts), wm.ToProvider lib cb alg =
          lib.construct
            (.githubNewCustomURL wm.Name wm.ClientID secret cb
              wm.AuthorizationEndpoint wm.TokenEndpoint wm.UserEndpoint
              wm.Scopes opts) ∧
        opts.Sublist
          [OAuthProviderOpts.WithCreationAllowed, .WithLinkingAllowed, .WithAutoCreation, .WithAutoUpdate] ∧
        (OAuthProviderOpts.WithCreationAllowed ∈ opts ↔ wm.Options.IsCreationAllowed = true) ∧
        (OAuthProviderOpts.WithLinkingAllowed ∈ opts ↔ wm.Options.IsLinkingAllowed = true) ∧
        (OAuthProviderOpts.WithAutoCreation ∈ opts ↔ wm.Options.IsAutoCreation = true) ∧
        (OAuthProviderOpts.WithAutoUpdate ∈ opts ↔ wm.Options.IsAutoUpdate = true)) ∧
    (∀ (wm : GitLabIDPWriteModel) (Provider : Type) (lib : ProviderLibraries Provider)
      (cb : String) (alg : EncryptionAlgorithm) (secret : String),
      DecryptString wm.ClientSecret alg = .ok secret →
      ∃ (opts : List OIDCProviderOpts), wm.ToProvider lib cb alg =
          lib.construct
            (.gitlabNew wm.ClientID secret cb
              wm.Scopes opts) ∧
        opts.Sublist
          [OIDCProviderOpts.WithCreationAllowed, .WithLinkingAllowed, .WithAutoCreation, .WithAutoUpdate] ∧
        (OIDCProviderOpts.WithCreationAllowed ∈ opts ↔ wm.Options.IsCreationAllowed = true) ∧
        (OIDCProviderOpts.WithLinkingAllowed ∈ opts ↔ wm.Options.IsLinkingAllowed = true) ∧
        (OIDCProviderOpts.WithAutoCreation ∈ opts ↔ wm.Options.IsAutoCreation = true) ∧
        (OIDCProviderOpts.WithAutoUpdate ∈ opts ↔ wm.Options.IsAutoUpdate = true)) ∧
    (∀ (wm : GitLabSelfHostedIDPWriteModel) (Provider : Type) (lib : ProviderLibraries Provider)
      (cb : String) (alg : EncryptionAlgorithm) (secret : String),
      DecryptString wm.ClientSecret alg = .ok secret →
      ∃ (opts : List OIDCProviderOpts), wm.ToProvider lib cb alg =
          lib.construct
            (.gitlabNewCustomIssuer wm.Name wm.Issuer wm.ClientID secret cb
              wm.Scopes opts) ∧
        opts.Sublist
          [OIDCProviderOpts.WithCreationAllowed, .WithLinkingAllowed, .WithAutoCreation, .WithAutoUpdate] ∧
        (OIDCProviderOpts.WithCreationAllowed ∈ opts ↔ wm.Options.IsCreationAllowed = true) ∧
        (OIDCProviderOpts.WithLinkingAllowed ∈ opts ↔ wm.Options.IsLinkingAllowed = true) ∧
        (OIDCProviderOpts.WithAutoCreation ∈ opts ↔ wm.Options.IsAutoCreation = true) ∧
        (OIDCProviderOpts.WithAutoUpdate ∈ opts ↔ wm.Options.IsAutoUpdate = true)) ∧
    (∀ (wm : GoogleIDPWriteModel) (Provider : Type) (lib : ProviderLibraries Provider)
      (cb : String) (alg : EncryptionAlgorithm) (secret : String),
      DecryptString wm.ClientSecret alg = .ok secret →
      ∃ (opts : List OIDCProviderOpts), wm.ToProvider lib cb alg =
          lib.construct
            (.googleNew wm.ClientID secret cb
              wm.Scopes opts) ∧
        opts.Sublist
          [OIDCProviderOpts.WithCreationAllowed, .WithLinkingAllowed, .WithAutoCreation, .WithAutoUpdate] ∧
        (OIDCProviderOpts.WithCreationAllowed ∈ opts ↔ wm.Options.IsCreationAllowed = true) ∧
        (OIDCProviderOpts.WithLinkingAllowed ∈ opts ↔ wm.Options.IsLinkingAllowed = true) ∧
        (OIDCProviderOpts.WithAutoCreation ∈ opts ↔ wm.Options.IsAutoCreation = true) ∧
        (OIDCProviderOpts.WithAutoUpdate ∈ opts ↔ wm.Options.IsAutoUpdate = true)) ∧
    (∀ (wm : JWTIDPWriteModel) (Provider : Type) (lib : ProviderLibraries Provider)
      (cb : String) (alg : EncryptionAlgorithm),
      ∃ (opts : List JWTProviderOpts), wm.ToProvider lib cb alg =
          lib.construct
            (.jwtNew wm.Name wm.Issuer wm.JWTEndpoint wm.KeysEndpoint
              wm.HeaderName alg opts) ∧
        opts.Sublist
          [JWTProviderOpts.WithCreationAllowed, .WithLinkingAllowed, .WithAutoCreation, .WithAutoUpdate] ∧
        (JWTProviderOpts.WithCreationAllowed ∈ opts ↔ wm.Options.IsCreationAllowed = true) ∧
        (JWTProviderOpts.WithLinkingAllowed ∈ opts ↔ wm.Options.IsLinkingAllowed = true) ∧
        (JWTProviderOpts.WithAutoCreation ∈ opts ↔ wm.Options.IsAutoCreation = true) ∧
        (JWTProviderOpts.WithAutoUpdate ∈ opts ↔ wm.Options.IsAutoUpdate = true)) ∧
    (∀ (wm : LDAPIDPWriteModel) (Provider : Type) (lib : ProviderLibraries Provider)
      (cb : String) (alg : EncryptionAlgorithm) (secret : String),
      DecryptString wm.BindPassword alg = .ok secret →
      ∃ (pre opts : List LDAPProviderOpts), wm.ToProvider lib cb alg =
          .ok (lib.ldapNew
            { name := wm.Name, servers := wm.Servers, baseDN := wm.BaseDN, bindDN := wm.BindDN,
              bindPassword := secret, userBase := wm.UserBase,
              userObjectClasses := wm.UserObjectClasses, userFilters := wm.UserFilters,
              timeout := wm.Timeout, loginUrl := cb, opts := (pre ++ opts) }) ∧
        (∀ o ∈ pre, o ∉ [LDAPProviderOpts.WithCreationAllowed, .WithLinkingAllowed, .WithAutoCreation, .WithAutoUpdate]) ∧
        opts.Sublist
          [LDAPProviderOpts.WithCreationAllowed, .WithLinkingAllowed, .WithAutoCreation, .WithAutoUpdate] ∧
        (LDAPProviderOpts.WithCreationAllowed ∈ opts ↔ wm.Options.IsCreationAllowed = true) ∧
        (LDAPProviderOpts.WithLinkingAllowed ∈ opts ↔ wm.Options.IsLinkingAllowed = true) ∧
        (LDAPProviderOpts.WithAutoCreation ∈ opts ↔ wm.Options.IsAutoCreation = true) ∧
        (LDAPProviderOpts.WithAutoUpdate ∈ opts ↔ wm.Options.IsAutoUpdate = true)) ∧
    (∀ (wm : OIDCIDPWriteModel) (Provider : Type) (lib : ProviderLibraries Provider)
      (cb : String) (alg : EncryptionAlgorithm) (secret : String),
      DecryptString wm.ClientSecret alg = .ok secret →
      ∃ (opts : List OIDCProviderOpts), wm.ToProvider lib cb alg =
          lib.construct
            (.oidcNew wm.Name wm.Issuer wm.ClientID secret cb
              wm.Scopes opts) ∧
        opts.Sublist
          [OIDCProviderOpts.WithSelectAccount, .WithIDTokenMapping, .WithCreationAllowed,
            .WithLinkingAllowed, .WithAutoCreation, .WithAutoUpdate] ∧
        opts.head? = some OIDCProviderOpts.WithSelectAccount ∧
        (OIDCProviderOpts.WithIDTokenMapping ∈ opts ↔ wm.IsIDTokenMapping = true) ∧
        (OIDCProviderOpts.WithCreationAllowed ∈ opts ↔ wm.Options.IsCreationAllowed = true) ∧
        (OIDCProviderOpts.WithLinkingAllowed ∈ opts ↔ wm.Options.IsLinkingAllowed = true) ∧
        (OIDCProviderOpts.WithAutoCreation ∈ opts ↔ wm.Options.IsAutoCreation = true) ∧
        (OIDCProviderOpts.WithAutoUpdate ∈ opts ↔ wm.Options.IsAutoUpdate = true)) := by
  refine ⟨?_, ?_, ?_, ?_, ?_, ?_, ?_, ?_, ?_⟩
  · intro wm Provider lib cb alg secret h
    rw [OAuth_toProvider_ok wm lib cb alg secret h]
    refine ⟨_, rfl, ?_⟩
    cases wm.Options.IsCreationAllowed <;> cases wm.Options.IsLinkingAllowed <;>
      cases wm.Options.IsAutoCreation <;> cases wm.Options.IsAutoUpdate <;> decide
  · intro wm Provider lib cb alg secret h
    rw [GitHub_toProvider_ok wm lib cb alg secret h]
    refine ⟨_, rfl, ?_⟩
    cases wm.Options.IsCreationAllowed <;> cases wm.Options.IsLinkingAllowed <;>
      cases wm.Options.IsAutoCreation <;> cases wm.Options.IsAutoUpdate <;> decide
  · intro wm Provider lib cb alg secret h
    rw [GitHubEnterprise_toProvider_ok wm lib cb alg secret h]
    refine ⟨_, rfl, ?_⟩
    cases wm.Options.IsCreationAllowed <;> cases wm.Options.IsLinkingAllowed <;>
      cases wm.Options.IsAutoCreation <;> cases wm.Options.IsAutoUpdate <;> decide
  · intro wm Provider lib cb alg secret h
    rw [GitLab_toProvider_ok wm lib cb alg secret h]
    refine ⟨_, rfl, ?_⟩
    cases wm.Options.IsCreationAllowed <;> cases wm.Options.IsLinkingAllowed <;>
      cases wm.Options.IsAutoCreation <;> cases wm.Options.IsAutoUpdate <;> decide
  · intro wm Provider lib cb alg secret h
    rw [GitLabSelfHosted_toProvider_ok wm lib cb alg secret h]
    refine ⟨_, rfl, ?_⟩
    cases wm.Options.IsCreationAllowed <;> cases wm.Options.IsLinkingAllowed <;>
      cases wm.Options.IsAutoCreation <;> cases wm.Options.IsAutoUpdate <;> decide
  · intro wm Provider lib cb alg secret h
    rw [Google_toProvider_ok wm lib cb alg secret h]
    refine ⟨_, rfl, ?_⟩
    cases wm.Options.IsCreationAllowed <;> cases wm.Options.IsLinkingAllowed <;>
      cases wm.Options.IsAutoCreation <;> cases wm.Options.IsAutoUpdate <;> decide
  · intro wm Provider lib cb alg
    rw [JWT_toProvider_ok wm lib cb alg]
    refine ⟨_, rfl, ?_⟩
    cases wm.Options.IsCreationAllowed <;> cases wm.Options.IsLinkingAllowed <;>
      cases wm.Options.IsAutoCreation <;> cases wm.Options.IsAutoUpdate <;> decide
  · intro wm Provider lib cb alg secret h
    rw [LDAP_toProvider_ok wm lib cb alg secret h]
    refine ⟨
      ((if (!wm.StartTLS) = true then
         [LDAPProviderOpts.WithoutStartTLS] else []) ++
       ((if wm.LDAPAttributes.IDAttribute ≠ "" then
         [LDAPProviderOpts.WithCustomIDAttribute wm.LDAPAttributes.IDAttribute] else []) ++
       ((if wm.LDAPAttributes.FirstNameAttribute ≠ "" then
         [LDAPProviderOpts.WithFirstNameAttribute wm.LDAPAttributes.FirstNameAttribute] else []) ++
       ((if wm.LDAPAttributes.LastNameAttribute ≠ "" then
         [LDAPProviderOpts.WithLastNameAttribute wm.LDAPAttributes.LastNameAttribute] else []) ++
       ((if wm.LDAPAttributes.DisplayNameAttribute ≠ "" then
         [LDAPProviderOpts.WithDisplayNameAttribute wm.LDAPAttributes.DisplayNameAttribute] else []) ++
       ((if wm.LDAPAttributes.NickNameAttribute ≠ "" then
         [LDAPProviderOpts.WithNickNameAttribute wm.LDAPAttributes.NickNameAttribute] else []) ++
       ((if wm.LDAPAttributes.PreferredUsernameAttribute ≠ "" then
         [LDAPProviderOpts.WithPreferredUsernameAttribute wm.LDAPAttributes.PreferredUsernameAttribute] else []) ++
       ((if wm.LDAPAttributes.EmailAttribute ≠ "" then
         [LDAPProviderOpts.WithEmailAttribute wm.LDAPAttributes.EmailAttribute] else []) ++
       ((if wm.LDAPAttributes.EmailVerifiedAttribute ≠ "" then
         [LDAPProviderOpts.WithEmailVerifiedAttribute wm.LDAPAttributes.EmailVerifiedAttribute] else []) ++
       ((if wm.LDAPAttributes.PhoneAttribute ≠ "" then
         [LDAPProviderOpts.WithPhoneAttribute wm.LDAPAttributes.PhoneAttribute] else []) ++
       ((if wm.LDAPAttributes.PhoneVerifiedAttribute ≠ "" then
         [LDAPProviderOpts.WithPhoneVerifiedAttribute wm.LDAPAttributes.PhoneVerifiedAttribute] else []) ++
       ((if wm.LDAPAttributes.PreferredLanguageAttribute ≠ "" then
         [LDAPProviderOpts.WithPreferredLanguageAttribute wm.LDAPAttributes.PreferredLanguageAttribute] else []) ++
       ((if wm.LDAPAttributes.AvatarURLAttribute ≠ "" then
         [LDAPProviderOpts.WithAvatarURLAttribute wm.LDAPAttributes.AvatarURLAttribute] else []) ++
       (if wm.LDAPAttributes.ProfileAttribute ≠ "" then
         [LDAPProviderOpts.WithProfileAttribute wm.LDAPAttributes.ProfileAttribute] else [])))))))))))))),
      ((if wm.Options.IsCreationAllowed = true then
         [LDAPProviderOpts.WithCreationAllowed] else []) ++
       ((if wm.Options.IsLinkingAllowed = true then
         [LDAPProviderOpts.WithLinkingAllowed] else []) ++
       ((if wm.Options.IsAutoCreation = true then
         [LDAPProviderOpts.WithAutoCreation] else []) ++
       (if wm.Options.IsAutoUpdate = true then
         [LDAPProviderOpts.WithAutoUpdate] else [])))), ?_, ?_, ?_⟩
    · simp only [List.append_assoc]
    · intro o ho hmem
      simp only [List.mem_cons, List.mem_singleton, List.not_mem_nil, or_false] at hmem
      rcases hmem with rfl | rfl | rfl | rfl <;> simp at ho
    · cases wm.Options.IsCreationAllowed <;> cases wm.Options.IsLinkingAllowed <;>
        cases wm.Options.IsAutoCreation <;> cases wm.Options.IsAutoUpdate <;> decide
  · intro wm Provider lib cb alg secret h
    rw [OIDC_toProvider_ok wm lib cb alg secret h]
    refine ⟨_, rfl, ?_⟩
    cases wm.IsIDTokenMapping <;> cases wm.Options.IsCreationAllowed <;>
      cases wm.Options.IsLinkingAllowed <;> cases wm.Options.IsAutoCreation <;>
      cases wm.Options.IsAutoUpdate <;> decide

/-- An instance of C17: the OAuth write model of the scenario allows creation and linking
and neither auto-creation nor auto-update; with a decryption capability that succeeds,
`ToProvider` hands `oauth.New` an option list with exactly these two options. -/
theorem toProvider_option_flags_witness :
    DecryptString scenarioOAuthWithSecret.ClientSecret scenarioDecrypt = .ok "s3cr3t" ∧
      ∃ (opts : List OAuthProviderOpts),
        scenarioOAuthWithSecret.ToProvider scenarioLibraries "https://zitadel/callback" scenarioDecrypt =
            scenarioLibraries.construct
              (.oauthNew
                { ClientID := scenarioOAuthWithSecret.ClientID, ClientSecret := "s3cr3t",
                  Endpoint :=
                    { AuthURL := scenarioOAuthWithSecret.AuthorizationEndpoint, TokenURL := scenarioOAuthWithSecret.TokenEndpoint },
                  RedirectURL := "https://zitadel/callback", Scopes := scenarioOAuthWithSecret.Scopes }
                scenarioOAuthWithSecret.Name scenarioOAuthWithSecret.UserEndpoint scenarioOAuthWithSecret.IDAttribute opts) ∧
        opts.Sublist
          [OAuthProviderOpts.WithCreationAllowed, .WithLinkingAllowed, .WithAutoCreation, .WithAutoUpdate] ∧
        (OAuthProviderOpts.WithCreationAllowed ∈ opts ↔ scenarioOAuthWithSecret.Options.IsCreationAllowed = true) ∧
        (OAuthProviderOpts.WithLinkingAllowed ∈ opts ↔ scenarioOAuthWithSecret.Options.IsLinkingAllowed = true) ∧
        (OAuthProviderOpts.WithAutoCreation ∈ opts ↔ scenarioOAuthWithSecret.Options.IsAutoCreation = true) ∧
        (OAuthProviderOpts.WithAutoUpdate ∈ opts ↔ scenarioOAuthWithSecret.Options.IsAutoUpdate = true) :=
  ⟨rfl,
    toProvider_option_flags.1 scenarioOAuthWithSecret _ scenarioLibraries
      "https://zitadel/callback" scenarioDecrypt "s3cr3t" rfl⟩

/-- C18: `NewAllIDPWriteModel` fails for every kind outside the ten supported kinds. For
both owner scopes, every resource owner and id, and every kind that is not one of OIDC, JWT,
OAuth, LDAP, AzureAD, GitHub, GitHubEnterprise, GitLab, GitLabSelfHosted, Google (so the
unspecified kind and every value that no constant names), the result is the internal error
`Errors.IDPConfig.NotExisting`, with the id `COMMAND-xw921211` for the instance scope and
`COMMAND-xw921111` for the org scope, and no write model. -/
theorem newAllIDPWriteModel_rejects_unsupported_kind (resourceOwner : String)
    (instanceBool : Bool) (id : String) (idpType : IDPType)
    (h : idpType ∉ supportedKinds) :
    NewAllIDPWriteModel resourceOwner instanceBool id idpType
      = .error
          (ThrowInternal (if instanceBool then "COMMAND-xw921211" else "COMMAND-xw921111")
            "Errors.IDPConfig.NotExisting") := by
  cases instanceBool <;> cases idpType <;>
    first
      | rfl
      | (simp [supportedKinds] at h)

/-- An instance of C18: the unspecified kind in the instance scope, and a kind that no
constant names in the org scope. -/
theorem newAllIDPWriteModel_rejects_unsupported_kind_witness :
    (IDPType.IDPTypeUnspecified ∉ supportedKinds ∧
      NewAllIDPWriteModel "instance-1" true "idp-1" .IDPTypeUnspecified
        = .error (ThrowInternal "COMMAND-xw921211" "Errors.IDPConfig.NotExisting")) ∧
    (IDPType.IDPTypeOther 42 ∉ supportedKinds ∧
      NewAllIDPWriteModel "org-1" false "idp-1" (.IDPTypeOther 42)
        = .error (ThrowInternal "COMMAND-xw921111" "Errors.IDPConfig.NotExisting")) :=
  ⟨⟨by decide,
      newAllIDPWriteModel_rejects_unsupported_kind "instance-1" true "idp-1" .IDPTypeUnspecified
        (by decide)⟩,
    ⟨by decide,
      newAllIDPWriteModel_rejects_unsupported_kind "org-1" false "idp-1" (.IDPTypeOther 42)
        (by decide)⟩⟩

/-- C19: `NewAllIDPWriteModel` succeeds exactly on the ten kinds and selects the matching
variant. For each of the ten kinds and each owner scope it returns no error and the
umbrella write model whose `ID`, `IDPType`, `ResourceOwner` and `Instance` are the
arguments and whose inner model is what the constructor of that kind and that scope
returns for the given resource owner and id (the instance constructor for
`instance = true`, the org constructor otherwise); that inner model is of the requested
kind and scope; and an error is returned if and only if the kind is not one of the ten. -/
theorem newAllIDPWriteModel_selects_variant :
    (∀ (resourceOwner id : String),
      NewAllIDPWriteModel resourceOwner true id .IDPTypeOIDC
        = .ok
            { model := NewOIDCInstanceIDPWriteModel resourceOwner id, ID := id,
              IDPType := .IDPTypeOIDC, ResourceOwner := resourceOwner,
              Instance := true }) ∧
    (∀ (resourceOwner id : String),
      NewAllIDPWriteModel resourceOwner false id .IDPTypeOIDC
        = .ok
            { model := NewOIDCOrgIDPWriteModel resourceOwner id, ID := id,
              IDPType := .IDPTypeOIDC, ResourceOwner := resourceOwner,
              Instance := false }) ∧
    (∀ (resourceOwner id : String),
      NewAllIDPWriteModel resourceOwner true id .IDPTypeJWT
        = .ok
            { model := NewJWTInstanceIDPWriteModel resourceOwner id, ID := id,
              IDPType := .IDPTypeJWT, ResourceOwner := resourceOwner,
              Instance := true }) ∧
    (∀ (resourceOwner id : String),
      NewAllIDPWriteModel resourceOwner false id .IDPTypeJWT
        = .ok
            { model := NewJWTOrgIDPWriteModel resourceOwner id, ID := id,
              IDPType := .IDPTypeJWT, ResourceOwner := resourceOwner,
              Instance := false }) ∧
    (∀ (resourceOwner id : String),
      NewAllIDPWriteModel resourceOwner true id .IDPTypeOAuth
        = .ok
            { model := NewOAuthInstanceIDPWriteModel resourceOwner id, ID := id,
              IDPType := .IDPTypeOAuth, ResourceOwner := resourceOwner,
              Instance := true }) ∧
    (∀ (resourceOwner id : String),
      NewAllIDPWriteModel resourceOwner false id .IDPTypeOAuth
        = .ok
            { model := NewOAuthOrgIDPWriteModel resourceOwner id, ID := id,
              IDPType := .IDPTypeOAuth, ResourceOwner := resourceOwner,
              Instance := false }) ∧
    (∀ (resourceOwner id : String),
      NewAllIDPWriteModel resourceOwner true id .IDPTypeLDAP
        = .ok
            { model := NewLDAPInstanceIDPWriteModel resourceOwner id, ID := id,
              IDPType := .IDPTypeLDAP, ResourceOwner := resourceOwner,
              Instance := true }) ∧
    (∀ (resourceOwner id : String),
      NewAllIDPWriteModel resourceOwner false id .IDPTypeLDAP
        = .ok
            { model := NewLDAPOrgIDPWriteModel resourceOwner id, ID := id,
              IDPType := .IDPTypeLDAP, ResourceOwner := resourceOwner,
              Instance := false }) ∧
    (∀ (resourceOwner id : String),
      NewAllIDPWriteModel resourceOwner true id .IDPTypeAzureAD
        = .ok
            { model := NewAzureADInstanceIDPWriteModel resourceOwner id, ID := id,
              IDPType := .IDPTypeAzureAD, ResourceOwner := resourceOwner,
              Instance := true }) ∧
    (∀ (resourceOwner id : String),
      NewAllIDPWriteModel resourceOwner false id .IDPTypeAzureAD
        = .ok
            { model := NewAzureADOrgIDPWriteModel resourceOwner id, ID := id,
              IDPType := .IDPTypeAzureAD, ResourceOwner := resourceOwner,
              Instance := false }) ∧
    (∀ (resourceOwner id : String),
      NewAllIDPWriteModel resourceOwner true id .IDPTypeGitHub
        = .ok
            { model := NewGitHubInstanceIDPWriteModel resourceOwner id, ID := id,
              IDPType := .IDPTypeGitHub, ResourceOwner := resourceOwner,
              Instance := true }) ∧
    (∀ (resourceOwner id : String),
      NewAllIDPWriteModel resourceOwner false id .IDPTypeGitHub
        = .ok
            { model := NewGitHubOrgIDPWriteModel resourceOwner id, ID := id,
              IDPType := .IDPTypeGitHub, ResourceOwner := resourceOwner,
              Instance := false }) ∧
    (∀ (resourceOwner id : String),
      NewAllIDPWriteModel resourceOwner true id .IDPTypeGitHubEnterprise
        = .ok
            { model := NewGitHubEnterpriseInstanceIDPWriteModel resourceOwner id, ID := id,
              IDPType := .IDPTypeGitHubEnterprise, ResourceOwner := resourceOwner,
              Instance := true }) ∧
    (∀ (resourceOwner id : String),
      NewAllIDPWriteModel resourceOwner false id .IDPTypeGitHubEnterprise
        = .ok
            { model := NewGitHubEnterpriseOrgIDPWriteModel resourceOwner id, ID := id,
              IDPType := .IDPTypeGitHubEnterprise, ResourceOwner := resourceOwner,
              Instance := false }) ∧
    (∀ (resourceOwner id : String),
      NewAllIDPWriteModel resourceOwner true id .IDPTypeGitLab
        = .ok
            { model := NewGitLabInstanceIDPWriteModel resourceOwner id, ID := id,
              IDPType := .IDPTypeGitLab, ResourceOwner := resourceOwner,
              Instance := true }) ∧
    (∀ (resourceOwner id : String),
      NewAllIDPWriteModel resourceOwner false id .IDPTypeGitLab
        = .ok
            { model := NewGitLabOrgIDPWriteModel resourceOwner id, ID := id,
              IDPType := .IDPTypeGitLab, ResourceOwner := resourceOwner,
              Instance := false }) ∧
    (∀ (resourceOwner id : String),
      NewAllIDPWriteModel resourceOwner true id .IDPTypeGitLabSelfHosted
        = .ok
            { model := NewGitLabSelfHostedInstanceIDPWriteModel resourceOwner id, ID := id,
              IDPType := .IDPTypeGitLabSelfHosted, ResourceOwner := resourceOwner,
              Instance := true }) ∧
    (∀ (resourceOwner id : String),
      NewAllIDPWriteModel resourceOwner false id .IDPTypeGitLabSelfHosted
        = .ok
            { model := NewGitLabSelfHostedOrgIDPWriteModel resourceOwner id, ID := id,
              IDPType := .IDPTypeGitLabSelfHosted, ResourceOwner := resourceOwner,
              Instance := false }) ∧
    (∀ (resourceOwner id : String),
      NewAllIDPWriteModel resourceOwner true id .IDPTypeGoogle
        = .ok
            { model := NewGoogleInstanceIDPWriteModel resourceOwner id, ID := id,
              IDPType := .IDPTypeGoogle, ResourceOwner := resourceOwner,
              Instance := true }) ∧
    (∀ (resourceOwner id : String),
      NewAllIDPWriteModel resourceOwner false id .IDPTypeGoogle
        = .ok
            { model := NewGoogleOrgIDPWriteModel resourceOwner id, ID := id,
              IDPType := .IDPTypeGoogle, ResourceOwner := resourceOwner,
              Instance := false }) ∧
    (∀ (resourceOwner : String) (instanceBool : Bool) (id : String) (idpType : IDPType),
      idpType ∈ supportedKinds →
      ∃ wm, NewAllIDPWriteModel resourceOwner instanceBool id idpType = .ok wm ∧
        wm.model.kind = idpType ∧ wm.model.instanceScoped = instanceBool ∧
        wm.ID = id ∧ wm.IDPType = idpType ∧ wm.ResourceOwner = resourceOwner ∧
        wm.Instance = instanceBool) ∧
    (∀ (resourceOwner : String) (instanceBool : Bool) (id : String) (idpType : IDPType),
      (∃ err, NewAllIDPWriteModel resourceOwner instanceBool id idpType = .error err) ↔
        idpType ∉ supportedKinds) := by
  refine ⟨?_, ?_, ?_, ?_, ?_, ?_, ?_, ?_, ?_, ?_, ?_, ?_, ?_, ?_, ?_, ?_, ?_, ?_, ?_, ?_, ?_, ?_⟩
  · exact fun _ _ => rfl
  · exact fun _ _ => rfl
  · exact fun _ _ => rfl
  · exact fun _ _ => rfl
  · exact fun _ _ => rfl
  · exact fun _ _ => rfl
  · exact fun _ _ => rfl
  · exact fun _ _ => rfl
  · exact fun _ _ => rfl
  · exact fun _ _ => rfl
  · exact fun _ _ => rfl
  · exact fun _ _ => rfl
  · exact fun _ _ => rfl
  · exact fun _ _ => rfl
  · exact fun _ _ => rfl
  · exact fun _ _ => rfl
  · exact fun _ _ => rfl
  · exact fun _ _ => rfl
  · exact fun _ _ => rfl
  · exact fun _ _ => rfl
  · intro resourceOwner instanceBool id idpType h
    cases instanceBool <;> cases idpType <;>
      first
        | exact ⟨_, rfl, rfl, rfl, rfl, rfl, rfl, rfl⟩
        | (simp [supportedKinds] at h)
  · intro resourceOwner instanceBool id idpType
    cases instanceBool <;> cases idpType <;>
      simp [NewAllIDPWriteModel, supportedKinds]

/-- An instance of C19: the LDAP kind in the org scope. -/
theorem newAllIDPWriteModel_selects_variant_witness :
    IDPType.IDPTypeLDAP ∈ supportedKinds ∧
      ∃ wm, NewAllIDPWriteModel "org-1" false "idp-3" .IDPTypeLDAP = .ok wm ∧
        wm.model.kind = .IDPTypeLDAP ∧ wm.model.instanceScoped = false ∧
        wm.ID = "idp-3" ∧ wm.IDPType = .IDPTypeLDAP ∧ wm.ResourceOwner = "org-1" ∧
        wm.Instance = false :=
  ⟨by decide,
    newAllIDPWriteModel_selects_variant.2.2.2.2.2.2.2.2.2.2.2.2.2.2.2.2.2.2.2.2.1 "org-1" false "idp-3" .IDPTypeLDAP (by decide)⟩

/-- C20: the umbrella write model only forwards. The implementations of `IDP` lie outside
the sources at hand; the statement holds for every implementation of their methods. For
every `AllIDPWriteModel`, those built by `NewAllIDPWriteModel` included: `AppendEvents`
hands the events to the inner model and changes nothing else; `Reduce` returns what the
`Reduce` of the inner model returns, and `ToProvider` what its `ToProvider` returns;
`AppendEvents` followed by `Reduce` on the umbrella returns what the same two calls on
the inner model return: if they succeed, the inner model of the umbrella is exactly the
state the inner model reaches by the two calls directly, of the same kind and owner scope,
and `ID`, `IDPType`, `ResourceOwner` and `Instance` of the umbrella are what they were
(for an umbrella built by `NewAllIDPWriteModel`: the arguments); if they fail, the error
is returned. For each of the ten variants, the two calls on an umbrella around the write
model `m` are the methods of the wrapper of that variant and scope called on `m`, and
`ToProvider` of the umbrella is the `ToProvider` of that wrapper. -/
theorem allIDPWriteModel_forwards :
    (∀ (Provider : Type) (impl : IDPImplementations Provider) (wm : AllIDPWriteModel)
      (events : List Event),
      (wm.AppendEvents impl events).model = wm.model.AppendEvents impl events ∧
        (wm.AppendEvents impl events).ID = wm.ID ∧
        (wm.AppendEvents impl events).IDPType = wm.IDPType ∧
        (wm.AppendEvents impl events).ResourceOwner = wm.ResourceOwner ∧
        (wm.AppendEvents impl events).Instance = wm.Instance) ∧
    (∀ (Provider : Type) (impl : IDPImplementations Provider) (wm : AllIDPWriteModel),
      wm.Reduce impl
        = (wm.model.Reduce impl).map (fun model => { wm with model := model })) ∧
    (∀ (Provider : Type) (impl : IDPImplementations Provider) (wm : AllIDPWriteModel)
      (callbackURL : String) (idpAlg : EncryptionAlgorithm),
      wm.ToProvider impl callbackURL idpAlg
        = wm.model.ToProvider impl callbackURL idpAlg) ∧
    (∀ (Provider : Type) (impl : IDPImplementations Provider) (wm : AllIDPWriteModel)
      (events : List Event),
      (wm.AppendEvents impl events).Reduce impl
        = ((wm.model.AppendEvents impl events).Reduce impl).map
            (fun model => { wm with model := model })) ∧
    (∀ (Provider : Type) (impl : IDPImplementations Provider) (wm : AllIDPWriteModel)
      (events : List Event) (r : AllIDPWriteModel),
      (wm.AppendEvents impl events).Reduce impl = .ok r →
      (wm.model.AppendEvents impl events).Reduce impl = .ok r.model ∧
        r.model.kind = wm.model.kind ∧
        r.model.instanceScoped = wm.model.instanceScoped ∧
        r.ID = wm.ID ∧ r.IDPType = wm.IDPType ∧ r.ResourceOwner = wm.ResourceOwner ∧
        r.Instance = wm.Instance) ∧
    (∀ (Provider : Type) (impl : IDPImplementations Provider) (wm : AllIDPWriteModel)
      (events : List Event) (err : Error),
      (wm.model.AppendEvents impl events).Reduce impl = .error err →
      (wm.AppendEvents impl events).Reduce impl = .error err) ∧
    (∀ (Provider : Type) (impl : IDPImplementations Provider) (resourceOwner : String)
      (instanceBool : Bool) (id : String) (idpType : IDPType) (wm : AllIDPWriteModel)
      (events : List Event) (r : AllIDPWriteModel),
      NewAllIDPWriteModel resourceOwner instanceBool id idpType = .ok wm →
      (wm.AppendEvents impl events).Reduce impl = .ok r →
      r.model.kind = idpType ∧ r.model.instanceScoped = instanceBool ∧ r.ID = id ∧
        r.IDPType = idpType ∧ r.ResourceOwner = resourceOwner ∧
        r.Instance = instanceBool) ∧
    (∀ (Provider : Type) (impl : IDPImplementations Provider) (m : OAuthIDPWriteModel)
      (instanceScoped : Bool) (id : String) (idpType : IDPType) (resourceOwner : String)
      (inst : Bool) (events : List Event) (callbackURL : String)
      (idpAlg : EncryptionAlgorithm),
      (AllIDPWriteModel.AppendEvents
          ⟨.OAuth instanceScoped m, id, idpType, resourceOwner, inst⟩ impl events).Reduce impl
        = ((impl.OAuth instanceScoped).Reduce
            ((impl.OAuth instanceScoped).AppendEvents m events)).map
            (fun r => ⟨.OAuth instanceScoped r, id, idpType, resourceOwner, inst⟩) ∧
      AllIDPWriteModel.ToProvider
          ⟨.OAuth instanceScoped m, id, idpType, resourceOwner, inst⟩ impl callbackURL idpAlg
        = (impl.OAuth instanceScoped).ToProvider m callbackURL idpAlg) ∧
    (∀ (Provider : Type) (impl : IDPImplementations Provider) (m : OIDCIDPWriteModel)
      (instanceScoped : Bool) (id : String) (idpType : IDPType) (resourceOwner : String)
      (inst : Bool) (events : List Event) (callbackURL : String)
      (idpAlg : EncryptionAlgorithm),
      (AllIDPWriteModel.AppendEvents
          ⟨.OIDC instanceScoped m, id, idpType, resourceOwner, inst⟩ impl events).Reduce impl
        = ((impl.OIDC instanceScoped).Reduce
            ((impl.OIDC instanceScoped).AppendEvents m events)).map
            (fun r => ⟨.OIDC instanceScoped r, id, idpType, resourceOwner, inst⟩) ∧
      AllIDPWriteModel.ToProvider
          ⟨.OIDC instanceScoped m, id, idpType, resourceOwner, inst⟩ impl callbackURL idpAlg
        = (impl.OIDC instanceScoped).ToProvider m callbackURL idpAlg) ∧
    (∀ (Provider : Type) (impl : IDPImplementations Provider) (m : JWTIDPWriteModel)
      (instanceScoped : Bool) (id : String) (idpType : IDPType) (resourceOwner : String)
      (inst : Bool) (events : List Event) (callbackURL : String)
      (idpAlg : EncryptionAlgorithm),
      (AllIDPWriteModel.AppendEvents
          ⟨.JWT instanceScoped m, id, idpType, resourceOwner, inst⟩ impl events).Reduce impl
        = ((impl.JWT instanceScoped).Reduce
            ((impl.JWT instanceScoped).AppendEvents m events)).map
            (fun r => ⟨.JWT instanceScoped r, id, idpType, resourceOwner, inst⟩) ∧
      AllIDPWriteModel.ToProvider
          ⟨.JWT instanceScoped m, id, idpType, resourceOwner, inst⟩ impl callbackURL idpAlg
        = (impl.JWT instanceScoped).ToProvider m callbackURL idpAlg) ∧
    (∀ (Provider : Type) (impl : IDPImplementations Provider) (m : AzureADIDPWriteModel)
      (instanceScoped : Bool) (id : String) (idpType : IDPType) (resourceOwner : String)
      (inst : Bool) (events : List Event) (callbackURL : String)
      (idpAlg : EncryptionAlgorithm),
      (AllIDPWriteModel.AppendEvents
          ⟨.AzureAD instanceScoped m, id, idpType, resourceOwner, inst⟩ impl events).Reduce impl
        = ((impl.AzureAD instanceScoped).Reduce
            ((impl.AzureAD instanceScoped).AppendEvents m events)).map
            (fun r => ⟨.AzureAD instanceScoped r, id, idpType, resourceOwner, inst⟩) ∧
      AllIDPWriteModel.ToProvider
          ⟨.AzureAD instanceScoped m, id, idpType, resourceOwner, inst⟩ impl callbackURL idpAlg
        = (impl.AzureAD instanceScoped).ToProvider m callbackURL idpAlg) ∧
    (∀ (Provider : Type) (impl : IDPImplementations Provider) (m : GitHubIDPWriteModel)
      (instanceScoped : Bool) (id : String) (idpType : IDPType) (resourceOwner : String)
      (inst : Bool) (events : List Event) (callbackURL : String)
      (idpAlg : EncryptionAlgorithm),
      (AllIDPWriteModel.AppendEvents
          ⟨.GitHub instanceScoped m, id, idpType, resourceOwner, inst⟩ impl events).Reduce impl
        = ((impl.GitHub instanceScoped).Reduce
            ((impl.GitHub instanceScoped).AppendEvents m events)).map
            (fun r => ⟨.GitHub instanceScoped r, id, idpType, resourceOwner, inst⟩) ∧
      AllIDPWriteModel.ToProvider
          ⟨.GitHub instanceScoped m, id, idpType, resourceOwner, inst⟩ impl callbackURL idpAlg
        = (impl.GitHub instanceScoped).ToProvider m callbackURL idpAlg) ∧
    (∀ (Provider : Type) (impl : IDPImplementations Provider) (m : GitHubEnterpriseIDPWriteModel)
      (instanceScoped : Bool) (id : String) (idpType : IDPType) (resourceOwner : String)
      (inst : Bool) (events : List Event) (callbackURL : String)
      (idpAlg : EncryptionAlgorithm),
      (AllIDPWriteModel.AppendEvents
          ⟨.GitHubEnterprise instanceScoped m, id, idpType, resourceOwner, inst⟩ impl events).Reduce impl
        = ((impl.GitHubEnterprise instanceScoped).Reduce
            ((impl.GitHubEnterprise instanceScoped).AppendEvents m events)).map
            (fun r => ⟨.GitHubEnterprise instanceScoped r, id, idpType, resourceOwner, inst⟩) ∧
      AllIDPWriteModel.ToProvider
          ⟨.GitHubEnterprise instanceScoped m, id, idpType, resourceOwner, inst⟩ impl callbackURL idpAlg
        = (impl.GitHubEnterprise instanceScoped).ToProvider m callbackURL idpAlg) ∧
    (∀ (Provider : Type) (impl : IDPImplementations Provider) (m : GitLabIDPWriteModel)
      (instanceScoped : Bool) (id : String) (idpType : IDPType) (resourceOwner : String)
      (inst : Bool) (events : List Event) (callbackURL : String)
      (idpAlg : EncryptionAlgorithm),
      (AllIDPWriteModel.AppendEvents
          ⟨.GitLab instanceScoped m, id, idpType, resourceOwner, inst⟩ impl events).Reduce impl
        = ((impl.GitLab instanceScoped).Reduce
            ((impl.GitLab instanceScoped).AppendEvents m events)).map
            (fun r => ⟨.GitLab instanceScoped r, id, idpType, resourceOwner, inst⟩) ∧
      AllIDPWriteModel.ToProvider
          ⟨.GitLab instanceScoped m, id, idpType, resourceOwner, inst⟩ impl callbackURL idpAlg
        = (impl.GitLab instanceScoped).ToProvider m callbackURL idpAlg) ∧
    (∀ (Provider : Type) (impl : IDPImplementations Provider) (m : GitLabSelfHostedIDPWriteModel)
      (instanceScoped : Bool) (id : String) (idpType : IDPType) (resourceOwner : String)
      (inst : Bool) (events : List Event) (callbackURL : String)
      (idpAlg : EncryptionAlgorithm),
      (AllIDPWriteModel.AppendEvents
          ⟨.GitLabSelfHosted instanceScoped m, id, idpType, resourceOwner, inst⟩ impl events).Reduce impl
        = ((impl.GitLabSelfHosted instanceScoped).Reduce
            ((impl.GitLabSelfHosted instanceScoped).AppendEvents m events)).map
            (fun r => ⟨.GitLabSelfHosted instanceScoped r, id, idpType, resourceOwner, inst⟩) ∧
      AllIDPWriteModel.ToProvider
          ⟨.GitLabSelfHosted instanceScoped m, id, idpType, resourceOwner, inst⟩ impl callbackURL idpAlg
        = (impl.GitLabSelfHosted instanceScoped).ToProvider m callbackURL idpAlg) ∧
    (∀ (Provider : Type) (impl : IDPImplementations Provider) (m : GoogleIDPWriteModel)
      (instanceScoped : Bool) (id : String) (idpType : IDPType) (resourceOwner : String)
      (inst : Bool) (events : List Event) (callbackURL : String)
      (idpAlg : EncryptionAlgorithm),
      (AllIDPWriteModel.AppendEvents
          ⟨.Google instanceScoped m, id, idpType, resourceOwner, inst⟩ impl events).Reduce impl
        = ((impl.Google instanceScoped).Reduce
            ((impl.Google instanceScoped).AppendEvents m events)).map
            (fun r => ⟨.Google instanceScoped r, id, idpType, resourceOwner, inst⟩) ∧
      AllIDPWriteModel.ToProvider
          ⟨.Google instanceScoped m, id, idpType, resourceOwner, inst⟩ impl callbackURL idpAlg
        = (impl.Google instanceScoped).ToProvider m callbackURL idpAlg) ∧
    (∀ (Provider : Type) (impl : IDPImplementations Provider) (m : LDAPIDPWriteModel)
      (instanceScoped : Bool) (id : String) (idpType : IDPType) (resourceOwner : String)
      (inst : Bool) (events : List Event) (callbackURL : String)
      (idpAlg : EncryptionAlgorithm),
      (AllIDPWriteModel.AppendEvents
          ⟨.LDAP instanceScoped m, id, idpType, resourceOwner, inst⟩ impl events).Reduce impl
        = ((impl.LDAP instanceScoped).Reduce
            ((impl.LDAP instanceScoped).AppendEvents m events)).map
            (fun r => ⟨.LDAP instanceScoped r, id, idpType, resourceOwner, inst⟩) ∧
      AllIDPWriteModel.ToProvider
          ⟨.LDAP instanceScoped m, id, idpType, resourceOwner, inst⟩ impl callbackURL idpAlg
        = (impl.LDAP instanceScoped).ToProvider m callbackURL idpAlg) := by
  refine ⟨?_, ?_, ?_, ?_, ?_, ?_, ?_, ?_, ?_, ?_, ?_, ?_, ?_, ?_, ?_, ?_, ?_⟩
  · exact fun _ _ _ _ => ⟨rfl, rfl, rfl, rfl, rfl⟩
  · exact fun _ impl wm => allIDP_reduce_eq wm impl
  · exact fun _ _ _ _ _ => rfl
  · exact fun _ impl wm events => allIDP_reduce_eq (wm.AppendEvents impl events) impl
  · intro Provider impl wm events r h
    rw [allIDP_reduce_eq] at h
    cases hm : (wm.AppendEvents impl events).model.Reduce impl with
    | error err => rw [hm] at h; exact absurd h (by simp [Except.map])
    | ok model =>
      rw [hm] at h
      cases h
      have hk := IDP_reduce_kind _ impl model hm
      have ha := IDP_appendEvents_kind wm.model impl events
      exact ⟨hm, hk.1.trans ha.1, hk.2.trans ha.2, rfl, rfl, rfl, rfl⟩
  · intro Provider impl wm events err h
    rw [allIDP_reduce_eq]
    have h : (wm.AppendEvents impl events).model.Reduce impl = .error err := h
    rw [h]
    rfl
  · intro Provider impl resourceOwner instanceBool id idpType wm events r hn h
    obtain ⟨f1, f2, f3, f4, f5, f6⟩ :=
      newAllIDPWriteModel_fields resourceOwner instanceBool id idpType wm hn
    rw [allIDP_reduce_eq] at h
    cases hm : (wm.AppendEvents impl events).model.Reduce impl with
    | error err => rw [hm] at h; exact absurd h (by simp [Except.map])
    | ok model =>
      rw [hm] at h
      cases h
      have hk := IDP_reduce_kind _ impl model hm
      have ha := IDP_appendEvents_kind wm.model impl events
      exact ⟨(hk.1.trans ha.1).trans f1, (hk.2.trans ha.2).trans f2, f3, f4, f5, f6⟩
  · intro Provider impl m instanceScoped id idpType resourceOwner inst events callbackURL idpAlg
    refine ⟨?_, rfl⟩
    rw [allIDP_reduce_eq]
    cases h : (impl.OAuth instanceScoped).Reduce
        ((impl.OAuth instanceScoped).AppendEvents m events) <;>
      simp only [AllIDPWriteModel.AppendEvents, IDP.AppendEvents, IDP.Reduce, h, Except.map]
  · intro Provider impl m instanceScoped id idpType resourceOwner inst events callbackURL idpAlg
    refine ⟨?_, rfl⟩
    rw [allIDP_reduce_eq]
    cases h : (impl.OIDC instanceScoped).Reduce
        ((impl.OIDC instanceScoped).AppendEvents m events) <;>
      simp only [AllIDPWriteModel.AppendEvents, IDP.AppendEvents, IDP.Reduce, h, Except.map]
  · intro Provider impl m instanceScoped id idpType resourceOwner inst events callbackURL idpAlg
    refine ⟨?_, rfl⟩
    rw [allIDP_reduce_eq]
    cases h : (impl.JWT instanceScoped).Reduce
        ((impl.JWT instanceScoped).AppendEvents m events) <;>
      simp only [AllIDPWriteModel.AppendEvents, IDP.AppendEvents, IDP.Reduce, h, Except.map]
  · intro Provider impl m instanceScoped id idpType resourceOwner inst events callbackURL idpAlg
    refine ⟨?_, rfl⟩
    rw [allIDP_reduce_eq]
    cases h : (impl.AzureAD instanceScoped).Reduce
        ((impl.AzureAD instanceScoped).AppendEvents m events) <;>
      simp only [AllIDPWriteModel.AppendEvents, IDP.AppendEvents, IDP.Reduce, h, Except.map]
  · intro Provider impl m instanceScoped id idpType resourceOwner inst events callbackURL idpAlg
    refine ⟨?_, rfl⟩
    rw [allIDP_reduce_eq]
    cases h : (impl.GitHub instanceScoped).Reduce
        ((impl.GitHub instanceScoped).AppendEvents m events) <;>
      simp only [AllIDPWriteModel.AppendEvents, IDP.AppendEvents, IDP.Reduce, h, Except.map]
  · intro Provider impl m instanceScoped id idpType resourceOwner inst events callbackURL idpAlg
    refine ⟨?_, rfl⟩
    rw [allIDP_reduce_eq]
    cases h : (impl.GitHubEnterprise instanceScoped).Reduce
        ((impl.GitHubEnterprise instanceScoped).AppendEvents m events) <;>
      simp only [AllIDPWriteModel.AppendEvents, IDP.AppendEvents, IDP.Reduce, h, Except.map]
  · intro Provider impl m instanceScoped id idpType resourceOwner inst events callbackURL idpAlg
    refine ⟨?_, rfl⟩
    rw [allIDP_reduce_eq]
    cases h : (impl.GitLab instanceScoped).Reduce
        ((impl.GitLab instanceScoped).AppendEvents m events) <;>
      simp only [AllIDPWriteModel.AppendEvents, IDP.AppendEvents, IDP.Reduce, h, Except.map]
  · intro Provider impl m instanceScoped id idpType resourceOwner inst events callbackURL idpAlg
    refine ⟨?_, rfl⟩
    rw [allIDP_reduce_eq]
    cases h : (impl.GitLabSelfHosted instanceScoped).Reduce
        ((impl.GitLabSelfHosted instanceScoped).AppendEvents m events) <;>
      simp only [AllIDPWriteModel.AppendEvents, IDP.AppendEvents, IDP.Reduce, h, Except.map]
  · intro Provider impl m instanceScoped id idpType resourceOwner inst events callbackURL idpAlg
    refine ⟨?_, rfl⟩
    rw [allIDP_reduce_eq]
    cases h : (impl.Google instanceScoped).Reduce
        ((impl.Google instanceScoped).AppendEvents m events) <;>
      simp only [AllIDPWriteModel.AppendEvents, IDP.AppendEvents, IDP.Reduce, h, Except.map]
  · intro Provider impl m instanceScoped id idpType resourceOwner inst events callbackURL idpAlg
    refine ⟨?_, rfl⟩
    rw [allIDP_reduce_eq]
    cases h : (impl.LDAP instanceScoped).Reduce
        ((impl.LDAP instanceScoped).AppendEvents m events) <;>
      simp only [AllIDPWriteModel.AppendEvents, IDP.AppendEvents, IDP.Reduce, h, Except.map]

/-- An instance of C20: the umbrella that `NewAllIDPWriteModel` builds for the OAuth kind in
the instance scope, with the implementations of the scenario; the addition of the provider
`idp-1` is appended and reduced. -/
theorem allIDPWriteModel_forwards_witness :
    ∃ wm r,
      NewAllIDPWriteModel "instance-1" true "idp-1" .IDPTypeOAuth = .ok wm ∧
      (wm.AppendEvents scenarioImplementations [scenarioInstanceAddedEvent]).Reduce
          scenarioImplementations = .ok r ∧
      r.model.kind = .IDPTypeOAuth ∧ r.model.instanceScoped = true ∧ r.ID = "idp-1" ∧
      r.IDPType = .IDPTypeOAuth ∧ r.ResourceOwner = "instance-1" ∧ r.Instance = true :=
  ⟨_, _, rfl, rfl,
    allIDPWriteModel_forwards.2.2.2.2.2.2.1 _ scenarioImplementations "instance-1" true "idp-1"
      .IDPTypeOAuth _ [scenarioInstanceAddedEvent] _ rfl rfl⟩

/-! ## Lemmas on the processed sequence -/

/-- No step touches the buffer or the processed sequence. -/
theorem OAuth_step_buffer (wm : OAuthIDPWriteModel) (e : Event) :
    (wm.reduceEvent e).Events = wm.Events ∧
      (wm.reduceEvent e).ProcessedSequence = wm.ProcessedSequence := by
  obtain ⟨pkg, seq, agg, payload⟩ := e
  cases pkg <;> cases payload <;> exact ⟨rfl, rfl⟩

/-- `Reduce` returns, and the processed sequence is that of the last buffered event. -/
theorem OAuth_reduce_sequence (wm : OAuthIDPWriteModel) :
    ∃ r, wm.Reduce = .ok r ∧
      r.ProcessedSequence =
        match wm.Events.getLast? with
        | none => wm.ProcessedSequence
        | some e => e.Sequence := by
  have h1 := foldl_inv OAuthIDPWriteModel.reduceEvent (fun s => s.Events)
    (fun s e => (OAuth_step_buffer s e).1) wm.Events wm
  have h2 := foldl_inv OAuthIDPWriteModel.reduceEvent (fun s => s.ProcessedSequence)
    (fun s e => (OAuth_step_buffer s e).2) wm.Events wm
  simp only at h1 h2
  rw [OAuth_reduce_eq, h1, h2]
  refine ⟨_, rfl, ?_⟩
  cases wm.Events.getLast? <;> rfl

/-- No step touches the buffer or the processed sequence. -/
theorem OIDC_step_buffer (wm : OIDCIDPWriteModel) (e : Event) :
    (wm.reduceEvent e).Events = wm.Events ∧
      (wm.reduceEvent e).ProcessedSequence = wm.ProcessedSequence := by
  obtain ⟨pkg, seq, agg, payload⟩ := e
  cases pkg <;> cases payload <;> exact ⟨rfl, rfl⟩

/-- `Reduce` returns, and the processed sequence is that of the last buffered event. -/
theorem OIDC_reduce_sequence (wm : OIDCIDPWriteModel) :
    ∃ r, wm.Reduce = .ok r ∧
      r.ProcessedSequence =
        match wm.Events.getLast? with
        | none => wm.ProcessedSequence
        | some e => e.Sequence := by
  have h1 := foldl_inv OIDCIDPWriteModel.reduceEvent (fun s => s.Events)
    (fun s e => (OIDC_step_buffer s e).1) wm.Events wm
  have h2 := foldl_inv OIDCIDPWriteModel.reduceEvent (fun s => s.ProcessedSequence)
    (fun s e => (OIDC_step_buffer s e).2) wm.Events wm
  simp only at h1 h2
  rw [OIDC_reduce_eq, h1, h2]
  refine ⟨_, rfl, ?_⟩
  cases wm.Events.getLast? <;> rfl

/-- No step touches the buffer or the processed sequence. -/
theorem JWT_step_buffer (wm : JWTIDPWriteModel) (e : Event) :
    (wm.reduceEvent e).Events = wm.Events ∧
      (wm.reduceEvent e).ProcessedSequence = wm.ProcessedSequence := by
  obtain ⟨pkg, seq, agg, payload⟩ := e
  cases pkg <;> cases payload <;> exact ⟨rfl, rfl⟩

/-- `Reduce` returns, and the processed sequence is that of the last buffered event. -/
theorem JWT_reduce_sequence (wm : JWTIDPWriteModel) :
    ∃ r, wm.Reduce = .ok r ∧
      r.ProcessedSequence =
        match wm.Events.getLast? with
        | none => wm.ProcessedSequence
        | some e => e.Sequence := by
  have h1 := foldl_inv JWTIDPWriteModel.reduceEvent (fun s => s.Events)
    (fun s e => (JWT_step_buffer s e).1) wm.Events wm
  have h2 := foldl_inv JWTIDPWriteModel.reduceEvent (fun s => s.ProcessedSequence)
    (fun s e => (JWT_step_buffer s e).2) wm.Events wm
  simp only at h1 h2
  rw [JWT_reduce_eq, h1, h2]
  refine ⟨_, rfl, ?_⟩
  cases wm.Events.getLast? <;> rfl

/-- No step touches the buffer or the processed sequence. -/
theorem AzureAD_step_buffer (wm : AzureADIDPWriteModel) (e : Event) :
    (wm.reduceEvent e).Events = wm.Events ∧
      (wm.reduceEvent e).ProcessedSequence = wm.ProcessedSequence := by
  obtain ⟨pkg, seq, agg, payload⟩ := e
  cases pkg <;> cases payload <;> exact ⟨rfl, rfl⟩

/-- `Reduce` returns, and the processed sequence is that of the last buffered event. -/
theorem AzureAD_reduce_sequence (wm : AzureADIDPWriteModel) :
    ∃ r, wm.Reduce = .ok r ∧
      r.ProcessedSequence =
        match wm.Events.getLast? with
        | none => wm.ProcessedSequence
        | some e => e.Sequence := by
  have h1 := foldl_inv AzureADIDPWriteModel.reduceEvent (fun s => s.Events)
    (fun s e => (AzureAD_step_buffer s e).1) wm.Events wm
  have h2 := foldl_inv AzureADIDPWriteModel.reduceEvent (fun s => s.ProcessedSequence)
    (fun s e => (AzureAD_step_buffer s e).2) wm.Events wm
  simp only at h1 h2
  rw [AzureAD_reduce_eq, h1, h2]
  refine ⟨_, rfl, ?_⟩
  cases wm.Events.getLast? <;> rfl

/-- No step touches the buffer or the processed sequence. -/
theorem GitHub_step_buffer (wm : GitHubIDPWriteModel) (e : Event) :
    (wm.reduceEvent e).Events = wm.Events ∧
      (wm.reduceEvent e).ProcessedSequence = wm.ProcessedSequence := by
  obtain ⟨pkg, seq, agg, payload⟩ := e
  cases pkg <;> cases payload <;> exact ⟨rfl, rfl⟩

/-- `Reduce` returns, and the processed sequence is that of the last buffered event. -/
theorem GitHub_reduce_sequence (wm : GitHubIDPWriteModel) :
    ∃ r, wm.Reduce = .ok r ∧
      r.ProcessedSequence =
        match wm.Events.getLast? with
        | none => wm.ProcessedSequence
        | some e => e.Sequence := by
  have h1 := foldl_inv GitHubIDPWriteModel.reduceEvent (fun s => s.Events)
    (fun s e => (GitHub_step_buffer s e).1) wm.Events wm
  have h2 := foldl_inv GitHubIDPWriteModel.reduceEvent (fun s => s.ProcessedSequence)
    (fun s e => (GitHub_step_buffer s e).2) wm.Events wm
  simp only at h1 h2
  rw [GitHub_reduce_eq, h1, h2]
  refine ⟨_, rfl, ?_⟩
  cases wm.Events.getLast? <;> rfl

/-- No step touches the buffer or the processed sequence. -/
theorem GitHubEnterprise_step_buffer (wm : GitHubEnterpriseIDPWriteModel) (e : Event) :
    (wm.reduceEvent e).Events = wm.Events ∧
      (wm.reduceEvent e).ProcessedSequence = wm.ProcessedSequence := by
  obtain ⟨pkg, seq, agg, payload⟩ := e
  cases pkg <;> cases payload <;> exact ⟨rfl, rfl⟩

/-- `Reduce` returns, and the processed sequence is that of the last buffered event. -/
theorem GitHubEnterprise_reduce_sequence (wm : GitHubEnterpriseIDPWriteModel) :
    ∃ r, wm.Reduce = .ok r ∧
      r.ProcessedSequence =
        match wm.Events.getLast? with
        | none => wm.ProcessedSequence
        | some e => e.Sequence := by
  have h1 := foldl_inv GitHubEnterpriseIDPWriteModel.reduceEvent (fun s => s.Events)
    (fun s e => (GitHubEnterprise_step_buffer s e).1) wm.Events wm
  have h2 := foldl_inv GitHubEnterpriseIDPWriteModel.reduceEvent (fun s => s.ProcessedSequence)
    (fun s e => (GitHubEnterprise_step_buffer s e).2) wm.Events wm
  simp only at h1 h2
  rw [GitHubEnterprise_reduce_eq, h1, h2]
  refine ⟨_, rfl, ?_⟩
  cases wm.Events.getLast? <;> rfl

/-- No step touches the buffer or the processed sequence. -/
theorem GitLab_step_buffer (wm : GitLabIDPWriteModel) (e : Event) :
    (wm.reduceEvent e).Events = wm.Events ∧
      (wm.reduceEvent e).ProcessedSequence = wm.ProcessedSequence := by
  obtain ⟨pkg, seq, agg, payload⟩ := e
  cases pkg <;> cases payload <;> exact ⟨rfl, rfl⟩

/-- `Reduce` returns, and the processed sequence is that of the last buffered event. -/
theorem GitLab_reduce_sequence (wm : GitLabIDPWriteModel) :
    ∃ r, wm.Reduce = .ok r ∧
      r.ProcessedSequence =
        match wm.Events.getLast? with
        | none => wm.ProcessedSequence
        | some e => e.Sequence := by
  have h1 := foldl_inv GitLabIDPWriteModel.reduceEvent (fun s => s.Events)
    (fun s e => (GitLab_step_buffer s e).1) wm.Events wm
  have h2 := foldl_inv GitLabIDPWriteModel.reduceEvent (fun s => s.ProcessedSequence)
    (fun s e => (GitLab_step_buffer s e).2) wm.Events wm
  simp only at h1 h2
  rw [GitLab_reduce_eq, h1, h2]
  refine ⟨_, rfl, ?_⟩
  cases wm.Events.getLast? <;> rfl

/-- No step touches the buffer or the processed sequence. -/
theorem GitLabSelfHosted_step_buffer (wm : GitLabSelfHostedIDPWriteModel) (e : Event) :
    (wm.reduceEvent e).Events = wm.Events ∧
      (wm.reduceEvent e).ProcessedSequence = wm.ProcessedSequence := by
  obtain ⟨pkg, seq, agg, payload⟩ := e
  cases pkg <;> cases payload <;> exact ⟨rfl, rfl⟩

/-- `Reduce` returns, and the processed sequence is that of the last buffered event. -/
theorem GitLabSelfHosted_reduce_sequence (wm : GitLabSelfHostedIDPWriteModel) :
    ∃ r, wm.Reduce = .ok r ∧
      r.ProcessedSequence =
        match wm.Events.getLast? with
        | none => wm.ProcessedSequence
        | some e => e.Sequence := by
  have h1 := foldl_inv GitLabSelfHostedIDPWriteModel.reduceEvent (fun s => s.Events)
    (fun s e => (GitLabSelfHosted_step_buffer s e).1) wm.Events wm
  have h2 := foldl_inv GitLabSelfHostedIDPWriteModel.reduceEvent (fun s => s.ProcessedSequence)
    (fun s e => (GitLabSelfHosted_step_buffer s e).2) wm.Events wm
  simp only at h1 h2
  rw [GitLabSelfHosted_reduce_eq, h1, h2]
  refine ⟨_, rfl, ?_⟩
  cases wm.Events.getLast? <;> rfl

/-- No step touches the buffer or the processed sequence. -/
theorem Google_step_buffer (wm : GoogleIDPWriteModel) (e : Event) :
    (wm.reduceEvent e).Events = wm.Events ∧
      (wm.reduceEvent e).ProcessedSequence = wm.ProcessedSequence := by
  obtain ⟨pkg, seq, agg, payload⟩ := e
  cases pkg <;> cases payload <;> exact ⟨rfl, rfl⟩

/-- `Reduce` returns, and the processed sequence is that of the last buffered event. -/
theorem Google_reduce_sequence (wm : GoogleIDPWriteModel) :
    ∃ r, wm.Reduce = .ok r ∧
      r.ProcessedSequence =
        match wm.Events.getLast? with
        | none => wm.ProcessedSequence
        | some e => e.Sequence := by
  have h1 := foldl_inv GoogleIDPWriteModel.reduceEvent (fun s => s.Events)
    (fun s e => (Google_step_buffer s e).1) wm.Events wm
  have h2 := foldl_inv GoogleIDPWriteModel.reduceEvent (fun s => s.ProcessedSequence)
    (fun s e => (Google_step_buffer s e).2) wm.Events wm
  simp only at h1 h2
  rw [Google_reduce_eq, h1, h2]
  refine ⟨_, rfl, ?_⟩
  cases wm.Events.getLast? <;> rfl

/-- No step touches the buffer or the processed sequence. -/
theorem LDAP_step_buffer (wm : LDAPIDPWriteModel) (e : Event) :
    (wm.reduceEvent e).Events = wm.Events ∧
      (wm.reduceEvent e).ProcessedSequence = wm.ProcessedSequence := by
  obtain ⟨pkg, seq, agg, payload⟩ := e
  cases pkg <;> cases payload <;>
    first
      | exact ⟨rfl, rfl⟩
      | (simp only [LDAPIDPWriteModel.reduceEvent, LDAPIDPWriteModel.reduceAddedEvent,
          LDAPIDPWriteModel.reduceChangedEvent]
         split_ifs <;> exact ⟨rfl, rfl⟩)

/-- `Reduce` returns, and the processed sequence is that of the last buffered event. -/
theorem LDAP_reduce_sequence (wm : LDAPIDPWriteModel) :
    ∃ r, wm.Reduce = .ok r ∧
      r.ProcessedSequence =
        match wm.Events.getLast? with
        | none => wm.ProcessedSequence
        | some e => e.Sequence := by
  have h1 := foldl_inv LDAPIDPWriteModel.reduceEvent (fun s => s.Events)
    (fun s e => (LDAP_step_buffer s e).1) wm.Events wm
  have h2 := foldl_inv LDAPIDPWriteModel.reduceEvent (fun s => s.ProcessedSequence)
    (fun s e => (LDAP_step_buffer s e).2) wm.Events wm
  simp only at h1 h2
  rw [LDAP_reduce_eq, h1, h2]
  refine ⟨_, rfl, ?_⟩
  cases wm.Events.getLast? <;> rfl

/-- No step touches the buffer or the processed sequence. -/
theorem IDPRemove_step_buffer (wm : IDPRemoveWriteModel) (e : Event) :
    (wm.reduceEvent e).Events = wm.Events ∧
      (wm.reduceEvent e).ProcessedSequence = wm.ProcessedSequence := by
  obtain ⟨pkg, seq, agg, payload⟩ := e
  cases pkg <;> cases payload <;>
    first
      | exact ⟨rfl, rfl⟩
      | (simp only [IDPRemoveWriteModel.reduceEvent, IDPRemoveWriteModel.reduceAdded,
          IDPRemoveWriteModel.reduceRemoved]
         split_ifs <;> exact ⟨rfl, rfl⟩)

/-- `Reduce` returns, and the processed sequence is that of the last buffered event. -/
theorem IDPRemove_reduce_sequence (wm : IDPRemoveWriteModel) :
    ∃ r, wm.Reduce = .ok r ∧
      r.ProcessedSequence =
        match wm.Events.getLast? with
        | none => wm.ProcessedSequence
        | some e => e.Sequence := by
  have h1 := foldl_inv IDPRemoveWriteModel.reduceEvent (fun s => s.Events)
    (fun s e => (IDPRemove_step_buffer s e).1) wm.Events wm
  have h2 := foldl_inv IDPRemoveWriteModel.reduceEvent (fun s => s.ProcessedSequence)
    (fun s e => (IDPRemove_step_buffer s e).2) wm.Events wm
  simp only at h1 h2
  rw [IDPRemove_reduce_eq, h1, h2]
  refine ⟨_, rfl, ?_⟩
  cases wm.Events.getLast? <;> rfl

/-- No step touches the buffer or the processed sequence. -/
theorem IDPType_step_buffer (wm : IDPTypeWriteModel) (e : Event) :
    (wm.reduceEvent e).Events = wm.Events ∧
      (wm.reduceEvent e).ProcessedSequence = wm.ProcessedSequence := by
  obtain ⟨pkg, seq, agg, payload⟩ := e
  cases pkg <;> cases payload <;>
    first
      | exact ⟨rfl, rfl⟩
      | (simp only [IDPTypeWriteModel.reduceEvent, IDPTypeWriteModel.reduceAdded,
          IDPTypeWriteModel.reduceRemoved, IDPTypeWriteModel.reduceIDPConfigAdded]
         split_ifs <;> exact ⟨rfl, rfl⟩)

/-- `Reduce` returns, and the processed sequence is that of the last buffered event. -/
theorem IDPType_reduce_sequence (wm : IDPTypeWriteModel) :
    ∃ r, wm.Reduce = .ok r ∧
      r.ProcessedSequence =
        match wm.Events.getLast? with
        | none => wm.ProcessedSequence
        | some e => e.Sequence := by
  have h1 := foldl_inv IDPTypeWriteModel.reduceEvent (fun s => s.Events)
    (fun s e => (IDPType_step_buffer s e).1) wm.Events wm
  have h2 := foldl_inv IDPTypeWriteModel.reduceEvent (fun s => s.ProcessedSequence)
    (fun s e => (IDPType_step_buffer s e).2) wm.Events wm
  simp only at h1 h2
  rw [IDPType_reduce_eq, h1, h2]
  refine ⟨_, rfl, ?_⟩
  cases wm.Events.getLast? <;> rfl

/-! ## Lemmas on the event log -/

/-- The tail of a stream after one append. -/
theorem tailSequence_appendEvent (events : List repository.Event) (e : repository.Event)
    (aggregateID : String) :
    tailSequence (appendEvent events e) aggregateID =
      if e.AggregateID = aggregateID then tailSequence events aggregateID + 1
      else tailSequence events aggregateID := by
  by_cases h : e.AggregateID = aggregateID
  · subst h
    simp [tailSequence, streamOf, appendEvent, List.filter_append]
  · simp [tailSequence, streamOf, appendEvent, List.filter_append, h]

/-- The tail of a stream after a batch: it advances by the events of the batch that
belong to the stream. -/
theorem tailSequence_foldl (batch : List repository.Event) :
    ∀ (events : List repository.Event) (aggregateID : String),
      tailSequence (batch.foldl appendEvent events) aggregateID =
        tailSequence events aggregateID
          + batch.countP (fun e => decide (e.AggregateID = aggregateID)) := by
  induction batch with
  | nil => intro events aggregateID; simp
  | cons e rest ih =>
    intro events aggregateID
    rw [List.foldl_cons, ih, tailSequence_appendEvent, List.countP_cons]
    by_cases h : e.AggregateID = aggregateID
    · simp [h]; omega
    · simp [h]

/-- A batch is appended behind the log, event by event, with sequences assigned. -/
theorem foldl_appendEvent_stored (batch : List repository.Event) :
    ∀ (events : List repository.Event),
      ∃ stored, batch.foldl appendEvent events = events ++ stored ∧
        List.Forall₂ (fun s e => s = { e with Sequence := s.Sequence }) stored batch := by
  induction batch with
  | nil => intro events; exact ⟨[], by simp, List.Forall₂.nil⟩
  | cons e rest ih =>
    intro events
    obtain ⟨stored, hs, hf⟩ := ih (appendEvent events e)
    refine ⟨{ e with Sequence := tailSequence events e.AggregateID + 1 } :: stored, ?_,
      List.Forall₂.cons rfl hf⟩
    rw [List.foldl_cons, hs]
    simp [appendEvent]

/-- A push succeeds exactly if the storage is reachable and every precondition holds. -/
theorem push_ok_iff (r : Repository) (events : List repository.Event) :
    (r.Push events).2 = none ↔
      r.reachable = true ∧
        ∀ e ∈ events, e.PreviousAggregateSequence = tailSequence r.events e.AggregateID := by
  unfold Repository.Push
  cases hr : r.reachable
  · simp [StorageError]
  · by_cases h : events.any
        (fun e => decide (e.PreviousAggregateSequence ≠ tailSequence r.events e.AggregateID)) = true
    · simp only [h, if_true]
      simp [ConcurrencyConflict]
      simpa using h
    · simp only [h]
      simp
      simpa using h

/-- A push on reachable storage with a precondition that does not hold is a conflict. -/
theorem push_conflict (r : Repository) (events : List repository.Event)
    (hr : r.reachable = true)
    (h : ∃ e ∈ events, e.PreviousAggregateSequence ≠ tailSequence r.events e.AggregateID) :
    r.Push events = (r, some ConcurrencyConflict) := by
  have hany : events.any
      (fun e => decide (e.PreviousAggregateSequence ≠ tailSequence r.events e.AggregateID))
      = true := by
    simpa using h
  simp only [Repository.Push, hr, hany, Bool.not_true, if_true, if_false]
  rfl

/-- The log and the result of a push that succeeds. -/
theorem push_ok_eq (r : Repository) (events : List repository.Event)
    (h : (r.Push events).2 = none) :
    r.Push events = ({ r with events := events.foldl appendEvent r.events }, none) := by
  obtain ⟨hr, hp⟩ := (push_ok_iff r events).1 h
  have hany : events.any
      (fun e => decide (e.PreviousAggregateSequence ≠ tailSequence r.events e.AggregateID))
      = false := by
    simpa using hp
  simp only [Repository.Push, hr, hany, Bool.not_true]
  rfl

/-- A push that fails leaves the repository as it is. -/
theorem push_error_unchanged (r : Repository) (events : List repository.Event)
    (h : (r.Push events).2 ≠ none) : (r.Push events).1 = r := by
  unfold Repository.Push at h ⊢
  split_ifs at h ⊢ <;> first | rfl | exact absurd rfl h

/-! ## Lemmas on the setup of the first instance -/

/-- A string with `@` in it contains `@`. -/
theorem contains_at (u d : String) : strings.Contains (u ++ "@" ++ d) "@" = true := by
  simp only [strings.Contains, decide_eq_true_eq, String.data_append]
  exact ⟨u.data, d.data, rfl⟩

/-- The step that `Execute` returns: unchanged, or with the instance setup filled in. -/
theorem execute_state {KeyStorage Key Alg Commands MachineKey File : Type}
    (env : Collaborators KeyStorage Key Alg Commands MachineKey File) (mig : FirstInstance) :
    (FirstInstance.Execute env mig).1 = mig ∨
      (FirstInstance.Execute env mig).1
        = { mig with instanceSetup := mig.fillInstanceSetup env } := by
  simp only [FirstInstance.Execute]
  repeat' split
  all_goals first
    | exact Or.inl rfl
    | exact Or.inr rfl

/-- The username of the filled-in instance setup. -/
theorem fill_username {KeyStorage Key Alg Commands MachineKey File : Type}
    (env : Collaborators KeyStorage Key Alg Commands MachineKey File) (mig : FirstInstance) :
    (mig.fillInstanceSetup env).Org.Human.Username =
      if !mig.instanceSetup.DomainPolicy.UserLoginMustBeDomain
          && !strings.Contains mig.Org.Human.Username "@" then
        mig.Org.Human.Username ++ "@" ++ env.NewIAMDomainName mig.Org.Name mig.externalDomain
      else mig.Org.Human.Username := by
  unfold FirstInstance.fillInstanceSetup
  simp only
  split_ifs <;> rfl

/-- The other fields of the filled-in instance setup that `Execute` assigns or keeps. -/
theorem fill_frame {KeyStorage Key Alg Commands MachineKey File : Type}
    (env : Collaborators KeyStorage Key Alg Commands MachineKey File) (mig : FirstInstance) :
    (mig.fillInstanceSetup env).InstanceName = mig.InstanceName ∧
      (mig.fillInstanceSetup env).CustomDomain = mig.externalDomain ∧
      (mig.fillInstanceSetup env).DefaultLanguage = mig.DefaultLanguage ∧
      (mig.fillInstanceSetup env).Org.Name = mig.Org.Name ∧
      (mig.fillInstanceSetup env).Org.Machine = mig.Org.Machine ∧
      (mig.fillInstanceSetup env).DomainPolicy = mig.instanceSetup.DomainPolicy := by
  unfold FirstInstance.fillInstanceSetup
  simp only
  split_ifs <;> exact ⟨rfl, rfl, rfl, rfl, rfl, rfl⟩

/-- The only instance setup for which `Execute` asks `SetUpInstance` is the filled-in one. -/
theorem execute_consults {KeyStorage Key Alg Commands MachineKey File : Type}
    (env : Collaborators KeyStorage Key Alg Commands MachineKey File)
    (f : Commands → InstanceSetup → Except Error (String × Option MachineKey))
    (mig : FirstInstance)
    (h : ∀ cmd, f cmd (mig.fillInstanceSetup env)
      = env.SetUpInstance cmd (mig.fillInstanceSetup env)) :
    FirstInstance.Execute { env with SetUpInstance := f } mig
      = FirstInstance.Execute env mig := by
  have hfill : mig.fillInstanceSetup { env with SetUpInstance := f }
      = mig.fillInstanceSetup env := rfl
  have hv : ∀ k s, verifyKey { env with SetUpInstance := f } k s = verifyKey env k s :=
    fun _ _ => rfl
  have ho : ∀ p c, outputStdoutOrPath { env with SetUpInstance := f } p c
      = outputStdoutOrPath env p c := fun _ _ => rfl
  simp only [FirstInstance.Execute, hfill, hv, ho, h]

/-! ## Allow-lists, sequences, errors and frames -/

/-- C21: `Query` and `Reduce` of `IDPTypeWriteModel` agree on the event types. The query
holds four sub-queries: the ten added types and the removed type of the instance
aggregate, and the same of the org aggregate, each filtered by the payload entry `id`
with the `ID` of the write model; and the legacy `IDPConfigAdded` and `IDPConfigRemoved`
types of the instance and of the org aggregate, each filtered by the payload entry
`idpConfigId` with that `ID`. An event type is named in the query if and only if the
switch of `Reduce` names it; an event of a type the query does not name is skipped by
`Reduce`, and for every type the query names there is an event of that type that
changes the state of a write model. -/
theorem idpType_query_agrees_with_reduce :
    (∀ (wm : IDPTypeWriteModel),
      (IDPTypeWriteModel.Query wm).columns = .ColumnsEvent ∧
      (IDPTypeWriteModel.Query wm).queries =
        [{ aggregateTypes := [instanceAggregateType],
           eventTypes :=
             [(.instancePkg, .OAuthIDPAddedEvent), (.instancePkg, .OIDCIDPAddedEvent),
              (.instancePkg, .JWTIDPAddedEvent), (.instancePkg, .AzureADIDPAddedEvent),
              (.instancePkg, .GitHubIDPAddedEvent),
              (.instancePkg, .GitHubEnterpriseIDPAddedEvent),
              (.instancePkg, .GitLabIDPAddedEvent),
              (.instancePkg, .GitLabSelfHostedIDPAddedEvent),
              (.instancePkg, .GoogleIDPAddedEvent), (.instancePkg, .LDAPIDPAddedEvent),
              (.instancePkg, .RemovedEvent)],
           eventData := [("id", wm.ID)] },
         { aggregateTypes := [orgAggregateType],
           eventTypes :=
             [(.orgPkg, .OAuthIDPAddedEvent), (.orgPkg, .OIDCIDPAddedEvent),
              (.orgPkg, .JWTIDPAddedEvent), (.orgPkg, .AzureADIDPAddedEvent),
              (.orgPkg, .GitHubIDPAddedEvent), (.orgPkg, .GitHubEnterpriseIDPAddedEvent),
              (.orgPkg, .GitLabIDPAddedEvent), (.orgPkg, .GitLabSelfHostedIDPAddedEvent),
              (.orgPkg, .GoogleIDPAddedEvent), (.orgPkg, .LDAPIDPAddedEvent),
              (.orgPkg, .RemovedEvent)],
           eventData := [("id", wm.ID)] },
         { aggregateTypes := [instanceAggregateType],
           eventTypes :=
             [(.instancePkg, .IDPConfigAddedEvent), (.instancePkg, .IDPConfigRemovedEvent)],
           eventData := [("idpConfigId", wm.ID)] },
         { aggregateTypes := [orgAggregateType],
           eventTypes :=
             [(.orgPkg, .IDPConfigAddedEvent), (.orgPkg, .IDPConfigRemovedEvent)],
           eventData := [("idpConfigId", wm.ID)] }]) ∧
    (∀ (wm : IDPTypeWriteModel) (t : EventType),
      t ∈ (IDPTypeWriteModel.Query wm).eventTypes ↔ t ∈ IDPTypeWriteModel.switchTypes) ∧
    (∀ (wm : IDPTypeWriteModel) (e : Event),
      e.goType ∉ (IDPTypeWriteModel.Query wm).eventTypes →
      ∀ (s : IDPTypeWriteModel), s.reduceEvent e = s) ∧
    (∀ (wm : IDPTypeWriteModel) (t : EventType),
      t ∈ (IDPTypeWriteModel.Query wm).eventTypes →
      ∃ (s : IDPTypeWriteModel) (e : Event),
        e.goType = t ∧ (s.reduceEvent e).State ≠ s.State) := by
  have hiff : ∀ (wm : IDPTypeWriteModel) (t : EventType),
      t ∈ (IDPTypeWriteModel.Query wm).eventTypes ↔ t ∈ IDPTypeWriteModel.switchTypes := by
    intro wm t
    have hq : (IDPTypeWriteModel.Query wm).eventTypes
        = (IDPTypeWriteModel.Query scenarioIDPType).eventTypes := rfl
    rw [hq]
    obtain ⟨p, k⟩ := t
    cases p <;> cases k <;> decide
  refine ⟨fun _ => ⟨rfl, rfl⟩, hiff, ?_, ?_⟩
  · intro wm e he s
    exact IDPType_step_noop s e (fun h => he ((hiff wm _).2 h))
  · intro wm t ht
    have ht := (hiff wm t).1 ht
    simp only [IDPTypeWriteModel.switchTypes, List.mem_cons, List.mem_singleton,
      List.not_mem_nil, or_false] at ht
    rcases ht with rfl | rfl | rfl | rfl | rfl | rfl | rfl | rfl | rfl | rfl | rfl | rfl | rfl |
      rfl | rfl | rfl | rfl | rfl | rfl | rfl | rfl | rfl | rfl | rfl | rfl | rfl
    · exact ⟨scenarioIDPType,
        ⟨.instancePkg, 1, scenarioAggregate,
          .OAuthIDPAdded
            { ID := "", Name := "", ClientID := "", ClientSecret := none,
              AuthorizationEndpoint := "", TokenEndpoint := "", UserEndpoint := "",
              Scopes := none, IDAttribute := "", Options := ⟨false, false, false, false⟩ }⟩,
        rfl, by decide⟩
    · exact ⟨scenarioIDPType,
        ⟨.orgPkg, 1, scenarioAggregate,
          .OAuthIDPAdded
            { ID := "", Name := "", ClientID := "", ClientSecret := none,
              AuthorizationEndpoint := "", TokenEndpoint := "", UserEndpoint := "",
              Scopes := none, IDAttribute := "", Options := ⟨false, false, false, false⟩ }⟩,
        rfl, by decide⟩
    · exact ⟨scenarioIDPType,
        ⟨.instancePkg, 1, scenarioAggregate,
          .OIDCIDPAdded
            { ID := "", Name := "", Issuer := "", ClientID := "", ClientSecret := none,
              Scopes := none, IsIDTokenMapping := false,
              Options := ⟨false, false, false, false⟩ }⟩,
        rfl, by decide⟩
    · exact ⟨scenarioIDPType,
        ⟨.orgPkg, 1, scenarioAggregate,
          .OIDCIDPAdded
            { ID := "", Name := "", Issuer := "", ClientID := "", ClientSecret := none,
              Scopes := none, IsIDTokenMapping := false,
              Options := ⟨false, false, false, false⟩ }⟩,
        rfl, by decide⟩
    · exact ⟨scenarioIDPType,
        ⟨.instancePkg, 1, scenarioAggregate,
          .JWTIDPAdded
            { ID := "", Name := "", Issuer := "", JWTEndpoint := "", KeysEndpoint := "",
              HeaderName := "", Options := ⟨false, false, false, false⟩ }⟩,
        rfl, by decide⟩
    · exact ⟨scenarioIDPType,
        ⟨.orgPkg, 1, scenarioAggregate,
          .JWTIDPAdded
            { ID := "", Name := "", Issuer := "", JWTEndpoint := "", KeysEndpoint := "",
              HeaderName := "", Options := ⟨false, false, false, false⟩ }⟩,
        rfl, by decide⟩
    · exact ⟨scenarioIDPType,
        ⟨.instancePkg, 1, scenarioAggregate,
          .AzureADIDPAdded
            { ID := "", Name := "", ClientID := "", ClientSecret := none, Scopes := none,
              Tenant := "", IsEmailVerified := false, Options := ⟨false, false, false, false⟩ }⟩,
        rfl, by decide⟩
    · exact ⟨scenarioIDPType,
        ⟨.orgPkg, 1, scenarioAggregate,
          .AzureADIDPAdded
            { ID := "", Name := "", ClientID := "", ClientSecret := none, Scopes := none,
              Tenant := "", IsEmailVerified := false, Options := ⟨false, false, false, false⟩ }⟩,
        rfl, by decide⟩
    · exact ⟨scenarioIDPType,
        ⟨.instancePkg, 1, scenarioAggregate,
          .GitHubIDPAdded
            { ID := "", Name := "", ClientID := "", ClientSecret := none, Scopes := none,
              Options := ⟨false, false, false, false⟩ }⟩,
        rfl, by decide⟩
    · exact ⟨scenarioIDPType,
        ⟨.orgPkg, 1, scenarioAggregate,
          .GitHubIDPAdded
            { ID := "", Name := "", ClientID := "", ClientSecret := none, Scopes := none,
              Options := ⟨false, false, false, false⟩ }⟩,
        rfl, by decide⟩
    · exact ⟨scenarioIDPType,
        ⟨.instancePkg, 1, scenarioAggregate,
          .GitHubEnterpriseIDPAdded
            { ID := "", Name := "", ClientID := "", ClientSecret := none,
              AuthorizationEndpoint := "", TokenEndpoint := "", UserEndpoint := "",
              Scopes := none, Options := ⟨false, false, false, false⟩ }⟩,
        rfl, by decide⟩
    · exact ⟨scenarioIDPType,
        ⟨.orgPkg, 1, scenarioAggregate,
          .GitHubEnterpriseIDPAdded
            { ID := "", Name := "", ClientID := "", ClientSecret := none,
              AuthorizationEndpoint := "", TokenEndpoint := "", UserEndpoint := "",
              Scopes := none, Options := ⟨false, false, false, false⟩ }⟩,
        rfl, by decide⟩
    · exact ⟨scenarioIDPType,
        ⟨.instancePkg, 1, scenarioAggregate,
          .GitLabIDPAdded
            { ID := "", Name := "", ClientID := "", ClientSecret := none, Scopes := none,
              Options := ⟨false, false, false, false⟩ }⟩,
        rfl, by decide⟩
    · exact ⟨scenarioIDPType,
        ⟨.orgPkg, 1, scenarioAggregate,
          .GitLabIDPAdded
            { ID := "", Name := "", ClientID := "", ClientSecret := none, Scopes := none,
              Options := ⟨false, false, false, false⟩ }⟩,
        rfl, by decide⟩
    · exact ⟨scenarioIDPType,
        ⟨.instancePkg, 1, scenarioAggregate,
          .GitLabSelfHostedIDPAdded
            { ID := "", Name := "", Issuer := "", ClientID := "", ClientSecret := none,
              Scopes := none, Options := ⟨false, false, false, false⟩ }⟩,
        rfl, by decide⟩
    · exact ⟨scenarioIDPType,
        ⟨.orgPkg, 1, scenarioAggregate,
          .GitLabSelfHostedIDPAdded
            { ID := "", Name := "", Issuer := "", ClientID := "", ClientSecret := none,
              Scopes := none, Options := ⟨false, false, false, false⟩ }⟩,
        rfl, by decide⟩
    · exact ⟨scenarioIDPType,
        ⟨.instancePkg, 1, scenarioAggregate,
          .GoogleIDPAdded
            { ID := "", Name := "", ClientID := "", ClientSecret := none, Scopes := none,
              Options := ⟨false, false, false, false⟩ }⟩,
        rfl, by decide⟩
    · exact ⟨scenarioIDPType,
        ⟨.orgPkg, 1, scenarioAggregate,
          .GoogleIDPAdded
            { ID := "", Name := "", ClientID := "", ClientSecret := none, Scopes := none,
              Options := ⟨false, false, false, false⟩ }⟩,
        rfl, by decide⟩
    · exact ⟨scenarioIDPType,
        ⟨.instancePkg, 1, scenarioAggregate,
          .LDAPIDPAdded
            { ID := "", Name := "", Servers := none, StartTLS := false, BaseDN := "",
              BindDN := "", BindPassword := none, UserBase := "", UserObjectClasses := none,
              UserFilters := none, Timeout := 0,
              LDAPAttributes := ⟨"", "", "", "", "", "", "", "", "", "", "", "", ""⟩,
              Options := ⟨false, false, false, false⟩ }⟩,
        rfl, by decide⟩
    · exact ⟨scenarioIDPType,
        ⟨.orgPkg, 1, scenarioAggregate,
          .LDAPIDPAdded
            { ID := "", Name := "", Servers := none, StartTLS := false, BaseDN := "",
              BindDN := "", BindPassword := none, UserBase := "", UserObjectClasses := none,
              UserFilters := none, Timeout := 0,
              LDAPAttributes := ⟨"", "", "", "", "", "", "", "", "", "", "", "", ""⟩,
              Options := ⟨false, false, false, false⟩ }⟩,
        rfl, by decide⟩
    · exact ⟨scenarioIDPType,
        ⟨.instancePkg, 1, scenarioAggregate,
          .Removed
            { ID := "" }⟩,
        rfl, by decide⟩
    · exact ⟨scenarioIDPType,
        ⟨.orgPkg, 1, scenarioAggregate,
          .Removed
            { ID := "" }⟩,
        rfl, by decide⟩
    · exact ⟨scenarioIDPType,
        ⟨.instancePkg, 1, scenarioAggregate,
          .IDPConfigAdded
            { ConfigID := "", Name := "", Typ := .IDPConfigTypeOIDC, AutoRegister := false }⟩,
        rfl, by decide⟩
    · exact ⟨scenarioIDPType,
        ⟨.orgPkg, 1, scenarioAggregate,
          .IDPConfigAdded
            { ConfigID := "", Name := "", Typ := .IDPConfigTypeOIDC, AutoRegister := false }⟩,
        rfl, by decide⟩
    · exact ⟨scenarioIDPType,
        ⟨.instancePkg, 1, scenarioAggregate,
          .IDPConfigRemoved
            { ConfigID := "" }⟩,
        rfl, by decide⟩
    · exact ⟨scenarioIDPType,
        ⟨.orgPkg, 1, scenarioAggregate,
          .IDPConfigRemoved
            { ConfigID := "" }⟩,
        rfl, by decide⟩

/-- An instance of C21: an OAuth changed event of the instance package is of a type the
query does not name, and the write model of the scenario skips it. -/
theorem idpType_query_agrees_with_reduce_witness :
    (⟨.instancePkg, 2, scenarioAggregate,
        .OAuthIDPChanged (OAuthIDPChangedEvent.withChanges [.ChangeOAuthName "B"])⟩ : Event).goType
        ∉ (IDPTypeWriteModel.Query scenarioIDPType).eventTypes ∧
      scenarioIDPType.reduceEvent
          ⟨.instancePkg, 2, scenarioAggregate,
            .OAuthIDPChanged (OAuthIDPChangedEvent.withChanges [.ChangeOAuthName "B"])⟩
        = scenarioIDPType :=
  ⟨by decide,
    idpType_query_agrees_with_reduce.2.2.1 scenarioIDPType _ (by decide) scenarioIDPType⟩

/-- C22: for each of the ten provider write models, `IDPRemoveWriteModel` and
`IDPTypeWriteModel`, and every write model of it: `Reduce` returns without error; if the
buffered event list is not empty, `ProcessedSequence` is afterwards the sequence of the
last buffered event, of whatever type that event is; if the list is empty,
`ProcessedSequence` is what it was. -/
theorem reduce_advances_processed_sequence :
    (∀ (wm : OAuthIDPWriteModel),
      ∃ r, wm.Reduce = .ok r ∧
        (∀ (h : wm.Events ≠ []),
          r.ProcessedSequence = (wm.Events.getLast h).Sequence) ∧
        (wm.Events = [] → r.ProcessedSequence = wm.ProcessedSequence)) ∧
    (∀ (wm : OIDCIDPWriteModel),
      ∃ r, wm.Reduce = .ok r ∧
        (∀ (h : wm.Events ≠ []),
          r.ProcessedSequence = (wm.Events.getLast h).Sequence) ∧
        (wm.Events = [] → r.ProcessedSequence = wm.ProcessedSequence)) ∧
    (∀ (wm : JWTIDPWriteModel),
      ∃ r, wm.Reduce = .ok r ∧
        (∀ (h : wm.Events ≠ []),
          r.ProcessedSequence = (wm.Events.getLast h).Sequence) ∧
        (wm.Events = [] → r.ProcessedSequence = wm.ProcessedSequence)) ∧
    (∀ (wm : AzureADIDPWriteModel),
      ∃ r, wm.Reduce = .ok r ∧
        (∀ (h : wm.Events ≠ []),
          r.ProcessedSequence = (wm.Events.getLast h).Sequence) ∧
        (wm.Events = [] → r.ProcessedSequence = wm.ProcessedSequence)) ∧
    (∀ (wm : GitHubIDPWriteModel),
      ∃ r, wm.Reduce = .ok r ∧
        (∀ (h : wm.Events ≠ []),
          r.ProcessedSequence = (wm.Events.getLast h).Sequence) ∧
        (wm.Events = [] → r.ProcessedSequence = wm.ProcessedSequence)) ∧
    (∀ (wm : GitHubEnterpriseIDPWriteModel),
      ∃ r, wm.Reduce = .ok r ∧
        (∀ (h : wm.Events ≠ []),
          r.ProcessedSequence = (wm.Events.getLast h).Sequence) ∧
        (wm.Events = [] → r.ProcessedSequence = wm.ProcessedSequence)) ∧
    (∀ (wm : GitLabIDPWriteModel),
      ∃ r, wm.Reduce = .ok r ∧
        (∀ (h : wm.Events ≠ []),
          r.ProcessedSequence = (wm.Events.getLast h).Sequence) ∧
        (wm.Events = [] → r.ProcessedSequence = wm.ProcessedSequence)) ∧
    (∀ (wm : GitLabSelfHostedIDPWriteModel),
      ∃ r, wm.Reduce = .ok r ∧
        (∀ (h : wm.Events ≠ []),
          r.ProcessedSequence = (wm.Events.getLast h).Sequence) ∧
        (wm.Events = [] → r.ProcessedSequence = wm.ProcessedSequence)) ∧
    (∀ (wm : GoogleIDPWriteModel),
      ∃ r, wm.Reduce = .ok r ∧
        (∀ (h : wm.Events ≠ []),
          r.ProcessedSequence = (wm.Events.getLast h).Sequence) ∧
        (wm.Events = [] → r.ProcessedSequence = wm.ProcessedSequence)) ∧
    (∀ (wm : LDAPIDPWriteModel),
      ∃ r, wm.Reduce = .ok r ∧
        (∀ (h : wm.Events ≠ []),
          r.ProcessedSequence = (wm.Events.getLast h).Sequence) ∧
        (wm.Events = [] → r.ProcessedSequence = wm.ProcessedSequence)) ∧
    (∀ (wm : IDPRemoveWriteModel),
      ∃ r, wm.Reduce = .ok r ∧
        (∀ (h : wm.Events ≠ []),
          r.ProcessedSequence = (wm.Events.getLast h).Sequence) ∧
        (wm.Events = [] → r.ProcessedSequence = wm.ProcessedSequence)) ∧
    (∀ (wm : IDPTypeWriteModel),
      ∃ r, wm.Reduce = .ok r ∧
        (∀ (h : wm.Events ≠ []),
          r.ProcessedSequence = (wm.Events.getLast h).Sequence) ∧
        (wm.Events = [] → r.ProcessedSequence = wm.ProcessedSequence)) := by
  refine ⟨?_, ?_, ?_, ?_, ?_, ?_, ?_, ?_, ?_, ?_, ?_, ?_⟩
  · intro wm
    obtain ⟨r, hr, hs⟩ := OAuth_reduce_sequence wm
    refine ⟨r, hr, ?_, ?_⟩
    · intro h
      rw [hs, List.getLast?_eq_getLast _ h]
    · intro h
      rw [hs, h]
      rfl
  · intro wm
    obtain ⟨r, hr, hs⟩ := OIDC_reduce_sequence wm
    refine ⟨r, hr, ?_, ?_⟩
    · intro h
      rw [hs, List.getLast?_eq_getLast _ h]
    · intro h
      rw [hs, h]
      rfl
  · intro wm
    obtain ⟨r, hr, hs⟩ := JWT_reduce_sequence wm
    refine ⟨r, hr, ?_, ?_⟩
    · intro h
      rw [hs, List.getLast?_eq_getLast _ h]
    · intro h
      rw [hs, h]
      rfl
  · intro wm
    obtain ⟨r, hr, hs⟩ := AzureAD_reduce_sequence wm
    refine ⟨r, hr, ?_, ?_⟩
    · intro h
      rw [hs, List.getLast?_eq_getLast _ h]
    · intro h
      rw [hs, h]
      rfl
  · intro wm
    obtain ⟨r, hr, hs⟩ := GitHub_reduce_sequence wm
    refine ⟨r, hr, ?_, ?_⟩
    · intro h
      rw [hs, List.getLast?_eq_getLast _ h]
    · intro h
      rw [hs, h]
      rfl
  · intro wm
    obtain ⟨r, hr, hs⟩ := GitHubEnterprise_reduce_sequence wm
    refine ⟨r, hr, ?_, ?_⟩
    · intro h
      rw [hs, List.getLast?_eq_getLast _ h]
    · intro h
      rw [hs, h]
      rfl
  · intro wm
    obtain ⟨r, hr, hs⟩ := GitLab_reduce_sequence wm
    refine ⟨r, hr, ?_, ?_⟩
    · intro h
      rw [hs, List.getLast?_eq_getLast _ h]
    · intro h
      rw [hs, h]
      rfl
  · intro wm
    obtain ⟨r, hr, hs⟩ := GitLabSelfHosted_reduce_sequence wm
    refine ⟨r, hr, ?_, ?_⟩
    · intro h
      rw [hs, List.getLast?_eq_getLast _ h]
    · intro h
      rw [hs, h]
      rfl
  · intro wm
    obtain ⟨r, hr, hs⟩ := Google_reduce_sequence wm
    refine ⟨r, hr, ?_, ?_⟩
    · intro h
      rw [hs, List.getLast?_eq_getLast _ h]
    · intro h
      rw [hs, h]
      rfl
  · intro wm
    obtain ⟨r, hr, hs⟩ := LDAP_reduce_sequence wm
    refine ⟨r, hr, ?_, ?_⟩
    · intro h
      rw [hs, List.getLast?_eq_getLast _ h]
    · intro h
      rw [hs, h]
      rfl
  · intro wm
    obtain ⟨r, hr, hs⟩ := IDPRemove_reduce_sequence wm
    refine ⟨r, hr, ?_, ?_⟩
    · intro h
      rw [hs, List.getLast?_eq_getLast _ h]
    · intro h
      rw [hs, h]
      rfl
  · intro wm
    obtain ⟨r, hr, hs⟩ := IDPType_reduce_sequence wm
    refine ⟨r, hr, ?_, ?_⟩
    · intro h
      rw [hs, List.getLast?_eq_getLast _ h]
    · intro h
      rw [hs, h]
      rfl

/-- An instance of C22: the OAuth write model of the scenario, with the removal of the
provider (sequence 8) and then an event of an unknown type (sequence 7) in its buffer, has
the processed sequence 7 after `Reduce`. -/
theorem reduce_advances_processed_sequence_witness :
    ({ scenarioOAuth with Events := [scenarioRemovedEvent, scenarioUnknownEvent] } :
        OAuthIDPWriteModel).Events ≠ [] ∧
      ∃ r,
        OAuthIDPWriteModel.Reduce
            { scenarioOAuth with Events := [scenarioRemovedEvent, scenarioUnknownEvent] }
          = .ok r ∧
        r.ProcessedSequence = 7 :=
  ⟨List.cons_ne_nil _ _,
    match reduce_advances_processed_sequence.1
        { scenarioOAuth with Events := [scenarioRemovedEvent, scenarioUnknownEvent] } with
    | ⟨r, hr, h, _⟩ => ⟨r, hr, h (List.cons_ne_nil _ _)⟩⟩

/-- C23: encryption failure aborts the diff. For each of the nine secret-bearing write models
and all arguments of `NewChanges`: if the secret string is not empty and `Crypt` fails
with `err`, `NewChanges` returns `err` and no change list, whatever the other arguments
are; if the secret string is empty, `NewChanges` returns a change list and no error, and
the same list for every encryption capability, which it does not consult. The write
model is an argument that `NewChanges` reads and does not return. -/
theorem newChanges_crypt_failure_aborts :
    (∀ (wm : OAuthIDPWriteModel) (name clientID clientSecretString : String)
        (secretCrypto : Crypto)
        (authorizationEndpoint tokenEndpoint userEndpoint idAttribute : String)
        (scopes : StringSlice) (options : Zitadel.Options),
      (∀ err, clientSecretString ≠ "" → Crypt clientSecretString secretCrypto = .error err →
        wm.NewChanges name clientID clientSecretString secretCrypto authorizationEndpoint
          tokenEndpoint userEndpoint idAttribute scopes options = .error err) ∧
      (clientSecretString = "" →
        ∃ cs,
          wm.NewChanges name clientID clientSecretString secretCrypto authorizationEndpoint
            tokenEndpoint userEndpoint idAttribute scopes options = .ok cs ∧
          ∀ (otherCrypto : Crypto),
            wm.NewChanges name clientID clientSecretString otherCrypto authorizationEndpoint
              tokenEndpoint userEndpoint idAttribute scopes options = .ok cs)) ∧
    (∀ (wm : OIDCIDPWriteModel) (name issuer clientID clientSecretString : String)
        (secretCrypto : Crypto) (scopes : StringSlice) (idTokenMapping : Bool)
        (options : Zitadel.Options),
      (∀ err, clientSecretString ≠ "" → Crypt clientSecretString secretCrypto = .error err →
        wm.NewChanges name issuer clientID clientSecretString secretCrypto scopes idTokenMapping
          options = .error err) ∧
      (clientSecretString = "" →
        ∃ cs,
          wm.NewChanges name issuer clientID clientSecretString secretCrypto scopes idTokenMapping
            options = .ok cs ∧
          ∀ (otherCrypto : Crypto),
            wm.NewChanges name issuer clientID clientSecretString otherCrypto scopes
              idTokenMapping options = .ok cs)) ∧
    (∀ (wm : AzureADIDPWriteModel) (name clientID clientSecretString : String)
        (secretCrypto : Crypto) (scopes : StringSlice) (tenant : String) (isEmailVerified : Bool)
        (options : Zitadel.Options),
      (∀ err, clientSecretString ≠ "" → Crypt clientSecretString secretCrypto = .error err →
        wm.NewChanges name clientID clientSecretString secretCrypto scopes tenant isEmailVerified
          options = .error err) ∧
      (clientSecretString = "" →
        ∃ cs,
          wm.NewChanges name clientID clientSecretString secretCrypto scopes tenant
            isEmailVerified options = .ok cs ∧
          ∀ (otherCrypto : Crypto),
            wm.NewChanges name clientID clientSecretString otherCrypto scopes tenant
              isEmailVerified options = .ok cs)) ∧
    (∀ (wm : GitHubIDPWriteModel) (name clientID clientSecretString : String)
        (secretCrypto : Crypto) (scopes : StringSlice) (options : Zitadel.Options),
      (∀ err, clientSecretString ≠ "" → Crypt clientSecretString secretCrypto = .error err →
        wm.NewChanges name clientID clientSecretString secretCrypto scopes options = .error err) ∧
      (clientSecretString = "" →
        ∃ cs,
          wm.NewChanges name clientID clientSecretString secretCrypto scopes options = .ok cs ∧
          ∀ (otherCrypto : Crypto),
            wm.NewChanges name clientID clientSecretString otherCrypto scopes options = .ok cs)) ∧
    (∀ (wm : GitHubEnterpriseIDPWriteModel) (name clientID clientSecretString : String)
        (secretCrypto : Crypto) (authorizationEndpoint tokenEndpoint userEndpoint : String)
        (scopes : StringSlice) (options : Zitadel.Options),
      (∀ err, clientSecretString ≠ "" → Crypt clientSecretString secretCrypto = .error err →
        wm.NewChanges name clientID clientSecretString secretCrypto authorizationEndpoint
          tokenEndpoint userEndpoint scopes options = .error err) ∧
      (clientSecretString = "" →
        ∃ cs,
          wm.NewChanges name clientID clientSecretString secretCrypto authorizationEndpoint
            tokenEndpoint userEndpoint scopes options = .ok cs ∧
          ∀ (otherCrypto : Crypto),
            wm.NewChanges name clientID clientSecretString otherCrypto authorizationEndpoint
              tokenEndpoint userEndpoint scopes options = .ok cs)) ∧
    (∀ (wm : GitLabIDPWriteModel) (name clientID clientSecretString : String)
        (secretCrypto : Crypto) (scopes : StringSlice) (options : Zitadel.Options),
      (∀ err, clientSecretString ≠ "" → Crypt clientSecretString secretCrypto = .error err →
        wm.NewChanges name clientID clientSecretString secretCrypto scopes options = .error err) ∧
      (clientSecretString = "" →
        ∃ cs,
          wm.NewChanges name clientID clientSecretString secretCrypto scopes options = .ok cs ∧
          ∀ (otherCrypto : Crypto),
            wm.NewChanges name clientID clientSecretString otherCrypto scopes options = .ok cs)) ∧
    (∀ (wm : GitLabSelfHostedIDPWriteModel) (name issuer clientID clientSecretString : String)
        (secretCrypto : Crypto) (scopes : StringSlice) (options : Zitadel.Options),
      (∀ err, clientSecretString ≠ "" → Crypt clientSecretString secretCrypto = .error err →
        wm.NewChanges name issuer clientID clientSecretString secretCrypto scopes options = .error err) ∧
      (clientSecretString = "" →
        ∃ cs,
          wm.NewChanges name issuer clientID clientSecretString secretCrypto scopes options = .ok cs ∧
          ∀ (otherCrypto : Crypto),
            wm.NewChanges name issuer clientID clientSecretString otherCrypto scopes options = .ok cs)) ∧
    (∀ (wm : GoogleIDPWriteModel) (name clientID clientSecretString : String)
        (secretCrypto : Crypto) (scopes : StringSlice) (options : Zitadel.Options),
      (∀ err, clientSecretString ≠ "" → Crypt clientSecretString secretCrypto = .error err →
        wm.NewChanges name clientID clientSecretString secretCrypto scopes options = .error err) ∧
      (clientSecretString = "" →
        ∃ cs,
          wm.NewChanges name clientID clientSecretString secretCrypto scopes options = .ok cs ∧
          ∀ (otherCrypto : Crypto),
            wm.NewChanges name clientID clientSecretString otherCrypto scopes options = .ok cs)) ∧
    (∀ (wm : LDAPIDPWriteModel) (name : String) (servers : StringSlice) (startTLS : Bool)
        (baseDN bindDN bindPassword userBase : String)
        (userObjectClasses userFilters : StringSlice) (timeout : Int) (secretCrypto : Crypto)
        (attributes : Zitadel.LDAPAttributes) (options : Zitadel.Options),
      (∀ err, bindPassword ≠ "" → Crypt bindPassword secretCrypto = .error err →
        wm.NewChanges name servers startTLS baseDN bindDN bindPassword userBase userObjectClasses
          userFilters timeout secretCrypto attributes options = .error err) ∧
      (bindPassword = "" →
        ∃ cs,
          wm.NewChanges name servers startTLS baseDN bindDN bindPassword userBase
            userObjectClasses userFilters timeout secretCrypto attributes options = .ok cs ∧
          ∀ (otherCrypto : Crypto),
            wm.NewChanges name servers startTLS baseDN bindDN bindPassword userBase
              userObjectClasses userFilters timeout otherCrypto attributes options = .ok cs)) := by
  refine ⟨?_, ?_, ?_, ?_, ?_, ?_, ?_, ?_, ?_⟩
  · intro wm name clientID clientSecretString secretCrypto authorizationEndpoint tokenEndpoint userEndpoint idAttribute scopes options
    constructor
    · intro err hs hc
      simp [OAuthIDPWriteModel.NewChanges, hs, hc, bind, Except.bind]
    · intro hs
      exact ⟨_, OAuth_newChanges_eq wm _ _ _ _ _ _ _ _ _ _ none (Or.inl hs),
        fun _ => OAuth_newChanges_eq wm _ _ _ _ _ _ _ _ _ _ none (Or.inl hs)⟩
  · intro wm name issuer clientID clientSecretString secretCrypto scopes idTokenMapping options
    constructor
    · intro err hs hc
      simp [OIDCIDPWriteModel.NewChanges, hs, hc, bind, Except.bind]
    · intro hs
      exact ⟨_, OIDC_newChanges_eq wm _ _ _ _ _ _ _ _ none (Or.inl hs),
        fun _ => OIDC_newChanges_eq wm _ _ _ _ _ _ _ _ none (Or.inl hs)⟩
  · intro wm name clientID clientSecretString secretCrypto scopes tenant isEmailVerified options
    constructor
    · intro err hs hc
      simp [AzureADIDPWriteModel.NewChanges, hs, hc, bind, Except.bind]
    · intro hs
      exact ⟨_, AzureAD_newChanges_eq wm _ _ _ _ _ _ _ _ none (Or.inl hs),
        fun _ => AzureAD_newChanges_eq wm _ _ _ _ _ _ _ _ none (Or.inl hs)⟩
  · intro wm name clientID clientSecretString secretCrypto scopes options
    constructor
    · intro err hs hc
      simp [GitHubIDPWriteModel.NewChanges, hs, hc, bind, Except.bind]
    · intro hs
      exact ⟨_, GitHub_newChanges_eq wm _ _ _ _ _ _ none (Or.inl hs),
        fun _ => GitHub_newChanges_eq wm _ _ _ _ _ _ none (Or.inl hs)⟩
  · intro wm name clientID clientSecretString secretCrypto authorizationEndpoint tokenEndpoint userEndpoint scopes options
    constructor
    · intro err hs hc
      simp [GitHubEnterpriseIDPWriteModel.NewChanges, hs, hc, bind, Except.bind]
    · intro hs
      exact ⟨_, GitHubEnterprise_newChanges_eq wm _ _ _ _ _ _ _ _ _ none (Or.inl hs),
        fun _ => GitHubEnterprise_newChanges_eq wm _ _ _ _ _ _ _ _ _ none (Or.inl hs)⟩
  · intro wm name clientID clientSecretString secretCrypto scopes options
    constructor
    · intro err hs hc
      simp [GitLabIDPWriteModel.NewChanges, hs, hc, bind, Except.bind]
    · intro hs
      exact ⟨_, GitLab_newChanges_eq wm _ _ _ _ _ _ none (Or.inl hs),
        fun _ => GitLab_newChanges_eq wm _ _ _ _ _ _ none (Or.inl hs)⟩
  · intro wm name issuer clientID clientSecretString secretCrypto scopes options
    constructor
    · intro err hs hc
      simp [GitLabSelfHostedIDPWriteModel.NewChanges, hs, hc, bind, Except.bind]
    · intro hs
      exact ⟨_, GitLabSelfHosted_newChanges_eq wm _ _ _ _ _ _ _ none (Or.inl hs),
        fun _ => GitLabSelfHosted_newChanges_eq wm _ _ _ _ _ _ _ none (Or.inl hs)⟩
  · intro wm name clientID clientSecretString secretCrypto scopes options
    constructor
    · intro err hs hc
      simp [GoogleIDPWriteModel.NewChanges, hs, hc, bind, Except.bind]
    · intro hs
      exact ⟨_, Google_newChanges_eq wm _ _ _ _ _ _ none (Or.inl hs),
        fun _ => Google_newChanges_eq wm _ _ _ _ _ _ none (Or.inl hs)⟩
  · intro wm name servers startTLS baseDN bindDN bindPassword userBase userObjectClasses userFilters timeout secretCrypto attributes options
    constructor
    · intro err hs hc
      simp [LDAPIDPWriteModel.NewChanges, hs, hc, bind, Except.bind]
    · intro hs
      exact ⟨_, LDAP_newChanges_eq wm _ _ _ _ _ _ _ _ _ _ _ _ _ none (Or.inl hs),
        fun _ => LDAP_newChanges_eq wm _ _ _ _ _ _ _ _ _ _ _ _ _ none (Or.inl hs)⟩

/-- An instance of C23: the OAuth write model of the scenario, asked for a new name and a
new secret with an encryption capability that fails, returns the encryption error and not
the rename. -/
theorem newChanges_crypt_failure_aborts_witness :
    "s3cret" ≠ "" ∧
      Crypt "s3cret" scenarioCryptoFails = .error (.other "no encryption key") ∧
      scenarioOAuth.NewChanges "B" "1" "s3cret" scenarioCryptoFails "https://idp/authorize"
          "https://idp/token" "https://idp/user" "sub" (some ["openid"])
          ⟨true, true, false, false⟩
        = .error (.other "no encryption key") :=
  ⟨by decide, rfl,
    (newChanges_crypt_failure_aborts.1 scenarioOAuth "B" "1" "s3cret" scenarioCryptoFails
      "https://idp/authorize" "https://idp/token" "https://idp/user" "sub" (some ["openid"])
      ⟨true, true, false, false⟩).1 _ (by decide) rfl⟩

/-- C24: `Push` is all-or-nothing. For every repository and every batch of events, either
`Push` returns no error and the log is the log before followed by the events of the batch,
in their order and with their sequences assigned, so that each aggregate stream advances by
its events of the batch; or `Push` returns an error and the repository is unchanged. `Push`
succeeds exactly if the storage is reachable and every event of the batch expects the tail
of its aggregate stream; on reachable storage a batch with a stale precondition fails with
a concurrency conflict and applies nothing, and after any failure on reachable storage the
same events, pushed again with the reloaded tail sequences as preconditions, succeed. -/
theorem push_is_all_or_nothing :
    (∀ (r : Repository) (events : List repository.Event),
      ((r.Push events).2 = none ∧
        (r.Push events).1.reachable = r.reachable ∧
        (∃ stored, (r.Push events).1.events = r.events ++ stored ∧
          List.Forall₂ (fun s e => s = { e with Sequence := s.Sequence }) stored events) ∧
        ∀ (aggregateID : String),
          tailSequence (r.Push events).1.events aggregateID =
            tailSequence r.events aggregateID
              + events.countP (fun e => decide (e.AggregateID = aggregateID))) ∨
      ((r.Push events).2 ≠ none ∧ (r.Push events).1 = r)) ∧
    (∀ (r : Repository) (events : List repository.Event),
      (r.Push events).2 = none ↔
        r.reachable = true ∧
          ∀ e ∈ events, e.PreviousAggregateSequence = tailSequence r.events e.AggregateID) ∧
    (∀ (r : Repository) (events : List repository.Event),
      r.reachable = true →
      (∃ e ∈ events, e.PreviousAggregateSequence ≠ tailSequence r.events e.AggregateID) →
      r.Push events = (r, some ConcurrencyConflict)) ∧
    (∀ (r : Repository) (events : List repository.Event),
      r.reachable = false → r.Push events = (r, some StorageError)) ∧
    (∀ (r : Repository) (events : List repository.Event),
      r.reachable = true → (r.Push events).2 ≠ none →
      ((r.Push events).1.Push
        (events.map (fun e =>
          { e with
            PreviousAggregateSequence :=
              tailSequence (r.Push events).1.events e.AggregateID }))).2 = none) := by
  refine ⟨?_, push_ok_iff, push_conflict, ?_, ?_⟩
  · intro r events
    by_cases h : (r.Push events).2 = none
    · left
      rw [push_ok_eq r events h]
      exact ⟨rfl, rfl, foldl_appendEvent_stored events r.events,
        fun aggregateID => tailSequence_foldl events r.events aggregateID⟩
    · exact Or.inr ⟨h, push_error_unchanged r events h⟩
  · intro r events hr
    simp only [Repository.Push, hr, Bool.not_false, if_true]
  · intro r events hr h
    rw [push_error_unchanged r events h, push_ok_iff]
    refine ⟨hr, ?_⟩
    intro e he
    obtain ⟨e0, _, rfl⟩ := List.mem_map.1 he
    rfl

/-- An instance of C24: on the log of the scenario, whose provider stream is at sequence 1,
a rename that expects sequence 0 fails with a concurrency conflict and leaves the log as it
is. -/
theorem push_is_all_or_nothing_witness :
    scenarioRepository.reachable = true ∧
      (∃ e ∈ [scenarioPushStale],
        e.PreviousAggregateSequence ≠ tailSequence scenarioRepository.events e.AggregateID) ∧
      scenarioRepository.Push [scenarioPushStale]
        = (scenarioRepository, some ConcurrencyConflict) :=
  ⟨rfl, ⟨scenarioPushStale, List.mem_singleton.2 rfl, by decide⟩,
    push_is_all_or_nothing.2.2.1 scenarioRepository [scenarioPushStale] rfl
      ⟨scenarioPushStale, List.mem_singleton.2 rfl, by decide⟩⟩

/-- C25: two commands racing on one aggregate. On reachable storage, if two batches both
carry preconditions that hold on the log as the two commands loaded it, and both hold an
event of the same aggregate, then in either order of the two pushes the first succeeds and
the second fails with a concurrency conflict and applies nothing: the log then holds the
events of exactly one of the batches. A push being atomic, the two orders are all the
interleavings there are. -/
theorem racing_pushes_exactly_one_succeeds (r : Repository)
    (first second : List repository.Event)
    (hr : r.reachable = true)
    (h1 : ∀ e ∈ first, e.PreviousAggregateSequence = tailSequence r.events e.AggregateID)
    (h2 : ∀ e ∈ second, e.PreviousAggregateSequence = tailSequence r.events e.AggregateID)
    (hshared : ∃ e1 ∈ first, ∃ e2 ∈ second, e1.AggregateID = e2.AggregateID) :
    ((r.Push first).2 = none ∧
      (r.Push first).1.Push second = ((r.Push first).1, some ConcurrencyConflict)) ∧
    ((r.Push second).2 = none ∧
      (r.Push second).1.Push first = ((r.Push second).1, some ConcurrencyConflict)) := by
  have key : ∀ (a b : List repository.Event),
      (∀ e ∈ a, e.PreviousAggregateSequence = tailSequence r.events e.AggregateID) →
      (∀ e ∈ b, e.PreviousAggregateSequence = tailSequence r.events e.AggregateID) →
      (∃ e1 ∈ a, ∃ e2 ∈ b, e1.AggregateID = e2.AggregateID) →
      (r.Push a).2 = none ∧
        (r.Push a).1.Push b = ((r.Push a).1, some ConcurrencyConflict) := by
    intro a b ha hb hab
    have hok : (r.Push a).2 = none := (push_ok_iff r a).2 ⟨hr, ha⟩
    refine ⟨hok, ?_⟩
    obtain ⟨e1, he1, e2, he2, hid⟩ := hab
    rw [push_ok_eq r a hok]
    refine push_conflict _ b hr ⟨e2, he2, ?_⟩
    show e2.PreviousAggregateSequence ≠ tailSequence (a.foldl appendEvent r.events) e2.AggregateID
    rw [tailSequence_foldl, hb e2 he2]
    have hpos : 0 < a.countP (fun e => decide (e.AggregateID = e2.AggregateID)) :=
      List.countP_pos_iff.2 ⟨e1, he1, by simpa using hid⟩
    omega
  obtain ⟨e1, he1, e2, he2, hid⟩ := hshared
  exact ⟨key first second h1 h2 ⟨e1, he1, e2, he2, hid⟩,
    key second first h2 h1 ⟨e2, he2, e1, he1, hid.symm⟩⟩

/-- An instance of C25: a rename and a removal of the provider `idp-1`, both by commands
that loaded sequence 1 from the log of the scenario. -/
theorem racing_pushes_exactly_one_succeeds_witness :
    ((scenarioRepository.Push [scenarioPushRename]).2 = none ∧
      (scenarioRepository.Push [scenarioPushRename]).1.Push [scenarioPushRemove]
        = ((scenarioRepository.Push [scenarioPushRename]).1, some ConcurrencyConflict)) ∧
    ((scenarioRepository.Push [scenarioPushRemove]).2 = none ∧
      (scenarioRepository.Push [scenarioPushRemove]).1.Push [scenarioPushRename]
        = ((scenarioRepository.Push [scenarioPushRemove]).1, some ConcurrencyConflict)) :=
  racing_pushes_exactly_one_succeeds scenarioRepository [scenarioPushRename]
    [scenarioPushRemove] rfl (by decide) (by decide)
    ⟨scenarioPushRename, List.mem_singleton.2 rfl, scenarioPushRemove,
      List.mem_singleton.2 rfl, rfl⟩

/-- C26, the code at the failing input: the first org of the scenario has a machine user
for which a personal access token is requested, every collaborator succeeds and
`SetUpInstance` returns no error, an empty token and no key. `Execute` returns no error,
where the claim asks for one. -/
theorem execute_returns_no_error_for_missing_token :
    scenarioFirstInstance.Org.Machine = some { Pat := some { Scopes := [] }, MachineKey := none } ∧
      scenarioCollaborators.SetUpInstance ()
          (scenarioFirstInstance.fillInstanceSetup scenarioCollaborators)
        = .ok ("", none) ∧
      (FirstInstance.Execute scenarioCollaborators scenarioFirstInstance).2 = none :=
  ⟨rfl, rfl, rfl⟩

/-- The extension of a name that ends in `.toml`. -/
theorem ext_append_toml (name : String) : Ext (name ++ ".toml") = ".toml" := by
  simp only [Ext, String.data_append, List.reverse_append]
  rfl

/-- The extension of a name that ends in `.json`. -/
theorem ext_append_json (name : String) : Ext (name ++ ".json") = ".json" := by
  simp only [Ext, String.data_append, List.reverse_append]
  rfl

/-- The extension of a name that ends in `.yaml`. -/
theorem ext_append_yaml (name : String) : Ext (name ++ ".yaml") = ".yaml" := by
  simp only [Ext, String.data_append, List.reverse_append]
  rfl

/-- The extension of a name that ends in `.yml`. -/
theorem ext_append_yml (name : String) : Ext (name ++ ".yml") = ".yml" := by
  simp only [Ext, String.data_append, List.reverse_append]
  rfl

/-- C27: `readerFuncForFile` chooses the reader by the file extension. For every file name
that ends in `.toml` it returns `TOMLReader` and no error, for `.json` `JSONReader`, for
`.yaml` and for `.yml` `YAMLReader`; for every name whose extension is none of the four it
returns an error, and it returns a reader only for one of the four. The five rows of
`Test_readerFuncForFile` hold: `test.toml`, `test.json`, `test.yaml`, `test.yml` and
`test.unknown`. -/
theorem readerFuncForFile_by_extension :
    (∀ (name : String), readerFuncForFile (name ++ ".toml") = .ok .TOMLReader) ∧
    (∀ (name : String), readerFuncForFile (name ++ ".json") = .ok .JSONReader) ∧
    (∀ (name : String), readerFuncForFile (name ++ ".yaml") = .ok .YAMLReader) ∧
    (∀ (name : String), readerFuncForFile (name ++ ".yml") = .ok .YAMLReader) ∧
    (∀ (file : String), Ext file ∉ [".toml", ".json", ".yaml", ".yml"] →
      ∃ err, readerFuncForFile file = .error err) ∧
    (∀ (file : String) (reader : ReaderFunc), readerFuncForFile file = .ok reader →
      Ext file ∈ [".toml", ".json", ".yaml", ".yml"]) ∧
    readerFuncForFile "test.toml" = .ok .TOMLReader ∧
    readerFuncForFile "test.json" = .ok .JSONReader ∧
    readerFuncForFile "test.yaml" = .ok .YAMLReader ∧
    readerFuncForFile "test.yml" = .ok .YAMLReader ∧
    (∃ err, readerFuncForFile "test.unknown" = .error err) := by
  refine ⟨?_, ?_, ?_, ?_, ?_, ?_, rfl, rfl, rfl, rfl, ⟨_, rfl⟩⟩
  · intro name
    simp only [readerFuncForFile, ext_append_toml]
    rfl
  · intro name
    simp only [readerFuncForFile, ext_append_json]
    rfl
  · intro name
    simp only [readerFuncForFile, ext_append_yaml]
    rfl
  · intro name
    simp only [readerFuncForFile, ext_append_yml]
    rfl
  · intro file h
    simp only [List.mem_cons, List.mem_singleton, List.not_mem_nil, or_false, not_or] at h
    obtain ⟨h1, h2, h3, h4⟩ := h
    exact ⟨.other ("file extension (" ++ Ext file ++ ") not supported"),
      by simp only [readerFuncForFile, h1, h2, h3, h4, or_self, if_false]⟩
  · intro file reader h
    by_contra hn
    simp only [List.mem_cons, List.mem_singleton, List.not_mem_nil, or_false, not_or] at hn
    obtain ⟨h1, h2, h3, h4⟩ := hn
    simp [readerFuncForFile, h1, h2, h3, h4] at h

/-- An instance of C27: the extension `.unknown` of `test.unknown` is none of the four, and
`readerFuncForFile` returns an error for it. -/
theorem readerFuncForFile_by_extension_witness :
    Ext "test.unknown" ∉ [".toml", ".json", ".yaml", ".yml"] ∧
      ∃ err, readerFuncForFile "test.unknown" = .error err :=
  ⟨by decide, readerFuncForFile_by_extension.2.2.2.2.1 "test.unknown" (by decide)⟩

/-- C28: the username of the first instance is made email style. For all collaborators and
every step: `Execute` returns the step unchanged (it failed before the setup was filled in)
or with the instance setup filled in, whose username is the configured username followed by
`@` and `NewIAMDomainName` of the org name and the external domain if the domain policy does
not require the login name to be the domain and the configured username has no `@` in it,
and the configured username otherwise; that filled-in setup is the only one for which
`Execute` asks `SetUpInstance`; and whenever the policy does not require the login name to
be the domain, its username contains `@`. -/
theorem first_instance_username_normalised :
    (∀ (KeyStorage Key Alg Commands MachineKey File : Type)
        (env : Collaborators KeyStorage Key Alg Commands MachineKey File) (mig : FirstInstance),
      ((FirstInstance.Execute env mig).1 = mig ∨
        (FirstInstance.Execute env mig).1
          = { mig with instanceSetup := mig.fillInstanceSetup env }) ∧
      (mig.fillInstanceSetup env).Org.Human.Username =
        (if mig.instanceSetup.DomainPolicy.UserLoginMustBeDomain = false
            ∧ strings.Contains mig.Org.Human.Username "@" = false then
          mig.Org.Human.Username ++ "@"
            ++ env.NewIAMDomainName mig.Org.Name mig.externalDomain
        else mig.Org.Human.Username) ∧
      (mig.fillInstanceSetup env).Org.Name = mig.Org.Name ∧
      (mig.fillInstanceSetup env).CustomDomain = mig.externalDomain) ∧
    (∀ (KeyStorage Key Alg Commands MachineKey File : Type)
        (env : Collaborators KeyStorage Key Alg Commands MachineKey File)
        (f : Commands → InstanceSetup → Except Error (String × Option MachineKey))
        (mig : FirstInstance),
      (∀ cmd, f cmd (mig.fillInstanceSetup env)
        = env.SetUpInstance cmd (mig.fillInstanceSetup env)) →
      FirstInstance.Execute { env with SetUpInstance := f } mig
        = FirstInstance.Execute env mig) ∧
    (∀ (KeyStorage Key Alg Commands MachineKey File : Type)
        (env : Collaborators KeyStorage Key Alg Commands MachineKey File) (mig : FirstInstance),
      mig.instanceSetup.DomainPolicy.UserLoginMustBeDomain = false →
      strings.Contains (mig.fillInstanceSetup env).Org.Human.Username "@" = true) := by
  refine ⟨?_, ?_, ?_⟩
  · intro KeyStorage Key Alg Commands MachineKey File env mig
    refine ⟨execute_state env mig, ?_, (fill_frame env mig).2.2.2.1, (fill_frame env mig).2.1⟩
    rw [fill_username]
    cases mig.instanceSetup.DomainPolicy.UserLoginMustBeDomain <;>
      cases strings.Contains mig.Org.Human.Username "@" <;> rfl
  · intro KeyStorage Key Alg Commands MachineKey File env f mig h
    exact execute_consults env f mig h
  · intro KeyStorage Key Alg Commands MachineKey File env mig hp
    rw [fill_username, hp]
    cases hc : strings.Contains mig.Org.Human.Username "@"
    · exact contains_at _ _
    · exact hc

/-- An instance of C28: the step of the scenario has a policy that does not require the
login name to be the domain and the admin `zitadel-admin`; the username of the filled-in
setup is `zitadel-admin@zitadel.localhost`, which contains `@`. -/
theorem first_instance_username_normalised_witness :
    scenarioFirstInstance.instanceSetup.DomainPolicy.UserLoginMustBeDomain = false ∧
      (scenarioFirstInstance.fillInstanceSetup scenarioCollaborators).Org.Human.Username
        = "zitadel-admin@zitadel.localhost" ∧
      strings.Contains
        (scenarioFirstInstance.fillInstanceSetup scenarioCollaborators).Org.Human.Username "@"
        = true :=
  ⟨rfl, rfl,
    first_instance_username_normalised.2.2 Unit Unit Unit Unit Unit Unit scenarioCollaborators
      scenarioFirstInstance rfl⟩

/-- C29: legacy changed events are narrow merges. For the OIDC and the JWT write model:
folding a legacy `IDPConfigChangedEvent` overwrites `Name` if the event carries a name and
`Options.IsAutoCreation` if it carries `AutoRegister`, and leaves each of them as it was
otherwise; folding a legacy `OIDCConfigChangedEvent` (for JWT: `JWTConfigChangedEvent`)
overwrites each of `Issuer`, `ClientID`, `ClientSecret`, `Scopes` (for JWT: `Issuer`,
`JWTEndpoint`, `KeysEndpoint`, `HeaderName`) if the event carries it and leaves it as it
was otherwise; every other field, the other option flags and `State` are unchanged; and
folding a legacy `IDPConfigRemovedEvent` sets `State` to removed and changes no other
field. -/
theorem legacy_changed_events_are_narrow_merges :
    (∀ (wm : OIDCIDPWriteModel) (e : IDPConfigChangedEvent) (seq : Nat) (agg : Aggregate),
      (∀ v, e.Name = some v → (wm.reduceEvent ⟨.plain, seq, agg, .IDPConfigChanged e⟩).Name = v) ∧
      (e.Name = none → (wm.reduceEvent ⟨.plain, seq, agg, .IDPConfigChanged e⟩).Name = wm.Name) ∧
      (∀ v, e.AutoRegister = some v → (wm.reduceEvent ⟨.plain, seq, agg, .IDPConfigChanged e⟩).Options.IsAutoCreation = v) ∧
      (e.AutoRegister = none → (wm.reduceEvent ⟨.plain, seq, agg, .IDPConfigChanged e⟩).Options.IsAutoCreation = wm.Options.IsAutoCreation) ∧
      (wm.reduceEvent ⟨.plain, seq, agg, .IDPConfigChanged e⟩).Options.IsCreationAllowed = wm.Options.IsCreationAllowed ∧
      (wm.reduceEvent ⟨.plain, seq, agg, .IDPConfigChanged e⟩).Options.IsLinkingAllowed = wm.Options.IsLinkingAllowed ∧
      (wm.reduceEvent ⟨.plain, seq, agg, .IDPConfigChanged e⟩).Options.IsAutoUpdate = wm.Options.IsAutoUpdate ∧
      (wm.reduceEvent ⟨.plain, seq, agg, .IDPConfigChanged e⟩).State = wm.State ∧
      (wm.reduceEvent ⟨.plain, seq, agg, .IDPConfigChanged e⟩).ID = wm.ID ∧
      (wm.reduceEvent ⟨.plain, seq, agg, .IDPConfigChanged e⟩).Issuer = wm.Issuer ∧
      (wm.reduceEvent ⟨.plain, seq, agg, .IDPConfigChanged e⟩).ClientID = wm.ClientID ∧
      (wm.reduceEvent ⟨.plain, seq, agg, .IDPConfigChanged e⟩).ClientSecret = wm.ClientSecret ∧
      (wm.reduceEvent ⟨.plain, seq, agg, .IDPConfigChanged e⟩).Scopes = wm.Scopes ∧
      (wm.reduceEvent ⟨.plain, seq, agg, .IDPConfigChanged e⟩).IsIDTokenMapping = wm.IsIDTokenMapping) ∧
    (∀ (wm : OIDCIDPWriteModel) (e : OIDCConfigChangedEvent) (seq : Nat) (agg : Aggregate),
      (∀ v, e.Issuer = some v → (wm.reduceEvent ⟨.plain, seq, agg, .OIDCConfigChanged e⟩).Issuer = v) ∧
      (e.Issuer = none → (wm.reduceEvent ⟨.plain, seq, agg, .OIDCConfigChanged e⟩).Issuer = wm.Issuer) ∧
      (∀ v, e.ClientID = some v → (wm.reduceEvent ⟨.plain, seq, agg, .OIDCConfigChanged e⟩).ClientID = v) ∧
      (e.ClientID = none → (wm.reduceEvent ⟨.plain, seq, agg, .OIDCConfigChanged e⟩).ClientID = wm.ClientID) ∧
      (∀ v, e.ClientSecret = some v → (wm.reduceEvent ⟨.plain, seq, agg, .OIDCConfigChanged e⟩).ClientSecret = some v) ∧
      (e.ClientSecret = none → (wm.reduceEvent ⟨.plain, seq, agg, .OIDCConfigChanged e⟩).ClientSecret = wm.ClientSecret) ∧
      (∀ v, e.Scopes = some v → (wm.reduceEvent ⟨.plain, seq, agg, .OIDCConfigChanged e⟩).Scopes = some v) ∧
      (e.Scopes = none → (wm.reduceEvent ⟨.plain, seq, agg, .OIDCConfigChanged e⟩).Scopes = wm.Scopes) ∧
      (wm.reduceEvent ⟨.plain, seq, agg, .OIDCConfigChanged e⟩).Options = wm.Options ∧
      (wm.reduceEvent ⟨.plain, seq, agg, .OIDCConfigChanged e⟩).State = wm.State ∧
      (wm.reduceEvent ⟨.plain, seq, agg, .OIDCConfigChanged e⟩).Name = wm.Name ∧
      (wm.reduceEvent ⟨.plain, seq, agg, .OIDCConfigChanged e⟩).ID = wm.ID ∧
      (wm.reduceEvent ⟨.plain, seq, agg, .OIDCConfigChanged e⟩).IsIDTokenMapping = wm.IsIDTokenMapping) ∧
    (∀ (wm : OIDCIDPWriteModel) (e : IDPConfigRemovedEvent) (seq : Nat) (agg : Aggregate),
      (wm.reduceEvent ⟨.plain, seq, agg, .IDPConfigRemoved e⟩).State = .IDPStateRemoved ∧
      (wm.reduceEvent ⟨.plain, seq, agg, .IDPConfigRemoved e⟩).Name = wm.Name ∧
      (wm.reduceEvent ⟨.plain, seq, agg, .IDPConfigRemoved e⟩).ID = wm.ID ∧
      (wm.reduceEvent ⟨.plain, seq, agg, .IDPConfigRemoved e⟩).Issuer = wm.Issuer ∧
      (wm.reduceEvent ⟨.plain, seq, agg, .IDPConfigRemoved e⟩).ClientID = wm.ClientID ∧
      (wm.reduceEvent ⟨.plain, seq, agg, .IDPConfigRemoved e⟩).ClientSecret = wm.ClientSecret ∧
      (wm.reduceEvent ⟨.plain, seq, agg, .IDPConfigRemoved e⟩).Scopes = wm.Scopes ∧
      (wm.reduceEvent ⟨.plain, seq, agg, .IDPConfigRemoved e⟩).IsIDTokenMapping = wm.IsIDTokenMapping ∧
      (wm.reduceEvent ⟨.plain, seq, agg, .IDPConfigRemoved e⟩).Options = wm.Options) ∧
    (∀ (wm : JWTIDPWriteModel) (e : IDPConfigChangedEvent) (seq : Nat) (agg : Aggregate),
      (∀ v, e.Name = some v → (wm.reduceEvent ⟨.plain, seq, agg, .IDPConfigChanged e⟩).Name = v) ∧
      (e.Name = none → (wm.reduceEvent ⟨.plain, seq, agg, .IDPConfigChanged e⟩).Name = wm.Name) ∧
      (∀ v, e.AutoRegister = some v → (wm.reduceEvent ⟨.plain, seq, agg, .IDPConfigChanged e⟩).Options.IsAutoCreation = v) ∧
      (e.AutoRegister = none → (wm.reduceEvent ⟨.plain, seq, agg, .IDPConfigChanged e⟩).Options.IsAutoCreation = wm.Options.IsAutoCreation) ∧
      (wm.reduceEvent ⟨.plain, seq, agg, .IDPConfigChanged e⟩).Options.IsCreationAllowed = wm.Options.IsCreationAllowed ∧
      (wm.reduceEvent ⟨.plain, seq, agg, .IDPConfigChanged e⟩).Options.IsLinkingAllowed = wm.Options.IsLinkingAllowed ∧
      (wm.reduceEvent ⟨.plain, seq, agg, .IDPConfigChanged e⟩).Options.IsAutoUpdate = wm.Options.IsAutoUpdate ∧
      (wm.reduceEvent ⟨.plain, seq, agg, .IDPConfigChanged e⟩).State = wm.State ∧
      (wm.reduceEvent ⟨.plain, seq, agg, .IDPConfigChanged e⟩).ID = wm.ID ∧
      (wm.reduceEvent ⟨.plain, seq, agg, .IDPConfigChanged e⟩).Issuer = wm.Issuer ∧
      (wm.reduceEvent ⟨.plain, seq, agg, .IDPConfigChanged e⟩).JWTEndpoint = wm.JWTEndpoint ∧
      (wm.reduceEvent ⟨.plain, seq, agg, .IDPConfigChanged e⟩).KeysEndpoint = wm.KeysEndpoint ∧
      (wm.reduceEvent ⟨.plain, seq, agg, .IDPConfigChanged e⟩).HeaderName = wm.HeaderName) ∧
    (∀ (wm : JWTIDPWriteModel) (e : JWTConfigChangedEvent) (seq : Nat) (agg : Aggregate),
      (∀ v, e.Issuer = some v → (wm.reduceEvent ⟨.plain, seq, agg, .JWTConfigChanged e⟩).Issuer = v) ∧
      (e.Issuer = none → (wm.reduceEvent ⟨.plain, seq, agg, .JWTConfigChanged e⟩).Issuer = wm.Issuer) ∧
      (∀ v, e.JWTEndpoint = some v → (wm.reduceEvent ⟨.plain, seq, agg, .JWTConfigChanged e⟩).JWTEndpoint = v) ∧
      (e.JWTEndpoint = none → (wm.reduceEvent ⟨.plain, seq, agg, .JWTConfigChanged e⟩).JWTEndpoint = wm.JWTEndpoint) ∧
      (∀ v, e.KeysEndpoint = some v → (wm.reduceEvent ⟨.plain, seq, agg, .JWTConfigChanged e⟩).KeysEndpoint = v) ∧
      (e.KeysEndpoint = none → (wm.reduceEvent ⟨.plain, seq, agg, .JWTConfigChanged e⟩).KeysEndpoint = wm.KeysEndpoint) ∧
      (∀ v, e.HeaderName = some v → (wm.reduceEvent ⟨.plain, seq, agg, .JWTConfigChanged e⟩).HeaderName = v) ∧
      (e.HeaderName = none → (wm.reduceEvent ⟨.plain, seq, agg, .JWTConfigChanged e⟩).HeaderName = wm.HeaderName) ∧
      (wm.reduceEvent ⟨.plain, seq, agg, .JWTConfigChanged e⟩).Options = wm.Options ∧
      (wm.reduceEvent ⟨.plain, seq, agg, .JWTConfigChanged e⟩).State = wm.State ∧
      (wm.reduceEvent ⟨.plain, seq, agg, .JWTConfigChanged e⟩).ID = wm.ID ∧
      (wm.reduceEvent ⟨.plain, seq, agg, .JWTConfigChanged e⟩).Name = wm.Name) ∧
    (∀ (wm : JWTIDPWriteModel) (e : IDPConfigRemovedEvent) (seq : Nat) (agg : Aggregate),
      (wm.reduceEvent ⟨.plain, seq, agg, .IDPConfigRemoved e⟩).State = .IDPStateRemoved ∧
      (wm.reduceEvent ⟨.plain, seq, agg, .IDPConfigRemoved e⟩).ID = wm.ID ∧
      (wm.reduceEvent ⟨.plain, seq, agg, .IDPConfigRemoved e⟩).Name = wm.Name ∧
      (wm.reduceEvent ⟨.plain, seq, agg, .IDPConfigRemoved e⟩).Issuer = wm.Issuer ∧
      (wm.reduceEvent ⟨.plain, seq, agg, .IDPConfigRemoved e⟩).JWTEndpoint = wm.JWTEndpoint ∧
      (wm.reduceEvent ⟨.plain, seq, agg, .IDPConfigRemoved e⟩).KeysEndpoint = wm.KeysEndpoint ∧
      (wm.reduceEvent ⟨.plain, seq, agg, .IDPConfigRemoved e⟩).HeaderName = wm.HeaderName ∧
      (wm.reduceEvent ⟨.plain, seq, agg, .IDPConfigRemoved e⟩).Options = wm.Options) := by
  refine ⟨?_, ?_, ?_, ?_, ?_, ?_⟩
  · intro wm e seq agg
    exact ⟨
      (fun v h => by
        show assignIfSet e.Name wm.Name = v
        rw [h]; rfl),
      (fun h => by
        show assignIfSet e.Name wm.Name = wm.Name
        rw [h]; rfl),
      (fun v h => by
        show assignIfSet e.AutoRegister wm.Options.IsAutoCreation = v
        rw [h]; rfl),
      (fun h => by
        show assignIfSet e.AutoRegister wm.Options.IsAutoCreation = wm.Options.IsAutoCreation
        rw [h]; rfl),
      rfl, rfl, rfl, rfl, rfl, rfl, rfl, rfl, rfl, rfl⟩
  · intro wm e seq agg
    exact ⟨
      (fun v h => by
        show assignIfSet e.Issuer wm.Issuer = v
        rw [h]; rfl),
      (fun h => by
        show assignIfSet e.Issuer wm.Issuer = wm.Issuer
        rw [h]; rfl),
      (fun v h => by
        show assignIfSet e.ClientID wm.ClientID = v
        rw [h]; rfl),
      (fun h => by
        show assignIfSet e.ClientID wm.ClientID = wm.ClientID
        rw [h]; rfl),
      (fun v h => by
        show assignIfNonNil e.ClientSecret wm.ClientSecret = some v
        rw [h]; rfl),
      (fun h => by
        show assignIfNonNil e.ClientSecret wm.ClientSecret = wm.ClientSecret
        rw [h]; rfl),
      (fun v h => by
        show assignIfNonNil e.Scopes wm.Scopes = some v
        rw [h]; rfl),
      (fun h => by
        show assignIfNonNil e.Scopes wm.Scopes = wm.Scopes
        rw [h]; rfl),
      rfl, rfl, rfl, rfl, rfl⟩
  · exact fun _ _ _ _ => ⟨rfl, rfl, rfl, rfl, rfl, rfl, rfl, rfl, rfl⟩
  · intro wm e seq agg
    exact ⟨
      (fun v h => by
        show assignIfSet e.Name wm.Name = v
        rw [h]; rfl),
      (fun h => by
        show assignIfSet e.Name wm.Name = wm.Name
        rw [h]; rfl),
      (fun v h => by
        show assignIfSet e.AutoRegister wm.Options.IsAutoCreation = v
        rw [h]; rfl),
      (fun h => by
        show assignIfSet e.AutoRegister wm.Options.IsAutoCreation = wm.Options.IsAutoCreation
        rw [h]; rfl),
      rfl, rfl, rfl, rfl, rfl, rfl, rfl, rfl, rfl⟩
  · intro wm e seq agg
    exact ⟨
      (fun v h => by
        show assignIfSet e.Issuer wm.Issuer = v
        rw [h]; rfl),
      (fun h => by
        show assignIfSet e.Issuer wm.Issuer = wm.Issuer
        rw [h]; rfl),
      (fun v h => by
        show assignIfSet e.JWTEndpoint wm.JWTEndpoint = v
        rw [h]; rfl),
      (fun h => by
        show assignIfSet e.JWTEndpoint wm.JWTEndpoint = wm.JWTEndpoint
        rw [h]; rfl),
      (fun v h => by
        show assignIfSet e.KeysEndpoint wm.KeysEndpoint = v
        rw [h]; rfl),
      (fun h => by
        show assignIfSet e.KeysEndpoint wm.KeysEndpoint = wm.KeysEndpoint
        rw [h]; rfl),
      (fun v h => by
        show assignIfSet e.HeaderName wm.HeaderName = v
        rw [h]; rfl),
      (fun h => by
        show assignIfSet e.HeaderName wm.HeaderName = wm.HeaderName
        rw [h]; rfl),
      rfl, rfl, rfl, rfl⟩
  · exact fun _ _ _ _ => ⟨rfl, rfl, rfl, rfl, rfl, rfl, rfl, rfl⟩

/-- An instance of C29: a legacy changed event that carries the name `renamed` and no
`AutoRegister` renames the OIDC write model of the scenario. -/
theorem legacy_changed_events_are_narrow_merges_witness :
    ({ Name := some "renamed", AutoRegister := none } : IDPConfigChangedEvent).Name
        = some "renamed" ∧
      (scenarioOIDC.reduceEvent
          ⟨.plain, 12, scenarioAggregate,
            .IDPConfigChanged { Name := some "renamed", AutoRegister := none }⟩).Name
        = "renamed" :=
  ⟨rfl,
    (legacy_changed_events_are_narrow_merges.1 scenarioOIDC
      { Name := some "renamed", AutoRegister := none } 12 scenarioAggregate).1 "renamed" rfl⟩

/-- C30: changed events never change the lifecycle state. For each of the ten provider write
models, every state of it and every changed event of its variant: `reduceChangedEvent`
and the step of `Reduce` on the event leave `State` as it was, `Reduce` on the buffer that
holds the event returns without error a write model with the `State` it had, and the event
still overwrites what it carries: a name it carries is the `Name` afterwards (for LDAP: if
the event has the `ID` of the write model). Likewise the legacy `IDPConfigChangedEvent`,
`OIDCConfigChangedEvent` and `JWTConfigChangedEvent` of the OIDC and JWT write models leave
`State` as it was. -/
theorem changed_events_keep_state :
    (∀ (wm : OAuthIDPWriteModel) (e : OAuthIDPChangedEvent) (seq : Nat) (agg : Aggregate),
      (wm.reduceChangedEvent e).State = wm.State ∧
        (wm.reduceEvent ⟨.plain, seq, agg, .OAuthIDPChanged e⟩).State = wm.State ∧
        (∃ r, OAuthIDPWriteModel.Reduce { wm with Events := [⟨.plain, seq, agg, .OAuthIDPChanged e⟩] }
            = .ok r ∧ r.State = wm.State) ∧
        (∀ n, e.Name = some n → (wm.reduceEvent ⟨.plain, seq, agg, .OAuthIDPChanged e⟩).Name = n)) ∧
    (∀ (wm : OIDCIDPWriteModel) (e : OIDCIDPChangedEvent) (seq : Nat) (agg : Aggregate),
      (wm.reduceChangedEvent e).State = wm.State ∧
        (wm.reduceEvent ⟨.plain, seq, agg, .OIDCIDPChanged e⟩).State = wm.State ∧
        (∃ r, OIDCIDPWriteModel.Reduce { wm with Events := [⟨.plain, seq, agg, .OIDCIDPChanged e⟩] }
            = .ok r ∧ r.State = wm.State) ∧
        (∀ n, e.Name = some n → (wm.reduceEvent ⟨.plain, seq, agg, .OIDCIDPChanged e⟩).Name = n)) ∧
    (∀ (wm : JWTIDPWriteModel) (e : JWTIDPChangedEvent) (seq : Nat) (agg : Aggregate),
      (wm.reduceChangedEvent e).State = wm.State ∧
        (wm.reduceEvent ⟨.plain, seq, agg, .JWTIDPChanged e⟩).State = wm.State ∧
        (∃ r, JWTIDPWriteModel.Reduce { wm with Events := [⟨.plain, seq, agg, .JWTIDPChanged e⟩] }
            = .ok r ∧ r.State = wm.State) ∧
        (∀ n, e.Name = some n → (wm.reduceEvent ⟨.plain, seq, agg, .JWTIDPChanged e⟩).Name = n)) ∧
    (∀ (wm : AzureADIDPWriteModel) (e : AzureADIDPChangedEvent) (seq : Nat) (agg : Aggregate),
      (wm.reduceChangedEvent e).State = wm.State ∧
        (wm.reduceEvent ⟨.plain, seq, agg, .AzureADIDPChanged e⟩).State = wm.State ∧
        (∃ r, AzureADIDPWriteModel.Reduce { wm with Events := [⟨.plain, seq, agg, .AzureADIDPChanged e⟩] }
            = .ok r ∧ r.State = wm.State) ∧
        (∀ n, e.Name = some n → (wm.reduceEvent ⟨.plain, seq, agg, .AzureADIDPChanged e⟩).Name = n)) ∧
    (∀ (wm : GitHubIDPWriteModel) (e : GitHubIDPChangedEvent) (seq : Nat) (agg : Aggregate),
      (wm.reduceChangedEvent e).State = wm.State ∧
        (wm.reduceEvent ⟨.plain, seq, agg, .GitHubIDPChanged e⟩).State = wm.State ∧
        (∃ r, GitHubIDPWriteModel.Reduce { wm with Events := [⟨.plain, seq, agg, .GitHubIDPChanged e⟩] }
            = .ok r ∧ r.State = wm.State) ∧
        (∀ n, e.Name = some n → (wm.reduceEvent ⟨.plain, seq, agg, .GitHubIDPChanged e⟩).Name = n)) ∧
    (∀ (wm : GitHubEnterpriseIDPWriteModel) (e : GitHubEnterpriseIDPChangedEvent) (seq : Nat) (agg : Aggregate),
      (wm.reduceChangedEvent e).State = wm.State ∧
        (wm.reduceEvent ⟨.plain, seq, agg, .GitHubEnterpriseIDPChanged e⟩).State = wm.State ∧
        (∃ r, GitHubEnterpriseIDPWriteModel.Reduce { wm with Events := [⟨.plain, seq, agg, .GitHubEnterpriseIDPChanged e⟩] }
            = .ok r ∧ r.State = wm.State) ∧
        (∀ n, e.Name = some n → (wm.reduceEvent ⟨.plain, seq, agg, .GitHubEnterpriseIDPChanged e⟩).Name = n)) ∧
    (∀ (wm : GitLabIDPWriteModel) (e : GitLabIDPChangedEvent) (seq : Nat) (agg : Aggregate),
      (wm.reduceChangedEvent e).State = wm.State ∧
        (wm.reduceEvent ⟨.plain, seq, agg, .GitLabIDPChanged e⟩).State = wm.State ∧
        (∃ r, GitLabIDPWriteModel.Reduce { wm with Events := [⟨.plain, seq, agg, .GitLabIDPChanged e⟩] }
            = .ok r ∧ r.State = wm.State) ∧
        (∀ n, e.Name = some n → (wm.reduceEvent ⟨.plain, seq, agg, .GitLabIDPChanged e⟩).Name = n)) ∧
    (∀ (wm : GitLabSelfHostedIDPWriteModel) (e : GitLabSelfHostedIDPChangedEvent) (seq : Nat) (agg : Aggregate),
      (wm.reduceChangedEvent e).State = wm.State ∧
        (wm.reduceEvent ⟨.plain, seq, agg, .GitLabSelfHostedIDPChanged e⟩).State = wm.State ∧
        (∃ r, GitLabSelfHostedIDPWriteModel.Reduce { wm with Events := [⟨.plain, seq, agg, .GitLabSelfHostedIDPChanged e⟩] }
            = .ok r ∧ r.State = wm.State) ∧
        (∀ n, e.Name = some n → (wm.reduceEvent ⟨.plain, seq, agg, .GitLabSelfHostedIDPChanged e⟩).Name = n)) ∧
    (∀ (wm : GoogleIDPWriteModel) (e : GoogleIDPChangedEvent) (seq : Nat) (agg : Aggregate),
      (wm.reduceChangedEvent e).State = wm.State ∧
        (wm.reduceEvent ⟨.plain, seq, agg, .GoogleIDPChanged e⟩).State = wm.State ∧
        (∃ r, GoogleIDPWriteModel.Reduce { wm with Events := [⟨.plain, seq, agg, .GoogleIDPChanged e⟩] }
            = .ok r ∧ r.State = wm.State) ∧
        (∀ n, e.Name = some n → (wm.reduceEvent ⟨.plain, seq, agg, .GoogleIDPChanged e⟩).Name = n)) ∧
    (∀ (wm : LDAPIDPWriteModel) (e : LDAPIDPChangedEvent) (seq : Nat) (agg : Aggregate),
      (wm.reduceChangedEvent e).State = wm.State ∧
        (wm.reduceEvent ⟨.plain, seq, agg, .LDAPIDPChanged e⟩).State = wm.State ∧
        (∃ r, LDAPIDPWriteModel.Reduce { wm with Events := [⟨.plain, seq, agg, .LDAPIDPChanged e⟩] }
            = .ok r ∧ r.State = wm.State) ∧
        (∀ n, wm.ID = e.ID → e.Name = some n → (wm.reduceEvent ⟨.plain, seq, agg, .LDAPIDPChanged e⟩).Name = n)) ∧
    (∀ (wm : OIDCIDPWriteModel) (e : IDPConfigChangedEvent) (seq : Nat) (agg : Aggregate),
      (wm.reduceEvent ⟨.plain, seq, agg, .IDPConfigChanged e⟩).State = wm.State ∧
        ∃ r, OIDCIDPWriteModel.Reduce { wm with Events := [⟨.plain, seq, agg, .IDPConfigChanged e⟩] }
            = .ok r ∧ r.State = wm.State) ∧
    (∀ (wm : OIDCIDPWriteModel) (e : OIDCConfigChangedEvent) (seq : Nat) (agg : Aggregate),
      (wm.reduceEvent ⟨.plain, seq, agg, .OIDCConfigChanged e⟩).State = wm.State ∧
        ∃ r, OIDCIDPWriteModel.Reduce { wm with Events := [⟨.plain, seq, agg, .OIDCConfigChanged e⟩] }
            = .ok r ∧ r.State = wm.State) ∧
    (∀ (wm : JWTIDPWriteModel) (e : IDPConfigChangedEvent) (seq : Nat) (agg : Aggregate),
      (wm.reduceEvent ⟨.plain, seq, agg, .IDPConfigChanged e⟩).State = wm.State ∧
        ∃ r, JWTIDPWriteModel.Reduce { wm with Events := [⟨.plain, seq, agg, .IDPConfigChanged e⟩] }
            = .ok r ∧ r.State = wm.State) ∧
    (∀ (wm : JWTIDPWriteModel) (e : JWTConfigChangedEvent) (seq : Nat) (agg : Aggregate),
      (wm.reduceEvent ⟨.plain, seq, agg, .JWTConfigChanged e⟩).State = wm.State ∧
        ∃ r, JWTIDPWriteModel.Reduce { wm with Events := [⟨.plain, seq, agg, .JWTConfigChanged e⟩] }
            = .ok r ∧ r.State = wm.State) := by
  refine ⟨?_, ?_, ?_, ?_, ?_, ?_, ?_, ?_, ?_, ?_, ?_, ?_, ?_, ?_⟩
  · intro wm e seq agg
    have hstep : (wm.reduceEvent ⟨.plain, seq, agg, .OAuthIDPChanged e⟩).State = wm.State := rfl
    obtain ⟨r, hr, hs⟩ := OAuth_reduce_state wm [⟨.plain, seq, agg, .OAuthIDPChanged e⟩]
    refine ⟨rfl, hstep, ⟨r, hr, hs.trans hstep⟩, ?_⟩
    intro n h
    show assignIfSet e.Name wm.Name = n
    rw [h]; rfl
  · intro wm e seq agg
    have hstep : (wm.reduceEvent ⟨.plain, seq, agg, .OIDCIDPChanged e⟩).State = wm.State := rfl
    obtain ⟨r, hr, hs⟩ := OIDC_reduce_state wm [⟨.plain, seq, agg, .OIDCIDPChanged e⟩]
    refine ⟨rfl, hstep, ⟨r, hr, hs.trans hstep⟩, ?_⟩
    intro n h
    show assignIfSet e.Name wm.Name = n
    rw [h]; rfl
  · intro wm e seq agg
    have hstep : (wm.reduceEvent ⟨.plain, seq, agg, .JWTIDPChanged e⟩).State = wm.State := rfl
    obtain ⟨r, hr, hs⟩ := JWT_reduce_state wm [⟨.plain, seq, agg, .JWTIDPChanged e⟩]
    refine ⟨rfl, hstep, ⟨r, hr, hs.trans hstep⟩, ?_⟩
    intro n h
    show assignIfSet e.Name wm.Name = n
    rw [h]; rfl
  · intro wm e seq agg
    have hstep : (wm.reduceEvent ⟨.plain, seq, agg, .AzureADIDPChanged e⟩).State = wm.State := rfl
    obtain ⟨r, hr, hs⟩ := AzureAD_reduce_state wm [⟨.plain, seq, agg, .AzureADIDPChanged e⟩]
    refine ⟨rfl, hstep, ⟨r, hr, hs.trans hstep⟩, ?_⟩
    intro n h
    show assignIfSet e.Name wm.Name = n
    rw [h]; rfl
  · intro wm e seq agg
    have hstep : (wm.reduceEvent ⟨.plain, seq, agg, .GitHubIDPChanged e⟩).State = wm.State := rfl
    obtain ⟨r, hr, hs⟩ := GitHub_reduce_state wm [⟨.plain, seq, agg, .GitHubIDPChanged e⟩]
    refine ⟨rfl, hstep, ⟨r, hr, hs.trans hstep⟩, ?_⟩
    intro n h
    show assignIfSet e.Name wm.Name = n
    rw [h]; rfl
  · intro wm e seq agg
    have hstep : (wm.reduceEvent ⟨.plain, seq, agg, .GitHubEnterpriseIDPChanged e⟩).State = wm.State := rfl
    obtain ⟨r, hr, hs⟩ := GitHubEnterprise_reduce_state wm [⟨.plain, seq, agg, .GitHubEnterpriseIDPChanged e⟩]
    refine ⟨rfl, hstep, ⟨r, hr, hs.trans hstep⟩, ?_⟩
    intro n h
    show assignIfSet e.Name wm.Name = n
    rw [h]; rfl
  · intro wm e seq agg
    have hstep : (wm.reduceEvent ⟨.plain, seq, agg, .GitLabIDPChanged e⟩).State = wm.State := rfl
    obtain ⟨r, hr, hs⟩ := GitLab_reduce_state wm [⟨.plain, seq, agg, .GitLabIDPChanged e⟩]
    refine ⟨rfl, hstep, ⟨r, hr, hs.trans hstep⟩, ?_⟩
    intro n h
    show assignIfSet e.Name wm.Name = n
    rw [h]; rfl
  · intro wm e seq agg
    have hstep : (wm.reduceEvent ⟨.plain, seq, agg, .GitLabSelfHostedIDPChanged e⟩).State = wm.State := rfl
    obtain ⟨r, hr, hs⟩ := GitLabSelfHosted_reduce_state wm [⟨.plain, seq, agg, .GitLabSelfHostedIDPChanged e⟩]
    refine ⟨rfl, hstep, ⟨r, hr, hs.trans hstep⟩, ?_⟩
    intro n h
    show assignIfSet e.Name wm.Name = n
    rw [h]; rfl
  · intro wm e seq agg
    have hstep : (wm.reduceEvent ⟨.plain, seq, agg, .GoogleIDPChanged e⟩).State = wm.State := rfl
    obtain ⟨r, hr, hs⟩ := Google_reduce_state wm [⟨.plain, seq, agg, .GoogleIDPChanged e⟩]
    refine ⟨rfl, hstep, ⟨r, hr, hs.trans hstep⟩, ?_⟩
    intro n h
    show assignIfSet e.Name wm.Name = n
    rw [h]; rfl
  · intro wm e seq agg
    have hstep : (wm.reduceEvent ⟨.plain, seq, agg, .LDAPIDPChanged e⟩).State = wm.State := by
      simp only [LDAPIDPWriteModel.reduceEvent]
      split_ifs <;> rfl
    obtain ⟨r, hr, hs⟩ := LDAP_reduce_state wm [⟨.plain, seq, agg, .LDAPIDPChanged e⟩]
    refine ⟨rfl, hstep, ⟨r, hr, hs.trans hstep⟩, ?_⟩
    intro n hid h
    simp [LDAPIDPWriteModel.reduceEvent, LDAPIDPWriteModel.reduceChangedEvent, hid, h,
      assignIfSet]
  · intro wm e seq agg
    obtain ⟨r, hr, hs⟩ := OIDC_reduce_state wm [⟨.plain, seq, agg, .IDPConfigChanged e⟩]
    exact ⟨rfl, r, hr, hs⟩
  · intro wm e seq agg
    obtain ⟨r, hr, hs⟩ := OIDC_reduce_state wm [⟨.plain, seq, agg, .OIDCConfigChanged e⟩]
    exact ⟨rfl, r, hr, hs⟩
  · intro wm e seq agg
    obtain ⟨r, hr, hs⟩ := JWT_reduce_state wm [⟨.plain, seq, agg, .IDPConfigChanged e⟩]
    exact ⟨rfl, r, hr, hs⟩
  · intro wm e seq agg
    obtain ⟨r, hr, hs⟩ := JWT_reduce_state wm [⟨.plain, seq, agg, .JWTConfigChanged e⟩]
    exact ⟨rfl, r, hr, hs⟩

/-- An instance of C30: a changed event that carries the name `B`, folded into the removed
OAuth write model of the scenario, renames it and leaves it removed. -/
theorem changed_events_keep_state_witness :
    (OAuthIDPChangedEvent.withChanges [.ChangeOAuthName "B"]).Name = some "B" ∧
      (scenarioOAuthRemoved.reduceEvent
          ⟨.plain, 13, scenarioAggregate,
            .OAuthIDPChanged (OAuthIDPChangedEvent.withChanges [.ChangeOAuthName "B"])⟩).Name
        = "B" ∧
      (scenarioOAuthRemoved.reduceEvent
          ⟨.plain, 13, scenarioAggregate,
            .OAuthIDPChanged (OAuthIDPChangedEvent.withChanges [.ChangeOAuthName "B"])⟩).State
        = .IDPStateRemoved :=
  ⟨rfl,
    (changed_events_keep_state.1 scenarioOAuthRemoved
      (OAuthIDPChangedEvent.withChanges [.ChangeOAuthName "B"]) 13 scenarioAggregate).2.2.2 "B" rfl,
    (changed_events_keep_state.1 scenarioOAuthRemoved
      (OAuthIDPChangedEvent.withChanges [.ChangeOAuthName "B"]) 13 scenarioAggregate).2.1⟩

/-! ## Helper lemmas on filters, last effects and nil lists -/

/-! ## Lemmas on folds that keep an invariant -/

/-- Events that are skipped in every state that satisfies an invariant can be filtered
out of the fold. -/
theorem foldl_filter_inv {σ ε : Type} (step : σ → ε → σ) (p : ε → Bool) (inv : σ → Prop)
    (hinv : ∀ s e, inv s → inv (step s e))
    (h : ∀ s e, inv s → p e = false → step s e = s) (L : List ε) :
    ∀ s, inv s → (L.filter p).foldl step s = L.foldl step s := by
  induction L with
  | nil => intro s _; rfl
  | cons e rest ih =>
    intro s hs
    cases hp : p e
    · rw [List.filter_cons_of_neg (by simp [hp]), List.foldl_cons, h s e hs hp]
      exact ih s hs
    · rw [List.filter_cons_of_pos hp, List.foldl_cons, List.foldl_cons]
      exact ih _ (hinv s e hs)

/-- The last effect wins: if every step either skips its event or overwrites the same
fields with what the event carries, the fold is the start state with the last effect. -/
theorem foldl_last_effect {σ ε α : Type} (step : σ → ε → σ) (eff : ε → Option α)
    (set : σ → α → σ) (inv : σ → Prop) (hinv : ∀ s a, inv s → inv (set s a))
    (hstep : ∀ s e, inv s → step s e = (eff e).elim s (set s))
    (hset : ∀ s a b, set (set s a) b = set s b) (L : List ε) (s : σ) (hs : inv s) :
    L.foldl step s = ((L.filterMap eff).getLast?).elim s (set s) := by
  induction L using List.reverseRecOn with
  | nil => rfl
  | append_singleton l e ih =>
    have hX : inv (l.foldl step s) := by
      rw [ih]
      cases (l.filterMap eff).getLast? with
      | none => exact hs
      | some a => exact hinv s a hs
    rw [List.foldl_append, List.foldl_cons, List.foldl_nil, hstep _ e hX, List.filterMap_append]
    cases he : eff e with
    | none =>
      simp only [List.filterMap_cons, List.filterMap_nil, he, List.append_nil]
      exact ih
    | some b =>
      simp only [List.filterMap_cons, List.filterMap_nil, he, List.getLast?_concat]
      rw [ih]
      cases (l.filterMap eff).getLast? with
      | none => rfl
      | some a => exact hset s a b

/-- The last effect is the effect of an event of the list. -/
theorem getLast_filterMap_mem {ε α : Type} (eff : ε → Option α) (L : List ε) (a : α)
    (h : (L.filterMap eff).getLast? = some a) : ∃ e ∈ L, eff e = some a := by
  have hm : a ∈ L.filterMap eff := List.mem_of_mem_getLast? h
  exact List.mem_filterMap.1 hm

/-! ## Events about another provider -/

/-- The LDAP reducer skips every event that does not carry the `ID` of the write model. -/
theorem LDAP_step_foreign (wm : LDAPIDPWriteModel) (e : Event)
    (h : LDAPIDPWriteModel.eventID e ≠ some wm.ID) : wm.reduceEvent e = wm := by
  obtain ⟨pkg, seq, agg, payload⟩ := e
  cases pkg <;> cases payload <;>
    first
      | rfl
      | (simp only [LDAPIDPWriteModel.eventID, ne_eq, Option.some.injEq] at h
         simp only [LDAPIDPWriteModel.reduceEvent]
         exact if_pos (fun hc => h hc.symm))

/-- Folding only the events that carry the `ID` of the LDAP write model gives the same
state as folding all of them. -/
theorem LDAP_fold_own (wm : LDAPIDPWriteModel) (L : List Event) :
    (L.filter (fun e => decide (LDAPIDPWriteModel.eventID e = some wm.ID))).foldl
        LDAPIDPWriteModel.reduceEvent wm
      = L.foldl LDAPIDPWriteModel.reduceEvent wm :=
  foldl_filter_inv LDAPIDPWriteModel.reduceEvent _ (fun s => s.ID = wm.ID)
    (fun s e hs => (LDAP_step_id s e).trans hs)
    (fun s e hs hp => LDAP_step_foreign s e (by rw [hs]; simpa using hp)) L wm rfl

/-- One step of `IDPRemoveWriteModel.Reduce` assigns the state the event decides, if
any. -/
theorem IDPRemove_step_effect (s : IDPRemoveWriteModel) (id : String) (e : Event)
    (hs : s.ID = id) :
    s.reduceEvent e =
      (IDPRemoveWriteModel.decidedState id e).elim s (fun st => { s with State := st }) := by
  subst hs
  obtain ⟨pkg, seq, agg, payload⟩ := e
  cases pkg <;> cases payload <;>
    simp only [IDPRemoveWriteModel.reduceEvent, IDPRemoveWriteModel.decidedState,
      EventPayload.addedID, EventPayload.removedID, IDPRemoveWriteModel.reduceAdded,
      IDPRemoveWriteModel.reduceRemoved, if_true, if_false, Option.some.injEq, ne_eq,
      reduceCtorEq, Option.elim] <;>
    (try split_ifs) <;>
    first
      | rfl
      | (exfalso; simp_all)

/-- The fold of `IDPRemoveWriteModel.Reduce` leaves the state the last matching event
decides. -/
theorem IDPRemove_fold_effect (wm : IDPRemoveWriteModel) (L : List Event) :
    L.foldl IDPRemoveWriteModel.reduceEvent wm =
      ((L.filterMap (IDPRemoveWriteModel.decidedState wm.ID)).getLast?).elim wm
        (fun st => { wm with State := st }) :=
  foldl_last_effect IDPRemoveWriteModel.reduceEvent (IDPRemoveWriteModel.decidedState wm.ID)
    (fun s st => { s with State := st }) (fun s => s.ID = wm.ID) (fun _ _ hs => hs)
    (fun s e hs => IDPRemove_step_effect s wm.ID e hs) (fun _ _ _ => rfl) L wm rfl

/-- One step of `IDPTypeWriteModel.Reduce` applies the effect of the event, if any. -/
theorem IDPType_step_effect (s : IDPTypeWriteModel) (id : String) (e : Event)
    (hs : s.ID = id) :
    s.reduceEvent e =
      (IDPTypeWriteModel.matchingEffect id e).elim s s.withEffect := by
  subst hs
  obtain ⟨pkg, seq, agg, payload⟩ := e
  cases pkg <;> cases payload <;>
    simp only [IDPTypeWriteModel.reduceEvent, IDPTypeWriteModel.matchingEffect,
      EventPayload.addedID, EventPayload.removedID, EventPayload.addedKind,
      IDPTypeWriteModel.reduceAdded, IDPTypeWriteModel.reduceRemoved,
      IDPTypeWriteModel.reduceIDPConfigAdded, IDPTypeWriteModel.withEffect,
      if_true, if_false, Option.some.injEq, ne_eq, reduceCtorEq, Option.map_some',
      Option.map_none', Option.elim] <;>
    (try split_ifs) <;>
    first
      | rfl
      | (exfalso; simp_all)

/-- The fold of `IDPTypeWriteModel.Reduce` leaves the start state with the effect of the
last matching event. -/
theorem IDPType_fold_effect (wm : IDPTypeWriteModel) (L : List Event) :
    L.foldl IDPTypeWriteModel.reduceEvent wm =
      ((L.filterMap (IDPTypeWriteModel.matchingEffect wm.ID)).getLast?).elim wm
        wm.withEffect :=
  foldl_last_effect IDPTypeWriteModel.reduceEvent (IDPTypeWriteModel.matchingEffect wm.ID)
    IDPTypeWriteModel.withEffect (fun s => s.ID = wm.ID)
    (fun s a hs => by cases a <;> exact hs)
    (fun s e hs => IDPType_step_effect s wm.ID e hs)
    (fun s a b => by cases a <;> cases b <;> rfl) L wm rfl

/-- The kind of an added effect is one of the ten supported kinds, and its aggregate is
that of the event. -/
theorem matchingEffect_added (id : String) (e : Event) (kind : IDPType) (agg : Aggregate)
    (h : IDPTypeWriteModel.matchingEffect id e = some (.added kind agg)) :
    kind ∈ supportedKinds ∧ agg = e.Aggregate ∧ e.payload.addedID = some id ∧
      e.payload.addedKind = some kind ∧ e.pkg ≠ .plain := by
  obtain ⟨pkg, seq, ag, payload⟩ := e
  cases pkg <;> cases payload <;>
    simp only [IDPTypeWriteModel.matchingEffect, EventPayload.addedID, EventPayload.removedID,
      EventPayload.addedKind, if_true, if_false, Option.some.injEq, reduceCtorEq,
      Option.map_some', Option.map_none', IDPTypeEffect.added.injEq] at h <;>
    (try split_ifs at h) <;>
    simp_all [supportedKinds, EventPayload.addedID, EventPayload.addedKind]

/-- The result of `IDPTypeWriteModel.Reduce`: the domain fields are those the loop leaves,
and the embedded base is what the `Reduce` of the base returns for the base the loop
leaves. -/
theorem IDPType_reduce_base (wm : IDPTypeWriteModel) :
    ∃ r, wm.Reduce = .ok r ∧
      r.ID = (wm.Events.foldl IDPTypeWriteModel.reduceEvent wm).ID ∧
      r.Type_ = (wm.Events.foldl IDPTypeWriteModel.reduceEvent wm).Type_ ∧
      r.State = (wm.Events.foldl IDPTypeWriteModel.reduceEvent wm).State ∧
      (wm.Events.foldl IDPTypeWriteModel.reduceEvent wm).toWriteModel.Reduce
        = .ok r.toWriteModel :=
  ⟨_, IDPType_reduce_eq wm, rfl, rfl, rfl, by
    cases h : (List.foldl IDPTypeWriteModel.reduceEvent wm wm.Events).Events.getLast? <;>
      simp only [WriteModel.Reduce, h]⟩

/-- The fields of the result of `IDPRemoveWriteModel.Reduce` are those the loop leaves. -/
theorem IDPRemove_reduce_fields (wm : IDPRemoveWriteModel) :
    ∃ r, wm.Reduce = .ok r ∧
      r.ID = (wm.Events.foldl IDPRemoveWriteModel.reduceEvent wm).ID ∧
      r.State = (wm.Events.foldl IDPRemoveWriteModel.reduceEvent wm).State :=
  ⟨_, IDPRemove_reduce_eq wm, rfl, rfl⟩

/-- The state an event decides is active for an added event and removed for a removed
event of the watched provider. -/
theorem decidedState_cases (id : String) (e : Event) :
    (IDPRemoveWriteModel.decidedState id e = some .IDPStateActive ↔
      e.pkg = .plain ∧ e.payload.addedID = some id) ∧
    (IDPRemoveWriteModel.decidedState id e = some .IDPStateRemoved ↔
      e.pkg = .plain ∧ e.payload.removedID = some id) ∧
    (IDPRemoveWriteModel.decidedState id e = none ↔
      ¬ (e.pkg = .plain ∧ (e.payload.addedID = some id ∨ e.payload.removedID = some id))) ∧
    (∀ st, IDPRemoveWriteModel.decidedState id e = some st →
      st = .IDPStateActive ∨ st = .IDPStateRemoved) := by
  obtain ⟨pkg, seq, agg, payload⟩ := e
  cases pkg <;> cases payload <;>
    simp only [IDPRemoveWriteModel.decidedState, EventPayload.addedID, EventPayload.removedID,
      if_true, if_false, reduceCtorEq] <;>
    (try split_ifs) <;>
    simp_all

/-- The constructor call of `ToProvider`, with the option list written as one append. -/
theorem AzureAD_toProvider_call (wm : AzureADIDPWriteModel) {Provider : Type}
    (lib : ProviderLibraries Provider) (cb : String) (alg : EncryptionAlgorithm) (secret : String)
    (h : DecryptString wm.ClientSecret alg = .ok secret) :
    wm.ToProvider lib cb alg =
      lib.construct
        (.azureadNew wm.Name wm.ClientID secret cb wm.Scopes
          ((if wm.IsEmailVerified = true then [AzureADProviderOptions.WithEmailVerified] else []) ++
           ((if wm.Tenant ≠ "" then [AzureADProviderOptions.WithTenant wm.Tenant] else []) ++
            (if ((if wm.Options.IsCreationAllowed = true then
                    [OAuthProviderOpts.WithCreationAllowed] else []) ++
                 ((if wm.Options.IsLinkingAllowed = true then
                    [OAuthProviderOpts.WithLinkingAllowed] else []) ++
                 ((if wm.Options.IsAutoCreation = true then
                    [OAuthProviderOpts.WithAutoCreation] else []) ++
                 (if wm.Options.IsAutoUpdate = true then
                    [OAuthProviderOpts.WithAutoUpdate] else [])))).length > 0 then
              [AzureADProviderOptions.WithOAuthOptions
                ((if wm.Options.IsCreationAllowed = true then
                    [OAuthProviderOpts.WithCreationAllowed] else []) ++
                 ((if wm.Options.IsLinkingAllowed = true then
                    [OAuthProviderOpts.WithLinkingAllowed] else []) ++
                 ((if wm.Options.IsAutoCreation = true then
                    [OAuthProviderOpts.WithAutoCreation] else []) ++
                 (if wm.Options.IsAutoUpdate = true then
                    [OAuthProviderOpts.WithAutoUpdate] else []))))]
             else [])))) := by
  simp only [AzureADIDPWriteModel.ToProvider, h, ite_append_single]
  simp only [List.append_assoc, List.nil_append]

/-- A string that contains `@` is not empty. -/
theorem contains_at_ne_empty (s : String) (h : strings.Contains s "@" = true) : s ≠ "" := by
  intro hs
  subst hs
  revert h
  decide

/-- The email address of the filled-in instance setup. -/
theorem fill_email {KeyStorage Key Alg Commands MachineKey File : Type}
    (env : Collaborators KeyStorage Key Alg Commands MachineKey File) (mig : FirstInstance) :
    (mig.fillInstanceSetup env).Org.Human.Email.Address =
      if env.Normalize mig.Org.Human.Email.Address = "" then
        if !strings.Contains (mig.fillInstanceSetup env).Org.Human.Username "@" then
          (mig.fillInstanceSetup env).Org.Human.Username ++ "@"
            ++ env.NewIAMDomainName mig.Org.Name mig.externalDomain
        else (mig.fillInstanceSetup env).Org.Human.Username
      else env.Normalize mig.Org.Human.Email.Address := by
  unfold FirstInstance.fillInstanceSetup
  simp only
  split_ifs <;> rfl

/-! ## Desired nil lists -/

/-- A desired nil `Scopes` is not applied: the changed event that carries the change set
of `NewChanges` for it leaves `Scopes` as it was. -/
theorem OAuth_nil_Scopes_step (wm : OAuthIDPWriteModel) (name : String) (clientID : String)
    (clientSecretString : String) (authorizationEndpoint : String) (tokenEndpoint : String)
    (userEndpoint : String) (idAttribute : String) (options : Zitadel.Options)
    (v : Option CryptoValue) :
    (wm.reduceChangedEvent
      (OAuthIDPChangedEvent.withChanges (differingEntries
        ((decide (clientSecretString ≠ ""), .ChangeOAuthClientSecret v) ::
          wm.comparedFields name clientID authorizationEndpoint tokenEndpoint userEndpoint idAttribute none
            options)))).Scopes = wm.Scopes := by
  simp only [OAuthIDPWriteModel.reduceChangedEvent, OAuthIDPChangedEvent.withChanges,
    OAuthIDPWriteModel.comparedFields, differingEntries_cons, differingEntries_nil,
    List.foldl_append, foldl_ite_single, List.foldl_nil, OAuthIDPChanges.apply,
    OAuthIDPChangedEvent.empty, apply_ite OAuthIDPChangedEvent.Name,
    apply_ite OAuthIDPChangedEvent.ClientID, apply_ite OAuthIDPChangedEvent.ClientSecret,
    apply_ite OAuthIDPChangedEvent.AuthorizationEndpoint,
    apply_ite OAuthIDPChangedEvent.TokenEndpoint, apply_ite OAuthIDPChangedEvent.UserEndpoint,
    apply_ite OAuthIDPChangedEvent.Scopes, apply_ite OAuthIDPChangedEvent.IDAttribute,
    apply_ite OAuthIDPChangedEvent.OptionChanges, ite_self, decide_eq_true_eq]
  rfl

/-- A desired nil `Scopes` is not applied: the changed event that carries the change set
of `NewChanges` for it leaves `Scopes` as it was. -/
theorem OIDC_nil_Scopes_step (wm : OIDCIDPWriteModel) (name : String) (issuer : String)
    (clientID : String) (clientSecretString : String) (idTokenMapping : Bool)
    (options : Zitadel.Options) (v : Option CryptoValue) :
    (wm.reduceChangedEvent
      (OIDCIDPChangedEvent.withChanges (differingEntries
        ((decide (clientSecretString ≠ ""), .ChangeOIDCClientSecret v) ::
          wm.comparedFields name issuer clientID none idTokenMapping options)))).Scopes = wm.Scopes := by
  simp only [OIDCIDPWriteModel.reduceChangedEvent, OIDCIDPChangedEvent.withChanges,
    OIDCIDPWriteModel.comparedFields, differingEntries_cons, differingEntries_nil,
    List.foldl_append, foldl_ite_single, List.foldl_nil, OIDCIDPChanges.apply,
    OIDCIDPChangedEvent.empty, apply_ite OIDCIDPChangedEvent.Name,
    apply_ite OIDCIDPChangedEvent.Issuer, apply_ite OIDCIDPChangedEvent.ClientID,
    apply_ite OIDCIDPChangedEvent.ClientSecret, apply_ite OIDCIDPChangedEvent.Scopes,
    apply_ite OIDCIDPChangedEvent.IsIDTokenMapping, apply_ite OIDCIDPChangedEvent.OptionChanges,
    ite_self, decide_eq_true_eq]
  rfl

/-- A desired nil `Scopes` is not applied: the changed event that carries the change set
of `NewChanges` for it leaves `Scopes` as it was. -/
theorem AzureAD_nil_Scopes_step (wm : AzureADIDPWriteModel) (name : String) (clientID : String)
    (clientSecretString : String) (tenant : String) (isEmailVerified : Bool)
    (options : Zitadel.Options) (v : Option CryptoValue) :
    (wm.reduceChangedEvent
      (AzureADIDPChangedEvent.withChanges (differingEntries
        ((decide (clientSecretString ≠ ""), .ChangeAzureADClientSecret v) ::
          wm.comparedFields name clientID none tenant isEmailVerified options)))).Scopes = wm.Scopes := by
  simp only [AzureADIDPWriteModel.reduceChangedEvent, AzureADIDPChangedEvent.withChanges,
    AzureADIDPWriteModel.comparedFields, differingEntries_cons, differingEntries_nil,
    List.foldl_append, foldl_ite_single, List.foldl_nil, AzureADIDPChanges.apply,
    AzureADIDPChangedEvent.empty, apply_ite AzureADIDPChangedEvent.Name,
    apply_ite AzureADIDPChangedEvent.ClientID, apply_ite AzureADIDPChangedEvent.ClientSecret,
    apply_ite AzureADIDPChangedEvent.Scopes, apply_ite AzureADIDPChangedEvent.Tenant,
    apply_ite AzureADIDPChangedEvent.IsEmailVerified,
    apply_ite AzureADIDPChangedEvent.OptionChanges, ite_self, decide_eq_true_eq]
  rfl

/-- A desired nil `Scopes` is not applied: the changed event that carries the change set
of `NewChanges` for it leaves `Scopes` as it was. -/
theorem GitHub_nil_Scopes_step (wm : GitHubIDPWriteModel) (name : String) (clientID : String)
    (clientSecretString : String) (options : Zitadel.Options) (v : Option CryptoValue) :
    (wm.reduceChangedEvent
      (GitHubIDPChangedEvent.withChanges (differingEntries
        ((decide (clientSecretString ≠ ""), .ChangeGitHubClientSecret v) ::
          wm.comparedFields name clientID none options)))).Scopes = wm.Scopes := by
  simp only [GitHubIDPWriteModel.reduceChangedEvent, GitHubIDPChangedEvent.withChanges,
    GitHubIDPWriteModel.comparedFields, differingEntries_cons, differingEntries_nil,
    List.foldl_append, foldl_ite_single, List.foldl_nil, GitHubIDPChanges.apply,
    GitHubIDPChangedEvent.empty, apply_ite GitHubIDPChangedEvent.Name,
    apply_ite GitHubIDPChangedEvent.ClientID, apply_ite GitHubIDPChangedEvent.ClientSecret,
    apply_ite GitHubIDPChangedEvent.Scopes, apply_ite GitHubIDPChangedEvent.OptionChanges,
    ite_self, decide_eq_true_eq]
  rfl

/-- A desired nil `Scopes` is not applied: the changed event that carries the change set
of `NewChanges` for it leaves `Scopes` as it was. -/
theorem GitHubEnterprise_nil_Scopes_step (wm : GitHubEnterpriseIDPWriteModel) (name : String)
    (clientID : String) (clientSecretString : String) (authorizationEndpoint : String)
    (tokenEndpoint : String) (userEndpoint : String) (options : Zitadel.Options)
    (v : Option CryptoValue) :
    (wm.reduceChangedEvent
      (GitHubEnterpriseIDPChangedEvent.withChanges (differingEntries
        ((decide (clientSecretString ≠ ""), .ChangeGitHubEnterpriseClientSecret v) ::
          wm.comparedFields name clientID authorizationEndpoint tokenEndpoint userEndpoint none options)))).Scopes = wm.Scopes := by
  simp only [GitHubEnterpriseIDPWriteModel.reduceChangedEvent,
    GitHubEnterpriseIDPChangedEvent.withChanges, GitHubEnterpriseIDPWriteModel.comparedFields,
    differingEntries_cons, differingEntries_nil, List.foldl_append, foldl_ite_single,
    List.foldl_nil, GitHubEnterpriseIDPChanges.apply, GitHubEnterpriseIDPChangedEvent.empty,
    apply_ite GitHubEnterpriseIDPChangedEvent.Name,
    apply_ite GitHubEnterpriseIDPChangedEvent.ClientID,
    apply_ite GitHubEnterpriseIDPChangedEvent.ClientSecret,
    apply_ite GitHubEnterpriseIDPChangedEvent.AuthorizationEndpoint,
    apply_ite GitHubEnterpriseIDPChangedEvent.TokenEndpoint,
    apply_ite GitHubEnterpriseIDPChangedEvent.UserEndpoint,
    apply_ite GitHubEnterpriseIDPChangedEvent.Scopes,
    apply_ite GitHubEnterpriseIDPChangedEvent.OptionChanges, ite_self, decide_eq_true_eq]
  rfl

/-- A desired nil `Scopes` is not applied: the changed event that carries the change set
of `NewChanges` for it leaves `Scopes` as it was. -/
theorem GitLab_nil_Scopes_step (wm : GitLabIDPWriteModel) (name : String) (clientID : String)
    (clientSecretString : String) (options : Zitadel.Options) (v : Option CryptoValue) :
    (wm.reduceChangedEvent
      (GitLabIDPChangedEvent.withChanges (differingEntries
        ((decide (clientSecretString ≠ ""), .ChangeGitLabClientSecret v) ::
          wm.comparedFields name clientID none options)))).Scopes = wm.Scopes := by
  simp only [GitLabIDPWriteModel.reduceChangedEvent, GitLabIDPChangedEvent.withChanges,
    GitLabIDPWriteModel.comparedFields, differingEntries_cons, differingEntries_nil,
    List.foldl_append, foldl_ite_single, List.foldl_nil, GitLabIDPChanges.apply,
    GitLabIDPChangedEvent.empty, apply_ite GitLabIDPChangedEvent.Name,
    apply_ite GitLabIDPChangedEvent.ClientID, apply_ite GitLabIDPChangedEvent.ClientSecret,
    apply_ite GitLabIDPChangedEvent.Scopes, apply_ite GitLabIDPChangedEvent.OptionChanges,
    ite_self, decide_eq_true_eq]
  rfl

/-- A desired nil `Scopes` is not applied: the changed event that carries the change set
of `NewChanges` for it leaves `Scopes` as it was. -/
theorem GitLabSelfHosted_nil_Scopes_step (wm : GitLabSelfHostedIDPWriteModel) (name : String)
    (issuer : String) (clientID : String) (clientSecretString : String)
    (options : Zitadel.Options) (v : Option CryptoValue) :
    (wm.reduceChangedEvent
      (GitLabSelfHostedIDPChangedEvent.withChanges (differingEntries
        ((decide (clientSecretString ≠ ""), .ChangeGitLabSelfHostedClientSecret v) ::
          wm.comparedFields name issuer clientID none options)))).Scopes = wm.Scopes := by
  simp only [GitLabSelfHostedIDPWriteModel.reduceChangedEvent,
    GitLabSelfHostedIDPChangedEvent.withChanges, GitLabSelfHostedIDPWriteModel.comparedFields,
    differingEntries_cons, differingEntries_nil, List.foldl_append, foldl_ite_single,
    List.foldl_nil, GitLabSelfHostedIDPChanges.apply, GitLabSelfHostedIDPChangedEvent.empty,
    apply_ite GitLabSelfHostedIDPChangedEvent.Name,
    apply_ite GitLabSelfHostedIDPChangedEvent.Issuer,
    apply_ite GitLabSelfHostedIDPChangedEvent.ClientID,
    apply_ite GitLabSelfHostedIDPChangedEvent.ClientSecret,
    apply_ite GitLabSelfHostedIDPChangedEvent.Scopes,
    apply_ite GitLabSelfHostedIDPChangedEvent.OptionChanges, ite_self, decide_eq_true_eq]
  rfl

/-- A desired nil `Scopes` is not applied: the changed event that carries the change set
of `NewChanges` for it leaves `Scopes` as it was. -/
theorem Google_nil_Scopes_step (wm : GoogleIDPWriteModel) (name : String) (clientID : String)
    (clientSecretString : String) (options : Zitadel.Options) (v : Option CryptoValue) :
    (wm.reduceChangedEvent
      (GoogleIDPChangedEvent.withChanges (differingEntries
        ((decide (clientSecretString ≠ ""), .ChangeGoogleClientSecret v) ::
          wm.comparedFields name clientID none options)))).Scopes = wm.Scopes := by
  simp only [GoogleIDPWriteModel.reduceChangedEvent, GoogleIDPChangedEvent.withChanges,
    GoogleIDPWriteModel.comparedFields, differingEntries_cons, differingEntries_nil,
    List.foldl_append, foldl_ite_single, List.foldl_nil, GoogleIDPChanges.apply,
    GoogleIDPChangedEvent.empty, apply_ite GoogleIDPChangedEvent.Name,
    apply_ite GoogleIDPChangedEvent.ClientID, apply_ite GoogleIDPChangedEvent.ClientSecret,
    apply_ite GoogleIDPChangedEvent.Scopes, apply_ite GoogleIDPChangedEvent.OptionChanges,
    ite_self, decide_eq_true_eq]
  rfl

/-- A desired nil `Servers` is not applied: the changed event that carries the change set
of `NewChanges` for it leaves `Servers` as it was. -/
theorem LDAP_nil_Servers_step (wm : LDAPIDPWriteModel) (name : String) (startTLS : Bool)
    (baseDN : String) (bindDN : String) (bindPassword : String) (userBase : String)
    (userObjectClasses : StringSlice) (userFilters : StringSlice) (timeout : Int)
    (attributes : Zitadel.LDAPAttributes) (options : Zitadel.Options) (v : Option CryptoValue) :
    (wm.reduceChangedEvent
      (LDAPIDPChangedEvent.withChanges wm.ID (differingEntries
        ((decide (bindPassword ≠ ""), .ChangeLDAPBindPassword v) ::
          wm.comparedFields name none startTLS baseDN bindDN userBase userObjectClasses userFilters timeout
            attributes options)))).Servers = wm.Servers := by
  simp only [LDAPIDPWriteModel.reduceChangedEvent, LDAPIDPChangedEvent.withChanges,
    LDAPIDPWriteModel.comparedFields, differingEntries_cons, differingEntries_nil,
    List.foldl_append, foldl_ite_single, List.foldl_nil, LDAPIDPChanges.apply,
    LDAPIDPChangedEvent.empty, apply_ite LDAPIDPChangedEvent.Name,
    apply_ite LDAPIDPChangedEvent.Servers, apply_ite LDAPIDPChangedEvent.StartTLS,
    apply_ite LDAPIDPChangedEvent.BaseDN, apply_ite LDAPIDPChangedEvent.BindDN,
    apply_ite LDAPIDPChangedEvent.BindPassword, apply_ite LDAPIDPChangedEvent.UserBase,
    apply_ite LDAPIDPChangedEvent.UserObjectClasses, apply_ite LDAPIDPChangedEvent.UserFilters,
    apply_ite LDAPIDPChangedEvent.Timeout, apply_ite LDAPIDPChangedEvent.OptionChanges,
    apply_ite LDAPIDPChangedEvent.LDAPAttributeChanges, apply_ite LDAPIDPChangedEvent.ID,
    ite_self, decide_eq_true_eq]
  rfl

/-- A desired nil `UserObjectClasses` is not applied: the changed event that carries the change set
of `NewChanges` for it leaves `UserObjectClasses` as it was. -/
theorem LDAP_nil_UserObjectClasses_step (wm : LDAPIDPWriteModel) (name : String)
    (servers : StringSlice) (startTLS : Bool) (baseDN : String) (bindDN : String)
    (bindPassword : String) (userBase : String) (userFilters : StringSlice) (timeout : Int)
    (attributes : Zitadel.LDAPAttributes) (options : Zitadel.Options) (v : Option CryptoValue) :
    (wm.reduceChangedEvent
      (LDAPIDPChangedEvent.withChanges wm.ID (differingEntries
        ((decide (bindPassword ≠ ""), .ChangeLDAPBindPassword v) ::
          wm.comparedFields name servers startTLS baseDN bindDN userBase none userFilters timeout attributes
            options)))).UserObjectClasses = wm.UserObjectClasses := by
  simp only [LDAPIDPWriteModel.reduceChangedEvent, LDAPIDPChangedEvent.withChanges,
    LDAPIDPWriteModel.comparedFields, differingEntries_cons, differingEntries_nil,
    List.foldl_append, foldl_ite_single, List.foldl_nil, LDAPIDPChanges.apply,
    LDAPIDPChangedEvent.empty, apply_ite LDAPIDPChangedEvent.Name,
    apply_ite LDAPIDPChangedEvent.Servers, apply_ite LDAPIDPChangedEvent.StartTLS,
    apply_ite LDAPIDPChangedEvent.BaseDN, apply_ite LDAPIDPChangedEvent.BindDN,
    apply_ite LDAPIDPChangedEvent.BindPassword, apply_ite LDAPIDPChangedEvent.UserBase,
    apply_ite LDAPIDPChangedEvent.UserObjectClasses, apply_ite LDAPIDPChangedEvent.UserFilters,
    apply_ite LDAPIDPChangedEvent.Timeout, apply_ite LDAPIDPChangedEvent.OptionChanges,
    apply_ite LDAPIDPChangedEvent.LDAPAttributeChanges, apply_ite LDAPIDPChangedEvent.ID,
    ite_self, decide_eq_true_eq]
  rfl

/-- A desired nil `UserFilters` is not applied: the changed event that carries the change set
of `NewChanges` for it leaves `UserFilters` as it was. -/
theorem LDAP_nil_UserFilters_step (wm : LDAPIDPWriteModel) (name : String) (servers : StringSlice)
    (startTLS : Bool) (baseDN : String) (bindDN : String) (bindPassword : String)
    (userBase : String) (userObjectClasses : StringSlice) (timeout : Int)
    (attributes : Zitadel.LDAPAttributes) (options : Zitadel.Options) (v : Option CryptoValue) :
    (wm.reduceChangedEvent
      (LDAPIDPChangedEvent.withChanges wm.ID (differingEntries
        ((decide (bindPassword ≠ ""), .ChangeLDAPBindPassword v) ::
          wm.comparedFields name servers startTLS baseDN bindDN userBase userObjectClasses none timeout
            attributes options)))).UserFilters = wm.UserFilters := by
  simp only [LDAPIDPWriteModel.reduceChangedEvent, LDAPIDPChangedEvent.withChanges,
    LDAPIDPWriteModel.comparedFields, differingEntries_cons, differingEntries_nil,
    List.foldl_append, foldl_ite_single, List.foldl_nil, LDAPIDPChanges.apply,
    LDAPIDPChangedEvent.empty, apply_ite LDAPIDPChangedEvent.Name,
    apply_ite LDAPIDPChangedEvent.Servers, apply_ite LDAPIDPChangedEvent.StartTLS,
    apply_ite LDAPIDPChangedEvent.BaseDN, apply_ite LDAPIDPChangedEvent.BindDN,
    apply_ite LDAPIDPChangedEvent.BindPassword, apply_ite LDAPIDPChangedEvent.UserBase,
    apply_ite LDAPIDPChangedEvent.UserObjectClasses, apply_ite LDAPIDPChangedEvent.UserFilters,
    apply_ite LDAPIDPChangedEvent.Timeout, apply_ite LDAPIDPChangedEvent.OptionChanges,
    apply_ite LDAPIDPChangedEvent.LDAPAttributeChanges, apply_ite LDAPIDPChangedEvent.ID,
    ite_self, decide_eq_true_eq]
  rfl

/-! ## Batches, matching events, lists and option lists -/

/-- C31: batching does not matter. For each of the ten provider write models,
`IDPRemoveWriteModel` and `IDPTypeWriteModel`, every write model `wm` of it and every two
event lists `L1` and `L2`: `Reduce` on the buffer `L1`, followed by `Reduce` of the result
on the buffer `L2`, and `Reduce` of `wm` on the buffer `L1 ++ L2` all return without
error, and the two final write models agree on every domain field. -/
theorem reduce_batching_does_not_matter :
    (∀ (wm : OAuthIDPWriteModel) (L1 L2 : List Event),
      ∃ r1 r2 r,
        OAuthIDPWriteModel.Reduce { wm with Events := L1 } = .ok r1 ∧
        OAuthIDPWriteModel.Reduce { r1 with Events := L2 } = .ok r2 ∧
        OAuthIDPWriteModel.Reduce { wm with Events := L1 ++ L2 } = .ok r ∧
        OAuthIDPWriteModel.SameDomain r r2) ∧
    (∀ (wm : OIDCIDPWriteModel) (L1 L2 : List Event),
      ∃ r1 r2 r,
        OIDCIDPWriteModel.Reduce { wm with Events := L1 } = .ok r1 ∧
        OIDCIDPWriteModel.Reduce { r1 with Events := L2 } = .ok r2 ∧
        OIDCIDPWriteModel.Reduce { wm with Events := L1 ++ L2 } = .ok r ∧
        OIDCIDPWriteModel.SameDomain r r2) ∧
    (∀ (wm : JWTIDPWriteModel) (L1 L2 : List Event),
      ∃ r1 r2 r,
        JWTIDPWriteModel.Reduce { wm with Events := L1 } = .ok r1 ∧
        JWTIDPWriteModel.Reduce { r1 with Events := L2 } = .ok r2 ∧
        JWTIDPWriteModel.Reduce { wm with Events := L1 ++ L2 } = .ok r ∧
        JWTIDPWriteModel.SameDomain r r2) ∧
    (∀ (wm : AzureADIDPWriteModel) (L1 L2 : List Event),
      ∃ r1 r2 r,
        AzureADIDPWriteModel.Reduce { wm with Events := L1 } = .ok r1 ∧
        AzureADIDPWriteModel.Reduce { r1 with Events := L2 } = .ok r2 ∧
        AzureADIDPWriteModel.Reduce { wm with Events := L1 ++ L2 } = .ok r ∧
        AzureADIDPWriteModel.SameDomain r r2) ∧
    (∀ (wm : GitHubIDPWriteModel) (L1 L2 : List Event),
      ∃ r1 r2 r,
        GitHubIDPWriteModel.Reduce { wm with Events := L1 } = .ok r1 ∧
        GitHubIDPWriteModel.Reduce { r1 with Events := L2 } = .ok r2 ∧
        GitHubIDPWriteModel.Reduce { wm with Events := L1 ++ L2 } = .ok r ∧
        GitHubIDPWriteModel.SameDomain r r2) ∧
    (∀ (wm : GitHubEnterpriseIDPWriteModel) (L1 L2 : List Event),
      ∃ r1 r2 r,
        GitHubEnterpriseIDPWriteModel.Reduce { wm with Events := L1 } = .ok r1 ∧
        GitHubEnterpriseIDPWriteModel.Reduce { r1 with Events := L2 } = .ok r2 ∧
        GitHubEnterpriseIDPWriteModel.Reduce { wm with Events := L1 ++ L2 } = .ok r ∧
        GitHubEnterpriseIDPWriteModel.SameDomain r r2) ∧
    (∀ (wm : GitLabIDPWriteModel) (L1 L2 : List Event),
      ∃ r1 r2 r,
        GitLabIDPWriteModel.Reduce { wm with Events := L1 } = .ok r1 ∧
        GitLabIDPWriteModel.Reduce { r1 with Events := L2 } = .ok r2 ∧
        GitLabIDPWriteModel.Reduce { wm with Events := L1 ++ L2 } = .ok r ∧
        GitLabIDPWriteModel.SameDomain r r2) ∧
    (∀ (wm : GitLabSelfHostedIDPWriteModel) (L1 L2 : List Event),
      ∃ r1 r2 r,
        GitLabSelfHostedIDPWriteModel.Reduce { wm with Events := L1 } = .ok r1 ∧
        GitLabSelfHostedIDPWriteModel.Reduce { r1 with Events := L2 } = .ok r2 ∧
        GitLabSelfHostedIDPWriteModel.Reduce { wm with Events := L1 ++ L2 } = .ok r ∧
        GitLabSelfHostedIDPWriteModel.SameDomain r r2) ∧
    (∀ (wm : GoogleIDPWriteModel) (L1 L2 : List Event),
      ∃ r1 r2 r,
        GoogleIDPWriteModel.Reduce { wm with Events := L1 } = .ok r1 ∧
        GoogleIDPWriteModel.Reduce { r1 with Events := L2 } = .ok r2 ∧
        GoogleIDPWriteModel.Reduce { wm with Events := L1 ++ L2 } = .ok r ∧
        GoogleIDPWriteModel.SameDomain r r2) ∧
    (∀ (wm : LDAPIDPWriteModel) (L1 L2 : List Event),
      ∃ r1 r2 r,
        LDAPIDPWriteModel.Reduce { wm with Events := L1 } = .ok r1 ∧
        LDAPIDPWriteModel.Reduce { r1 with Events := L2 } = .ok r2 ∧
        LDAPIDPWriteModel.Reduce { wm with Events := L1 ++ L2 } = .ok r ∧
        LDAPIDPWriteModel.SameDomain r r2) ∧
    (∀ (wm : IDPRemoveWriteModel) (L1 L2 : List Event),
      ∃ r1 r2 r,
        IDPRemoveWriteModel.Reduce { wm with Events := L1 } = .ok r1 ∧
        IDPRemoveWriteModel.Reduce { r1 with Events := L2 } = .ok r2 ∧
        IDPRemoveWriteModel.Reduce { wm with Events := L1 ++ L2 } = .ok r ∧
        IDPRemoveWriteModel.SameDomain r r2) ∧
    (∀ (wm : IDPTypeWriteModel) (L1 L2 : List Event),
      ∃ r1 r2 r,
        IDPTypeWriteModel.Reduce { wm with Events := L1 } = .ok r1 ∧
        IDPTypeWriteModel.Reduce { r1 with Events := L2 } = .ok r2 ∧
        IDPTypeWriteModel.Reduce { wm with Events := L1 ++ L2 } = .ok r ∧
        IDPTypeWriteModel.SameDomain r r2) := by
  refine ⟨?_, ?_, ?_, ?_, ?_, ?_, ?_, ?_, ?_, ?_, ?_, ?_⟩
  · intro wm L1 L2
    obtain ⟨r1, h1, s1⟩ := OAuth_reduce_events wm L1
    obtain ⟨r2, h2, s2⟩ := OAuth_reduce_events r1 L2
    obtain ⟨r, h, s⟩ := OAuth_reduce_events wm (L1 ++ L2)
    rw [List.foldl_append] at s
    exact ⟨r1, r2, r, h1, h2, h, OAuth_same_trans s
      (OAuth_same_symm (OAuth_same_trans s2 (foldl_rel _ _ OAuth_step_same L2 _ _ s1)))⟩
  · intro wm L1 L2
    obtain ⟨r1, h1, s1⟩ := OIDC_reduce_events wm L1
    obtain ⟨r2, h2, s2⟩ := OIDC_reduce_events r1 L2
    obtain ⟨r, h, s⟩ := OIDC_reduce_events wm (L1 ++ L2)
    rw [List.foldl_append] at s
    exact ⟨r1, r2, r, h1, h2, h, OIDC_same_trans s
      (OIDC_same_symm (OIDC_same_trans s2 (foldl_rel _ _ OIDC_step_same L2 _ _ s1)))⟩
  · intro wm L1 L2
    obtain ⟨r1, h1, s1⟩ := JWT_reduce_events wm L1
    obtain ⟨r2, h2, s2⟩ := JWT_reduce_events r1 L2
    obtain ⟨r, h, s⟩ := JWT_reduce_events wm (L1 ++ L2)
    rw [List.foldl_append] at s
    exact ⟨r1, r2, r, h1, h2, h, JWT_same_trans s
      (JWT_same_symm (JWT_same_trans s2 (foldl_rel _ _ JWT_step_same L2 _ _ s1)))⟩
  · intro wm L1 L2
    obtain ⟨r1, h1, s1⟩ := AzureAD_reduce_events wm L1
    obtain ⟨r2, h2, s2⟩ := AzureAD_reduce_events r1 L2
    obtain ⟨r, h, s⟩ := AzureAD_reduce_events wm (L1 ++ L2)
    rw [List.foldl_append] at s
    exact ⟨r1, r2, r, h1, h2, h, AzureAD_same_trans s
      (AzureAD_same_symm (AzureAD_same_trans s2 (foldl_rel _ _ AzureAD_step_same L2 _ _ s1)))⟩
  · intro wm L1 L2
    obtain ⟨r1, h1, s1⟩ := GitHub_reduce_events wm L1
    obtain ⟨r2, h2, s2⟩ := GitHub_reduce_events r1 L2
    obtain ⟨r, h, s⟩ := GitHub_reduce_events wm (L1 ++ L2)
    rw [List.foldl_append] at s
    exact ⟨r1, r2, r, h1, h2, h, GitHub_same_trans s
      (GitHub_same_symm (GitHub_same_trans s2 (foldl_rel _ _ GitHub_step_same L2 _ _ s1)))⟩
  · intro wm L1 L2
    obtain ⟨r1, h1, s1⟩ := GitHubEnterprise_reduce_events wm L1
    obtain ⟨r2, h2, s2⟩ := GitHubEnterprise_reduce_events r1 L2
    obtain ⟨r, h, s⟩ := GitHubEnterprise_reduce_events wm (L1 ++ L2)
    rw [List.foldl_append] at s
    exact ⟨r1, r2, r, h1, h2, h, GitHubEnterprise_same_trans s
      (GitHubEnterprise_same_symm (GitHubEnterprise_same_trans s2 (foldl_rel _ _ GitHubEnterprise_step_same L2 _ _ s1)))⟩
  · intro wm L1 L2
    obtain ⟨r1, h1, s1⟩ := GitLab_reduce_events wm L1
    obtain ⟨r2, h2, s2⟩ := GitLab_reduce_events r1 L2
    obtain ⟨r, h, s⟩ := GitLab_reduce_events wm (L1 ++ L2)
    rw [List.foldl_append] at s
    exact ⟨r1, r2, r, h1, h2, h, GitLab_same_trans s
      (GitLab_same_symm (GitLab_same_trans s2 (foldl_rel _ _ GitLab_step_same L2 _ _ s1)))⟩
  · intro wm L1 L2
    obtain ⟨r1, h1, s1⟩ := GitLabSelfHosted_reduce_events wm L1
    obtain ⟨r2, h2, s2⟩ := GitLabSelfHosted_reduce_events r1 L2
    obtain ⟨r, h, s⟩ := GitLabSelfHosted_reduce_events wm (L1 ++ L2)
    rw [List.foldl_append] at s
    exact ⟨r1, r2, r, h1, h2, h, GitLabSelfHosted_same_trans s
      (GitLabSelfHosted_same_symm (GitLabSelfHosted_same_trans s2 (foldl_rel _ _ GitLabSelfHosted_step_same L2 _ _ s1)))⟩
  · intro wm L1 L2
    obtain ⟨r1, h1, s1⟩ := Google_reduce_events wm L1
    obtain ⟨r2, h2, s2⟩ := Google_reduce_events r1 L2
    obtain ⟨r, h, s⟩ := Google_reduce_events wm (L1 ++ L2)
    rw [List.foldl_append] at s
    exact ⟨r1, r2, r, h1, h2, h, Google_same_trans s
      (Google_same_symm (Google_same_trans s2 (foldl_rel _ _ Google_step_same L2 _ _ s1)))⟩
  · intro wm L1 L2
    obtain ⟨r1, h1, s1⟩ := LDAP_reduce_events wm L1
    obtain ⟨r2, h2, s2⟩ := LDAP_reduce_events r1 L2
    obtain ⟨r, h, s⟩ := LDAP_reduce_events wm (L1 ++ L2)
    rw [List.foldl_append] at s
    exact ⟨r1, r2, r, h1, h2, h, LDAP_same_trans s
      (LDAP_same_symm (LDAP_same_trans s2 (foldl_rel _ _ LDAP_step_same L2 _ _ s1)))⟩
  · intro wm L1 L2
    obtain ⟨r1, h1, s1⟩ := IDPRemove_reduce_events wm L1
    obtain ⟨r2, h2, s2⟩ := IDPRemove_reduce_events r1 L2
    obtain ⟨r, h, s⟩ := IDPRemove_reduce_events wm (L1 ++ L2)
    rw [List.foldl_append] at s
    exact ⟨r1, r2, r, h1, h2, h, IDPRemove_same_trans s
      (IDPRemove_same_symm (IDPRemove_same_trans s2 (foldl_rel _ _ IDPRemove_step_same L2 _ _ s1)))⟩
  · intro wm L1 L2
    obtain ⟨r1, h1, s1⟩ := IDPType_reduce_events wm L1
    obtain ⟨r2, h2, s2⟩ := IDPType_reduce_events r1 L2
    obtain ⟨r, h, s⟩ := IDPType_reduce_events wm (L1 ++ L2)
    rw [List.foldl_append] at s
    exact ⟨r1, r2, r, h1, h2, h, IDPType_same_trans s
      (IDPType_same_symm (IDPType_same_trans s2 (foldl_rel _ _ IDPType_step_same L2 _ _ s1)))⟩

/-- C32: the LDAP write model filters events by ID. An `LDAPIDPAddedEvent`, an
`LDAPIDPChangedEvent` or a `RemovedEvent` whose `ID` differs from the `ID` of the write
model, like every event of another type, leaves the write model as it is, and one whose
`ID` is that of the write model is applied; the `ID` never changes; so folding a list of
events gives the state that folding only its events with the `ID` of the write model
gives, and `Reduce` on the two buffers returns write models that agree on every domain
field. Each of the other nine provider write models applies every added and every changed
event of its variant and every `RemovedEvent`, whatever id the event carries: the added
event activates the model and the removed event removes it. -/
theorem ldap_filters_events_by_id :
    (∀ (wm : LDAPIDPWriteModel) (e : Event),
      LDAPIDPWriteModel.eventID e ≠ some wm.ID → wm.reduceEvent e = wm) ∧
    (∀ (wm : LDAPIDPWriteModel) (seq : Nat) (agg : Aggregate) (a : LDAPIDPAddedEvent)
        (c : LDAPIDPChangedEvent) (x : RemovedEvent),
      (wm.ID ≠ a.ID → wm.reduceEvent ⟨.plain, seq, agg, .LDAPIDPAdded a⟩ = wm) ∧
      (wm.ID ≠ c.ID → wm.reduceEvent ⟨.plain, seq, agg, .LDAPIDPChanged c⟩ = wm) ∧
      (wm.ID ≠ x.ID → wm.reduceEvent ⟨.plain, seq, agg, .Removed x⟩ = wm) ∧
      (wm.ID = a.ID →
        wm.reduceEvent ⟨.plain, seq, agg, .LDAPIDPAdded a⟩ = wm.reduceAddedEvent a) ∧
      (wm.ID = c.ID →
        wm.reduceEvent ⟨.plain, seq, agg, .LDAPIDPChanged c⟩ = wm.reduceChangedEvent c) ∧
      (wm.ID = x.ID →
        wm.reduceEvent ⟨.plain, seq, agg, .Removed x⟩
          = { wm with State := .IDPStateRemoved })) ∧
    (∀ (wm : LDAPIDPWriteModel) (L : List Event),
      (L.foldl LDAPIDPWriteModel.reduceEvent wm).ID = wm.ID ∧
      L.foldl LDAPIDPWriteModel.reduceEvent wm
        = (L.filter (fun e => decide (LDAPIDPWriteModel.eventID e = some wm.ID))).foldl
            LDAPIDPWriteModel.reduceEvent wm ∧
      ∃ r r',
        LDAPIDPWriteModel.Reduce { wm with Events := L } = .ok r ∧
        LDAPIDPWriteModel.Reduce
          { wm with
            Events := L.filter (fun e => decide (LDAPIDPWriteModel.eventID e = some wm.ID)) }
          = .ok r' ∧
        LDAPIDPWriteModel.SameDomain r r') ∧
    (∀ (wm : OAuthIDPWriteModel) (seq : Nat) (agg : Aggregate) (a : OAuthIDPAddedEvent)
        (c : OAuthIDPChangedEvent) (x : RemovedEvent),
      wm.reduceEvent ⟨.plain, seq, agg, .OAuthIDPAdded a⟩ = wm.reduceAddedEvent a ∧
      (wm.reduceEvent ⟨.plain, seq, agg, .OAuthIDPAdded a⟩).State = .IDPStateActive ∧
      wm.reduceEvent ⟨.plain, seq, agg, .OAuthIDPChanged c⟩ = wm.reduceChangedEvent c ∧
      wm.reduceEvent ⟨.plain, seq, agg, .Removed x⟩
        = { wm with State := .IDPStateRemoved }) ∧
    (∀ (wm : OIDCIDPWriteModel) (seq : Nat) (agg : Aggregate) (a : OIDCIDPAddedEvent)
        (c : OIDCIDPChangedEvent) (x : RemovedEvent),
      wm.reduceEvent ⟨.plain, seq, agg, .OIDCIDPAdded a⟩ = wm.reduceAddedEvent a ∧
      (wm.reduceEvent ⟨.plain, seq, agg, .OIDCIDPAdded a⟩).State = .IDPStateActive ∧
      wm.reduceEvent ⟨.plain, seq, agg, .OIDCIDPChanged c⟩ = wm.reduceChangedEvent c ∧
      wm.reduceEvent ⟨.plain, seq, agg, .Removed x⟩
        = { wm with State := .IDPStateRemoved }) ∧
    (∀ (wm : JWTIDPWriteModel) (seq : Nat) (agg : Aggregate) (a : JWTIDPAddedEvent)
        (c : JWTIDPChangedEvent) (x : RemovedEvent),
      wm.reduceEvent ⟨.plain, seq, agg, .JWTIDPAdded a⟩ = wm.reduceAddedEvent a ∧
      (wm.reduceEvent ⟨.plain, seq, agg, .JWTIDPAdded a⟩).State = .IDPStateActive ∧
      wm.reduceEvent ⟨.plain, seq, agg, .JWTIDPChanged c⟩ = wm.reduceChangedEvent c ∧
      wm.reduceEvent ⟨.plain, seq, agg, .Removed x⟩
        = { wm with State := .IDPStateRemoved }) ∧
    (∀ (wm : AzureADIDPWriteModel) (seq : Nat) (agg : Aggregate) (a : AzureADIDPAddedEvent)
        (c : AzureADIDPChangedEvent) (x : RemovedEvent),
      wm.reduceEvent ⟨.plain, seq, agg, .AzureADIDPAdded a⟩ = wm.reduceAddedEvent a ∧
      (wm.reduceEvent ⟨.plain, seq, agg, .AzureADIDPAdded a⟩).State = .IDPStateActive ∧
      wm.reduceEvent ⟨.plain, seq, agg, .AzureADIDPChanged c⟩ = wm.reduceChangedEvent c ∧
      wm.reduceEvent ⟨.plain, seq, agg, .Removed x⟩
        = { wm with State := .IDPStateRemoved }) ∧
    (∀ (wm : GitHubIDPWriteModel) (seq : Nat) (agg : Aggregate) (a : GitHubIDPAddedEvent)
        (c : GitHubIDPChangedEvent) (x : RemovedEvent),
      wm.reduceEvent ⟨.plain, seq, agg, .GitHubIDPAdded a⟩ = wm.reduceAddedEvent a ∧
      (wm.reduceEvent ⟨.plain, seq, agg, .GitHubIDPAdded a⟩).State = .IDPStateActive ∧
      wm.reduceEvent ⟨.plain, seq, agg, .GitHubIDPChanged c⟩ = wm.reduceChangedEvent c ∧
      wm.reduceEvent ⟨.plain, seq, agg, .Removed x⟩
        = { wm with State := .IDPStateRemoved }) ∧
    (∀ (wm : GitHubEnterpriseIDPWriteModel) (seq : Nat) (agg : Aggregate) (a : GitHubEnterpriseIDPAddedEvent)
        (c : GitHubEnterpriseIDPChangedEvent) (x : RemovedEvent),
      wm.reduceEvent ⟨.plain, seq, agg, .GitHubEnterpriseIDPAdded a⟩ = wm.reduceAddedEvent a ∧
      (wm.reduceEvent ⟨.plain, seq, agg, .GitHubEnterpriseIDPAdded a⟩).State = .IDPStateActive ∧
      wm.reduceEvent ⟨.plain, seq, agg, .GitHubEnterpriseIDPChanged c⟩ = wm.reduceChangedEvent c ∧
      wm.reduceEvent ⟨.plain, seq, agg, .Removed x⟩
        = { wm with State := .IDPStateRemoved }) ∧
    (∀ (wm : GitLabIDPWriteModel) (seq : Nat) (agg : Aggregate) (a : GitLabIDPAddedEvent)
        (c : GitLabIDPChangedEvent) (x : RemovedEvent),
      wm.reduceEvent ⟨.plain, seq, agg, .GitLabIDPAdded a⟩ = wm.reduceAddedEvent a ∧
      (wm.reduceEvent ⟨.plain, seq, agg, .GitLabIDPAdded a⟩).State = .IDPStateActive ∧
      wm.reduceEvent ⟨.plain, seq, agg, .GitLabIDPChanged c⟩ = wm.reduceChangedEvent c ∧
      wm.reduceEvent ⟨.plain, seq, agg, .Removed x⟩
        = { wm with State := .IDPStateRemoved }) ∧
    (∀ (wm : GitLabSelfHostedIDPWriteModel) (seq : Nat) (agg : Aggregate) (a : GitLabSelfHostedIDPAddedEvent)
        (c : GitLabSelfHostedIDPChangedEvent) (x : RemovedEvent),
      wm.reduceEvent ⟨.plain, seq, agg, .GitLabSelfHostedIDPAdded a⟩ = wm.reduceAddedEvent a ∧
      (wm.reduceEvent ⟨.plain, seq, agg, .GitLabSelfHostedIDPAdded a⟩).State = .IDPStateActive ∧
      wm.reduceEvent ⟨.plain, seq, agg, .GitLabSelfHostedIDPChanged c⟩ = wm.reduceChangedEvent c ∧
      wm.reduceEvent ⟨.plain, seq, agg, .Removed x⟩
        = { wm with State := .IDPStateRemoved }) ∧
    (∀ (wm : GoogleIDPWriteModel) (seq : Nat) (agg : Aggregate) (a : GoogleIDPAddedEvent)
        (c : GoogleIDPChangedEvent) (x : RemovedEvent),
      wm.reduceEvent ⟨.plain, seq, agg, .GoogleIDPAdded a⟩ = wm.reduceAddedEvent a ∧
      (wm.reduceEvent ⟨.plain, seq, agg, .GoogleIDPAdded a⟩).State = .IDPStateActive ∧
      wm.reduceEvent ⟨.plain, seq, agg, .GoogleIDPChanged c⟩ = wm.reduceChangedEvent c ∧
      wm.reduceEvent ⟨.plain, seq, agg, .Removed x⟩
        = { wm with State := .IDPStateRemoved }) := by
  refine ⟨?_, ?_, ?_, ?_, ?_, ?_, ?_, ?_, ?_, ?_, ?_, ?_⟩
  · exact LDAP_step_foreign
  · intro wm seq agg a c x
    refine ⟨fun h => if_pos h, fun h => if_pos h, fun h => if_pos h,
      fun h => if_neg (not_not.mpr h), fun h => if_neg (not_not.mpr h),
      fun h => if_neg (not_not.mpr h)⟩
  · intro wm L
    refine ⟨foldl_inv _ (fun s => s.ID) LDAP_step_id L wm, (LDAP_fold_own wm L).symm, ?_⟩
    obtain ⟨r, hr, s⟩ := LDAP_reduce_events wm L
    obtain ⟨r', hr', s'⟩ := LDAP_reduce_events wm
      (L.filter (fun e => decide (LDAPIDPWriteModel.eventID e = some wm.ID)))
    rw [LDAP_fold_own wm L] at s'
    exact ⟨r, r', hr, hr', LDAP_same_trans s (LDAP_same_symm s')⟩
  · intro wm seq agg a c x
    exact ⟨rfl, rfl, rfl, rfl⟩
  · intro wm seq agg a c x
    exact ⟨rfl, rfl, rfl, rfl⟩
  · intro wm seq agg a c x
    exact ⟨rfl, rfl, rfl, rfl⟩
  · intro wm seq agg a c x
    exact ⟨rfl, rfl, rfl, rfl⟩
  · intro wm seq agg a c x
    exact ⟨rfl, rfl, rfl, rfl⟩
  · intro wm seq agg a c x
    exact ⟨rfl, rfl, rfl, rfl⟩
  · intro wm seq agg a c x
    exact ⟨rfl, rfl, rfl, rfl⟩
  · intro wm seq agg a c x
    exact ⟨rfl, rfl, rfl, rfl⟩
  · intro wm seq agg a c x
    exact ⟨rfl, rfl, rfl, rfl⟩

/-- An instance of C32: the LDAP write model of the scenario watches `idp-3`; the removal of
`idp-1` leaves it as it is. -/
theorem ldap_filters_events_by_id_witness :
    LDAPIDPWriteModel.eventID scenarioRemovedEvent ≠ some scenarioLDAP.ID ∧
      scenarioLDAP.reduceEvent scenarioRemovedEvent = scenarioLDAP ∧
      (scenarioOAuth.reduceEvent scenarioForeignRemovedEvent).State = .IDPStateRemoved :=
  ⟨by decide, ldap_filters_events_by_id.1 scenarioLDAP scenarioRemovedEvent (by decide), rfl⟩

/-- C33: `IDPTypeWriteModel` keeps kind and state consistent. Start from
`NewIDPTypeWriteModel id` with any list of events in the buffer, and let `F` be the state
in which the loop of `Reduce` leaves the write model. `Reduce` returns a write model `r`
with the `ID` it had, with the kind and the state of `F`, and with the base that the
`Reduce` of the embedded base makes of the base of `F`. `State` is active exactly if
`Type` is one of the ten supported kinds, exactly if `Type` is not unspecified, and exactly
if the last matching event of the list is an added one; in that case `Type` is the kind of
that event (a legacy `IDPConfigAddedEvent` counts as OIDC or JWT by its `Typ` and does not
match with another `Typ`), and the loop leaves `ResourceOwner` and `InstanceID` as those
of the aggregate of that event; if the last matching event is a removed one `State` is
removed; if no event matches, state and kind are unspecified; and whenever `State` is
removed, `Type` is unspecified and the loop leaves `ResourceOwner` and `InstanceID` empty.
An event that does not match, in particular one with another id, changes nothing. -/
theorem idpType_kind_and_state_consistent :
    (∀ (id : String) (L : List Event),
      ∃ r F,
        F = L.foldl IDPTypeWriteModel.reduceEvent
          { NewIDPTypeWriteModel id with Events := L } ∧
        IDPTypeWriteModel.Reduce { NewIDPTypeWriteModel id with Events := L } = .ok r ∧
        r.ID = id ∧ r.Type_ = F.Type_ ∧ r.State = F.State ∧
        F.toWriteModel.Reduce = .ok r.toWriteModel ∧
        (r.State = .IDPStateActive ↔ r.Type_ ∈ supportedKinds) ∧
        (r.State = .IDPStateActive ↔ r.Type_ ≠ .IDPTypeUnspecified) ∧
        (r.State = .IDPStateActive ↔
          ∃ kind aggregate,
            (L.filterMap (IDPTypeWriteModel.matchingEffect id)).getLast?
              = some (.added kind aggregate)) ∧
        (∀ kind aggregate,
          (L.filterMap (IDPTypeWriteModel.matchingEffect id)).getLast?
              = some (.added kind aggregate) →
          r.State = .IDPStateActive ∧ r.Type_ = kind ∧
            F.ResourceOwner = aggregate.ResourceOwner ∧
            F.InstanceID = aggregate.InstanceID) ∧
        ((L.filterMap (IDPTypeWriteModel.matchingEffect id)).getLast? = some .removed →
          r.State = .IDPStateRemoved) ∧
        ((L.filterMap (IDPTypeWriteModel.matchingEffect id)).getLast? = none →
          r.State = .IDPStateUnspecified ∧ r.Type_ = .IDPTypeUnspecified) ∧
        (r.State = .IDPStateRemoved →
          r.Type_ = .IDPTypeUnspecified ∧ F.ResourceOwner = "" ∧ F.InstanceID = "")) ∧
    (∀ (id : String) (e : Event) (kind : IDPType) (aggregate : Aggregate),
      IDPTypeWriteModel.matchingEffect id e = some (.added kind aggregate) →
      kind ∈ supportedKinds ∧ aggregate = e.Aggregate ∧ e.payload.addedID = some id ∧
        e.payload.addedKind = some kind ∧ e.pkg ≠ .plain) ∧
    (∀ (wm : IDPTypeWriteModel) (e : Event),
      IDPTypeWriteModel.matchingEffect wm.ID e = none → wm.reduceEvent e = wm) ∧
    (∀ (wm : IDPTypeWriteModel) (id : String) (t : IDPType) (agg : Aggregate),
      wm.ID ≠ id → wm.reduceAdded id t agg = wm ∧ wm.reduceRemoved id = wm) := by
  refine ⟨?_, matchingEffect_added, ?_, ?_⟩
  · intro id L
    obtain ⟨r, hr, h1, h2, h3, hb⟩ :=
      IDPType_reduce_base { NewIDPTypeWriteModel id with Events := L }
    have hf := IDPType_fold_effect { NewIDPTypeWriteModel id with Events := L } L
    have hl : (L.filterMap (IDPTypeWriteModel.matchingEffect
        ({ NewIDPTypeWriteModel id with Events := L } : IDPTypeWriteModel).ID)).getLast?
        = (L.filterMap (IDPTypeWriteModel.matchingEffect id)).getLast? := rfl
    rw [hl] at hf
    have h1 : r.ID = (L.foldl IDPTypeWriteModel.reduceEvent
      { NewIDPTypeWriteModel id with Events := L }).ID := h1
    have h2 : r.Type_ = (L.foldl IDPTypeWriteModel.reduceEvent
      { NewIDPTypeWriteModel id with Events := L }).Type_ := h2
    have h3 : r.State = (L.foldl IDPTypeWriteModel.reduceEvent
      { NewIDPTypeWriteModel id with Events := L }).State := h3
    have hb : (L.foldl IDPTypeWriteModel.reduceEvent
      { NewIDPTypeWriteModel id with Events := L }).toWriteModel.Reduce
        = .ok r.toWriteModel := hb
    generalize L.foldl IDPTypeWriteModel.reduceEvent
      { NewIDPTypeWriteModel id with Events := L } = F at h1 h2 h3 hb hf
    refine ⟨r, F, rfl, hr, ?_, h2, h3, hb, ?_⟩ <;>
    (cases hlast : (L.filterMap (IDPTypeWriteModel.matchingEffect id)).getLast? with
     | none =>
       rw [hlast] at hf
       simp only [Option.elim] at hf
       subst hf
       simp [h1, h2, h3, NewIDPTypeWriteModel, supportedKinds]
     | some a =>
       rw [hlast] at hf
       cases a with
       | added kind aggregate =>
         obtain ⟨e, _, he⟩ := getLast_filterMap_mem _ L _ hlast
         have hk := (matchingEffect_added id e kind aggregate he).1
         have hne : kind ≠ .IDPTypeUnspecified := by
           intro hc; rw [hc] at hk; simp [supportedKinds] at hk
         simp only [Option.elim] at hf
         subst hf
         simp [h1, h2, h3, NewIDPTypeWriteModel, IDPTypeWriteModel.withEffect, hk, hne]
       | removed =>
         simp only [Option.elim] at hf
         subst hf
         simp [h1, h2, h3, NewIDPTypeWriteModel, IDPTypeWriteModel.withEffect,
           supportedKinds])
  · intro wm e h
    rw [IDPType_step_effect wm wm.ID e rfl, h]
    rfl
  · intro wm id t agg h
    exact ⟨if_pos h, if_pos h⟩

/-- An instance of C33: from the events of the scenario, in which `idp-1` is added as an
OAuth provider and another provider is removed afterwards, the tracker of `idp-1` is active
with the kind OAuth, and the loop leaves the owner of the aggregate. -/
theorem idpType_kind_and_state_consistent_witness :
    (scenarioInstanceEvents.filterMap (IDPTypeWriteModel.matchingEffect "idp-1")).getLast?
        = some (.added .IDPTypeOAuth scenarioAggregate) ∧
      ∃ r F,
        F = scenarioInstanceEvents.foldl IDPTypeWriteModel.reduceEvent
          { NewIDPTypeWriteModel "idp-1" with Events := scenarioInstanceEvents } ∧
        IDPTypeWriteModel.Reduce
            { NewIDPTypeWriteModel "idp-1" with Events := scenarioInstanceEvents } = .ok r ∧
        r.State = .IDPStateActive ∧ r.Type_ = .IDPTypeOAuth ∧
        F.ResourceOwner = "org-1" ∧ F.InstanceID = "instance-1" :=
  ⟨rfl,
    match idpType_kind_and_state_consistent.1 "idp-1" scenarioInstanceEvents with
    | ⟨r, F, hF, hr, _, _, _, _, _, _, _, h, _⟩ => ⟨r, F, hF, hr, h _ _ rfl⟩⟩

/-- C34: the state of `IDPRemoveWriteModel` is decided by the last matching event. For every
write model and every list of events in the buffer, `Reduce` returns a write model with
the `ID` it had and the state the loop leaves, which is: active if the last event of the
list that matches is an added one, removed if it is a removed one, and the state before
if no event of the list matches. An event matches if it is an added event of one of the ten
kinds or a legacy `IDPConfigAddedEvent`, or a `RemovedEvent` or a legacy
`IDPConfigRemovedEvent`, and carries the `ID` of the write model. An event that does not
match, in particular one with another id, changes nothing. -/
theorem idpRemove_state_is_last_matching_event :
    (∀ (wm : IDPRemoveWriteModel) (L : List Event),
      ∃ r, IDPRemoveWriteModel.Reduce { wm with Events := L } = .ok r ∧
        r.ID = wm.ID ∧
        r.State = (L.foldl IDPRemoveWriteModel.reduceEvent wm).State ∧
        ((L.filterMap (IDPRemoveWriteModel.decidedState wm.ID)).getLast?
            = some .IDPStateActive → r.State = .IDPStateActive) ∧
        ((L.filterMap (IDPRemoveWriteModel.decidedState wm.ID)).getLast?
            = some .IDPStateRemoved → r.State = .IDPStateRemoved) ∧
        ((L.filterMap (IDPRemoveWriteModel.decidedState wm.ID)).getLast? = none →
          r.State = wm.State) ∧
        r.State = ((L.filterMap (IDPRemoveWriteModel.decidedState wm.ID)).getLast?).getD
          wm.State) ∧
    (∀ (id : String) (e : Event),
      (IDPRemoveWriteModel.decidedState id e = some .IDPStateActive ↔
        e.pkg = .plain ∧ e.payload.addedID = some id) ∧
      (IDPRemoveWriteModel.decidedState id e = some .IDPStateRemoved ↔
        e.pkg = .plain ∧ e.payload.removedID = some id) ∧
      (IDPRemoveWriteModel.decidedState id e = none ↔
        ¬ (e.pkg = .plain ∧
          (e.payload.addedID = some id ∨ e.payload.removedID = some id))) ∧
      (∀ st, IDPRemoveWriteModel.decidedState id e = some st →
        st = .IDPStateActive ∨ st = .IDPStateRemoved)) ∧
    (∀ (wm : IDPRemoveWriteModel) (e : Event),
      IDPRemoveWriteModel.decidedState wm.ID e = none → wm.reduceEvent e = wm) ∧
    (∀ (wm : IDPRemoveWriteModel) (id : String),
      wm.ID ≠ id → wm.reduceAdded id = wm ∧ wm.reduceRemoved id = wm) := by
  refine ⟨?_, decidedState_cases, ?_, ?_⟩
  · intro wm L
    obtain ⟨r, hr, h1, h2⟩ := IDPRemove_reduce_fields { wm with Events := L }
    have hs : IDPRemoveWriteModel.SameDomain
        (L.foldl IDPRemoveWriteModel.reduceEvent { wm with Events := L })
        (L.foldl IDPRemoveWriteModel.reduceEvent wm) :=
      foldl_rel _ _ IDPRemove_step_same L _ _ (IDPRemove_same_events wm L)
    have h1 : r.ID = (L.foldl IDPRemoveWriteModel.reduceEvent wm).ID := h1.trans hs.1
    have h2 : r.State = (L.foldl IDPRemoveWriteModel.reduceEvent wm).State := h2.trans hs.2
    have h3 := h2
    rw [IDPRemove_fold_effect wm L] at h1 h3
    refine ⟨r, hr, ?_, h2, ?_⟩
    · cases hlast : (L.filterMap (IDPRemoveWriteModel.decidedState wm.ID)).getLast? <;>
        (rw [hlast] at h1; exact h1)
    · cases hlast : (L.filterMap (IDPRemoveWriteModel.decidedState wm.ID)).getLast? with
      | none =>
        rw [hlast] at h3
        simp only [Option.elim] at h3
        simp [h3]
      | some st =>
        rw [hlast] at h3
        simp only [Option.elim] at h3
        simp [h3]
  · intro wm e h
    rw [IDPRemove_step_effect wm wm.ID e rfl, h]
    rfl
  · intro wm id h
    exact ⟨if_pos h, if_pos h⟩

/-- An instance of C34: `idp-1` is added, then another provider is removed; the write model
that watches `idp-1` is active. -/
theorem idpRemove_state_is_last_matching_event_witness :
    ([scenarioOAuthAddedEvent, scenarioForeignRemovedEvent].filterMap
        (IDPRemoveWriteModel.decidedState scenarioIDPRemove.ID)).getLast?
        = some .IDPStateActive ∧
      ∃ r,
        IDPRemoveWriteModel.Reduce
            { scenarioIDPRemove with
              Events := [scenarioOAuthAddedEvent, scenarioForeignRemovedEvent] } = .ok r ∧
        r.State = .IDPStateActive :=
  ⟨rfl,
    match idpRemove_state_is_last_matching_event.1 scenarioIDPRemove
        [scenarioOAuthAddedEvent, scenarioForeignRemovedEvent] with
    | ⟨r, hr, _, _, h, _⟩ => ⟨r, hr, h rfl⟩⟩

/-- C35: lists are compared as `reflect.DeepEqual` compares them, so that an unset (nil) list
and an empty list differ. For each write model with `Scopes` (OAuth, OIDC, Azure AD,
GitHub, GitHub Enterprise, GitLab, GitLab self-hosted, Google) and for the three lists of
the LDAP write model (`Servers`, `UserObjectClasses`, `UserFilters`), whenever
`NewChanges` returns a change list: it holds no entry for the list if the stored and the
desired list are equal, and exactly one otherwise; so it holds one if the stored list is
nil and the desired one is empty, one if the stored list is empty and the desired one is
nil, and one if the two lists hold the same two elements in different order. And if the
desired list is nil, folding the changed event that carries the change list leaves the
stored list as it was: a desired nil list is never applied. -/
theorem lists_compared_by_deep_equality :
    (∀ (wm : OAuthIDPWriteModel) (name clientID clientSecretString : String)
        (secretCrypto : Crypto)
        (authorizationEndpoint tokenEndpoint userEndpoint idAttribute : String)
        (scopes : StringSlice) (options : Zitadel.Options) (v : Option CryptoValue),
      (clientSecretString = "" ∨ Crypt clientSecretString secretCrypto = .ok v) →
      ∃ cs,
        wm.NewChanges name clientID clientSecretString secretCrypto authorizationEndpoint
          tokenEndpoint userEndpoint idAttribute scopes options = .ok cs ∧
        cs.count (OAuthIDPChanges.ChangeOAuthScopes scopes) = (if wm.Scopes = scopes then 0 else 1) ∧
        (wm.Scopes = none → scopes = some [] → cs.count (OAuthIDPChanges.ChangeOAuthScopes scopes) = 1) ∧
        (wm.Scopes = some [] → scopes = none → cs.count (OAuthIDPChanges.ChangeOAuthScopes scopes) = 1) ∧
        (∀ a b, a ≠ b → wm.Scopes = some [a, b] → scopes = some [b, a] →
          cs.count (OAuthIDPChanges.ChangeOAuthScopes scopes) = 1) ∧
        (scopes = none → (wm.reduceChangedEvent (OAuthIDPChangedEvent.withChanges cs)).Scopes = wm.Scopes)) ∧
    (∀ (wm : OIDCIDPWriteModel) (name issuer clientID clientSecretString : String)
        (secretCrypto : Crypto) (scopes : StringSlice) (idTokenMapping : Bool)
        (options : Zitadel.Options) (v : Option CryptoValue),
      (clientSecretString = "" ∨ Crypt clientSecretString secretCrypto = .ok v) →
      ∃ cs,
        wm.NewChanges name issuer clientID clientSecretString secretCrypto scopes idTokenMapping
          options = .ok cs ∧
        cs.count (OIDCIDPChanges.ChangeOIDCScopes scopes) = (if wm.Scopes = scopes then 0 else 1) ∧
        (wm.Scopes = none → scopes = some [] → cs.count (OIDCIDPChanges.ChangeOIDCScopes scopes) = 1) ∧
        (wm.Scopes = some [] → scopes = none → cs.count (OIDCIDPChanges.ChangeOIDCScopes scopes) = 1) ∧
        (∀ a b, a ≠ b → wm.Scopes = some [a, b] → scopes = some [b, a] →
          cs.count (OIDCIDPChanges.ChangeOIDCScopes scopes) = 1) ∧
        (scopes = none → (wm.reduceChangedEvent (OIDCIDPChangedEvent.withChanges cs)).Scopes = wm.Scopes)) ∧
    (∀ (wm : AzureADIDPWriteModel) (name clientID clientSecretString : String)
        (secretCrypto : Crypto) (scopes : StringSlice) (tenant : String) (isEmailVerified : Bool)
        (options : Zitadel.Options) (v : Option CryptoValue),
      (clientSecretString = "" ∨ Crypt clientSecretString secretCrypto = .ok v) →
      ∃ cs,
        wm.NewChanges name clientID clientSecretString secretCrypto scopes tenant isEmailVerified
          options = .ok cs ∧
        cs.count (AzureADIDPChanges.ChangeAzureADScopes scopes) = (if wm.Scopes = scopes then 0 else 1) ∧
        (wm.Scopes = none → scopes = some [] → cs.count (AzureADIDPChanges.ChangeAzureADScopes scopes) = 1) ∧
        (wm.Scopes = some [] → scopes = none → cs.count (AzureADIDPChanges.ChangeAzureADScopes scopes) = 1) ∧
        (∀ a b, a ≠ b → wm.Scopes = some [a, b] → scopes = some [b, a] →
          cs.count (AzureADIDPChanges.ChangeAzureADScopes scopes) = 1) ∧
        (scopes = none → (wm.reduceChangedEvent (AzureADIDPChangedEvent.withChanges cs)).Scopes = wm.Scopes)) ∧
    (∀ (wm : GitHubIDPWriteModel) (name clientID clientSecretString : String)
        (secretCrypto : Crypto) (scopes : StringSlice) (options : Zitadel.Options)
        (v : Option CryptoValue),
      (clientSecretString = "" ∨ Crypt clientSecretString secretCrypto = .ok v) →
      ∃ cs,
        wm.NewChanges name clientID clientSecretString secretCrypto scopes options = .ok cs ∧
        cs.count (GitHubIDPChanges.ChangeGitHubScopes scopes) = (if wm.Scopes = scopes then 0 else 1) ∧
        (wm.Scopes = none → scopes = some [] → cs.count (GitHubIDPChanges.ChangeGitHubScopes scopes) = 1) ∧
        (wm.Scopes = some [] → scopes = none → cs.count (GitHubIDPChanges.ChangeGitHubScopes scopes) = 1) ∧
        (∀ a b, a ≠ b → wm.Scopes = some [a, b] → scopes = some [b, a] →
          cs.count (GitHubIDPChanges.ChangeGitHubScopes scopes) = 1) ∧
        (scopes = none → (wm.reduceChangedEvent (GitHubIDPChangedEvent.withChanges cs)).Scopes = wm.Scopes)) ∧
    (∀ (wm : GitHubEnterpriseIDPWriteModel) (name clientID clientSecretString : String)
        (secretCrypto : Crypto) (authorizationEndpoint tokenEndpoint userEndpoint : String)
        (scopes : StringSlice) (options : Zitadel.Options) (v : Option CryptoValue),
      (clientSecretString = "" ∨ Crypt clientSecretString secretCrypto = .ok v) →
      ∃ cs,
        wm.NewChanges name clientID clientSecretString secretCrypto authorizationEndpoint
          tokenEndpoint userEndpoint scopes options = .ok cs ∧
        cs.count (GitHubEnterpriseIDPChanges.ChangeGitHubEnterpriseScopes scopes) = (if wm.Scopes = scopes then 0 else 1) ∧
        (wm.Scopes = none → scopes = some [] → cs.count (GitHubEnterpriseIDPChanges.ChangeGitHubEnterpriseScopes scopes) = 1) ∧
        (wm.Scopes = some [] → scopes = none → cs.count (GitHubEnterpriseIDPChanges.ChangeGitHubEnterpriseScopes scopes) = 1) ∧
        (∀ a b, a ≠ b → wm.Scopes = some [a, b] → scopes = some [b, a] →
          cs.count (GitHubEnterpriseIDPChanges.ChangeGitHubEnterpriseScopes scopes) = 1) ∧
        (scopes = none → (wm.reduceChangedEvent (GitHubEnterpriseIDPChangedEvent.withChanges cs)).Scopes = wm.Scopes)) ∧
    (∀ (wm : GitLabIDPWriteModel) (name clientID clientSecretString : String)
        (secretCrypto : Crypto) (scopes : StringSlice) (options : Zitadel.Options)
        (v : Option CryptoValue),
      (clientSecretString = "" ∨ Crypt clientSecretString secretCrypto = .ok v) →
      ∃ cs,
        wm.NewChanges name clientID clientSecretString secretCrypto scopes options = .ok cs ∧
        cs.count (GitLabIDPChanges.ChangeGitLabScopes scopes) = (if wm.Scopes = scopes then 0 else 1) ∧
        (wm.Scopes = none → scopes = some [] → cs.count (GitLabIDPChanges.ChangeGitLabScopes scopes) = 1) ∧
        (wm.Scopes = some [] → scopes = none → cs.count (GitLabIDPChanges.ChangeGitLabScopes scopes) = 1) ∧
        (∀ a b, a ≠ b → wm.Scopes = some [a, b] → scopes = some [b, a] →
          cs.count (GitLabIDPChanges.ChangeGitLabScopes scopes) = 1) ∧
        (scopes = none → (wm.reduceChangedEvent (GitLabIDPChangedEvent.withChanges cs)).Scopes = wm.Scopes)) ∧
    (∀ (wm : GitLabSelfHostedIDPWriteModel) (name issuer clientID clientSecretString : String)
        (secretCrypto : Crypto) (scopes : StringSlice) (options : Zitadel.Options)
        (v : Option CryptoValue),
      (clientSecretString = "" ∨ Crypt clientSecretString secretCrypto = .ok v) →
      ∃ cs,
        wm.NewChanges name issuer clientID clientSecretString secretCrypto scopes options = .ok cs ∧
        cs.count (GitLabSelfHostedIDPChanges.ChangeGitLabSelfHostedScopes scopes) = (if wm.Scopes = scopes then 0 else 1) ∧
        (wm.Scopes = none → scopes = some [] → cs.count (GitLabSelfHostedIDPChanges.ChangeGitLabSelfHostedScopes scopes) = 1) ∧
        (wm.Scopes = some [] → scopes = none → cs.count (GitLabSelfHostedIDPChanges.ChangeGitLabSelfHostedScopes scopes) = 1) ∧
        (∀ a b, a ≠ b → wm.Scopes = some [a, b] → scopes = some [b, a] →
          cs.count (GitLabSelfHostedIDPChanges.ChangeGitLabSelfHostedScopes scopes) = 1) ∧
        (scopes = none → (wm.reduceChangedEvent (GitLabSelfHostedIDPChangedEvent.withChanges cs)).Scopes = wm.Scopes)) ∧
    (∀ (wm : GoogleIDPWriteModel) (name clientID clientSecretString : String)
        (secretCrypto : Crypto) (scopes : StringSlice) (options : Zitadel.Options)
        (v : Option CryptoValue),
      (clientSecretString = "" ∨ Crypt clientSecretString secretCrypto = .ok v) →
      ∃ cs,
        wm.NewChanges name clientID clientSecretString secretCrypto scopes options = .ok cs ∧
        cs.count (GoogleIDPChanges.ChangeGoogleScopes scopes) = (if wm.Scopes = scopes then 0 else 1) ∧
        (wm.Scopes = none → scopes = some [] → cs.count (GoogleIDPChanges.ChangeGoogleScopes scopes) = 1) ∧
        (wm.Scopes = some [] → scopes = none → cs.count (GoogleIDPChanges.ChangeGoogleScopes scopes) = 1) ∧
        (∀ a b, a ≠ b → wm.Scopes = some [a, b] → scopes = some [b, a] →
          cs.count (GoogleIDPChanges.ChangeGoogleScopes scopes) = 1) ∧
        (scopes = none → (wm.reduceChangedEvent (GoogleIDPChangedEvent.withChanges cs)).Scopes = wm.Scopes)) ∧
    (∀ (wm : LDAPIDPWriteModel) (name : String) (servers : StringSlice) (startTLS : Bool)
        (baseDN bindDN bindPassword userBase : String)
        (userObjectClasses userFilters : StringSlice) (timeout : Int) (secretCrypto : Crypto)
        (attributes : Zitadel.LDAPAttributes) (options : Zitadel.Options)
        (v : Option CryptoValue),
      (bindPassword = "" ∨ Crypt bindPassword secretCrypto = .ok v) →
      ∃ cs,
        wm.NewChanges name servers startTLS baseDN bindDN bindPassword userBase userObjectClasses
          userFilters timeout secretCrypto attributes options = .ok cs ∧
        cs.count (LDAPIDPChanges.ChangeLDAPServers servers) = (if wm.Servers = servers then 0 else 1) ∧
        (wm.Servers = none → servers = some [] → cs.count (LDAPIDPChanges.ChangeLDAPServers servers) = 1) ∧
        (wm.Servers = some [] → servers = none → cs.count (LDAPIDPChanges.ChangeLDAPServers servers) = 1) ∧
        (∀ a b, a ≠ b → wm.Servers = some [a, b] → servers = some [b, a] →
          cs.count (LDAPIDPChanges.ChangeLDAPServers servers) = 1) ∧
        (servers = none → (wm.reduceChangedEvent (LDAPIDPChangedEvent.withChanges wm.ID cs)).Servers = wm.Servers)) ∧
    (∀ (wm : LDAPIDPWriteModel) (name : String) (servers : StringSlice) (startTLS : Bool)
        (baseDN bindDN bindPassword userBase : String)
        (userObjectClasses userFilters : StringSlice) (timeout : Int) (secretCrypto : Crypto)
        (attributes : Zitadel.LDAPAttributes) (options : Zitadel.Options)
        (v : Option CryptoValue),
      (bindPassword = "" ∨ Crypt bindPassword secretCrypto = .ok v) →
      ∃ cs,
        wm.NewChanges name servers startTLS baseDN bindDN bindPassword userBase userObjectClasses
          userFilters timeout secretCrypto attributes options = .ok cs ∧
        cs.count (LDAPIDPChanges.ChangeLDAPUserObjectClasses userObjectClasses) = (if wm.UserObjectClasses = userObjectClasses then 0 else 1) ∧
        (wm.UserObjectClasses = none → userObjectClasses = some [] → cs.count (LDAPIDPChanges.ChangeLDAPUserObjectClasses userObjectClasses) = 1) ∧
        (wm.UserObjectClasses = some [] → userObjectClasses = none → cs.count (LDAPIDPChanges.ChangeLDAPUserObjectClasses userObjectClasses) = 1) ∧
        (∀ a b, a ≠ b → wm.UserObjectClasses = some [a, b] → userObjectClasses = some [b, a] →
          cs.count (LDAPIDPChanges.ChangeLDAPUserObjectClasses userObjectClasses) = 1) ∧
        (userObjectClasses = none → (wm.reduceChangedEvent (LDAPIDPChangedEvent.withChanges wm.ID cs)).UserObjectClasses = wm.UserObjectClasses)) ∧
    (∀ (wm : LDAPIDPWriteModel) (name : String) (servers : StringSlice) (startTLS : Bool)
        (baseDN bindDN bindPassword userBase : String)
        (userObjectClasses userFilters : StringSlice) (timeout : Int) (secretCrypto : Crypto)
        (attributes : Zitadel.LDAPAttributes) (options : Zitadel.Options)
        (v : Option CryptoValue),
      (bindPassword = "" ∨ Crypt bindPassword secretCrypto = .ok v) →
      ∃ cs,
        wm.NewChanges name servers startTLS baseDN bindDN bindPassword userBase userObjectClasses
          userFilters timeout secretCrypto attributes options = .ok cs ∧
        cs.count (LDAPIDPChanges.ChangeLDAPUserFilters userFilters) = (if wm.UserFilters = userFilters then 0 else 1) ∧
        (wm.UserFilters = none → userFilters = some [] → cs.count (LDAPIDPChanges.ChangeLDAPUserFilters userFilters) = 1) ∧
        (wm.UserFilters = some [] → userFilters = none → cs.count (LDAPIDPChanges.ChangeLDAPUserFilters userFilters) = 1) ∧
        (∀ a b, a ≠ b → wm.UserFilters = some [a, b] → userFilters = some [b, a] →
          cs.count (LDAPIDPChanges.ChangeLDAPUserFilters userFilters) = 1) ∧
        (userFilters = none → (wm.reduceChangedEvent (LDAPIDPChangedEvent.withChanges wm.ID cs)).UserFilters = wm.UserFilters)) := by
  refine ⟨?_, ?_, ?_, ?_, ?_, ?_, ?_, ?_, ?_, ?_, ?_⟩
  · intro wm name clientID clientSecretString secretCrypto authorizationEndpoint tokenEndpoint userEndpoint idAttribute scopes options v h
    have hcount := differingEntries_count OAuthIDPChanges.field _ (OAuth_rows_nodup wm name clientID clientSecretString authorizationEndpoint tokenEndpoint userEndpoint idAttribute scopes options v)
      (decide (wm.Scopes ≠ scopes), OAuthIDPChanges.ChangeOAuthScopes scopes)
      (List.mem_cons_of_mem _ (by simp [OAuthIDPWriteModel.comparedFields]))
    simp only [decide_eq_true_eq, ne_eq, ite_not] at hcount
    refine ⟨_, OAuth_newChanges_eq wm _ _ _ _ _ _ _ _ _ _ v h, hcount, ?_, ?_, ?_, ?_⟩
    · intro h1 h2
      rw [hcount, if_neg (by rw [h1, h2]; simp)]
    · intro h1 h2
      rw [hcount, if_neg (by rw [h1, h2]; simp)]
    · intro a b hab h1 h2
      rw [hcount, if_neg (by rw [h1, h2]; simp; exact fun hc _ => hab hc)]
    · intro hn
      subst hn
      exact OAuth_nil_Scopes_step wm name clientID clientSecretString authorizationEndpoint tokenEndpoint userEndpoint idAttribute options v
  · intro wm name issuer clientID clientSecretString secretCrypto scopes idTokenMapping options v h
    have hcount := differingEntries_count OIDCIDPChanges.field _ (OIDC_rows_nodup wm name issuer clientID clientSecretString scopes idTokenMapping options v)
      (decide (wm.Scopes ≠ scopes), OIDCIDPChanges.ChangeOIDCScopes scopes)
      (List.mem_cons_of_mem _ (by simp [OIDCIDPWriteModel.comparedFields]))
    simp only [decide_eq_true_eq, ne_eq, ite_not] at hcount
    refine ⟨_, OIDC_newChanges_eq wm _ _ _ _ _ _ _ _ v h, hcount, ?_, ?_, ?_, ?_⟩
    · intro h1 h2
      rw [hcount, if_neg (by rw [h1, h2]; simp)]
    · intro h1 h2
      rw [hcount, if_neg (by rw [h1, h2]; simp)]
    · intro a b hab h1 h2
      rw [hcount, if_neg (by rw [h1, h2]; simp; exact fun hc _ => hab hc)]
    · intro hn
      subst hn
      exact OIDC_nil_Scopes_step wm name issuer clientID clientSecretString idTokenMapping options v
  · intro wm name clientID clientSecretString secretCrypto scopes tenant isEmailVerified options v h
    have hcount := differingEntries_count AzureADIDPChanges.field _ (AzureAD_rows_nodup wm name clientID clientSecretString scopes tenant isEmailVerified options v)
      (decide (wm.Scopes ≠ scopes), AzureADIDPChanges.ChangeAzureADScopes scopes)
      (List.mem_cons_of_mem _ (by simp [AzureADIDPWriteModel.comparedFields]))
    simp only [decide_eq_true_eq, ne_eq, ite_not] at hcount
    refine ⟨_, AzureAD_newChanges_eq wm _ _ _ _ _ _ _ _ v h, hcount, ?_, ?_, ?_, ?_⟩
    · intro h1 h2
      rw [hcount, if_neg (by rw [h1, h2]; simp)]
    · intro h1 h2
      rw [hcount, if_neg (by rw [h1, h2]; simp)]
    · intro a b hab h1 h2
      rw [hcount, if_neg (by rw [h1, h2]; simp; exact fun hc _ => hab hc)]
    · intro hn
      subst hn
      exact AzureAD_nil_Scopes_step wm name clientID clientSecretString tenant isEmailVerified options v
  · intro wm name clientID clientSecretString secretCrypto scopes options v h
    have hcount := differingEntries_count GitHubIDPChanges.field _ (GitHub_rows_nodup wm name clientID clientSecretString scopes options v)
      (decide (wm.Scopes ≠ scopes), GitHubIDPChanges.ChangeGitHubScopes scopes)
      (List.mem_cons_of_mem _ (by simp [GitHubIDPWriteModel.comparedFields]))
    simp only [decide_eq_true_eq, ne_eq, ite_not] at hcount
    refine ⟨_, GitHub_newChanges_eq wm _ _ _ _ _ _ v h, hcount, ?_, ?_, ?_, ?_⟩
    · intro h1 h2
      rw [hcount, if_neg (by rw [h1, h2]; simp)]
    · intro h1 h2
      rw [hcount, if_neg (by rw [h1, h2]; simp)]
    · intro a b hab h1 h2
      rw [hcount, if_neg (by rw [h1, h2]; simp; exact fun hc _ => hab hc)]
    · intro hn
      subst hn
      exact GitHub_nil_Scopes_step wm name clientID clientSecretString options v
  · intro wm name clientID clientSecretString secretCrypto authorizationEndpoint tokenEndpoint userEndpoint scopes options v h
    have hcount := differingEntries_count GitHubEnterpriseIDPChanges.field _ (GitHubEnterprise_rows_nodup wm name clientID clientSecretString authorizationEndpoint tokenEndpoint userEndpoint scopes options v)
      (decide (wm.Scopes ≠ scopes), GitHubEnterpriseIDPChanges.ChangeGitHubEnterpriseScopes scopes)
      (List.mem_cons_of_mem _ (by simp [GitHubEnterpriseIDPWriteModel.comparedFields]))
    simp only [decide_eq_true_eq, ne_eq, ite_not] at hcount
    refine ⟨_, GitHubEnterprise_newChanges_eq wm _ _ _ _ _ _ _ _ _ v h, hcount, ?_, ?_, ?_, ?_⟩
    · intro h1 h2
      rw [hcount, if_neg (by rw [h1, h2]; simp)]
    · intro h1 h2
      rw [hcount, if_neg (by rw [h1, h2]; simp)]
    · intro a b hab h1 h2
      rw [hcount, if_neg (by rw [h1, h2]; simp; exact fun hc _ => hab hc)]
    · intro hn
      subst hn
      exact GitHubEnterprise_nil_Scopes_step wm name clientID clientSecretString authorizationEndpoint tokenEndpoint userEndpoint options v
  · intro wm name clientID clientSecretString secretCrypto scopes options v h
    have hcount := differingEntries_count GitLabIDPChanges.field _ (GitLab_rows_nodup wm name clientID clientSecretString scopes options v)
      (decide (wm.Scopes ≠ scopes), GitLabIDPChanges.ChangeGitLabScopes scopes)
      (List.mem_cons_of_mem _ (by simp [GitLabIDPWriteModel.comparedFields]))
    simp only [decide_eq_true_eq, ne_eq, ite_not] at hcount
    refine ⟨_, GitLab_newChanges_eq wm _ _ _ _ _ _ v h, hcount, ?_, ?_, ?_, ?_⟩
    · intro h1 h2
      rw [hcount, if_neg (by rw [h1, h2]; simp)]
    · intro h1 h2
      rw [hcount, if_neg (by rw [h1, h2]; simp)]
    · intro a b hab h1 h2
      rw [hcount, if_neg (by rw [h1, h2]; simp; exact fun hc _ => hab hc)]
    · intro hn
      subst hn
      exact GitLab_nil_Scopes_step wm name clientID clientSecretString options v
  · intro wm name issuer clientID clientSecretString secretCrypto scopes options v h
    have hcount := differingEntries_count GitLabSelfHostedIDPChanges.field _ (GitLabSelfHosted_rows_nodup wm name issuer clientID clientSecretString scopes options v)
      (decide (wm.Scopes ≠ scopes), GitLabSelfHostedIDPChanges.ChangeGitLabSelfHostedScopes scopes)
      (List.mem_cons_of_mem _ (by simp [GitLabSelfHostedIDPWriteModel.comparedFields]))
    simp only [decide_eq_true_eq, ne_eq, ite_not] at hcount
    refine ⟨_, GitLabSelfHosted_newChanges_eq wm _ _ _ _ _ _ _ v h, hcount, ?_, ?_, ?_, ?_⟩
    · intro h1 h2
      rw [hcount, if_neg (by rw [h1, h2]; simp)]
    · intro h1 h2
      rw [hcount, if_neg (by rw [h1, h2]; simp)]
    · intro a b hab h1 h2
      rw [hcount, if_neg (by rw [h1, h2]; simp; exact fun hc _ => hab hc)]
    · intro hn
      subst hn
      exact GitLabSelfHosted_nil_Scopes_step wm name issuer clientID clientSecretString options v
  · intro wm name clientID clientSecretString secretCrypto scopes options v h
    have hcount := differingEntries_count GoogleIDPChanges.field _ (Google_rows_nodup wm name clientID clientSecretString scopes options v)
      (decide (wm.Scopes ≠ scopes), GoogleIDPChanges.ChangeGoogleScopes scopes)
      (List.mem_cons_of_mem _ (by simp [GoogleIDPWriteModel.comparedFields]))
    simp only [decide_eq_true_eq, ne_eq, ite_not] at hcount
    refine ⟨_, Google_newChanges_eq wm _ _ _ _ _ _ v h, hcount, ?_, ?_, ?_, ?_⟩
    · intro h1 h2
      rw [hcount, if_neg (by rw [h1, h2]; simp)]
    · intro h1 h2
      rw [hcount, if_neg (by rw [h1, h2]; simp)]
    · intro a b hab h1 h2
      rw [hcount, if_neg (by rw [h1, h2]; simp; exact fun hc _ => hab hc)]
    · intro hn
      subst hn
      exact Google_nil_Scopes_step wm name clientID clientSecretString options v
  · intro wm name servers startTLS baseDN bindDN bindPassword userBase userObjectClasses userFilters timeout secretCrypto attributes options v h
    have hcount := differingEntries_count LDAPIDPChanges.field _ (LDAP_rows_nodup wm name servers startTLS baseDN bindDN bindPassword userBase userObjectClasses userFilters timeout attributes options v)
      (decide (wm.Servers ≠ servers), LDAPIDPChanges.ChangeLDAPServers servers)
      (List.mem_cons_of_mem _ (by simp [LDAPIDPWriteModel.comparedFields]))
    simp only [decide_eq_true_eq, ne_eq, ite_not] at hcount
    refine ⟨_, LDAP_newChanges_eq wm _ _ _ _ _ _ _ _ _ _ _ _ _ v h, hcount, ?_, ?_, ?_, ?_⟩
    · intro h1 h2
      rw [hcount, if_neg (by rw [h1, h2]; simp)]
    · intro h1 h2
      rw [hcount, if_neg (by rw [h1, h2]; simp)]
    · intro a b hab h1 h2
      rw [hcount, if_neg (by rw [h1, h2]; simp; exact fun hc _ => hab hc)]
    · intro hn
      subst hn
      exact LDAP_nil_Servers_step wm name startTLS baseDN bindDN bindPassword userBase userObjectClasses userFilters timeout attributes options v
  · intro wm name servers startTLS baseDN bindDN bindPassword userBase userObjectClasses userFilters timeout secretCrypto attributes options v h
    have hcount := differingEntries_count LDAPIDPChanges.field _ (LDAP_rows_nodup wm name servers startTLS baseDN bindDN bindPassword userBase userObjectClasses userFilters timeout attributes options v)
      (decide (wm.UserObjectClasses ≠ userObjectClasses), LDAPIDPChanges.ChangeLDAPUserObjectClasses userObjectClasses)
      (List.mem_cons_of_mem _ (by simp [LDAPIDPWriteModel.comparedFields]))
    simp only [decide_eq_true_eq, ne_eq, ite_not] at hcount
    refine ⟨_, LDAP_newChanges_eq wm _ _ _ _ _ _ _ _ _ _ _ _ _ v h, hcount, ?_, ?_, ?_, ?_⟩
    · intro h1 h2
      rw [hcount, if_neg (by rw [h1, h2]; simp)]
    · intro h1 h2
      rw [hcount, if_neg (by rw [h1, h2]; simp)]
    · intro a b hab h1 h2
      rw [hcount, if_neg (by rw [h1, h2]; simp; exact fun hc _ => hab hc)]
    · intro hn
      subst hn
      exact LDAP_nil_UserObjectClasses_step wm name servers startTLS baseDN bindDN bindPassword userBase userFilters timeout attributes options v
  · intro wm name servers startTLS baseDN bindDN bindPassword userBase userObjectClasses userFilters timeout secretCrypto attributes options v h
    have hcount := differingEntries_count LDAPIDPChanges.field _ (LDAP_rows_nodup wm name servers startTLS baseDN bindDN bindPassword userBase userObjectClasses userFilters timeout attributes options v)
      (decide (wm.UserFilters ≠ userFilters), LDAPIDPChanges.ChangeLDAPUserFilters userFilters)
      (List.mem_cons_of_mem _ (by simp [LDAPIDPWriteModel.comparedFields]))
    simp only [decide_eq_true_eq, ne_eq, ite_not] at hcount
    refine ⟨_, LDAP_newChanges_eq wm _ _ _ _ _ _ _ _ _ _ _ _ _ v h, hcount, ?_, ?_, ?_, ?_⟩
    · intro h1 h2
      rw [hcount, if_neg (by rw [h1, h2]; simp)]
    · intro h1 h2
      rw [hcount, if_neg (by rw [h1, h2]; simp)]
    · intro a b hab h1 h2
      rw [hcount, if_neg (by rw [h1, h2]; simp; exact fun hc _ => hab hc)]
    · intro hn
      subst hn
      exact LDAP_nil_UserFilters_step wm name servers startTLS baseDN bindDN bindPassword userBase userObjectClasses timeout attributes options v

/-- An instance of C35: the OAuth write model of the scenario stores the scopes `openid`; the
diff against nil scopes holds one scopes entry, and the changed event that carries it
leaves the scopes as they were. -/
theorem lists_compared_by_deep_equality_witness :
    ("" = "" ∨ Crypt "" scenarioCrypto = .ok none) ∧
      ∃ cs,
        scenarioOAuth.NewChanges "A" "1" "" scenarioCrypto "https://idp/authorize"
          "https://idp/token" "https://idp/user" "sub" none ⟨true, true, false, false⟩
          = .ok cs ∧
        cs.count (OAuthIDPChanges.ChangeOAuthScopes none) = 1 ∧
        (scenarioOAuth.reduceChangedEvent (OAuthIDPChangedEvent.withChanges cs)).Scopes
          = some ["openid"] :=
  ⟨Or.inl rfl,
    match lists_compared_by_deep_equality.1 scenarioOAuth "A" "1" "" scenarioCrypto
        "https://idp/authorize" "https://idp/token" "https://idp/user" "sub" none
        ⟨true, true, false, false⟩ none (Or.inl rfl) with
    | ⟨cs, hcs, hc, _, _, _, hn⟩ => ⟨cs, hcs, hc.trans (if_neg (by decide)), hn rfl⟩⟩

/-- C36: the option list that `GoogleIDPWriteModel.ToProvider` passes to `google.New`. After
a successful decryption the constructor is called with the options of the four flags that
are set, in the order creation, linking, auto-creation, auto-update, and with nothing else:
the list has at most four entries, each of them is one of the four flag options, and the
relying-party option that wraps the token-exchange error handler, which the function builds
first, is not in it. -/
theorem google_options_only_from_flags :
    ∀ (wm : GoogleIDPWriteModel) (Provider : Type) (lib : ProviderLibraries Provider)
      (callbackURL : String) (idpAlg : EncryptionAlgorithm) (secret : String),
      DecryptString wm.ClientSecret idpAlg = .ok secret →
      ∃ (opts : List OIDCProviderOpts),
        wm.ToProvider lib callbackURL idpAlg
          = lib.construct (.googleNew wm.ClientID secret callbackURL wm.Scopes opts) ∧
        opts =
          (if wm.Options.IsCreationAllowed = true then [OIDCProviderOpts.WithCreationAllowed]
            else []) ++
          ((if wm.Options.IsLinkingAllowed = true then [OIDCProviderOpts.WithLinkingAllowed]
            else []) ++
          ((if wm.Options.IsAutoCreation = true then [OIDCProviderOpts.WithAutoCreation]
            else []) ++
          (if wm.Options.IsAutoUpdate = true then [OIDCProviderOpts.WithAutoUpdate]
            else []))) ∧
        opts.length ≤ 4 ∧
        (∀ o ∈ opts,
          o = .WithCreationAllowed ∨ o = .WithLinkingAllowed ∨ o = .WithAutoCreation ∨
            o = .WithAutoUpdate) ∧
        OIDCProviderOpts.WithRelyingPartyOption ∉ opts := by
  intro wm Provider lib cb alg secret h
  refine ⟨_, Google_toProvider_ok wm lib cb alg secret h, rfl, ?_, ?_, ?_⟩ <;>
    cases wm.Options.IsCreationAllowed <;> cases wm.Options.IsLinkingAllowed <;>
    cases wm.Options.IsAutoCreation <;> cases wm.Options.IsAutoUpdate <;> decide

/-- An instance of C36: the Google write model of the scenario has all four flags set; the
recording library receives exactly the four flag options. -/
theorem google_options_only_from_flags_witness :
    DecryptString scenarioGoogle.ClientSecret scenarioDecrypt = .ok "s3cr3t" ∧
      scenarioGoogle.ToProvider scenarioLibraries "https://zitadel/callback" scenarioDecrypt
        = .ok (.inl (.googleNew "client" "s3cr3t" "https://zitadel/callback" (some ["openid"])
            [.WithCreationAllowed, .WithLinkingAllowed, .WithAutoCreation, .WithAutoUpdate])) ∧
      ∃ (opts : List OIDCProviderOpts),
        scenarioGoogle.ToProvider scenarioLibraries "https://zitadel/callback" scenarioDecrypt
          = scenarioLibraries.construct
              (.googleNew scenarioGoogle.ClientID "s3cr3t" "https://zitadel/callback"
                scenarioGoogle.Scopes opts) ∧
        opts.length ≤ 4 ∧ OIDCProviderOpts.WithRelyingPartyOption ∉ opts :=
  ⟨rfl, rfl,
    match google_options_only_from_flags scenarioGoogle _ scenarioLibraries
        "https://zitadel/callback" scenarioDecrypt "s3cr3t" rfl with
    | ⟨opts, h, _, hl, _, hn⟩ => ⟨opts, h, hl, hn⟩⟩

/-- C37: the option list that `AzureADIDPWriteModel.ToProvider` passes to `azuread.New`.
After a successful decryption the list `opts` is: the email-verified option if
`IsEmailVerified` is set, then the tenant option carrying `Tenant` if `Tenant` is not
empty, then one wrapper of the OAuth options `oauthOpts` if `oauthOpts` is not empty,
where `oauthOpts` holds one OAuth option per flag that is set, in the order creation,
linking, auto-creation, auto-update. So `opts` holds the email-verified option exactly if
`IsEmailVerified` is set, a tenant option exactly if `Tenant` is not empty (and then that
tenant), a wrapper exactly if at least one flag is set (and then the wrapper of
`oauthOpts`); it has at most three entries and is empty if nothing is set. -/
theorem azureAD_option_list :
    ∀ (wm : AzureADIDPWriteModel) (Provider : Type) (lib : ProviderLibraries Provider)
      (callbackURL : String) (idpAlg : EncryptionAlgorithm) (secret : String),
      DecryptString wm.ClientSecret idpAlg = .ok secret →
      ∃ (opts : List AzureADProviderOptions) (oauthOpts : List OAuthProviderOpts),
        wm.ToProvider lib callbackURL idpAlg
          = lib.construct
              (.azureadNew wm.Name wm.ClientID secret callbackURL wm.Scopes opts) ∧
        oauthOpts =
          (if wm.Options.IsCreationAllowed = true then [OAuthProviderOpts.WithCreationAllowed]
            else []) ++
          ((if wm.Options.IsLinkingAllowed = true then [OAuthProviderOpts.WithLinkingAllowed]
            else []) ++
          ((if wm.Options.IsAutoCreation = true then [OAuthProviderOpts.WithAutoCreation]
            else []) ++
          (if wm.Options.IsAutoUpdate = true then [OAuthProviderOpts.WithAutoUpdate]
            else []))) ∧
        opts =
          (if wm.IsEmailVerified = true then [AzureADProviderOptions.WithEmailVerified]
            else []) ++
          ((if wm.Tenant ≠ "" then [AzureADProviderOptions.WithTenant wm.Tenant] else []) ++
          (if oauthOpts.length > 0 then [AzureADProviderOptions.WithOAuthOptions oauthOpts]
            else [])) ∧
        (AzureADProviderOptions.WithEmailVerified ∈ opts ↔ wm.IsEmailVerified = true) ∧
        (∀ tenant, AzureADProviderOptions.WithTenant tenant ∈ opts ↔
          wm.Tenant ≠ "" ∧ tenant = wm.Tenant) ∧
        (∀ wrapped, AzureADProviderOptions.WithOAuthOptions wrapped ∈ opts ↔
          wrapped = oauthOpts ∧
            (wm.Options.IsCreationAllowed = true ∨ wm.Options.IsLinkingAllowed = true ∨
              wm.Options.IsAutoCreation = true ∨ wm.Options.IsAutoUpdate = true)) ∧
        opts.count (.WithOAuthOptions oauthOpts) ≤ 1 ∧
        (OAuthProviderOpts.WithCreationAllowed ∈ oauthOpts ↔
          wm.Options.IsCreationAllowed = true) ∧
        (OAuthProviderOpts.WithLinkingAllowed ∈ oauthOpts ↔
          wm.Options.IsLinkingAllowed = true) ∧
        (OAuthProviderOpts.WithAutoCreation ∈ oauthOpts ↔ wm.Options.IsAutoCreation = true) ∧
        (OAuthProviderOpts.WithAutoUpdate ∈ oauthOpts ↔ wm.Options.IsAutoUpdate = true) ∧
        oauthOpts.Sublist
          [OAuthProviderOpts.WithCreationAllowed, .WithLinkingAllowed, .WithAutoCreation,
            .WithAutoUpdate] ∧
        opts.length ≤ 3 ∧
        (wm.IsEmailVerified = false → wm.Tenant = "" →
          wm.Options.IsCreationAllowed = false → wm.Options.IsLinkingAllowed = false →
          wm.Options.IsAutoCreation = false → wm.Options.IsAutoUpdate = false →
          opts = []) := by
  intro wm Provider lib cb alg secret h
  refine ⟨_, _, AzureAD_toProvider_call wm lib cb alg secret h, rfl, rfl, ?_⟩
  by_cases ht : wm.Tenant = "" <;>
    cases wm.IsEmailVerified <;> cases wm.Options.IsCreationAllowed <;>
    cases wm.Options.IsLinkingAllowed <;> cases wm.Options.IsAutoCreation <;>
    cases wm.Options.IsAutoUpdate <;>
    simp [ht]

/-- An instance of C37: the Azure AD write model of the scenario has a verified email, the
tenant `organizations` and the flags creation and auto-update; the recording library
receives the three options. -/
theorem azureAD_option_list_witness :
    DecryptString scenarioAzureAD.ClientSecret scenarioDecrypt = .ok "s3cr3t" ∧
      scenarioAzureAD.ToProvider scenarioLibraries "https://zitadel/callback" scenarioDecrypt
        = .ok (.inl (.azureadNew "Azure" "client" "s3cr3t" "https://zitadel/callback"
            (some ["openid"])
            [.WithEmailVerified, .WithTenant "organizations",
              .WithOAuthOptions [.WithCreationAllowed, .WithAutoUpdate]])) ∧
      ∃ (opts : List AzureADProviderOptions),
        scenarioAzureAD.ToProvider scenarioLibraries "https://zitadel/callback" scenarioDecrypt
          = scenarioLibraries.construct
              (.azureadNew scenarioAzureAD.Name scenarioAzureAD.ClientID "s3cr3t"
                "https://zitadel/callback" scenarioAzureAD.Scopes opts) ∧
        opts.length ≤ 3 :=
  ⟨rfl, rfl,
    match azureAD_option_list scenarioAzureAD _ scenarioLibraries "https://zitadel/callback"
        scenarioDecrypt "s3cr3t" rfl with
    | ⟨opts, _, h, _, _, _, _, _, _, _, _, _, _, _, hl, _⟩ => ⟨opts, h, hl⟩⟩

/-- C38: the result of `VerifyMFAOTP`. It returns no error exactly if the decryption of the
stored secret succeeds and the validation of the code against the decrypted secret is
true. If the decryption fails it returns the error of the decryption, whatever the
validation would say. If the decryption succeeds and the validation is false it returns
the invalid-argument error with the id `EVENT-8isk2`. -/
theorem verifyMFAOTP_result :
    ∀ (Validate : String → String → Bool) (code : String) (secret : Option CryptoValue)
      (cryptoAlg : EncryptionAlgorithm),
      (VerifyMFAOTP Validate code secret cryptoAlg = none ↔
        ∃ decrypt, DecryptString secret cryptoAlg = .ok decrypt ∧
          Validate code decrypt = true) ∧
      (∀ err, DecryptString secret cryptoAlg = .error err →
        VerifyMFAOTP Validate code secret cryptoAlg = some err ∧
          ∀ (other : String → String → Bool),
            VerifyMFAOTP other code secret cryptoAlg = some err) ∧
      (∀ decrypt, DecryptString secret cryptoAlg = .ok decrypt →
        Validate code decrypt = false →
        VerifyMFAOTP Validate code secret cryptoAlg
          = some (.InvalidArgument "EVENT-8isk2" "Errors.User.MFA.OTP.InvalidCode")) := by
  intro Validate code secret cryptoAlg
  cases h : DecryptString secret cryptoAlg with
  | error err =>
    refine ⟨?_, ?_, ?_⟩
    · simp [VerifyMFAOTP, h]
    · intro err2 he
      cases he
      exact ⟨by simp [VerifyMFAOTP, h], fun other => by simp [VerifyMFAOTP, h]⟩
    · intro decrypt hd
      cases hd
  | ok decrypt =>
    refine ⟨?_, ?_, ?_⟩
    · cases hv : Validate code decrypt <;> simp [VerifyMFAOTP, h, hv, ThrowInvalidArgument]
    · intro err he
      cases he
    · intro d hd hv
      cases hd
      simp [VerifyMFAOTP, h, hv, ThrowInvalidArgument]

/-- An instance of C38: with a capability that cannot decrypt, the decryption error is
returned; with one that decrypts, the wrong code `000000` gives the invalid-argument
error and the code `123456` gives no error. -/
theorem verifyMFAOTP_result_witness :
    DecryptString none scenarioDecryptFails = .error (.other "unknown key") ∧
      VerifyMFAOTP scenarioValidate "123456" none scenarioDecryptFails
        = some (.other "unknown key") ∧
      DecryptString none scenarioDecrypt = .ok "s3cr3t" ∧
      scenarioValidate "000000" "s3cr3t" = false ∧
      VerifyMFAOTP scenarioValidate "000000" none scenarioDecrypt
        = some (.InvalidArgument "EVENT-8isk2" "Errors.User.MFA.OTP.InvalidCode") ∧
      VerifyMFAOTP scenarioValidate "123456" none scenarioDecrypt = none :=
  ⟨rfl,
    ((verifyMFAOTP_result scenarioValidate "123456" none scenarioDecryptFails).2.1 _ rfl).1,
    rfl, rfl,
    (verifyMFAOTP_result scenarioValidate "000000" none scenarioDecrypt).2.2 "s3cr3t" rfl rfl,
    (verifyMFAOTP_result scenarioValidate "123456" none scenarioDecrypt).1.2
      ⟨"s3cr3t", rfl, rfl⟩⟩

/-- C39: the email address of the first instance is defaulted. For all collaborators and
every step, with the username as `Execute` has made it before: if the normalised
configured address is not empty, the address of the filled-in setup is that normalised
address; if it is empty, the address is the username if the username contains `@`, and
the username followed by `@` and `NewIAMDomainName` of the org name and the external
domain otherwise. So the address is never empty, and whenever it was defaulted it contains
`@`. The filled-in setup is the only one for which `Execute` asks `SetUpInstance`. -/
theorem first_instance_email_defaulted :
    (∀ (KeyStorage Key Alg Commands MachineKey File : Type)
        (env : Collaborators KeyStorage Key Alg Commands MachineKey File) (mig : FirstInstance),
      (env.Normalize mig.Org.Human.Email.Address ≠ "" →
        (mig.fillInstanceSetup env).Org.Human.Email.Address
          = env.Normalize mig.Org.Human.Email.Address) ∧
      (env.Normalize mig.Org.Human.Email.Address = "" →
        strings.Contains (mig.fillInstanceSetup env).Org.Human.Username "@" = true →
        (mig.fillInstanceSetup env).Org.Human.Email.Address
          = (mig.fillInstanceSetup env).Org.Human.Username) ∧
      (env.Normalize mig.Org.Human.Email.Address = "" →
        strings.Contains (mig.fillInstanceSetup env).Org.Human.Username "@" = false →
        (mig.fillInstanceSetup env).Org.Human.Email.Address
          = (mig.fillInstanceSetup env).Org.Human.Username ++ "@"
              ++ env.NewIAMDomainName mig.Org.Name mig.externalDomain) ∧
      (mig.fillInstanceSetup env).Org.Human.Email.Address ≠ "" ∧
      (env.Normalize mig.Org.Human.Email.Address = "" →
        strings.Contains (mig.fillInstanceSetup env).Org.Human.Email.Address "@" = true)) ∧
    (∀ (KeyStorage Key Alg Commands MachineKey File : Type)
        (env : Collaborators KeyStorage Key Alg Commands MachineKey File)
        (f : Commands → InstanceSetup → Except Error (String × Option MachineKey))
        (mig : FirstInstance),
      (∀ cmd, f cmd (mig.fillInstanceSetup env)
        = env.SetUpInstance cmd (mig.fillInstanceSetup env)) →
      FirstInstance.Execute { env with SetUpInstance := f } mig
        = FirstInstance.Execute env mig) := by
  refine ⟨?_, ?_⟩
  · intro KeyStorage Key Alg Commands MachineKey File env mig
    have he := fill_email env mig
    by_cases hn : env.Normalize mig.Org.Human.Email.Address = ""
    · cases hc : strings.Contains (mig.fillInstanceSetup env).Org.Human.Username "@"
      · rw [if_pos hn, hc] at he
        have he : (mig.fillInstanceSetup env).Org.Human.Email.Address
            = (mig.fillInstanceSetup env).Org.Human.Username ++ "@"
                ++ env.NewIAMDomainName mig.Org.Name mig.externalDomain := he
        refine ⟨fun h => absurd hn h, fun _ h => absurd h (by decide), fun _ _ => he, ?_, ?_⟩
        · rw [he]
          exact contains_at_ne_empty _ (contains_at _ _)
        · intro _
          rw [he]
          exact contains_at _ _
      · rw [if_pos hn, hc] at he
        have he : (mig.fillInstanceSetup env).Org.Human.Email.Address
            = (mig.fillInstanceSetup env).Org.Human.Username := he
        refine ⟨fun h => absurd hn h, fun _ _ => he, fun _ h => absurd h (by decide), ?_, ?_⟩
        · rw [he]
          exact contains_at_ne_empty _ hc
        · intro _
          rw [he]
          exact hc
    · rw [if_neg hn] at he
      refine ⟨fun _ => he, fun h => absurd h hn, fun h => absurd h hn, ?_, fun h => absurd h hn⟩
      rw [he]
      exact hn
  · intro KeyStorage Key Alg Commands MachineKey File env f mig h
    exact execute_consults env f mig h

/-- An instance of C39: the step of the scenario configures no email address; the address of
the filled-in setup is the username `zitadel-admin@zitadel.localhost`, which contains
`@`. -/
theorem first_instance_email_defaulted_witness :
    scenarioCollaborators.Normalize scenarioFirstInstance.Org.Human.Email.Address = "" ∧
      (scenarioFirstInstance.fillInstanceSetup scenarioCollaborators).Org.Human.Email.Address
        = "zitadel-admin@zitadel.localhost" ∧
      strings.Contains
        (scenarioFirstInstance.fillInstanceSetup scenarioCollaborators).Org.Human.Email.Address
        "@" = true :=
  ⟨rfl, rfl,
    (first_instance_email_defaulted.1 Unit Unit Unit Unit Unit Unit scenarioCollaborators
      scenarioFirstInstance).2.2.2.2 rfl⟩

end Zitadel
